import Mathlib

/-!
# A shallow embedding of the hand-written JavaScript syntax validator

The development follows the C sources `common.c`, `lexer.c`, `parser.c` and
`main.c`.

Conventions of the embedding

* A source text is a `List Nat` of byte values; `char` constants of the C code
  are written as their byte value with the character in a comment.
* `char` is a signed 8-bit type (x86-64 System V), so a byte `b ≥ 128` passed to
  a `uint32_t` parameter arrives as `b + 0xFFFFFF00` (`char_to_u32`), and
  `(uint8_t)ch` is the byte itself.
* `int`/`size_t` counters are natural numbers: sources shorter than `2^31`
  bytes are assumed, so no counter wraps.
* The C code mutates a `Lexer`/`Parser` through a pointer; here every function
  takes the state and returns the new state next to its C return value.
* `lexer->error` and `parser->error` point to the same `ErrorInfo` object; it
  is kept once, in `Lexer.error`.
* `malloc` is assumed to succeed.
* Every `while` loop is a recursive function (suffix `_loop`) on a fuel
  argument; the lexer loops are started with the number of unread bytes,
  which bounds their iterations (lemmas `…_loop_fuel`).
* The parser functions recurse on a fuel argument and return
  `Outcome.out_of_fuel` when it is used up; any other outcome is the same
  with more fuel (`all_fuel_mono`). Every call passes on one unit less, so the
  fuel of a run bounds the depth of its nested calls: it stands for the
  capacity of the C stack, which is finite, and `out_of_fuel` for the overflow
  of that stack. The loops of the parser are recursive functions as well, so a
  run may use more fuel than the C code has frames: `parse_javascript_string_halts`
  bounds the fuel that a run needs from above, `nested_source_starves` bounds
  the frames of nested parentheses from below.
-/

namespace JSC

/-! ## common.h / common.c -/

/-- Source position: `line` and `column` are 1-based, `offset` is 0-based. -/
structure Position where
  line : Nat
  column : Nat
  offset : Nat
  deriving DecidableEq, Repr

/-- Error codes (`ErrorCode`). -/
inductive ErrorCode where
  | ERROR_NONE
  | ERROR_LEXER_INVALID_CHAR
  | ERROR_LEXER_UNTERMINATED_STRING
  | ERROR_LEXER_UNTERMINATED_REGEX
  | ERROR_LEXER_INVALID_NUMBER
  | ERROR_LEXER_INVALID_UNICODE_ESCAPE
  | ERROR_PARSER_UNEXPECTED_TOKEN
  | ERROR_PARSER_EXPECTED_TOKEN
  | ERROR_PARSER_INVALID_ASSIGNMENT
  | ERROR_PARSER_MISSING_SEMICOLON
  | ERROR_PARSER_UNEXPECTED_EOF
  | ERROR_FILE_READ
  | ERROR_OUT_OF_MEMORY
  deriving DecidableEq, Repr

/-- Diagnostic record (`ErrorInfo`); `message` holds the bytes before the NUL. -/
structure ErrorInfo where
  code : ErrorCode
  position : Position
  message : List Nat
  deriving DecidableEq, Repr

/-- Bytes of an ASCII string literal of the C code. -/
def cstr (s : String) : List Nat := s.toList.map Char.toNat

/-- Value of a (signed) `char` holding byte `b` after conversion to `uint32_t`. -/
def char_to_u32 (b : Nat) : Nat := if b < 128 then b else b + 0xFFFFFF00

/-- Value of `(uint8_t)ch`. -/
def char_to_u8 (b : Nat) : Nat := b % 256

/-- C `isdigit` in the "C" locale. -/
def isdigit (c : Nat) : Bool := decide (48 ≤ c ∧ c ≤ 57)

/-- C `isxdigit` in the "C" locale. -/
def isxdigit (c : Nat) : Bool :=
  decide ((48 ≤ c ∧ c ≤ 57) ∨ (97 ≤ c ∧ c ≤ 102) ∨ (65 ≤ c ∧ c ≤ 70))

/-- C `isalpha` in the "C" locale. -/
def isalpha (c : Nat) : Bool := decide ((97 ≤ c ∧ c ≤ 122) ∨ (65 ≤ c ∧ c ≤ 90))

/-- C `tolower` in the "C" locale. -/
def tolower (c : Nat) : Nat := if 65 ≤ c ∧ c ≤ 90 then c + 32 else c

/-- `is_unicode_id_start(uint32_t ch)`. -/
def is_unicode_id_start (ch : Nat) : Bool :=
  if (ch ≥ 97 ∧ ch ≤ 122) ∨ (ch ≥ 65 ∧ ch ≤ 90) ∨ ch = 36 /- $ -/ ∨ ch = 95 /- _ -/ then true
  else if ch ≥ 0x80 then decide (ch ≥ 0x00AA ∧ ch ≤ 0xFFFF)
  else false

/-- `is_unicode_id_continue(uint32_t ch)`. -/
def is_unicode_id_continue (ch : Nat) : Bool :=
  if is_unicode_id_start ch || decide (ch ≥ 48 ∧ ch ≤ 57) then true
  else if ch = 0x200C ∨ ch = 0x200D then true
  else false

/-- `is_line_terminator(uint32_t ch)`. -/
def is_line_terminator (ch : Nat) : Bool :=
  decide (ch = 10 /- \n -/ ∨ ch = 13 /- \r -/ ∨ ch = 0x2028 ∨ ch = 0x2029)

/-- `is_whitespace(uint32_t ch)`. -/
def is_whitespace (ch : Nat) : Bool :=
  decide (ch = 32 /- space -/ ∨ ch = 9 /- \t -/ ∨ ch = 11 /- \v -/ ∨ ch = 12 /- \f -/ ∨
    ch = 0x00A0 ∨ ch = 0xFEFF ∨ (ch ≥ 0x2000 ∧ ch ≤ 0x200A))

/-- `set_error(error, code, pos, message)`: a null `error` is left alone;
`strncpy` copies the bytes of `message` before its first NUL, at most the 255
that fit before the terminating NUL. -/
def set_error (error : Option ErrorInfo) (code : ErrorCode) (pos : Position)
    (message : List Nat) : Option ErrorInfo :=
  match error with
  | none => none
  | some _ =>
    some { code := code, position := pos, message := (message.takeWhile (· ≠ 0)).take 255 }

/-! ## lexer.h -/

/-- Token kinds (`TokenType`), in the order of the C enumeration. -/
inductive TokenType where
  | TOKEN_EOF
  | TOKEN_ERROR
  | TOKEN_IDENTIFIER
  | TOKEN_NUMBER
  | TOKEN_STRING
  | TOKEN_TEMPLATE
  | TOKEN_REGEX
  | TOKEN_TRUE
  | TOKEN_FALSE
  | TOKEN_NULL
  | TOKEN_UNDEFINED
  | TOKEN_BREAK
  | TOKEN_CASE
  | TOKEN_CATCH
  | TOKEN_CLASS
  | TOKEN_CONST
  | TOKEN_CONTINUE
  | TOKEN_DEBUGGER
  | TOKEN_DEFAULT
  | TOKEN_DELETE
  | TOKEN_DO
  | TOKEN_ELSE
  | TOKEN_EXPORT
  | TOKEN_EXTENDS
  | TOKEN_FINALLY
  | TOKEN_FOR
  | TOKEN_FUNCTION
  | TOKEN_IF
  | TOKEN_IMPORT
  | TOKEN_IN
  | TOKEN_INSTANCEOF
  | TOKEN_LET
  | TOKEN_NEW
  | TOKEN_RETURN
  | TOKEN_SUPER
  | TOKEN_SWITCH
  | TOKEN_THIS
  | TOKEN_THROW
  | TOKEN_TRY
  | TOKEN_TYPEOF
  | TOKEN_VAR
  | TOKEN_VOID
  | TOKEN_WHILE
  | TOKEN_WITH
  | TOKEN_YIELD
  | TOKEN_ASYNC
  | TOKEN_AWAIT
  | TOKEN_OF
  | TOKEN_STATIC
  | TOKEN_GET
  | TOKEN_SET
  | TOKEN_LPAREN
  | TOKEN_RPAREN
  | TOKEN_LBRACE
  | TOKEN_RBRACE
  | TOKEN_LBRACKET
  | TOKEN_RBRACKET
  | TOKEN_SEMICOLON
  | TOKEN_COMMA
  | TOKEN_DOT
  | TOKEN_COLON
  | TOKEN_QUESTION
  | TOKEN_PLUS
  | TOKEN_MINUS
  | TOKEN_MULTIPLY
  | TOKEN_DIVIDE
  | TOKEN_MODULO
  | TOKEN_EXPONENT
  | TOKEN_INCREMENT
  | TOKEN_DECREMENT
  | TOKEN_ASSIGN
  | TOKEN_PLUS_ASSIGN
  | TOKEN_MINUS_ASSIGN
  | TOKEN_MULTIPLY_ASSIGN
  | TOKEN_DIVIDE_ASSIGN
  | TOKEN_MODULO_ASSIGN
  | TOKEN_EXPONENT_ASSIGN
  | TOKEN_LSHIFT_ASSIGN
  | TOKEN_RSHIFT_ASSIGN
  | TOKEN_URSHIFT_ASSIGN
  | TOKEN_AND_ASSIGN
  | TOKEN_OR_ASSIGN
  | TOKEN_XOR_ASSIGN
  | TOKEN_AND_AND_ASSIGN
  | TOKEN_OR_OR_ASSIGN
  | TOKEN_NULLISH_ASSIGN
  | TOKEN_EQ
  | TOKEN_NE
  | TOKEN_EQ_STRICT
  | TOKEN_NE_STRICT
  | TOKEN_LT
  | TOKEN_LE
  | TOKEN_GT
  | TOKEN_GE
  | TOKEN_AND
  | TOKEN_OR
  | TOKEN_NOT
  | TOKEN_NULLISH
  | TOKEN_BITWISE_AND
  | TOKEN_BITWISE_OR
  | TOKEN_BITWISE_XOR
  | TOKEN_BITWISE_NOT
  | TOKEN_LSHIFT
  | TOKEN_RSHIFT
  | TOKEN_URSHIFT
  | TOKEN_ARROW
  | TOKEN_SPREAD
  | TOKEN_OPTIONAL_CHAIN
  | TOKEN_AUTO_SEMICOLON
  deriving DecidableEq, Repr

/-- Token record (`Token`). `value` is `none` for a NULL `value` pointer. -/
structure Token where
  type : TokenType
  value : Option (List Nat)
  length : Nat
  start : Position
  end_ : Position
  preceded_by_newline : Bool
  deriving DecidableEq, Repr

/-- Lexer state (`Lexer`). `source_length` is the length of `source`. -/
structure Lexer where
  source : List Nat
  current : Nat
  position : Position
  error : Option ErrorInfo
  last_was_newline : Bool
  prev_token : Option Token
  deriving DecidableEq, Repr

/-- Field `source_length` of the C `Lexer`. -/
def Lexer.source_length (L : Lexer) : Nat := L.source.length

/-! ## lexer.c -/

/-- The keyword table `keywords[]` (without its NULL sentinel). -/
def keywords : List (List Nat × TokenType) :=
  [ (cstr "break", .TOKEN_BREAK), (cstr "case", .TOKEN_CASE), (cstr "catch", .TOKEN_CATCH),
    (cstr "class", .TOKEN_CLASS), (cstr "const", .TOKEN_CONST), (cstr "continue", .TOKEN_CONTINUE),
    (cstr "debugger", .TOKEN_DEBUGGER), (cstr "default", .TOKEN_DEFAULT),
    (cstr "delete", .TOKEN_DELETE), (cstr "do", .TOKEN_DO), (cstr "else", .TOKEN_ELSE),
    (cstr "export", .TOKEN_EXPORT), (cstr "extends", .TOKEN_EXTENDS),
    (cstr "finally", .TOKEN_FINALLY), (cstr "for", .TOKEN_FOR), (cstr "function", .TOKEN_FUNCTION),
    (cstr "if", .TOKEN_IF), (cstr "import", .TOKEN_IMPORT), (cstr "in", .TOKEN_IN),
    (cstr "instanceof", .TOKEN_INSTANCEOF), (cstr "let", .TOKEN_LET), (cstr "new", .TOKEN_NEW),
    (cstr "return", .TOKEN_RETURN), (cstr "super", .TOKEN_SUPER), (cstr "switch", .TOKEN_SWITCH),
    (cstr "this", .TOKEN_THIS), (cstr "throw", .TOKEN_THROW), (cstr "try", .TOKEN_TRY),
    (cstr "typeof", .TOKEN_TYPEOF), (cstr "var", .TOKEN_VAR), (cstr "void", .TOKEN_VOID),
    (cstr "while", .TOKEN_WHILE), (cstr "with", .TOKEN_WITH), (cstr "yield", .TOKEN_YIELD),
    (cstr "async", .TOKEN_ASYNC), (cstr "await", .TOKEN_AWAIT), (cstr "of", .TOKEN_OF),
    (cstr "static", .TOKEN_STATIC), (cstr "get", .TOKEN_GET), (cstr "set", .TOKEN_SET),
    (cstr "true", .TOKEN_TRUE), (cstr "false", .TOKEN_FALSE), (cstr "null", .TOKEN_NULL),
    (cstr "undefined", .TOKEN_UNDEFINED) ]

/-- The scan of `is_keyword` over a table: the first entry whose spelling has
length `len` and equals the first `len` bytes of `str`. -/
def is_keyword_scan (str : List Nat) (len : Nat) : List (List Nat × TokenType) → Option TokenType
  | [] => none
  | (kw, t) :: rest =>
    if kw.length = len ∧ kw = str.take len then some t else is_keyword_scan str len rest

/-- `is_keyword(str, len, &type)`: `some t` when it returns true and stores `t`,
`none` when it returns false (and stores nothing). -/
def is_keyword (str : List Nat) (len : Nat) : Option TokenType :=
  is_keyword_scan str len keywords

/-- `can_precede_regex(type)`. -/
def can_precede_regex (type : TokenType) : Bool :=
  match type with
  | .TOKEN_ASSIGN | .TOKEN_LPAREN | .TOKEN_LBRACKET | .TOKEN_NOT | .TOKEN_BITWISE_NOT
  | .TOKEN_AND | .TOKEN_OR | .TOKEN_QUESTION | .TOKEN_COMMA | .TOKEN_SEMICOLON
  | .TOKEN_COLON | .TOKEN_RETURN | .TOKEN_THROW | .TOKEN_LBRACE | .TOKEN_EQ | .TOKEN_NE
  | .TOKEN_EQ_STRICT | .TOKEN_NE_STRICT | .TOKEN_LT | .TOKEN_LE | .TOKEN_GT | .TOKEN_GE => true
  | _ => false

/-- `token_create`: the value is copied only when `value` is non-null and
`length > 0`. -/
def token_create (type : TokenType) (value : Option (List Nat)) (length : Nat)
    (start end_ : Position) (preceded_by_newline : Bool) : Token :=
  { type := type
    value := match value with
      | some v => if length > 0 then some (v.take length) else none
      | none => none
    length := length
    start := start
    end_ := end_
    preceded_by_newline := preceded_by_newline }

/-- `lexer_create(source, length, error)` with `length` the length of `source`. -/
def lexer_create (source : List Nat) (error : Option ErrorInfo) : Lexer :=
  { source := source
    current := 0
    position := { line := 1, column := 1, offset := 0 }
    error := error
    last_was_newline := false
    prev_token := none }

/-- `peek(lexer, offset)`. -/
def peek (L : Lexer) (offset : Nat) : Nat :=
  let pos := L.current + offset
  if pos ≥ L.source_length then 0 else L.source.getD pos 0

/-- `advance(lexer)`: the byte read and the new state. A `\r` takes a directly
following `\n` with it. -/
def advance (L : Lexer) : Nat × Lexer :=
  if L.current ≥ L.source_length then (0, L)
  else
    let ch := L.source.getD L.current 0
    let L1 : Lexer := { L with
      current := L.current + 1
      position := { L.position with offset := L.position.offset + 1 } }
    if ch = 10 /- \n -/ then
      (ch, { L1 with
        position := { L1.position with line := L1.position.line + 1, column := 1 }
        last_was_newline := true })
    else if ch = 13 /- \r -/ then
      let L2 : Lexer :=
        if peek L1 0 = 10 /- \n -/ then
          { L1 with
            current := L1.current + 1
            position := { L1.position with offset := L1.position.offset + 1 } }
        else L1
      (ch, { L2 with
        position := { L2.position with line := L2.position.line + 1, column := 1 }
        last_was_newline := true })
    else
      (ch, { L1 with position := { L1.position with column := L1.position.column + 1 } })

/-- The `while` loop of `skip_whitespace`. -/
def skip_whitespace_loop : Nat → Lexer → Lexer
  | 0, L => L
  | fuel + 1, L =>
    if L.current < L.source_length then
      let ch := peek L 0
      if is_whitespace (char_to_u32 ch) then skip_whitespace_loop fuel (advance L).2
      else if ch = 10 /- \n -/ ∨ ch = 13 /- \r -/ then skip_whitespace_loop fuel (advance L).2
      else L
    else L

/-- `skip_whitespace(lexer)`. -/
def skip_whitespace (L : Lexer) : Lexer :=
  skip_whitespace_loop (L.source_length - L.current) L

/-- The `while` loop of `skip_line_comment`. -/
def skip_line_comment_loop : Nat → Lexer → Lexer
  | 0, L => L
  | fuel + 1, L =>
    if L.current < L.source_length then
      let ch := peek L 0
      if is_line_terminator (char_to_u32 ch) then L
      else skip_line_comment_loop fuel (advance L).2
    else L

/-- `skip_line_comment(lexer)`. -/
def skip_line_comment (L : Lexer) : Lexer :=
  let L1 := (advance L).2
  let L2 := (advance L1).2
  skip_line_comment_loop (L2.source_length - L2.current) L2

/-- The `while` loop of `skip_block_comment`: `true` when it returns from
inside the loop at the closing star-slash, `false` when the loop runs to the
end of the source. -/
def skip_block_comment_loop : Nat → Lexer → Bool × Lexer
  | 0, L => (false, L)
  | fuel + 1, L =>
    if L.current < L.source_length then
      let ch := peek L 0
      if ch = 42 /- * -/ ∧ peek L 1 = 47 /- / -/ then
        (true, (advance (advance L).2).2)
      else skip_block_comment_loop fuel (advance L).2
    else (false, L)

/-- `skip_block_comment(lexer)`. -/
def skip_block_comment (L : Lexer) : Bool × Lexer :=
  let L1 := (advance L).2
  let L2 := (advance L1).2
  match skip_block_comment_loop (L2.source_length - L2.current) L2 with
  | (true, L3) => (true, L3)
  | (false, L3) =>
    (false, { L3 with
      error := set_error L3.error .ERROR_LEXER_UNTERMINATED_STRING L3.position
        (cstr "Unterminated block comment") })

/-- The `for` loop of `parse_unicode_escape` with `n` digits still to read. -/
def parse_unicode_escape_loop : Nat → Nat → Lexer → Option Nat × Lexer
  | 0, value, L => (some value, L)
  | n + 1, value, L =>
    let ch := peek L 0
    if !isxdigit ch then
      (none, { L with
        error := set_error L.error .ERROR_LEXER_INVALID_UNICODE_ESCAPE L.position
          (cstr "Invalid Unicode escape sequence") })
    else
      parse_unicode_escape_loop n
        (value * 16 + (if isdigit ch then ch - 48 else tolower ch - 97 + 10)) (advance L).2

/-- `parse_unicode_escape(lexer, &result)`: `some result` when it returns true. -/
def parse_unicode_escape (L : Lexer) : Option Nat × Lexer :=
  parse_unicode_escape_loop 4 0 (advance (advance L).2).2

/-- The `while` loop of `read_identifier`; `false` when the function returns
NULL from inside the loop. -/
def read_identifier_loop : Nat → Lexer → Bool × Lexer
  | 0, L => (true, L)
  | fuel + 1, L =>
    if L.current < L.source_length then
      let ch := peek L 0
      if ch = 92 /- \ -/ ∧ peek L 1 = 117 /- u -/ then
        match parse_unicode_escape L with
        | (none, L1) => (false, L1)
        | (some _, L1) => read_identifier_loop fuel L1
      else if is_unicode_id_continue (char_to_u8 ch) then
        read_identifier_loop fuel (advance L).2
      else (true, L)
    else (true, L)

/-- `read_identifier(lexer, start)`. -/
def read_identifier (L : Lexer) (start : Position) : Option Token × Lexer :=
  let start_pos := L.current - 1
  match read_identifier_loop (L.source_length - L.current) L with
  | (false, L1) => (none, L1)
  | (true, L1) =>
    let length := L1.current - start_pos
    let value := L1.source.drop start_pos
    let type := match is_keyword value length with
      | some t => t
      | none => TokenType.TOKEN_IDENTIFIER
    (some (token_create type (some value) length start L1.position L1.last_was_newline), L1)

/-- The loops `while (current < source_length && p(peek(lexer, 0))) advance(lexer);`
of `read_number` and `read_regex`. -/
def advance_while_loop (p : Nat → Bool) : Nat → Lexer → Lexer
  | 0, L => L
  | fuel + 1, L =>
    if L.current < L.source_length ∧ p (peek L 0) = true then
      advance_while_loop p fuel (advance L).2
    else L

/-- A digit-class loop started with the number of unread bytes as fuel. -/
def advance_while (p : Nat → Bool) (L : Lexer) : Lexer :=
  advance_while_loop p (L.source_length - L.current) L

/-- First block of `read_number`: the radix prefix and its digits, when the
literal starts with `0` (`first`) and a byte follows. -/
def read_number_radix (first : Nat) (L : Lexer) : Lexer :=
  if first = 48 /- 0 -/ ∧ L.current < L.source_length then
    let next := peek L 0
    if next = 120 /- x -/ ∨ next = 88 /- X -/ then
      advance_while isxdigit (advance L).2
    else if next = 98 /- b -/ ∨ next = 66 /- B -/ then
      advance_while (fun ch => decide (ch = 48 ∨ ch = 49)) (advance L).2
    else if next = 111 /- o -/ ∨ next = 79 /- O -/ then
      advance_while (fun ch => decide (ch ≥ 48 ∧ ch ≤ 55)) (advance L).2
    else L
  else L

/-- Third block of `read_number`: the fraction. -/
def read_number_fraction (L : Lexer) : Lexer :=
  if peek L 0 = 46 /- . -/ ∧ isdigit (peek L 1) = true then
    advance_while isdigit (advance L).2
  else L

/-- Fourth block of `read_number`: the exponent. -/
def read_number_exponent (L : Lexer) : Lexer :=
  if peek L 0 = 101 /- e -/ ∨ peek L 0 = 69 /- E -/ then
    let L1 := (advance L).2
    let L2 := if peek L1 0 = 43 /- + -/ ∨ peek L1 0 = 45 /- - -/ then (advance L1).2 else L1
    advance_while isdigit L2
  else L

/-- `read_number(lexer, start)`: radix block, integer digits, fraction,
exponent. -/
def read_number (L : Lexer) (start : Position) : Option Token × Lexer :=
  let start_pos := L.current - 1
  let first := L.source.getD start_pos 0
  let L1 := read_number_radix first L
  let L2 := advance_while isdigit L1
  let L3 := read_number_fraction L2
  let L4 := read_number_exponent L3
  let length := L4.current - start_pos
  (some (token_create .TOKEN_NUMBER (some (L4.source.drop start_pos)) length start L4.position
    L4.last_was_newline), L4)

/-- The `while` loop of `read_string`; `false` when the function returns NULL
(line terminator inside the literal). -/
def read_string_loop (quote : Nat) : Nat → Lexer → Bool × Lexer
  | 0, L => (true, L)
  | fuel + 1, L =>
    if L.current < L.source_length then
      let ch := peek L 0
      if ch = quote then (true, (advance L).2)
      else if ch = 92 /- \ -/ then
        let L1 := (advance L).2
        let L2 := if L1.current < L1.source_length then (advance L1).2 else L1
        read_string_loop quote fuel L2
      else if is_line_terminator (char_to_u32 ch) then
        (false, { L with
          error := set_error L.error .ERROR_LEXER_UNTERMINATED_STRING L.position
            (cstr "Unterminated string literal") })
      else read_string_loop quote fuel (advance L).2
    else (true, L)

/-- `read_string(lexer, start, quote)`. -/
def read_string (L : Lexer) (start : Position) (quote : Nat) : Option Token × Lexer :=
  let start_pos := L.current - 1
  match read_string_loop quote (L.source_length - L.current) L with
  | (false, L1) => (none, L1)
  | (true, L1) =>
    let length := L1.current - start_pos
    (some (token_create .TOKEN_STRING (some (L1.source.drop start_pos)) length start L1.position
      L1.last_was_newline), L1)

/-- The `while` loop of `read_template`. -/
def read_template_loop : Nat → Lexer → Lexer
  | 0, L => L
  | fuel + 1, L =>
    if L.current < L.source_length then
      let ch := peek L 0
      if ch = 96 /- backtick -/ then (advance L).2
      else if ch = 92 /- \ -/ then
        let L1 := (advance L).2
        let L2 := if L1.current < L1.source_length then (advance L1).2 else L1
        read_template_loop fuel L2
      else if ch = 36 /- $ -/ ∧ peek L 1 = 123 /- { -/ then
        read_template_loop fuel (advance (advance L).2).2
      else read_template_loop fuel (advance L).2
    else L

/-- `read_template(lexer, start)`. -/
def read_template (L : Lexer) (start : Position) : Option Token × Lexer :=
  let start_pos := L.current - 1
  let L1 := read_template_loop (L.source_length - L.current) L
  let length := L1.current - start_pos
  (some (token_create .TOKEN_TEMPLATE (some (L1.source.drop start_pos)) length start L1.position
    L1.last_was_newline), L1)

/-- The inner `while` loop of `read_regex` (character class). -/
def read_regex_class_loop : Nat → Lexer → Lexer
  | 0, L => L
  | fuel + 1, L =>
    if L.current < L.source_length then
      let cls_ch := peek L 0
      if cls_ch = 93 /- ] -/ then (advance L).2
      else if cls_ch = 92 /- \ -/ then
        let L1 := (advance L).2
        let L2 := if L1.current < L1.source_length then (advance L1).2 else L1
        read_regex_class_loop fuel L2
      else read_regex_class_loop fuel (advance L).2
    else L

/-- The outer `while` loop of `read_regex`; `false` when the function returns
NULL (line terminator inside the literal). -/
def read_regex_loop : Nat → Lexer → Bool × Lexer
  | 0, L => (true, L)
  | fuel + 1, L =>
    if L.current < L.source_length then
      let ch := peek L 0
      if ch = 47 /- / -/ then
        (true, advance_while isalpha (advance L).2)
      else if ch = 92 /- \ -/ then
        let L1 := (advance L).2
        let L2 := if L1.current < L1.source_length then (advance L1).2 else L1
        read_regex_loop fuel L2
      else if is_line_terminator (char_to_u32 ch) then
        (false, { L with
          error := set_error L.error .ERROR_LEXER_UNTERMINATED_REGEX L.position
            (cstr "Unterminated regular expression") })
      else if ch = 91 /- [ -/ then
        let L1 := (advance L).2
        read_regex_loop fuel (read_regex_class_loop (L1.source_length - L1.current) L1)
      else read_regex_loop fuel (advance L).2
    else (true, L)

/-- `read_regex(lexer, start)`. -/
def read_regex (L : Lexer) (start : Position) : Option Token × Lexer :=
  let start_pos := L.current - 1
  match read_regex_loop (L.source_length - L.current) L with
  | (false, L1) => (none, L1)
  | (true, L1) =>
    let length := L1.current - start_pos
    (some (token_create .TOKEN_REGEX (some (L1.source.drop start_pos)) length start L1.position
      L1.last_was_newline), L1)

/-- The leading `while` loop of `lexer_next_token` (whitespace and comments);
`false` when the function returns NULL for an unterminated block comment. -/
def lexer_next_token_trivia_loop : Nat → Lexer → Bool × Lexer
  | 0, L => (true, L)
  | fuel + 1, L =>
    if L.current < L.source_length then
      let L1 := skip_whitespace L
      if L1.current ≥ L1.source_length then (true, L1)
      else
        let ch := peek L1 0
        let next := peek L1 1
        if ch = 47 /- / -/ ∧ next = 47 /- / -/ then
          lexer_next_token_trivia_loop fuel (skip_line_comment L1)
        else if ch = 47 /- / -/ ∧ next = 42 /- * -/ then
          match skip_block_comment L1 with
          | (false, L2) => (false, L2)
          | (true, L2) => lexer_next_token_trivia_loop fuel L2
        else (true, L1)
    else (true, L)

/-- The statements `if (lexer->prev_token) token_destroy(...); lexer->prev_token =
token_create(token->type, token->value, ...)` that store a copy of `token`. -/
def save_prev_token (L : Lexer) (token : Token) : Lexer :=
  { L with prev_token := some (token_create token.type token.value token.length token.start
      token.end_ token.preceded_by_newline) }

/-- The common tail of the branches for identifiers, numbers, strings,
templates and regular expressions: set the newline flag and store the copy. -/
def finish_token (had_newline : Bool) (r : Option Token × Lexer) : Option Token × Lexer :=
  match r with
  | (some token, L) =>
    let token := { token with preceded_by_newline := had_newline }
    (some token, save_prev_token L token)
  | (none, L) => (none, L)

/-- `return token_create(type, lit, len, start, lexer->position, had_newline)` of
the multi-character operator branches (the previous-token slot is not touched). -/
def operator_token (L : Lexer) (type : TokenType) (lit : String) (len : Nat)
    (start : Position) (had_newline : Bool) : Option Token × Lexer :=
  (some (token_create type (some (cstr lit)) len start L.position had_newline), L)

/-- The cases of the final `switch (ch)` other than the slash and `default`. -/
def single_char_type (ch : Nat) : Option TokenType :=
  if ch = 40 then some .TOKEN_LPAREN
  else if ch = 41 then some .TOKEN_RPAREN
  else if ch = 123 then some .TOKEN_LBRACE
  else if ch = 125 then some .TOKEN_RBRACE
  else if ch = 91 then some .TOKEN_LBRACKET
  else if ch = 93 then some .TOKEN_RBRACKET
  else if ch = 59 then some .TOKEN_SEMICOLON
  else if ch = 44 then some .TOKEN_COMMA
  else if ch = 46 then some .TOKEN_DOT
  else if ch = 58 then some .TOKEN_COLON
  else if ch = 63 then some .TOKEN_QUESTION
  else if ch = 43 then some .TOKEN_PLUS
  else if ch = 45 then some .TOKEN_MINUS
  else if ch = 42 then some .TOKEN_MULTIPLY
  else if ch = 37 then some .TOKEN_MODULO
  else if ch = 61 then some .TOKEN_ASSIGN
  else if ch = 60 then some .TOKEN_LT
  else if ch = 62 then some .TOKEN_GT
  else if ch = 33 then some .TOKEN_NOT
  else if ch = 38 then some .TOKEN_BITWISE_AND
  else if ch = 124 then some .TOKEN_BITWISE_OR
  else if ch = 94 then some .TOKEN_BITWISE_XOR
  else if ch = 126 then some .TOKEN_BITWISE_NOT
  else none

/-- The condition `lexer->prev_token && can_precede_regex(lexer->prev_token->type)`. -/
def prev_permits_regex (L : Lexer) : Bool :=
  match L.prev_token with
  | some p => can_precede_regex p.type
  | none => false

/-- The final `switch (ch)` of `lexer_next_token` and the code after it. -/
def lexer_next_token_single (L : Lexer) (ch : Nat) (start : Position) (had_newline : Bool) :
    Option Token × Lexer :=
  let emit (type : TokenType) : Option Token × Lexer :=
    let token := token_create type (some [ch, 0]) 1 start L.position had_newline
    (some token, save_prev_token L token)
  if ch = 47 /- / -/ then
    if prev_permits_regex L = true then
      finish_token had_newline (read_regex L start)
    else emit .TOKEN_DIVIDE
  else
    match single_char_type ch with
    | some type => emit type
    | none =>
      (none, { L with
        error := set_error L.error .ERROR_LEXER_INVALID_CHAR start
          (cstr "Unexpected character: " ++ [39, ch, 39]) })

/-- The operator part of `lexer_next_token` (after the template branch): `ch`
is the byte just read, `L` the state after reading it. -/
def lexer_next_token_operator (L : Lexer) (ch : Nat) (start : Position) (had_newline : Bool) :
    Option Token × Lexer :=
  let next := peek L 0
  let next2 := peek L 1
  /- three-character operators -/
  if ch = 62 ∧ next = 62 ∧ next2 = 62 then
    let L1 := (advance (advance L).2).2
    if peek L1 0 = 61 then
      operator_token (advance L1).2 .TOKEN_URSHIFT_ASSIGN ">>>=" 4 start had_newline
    else operator_token L1 .TOKEN_URSHIFT ">>>" 3 start had_newline
  else if ch = 61 ∧ next = 61 ∧ next2 = 61 then
    operator_token (advance (advance L).2).2 .TOKEN_EQ_STRICT "===" 3 start had_newline
  else if ch = 33 ∧ next = 61 ∧ next2 = 61 then
    operator_token (advance (advance L).2).2 .TOKEN_NE_STRICT "!==" 3 start had_newline
  else if ch = 46 ∧ next = 46 ∧ next2 = 46 then
    operator_token (advance (advance L).2).2 .TOKEN_SPREAD "..." 3 start had_newline
  else if ch = 42 ∧ next = 42 ∧ next2 = 61 then
    operator_token (advance (advance L).2).2 .TOKEN_EXPONENT_ASSIGN "**=" 3 start had_newline
  else if ch = 38 ∧ next = 38 ∧ next2 = 61 then
    operator_token (advance (advance L).2).2 .TOKEN_AND_AND_ASSIGN "&&=" 3 start had_newline
  else if ch = 124 ∧ next = 124 ∧ next2 = 61 then
    operator_token (advance (advance L).2).2 .TOKEN_OR_OR_ASSIGN "||=" 3 start had_newline
  else if ch = 63 ∧ next = 63 ∧ next2 = 61 then
    operator_token (advance (advance L).2).2 .TOKEN_NULLISH_ASSIGN "??=" 3 start had_newline
  /- two-character operators -/
  else if ch = 61 ∧ next = 61 then
    operator_token (advance L).2 .TOKEN_EQ "==" 2 start had_newline
  else if ch = 33 ∧ next = 61 then
    operator_token (advance L).2 .TOKEN_NE "!=" 2 start had_newline
  else if ch = 60 ∧ next = 61 then
    operator_token (advance L).2 .TOKEN_LE "<=" 2 start had_newline
  else if ch = 62 ∧ next = 61 then
    operator_token (advance L).2 .TOKEN_GE ">=" 2 start had_newline
  else if ch = 60 ∧ next = 60 then
    let L1 := (advance L).2
    if peek L1 0 = 61 then
      operator_token (advance L1).2 .TOKEN_LSHIFT_ASSIGN "<<=" 3 start had_newline
    else operator_token L1 .TOKEN_LSHIFT "<<" 2 start had_newline
  else if ch = 62 ∧ next = 62 then
    let L1 := (advance L).2
    if peek L1 0 = 61 then
      operator_token (advance L1).2 .TOKEN_RSHIFT_ASSIGN ">>=" 3 start had_newline
    else operator_token L1 .TOKEN_RSHIFT ">>" 2 start had_newline
  else if ch = 38 ∧ next = 38 then
    operator_token (advance L).2 .TOKEN_AND "&&" 2 start had_newline
  else if ch = 124 ∧ next = 124 then
    operator_token (advance L).2 .TOKEN_OR "||" 2 start had_newline
  else if ch = 63 ∧ next = 63 then
    operator_token (advance L).2 .TOKEN_NULLISH "??" 2 start had_newline
  else if ch = 43 ∧ next = 43 then
    operator_token (advance L).2 .TOKEN_INCREMENT "++" 2 start had_newline
  else if ch = 45 ∧ next = 45 then
    operator_token (advance L).2 .TOKEN_DECREMENT "--" 2 start had_newline
  else if ch = 42 ∧ next = 42 then
    operator_token (advance L).2 .TOKEN_EXPONENT "**" 2 start had_newline
  else if ch = 61 ∧ next = 62 then
    operator_token (advance L).2 .TOKEN_ARROW "=>" 2 start had_newline
  else if ch = 63 ∧ next = 46 then
    operator_token (advance L).2 .TOKEN_OPTIONAL_CHAIN "?." 2 start had_newline
  else if ch = 43 ∧ next = 61 then
    operator_token (advance L).2 .TOKEN_PLUS_ASSIGN "+=" 2 start had_newline
  else if ch = 45 ∧ next = 61 then
    operator_token (advance L).2 .TOKEN_MINUS_ASSIGN "-=" 2 start had_newline
  else if ch = 42 ∧ next = 61 then
    operator_token (advance L).2 .TOKEN_MULTIPLY_ASSIGN "*=" 2 start had_newline
  else if ch = 47 ∧ next = 61 then
    operator_token (advance L).2 .TOKEN_DIVIDE_ASSIGN "/=" 2 start had_newline
  else if ch = 37 ∧ next = 61 then
    operator_token (advance L).2 .TOKEN_MODULO_ASSIGN "%=" 2 start had_newline
  else if ch = 38 ∧ next = 61 then
    operator_token (advance L).2 .TOKEN_AND_ASSIGN "&=" 2 start had_newline
  else if ch = 124 ∧ next = 61 then
    operator_token (advance L).2 .TOKEN_OR_ASSIGN "|=" 2 start had_newline
  else if ch = 94 ∧ next = 61 then
    operator_token (advance L).2 .TOKEN_XOR_ASSIGN "^=" 2 start had_newline
  /- one-character operators -/
  else lexer_next_token_single L ch start had_newline

/-- `lexer_next_token(lexer)`: the token returned (`none` for NULL) and the new
lexer state. -/
def lexer_next_token (L : Lexer) : Option Token × Lexer :=
  match lexer_next_token_trivia_loop (L.source_length - L.current) L with
  | (false, L1) => (none, L1)
  | (true, L1) =>
    let had_newline := L1.last_was_newline
    let L2 : Lexer := { L1 with last_was_newline := false }
    if L2.current ≥ L2.source_length then
      (some (token_create .TOKEN_EOF none 0 L2.position L2.position had_newline), L2)
    else
      let start := L2.position
      let ch := (advance L2).1
      let L3 := (advance L2).2
      if is_unicode_id_start (char_to_u8 ch) = true ∨ ch = 36 /- $ -/ then
        finish_token had_newline (read_identifier L3 start)
      else if isdigit ch = true then
        finish_token had_newline (read_number L3 start)
      else if ch = 34 /- " -/ ∨ ch = 39 /- ' -/ then
        finish_token had_newline (read_string L3 start ch)
      else if ch = 96 /- backtick -/ then
        finish_token had_newline (read_template L3 start)
      else lexer_next_token_operator L3 ch start had_newline

/-- Token kinds, newline flags and lexemes of the first `n` calls of
`lexer_next_token` (a NULL result is `none`). -/
def lex_tokens : Nat → Lexer → List (Option (TokenType × Bool × Nat))
  | 0, _ => []
  | n + 1, L =>
    let r := lexer_next_token L
    (r.1.map fun t => (t.type, t.preceded_by_newline, t.length)) :: lex_tokens n r.2

/-! ## parser.h / parser.c -/

/-- `MAX_RECURSION_DEPTH`. -/
def MAX_RECURSION_DEPTH : Int := 1000

/-- Parser state (`Parser`). The `error` pointer is `lexer.error`. -/
structure Parser where
  lexer : Lexer
  current_token : Option Token
  prev_token : Option Token
  asi_allowed : Bool
  depth : Int
  deriving DecidableEq, Repr

/-- How a call of a `bool`-valued parser function ends: it returns `b` in state
`P`, or it dereferences a NULL token pointer in state `P` (undefined behaviour
in C, a crash in practice), or the fuel is used up: the nested calls go deeper
than the bound that the fuel sets. For the C program, whose stack is finite,
that is the stack overflow; the parser has no other bound on the depth of its
calls than the counter `depth`. -/
inductive Outcome where
  | ret (b : Bool) (P : Parser)
  | null_deref (P : Parser)
  | out_of_fuel
  deriving DecidableEq, Repr

/-- The pattern `if (!f(parser)) return false;` followed by the code `k`. -/
def Outcome.andThen (r : Outcome) (k : Parser → Outcome) : Outcome :=
  match r with
  | .ret true P => k P
  | .ret false P => .ret false P
  | .null_deref P => .null_deref P
  | .out_of_fuel => .out_of_fuel

/-- An unguarded read `parser->current_token->field`. -/
def with_current (P : Parser) (k : Token → Outcome) : Outcome :=
  match P.current_token with
  | some t => k t
  | none => .null_deref P

/-- `set_error(parser->error, code, pos, message)` on the shared error record. -/
def parser_set_error (P : Parser) (code : ErrorCode) (pos : Position) (message : List Nat) :
    Parser :=
  { P with lexer := { P.lexer with error := set_error P.lexer.error code pos message } }

/-- Decimal text of a C `int` printed with `%d`. -/
def int_text (i : Int) : List Nat := cstr (toString i)

/-- `parser_advance(parser)`. -/
def parser_advance (P : Parser) : Bool × Parser :=
  let P1 : Parser :=
    match P.current_token with
    | some _ => { P with prev_token := P.current_token }
    | none => P
  let r := lexer_next_token P1.lexer
  let P2 : Parser := { P1 with current_token := r.1, lexer := r.2 }
  match P2.current_token with
  | none => (false, P2)
  | some t => (decide (t.type ≠ .TOKEN_ERROR), P2)

/-- `parser_create(lexer, error)`. -/
def parser_create (lexer : Lexer) : Parser :=
  (parser_advance
    { lexer := lexer, current_token := none, prev_token := none, asi_allowed := true,
      depth := 0 }).2

/-- `parser_check(parser, type)`. -/
def parser_check (P : Parser) (type : TokenType) : Bool :=
  match P.current_token with
  | none => false
  | some t => decide (t.type = type)

/-- `parser_match(parser, type)`. -/
def parser_match (P : Parser) (type : TokenType) : Bool × Parser :=
  if parser_check P type = true then (true, (parser_advance P).2) else (false, P)

/-- `parser_expect(parser, type)`. With a NULL current token the position is
read through `parser->prev_token`. -/
def parser_expect (P : Parser) (type : TokenType) : Outcome :=
  if parser_check P type = true then .ret true (parser_advance P).2
  else
    let msg := cstr "Expected token type " ++ int_text type.toCtorIdx ++ cstr ", got " ++
      int_text (match P.current_token with
        | some t => (t.type.toCtorIdx : Int)
        | none => -1)
    match P.current_token with
    | some t => .ret false (parser_set_error P .ERROR_PARSER_EXPECTED_TOKEN t.start msg)
    | none =>
      match P.prev_token with
      | some p => .ret false (parser_set_error P .ERROR_PARSER_EXPECTED_TOKEN p.end_ msg)
      | none => .null_deref P

/-- `parser_should_insert_semicolon(parser, prev_type)`. -/
def parser_should_insert_semicolon (P : Parser) (prev_type : TokenType) : Bool :=
  match P.current_token with
  | none => true
  | some t =>
    if t.preceded_by_newline = true then true
    else if t.type = .TOKEN_RBRACE ∨ t.type = .TOKEN_EOF then true
    else
      match prev_type with
      | .TOKEN_RETURN | .TOKEN_BREAK | .TOKEN_CONTINUE | .TOKEN_THROW =>
        if t.preceded_by_newline = true then true else false
      | _ => false

/-- `parser_check_asi(parser)`. -/
def parser_check_asi (P : Parser) : Bool :=
  match P.current_token with
  | none => true
  | some t =>
    if t.type = .TOKEN_SEMICOLON then true
    else
      let prev_type := match P.prev_token with
        | some p => p.type
        | none => TokenType.TOKEN_EOF
      parser_should_insert_semicolon P prev_type

/-- `parser_consume_semicolon(parser)`. -/
def parser_consume_semicolon (P : Parser) : Outcome :=
  if parser_check P .TOKEN_SEMICOLON = true then .ret true (parser_advance P).2
  else if parser_check_asi P = true then .ret true P
  else
    with_current P fun t =>
      .ret false (parser_set_error P .ERROR_PARSER_MISSING_SEMICOLON t.start
        (cstr "Missing semicolon"))

/-- `is_assignment_operator(type)`. -/
def is_assignment_operator (type : TokenType) : Bool :=
  match type with
  | .TOKEN_ASSIGN | .TOKEN_PLUS_ASSIGN | .TOKEN_MINUS_ASSIGN | .TOKEN_MULTIPLY_ASSIGN
  | .TOKEN_DIVIDE_ASSIGN | .TOKEN_MODULO_ASSIGN | .TOKEN_EXPONENT_ASSIGN | .TOKEN_LSHIFT_ASSIGN
  | .TOKEN_RSHIFT_ASSIGN | .TOKEN_URSHIFT_ASSIGN | .TOKEN_AND_ASSIGN | .TOKEN_OR_ASSIGN
  | .TOKEN_XOR_ASSIGN | .TOKEN_AND_AND_ASSIGN | .TOKEN_OR_OR_ASSIGN | .TOKEN_NULLISH_ASSIGN => true
  | _ => false

/-- `is_unary_operator(type)`. -/
def is_unary_operator (type : TokenType) : Bool :=
  match type with
  | .TOKEN_PLUS | .TOKEN_MINUS | .TOKEN_NOT | .TOKEN_BITWISE_NOT | .TOKEN_INCREMENT
  | .TOKEN_DECREMENT | .TOKEN_TYPEOF | .TOKEN_VOID | .TOKEN_DELETE => true
  | _ => false

/-- `is_statement_start(type)`. -/
def is_statement_start (type : TokenType) : Bool :=
  match type with
  | .TOKEN_VAR | .TOKEN_LET | .TOKEN_CONST | .TOKEN_FUNCTION | .TOKEN_CLASS | .TOKEN_IF
  | .TOKEN_WHILE | .TOKEN_DO | .TOKEN_FOR | .TOKEN_SWITCH | .TOKEN_RETURN | .TOKEN_BREAK
  | .TOKEN_CONTINUE | .TOKEN_THROW | .TOKEN_TRY | .TOKEN_LBRACE | .TOKEN_SEMICOLON => true
  | _ => false

/-- The loops `while (!parser_check(parser, stop) && !parser_check(parser, TOKEN_EOF))
parser_advance(parser);` that skip a parameter list in a class body or an
object-literal method. -/
def skip_until_loop (stop : TokenType) : Nat → Parser → Outcome
  | 0, _ => .out_of_fuel
  | n + 1, P =>
    if parser_check P stop = false ∧ parser_check P .TOKEN_EOF = false then
      skip_until_loop stop n (parser_advance P).2
    else .ret true P

/-- The loops `while (parser_match(parser, TOKEN_COMMA)) { if (!parser_expect(parser,
TOKEN_IDENTIFIER)) return false; }` of a formal parameter list. -/
def identifier_list_loop : Nat → Parser → Outcome
  | 0, _ => .out_of_fuel
  | n + 1, P =>
    let m := parser_match P .TOKEN_COMMA
    if m.1 = true then
      (parser_expect m.2 .TOKEN_IDENTIFIER).andThen fun P => identifier_list_loop n P
    else .ret true m.2

/-- The statement `parser->depth--; return result;` at the end of `parse_statement`. -/
def leave_statement (r : Outcome) : Outcome :=
  match r with
  | .ret b P => .ret b { P with depth := P.depth - 1 }
  | .null_deref P => .null_deref P
  | .out_of_fuel => .out_of_fuel

mutual

/-- `parse_statement_list(parser)`: the function is its `while` loop. -/
def parse_statement_list : Nat → Parser → Outcome
  | 0, _ => .out_of_fuel
  | n + 1, P =>
    match P.current_token with
    | none => .ret true P
    | some t =>
      if t.type ≠ .TOKEN_EOF ∧ t.type ≠ .TOKEN_RBRACE then
        (parse_statement n P).andThen fun P => parse_statement_list n P
      else .ret true P

/-- `parse_statement(parser)`. -/
def parse_statement : Nat → Parser → Outcome
  | 0, _ => .out_of_fuel
  | n + 1, P =>
    let P : Parser := { P with depth := P.depth + 1 }
    if P.depth > MAX_RECURSION_DEPTH then
      with_current P fun t =>
        .ret false (parser_set_error P .ERROR_PARSER_UNEXPECTED_TOKEN t.start
          (cstr "Maximum recursion depth exceeded"))
    else
      match P.current_token with
      | none => .ret false P
      | some t =>
        leave_statement
          (match t.type with
          | .TOKEN_VAR | .TOKEN_LET | .TOKEN_CONST => parse_variable_declaration n P
          | .TOKEN_FUNCTION => parse_function_declaration n P
          | .TOKEN_CLASS => parse_class_declaration n P
          | .TOKEN_IF => parse_if_statement n P
          | .TOKEN_WHILE => parse_while_statement n P
          | .TOKEN_DO => parse_do_while_statement n P
          | .TOKEN_FOR => parse_for_statement n P
          | .TOKEN_SWITCH => parse_switch_statement n P
          | .TOKEN_RETURN => parse_return_statement n P
          | .TOKEN_BREAK => parse_break_statement n P
          | .TOKEN_CONTINUE => parse_continue_statement n P
          | .TOKEN_THROW => parse_throw_statement n P
          | .TOKEN_TRY => parse_try_statement n P
          | .TOKEN_LBRACE => parse_block_statement n P
          | .TOKEN_SEMICOLON => .ret true (parser_advance P).2
          | _ => parse_expression_statement n P)

/-- The optional initializer `if (parser_match(parser, TOKEN_ASSIGN)) { if
(!parse_assignment_expression(parser)) return false; }` of a declarator. -/
def parse_initializer : Nat → Parser → Outcome
  | 0, _ => .out_of_fuel
  | n + 1, P =>
    let m := parser_match P .TOKEN_ASSIGN
    if m.1 = true then parse_assignment_expression n m.2 else .ret true m.2

/-- The `while (parser_match(parser, TOKEN_COMMA))` loop of
`parse_variable_declaration`. -/
def parse_variable_declaration_loop : Nat → Parser → Outcome
  | 0, _ => .out_of_fuel
  | n + 1, P =>
    let m := parser_match P .TOKEN_COMMA
    if m.1 = true then
      (parser_expect m.2 .TOKEN_IDENTIFIER).andThen fun P =>
      (parse_initializer n P).andThen fun P =>
      parse_variable_declaration_loop n P
    else .ret true m.2

/-- `parse_variable_declaration(parser)`. -/
def parse_variable_declaration : Nat → Parser → Outcome
  | 0, _ => .out_of_fuel
  | n + 1, P =>
    let P := (parser_advance P).2
    (parser_expect P .TOKEN_IDENTIFIER).andThen fun P =>
    (parse_initializer n P).andThen fun P =>
    (parse_variable_declaration_loop n P).andThen fun P =>
    parser_consume_semicolon P

/-- `parse_function_declaration(parser)`. -/
def parse_function_declaration : Nat → Parser → Outcome
  | 0, _ => .out_of_fuel
  | n + 1, P =>
    let P := (parser_advance P).2
    let P := if parser_check P .TOKEN_IDENTIFIER = true then (parser_advance P).2 else P
    (parser_expect P .TOKEN_LPAREN).andThen fun P =>
    (if parser_check P .TOKEN_RPAREN = false then
      (parser_expect P .TOKEN_IDENTIFIER).andThen fun P => identifier_list_loop n P
     else .ret true P).andThen fun P =>
    (parser_expect P .TOKEN_RPAREN).andThen fun P =>
    parse_block_statement n P

/-- The member loop `while (!parser_check(parser, TOKEN_RBRACE) &&
!parser_check(parser, TOKEN_EOF))` of `parse_class_declaration`. -/
def parse_class_declaration_loop : Nat → Parser → Outcome
  | 0, _ => .out_of_fuel
  | n + 1, P =>
    if parser_check P .TOKEN_RBRACE = false ∧ parser_check P .TOKEN_EOF = false then
      if parser_check P .TOKEN_IDENTIFIER = true ∨ parser_check P .TOKEN_STATIC = true ∨
          parser_check P .TOKEN_GET = true ∨ parser_check P .TOKEN_SET = true then
        let P := (parser_advance P).2
        let m := parser_match P .TOKEN_LPAREN
        if m.1 = true then
          (skip_until_loop .TOKEN_RPAREN n m.2).andThen fun P =>
          (parser_expect P .TOKEN_RPAREN).andThen fun P =>
          (parse_block_statement n P).andThen fun P =>
          parse_class_declaration_loop n P
        else parse_class_declaration_loop n m.2
      else parse_class_declaration_loop n (parser_advance P).2
    else .ret true P

/-- `parse_class_declaration(parser)`. -/
def parse_class_declaration : Nat → Parser → Outcome
  | 0, _ => .out_of_fuel
  | n + 1, P =>
    let P := (parser_advance P).2
    (parser_expect P .TOKEN_IDENTIFIER).andThen fun P =>
    (let m := parser_match P .TOKEN_EXTENDS
     if m.1 = true then parser_expect m.2 .TOKEN_IDENTIFIER else .ret true m.2).andThen fun P =>
    (parser_expect P .TOKEN_LBRACE).andThen fun P =>
    (parse_class_declaration_loop n P).andThen fun P =>
    parser_expect P .TOKEN_RBRACE

/-- `parse_expression_statement(parser)`. -/
def parse_expression_statement : Nat → Parser → Outcome
  | 0, _ => .out_of_fuel
  | n + 1, P =>
    (parse_expression n P).andThen fun P => parser_consume_semicolon P

/-- `parse_if_statement(parser)`. -/
def parse_if_statement : Nat → Parser → Outcome
  | 0, _ => .out_of_fuel
  | n + 1, P =>
    let P := (parser_advance P).2
    (parser_expect P .TOKEN_LPAREN).andThen fun P =>
    (parse_expression n P).andThen fun P =>
    (parser_expect P .TOKEN_RPAREN).andThen fun P =>
    (parse_statement n P).andThen fun P =>
    let m := parser_match P .TOKEN_ELSE
    if m.1 = true then (parse_statement n m.2).andThen fun P => .ret true P
    else .ret true m.2

/-- `parse_while_statement(parser)`. -/
def parse_while_statement : Nat → Parser → Outcome
  | 0, _ => .out_of_fuel
  | n + 1, P =>
    let P := (parser_advance P).2
    (parser_expect P .TOKEN_LPAREN).andThen fun P =>
    (parse_expression n P).andThen fun P =>
    (parser_expect P .TOKEN_RPAREN).andThen fun P =>
    parse_statement n P

/-- `parse_do_while_statement(parser)`. -/
def parse_do_while_statement : Nat → Parser → Outcome
  | 0, _ => .out_of_fuel
  | n + 1, P =>
    let P := (parser_advance P).2
    (parse_statement n P).andThen fun P =>
    (parser_expect P .TOKEN_WHILE).andThen fun P =>
    (parser_expect P .TOKEN_LPAREN).andThen fun P =>
    (parse_expression n P).andThen fun P =>
    (parser_expect P .TOKEN_RPAREN).andThen fun P =>
    parser_consume_semicolon P

/-- The part of `parse_for_statement` from the first `parser_expect(parser,
TOKEN_SEMICOLON)` to the end. -/
def parse_for_statement_rest : Nat → Parser → Outcome
  | 0, _ => .out_of_fuel
  | n + 1, P =>
    (parser_expect P .TOKEN_SEMICOLON).andThen fun P =>
    (if parser_check P .TOKEN_SEMICOLON = false then parse_expression n P
     else .ret true P).andThen fun P =>
    (parser_expect P .TOKEN_SEMICOLON).andThen fun P =>
    (if parser_check P .TOKEN_RPAREN = false then parse_expression n P
     else .ret true P).andThen fun P =>
    (parser_expect P .TOKEN_RPAREN).andThen fun P =>
    parse_statement n P

/-- `parse_for_statement(parser)`. -/
def parse_for_statement : Nat → Parser → Outcome
  | 0, _ => .out_of_fuel
  | n + 1, P =>
    let P := (parser_advance P).2
    (parser_expect P .TOKEN_LPAREN).andThen fun P =>
    if parser_check P .TOKEN_SEMICOLON = false then
      if parser_check P .TOKEN_VAR = true ∨ parser_check P .TOKEN_LET = true ∨
          parser_check P .TOKEN_CONST = true then
        let P := (parser_advance P).2
        (parser_expect P .TOKEN_IDENTIFIER).andThen fun P =>
        if parser_check P .TOKEN_IN = true ∨ parser_check P .TOKEN_OF = true then
          let P := (parser_advance P).2
          (parse_expression n P).andThen fun P =>
          (parser_expect P .TOKEN_RPAREN).andThen fun P =>
          parse_statement n P
        else
          (parse_initializer n P).andThen fun P => parse_for_statement_rest n P
      else
        (parse_expression n P).andThen fun P => parse_for_statement_rest n P
    else parse_for_statement_rest n P

/-- The statement loop `while (!parser_check(parser, TOKEN_CASE) && ...)` inside
a `case` clause of `parse_switch_statement`. -/
def parse_switch_body_loop : Nat → Parser → Outcome
  | 0, _ => .out_of_fuel
  | n + 1, P =>
    if parser_check P .TOKEN_CASE = false ∧ parser_check P .TOKEN_DEFAULT = false ∧
        parser_check P .TOKEN_RBRACE = false ∧ parser_check P .TOKEN_EOF = false then
      (parse_statement n P).andThen fun P => parse_switch_body_loop n P
    else .ret true P

/-- The clause loop `while (parser_check(parser, TOKEN_CASE) || parser_check(parser,
TOKEN_DEFAULT))` of `parse_switch_statement`. -/
def parse_switch_statement_loop : Nat → Parser → Outcome
  | 0, _ => .out_of_fuel
  | n + 1, P =>
    if parser_check P .TOKEN_CASE = true ∨ parser_check P .TOKEN_DEFAULT = true then
      let P := (parser_advance P).2
      match P.prev_token with
      | none => .null_deref P
      | some p =>
        (if p.type = .TOKEN_CASE then parse_expression n P else .ret true P).andThen fun P =>
        (parser_expect P .TOKEN_COLON).andThen fun P =>
        (parse_switch_body_loop n P).andThen fun P =>
        parse_switch_statement_loop n P
    else .ret true P

/-- `parse_switch_statement(parser)`. -/
def parse_switch_statement : Nat → Parser → Outcome
  | 0, _ => .out_of_fuel
  | n + 1, P =>
    let P := (parser_advance P).2
    (parser_expect P .TOKEN_LPAREN).andThen fun P =>
    (parse_expression n P).andThen fun P =>
    (parser_expect P .TOKEN_RPAREN).andThen fun P =>
    (parser_expect P .TOKEN_LBRACE).andThen fun P =>
    (parse_switch_statement_loop n P).andThen fun P =>
    parser_expect P .TOKEN_RBRACE

/-- `parse_return_statement(parser)`. -/
def parse_return_statement : Nat → Parser → Outcome
  | 0, _ => .out_of_fuel
  | n + 1, P =>
    let P := (parser_advance P).2
    with_current P fun t =>
      if t.preceded_by_newline = true then .ret true P
      else
        (if parser_check P .TOKEN_SEMICOLON = false ∧ parser_check P .TOKEN_RBRACE = false ∧
            parser_check P .TOKEN_EOF = false then parse_expression n P
         else .ret true P).andThen fun P =>
        parser_consume_semicolon P

/-- `parse_break_statement(parser)`. -/
def parse_break_statement : Nat → Parser → Outcome
  | 0, _ => .out_of_fuel
  | _ + 1, P =>
    let P := (parser_advance P).2
    with_current P fun t =>
      if t.preceded_by_newline = true then .ret true P
      else
        let P := if parser_check P .TOKEN_IDENTIFIER = true then (parser_advance P).2 else P
        parser_consume_semicolon P

/-- `parse_continue_statement(parser)`. -/
def parse_continue_statement : Nat → Parser → Outcome
  | 0, _ => .out_of_fuel
  | _ + 1, P =>
    let P := (parser_advance P).2
    with_current P fun t =>
      if t.preceded_by_newline = true then .ret true P
      else
        let P := if parser_check P .TOKEN_IDENTIFIER = true then (parser_advance P).2 else P
        parser_consume_semicolon P

/-- `parse_throw_statement(parser)`. -/
def parse_throw_statement : Nat → Parser → Outcome
  | 0, _ => .out_of_fuel
  | n + 1, P =>
    let P := (parser_advance P).2
    with_current P fun t =>
      if t.preceded_by_newline = true then
        .ret false (parser_set_error P .ERROR_PARSER_UNEXPECTED_TOKEN t.start
          (cstr "Line break is not allowed between 'throw' and its expression"))
      else
        (parse_expression n P).andThen fun P => parser_consume_semicolon P

/-- `parse_try_statement(parser)`. -/
def parse_try_statement : Nat → Parser → Outcome
  | 0, _ => .out_of_fuel
  | n + 1, P =>
    let P := (parser_advance P).2
    (parse_block_statement n P).andThen fun P =>
    (let m := parser_match P .TOKEN_CATCH
     if m.1 = true then
       (let m2 := parser_match m.2 .TOKEN_LPAREN
        if m2.1 = true then
          (parser_expect m2.2 .TOKEN_IDENTIFIER).andThen fun P => parser_expect P .TOKEN_RPAREN
        else .ret true m2.2).andThen fun P =>
       parse_block_statement n P
     else .ret true m.2).andThen fun P =>
    let m := parser_match P .TOKEN_FINALLY
    if m.1 = true then (parse_block_statement n m.2).andThen fun P => .ret true P
    else .ret true m.2

/-- `parse_block_statement(parser)`. -/
def parse_block_statement : Nat → Parser → Outcome
  | 0, _ => .out_of_fuel
  | n + 1, P =>
    (parser_expect P .TOKEN_LBRACE).andThen fun P =>
    (parse_statement_list n P).andThen fun P =>
    parser_expect P .TOKEN_RBRACE

/-- The loops `while (parser_match(parser, TOKEN_COMMA)) { if
(!parse_assignment_expression(parser)) return false; }` of `parse_expression`
and of the two argument lists. -/
def comma_list_loop : Nat → Parser → Outcome
  | 0, _ => .out_of_fuel
  | n + 1, P =>
    let m := parser_match P .TOKEN_COMMA
    if m.1 = true then
      (parse_assignment_expression n m.2).andThen fun P => comma_list_loop n P
    else .ret true m.2

/-- `parse_expression(parser)`. -/
def parse_expression : Nat → Parser → Outcome
  | 0, _ => .out_of_fuel
  | n + 1, P =>
    (parse_assignment_expression n P).andThen fun P => comma_list_loop n P

/-- `parse_assignment_expression(parser)`. -/
def parse_assignment_expression : Nat → Parser → Outcome
  | 0, _ => .out_of_fuel
  | n + 1, P =>
    (parse_conditional_expression n P).andThen fun P =>
    with_current P fun t =>
      if is_assignment_operator t.type = true then
        (parse_assignment_expression n (parser_advance P).2).andThen fun P => .ret true P
      else .ret true P

/-- `parse_conditional_expression(parser)`. -/
def parse_conditional_expression : Nat → Parser → Outcome
  | 0, _ => .out_of_fuel
  | n + 1, P =>
    (parse_logical_or_expression n P).andThen fun P =>
    let m := parser_match P .TOKEN_QUESTION
    if m.1 = true then
      (parse_assignment_expression n m.2).andThen fun P =>
      (parser_expect P .TOKEN_COLON).andThen fun P =>
      (parse_assignment_expression n P).andThen fun P => .ret true P
    else .ret true m.2

/-- The `while` loop of `parse_logical_or_expression`. -/
def parse_logical_or_expression_loop : Nat → Parser → Outcome
  | 0, _ => .out_of_fuel
  | n + 1, P =>
    let m := parser_match P .TOKEN_OR
    let m := if m.1 = true then m else parser_match m.2 .TOKEN_NULLISH
    if m.1 = true then
      (parse_logical_and_expression n m.2).andThen fun P => parse_logical_or_expression_loop n P
    else .ret true m.2

/-- `parse_logical_or_expression(parser)`. -/
def parse_logical_or_expression : Nat → Parser → Outcome
  | 0, _ => .out_of_fuel
  | n + 1, P =>
    (parse_logical_and_expression n P).andThen fun P => parse_logical_or_expression_loop n P

/-- The `while` loop of `parse_logical_and_expression`. -/
def parse_logical_and_expression_loop : Nat → Parser → Outcome
  | 0, _ => .out_of_fuel
  | n + 1, P =>
    let m := parser_match P .TOKEN_AND
    if m.1 = true then
      (parse_bitwise_or_expression n m.2).andThen fun P => parse_logical_and_expression_loop n P
    else .ret true m.2

/-- `parse_logical_and_expression(parser)`. -/
def parse_logical_and_expression : Nat → Parser → Outcome
  | 0, _ => .out_of_fuel
  | n + 1, P =>
    (parse_bitwise_or_expression n P).andThen fun P => parse_logical_and_expression_loop n P

/-- The `while` loop of `parse_bitwise_or_expression`. -/
def parse_bitwise_or_expression_loop : Nat → Parser → Outcome
  | 0, _ => .out_of_fuel
  | n + 1, P =>
    let m := parser_match P .TOKEN_BITWISE_OR
    if m.1 = true then
      (parse_bitwise_xor_expression n m.2).andThen fun P => parse_bitwise_or_expression_loop n P
    else .ret true m.2

/-- `parse_bitwise_or_expression(parser)`. -/
def parse_bitwise_or_expression : Nat → Parser → Outcome
  | 0, _ => .out_of_fuel
  | n + 1, P =>
    (parse_bitwise_xor_expression n P).andThen fun P => parse_bitwise_or_expression_loop n P

/-- The `while` loop of `parse_bitwise_xor_expression`. -/
def parse_bitwise_xor_expression_loop : Nat → Parser → Outcome
  | 0, _ => .out_of_fuel
  | n + 1, P =>
    let m := parser_match P .TOKEN_BITWISE_XOR
    if m.1 = true then
      (parse_bitwise_and_expression n m.2).andThen fun P => parse_bitwise_xor_expression_loop n P
    else .ret true m.2

/-- `parse_bitwise_xor_expression(parser)`. -/
def parse_bitwise_xor_expression : Nat → Parser → Outcome
  | 0, _ => .out_of_fuel
  | n + 1, P =>
    (parse_bitwise_and_expression n P).andThen fun P => parse_bitwise_xor_expression_loop n P

/-- The `while` loop of `parse_bitwise_and_expression`. -/
def parse_bitwise_and_expression_loop : Nat → Parser → Outcome
  | 0, _ => .out_of_fuel
  | n + 1, P =>
    let m := parser_match P .TOKEN_BITWISE_AND
    if m.1 = true then
      (parse_equality_expression n m.2).andThen fun P => parse_bitwise_and_expression_loop n P
    else .ret true m.2

/-- `parse_bitwise_and_expression(parser)`. -/
def parse_bitwise_and_expression : Nat → Parser → Outcome
  | 0, _ => .out_of_fuel
  | n + 1, P =>
    (parse_equality_expression n P).andThen fun P => parse_bitwise_and_expression_loop n P

/-- The `while` loop of `parse_equality_expression`. -/
def parse_equality_expression_loop : Nat → Parser → Outcome
  | 0, _ => .out_of_fuel
  | n + 1, P =>
    if parser_check P .TOKEN_EQ = true ∨ parser_check P .TOKEN_NE = true ∨
        parser_check P .TOKEN_EQ_STRICT = true ∨ parser_check P .TOKEN_NE_STRICT = true then
      (parse_relational_expression n (parser_advance P).2).andThen fun P =>
      parse_equality_expression_loop n P
    else .ret true P

/-- `parse_equality_expression(parser)`. -/
def parse_equality_expression : Nat → Parser → Outcome
  | 0, _ => .out_of_fuel
  | n + 1, P =>
    (parse_relational_expression n P).andThen fun P => parse_equality_expression_loop n P

/-- The `while` loop of `parse_relational_expression`. -/
def parse_relational_expression_loop : Nat → Parser → Outcome
  | 0, _ => .out_of_fuel
  | n + 1, P =>
    if parser_check P .TOKEN_LT = true ∨ parser_check P .TOKEN_LE = true ∨
        parser_check P .TOKEN_GT = true ∨ parser_check P .TOKEN_GE = true ∨
        parser_check P .TOKEN_INSTANCEOF = true ∨ parser_check P .TOKEN_IN = true then
      (parse_shift_expression n (parser_advance P).2).andThen fun P =>
      parse_relational_expression_loop n P
    else .ret true P

/-- `parse_relational_expression(parser)`. -/
def parse_relational_expression : Nat → Parser → Outcome
  | 0, _ => .out_of_fuel
  | n + 1, P =>
    (parse_shift_expression n P).andThen fun P => parse_relational_expression_loop n P

/-- The `while` loop of `parse_shift_expression`. -/
def parse_shift_expression_loop : Nat → Parser → Outcome
  | 0, _ => .out_of_fuel
  | n + 1, P =>
    if parser_check P .TOKEN_LSHIFT = true ∨ parser_check P .TOKEN_RSHIFT = true ∨
        parser_check P .TOKEN_URSHIFT = true then
      (parse_additive_expression n (parser_advance P).2).andThen fun P =>
      parse_shift_expression_loop n P
    else .ret true P

/-- `parse_shift_expression(parser)`. -/
def parse_shift_expression : Nat → Parser → Outcome
  | 0, _ => .out_of_fuel
  | n + 1, P =>
    (parse_additive_expression n P).andThen fun P => parse_shift_expression_loop n P

/-- The `while` loop of `parse_additive_expression`. -/
def parse_additive_expression_loop : Nat → Parser → Outcome
  | 0, _ => .out_of_fuel
  | n + 1, P =>
    if parser_check P .TOKEN_PLUS = true ∨ parser_check P .TOKEN_MINUS = true then
      (parse_multiplicative_expression n (parser_advance P).2).andThen fun P =>
      parse_additive_expression_loop n P
    else .ret true P

/-- `parse_additive_expression(parser)`. -/
def parse_additive_expression : Nat → Parser → Outcome
  | 0, _ => .out_of_fuel
  | n + 1, P =>
    (parse_multiplicative_expression n P).andThen fun P => parse_additive_expression_loop n P

/-- The `while` loop of `parse_multiplicative_expression`. -/
def parse_multiplicative_expression_loop : Nat → Parser → Outcome
  | 0, _ => .out_of_fuel
  | n + 1, P =>
    if parser_check P .TOKEN_MULTIPLY = true ∨ parser_check P .TOKEN_DIVIDE = true ∨
        parser_check P .TOKEN_MODULO = true then
      (parse_exponentiation_expression n (parser_advance P).2).andThen fun P =>
      parse_multiplicative_expression_loop n P
    else .ret true P

/-- `parse_multiplicative_expression(parser)`. -/
def parse_multiplicative_expression : Nat → Parser → Outcome
  | 0, _ => .out_of_fuel
  | n + 1, P =>
    (parse_exponentiation_expression n P).andThen fun P =>
    parse_multiplicative_expression_loop n P

/-- `parse_exponentiation_expression(parser)`. -/
def parse_exponentiation_expression : Nat → Parser → Outcome
  | 0, _ => .out_of_fuel
  | n + 1, P =>
    (parse_unary_expression n P).andThen fun P =>
    let m := parser_match P .TOKEN_EXPONENT
    if m.1 = true then
      (parse_exponentiation_expression n m.2).andThen fun P => .ret true P
    else .ret true m.2

/-- `parse_unary_expression(parser)`. -/
def parse_unary_expression : Nat → Parser → Outcome
  | 0, _ => .out_of_fuel
  | n + 1, P =>
    with_current P fun t =>
      if is_unary_operator t.type = true then parse_unary_expression n (parser_advance P).2
      else parse_postfix_expression n P

/-- `parse_postfix_expression(parser)`. -/
def parse_postfix_expression : Nat → Parser → Outcome
  | 0, _ => .out_of_fuel
  | n + 1, P =>
    (parse_left_hand_side_expression n P).andThen fun P =>
    with_current P fun t =>
      if t.preceded_by_newline = false then
        if parser_check P .TOKEN_INCREMENT = true ∨ parser_check P .TOKEN_DECREMENT = true then
          .ret true (parser_advance P).2
        else .ret true P
      else .ret true P

/-- The argument list `if (!parser_check(parser, TOKEN_RPAREN)) { ... }` followed
by `parser_expect(parser, TOKEN_RPAREN)`, after the opening parenthesis of a
call or `new` expression has been consumed. -/
def parse_arguments : Nat → Parser → Outcome
  | 0, _ => .out_of_fuel
  | n + 1, P =>
    (if parser_check P .TOKEN_RPAREN = false then
      (parse_assignment_expression n P).andThen fun P => comma_list_loop n P
     else .ret true P).andThen fun P =>
    parser_expect P .TOKEN_RPAREN

/-- `parse_left_hand_side_expression(parser)`. -/
def parse_left_hand_side_expression : Nat → Parser → Outcome
  | 0, _ => .out_of_fuel
  | n + 1, P =>
    let m := parser_match P .TOKEN_NEW
    if m.1 = true then
      (parse_member_expression n m.2).andThen fun P =>
      if parser_check P .TOKEN_LPAREN = true then
        (parse_arguments n (parser_advance P).2).andThen fun P => .ret true P
      else .ret true P
    else parse_call_expression n m.2

/-- The member-access loops `while (parser_check(parser, TOKEN_DOT) || ...)` of
`parse_call_expression` and `parse_member_expression`. -/
def member_access_loop : Nat → Parser → Outcome
  | 0, _ => .out_of_fuel
  | n + 1, P =>
    if parser_check P .TOKEN_DOT = true ∨ parser_check P .TOKEN_LBRACKET = true ∨
        parser_check P .TOKEN_OPTIONAL_CHAIN = true then
      let m := parser_match P .TOKEN_DOT
      let m := if m.1 = true then m else parser_match m.2 .TOKEN_OPTIONAL_CHAIN
      if m.1 = true then
        (parser_expect m.2 .TOKEN_IDENTIFIER).andThen fun P => member_access_loop n P
      else
        let m2 := parser_match m.2 .TOKEN_LBRACKET
        if m2.1 = true then
          (parse_expression n m2.2).andThen fun P =>
          (parser_expect P .TOKEN_RBRACKET).andThen fun P =>
          member_access_loop n P
        else member_access_loop n m2.2
    else .ret true P

/-- The call loop `while (parser_check(parser, TOKEN_LPAREN))` of
`parse_call_expression`. -/
def parse_call_expression_loop : Nat → Parser → Outcome
  | 0, _ => .out_of_fuel
  | n + 1, P =>
    if parser_check P .TOKEN_LPAREN = true then
      (parse_arguments n (parser_advance P).2).andThen fun P =>
      (member_access_loop n P).andThen fun P =>
      parse_call_expression_loop n P
    else .ret true P

/-- `parse_call_expression(parser)`. -/
def parse_call_expression : Nat → Parser → Outcome
  | 0, _ => .out_of_fuel
  | n + 1, P =>
    (parse_member_expression n P).andThen fun P => parse_call_expression_loop n P

/-- `parse_member_expression(parser)`. -/
def parse_member_expression : Nat → Parser → Outcome
  | 0, _ => .out_of_fuel
  | n + 1, P =>
    (parse_primary_expression n P).andThen fun P => member_access_loop n P

/-- `parse_primary_expression(parser)`. -/
def parse_primary_expression : Nat → Parser → Outcome
  | 0, _ => .out_of_fuel
  | n + 1, P =>
    match P.current_token with
    | none =>
      .ret false (parser_set_error P .ERROR_PARSER_UNEXPECTED_EOF
        (match P.prev_token with
          | some p => p.end_
          | none => { line := 1, column := 1, offset := 0 })
        (cstr "Unexpected end of file"))
    | some t =>
      match t.type with
      | .TOKEN_IDENTIFIER | .TOKEN_THIS | .TOKEN_SUPER | .TOKEN_NUMBER | .TOKEN_STRING
      | .TOKEN_TRUE | .TOKEN_FALSE | .TOKEN_NULL | .TOKEN_UNDEFINED | .TOKEN_REGEX
      | .TOKEN_TEMPLATE => .ret true (parser_advance P).2
      | .TOKEN_LPAREN =>
        (parse_expression n (parser_advance P).2).andThen fun P =>
        parser_expect P .TOKEN_RPAREN
      | .TOKEN_LBRACKET => parse_array_literal n P
      | .TOKEN_LBRACE => parse_object_literal n P
      | .TOKEN_FUNCTION => parse_function_declaration n P
      | .TOKEN_EOF =>
        .ret false (parser_set_error P .ERROR_PARSER_UNEXPECTED_EOF t.start
          (cstr "Unexpected end of file in expression"))
      | _ =>
        .ret false (parser_set_error P .ERROR_PARSER_UNEXPECTED_TOKEN t.start
          (cstr "Unexpected token type " ++ int_text t.type.toCtorIdx ++ cstr " in expression"))

/-- The element `if (!parser_check(parser, TOKEN_COMMA)) { if
(!parse_assignment_expression(parser)) return false; }` of `parse_array_literal`. -/
def parse_array_element : Nat → Parser → Outcome
  | 0, _ => .out_of_fuel
  | n + 1, P =>
    if parser_check P .TOKEN_COMMA = false then parse_assignment_expression n P else .ret true P

/-- The `while (parser_match(parser, TOKEN_COMMA))` loop of `parse_array_literal`. -/
def parse_array_literal_loop : Nat → Parser → Outcome
  | 0, _ => .out_of_fuel
  | n + 1, P =>
    let m := parser_match P .TOKEN_COMMA
    if m.1 = true then
      if parser_check m.2 .TOKEN_RBRACKET = true then .ret true m.2
      else (parse_array_element n m.2).andThen fun P => parse_array_literal_loop n P
    else .ret true m.2

/-- `parse_array_literal(parser)`. -/
def parse_array_literal : Nat → Parser → Outcome
  | 0, _ => .out_of_fuel
  | n + 1, P =>
    (parser_expect P .TOKEN_LBRACKET).andThen fun P =>
    (if parser_check P .TOKEN_RBRACKET = false then
      (parse_array_element n P).andThen fun P => parse_array_literal_loop n P
     else .ret true P).andThen fun P =>
    parser_expect P .TOKEN_RBRACKET

/-- The part of one round of the property loop of `parse_object_literal` after
the property name: the value or method, then the separating comma. -/
def parse_object_property_rest : Nat → Parser → Outcome
  | 0, _ => .out_of_fuel
  | n + 1, P =>
    (let m := parser_match P .TOKEN_COLON
     if m.1 = true then parse_assignment_expression n m.2
     else
       let m2 := parser_match m.2 .TOKEN_LPAREN
       if m2.1 = true then
         (skip_until_loop .TOKEN_RPAREN n m2.2).andThen fun P =>
         (parser_expect P .TOKEN_RPAREN).andThen fun P =>
         parse_block_statement n P
       else .ret true m2.2).andThen fun P =>
    let m := parser_match P .TOKEN_COMMA
    if m.1 = false then .ret true m.2 else parse_object_literal_loop n m.2

/-- The property loop `while (!parser_check(parser, TOKEN_RBRACE) &&
!parser_check(parser, TOKEN_EOF))` of `parse_object_literal`; a `break` ends it
like the loop condition does. -/
def parse_object_literal_loop : Nat → Parser → Outcome
  | 0, _ => .out_of_fuel
  | n + 1, P =>
    if parser_check P .TOKEN_RBRACE = false ∧ parser_check P .TOKEN_EOF = false then
      if parser_check P .TOKEN_IDENTIFIER = true ∨ parser_check P .TOKEN_STRING = true ∨
          parser_check P .TOKEN_NUMBER = true then
        parse_object_property_rest n (parser_advance P).2
      else
        let m := parser_match P .TOKEN_LBRACKET
        if m.1 = true then
          (parse_expression n m.2).andThen fun P =>
          (parser_expect P .TOKEN_RBRACKET).andThen fun P =>
          parse_object_property_rest n P
        else if parser_check m.2 .TOKEN_SPREAD = true then
          (parse_assignment_expression n (parser_advance m.2).2).andThen fun P =>
          let m3 := parser_match P .TOKEN_COMMA
          if m3.1 = true then parse_object_literal_loop n m3.2 else .ret true m3.2
        else .ret true m.2
    else .ret true P

/-- `parse_object_literal(parser)`. -/
def parse_object_literal : Nat → Parser → Outcome
  | 0, _ => .out_of_fuel
  | n + 1, P =>
    (parser_expect P .TOKEN_LBRACE).andThen fun P =>
    (parse_object_literal_loop n P).andThen fun P =>
    parser_expect P .TOKEN_RBRACE

end

/-- `parse_program(parser)`. -/
def parse_program (fuel : Nat) (P : Parser) : Outcome :=
  parse_statement_list fuel { P with depth := 0 }

/-- `parser_parse(parser)` for a non-null `parser`. -/
def parser_parse (fuel : Nat) (P : Parser) : Outcome :=
  match P.current_token with
  | none => .ret false P
  | some _ => parse_program fuel P

/-! ## main.c -/

/-- The part of `parse_javascript_string(source)` up to `parser_parse`: a zeroed
`ErrorInfo`, a lexer over `source` (with `strlen(source)` the length of the list),
a parser, and the call of `parser_parse`. -/
def parse_javascript_string (fuel : Nat) (source : List Nat) : Outcome :=
  let error : ErrorInfo :=
    { code := .ERROR_NONE, position := { line := 0, column := 0, offset := 0 }, message := [] }
  parser_parse fuel (parser_create (lexer_create source (some error)))

/-- The value `success` that `parse_javascript_string` returns and `main` turns
into the exit code (`success ? 0 : 1`); `none` when the run does not return. -/
def Outcome.success (r : Outcome) : Option Bool :=
  match r with
  | .ret b _ => some b
  | _ => none

/-- The test `success && error.code == ERROR_NONE` that selects the printed
"Syntax is valid" line. -/
def Outcome.prints_valid (r : Outcome) : Option Bool :=
  match r with
  | .ret b P =>
    some (b && decide ((P.lexer.error.map fun e => e.code) = some ErrorCode.ERROR_NONE))
  | _ => none

/-- The error code in the shared `ErrorInfo` when the run ends. -/
def Outcome.error_code (r : Outcome) : Option ErrorCode :=
  match r with
  | .ret _ P => P.lexer.error.map fun e => e.code
  | .null_deref P => P.lexer.error.map fun e => e.code
  | .out_of_fuel => none

/-- The kind of the parser's current token when the run ends. -/
def Outcome.current_type (r : Outcome) : Option TokenType :=
  match r with
  | .ret _ P => P.current_token.map fun t => t.type
  | .null_deref P => P.current_token.map fun t => t.type
  | .out_of_fuel => none

/-! ## Auxiliary definitions for the statements -/

/-- `Advances L L'`: state `L'` is reached from `L` by calls of `advance` and by
assignments to the fields `error`, `last_was_newline` and `prev_token`; these
are the only ways in which the lexer functions change a `Lexer`. -/
inductive Advances : Lexer → Lexer → Prop
  | refl (L : Lexer) : Advances L L
  | adv {L L' : Lexer} : Advances L L' → Advances L (advance L').2
  | upd {L L' : Lexer} (e : Option ErrorInfo) (f : Bool) (p : Option Token) :
      Advances L L' → Advances L { L' with error := e, last_was_newline := f, prev_token := p }

/-- A token-returning step: the token (if any) starts at `start` and ends at the
position of the returned state. -/
def TokSpan (start : Position) (r : Option Token × Lexer) : Prop :=
  ∀ T, r.1 = some T → T.start = start ∧ T.end_ = r.2.position

/-- A token-returning step from `L`: the cursor only advances and the token
spans from `start` to the final position. -/
def TokStep (L : Lexer) (start : Position) (r : Option Token × Lexer) : Prop :=
  Advances L r.2 ∧ TokSpan start r

/-- The state in which `lexer_next_token` starts the token: after the trivia
loop, with the newline flag cleared. -/
def token_start_state (L : Lexer) : Lexer :=
  { (lexer_next_token_trivia_loop (L.source_length - L.current) L).2 with
    last_was_newline := false }

/-- State of the lexer after `k` calls of `lexer_next_token` on `source`. -/
def lexer_after (source : List Nat) (error : Option ErrorInfo) : Nat → Lexer
  | 0 => lexer_create source error
  | k + 1 => (lexer_next_token (lexer_after source error k)).2

/-- Result of call number `k` (counted from 0) of `lexer_next_token` on `source`. -/
def token_at (source : List Nat) (error : Option ErrorInfo) (k : Nat) : Option Token :=
  (lexer_next_token (lexer_after source error k)).1

/-- Number of logical line terminators among the first `k` bytes of `src`: every
`\r` counts, and a `\n` counts unless it directly follows a `\r` (so a lone
`\n`, a lone `\r` and a `\r\n` pair count once each). -/
def line_terminator_count (src : List Nat) : Nat → Nat
  | 0 => 0
  | k + 1 =>
    line_terminator_count src k +
      (if src.getD k 0 = 13 then 1
       else if src.getD k 0 = 10 ∧ ¬ (0 < k ∧ src.getD (k - 1) 0 = 13) then 1
       else 0)

/-- Number of bytes among the first `k` bytes of `src` that come after the last
`\n` or `\r`. -/
def bytes_since_line_terminator (src : List Nat) : Nat → Nat
  | 0 => 0
  | k + 1 =>
    if src.getD k 0 = 10 ∨ src.getD k 0 = 13 then 0 else bytes_since_line_terminator src k + 1

/-- Lexicographic order on `(line, column)`. -/
def Position.le_line_column (p q : Position) : Prop :=
  p.line < q.line ∨ (p.line = q.line ∧ p.column ≤ q.column)

/-- The invariant of the cursor: `offset` is the byte cursor, the cursor is
inside the source and not between the two bytes of a `\r\n` pair, and
`line`/`column` count the consumed bytes. -/
structure CursorInv (L : Lexer) : Prop where
  offset_eq : L.position.offset = L.current
  le_length : L.current ≤ L.source.length
  no_split : ¬ (0 < L.current ∧ L.source.getD (L.current - 1) 0 = 13 ∧
    L.source.getD L.current 0 = 10)
  line_eq : L.position.line = 1 + line_terminator_count L.source L.current
  column_eq : L.position.column = 1 + bytes_since_line_terminator L.source L.current

/-- The operator and punctuator spellings of the recognized set (spec section 6). -/
def operator_spellings : List (List Nat) :=
  [ "(", ")", "\x7b", "\x7d", "[", "]", ";", ",", ".", ":", "?",
    "+", "-", "*", "/", "%", "**", "++", "--",
    "=", "+=", "-=", "*=", "/=", "%=", "**=", "<<=", ">>=", ">>>=", "&=", "|=", "^=", "&&=",
    "||=", "??=",
    "==", "!=", "===", "!==", "<", "<=", ">", ">=",
    "&&", "||", "!", "??",
    "&", "|", "^", "~", "<<", ">>", ">>>",
    "=>", "...", "?." ].map cstr

/-- The token kinds of operators and punctuators. -/
def is_operator_kind (type : TokenType) : Bool :=
  match type with
  | .TOKEN_LPAREN | .TOKEN_RPAREN | .TOKEN_LBRACE | .TOKEN_RBRACE | .TOKEN_LBRACKET
  | .TOKEN_RBRACKET | .TOKEN_SEMICOLON | .TOKEN_COMMA | .TOKEN_DOT | .TOKEN_COLON
  | .TOKEN_QUESTION | .TOKEN_PLUS | .TOKEN_MINUS | .TOKEN_MULTIPLY | .TOKEN_DIVIDE
  | .TOKEN_MODULO | .TOKEN_EXPONENT | .TOKEN_INCREMENT | .TOKEN_DECREMENT | .TOKEN_ASSIGN
  | .TOKEN_PLUS_ASSIGN | .TOKEN_MINUS_ASSIGN | .TOKEN_MULTIPLY_ASSIGN | .TOKEN_DIVIDE_ASSIGN
  | .TOKEN_MODULO_ASSIGN | .TOKEN_EXPONENT_ASSIGN | .TOKEN_LSHIFT_ASSIGN | .TOKEN_RSHIFT_ASSIGN
  | .TOKEN_URSHIFT_ASSIGN | .TOKEN_AND_ASSIGN | .TOKEN_OR_ASSIGN | .TOKEN_XOR_ASSIGN
  | .TOKEN_AND_AND_ASSIGN | .TOKEN_OR_OR_ASSIGN | .TOKEN_NULLISH_ASSIGN | .TOKEN_EQ | .TOKEN_NE
  | .TOKEN_EQ_STRICT | .TOKEN_NE_STRICT | .TOKEN_LT | .TOKEN_LE | .TOKEN_GT | .TOKEN_GE
  | .TOKEN_AND | .TOKEN_OR | .TOKEN_NOT | .TOKEN_NULLISH | .TOKEN_BITWISE_AND
  | .TOKEN_BITWISE_OR | .TOKEN_BITWISE_XOR | .TOKEN_BITWISE_NOT | .TOKEN_LSHIFT | .TOKEN_RSHIFT
  | .TOKEN_URSHIFT | .TOKEN_ARROW | .TOKEN_SPREAD | .TOKEN_OPTIONAL_CHAIN => true
  | _ => false

/-- The regex-context set as the specification words it (section 4.2): every
assignment operator, the opening brackets, comma, semicolon, colon, question
mark, the logical and equality and relational operators, `return`, `throw`. -/
def spec_regex_context : List TokenType :=
  [ .TOKEN_ASSIGN, .TOKEN_PLUS_ASSIGN, .TOKEN_MINUS_ASSIGN, .TOKEN_MULTIPLY_ASSIGN,
    .TOKEN_DIVIDE_ASSIGN, .TOKEN_MODULO_ASSIGN, .TOKEN_EXPONENT_ASSIGN, .TOKEN_LSHIFT_ASSIGN,
    .TOKEN_RSHIFT_ASSIGN, .TOKEN_URSHIFT_ASSIGN, .TOKEN_AND_ASSIGN, .TOKEN_OR_ASSIGN,
    .TOKEN_XOR_ASSIGN, .TOKEN_AND_AND_ASSIGN, .TOKEN_OR_OR_ASSIGN, .TOKEN_NULLISH_ASSIGN,
    .TOKEN_LPAREN, .TOKEN_LBRACKET, .TOKEN_LBRACE, .TOKEN_COMMA, .TOKEN_SEMICOLON, .TOKEN_COLON,
    .TOKEN_QUESTION, .TOKEN_AND, .TOKEN_OR, .TOKEN_NOT, .TOKEN_BITWISE_NOT, .TOKEN_EQ, .TOKEN_NE,
    .TOKEN_EQ_STRICT, .TOKEN_NE_STRICT, .TOKEN_LT, .TOKEN_LE, .TOKEN_GT, .TOKEN_GE,
    .TOKEN_RETURN, .TOKEN_THROW ]

/-- The token kinds whose branch of `lexer_next_token` stores a copy of the
token in `prev_token`: all kinds except `EOF` and the operators of two or more
characters. -/
def stores_prev_token (type : TokenType) : Bool :=
  match type with
  | .TOKEN_EOF | .TOKEN_URSHIFT_ASSIGN | .TOKEN_URSHIFT | .TOKEN_EQ_STRICT | .TOKEN_NE_STRICT
  | .TOKEN_SPREAD | .TOKEN_EXPONENT_ASSIGN | .TOKEN_AND_AND_ASSIGN | .TOKEN_OR_OR_ASSIGN
  | .TOKEN_NULLISH_ASSIGN | .TOKEN_EQ | .TOKEN_NE | .TOKEN_LE | .TOKEN_GE | .TOKEN_LSHIFT_ASSIGN
  | .TOKEN_LSHIFT | .TOKEN_RSHIFT_ASSIGN | .TOKEN_RSHIFT | .TOKEN_AND | .TOKEN_OR
  | .TOKEN_NULLISH | .TOKEN_INCREMENT | .TOKEN_DECREMENT | .TOKEN_EXPONENT | .TOKEN_ARROW
  | .TOKEN_OPTIONAL_CHAIN | .TOKEN_PLUS_ASSIGN | .TOKEN_MINUS_ASSIGN | .TOKEN_MULTIPLY_ASSIGN
  | .TOKEN_DIVIDE_ASSIGN | .TOKEN_MODULO_ASSIGN | .TOKEN_AND_ASSIGN | .TOKEN_OR_ASSIGN
  | .TOKEN_XOR_ASSIGN => false
  | _ => true

/-- A result in which a token of a kind that is stored has been stored. -/
def PrevStored (r : Option Token × Lexer) : Prop :=
  ∀ A, r.1 = some A → stores_prev_token A.type = true →
    r.2.prev_token.map (fun t => t.type) = some A.type

/-- `a.FuelLe b`: `b` is the outcome `a` unless `a` is the exhaustion of the fuel. -/
def Outcome.FuelLe (a b : Outcome) : Prop := a ≠ .out_of_fuel → b = a

/-- A property of all the mutually recursive parser functions at once. -/
structure AllParsers (Φ : (Nat → Parser → Outcome) → Prop) : Prop where
  parse_statement_list : Φ JSC.parse_statement_list
  parse_statement : Φ JSC.parse_statement
  parse_initializer : Φ JSC.parse_initializer
  parse_variable_declaration_loop : Φ JSC.parse_variable_declaration_loop
  parse_variable_declaration : Φ JSC.parse_variable_declaration
  parse_function_declaration : Φ JSC.parse_function_declaration
  parse_class_declaration_loop : Φ JSC.parse_class_declaration_loop
  parse_class_declaration : Φ JSC.parse_class_declaration
  parse_expression_statement : Φ JSC.parse_expression_statement
  parse_if_statement : Φ JSC.parse_if_statement
  parse_while_statement : Φ JSC.parse_while_statement
  parse_do_while_statement : Φ JSC.parse_do_while_statement
  parse_for_statement_rest : Φ JSC.parse_for_statement_rest
  parse_for_statement : Φ JSC.parse_for_statement
  parse_switch_body_loop : Φ JSC.parse_switch_body_loop
  parse_switch_statement_loop : Φ JSC.parse_switch_statement_loop
  parse_switch_statement : Φ JSC.parse_switch_statement
  parse_return_statement : Φ JSC.parse_return_statement
  parse_break_statement : Φ JSC.parse_break_statement
  parse_continue_statement : Φ JSC.parse_continue_statement
  parse_throw_statement : Φ JSC.parse_throw_statement
  parse_try_statement : Φ JSC.parse_try_statement
  parse_block_statement : Φ JSC.parse_block_statement
  comma_list_loop : Φ JSC.comma_list_loop
  parse_expression : Φ JSC.parse_expression
  parse_assignment_expression : Φ JSC.parse_assignment_expression
  parse_conditional_expression : Φ JSC.parse_conditional_expression
  parse_logical_or_expression_loop : Φ JSC.parse_logical_or_expression_loop
  parse_logical_or_expression : Φ JSC.parse_logical_or_expression
  parse_logical_and_expression_loop : Φ JSC.parse_logical_and_expression_loop
  parse_logical_and_expression : Φ JSC.parse_logical_and_expression
  parse_bitwise_or_expression_loop : Φ JSC.parse_bitwise_or_expression_loop
  parse_bitwise_or_expression : Φ JSC.parse_bitwise_or_expression
  parse_bitwise_xor_expression_loop : Φ JSC.parse_bitwise_xor_expression_loop
  parse_bitwise_xor_expression : Φ JSC.parse_bitwise_xor_expression
  parse_bitwise_and_expression_loop : Φ JSC.parse_bitwise_and_expression_loop
  parse_bitwise_and_expression : Φ JSC.parse_bitwise_and_expression
  parse_equality_expression_loop : Φ JSC.parse_equality_expression_loop
  parse_equality_expression : Φ JSC.parse_equality_expression
  parse_relational_expression_loop : Φ JSC.parse_relational_expression_loop
  parse_relational_expression : Φ JSC.parse_relational_expression
  parse_shift_expression_loop : Φ JSC.parse_shift_expression_loop
  parse_shift_expression : Φ JSC.parse_shift_expression
  parse_additive_expression_loop : Φ JSC.parse_additive_expression_loop
  parse_additive_expression : Φ JSC.parse_additive_expression
  parse_multiplicative_expression_loop : Φ JSC.parse_multiplicative_expression_loop
  parse_multiplicative_expression : Φ JSC.parse_multiplicative_expression
  parse_exponentiation_expression : Φ JSC.parse_exponentiation_expression
  parse_unary_expression : Φ JSC.parse_unary_expression
  parse_postfix_expression : Φ JSC.parse_postfix_expression
  parse_arguments : Φ JSC.parse_arguments
  parse_left_hand_side_expression : Φ JSC.parse_left_hand_side_expression
  member_access_loop : Φ JSC.member_access_loop
  parse_call_expression_loop : Φ JSC.parse_call_expression_loop
  parse_call_expression : Φ JSC.parse_call_expression
  parse_member_expression : Φ JSC.parse_member_expression
  parse_primary_expression : Φ JSC.parse_primary_expression
  parse_array_element : Φ JSC.parse_array_element
  parse_array_literal_loop : Φ JSC.parse_array_literal_loop
  parse_array_literal : Φ JSC.parse_array_literal
  parse_object_property_rest : Φ JSC.parse_object_property_rest
  parse_object_literal_loop : Φ JSC.parse_object_literal_loop
  parse_object_literal : Φ JSC.parse_object_literal

/-- Fuel monotonicity at level `n`: a call that does not run out of fuel returns
the same outcome with one more unit of fuel. -/
def FuelMono (n : Nat) (f : Nat → Parser → Outcome) : Prop :=
  ∀ P, (f n P).FuelLe (f (n + 1) P)

/-- What the parser reads of a token: its kind and its newline flag. -/
def Token.view (t : Token) : TokenType × Bool := (t.type, t.preceded_by_newline)

/-- The view of the token that call number `k` of `lexer_next_token` from state
`L` returns (`none` for a NULL result). -/
def future_view : Nat → Lexer → Option (TokenType × Bool)
  | 0, L => (lexer_next_token L).1.map Token.view
  | k + 1, L => future_view k (lexer_next_token L).2

/-- Two lexer states that deliver the same kinds and newline flags from now on. -/
def LexEquiv (L L' : Lexer) : Prop := ∀ k, future_view k L = future_view k L'

/-- Two parser states that the parser functions cannot tell apart: same depth,
current tokens of the same kind and newline flag, previous tokens both present
or both absent, and lexers that deliver the same tokens from now on. -/
structure TokEquiv (P Q : Parser) : Prop where
  depth : P.depth = Q.depth
  current : P.current_token.map Token.view = Q.current_token.map Token.view
  prev : P.prev_token.isSome = Q.prev_token.isSome
  lexer : LexEquiv P.lexer Q.lexer

/-- Two outcomes with the same verdict; after a success the states are
equivalent (after a failure the parse is abandoned, so the states are not
compared). -/
inductive OutEquiv : Outcome → Outcome → Prop
  | ret_true {P Q : Parser} (h : TokEquiv P Q) : OutEquiv (.ret true P) (.ret true Q)
  | ret_false (P Q : Parser) : OutEquiv (.ret false P) (.ret false Q)
  | null (P Q : Parser) : OutEquiv (.null_deref P) (.null_deref Q)
  | fuel : OutEquiv .out_of_fuel .out_of_fuel

/-- The shared `ErrorInfo` record when the run ends. -/
def Outcome.error (r : Outcome) : Option ErrorInfo :=
  match r with
  | .ret _ P => P.lexer.error
  | .null_deref P => P.lexer.error
  | .out_of_fuel => none

/-- The zeroed `ErrorInfo error = {0}` of `parse_javascript_string` and of the
debug drivers. -/
def zeroed_error : ErrorInfo :=
  { code := .ERROR_NONE, position := { line := 0, column := 0, offset := 0 }, message := [] }

/-- `FlagIs hn r`: the token of the step `r`, if any, has newline flag `hn`. -/
def FlagIs (hn : Bool) (r : Option Token × Lexer) : Prop :=
  ∀ T, r.1 = some T → T.preceded_by_newline = hn

/-- The program of `n` opening braces followed by `n` closing braces. -/
def nested_blocks (n : Nat) : List Nat := List.replicate n 123 ++ List.replicate n 125

/-- Token number `i` (from 0) of `nested_blocks n`: an opening brace, a closing
brace, or `EOF` from number `2 * n` on. -/
def brace_token (n i : Nat) : Token :=
  if i < 2 * n then
    { type := if i < n then .TOKEN_LBRACE else .TOKEN_RBRACE
      value := some [if i < n then 123 else 125]
      length := 1
      start := ⟨1, i + 1, i⟩
      end_ := ⟨1, i + 2, i + 1⟩
      preceded_by_newline := false }
  else
    { type := .TOKEN_EOF, value := none, length := 0
      start := ⟨1, 2 * n + 1, 2 * n⟩, end_ := ⟨1, 2 * n + 1, 2 * n⟩
      preceded_by_newline := false }

/-- The lexer on `nested_blocks n` with `k` bytes consumed. -/
def brace_lexer (n : Nat) (e : Option ErrorInfo) (k : Nat) : Lexer :=
  { source := nested_blocks n
    current := k
    position := ⟨1, k + 1, k⟩
    error := e
    last_was_newline := false
    prev_token := if k = 0 then none else some (brace_token n (k - 1)) }

/-- The parser on `nested_blocks n` with token number `i` as current token and
depth counter `d`. -/
def brace_state (n : Nat) (e : Option ErrorInfo) (i : Nat) (d : Int) : Parser :=
  { lexer := brace_lexer n e (min (i + 1) (2 * n))
    current_token := some (brace_token n i)
    prev_token := if i = 0 then none else some (brace_token n (i - 1))
    asi_allowed := true
    depth := d }

/-- The bytes `a`, U+2028 in UTF-8 (E2 80 A8), `b`. -/
def line_separator_example : List Nat := [97, 0xE2, 0x80, 0xA8, 98]

/-- The bytes `a`, U+2029 in UTF-8 (E2 80 A9), `b`. -/
def paragraph_separator_example : List Nat := [97, 0xE2, 0x80, 0xA9, 98]

/-- The spellings of the assignment operators with their token kinds. -/
def assignment_spellings : List (List Nat × TokenType) :=
  [ (cstr "=", .TOKEN_ASSIGN), (cstr "+=", .TOKEN_PLUS_ASSIGN), (cstr "-=", .TOKEN_MINUS_ASSIGN),
    (cstr "*=", .TOKEN_MULTIPLY_ASSIGN), (cstr "/=", .TOKEN_DIVIDE_ASSIGN),
    (cstr "%=", .TOKEN_MODULO_ASSIGN), (cstr "**=", .TOKEN_EXPONENT_ASSIGN),
    (cstr "<<=", .TOKEN_LSHIFT_ASSIGN), (cstr ">>=", .TOKEN_RSHIFT_ASSIGN),
    (cstr ">>>=", .TOKEN_URSHIFT_ASSIGN), (cstr "&=", .TOKEN_AND_ASSIGN),
    (cstr "|=", .TOKEN_OR_ASSIGN), (cstr "^=", .TOKEN_XOR_ASSIGN),
    (cstr "&&=", .TOKEN_AND_AND_ASSIGN), (cstr "||=", .TOKEN_OR_OR_ASSIGN),
    (cstr "??=", .TOKEN_NULLISH_ASSIGN) ]

/-- A run that is accepted: it returns success, no diagnostic has been written
and the current token is `EOF`. -/
def Outcome.accepts (r : Outcome) : Prop :=
  r.success = some true ∧ r.error_code = some .ERROR_NONE ∧ r.current_type = some .TOKEN_EOF

instance : DecidablePred Outcome.accepts := fun r => by
  unfold Outcome.accepts
  infer_instance

/-- `NotEof r`: the token of the step `r`, if any, is not the `EOF` token. -/
def NotEof (r : Option Token × Lexer) : Prop :=
  ∀ T, r.1 = some T → T.type ≠ .TOKEN_EOF

/-- `Feeds e L ks`: the next calls of `lexer_next_token` from the state `L`
return tokens with the kinds and lexemes `ks`, none of them preceded by a
newline, and the error record is `e` before and after each of these calls. -/
def Feeds (e : Option ErrorInfo) : Lexer → List (TokenType × Option (List Nat)) → Prop
  | L, [] => L.error = e
  | L, k :: ks =>
    L.error = e ∧
    match lexer_next_token L with
    | (some T, L') =>
      (T.type = k.1 ∧ T.value = k.2 ∧ T.preceded_by_newline = false) ∧ Feeds e L' ks
    | (none, _) => False

/-- `Ready e P ks`: the current token of the parser state `P` has the kind and
lexeme of the head of `ks` and is not preceded by a newline, and the lexer of
`P` feeds the rest of `ks`. -/
def Ready (e : Option ErrorInfo) (P : Parser) : List (TokenType × Option (List Nat)) → Prop
  | [] => False
  | k :: ks =>
    (∃ T, P.current_token = some T ∧ T.type = k.1 ∧ T.value = k.2 ∧
      T.preceded_by_newline = false) ∧ Feeds e P.lexer ks

/-- `Accepts e r d ks`: the outcome `r` is a success in a state with depth
counter `d` that is ready for the tokens `ks`. -/
def Accepts (e : Option ErrorInfo) (r : Outcome) (d : Int)
    (ks : List (TokenType × Option (List Nat))) : Prop :=
  ∃ Q, r = .ret true Q ∧ Q.depth = d ∧ Ready e Q ks

/-- The token kinds that `parse_primary_expression` consumes as a whole
expression. -/
def is_atom (type : TokenType) : Bool :=
  match type with
  | .TOKEN_IDENTIFIER | .TOKEN_THIS | .TOKEN_SUPER | .TOKEN_NUMBER | .TOKEN_STRING
  | .TOKEN_TRUE | .TOKEN_FALSE | .TOKEN_NULL | .TOKEN_UNDEFINED | .TOKEN_REGEX
  | .TOKEN_TEMPLATE => true
  | _ => false

/-- The token kinds that continue an operand: member access, call, postfix
operator, exponentiation. -/
def continues_operand (type : TokenType) : Bool :=
  match type with
  | .TOKEN_DOT | .TOKEN_LBRACKET | .TOKEN_OPTIONAL_CHAIN | .TOKEN_LPAREN | .TOKEN_INCREMENT
  | .TOKEN_DECREMENT | .TOKEN_EXPONENT => true
  | _ => false

/-- The token kinds after which every expression level returns: they start no
binary, assignment, conditional or comma continuation. -/
def closes_expression (type : TokenType) : Bool :=
  match type with
  | .TOKEN_SEMICOLON | .TOKEN_RPAREN | .TOKEN_RBRACKET | .TOKEN_RBRACE | .TOKEN_EOF => true
  | _ => false

/-- The lexer on `src` with the first `k` bytes consumed, all of them on line 1,
no pending newline flag, and `p` in the previous-token slot. -/
def line_lexer (src : List Nat) (e : Option ErrorInfo) (k : Nat) (p : Option Token) : Lexer :=
  { source := src, current := k, position := ⟨1, k + 1, k⟩, error := e,
    last_was_newline := false, prev_token := p }

/-- `LineStep src e k p b ty v`: one call of `lexer_next_token` in the state
`line_lexer src e k p` returns a token of kind `ty` with lexeme `v` that is not
preceded by a newline, stores it as previous token and leaves the cursor at
offset `b` on line 1. -/
def LineStep (src : List Nat) (e : Option ErrorInfo) (k : Nat) (p : Option Token) (b : Nat)
    (ty : TokenType) (v : Option (List Nat)) : Prop :=
  ∃ T, lexer_next_token (line_lexer src e k p) = (some T, line_lexer src e b (some T)) ∧
    T.type = ty ∧ T.value = v ∧ T.preceded_by_newline = false

/-- The kinds and lexemes of the tokens of ` / d1 / ... / dn;` and of the end of
input after it. -/
def division_tail : List (List Nat) → List (TokenType × Option (List Nat))
  | [] => [(.TOKEN_SEMICOLON, some [59]), (.TOKEN_EOF, none)]
  | d :: ds => (.TOKEN_DIVIDE, some [47]) :: (.TOKEN_NUMBER, some d) :: division_tail ds

/-- A decimal integer literal: a non-empty string of decimal digits. -/
def is_decimal (d : List Nat) : Prop := d ≠ [] ∧ ∀ x ∈ d, isdigit x = true

/-- The bytes of ` / d1 / ... / dn;`. -/
def division_source_tail : List (List Nat) → List Nat
  | [] => [59]
  | d :: ds => [32, 47, 32] ++ d ++ division_source_tail ds

/-- The source `var a = d0 / d1 / ... / dn;`. -/
def division_source (d0 : List Nat) (ds : List (List Nat)) : List Nat :=
  cstr "var a = " ++ d0 ++ division_source_tail ds

/-- The source `var a = /body/flags;`. -/
def regex_source (body flags : List Nat) : List Nat :=
  cstr "var a = " ++ ([47] ++ body ++ [47] ++ flags) ++ [59]

/-- The token kinds and lexemes of the first `n` calls of `lexer_next_token`
from the state `L` (a NULL result is `none`). -/
def lex_lexemes : Nat → Lexer → List (Option (TokenType × Option (List Nat)))
  | 0, _ => []
  | n + 1, L =>
    ((lexer_next_token L).1.map fun t => (t.type, t.value)) ::
      lex_lexemes n (lexer_next_token L).2

/-- The parser state after `j` calls of `parser_advance`. -/
def advance_times : Nat → Parser → Parser
  | 0, P => P
  | j + 1, P => advance_times j (parser_advance P).2

/-- State `Q` is state `P` after some calls of `parser_advance`. -/
def Reach (P Q : Parser) : Prop := ∃ j, Q = advance_times j P

/-- A successful outcome `r` ends in the state `P` after some calls of `parser_advance`. -/
structure Steps (P : Parser) (r : Outcome) : Prop where
  reach : ∀ Q, r = .ret true Q → Reach P Q

/-- Successful calls at fuel `n` only advance the token stream. -/
def StepsAt (n : Nat) (f : Nat → Parser → Outcome) : Prop := ∀ P, Steps P (f n P)

/-- The contextual keywords of the keyword table. -/
def contextual_words : List (List Nat) :=
  [cstr "async", cstr "await", cstr "of", cstr "static", cstr "get", cstr "set"]

/-- The source made of `n` copies of `w`. -/
def repeat_source (w : List Nat) : Nat → List Nat
  | 0 => []
  | n + 1 => w ++ repeat_source w n

/-- The kinds and lexemes of the tokens of `n` statements `x;` and of the end of
input after them. -/
def statement_kinds : Nat → List (TokenType × Option (List Nat))
  | 0 => [(.TOKEN_EOF, none)]
  | n + 1 => (.TOKEN_IDENTIFIER, some [120]) :: (.TOKEN_SEMICOLON, some [59]) :: statement_kinds n

/-- The source of `n` opening parentheses, `1`, `n` closing parentheses and a
semicolon. -/
def nested_source (n : Nat) : List Nat :=
  List.replicate n 40 ++ (49 :: (List.replicate n 41 ++ [59]))

/-- The kinds and lexemes of `n` opening parentheses, `1` and `n` closing
parentheses, followed by `ks`. -/
def nested_kinds (n : Nat) (ks : List (TokenType × Option (List Nat))) :
    List (TokenType × Option (List Nat)) :=
  List.replicate n (.TOKEN_LPAREN, some [40]) ++
    ((.TOKEN_NUMBER, some [49]) :: (List.replicate n (.TOKEN_RPAREN, some [41]) ++ ks))

/-- `Sliced c r`: the token of the step `r`, if any, is not empty, its length
is the distance from offset `c` to the cursor after the step, and its value is
the slice of the source of that length from offset `c`. -/
def Sliced (c : Nat) (r : Option Token × Lexer) : Prop :=
  ∀ T, r.1 = some T →
    c < r.2.current ∧ T.length = r.2.current - c ∧
    T.value = some ((r.2.source.drop c).take T.length)

/-- A successful outcome `r` ends in the state `P` after at least one call of
`parser_advance`. -/
structure Consumes (P : Parser) (r : Outcome) : Prop where
  reach : ∀ Q, r = .ret true Q → ∃ j, Q = advance_times (j + 1) P

/-- The measure of what a parser state has left to read: twice the number of
unread bytes of the lexer, plus one unless the current token is the end of input. -/
def remaining (P : Parser) : Nat :=
  2 * (P.lexer.source_length - P.lexer.current) +
    (if parser_check P .TOKEN_EOF = true then 0 else 1)

/-- Every parser function returns or crashes, at fuel `n`, from every state whose
measure fits into the fuel. -/
structure AllHalt (n : Nat) : Prop where
  parse_statement_list : ∀ P, 64 * remaining P + 63 ≤ n → JSC.parse_statement_list n P ≠ .out_of_fuel
  parse_statement : ∀ P, 64 * remaining P + 61 ≤ n → JSC.parse_statement n P ≠ .out_of_fuel
  parse_initializer : ∀ P, 64 * remaining P + 40 ≤ n → JSC.parse_initializer n P ≠ .out_of_fuel
  parse_variable_declaration_loop : ∀ P, 64 * remaining P + 41 ≤ n → JSC.parse_variable_declaration_loop n P ≠ .out_of_fuel
  parse_variable_declaration : ∀ P, 1 ≤ remaining P → 64 * remaining P + 42 ≤ n → JSC.parse_variable_declaration n P ≠ .out_of_fuel
  parse_function_declaration : ∀ P, 1 ≤ remaining P → 64 * remaining P + 1 ≤ n → JSC.parse_function_declaration n P ≠ .out_of_fuel
  parse_class_declaration_loop : ∀ P, 64 * remaining P + 43 ≤ n → JSC.parse_class_declaration_loop n P ≠ .out_of_fuel
  parse_class_declaration : ∀ P, 1 ≤ remaining P → 64 * remaining P + 44 ≤ n → JSC.parse_class_declaration n P ≠ .out_of_fuel
  parse_expression_statement : ∀ P, 64 * remaining P + 39 ≤ n → JSC.parse_expression_statement n P ≠ .out_of_fuel
  parse_if_statement : ∀ P, 1 ≤ remaining P → 64 * remaining P + 45 ≤ n → JSC.parse_if_statement n P ≠ .out_of_fuel
  parse_while_statement : ∀ P, 1 ≤ remaining P → 64 * remaining P + 46 ≤ n → JSC.parse_while_statement n P ≠ .out_of_fuel
  parse_do_while_statement : ∀ P, 1 ≤ remaining P → 64 * remaining P + 47 ≤ n → JSC.parse_do_while_statement n P ≠ .out_of_fuel
  parse_for_statement_rest : ∀ P, 64 * remaining P + 48 ≤ n → JSC.parse_for_statement_rest n P ≠ .out_of_fuel
  parse_for_statement : ∀ P, 1 ≤ remaining P → 64 * remaining P + 49 ≤ n → JSC.parse_for_statement n P ≠ .out_of_fuel
  parse_switch_body_loop : ∀ P, 64 * remaining P + 62 ≤ n → JSC.parse_switch_body_loop n P ≠ .out_of_fuel
  parse_switch_statement_loop : ∀ P, 64 * remaining P + 50 ≤ n → JSC.parse_switch_statement_loop n P ≠ .out_of_fuel
  parse_switch_statement : ∀ P, 1 ≤ remaining P → 64 * remaining P + 51 ≤ n → JSC.parse_switch_statement n P ≠ .out_of_fuel
  parse_return_statement : ∀ P, 1 ≤ remaining P → 64 * remaining P + 52 ≤ n → JSC.parse_return_statement n P ≠ .out_of_fuel
  parse_break_statement : ∀ P, 1 ≤ remaining P → 64 * remaining P + 53 ≤ n → JSC.parse_break_statement n P ≠ .out_of_fuel
  parse_continue_statement : ∀ P, 1 ≤ remaining P → 64 * remaining P + 54 ≤ n → JSC.parse_continue_statement n P ≠ .out_of_fuel
  parse_throw_statement : ∀ P, 1 ≤ remaining P → 64 * remaining P + 55 ≤ n → JSC.parse_throw_statement n P ≠ .out_of_fuel
  parse_try_statement : ∀ P, 1 ≤ remaining P → 64 * remaining P + 56 ≤ n → JSC.parse_try_statement n P ≠ .out_of_fuel
  parse_block_statement : ∀ P, 64 * remaining P + 57 ≤ n → JSC.parse_block_statement n P ≠ .out_of_fuel
  comma_list_loop : ∀ P, 64 * remaining P + 35 ≤ n → JSC.comma_list_loop n P ≠ .out_of_fuel
  parse_expression : ∀ P, 64 * remaining P + 36 ≤ n → JSC.parse_expression n P ≠ .out_of_fuel
  parse_assignment_expression : ∀ P, 64 * remaining P + 34 ≤ n → JSC.parse_assignment_expression n P ≠ .out_of_fuel
  parse_conditional_expression : ∀ P, 64 * remaining P + 33 ≤ n → JSC.parse_conditional_expression n P ≠ .out_of_fuel
  parse_logical_or_expression_loop : ∀ P, 64 * remaining P + 31 ≤ n → JSC.parse_logical_or_expression_loop n P ≠ .out_of_fuel
  parse_logical_or_expression : ∀ P, 64 * remaining P + 32 ≤ n → JSC.parse_logical_or_expression n P ≠ .out_of_fuel
  parse_logical_and_expression_loop : ∀ P, 64 * remaining P + 29 ≤ n → JSC.parse_logical_and_expression_loop n P ≠ .out_of_fuel
  parse_logical_and_expression : ∀ P, 64 * remaining P + 30 ≤ n → JSC.parse_logical_and_expression n P ≠ .out_of_fuel
  parse_bitwise_or_expression_loop : ∀ P, 64 * remaining P + 27 ≤ n → JSC.parse_bitwise_or_expression_loop n P ≠ .out_of_fuel
  parse_bitwise_or_expression : ∀ P, 64 * remaining P + 28 ≤ n → JSC.parse_bitwise_or_expression n P ≠ .out_of_fuel
  parse_bitwise_xor_expression_loop : ∀ P, 64 * remaining P + 25 ≤ n → JSC.parse_bitwise_xor_expression_loop n P ≠ .out_of_fuel
  parse_bitwise_xor_expression : ∀ P, 64 * remaining P + 26 ≤ n → JSC.parse_bitwise_xor_expression n P ≠ .out_of_fuel
  parse_bitwise_and_expression_loop : ∀ P, 64 * remaining P + 23 ≤ n → JSC.parse_bitwise_and_expression_loop n P ≠ .out_of_fuel
  parse_bitwise_and_expression : ∀ P, 64 * remaining P + 24 ≤ n → JSC.parse_bitwise_and_expression n P ≠ .out_of_fuel
  parse_equality_expression_loop : ∀ P, 64 * remaining P + 21 ≤ n → JSC.parse_equality_expression_loop n P ≠ .out_of_fuel
  parse_equality_expression : ∀ P, 64 * remaining P + 22 ≤ n → JSC.parse_equality_expression n P ≠ .out_of_fuel
  parse_relational_expression_loop : ∀ P, 64 * remaining P + 19 ≤ n → JSC.parse_relational_expression_loop n P ≠ .out_of_fuel
  parse_relational_expression : ∀ P, 64 * remaining P + 20 ≤ n → JSC.parse_relational_expression n P ≠ .out_of_fuel
  parse_shift_expression_loop : ∀ P, 64 * remaining P + 17 ≤ n → JSC.parse_shift_expression_loop n P ≠ .out_of_fuel
  parse_shift_expression : ∀ P, 64 * remaining P + 18 ≤ n → JSC.parse_shift_expression n P ≠ .out_of_fuel
  parse_additive_expression_loop : ∀ P, 64 * remaining P + 15 ≤ n → JSC.parse_additive_expression_loop n P ≠ .out_of_fuel
  parse_additive_expression : ∀ P, 64 * remaining P + 16 ≤ n → JSC.parse_additive_expression n P ≠ .out_of_fuel
  parse_multiplicative_expression_loop : ∀ P, 64 * remaining P + 13 ≤ n → JSC.parse_multiplicative_expression_loop n P ≠ .out_of_fuel
  parse_multiplicative_expression : ∀ P, 64 * remaining P + 14 ≤ n → JSC.parse_multiplicative_expression n P ≠ .out_of_fuel
  parse_exponentiation_expression : ∀ P, 64 * remaining P + 12 ≤ n → JSC.parse_exponentiation_expression n P ≠ .out_of_fuel
  parse_unary_expression : ∀ P, 64 * remaining P + 11 ≤ n → JSC.parse_unary_expression n P ≠ .out_of_fuel
  parse_postfix_expression : ∀ P, 64 * remaining P + 10 ≤ n → JSC.parse_postfix_expression n P ≠ .out_of_fuel
  parse_arguments : ∀ P, 64 * remaining P + 37 ≤ n → JSC.parse_arguments n P ≠ .out_of_fuel
  parse_left_hand_side_expression : ∀ P, 64 * remaining P + 9 ≤ n → JSC.parse_left_hand_side_expression n P ≠ .out_of_fuel
  member_access_loop : ∀ P, 64 * remaining P + 4 ≤ n → JSC.member_access_loop n P ≠ .out_of_fuel
  parse_call_expression_loop : ∀ P, 64 * remaining P + 7 ≤ n → JSC.parse_call_expression_loop n P ≠ .out_of_fuel
  parse_call_expression : ∀ P, 64 * remaining P + 8 ≤ n → JSC.parse_call_expression n P ≠ .out_of_fuel
  parse_member_expression : ∀ P, 64 * remaining P + 6 ≤ n → JSC.parse_member_expression n P ≠ .out_of_fuel
  parse_primary_expression : ∀ P, 64 * remaining P + 5 ≤ n → JSC.parse_primary_expression n P ≠ .out_of_fuel
  parse_array_element : ∀ P, 64 * remaining P + 38 ≤ n → JSC.parse_array_element n P ≠ .out_of_fuel
  parse_array_literal_loop : ∀ P, 64 * remaining P + 58 ≤ n → JSC.parse_array_literal_loop n P ≠ .out_of_fuel
  parse_array_literal : ∀ P, 64 * remaining P + 2 ≤ n → JSC.parse_array_literal n P ≠ .out_of_fuel
  parse_object_property_rest : ∀ P, 64 * remaining P + 59 ≤ n → JSC.parse_object_property_rest n P ≠ .out_of_fuel
  parse_object_literal_loop : ∀ P, 64 * remaining P + 60 ≤ n → JSC.parse_object_literal_loop n P ≠ .out_of_fuel
  parse_object_literal : ∀ P, 64 * remaining P + 3 ≤ n → JSC.parse_object_literal n P ≠ .out_of_fuel

/-- `TriviaReach src c p`: the offset `p` of `src` is reached from the offset `c`
over trivia only: white space and line breaks (a `\r\n` pair is one step, as in
`advance`), line comments up to their line break or the end of the source, and
block comments up to their first star-slash. -/
inductive TriviaReach (src : List Nat) : Nat → Nat → Prop
  | here (c : Nat) : TriviaReach src c c
  | white {c p : Nat} (hlt : c < src.length)
      (hw : is_whitespace (char_to_u32 (src.getD c 0)) = true ∨ src.getD c 0 = 10 ∨
        src.getD c 0 = 13)
      (h : TriviaReach src
        (if src.getD c 0 = 13 ∧ src.getD (c + 1) 0 = 10 then c + 2 else c + 1) p) :
      TriviaReach src c p
  | line_comment {c j p : Nat} (h0 : src.getD c 0 = 47) (h1 : src.getD (c + 1) 0 = 47)
      (hj : c + 2 ≤ j) (hjl : j ≤ src.length)
      (hbody : ∀ i, c + 2 ≤ i → i < j →
        is_line_terminator (char_to_u32 (src.getD i 0)) = false)
      (hend : j < src.length → is_line_terminator (char_to_u32 (src.getD j 0)) = true)
      (h : TriviaReach src j p) : TriviaReach src c p
  | block_comment {c j p : Nat} (h0 : src.getD c 0 = 47) (h1 : src.getD (c + 1) 0 = 42)
      (hj : c + 2 ≤ j) (hj1 : src.getD j 0 = 42) (hj2 : src.getD (j + 1) 0 = 47)
      (hmin : ∀ i, c + 2 ≤ i → i < j → ¬ (src.getD i 0 = 42 ∧ src.getD (i + 1) 0 = 47))
      (h : TriviaReach src (j + 2) p) : TriviaReach src c p

/-- `Aligned a a' L L'`: the two lexer states read the same bytes from now on.
From the offset `a` the source of `L` is the source of `L'` from the offset
`a'`, the cursors are past these offsets by the same number of bytes, and the
newline flags agree. (Positions, diagnostics and the previous-token slots are
not compared.) -/
structure Aligned (a a' : Nat) (L L' : Lexer) : Prop where
  tail : L.source.drop a = L'.source.drop a'
  le : a ≤ L.current
  cursor : L'.current = L.current - a + a'
  flag : L.last_was_newline = L'.last_was_newline

theorem Advances.trans {A B C : Lexer} (h1 : Advances A B) (h2 : Advances B C) : Advances A C := by
  induction h2 with
  | refl => exact h1
  | adv _ ih => exact Advances.adv ih
  | upd e f p _ ih => exact Advances.upd e f p ih

theorem Advances.one (L : Lexer) : Advances L (advance L).2 := Advances.adv (Advances.refl L)

theorem Advances.set_error {A B : Lexer} (e : Option ErrorInfo) (h : Advances A B) :
    Advances A { B with error := e } := Advances.upd e B.last_was_newline B.prev_token h

theorem Advances.set_flag {A B : Lexer} (f : Bool) (h : Advances A B) :
    Advances A { B with last_was_newline := f } := Advances.upd B.error f B.prev_token h

theorem Advances.set_prev {A B : Lexer} (p : Option Token) (h : Advances A B) :
    Advances A { B with prev_token := p } := Advances.upd B.error B.last_was_newline p h

theorem skip_whitespace_loop_advances (fuel : Nat) (L : Lexer) :
    Advances L (skip_whitespace_loop fuel L) := by
  induction fuel generalizing L with
  | zero => exact Advances.refl L
  | succ n ih =>
    unfold skip_whitespace_loop
    dsimp only
    split_ifs <;> first | exact Advances.refl _ | exact (Advances.one _).trans (ih _)

theorem skip_line_comment_loop_advances (fuel : Nat) (L : Lexer) :
    Advances L (skip_line_comment_loop fuel L) := by
  induction fuel generalizing L with
  | zero => exact Advances.refl L
  | succ n ih =>
    unfold skip_line_comment_loop
    dsimp only
    split_ifs <;> first | exact Advances.refl _ | exact (Advances.one _).trans (ih _)

theorem skip_line_comment_advances (L : Lexer) : Advances L (skip_line_comment L) :=
  ((Advances.one L).trans (Advances.one _)).trans (skip_line_comment_loop_advances _ _)

theorem skip_block_comment_loop_advances (fuel : Nat) (L : Lexer) :
    Advances L (skip_block_comment_loop fuel L).2 := by
  induction fuel generalizing L with
  | zero => exact Advances.refl L
  | succ n ih =>
    unfold skip_block_comment_loop
    dsimp only
    split_ifs <;> first
      | exact Advances.refl _
      | exact (Advances.one _).trans (ih _)
      | exact (Advances.one _).trans (Advances.one _)

theorem skip_block_comment_advances (L : Lexer) : Advances L (skip_block_comment L).2 := by
  have h := ((Advances.one L).trans (Advances.one _)).trans
    (skip_block_comment_loop_advances ((advance (advance L).2).2.source_length -
      (advance (advance L).2).2.current) (advance (advance L).2).2)
  unfold skip_block_comment
  dsimp only
  split
  · next L3 heq => rw [heq] at h; exact h
  · next L3 heq => rw [heq] at h; exact h.set_error _

theorem parse_unicode_escape_loop_advances (n value : Nat) (L : Lexer) :
    Advances L (parse_unicode_escape_loop n value L).2 := by
  induction n generalizing L value with
  | zero => exact Advances.refl L
  | succ n ih =>
    unfold parse_unicode_escape_loop
    dsimp only
    split_ifs <;> first
      | exact (Advances.refl L).set_error _
      | exact (Advances.one _).trans (ih _ _)

theorem parse_unicode_escape_advances (L : Lexer) : Advances L (parse_unicode_escape L).2 :=
  ((Advances.one L).trans (Advances.one _)).trans (parse_unicode_escape_loop_advances _ _ _)

theorem read_identifier_loop_advances (fuel : Nat) (L : Lexer) :
    Advances L (read_identifier_loop fuel L).2 := by
  induction fuel generalizing L with
  | zero => exact Advances.refl L
  | succ n ih =>
    unfold read_identifier_loop
    dsimp only
    split_ifs
    · have h := parse_unicode_escape_advances L
      split
      · next L1 heq => rw [heq] at h; exact h
      · next v L1 heq => rw [heq] at h; exact h.trans (ih _)
    · exact (Advances.one _).trans (ih _)
    · exact Advances.refl _
    · exact Advances.refl _

theorem read_identifier_advances (L : Lexer) (start : Position) :
    TokStep L start (read_identifier L start) := by
  have h := read_identifier_loop_advances (L.source_length - L.current) L
  unfold read_identifier TokStep TokSpan
  dsimp only
  split
  · next L1 heq => rw [heq] at h; exact ⟨h, by intro T hT; cases hT⟩
  · next L1 heq =>
    rw [heq] at h
    refine ⟨h, ?_⟩
    intro T hT
    cases hT
    exact ⟨rfl, rfl⟩

theorem advance_while_loop_advances (p : Nat → Bool) (fuel : Nat) (L : Lexer) :
    Advances L (advance_while_loop p fuel L) := by
  induction fuel generalizing L with
  | zero => exact Advances.refl L
  | succ n ih =>
    unfold advance_while_loop
    split_ifs <;> first | exact Advances.refl _ | exact (Advances.one _).trans (ih _)

theorem advance_while_advances (p : Nat → Bool) (L : Lexer) : Advances L (advance_while p L) :=
  advance_while_loop_advances p _ L

theorem read_number_radix_advances (first : Nat) (L : Lexer) :
    Advances L (read_number_radix first L) := by
  unfold read_number_radix
  dsimp only
  split_ifs <;> first
    | exact Advances.refl _
    | exact (Advances.one _).trans (advance_while_advances _ _)

theorem read_number_fraction_advances (L : Lexer) : Advances L (read_number_fraction L) := by
  unfold read_number_fraction
  split_ifs <;> first
    | exact Advances.refl _
    | exact (Advances.one _).trans (advance_while_advances _ _)

theorem read_number_exponent_advances (L : Lexer) : Advances L (read_number_exponent L) := by
  unfold read_number_exponent
  dsimp only
  split_ifs <;> first
    | exact Advances.refl _
    | exact (Advances.one _).trans (advance_while_advances _ _)
    | exact ((Advances.one _).trans (Advances.one _)).trans (advance_while_advances _ _)

theorem read_number_advances (L : Lexer) (start : Position) :
    TokStep L start (read_number L start) := by
  refine ⟨?_, ?_⟩
  · simp only [read_number]
    exact (((read_number_radix_advances _ L).trans (advance_while_advances _ _)).trans
      (read_number_fraction_advances _)).trans (read_number_exponent_advances _)
  · intro T hT
    simp only [read_number, Option.some.injEq] at hT
    subst hT
    simp only [read_number, token_create, and_self]

theorem read_string_loop_advances (quote fuel : Nat) (L : Lexer) :
    Advances L (read_string_loop quote fuel L).2 := by
  induction fuel generalizing L with
  | zero => exact Advances.refl L
  | succ n ih =>
    unfold read_string_loop
    dsimp only
    split_ifs <;> first
      | exact Advances.refl _
      | exact Advances.one _
      | exact (Advances.refl _).set_error _
      | exact (Advances.one _).trans (ih _)
      | exact ((Advances.one _).trans (Advances.one _)).trans (ih _)

theorem read_string_advances (L : Lexer) (start : Position) (quote : Nat) :
    TokStep L start (read_string L start quote) := by
  have h := read_string_loop_advances quote (L.source_length - L.current) L
  unfold read_string TokStep TokSpan
  dsimp only
  split
  · next L1 heq => rw [heq] at h; exact ⟨h, by intro T hT; cases hT⟩
  · next L1 heq =>
    rw [heq] at h
    refine ⟨h, ?_⟩
    intro T hT
    cases hT
    exact ⟨rfl, rfl⟩

theorem read_template_loop_advances (fuel : Nat) (L : Lexer) :
    Advances L (read_template_loop fuel L) := by
  induction fuel generalizing L with
  | zero => exact Advances.refl L
  | succ n ih =>
    unfold read_template_loop
    dsimp only
    split_ifs <;> first
      | exact Advances.refl _
      | exact Advances.one _
      | exact (Advances.one _).trans (ih _)
      | exact ((Advances.one _).trans (Advances.one _)).trans (ih _)

theorem read_template_advances (L : Lexer) (start : Position) :
    TokStep L start (read_template L start) := by
  refine ⟨read_template_loop_advances _ _, ?_⟩
  intro T hT
  unfold read_template at hT ⊢
  cases hT
  exact ⟨rfl, rfl⟩

theorem read_regex_class_loop_advances (fuel : Nat) (L : Lexer) :
    Advances L (read_regex_class_loop fuel L) := by
  induction fuel generalizing L with
  | zero => exact Advances.refl L
  | succ n ih =>
    unfold read_regex_class_loop
    dsimp only
    split_ifs <;> first
      | exact Advances.refl _
      | exact Advances.one _
      | exact (Advances.one _).trans (ih _)
      | exact ((Advances.one _).trans (Advances.one _)).trans (ih _)

theorem read_regex_loop_advances (fuel : Nat) (L : Lexer) :
    Advances L (read_regex_loop fuel L).2 := by
  induction fuel generalizing L with
  | zero => exact Advances.refl L
  | succ n ih =>
    unfold read_regex_loop
    dsimp only
    split_ifs <;> first
      | exact Advances.refl _
      | exact (Advances.refl _).set_error _
      | exact (Advances.one _).trans (advance_while_advances _ _)
      | exact (Advances.one _).trans (ih _)
      | exact ((Advances.one _).trans (Advances.one _)).trans (ih _)
      | exact ((Advances.one _).trans (read_regex_class_loop_advances _ _)).trans (ih _)

theorem read_regex_advances (L : Lexer) (start : Position) :
    TokStep L start (read_regex L start) := by
  have h := read_regex_loop_advances (L.source_length - L.current) L
  unfold read_regex TokStep TokSpan
  dsimp only
  split
  · next L1 heq => rw [heq] at h; exact ⟨h, by intro T hT; cases hT⟩
  · next L1 heq =>
    rw [heq] at h
    refine ⟨h, ?_⟩
    intro T hT
    cases hT
    exact ⟨rfl, rfl⟩

theorem lexer_next_token_trivia_loop_advances (fuel : Nat) (L : Lexer) :
    Advances L (lexer_next_token_trivia_loop fuel L).2 := by
  induction fuel generalizing L with
  | zero => exact Advances.refl L
  | succ n ih =>
    unfold lexer_next_token_trivia_loop
    dsimp only
    have hw : Advances L (skip_whitespace L) := skip_whitespace_loop_advances _ _
    split_ifs
    · exact hw
    · exact (hw.trans (skip_line_comment_advances _)).trans (ih _)
    · have hb := skip_block_comment_advances (skip_whitespace L)
      split
      · next L2 heq => rw [heq] at hb; exact hw.trans hb
      · next L2 heq => rw [heq] at hb; exact (hw.trans hb).trans (ih _)
    · exact hw
    · exact Advances.refl _

theorem finish_token_advances (had_newline : Bool) (start : Position) (L : Lexer)
    (r : Option Token × Lexer) (h : TokStep L start r) :
    TokStep L start (finish_token had_newline r) := by
  obtain ⟨o, L1⟩ := r
  cases o with
  | none => exact ⟨h.1, by intro T hT; cases hT⟩
  | some t =>
    refine ⟨h.1.set_prev _, ?_⟩
    intro T hT
    cases hT
    exact h.2 t rfl

theorem lexer_next_token_single_advances (L : Lexer) (ch : Nat) (start : Position)
    (had_newline : Bool) :
    TokStep L start (lexer_next_token_single L ch start had_newline) := by
  unfold lexer_next_token_single
  dsimp only
  split_ifs
  · exact finish_token_advances _ _ _ _ (read_regex_advances L start)
  · exact ⟨(Advances.refl L).set_prev _, by intro T hT; cases hT; exact ⟨rfl, rfl⟩⟩
  · split
    · exact ⟨(Advances.refl L).set_prev _, by intro T hT; cases hT; exact ⟨rfl, rfl⟩⟩
    · exact ⟨(Advances.refl L).set_error _, by intro T hT; cases hT⟩

theorem ite_both {α : Type} {P : α → Prop} {c : Prop} [Decidable c] {a b : α}
    (ha : P a) (hb : P b) : P (if c then a else b) := by
  split <;> assumption

theorem operator_token_advances (L0 L : Lexer) (type : TokenType) (lit : String) (len : Nat)
    (start : Position) (had_newline : Bool) (h : Advances L0 L) :
    TokStep L0 start (operator_token L type lit len start had_newline) :=
  ⟨h, by intro T hT; cases hT; exact ⟨rfl, rfl⟩⟩

theorem lexer_next_token_operator_advances (L : Lexer) (ch : Nat) (start : Position)
    (had_newline : Bool) :
    TokStep L start (lexer_next_token_operator L ch start had_newline) := by
  unfold lexer_next_token_operator
  dsimp only
  repeat' first
    | exact lexer_next_token_single_advances L ch start had_newline
    | refine ite_both (P := TokStep L start) ?_ ?_
    | exact operator_token_advances _ _ _ _ _ _ _ (Advances.one _)
    | exact operator_token_advances _ _ _ _ _ _ _ ((Advances.one _).trans (Advances.one _))
    | exact operator_token_advances _ _ _ _ _ _ _
        (((Advances.one _).trans (Advances.one _)).trans (Advances.one _))

theorem token_start_state_advances (L : Lexer) : Advances L (token_start_state L) :=
  (lexer_next_token_trivia_loop_advances _ _).set_flag _

theorem lexer_next_token_advances (L : Lexer) :
    TokStep (token_start_state L) (token_start_state L).position (lexer_next_token L) := by
  unfold lexer_next_token token_start_state
  split
  · next L1 heq =>
    rw [heq]
    exact ⟨(Advances.refl _).set_flag _, by intro T hT; cases hT⟩
  · next L1 heq =>
    rw [heq]
    dsimp only
    split_ifs
    · exact ⟨Advances.refl _, by intro T hT; cases hT; exact ⟨rfl, rfl⟩⟩
    · have := read_identifier_advances (advance { L1 with last_was_newline := false }).2
        ({ L1 with last_was_newline := false } : Lexer).position
      have := finish_token_advances L1.last_was_newline _ (advance { L1 with last_was_newline := false }).2 _ this
      exact ⟨(Advances.one _).trans this.1, this.2⟩
    · have := read_number_advances (advance { L1 with last_was_newline := false }).2
        ({ L1 with last_was_newline := false } : Lexer).position
      have := finish_token_advances L1.last_was_newline _ (advance { L1 with last_was_newline := false }).2 _ this
      exact ⟨(Advances.one _).trans this.1, this.2⟩
    · have := read_string_advances (advance { L1 with last_was_newline := false }).2
        ({ L1 with last_was_newline := false } : Lexer).position
        (advance { L1 with last_was_newline := false }).1
      have := finish_token_advances L1.last_was_newline _ (advance { L1 with last_was_newline := false }).2 _ this
      exact ⟨(Advances.one _).trans this.1, this.2⟩
    · have := read_template_advances (advance { L1 with last_was_newline := false }).2
        ({ L1 with last_was_newline := false } : Lexer).position
      have := finish_token_advances L1.last_was_newline _ (advance { L1 with last_was_newline := false }).2 _ this
      exact ⟨(Advances.one _).trans this.1, this.2⟩
    · have := lexer_next_token_operator_advances (advance { L1 with last_was_newline := false }).2
        (advance { L1 with last_was_newline := false }).1
        ({ L1 with last_was_newline := false } : Lexer).position L1.last_was_newline
      exact ⟨(Advances.one _).trans this.1, this.2⟩

theorem peek_eq (L : Lexer) (k : Nat) : peek L k = L.source.getD (L.current + k) 0 := by
  unfold peek Lexer.source_length
  dsimp only
  split_ifs with h
  · rw [List.getD_eq_default _ _ h]
  · rfl

theorem advance_source (L : Lexer) : (advance L).2.source = L.source := by
  unfold advance
  dsimp only
  split_ifs <;> rfl

theorem advance_at_end (L : Lexer) (h : L.source.length ≤ L.current) : advance L = (0, L) := by
  unfold advance Lexer.source_length
  simp [h]

theorem CursorInv.create (src : List Nat) (e : Option ErrorInfo) :
    CursorInv (lexer_create src e) := by
  constructor <;> simp [lexer_create, line_terminator_count, bytes_since_line_terminator]

theorem CursorInv.advance {L : Lexer} (h : CursorInv L) : CursorInv (advance L).2 := by
  obtain ⟨h1, h2, h3, h4, h5⟩ := h
  by_cases hend : L.source.length ≤ L.current
  · rw [advance_at_end L hend]; exact ⟨h1, h2, h3, h4, h5⟩
  · have hlt : L.current < L.source.length := by omega
    have hnext : L.source.getD (L.current + 1) 0 = 10 → L.current + 1 < L.source.length := by
      intro c3
      by_contra hh
      rw [List.getD_eq_default _ _ (by omega)] at c3
      omega
    unfold JSC.advance
    simp only [Lexer.source_length, ge_iff_le, hend, ↓reduceIte, peek_eq, Nat.add_zero]
    split_ifs with c1 c2 c3
    all_goals constructor
    all_goals simp only [line_terminator_count, bytes_since_line_terminator, Nat.add_sub_cancel,
      Nat.lt_add_one, Nat.zero_lt_succ, true_and]
    all_goals try split_ifs
    all_goals omega

theorem CursorInv.of_advances {L L' : Lexer} (h : Advances L L') (hi : CursorInv L) :
    CursorInv L' := by
  induction h with
  | refl => exact hi
  | adv _ ih => exact ih.advance
  | upd e f p _ ih => exact ⟨ih.1, ih.2, ih.3, ih.4, ih.5⟩

theorem advance_mono (L : Lexer) :
    L.current ≤ (advance L).2.current ∧ L.position.offset ≤ (advance L).2.position.offset ∧
      L.position.le_line_column (advance L).2.position := by
  unfold advance Position.le_line_column
  dsimp only
  split_ifs <;> dsimp only <;> omega

theorem Position.le_line_column_trans {p q r : Position} (h1 : p.le_line_column q)
    (h2 : q.le_line_column r) : p.le_line_column r := by
  unfold Position.le_line_column at *
  omega

theorem Advances.mono {L L' : Lexer} (h : Advances L L') :
    L'.source = L.source ∧ L.current ≤ L'.current ∧ L.position.offset ≤ L'.position.offset ∧
      L.position.le_line_column L'.position := by
  induction h with
  | refl => exact ⟨rfl, le_refl _, le_refl _, Or.inr ⟨rfl, le_refl _⟩⟩
  | @adv L2 _ ih =>
    have := advance_mono L2
    exact ⟨(advance_source L2).trans ih.1, le_trans ih.2.1 this.1, le_trans ih.2.2.1 this.2.1,
      Position.le_line_column_trans ih.2.2.2 this.2.2⟩
  | upd e f p _ ih => exact ih

theorem lexer_next_token_advances_full (L : Lexer) : Advances L (lexer_next_token L).2 :=
  (token_start_state_advances L).trans (lexer_next_token_advances L).1

theorem lexer_after_advances (src : List Nat) (e : Option ErrorInfo) (i j : Nat) (h : i ≤ j) :
    Advances (lexer_after src e i) (lexer_after src e j) := by
  induction j with
  | zero =>
    have : i = 0 := by omega
    subst this
    exact Advances.refl _
  | succ n ih =>
    by_cases hi : i = n + 1
    · subst hi; exact Advances.refl _
    · exact (ih (by omega)).trans (lexer_next_token_advances_full _)

theorem lexer_after_inv (src : List Nat) (e : Option ErrorInfo) (k : Nat) :
    CursorInv (lexer_after src e k) :=
  CursorInv.of_advances (lexer_after_advances src e 0 k (Nat.zero_le k)) (CursorInv.create src e)

theorem Advances.source_create {src : List Nat} {e : Option ErrorInfo} {L : Lexer}
    (h : Advances (lexer_create src e) L) : L.source = src := h.mono.1

/-- The span of the token of one call: it starts where the trivia ends and ends
at the cursor position after the call. -/
theorem token_at_span (src : List Nat) (e : Option ErrorInfo) (k : Nat) (T : Token)
    (h : token_at src e k = some T) :
    T.start = (token_start_state (lexer_after src e k)).position ∧
      T.end_ = (lexer_after src e (k + 1)).position :=
  (lexer_next_token_advances (lexer_after src e k)).2 T h

/-- C9 (position monotonicity). Between any two calls of `lexer_next_token` the
field `position.offset` equals the byte cursor `current`; and for tokens `A`,
`B` returned by an earlier and a later call, `A.start.offset ≤ A.end.offset ≤
B.start.offset` and the `(line, column)` pair of `A.start` is lexicographically
at most that of `B.start`. -/
theorem position_monotonicity (src : List Nat) (e : Option ErrorInfo) (k : Nat) :
    (lexer_after src e k).position.offset = (lexer_after src e k).current ∧
    ∀ i j A B, i < j → token_at src e i = some A → token_at src e j = some B →
      A.start.offset ≤ A.end_.offset ∧ A.end_.offset ≤ B.start.offset ∧
      A.start.le_line_column B.start := by
  refine ⟨(lexer_after_inv src e k).offset_eq, ?_⟩
  intro i j A B hij hA hB
  obtain ⟨hAs, hAe⟩ := token_at_span src e i A hA
  obtain ⟨hBs, _⟩ := token_at_span src e j B hB
  have m1 := (lexer_next_token_advances (lexer_after src e i)).1.mono
  have m2 := (lexer_after_advances src e (i + 1) j (by omega)).mono
  have m3 := (token_start_state_advances (lexer_after src e j)).mono
  have e1 : (lexer_next_token (lexer_after src e i)).2 = lexer_after src e (i + 1) := rfl
  rw [e1] at m1
  rw [hAs, hAe, hBs]
  refine ⟨m1.2.2.1, le_trans m2.2.2.1 m3.2.2.1, ?_⟩
  exact Position.le_line_column_trans m1.2.2.2
    (Position.le_line_column_trans m2.2.2.2 m3.2.2.2)

/-- C10 (line counting). In every state the lexer reaches from `lexer_create`
by calls of `advance`, `line` is 1 plus the number of logical line terminators
among the consumed bytes, `column` is 1 plus the number of bytes consumed since
the last line terminator, and the cursor is not between the bytes of a `\r\n`
pair: from a cursor at `\r` followed by `\n`, one `advance` consumes both
(cursor and offset move by 2, the line by 1). -/
theorem line_counting (src : List Nat) (e : Option ErrorInfo) (L : Lexer)
    (h : Advances (lexer_create src e) L) :
    L.position.line = 1 + line_terminator_count src L.current ∧
    L.position.column = 1 + bytes_since_line_terminator src L.current ∧
    ¬ (0 < L.current ∧ src.getD (L.current - 1) 0 = 13 ∧ src.getD L.current 0 = 10) ∧
    (src.getD L.current 0 = 13 → src.getD (L.current + 1) 0 = 10 →
      (advance L).2.current = L.current + 2 ∧
      (advance L).2.position.offset = L.position.offset + 2 ∧
      (advance L).2.position.line = L.position.line + 1) := by
  have hi := CursorInv.of_advances h (CursorInv.create src e)
  have hs : L.source = src := h.source_create
  refine ⟨hs ▸ hi.line_eq, hs ▸ hi.column_eq, hs ▸ hi.no_split, ?_⟩
  intro c1 c2
  have hlt : L.current + 1 < L.source.length := by
    by_contra hh
    rw [← hs, List.getD_eq_default _ _ (by omega)] at c2
    omega
  rw [← hs] at c1 c2
  unfold advance
  have hend : ¬ L.current ≥ L.source_length := by unfold Lexer.source_length; omega
  simp only [hend, ↓reduceIte, peek_eq, Nat.add_zero, c1, c2]
  simp

theorem line_counting_witness :
    Advances (lexer_create [97, 13, 10, 98] none)
        (advance (advance (lexer_create [97, 13, 10, 98] none)).2).2 ∧
      (advance (advance (lexer_create [97, 13, 10, 98] none)).2).2.position.line =
        1 + line_terminator_count [97, 13, 10, 98]
          (advance (advance (lexer_create [97, 13, 10, 98] none)).2).2.current :=
  ⟨Advances.adv (Advances.adv (Advances.refl _)),
   (line_counting [97, 13, 10, 98] none _ (Advances.adv (Advances.adv (Advances.refl _)))).1⟩

theorem position_monotonicity_witness :
    (0 : Nat) < 1 ∧
    token_at (cstr "a\n b") none 0 = some
      { type := .TOKEN_IDENTIFIER, value := some [97], length := 1,
        start := ⟨1, 1, 0⟩, end_ := ⟨1, 2, 1⟩, preceded_by_newline := false } ∧
    token_at (cstr "a\n b") none 1 = some
      { type := .TOKEN_IDENTIFIER, value := some [98], length := 1,
        start := ⟨2, 2, 3⟩, end_ := ⟨2, 3, 4⟩, preceded_by_newline := true } ∧
    ((0 : Nat) ≤ 1 ∧ (1 : Nat) ≤ 3 ∧ Position.le_line_column ⟨1, 1, 0⟩ ⟨2, 2, 3⟩) :=
  ⟨by decide, by decide, by decide,
   (position_monotonicity (cstr "a\n b") none 0).2 0 1
     { type := .TOKEN_IDENTIFIER, value := some [97], length := 1,
       start := ⟨1, 1, 0⟩, end_ := ⟨1, 2, 1⟩, preceded_by_newline := false }
     { type := .TOKEN_IDENTIFIER, value := some [98], length := 1,
       start := ⟨2, 2, 3⟩, end_ := ⟨2, 3, 4⟩, preceded_by_newline := true }
     (by decide) (by decide) (by decide)⟩

theorem operator_spellings_eq : operator_spellings =
  [[40], [41], [123], [125], [91], [93], [59], [44], [46], [58], [63], [43], [45], [42], [47], [37], [42, 42], [43, 43], [45, 45], [61], [43, 61], [45, 61], [42, 61], [47, 61], [37, 61], [42, 42, 61], [60, 60, 61], [62, 62, 61], [62, 62, 62, 61], [38, 61], [124, 61], [94, 61], [38, 38, 61], [124, 124, 61], [63, 63, 61], [61, 61], [33, 61], [61, 61, 61], [33, 61, 61], [60], [60, 61], [62], [62, 61], [38, 38], [124, 124], [33], [63, 63], [38], [124], [94], [126], [60, 60], [62, 62], [62, 62, 62], [61, 62], [46, 46, 46], [63, 46]] := by
  decide

theorem finish_read_regex_type (hn : Bool) (L : Lexer) (start : Position) (T : Token)
    (L' : Lexer) (h : finish_token hn (read_regex L start) = (some T, L')) :
    T.type = .TOKEN_REGEX := by
  unfold read_regex at h
  dsimp only at h
  split at h
  · simp [finish_token] at h
  · simp only [finish_token, Prod.mk.injEq, Option.some.injEq] at h
    rw [← h.1]
    simp only [token_create]

theorem advance_ordinary (L : Lexer) (h0 : peek L 0 ≠ 0) (h10 : peek L 0 ≠ 10)
    (h13 : peek L 0 ≠ 13) :
    (advance L).2.current = L.current + 1 ∧ (advance L).1 = peek L 0 := by
  rw [peek_eq] at h0 h10 h13
  have hlt : ¬ L.current ≥ L.source_length := by
    intro hge
    unfold Lexer.source_length at hge
    rw [List.getD_eq_default _ _ (by omega)] at h0
    exact h0 rfl
  rw [peek_eq]
  simp only [Nat.add_zero] at h0 h10 h13 ⊢
  unfold advance
  simp only [hlt, ↓reduceIte, h10, h13, and_self]

theorem peek_advance (L : Lexer) (k : Nat) (h0 : peek L 0 ≠ 0) (h10 : peek L 0 ≠ 10)
    (h13 : peek L 0 ≠ 13) : peek (advance L).2 k = peek L (k + 1) := by
  rw [peek_eq, peek_eq, advance_source, (advance_ordinary L h0 h10 h13).1]
  congr 1
  omega

set_option maxHeartbeats 4000000 in
theorem operator_munch (L : Lexer) (ch : Nat) (start : Position) (hn : Bool) (T : Token)
    (L' : Lexer)
    (h : lexer_next_token_operator L ch start hn = (some T, L'))
    (hk : is_operator_kind T.type = true) :
    ∀ op ∈ operator_spellings,
      (∀ j < op.length, [ch, peek L 0, peek L 1, peek L 2].getD j 0 = op.getD j 0) →
      op.length ≤ T.length := by
  intro op hop hp
  rw [operator_spellings_eq] at hop
  have h0 := hp 0
  have h1 := hp 1
  have h2 := hp 2
  have h3 := hp 3
  clear hp
  simp only [List.mem_cons, List.mem_singleton, List.not_mem_nil, or_false] at hop
  rcases hop with rfl | rfl | rfl | rfl | rfl | rfl | rfl | rfl | rfl | rfl | rfl | rfl | rfl | rfl | rfl | rfl | rfl | rfl | rfl | rfl | rfl | rfl | rfl | rfl | rfl | rfl | rfl | rfl | rfl | rfl | rfl | rfl | rfl | rfl | rfl | rfl | rfl | rfl | rfl | rfl | rfl | rfl | rfl | rfl | rfl | rfl | rfl | rfl | rfl | rfl | rfl | rfl | rfl | rfl | rfl | rfl | rfl
  all_goals simp at h0 h1 h2 h3
  all_goals subst h0
  all_goals simp [lexer_next_token_operator, lexer_next_token_single, single_char_type,
    operator_token, token_create, peek_advance, *] at h
  all_goals try split_ifs at h
  all_goals first
    | (obtain ⟨rfl, -⟩ := h; simp)
    | (have ht := finish_read_regex_type _ _ _ _ _ h; rw [ht] at hk; simp [is_operator_kind] at hk)

theorem advance_step (L : Lexer) (hlt : L.current < L.source.length)
    (h10 : L.source.getD L.current 0 ≠ 10) (h13 : L.source.getD L.current 0 ≠ 13) :
    (advance L).2.current = L.current + 1 ∧ (advance L).1 = L.source.getD L.current 0 := by
  have hlt2 : ¬ L.current ≥ L.source_length := by unfold Lexer.source_length; omega
  unfold advance
  simp only [hlt2, ↓reduceIte, h10, h13, and_self]

theorem advance_fst (L : Lexer) (hlt : L.current < L.source.length) :
    (advance L).1 = L.source.getD L.current 0 := by
  have hlt2 : ¬ L.current ≥ L.source_length := by unfold Lexer.source_length; omega
  unfold advance
  simp only [hlt2, ↓reduceIte]
  split_ifs <;> rfl

/-- The result of `lexer_next_token` once the trivia loop has succeeded, in terms
of the state `token_start_state L` in which the token starts. -/
theorem lexer_next_token_eq (L : Lexer)
    (ht : (lexer_next_token_trivia_loop (L.source_length - L.current) L).1 = true) :
    lexer_next_token L =
      if (token_start_state L).current ≥ (token_start_state L).source_length then
        (some (token_create .TOKEN_EOF none 0 (token_start_state L).position
          (token_start_state L).position
          (lexer_next_token_trivia_loop (L.source_length - L.current) L).2.last_was_newline),
          token_start_state L)
      else if is_unicode_id_start (char_to_u8 (advance (token_start_state L)).1) = true ∨
          (advance (token_start_state L)).1 = 36 then
        finish_token (lexer_next_token_trivia_loop (L.source_length - L.current) L).2.last_was_newline
          (read_identifier (advance (token_start_state L)).2 (token_start_state L).position)
      else if isdigit (advance (token_start_state L)).1 = true then
        finish_token (lexer_next_token_trivia_loop (L.source_length - L.current) L).2.last_was_newline
          (read_number (advance (token_start_state L)).2 (token_start_state L).position)
      else if (advance (token_start_state L)).1 = 34 ∨ (advance (token_start_state L)).1 = 39 then
        finish_token (lexer_next_token_trivia_loop (L.source_length - L.current) L).2.last_was_newline
          (read_string (advance (token_start_state L)).2 (token_start_state L).position
            (advance (token_start_state L)).1)
      else if (advance (token_start_state L)).1 = 96 then
        finish_token (lexer_next_token_trivia_loop (L.source_length - L.current) L).2.last_was_newline
          (read_template (advance (token_start_state L)).2 (token_start_state L).position)
      else
        lexer_next_token_operator (advance (token_start_state L)).2
          (advance (token_start_state L)).1 (token_start_state L).position
          (lexer_next_token_trivia_loop (L.source_length - L.current) L).2.last_was_newline := by
  unfold lexer_next_token token_start_state
  split
  · next L1 heq => rw [heq] at ht; cases ht
  · next L1 heq => rw [heq]

theorem lexer_next_token_trivia_failed (L : Lexer)
    (ht : (lexer_next_token_trivia_loop (L.source_length - L.current) L).1 = false) :
    (lexer_next_token L).1 = none := by
  unfold lexer_next_token
  split
  · rfl
  · next L1 heq => rw [heq] at ht; cases ht

theorem keywords_not_operator :
    ∀ p ∈ keywords, is_operator_kind p.2 = false := by
  decide

theorem is_keyword_scan_mem (str : List Nat) (len : Nat) (tbl : List (List Nat × TokenType))
    (t : TokenType) (h : is_keyword_scan str len tbl = some t) : ∃ p ∈ tbl, p.2 = t := by
  induction tbl with
  | nil => simp [is_keyword_scan] at h
  | cons p rest ih =>
    obtain ⟨kw, ty⟩ := p
    unfold is_keyword_scan at h
    split_ifs at h
    · exact ⟨(kw, ty), List.mem_cons_self _ _, by simpa using h⟩
    · obtain ⟨q, hq, hq2⟩ := ih h
      exact ⟨q, List.mem_cons_of_mem _ hq, hq2⟩

theorem read_identifier_type (hn : Bool) (L : Lexer) (start : Position) (T : Token) (L' : Lexer)
    (h : finish_token hn (read_identifier L start) = (some T, L')) :
    is_operator_kind T.type = false := by
  unfold read_identifier at h
  dsimp only at h
  split at h
  · simp [finish_token] at h
  · simp only [finish_token, Prod.mk.injEq, Option.some.injEq] at h
    rw [← h.1]
    simp only [token_create]
    split
    · next t ht =>
      obtain ⟨p, hp, hp2⟩ := is_keyword_scan_mem _ _ _ _ ht
      rw [← hp2]
      exact keywords_not_operator p hp
    · rfl

theorem read_number_type (hn : Bool) (L : Lexer) (start : Position) (T : Token) (L' : Lexer)
    (h : finish_token hn (read_number L start) = (some T, L')) :
    T.type = .TOKEN_NUMBER := by
  simp only [read_number, finish_token, Prod.mk.injEq, Option.some.injEq] at h
  rw [← h.1]
  simp only [token_create]

theorem read_string_type (hn : Bool) (L : Lexer) (start : Position) (q : Nat) (T : Token)
    (L' : Lexer) (h : finish_token hn (read_string L start q) = (some T, L')) :
    T.type = .TOKEN_STRING := by
  unfold read_string at h
  dsimp only at h
  split at h
  · simp [finish_token] at h
  · simp only [finish_token, Prod.mk.injEq, Option.some.injEq] at h
    rw [← h.1]
    simp only [token_create]

theorem read_template_type (hn : Bool) (L : Lexer) (start : Position) (T : Token) (L' : Lexer)
    (h : finish_token hn (read_template L start) = (some T, L')) :
    T.type = .TOKEN_TEMPLATE := by
  simp only [read_template, finish_token, Prod.mk.injEq, Option.some.injEq] at h
  rw [← h.1]
  simp only [token_create]

/-- An operator or punctuator token comes out of the operator part of
`lexer_next_token`, entered one byte after the state in which the token starts. -/
theorem operator_token_origin (L : Lexer) (T : Token) (h : (lexer_next_token L).1 = some T)
    (hk : is_operator_kind T.type = true) :
    (token_start_state L).current < (token_start_state L).source.length ∧
    ∃ hn L', lexer_next_token_operator (advance (token_start_state L)).2
      (advance (token_start_state L)).1 (token_start_state L).position hn = (some T, L') := by
  cases ht : (lexer_next_token_trivia_loop (L.source_length - L.current) L).1 with
  | false => rw [lexer_next_token_trivia_failed L ht] at h; cases h
  | true =>
    rw [lexer_next_token_eq L ht] at h
    split_ifs at h with c1 c2 c3 c4 c5
    · simp only [Option.some.injEq] at h
      rw [← h] at hk
      simp [token_create, is_operator_kind] at hk
    · have := read_identifier_type _ _ _ T _ (Prod.ext h rfl)
      rw [this] at hk; cases hk
    · have := read_number_type _ _ _ T _ (Prod.ext h rfl)
      rw [this] at hk; simp [is_operator_kind] at hk
    · have := read_string_type _ _ _ _ T _ (Prod.ext h rfl)
      rw [this] at hk; simp [is_operator_kind] at hk
    · have := read_template_type _ _ _ T _ (Prod.ext h rfl)
      rw [this] at hk; simp [is_operator_kind] at hk
    · refine ⟨?_, _, _, Prod.ext h rfl⟩
      unfold Lexer.source_length at c1
      omega

theorem operator_newline_none (L : Lexer) (ch : Nat) (start : Position) (hn : Bool)
    (h : ch = 10 ∨ ch = 13) : (lexer_next_token_operator L ch start hn).1 = none := by
  rcases h with rfl | rfl <;>
    simp [lexer_next_token_operator, lexer_next_token_single, single_char_type]

theorem prefix_getD (op l : List Nat) (h : op <+: l) (j : Nat) (hj : j < op.length) :
    l.getD j 0 = op.getD j 0 := by
  obtain ⟨t, rfl⟩ := h
  rw [List.getD_append _ _ _ _ hj]

theorem operator_spellings_length : ∀ op ∈ operator_spellings, op.length ≤ 4 := by
  decide

/-- C8 (maximal munch). For every operator or punctuator token `T` returned by a
call of `lexer_next_token` on `src`, no spelling of the recognized operator set
that is longer than `T`'s lexeme is a prefix of the source at `T.start.offset`. -/
theorem maximal_munch (src : List Nat) (e : Option ErrorInfo) (k : Nat) (T : Token)
    (h : token_at src e k = some T) (hk : is_operator_kind T.type = true) :
    ∀ op ∈ operator_spellings, T.length < op.length → ¬ (op <+: src.drop T.start.offset) := by
  intro op hop hlen hpre
  have hadv := (lexer_after_advances src e 0 k (Nat.zero_le k)).trans
    (token_start_state_advances (lexer_after src e k))
  have hinv := CursorInv.of_advances hadv (CursorInv.create src e)
  have hsrc : (token_start_state (lexer_after src e k)).source = src := hadv.source_create
  obtain ⟨hlt, hn, L', hop'⟩ := operator_token_origin (lexer_after src e k) T h hk
  have hstart := (token_at_span src e k T h).1
  generalize token_start_state (lexer_after src e k) = S at *
  have hoff : T.start.offset = S.current := by rw [hstart, hinv.offset_eq]
  have hnl : ¬ ((advance S).1 = 10 ∨ (advance S).1 = 13) := by
    intro hc
    have := operator_newline_none (advance S).2 (advance S).1 S.position hn hc
    rw [hop'] at this
    cases this
  rw [advance_fst S hlt] at hnl
  have hstep := advance_step S hlt (by tauto) (by tauto)
  have hwin : ∀ j < op.length,
      [(advance S).1, peek (advance S).2 0, peek (advance S).2 1, peek (advance S).2 2].getD j 0 =
        op.getD j 0 := by
    intro j hj
    have h4 := operator_spellings_length op hop
    have hg := prefix_getD op _ hpre j hj
    rw [hoff, List.getD_eq_getElem?_getD, List.getElem?_drop, ← List.getD_eq_getElem?_getD,
      ← hsrc] at hg
    rw [← hg]
    simp only [peek_eq, advance_source, hstep.1, hstep.2]
    have : j = 0 ∨ j = 1 ∨ j = 2 ∨ j = 3 := by omega
    rcases this with rfl | rfl | rfl | rfl <;> simp [Nat.add_assoc]
  have := operator_munch _ _ _ _ T L' hop' hk op hop hwin
  omega

theorem maximal_munch_witness :
    token_at (cstr "a>>b") none 1 = some
      { type := .TOKEN_RSHIFT, value := some [62, 62], length := 2,
        start := ⟨1, 2, 1⟩, end_ := ⟨1, 4, 3⟩, preceded_by_newline := false } ∧
    ∀ op ∈ operator_spellings, 2 < op.length → ¬ (op <+: (cstr "a>>b").drop 1) :=
  ⟨by decide,
   maximal_munch (cstr "a>>b") none 1
     { type := .TOKEN_RSHIFT, value := some [62, 62], length := 2,
       start := ⟨1, 2, 1⟩, end_ := ⟨1, 4, 3⟩, preceded_by_newline := false }
     (by decide) (by decide)⟩

/-- C6, counterexample: `+=` is an assignment form, so it is in the set as the
specification words it, but `can_precede_regex` is false for it. -/
theorem can_precede_regex_compound_assignment :
    TokenType.TOKEN_PLUS_ASSIGN ∈ spec_regex_context ∧
      can_precede_regex .TOKEN_PLUS_ASSIGN = false := by
  decide

/-- C6, amended: `can_precede_regex` is true exactly for the 22 kinds `=`, `(`,
`[`, `{`, `,`, `;`, `:`, `?`, `&&`, `||`, `!`, `~`, `==`, `!=`, `===`, `!==`,
`<`, `<=`, `>`, `>=`, `return`, `throw`, and false for every other kind (the
compound assignment operators included). -/
theorem can_precede_regex_exact (type : TokenType) :
    can_precede_regex type = true ↔
      type ∈ [TokenType.TOKEN_ASSIGN, .TOKEN_LPAREN, .TOKEN_LBRACKET, .TOKEN_LBRACE,
        .TOKEN_COMMA, .TOKEN_SEMICOLON, .TOKEN_COLON, .TOKEN_QUESTION, .TOKEN_AND, .TOKEN_OR,
        .TOKEN_NOT, .TOKEN_BITWISE_NOT, .TOKEN_EQ, .TOKEN_NE, .TOKEN_EQ_STRICT,
        .TOKEN_NE_STRICT, .TOKEN_LT, .TOKEN_LE, .TOKEN_GT, .TOKEN_GE, .TOKEN_RETURN,
        .TOKEN_THROW] := by
  cases type <;> decide

theorem advance_prev (L : Lexer) : (advance L).2.prev_token = L.prev_token := by
  unfold advance
  dsimp only
  split_ifs <;> rfl

theorem skip_whitespace_loop_prev (fuel : Nat) (L : Lexer) :
    (skip_whitespace_loop fuel L).prev_token = L.prev_token := by
  induction fuel generalizing L with
  | zero => rfl
  | succ n ih =>
    unfold skip_whitespace_loop
    dsimp only
    split_ifs <;> first | rfl | (rw [ih, advance_prev])

theorem skip_line_comment_loop_prev (fuel : Nat) (L : Lexer) :
    (skip_line_comment_loop fuel L).prev_token = L.prev_token := by
  induction fuel generalizing L with
  | zero => rfl
  | succ n ih =>
    unfold skip_line_comment_loop
    dsimp only
    split_ifs <;> first | rfl | (rw [ih, advance_prev])

theorem skip_line_comment_prev (L : Lexer) : (skip_line_comment L).prev_token = L.prev_token := by
  unfold skip_line_comment
  dsimp only
  rw [skip_line_comment_loop_prev, advance_prev, advance_prev]

theorem skip_block_comment_loop_prev (fuel : Nat) (L : Lexer) :
    (skip_block_comment_loop fuel L).2.prev_token = L.prev_token := by
  induction fuel generalizing L with
  | zero => rfl
  | succ n ih =>
    unfold skip_block_comment_loop
    dsimp only
    split_ifs <;> first | rfl | (rw [ih, advance_prev]) | (rw [advance_prev, advance_prev])

theorem skip_block_comment_prev (L : Lexer) :
    (skip_block_comment L).2.prev_token = L.prev_token := by
  have h := skip_block_comment_loop_prev ((advance (advance L).2).2.source_length -
      (advance (advance L).2).2.current) (advance (advance L).2).2
  rw [advance_prev, advance_prev] at h
  unfold skip_block_comment
  dsimp only
  split
  · next L3 heq => rw [heq] at h; exact h
  · next L3 heq => rw [heq] at h; exact h

theorem lexer_next_token_trivia_loop_prev (fuel : Nat) (L : Lexer) :
    (lexer_next_token_trivia_loop fuel L).2.prev_token = L.prev_token := by
  induction fuel generalizing L with
  | zero => rfl
  | succ n ih =>
    unfold lexer_next_token_trivia_loop
    dsimp only
    have hw : (skip_whitespace L).prev_token = L.prev_token := skip_whitespace_loop_prev _ _
    split_ifs
    · exact hw
    · rw [ih, skip_line_comment_prev, hw]
    · have hb := skip_block_comment_prev (skip_whitespace L)
      split
      · next L2 heq => rw [heq] at hb; exact hb.trans hw
      · next L2 heq => rw [heq] at hb; rw [ih]; exact hb.trans hw
    · exact hw
    · rfl

theorem token_start_state_prev (L : Lexer) : (token_start_state L).prev_token = L.prev_token :=
  lexer_next_token_trivia_loop_prev _ _

theorem finish_token_stored (hn : Bool) (r : Option Token × Lexer) :
    PrevStored (finish_token hn r) := by
  obtain ⟨o, L⟩ := r
  cases o with
  | none => intro A h; cases h
  | some t =>
    intro A h _
    simp only [finish_token, Option.some.injEq] at h
    subst h
    rfl

theorem operator_token_stored (L : Lexer) (type : TokenType) (lit : String) (len : Nat)
    (start : Position) (hn : Bool) (h : stores_prev_token type = false) :
    PrevStored (operator_token L type lit len start hn) := by
  intro A hA hs
  simp only [operator_token, Option.some.injEq] at hA
  subst hA
  simp only [token_create] at hs
  rw [h] at hs
  cases hs

theorem lexer_next_token_single_stored (L : Lexer) (ch : Nat) (start : Position) (hn : Bool) :
    PrevStored (lexer_next_token_single L ch start hn) := by
  unfold lexer_next_token_single
  dsimp only
  split_ifs
  · exact finish_token_stored _ _
  · intro A h _; simp only [Option.some.injEq] at h; subst h; rfl
  · split
    · intro A h _; simp only [Option.some.injEq] at h; subst h; rfl
    · intro A h; cases h

theorem lexer_next_token_operator_stored (L : Lexer) (ch : Nat) (start : Position) (hn : Bool) :
    PrevStored (lexer_next_token_operator L ch start hn) := by
  unfold lexer_next_token_operator
  dsimp only
  repeat' first
    | exact lexer_next_token_single_stored L ch start hn
    | refine ite_both (P := PrevStored) ?_ ?_
    | exact operator_token_stored _ _ _ _ _ _ rfl

/-- After a call that returns a token of a stored kind, the slot `prev_token`
holds a token of that kind. -/
theorem lexer_next_token_stored (L : Lexer) : PrevStored (lexer_next_token L) := by
  cases ht : (lexer_next_token_trivia_loop (L.source_length - L.current) L).1 with
  | false => intro A h; rw [lexer_next_token_trivia_failed L ht] at h; cases h
  | true =>
    rw [lexer_next_token_eq L ht]
    split_ifs
    · intro A h hs
      simp only [Option.some.injEq] at h
      subst h
      cases hs
    · exact finish_token_stored _ _
    · exact finish_token_stored _ _
    · exact finish_token_stored _ _
    · exact finish_token_stored _ _
    · exact lexer_next_token_operator_stored _ _ _ _

theorem slash_dispatch (L : Lexer) (start : Position) (hn : Bool) :
    lexer_next_token_operator L 47 start hn =
      if peek L 0 = 61 then operator_token (advance L).2 .TOKEN_DIVIDE_ASSIGN "/=" 2 start hn
      else if prev_permits_regex L = true then finish_token hn (read_regex L start)
      else
        (some (token_create .TOKEN_DIVIDE (some [47, 0]) 1 start L.position hn),
          save_prev_token L (token_create .TOKEN_DIVIDE (some [47, 0]) 1 start L.position hn)) := by
  simp [lexer_next_token_operator, lexer_next_token_single]

/-- C5, the code at the failing inputs. In `x = /=/` the token before the slash
at offset 4 is `=`, of a kind in the regex-context set, yet the token at the
slash is `DIVIDE_ASSIGN`: the branch for `/=` returns without the test of the
previous token that the branch for `/` makes (in `x = /a/` the same slash is the
start of a `REGEX` token). In `a == /x/`, `a && /x/` and `a += /x/` the token
before the slash is in the regex-context set of the specification and the slash
is `DIVIDE`; in `(++/a/` the token before the slash, `++`, is not in the set and
the slash starts a `REGEX` token: the operators of two or more characters are
not recorded as previous token, so the test sees the token before them. -/
theorem slash_kind_ignores_previous_token :
    ((token_at (cstr "x = /=/") none 1).map (fun t => t.type) = some .TOKEN_ASSIGN ∧
      TokenType.TOKEN_ASSIGN ∈ spec_regex_context ∧
      can_precede_regex .TOKEN_ASSIGN = true ∧
      (cstr "x = /=/").getD 4 0 = 47 ∧
      (token_at (cstr "x = /=/") none 2).map (fun t => (t.type, t.start.offset)) =
        some (.TOKEN_DIVIDE_ASSIGN, 4) ∧
      (token_at (cstr "x = /a/") none 2).map (fun t => (t.type, t.start.offset)) =
        some (.TOKEN_REGEX, 4)) ∧
    ((token_at (cstr "a == /x/") none 1).map (fun t => t.type) = some .TOKEN_EQ ∧
      TokenType.TOKEN_EQ ∈ spec_regex_context ∧
      (token_at (cstr "a == /x/") none 2).map (fun t => (t.type, t.start.offset)) =
        some (.TOKEN_DIVIDE, 5)) ∧
    ((token_at (cstr "a && /x/") none 1).map (fun t => t.type) = some .TOKEN_AND ∧
      TokenType.TOKEN_AND ∈ spec_regex_context ∧
      (token_at (cstr "a && /x/") none 2).map (fun t => (t.type, t.start.offset)) =
        some (.TOKEN_DIVIDE, 5)) ∧
    ((token_at (cstr "a += /x/") none 1).map (fun t => t.type) = some .TOKEN_PLUS_ASSIGN ∧
      TokenType.TOKEN_PLUS_ASSIGN ∈ spec_regex_context ∧
      (token_at (cstr "a += /x/") none 2).map (fun t => (t.type, t.start.offset)) =
        some (.TOKEN_DIVIDE, 5)) ∧
    ((token_at (cstr "(++/a/") none 1).map (fun t => t.type) = some .TOKEN_INCREMENT ∧
      TokenType.TOKEN_INCREMENT ∉ spec_regex_context ∧
      (token_at (cstr "(++/a/") none 2).map (fun t => (t.type, t.start.offset)) =
        some (.TOKEN_REGEX, 3)) := by
  decide

/-- The kind of a token at a slash, as the code decides it. Let `A` and `B` be
the tokens of two successive calls of `lexer_next_token`, `A` of a kind that is
stored in the previous-token slot (not an operator of two or more characters),
and let `B` start at a slash byte.
If the byte after the slash is `=`, `B` is `DIVIDE_ASSIGN`, whatever `A` is.
Otherwise `B` is `REGEX` iff `can_precede_regex A.type`, and `DIVIDE` if not. -/
theorem regex_disambiguation (src : List Nat) (e : Option ErrorInfo) (k : Nat) (A B : Token)
    (hA : token_at src e k = some A) (hB : token_at src e (k + 1) = some B)
    (hst : stores_prev_token A.type = true) (hslash : src.getD B.start.offset 0 = 47) :
    (src.getD (B.start.offset + 1) 0 = 61 → B.type = .TOKEN_DIVIDE_ASSIGN) ∧
    (src.getD (B.start.offset + 1) 0 ≠ 61 →
      (B.type = .TOKEN_REGEX ↔ can_precede_regex A.type = true) ∧
      (can_precede_regex A.type = false → B.type = .TOKEN_DIVIDE)) := by
  have hprev := lexer_next_token_stored (lexer_after src e k) A hA hst
  have e1 : (lexer_next_token (lexer_after src e k)).2 = lexer_after src e (k + 1) := rfl
  rw [e1, ← token_start_state_prev] at hprev
  have hadv := (lexer_after_advances src e 0 (k + 1) (Nat.zero_le _)).trans
    (token_start_state_advances (lexer_after src e (k + 1)))
  have hinv := CursorInv.of_advances hadv (CursorInv.create src e)
  have hsrc : (token_start_state (lexer_after src e (k + 1))).source = src := hadv.source_create
  have hstart := (token_at_span src e (k + 1) B hB).1
  unfold token_at at hB
  cases ht : (lexer_next_token_trivia_loop ((lexer_after src e (k + 1)).source_length -
      (lexer_after src e (k + 1)).current) (lexer_after src e (k + 1))).1 with
  | false => rw [lexer_next_token_trivia_failed _ ht] at hB; cases hB
  | true =>
    rw [lexer_next_token_eq _ ht] at hB
    generalize (lexer_next_token_trivia_loop ((lexer_after src e (k + 1)).source_length -
      (lexer_after src e (k + 1)).current) (lexer_after src e (k + 1))).2.last_was_newline = hn
      at hB
    generalize token_start_state (lexer_after src e (k + 1)) = S at *
    have hoff : B.start.offset = S.current := by rw [hstart, hinv.offset_eq]
    rw [hoff, ← hsrc] at hslash
    rw [hoff, ← hsrc]
    have hlt : S.current < S.source.length := by
      by_contra hge
      rw [List.getD_eq_default _ _ (by omega)] at hslash
      cases hslash
    have hstep := advance_step S hlt (by omega) (by omega)
    have hge : ¬ S.current ≥ S.source_length := by unfold Lexer.source_length; omega
    rw [hstep.2, hslash] at hB
    simp only [hge, ↓reduceIte] at hB
    have hid : ¬ (is_unicode_id_start (char_to_u8 47) = true ∨ (47 : Nat) = 36) := by decide
    have hdig : ¬ (isdigit 47 = true) := by decide
    have hq : ¬ ((47 : Nat) = 34 ∨ (47 : Nat) = 39) := by decide
    have hb : ¬ ((47 : Nat) = 96) := by decide
    rw [if_neg hid, if_neg hdig, if_neg hq, if_neg hb, slash_dispatch, peek_eq, advance_source,
      hstep.1, Nat.add_zero] at hB
    have hperm : prev_permits_regex (advance S).2 = can_precede_regex A.type := by
      unfold prev_permits_regex
      rw [advance_prev]
      cases hp : S.prev_token with
      | none => rw [hp] at hprev; cases hprev
      | some p =>
        rw [hp] at hprev
        simp only [Option.map_some', Option.some.injEq] at hprev
        simp only [hprev]
    rw [hperm] at hB
    · constructor
      · intro h61
        rw [if_pos h61] at hB
        simp only [operator_token, Option.some.injEq] at hB
        rw [← hB]
        simp only [token_create]
      · intro h61
        rw [if_neg h61] at hB
        cases hc : can_precede_regex A.type with
        | true =>
          rw [hc] at hB
          simp only [↓reduceIte] at hB
          have := finish_read_regex_type _ _ _ B _ (Prod.ext hB rfl)
          simp [this]
        | false =>
          rw [hc] at hB
          simp only [Bool.false_eq_true, ↓reduceIte, Option.some.injEq] at hB
          rw [← hB]
          simp [token_create]

theorem regex_disambiguation_witness :
    token_at (cstr "a = /x/") none 1 = some
      { type := .TOKEN_ASSIGN, value := some [61], length := 1,
        start := ⟨1, 3, 2⟩, end_ := ⟨1, 4, 3⟩, preceded_by_newline := false } ∧
    token_at (cstr "a = /x/") none 2 = some
      { type := .TOKEN_REGEX, value := some [47, 120, 47], length := 3,
        start := ⟨1, 5, 4⟩, end_ := ⟨1, 8, 7⟩, preceded_by_newline := false } ∧
    stores_prev_token .TOKEN_ASSIGN = true ∧ (cstr "a = /x/").getD 4 0 = 47 ∧
    (TokenType.TOKEN_REGEX = .TOKEN_REGEX ↔ can_precede_regex .TOKEN_ASSIGN = true) :=
  ⟨by decide, by decide, by decide, by decide,
   ((regex_disambiguation (cstr "a = /x/") none 1
     { type := .TOKEN_ASSIGN, value := some [61], length := 1,
       start := ⟨1, 3, 2⟩, end_ := ⟨1, 4, 3⟩, preceded_by_newline := false }
     { type := .TOKEN_REGEX, value := some [47, 120, 47], length := 3,
       start := ⟨1, 5, 4⟩, end_ := ⟨1, 8, 7⟩, preceded_by_newline := false }
     (by decide) (by decide) (by decide) (by decide)).2 (by decide)).1⟩

/-- C3 (ASI rule). For a parser state with current token `T`,
`parser_consume_semicolon` returns true iff `T` is `;`, or `T` is preceded by a
newline, or `T` is a closing brace, or `T` is `EOF`. When `T` is `;` the result
state is that of `parser_advance`; in the three other accepting cases the state
is unchanged; otherwise the call returns false and the only change is the
diagnostic `PARSER_MISSING_SEMICOLON` with position `T.start`. -/
theorem asi_rule (P : Parser) (T : Token) (h : P.current_token = some T) :
    ((∃ P', parser_consume_semicolon P = .ret true P') ↔
      (T.type = .TOKEN_SEMICOLON ∨ T.preceded_by_newline = true ∨ T.type = .TOKEN_RBRACE ∨
        T.type = .TOKEN_EOF)) ∧
    (T.type = .TOKEN_SEMICOLON → parser_consume_semicolon P = .ret true (parser_advance P).2) ∧
    (T.type ≠ .TOKEN_SEMICOLON →
      (T.preceded_by_newline = true ∨ T.type = .TOKEN_RBRACE ∨ T.type = .TOKEN_EOF) →
      parser_consume_semicolon P = .ret true P) ∧
    (¬ (T.type = .TOKEN_SEMICOLON ∨ T.preceded_by_newline = true ∨ T.type = .TOKEN_RBRACE ∨
        T.type = .TOKEN_EOF) →
      parser_consume_semicolon P = .ret false
        { P with lexer := { P.lexer with
            error := P.lexer.error.map fun _ =>
              { code := .ERROR_PARSER_MISSING_SEMICOLON, position := T.start,
                message := cstr "Missing semicolon" } } }) := by
  have key : ∀ prev, parser_should_insert_semicolon P prev = true ↔
      (T.preceded_by_newline = true ∨ T.type = .TOKEN_RBRACE ∨ T.type = .TOKEN_EOF) := by
    intro prev
    unfold parser_should_insert_semicolon
    rw [h]
    dsimp only
    split_ifs with c1 c2
    · simp [c1]
    · simp [c2]
    · have : ¬ (T.preceded_by_newline = true ∨ T.type = .TOKEN_RBRACE ∨ T.type = .TOKEN_EOF) := by
        tauto
      simp only [this, iff_false]
      split <;> simp [c1]
  have hmsg : ((cstr "Missing semicolon").takeWhile (· ≠ 0)).take 255 =
      cstr "Missing semicolon" := by decide
  by_cases hs : T.type = .TOKEN_SEMICOLON
  · have e1 : parser_consume_semicolon P = .ret true (parser_advance P).2 := by
      simp [parser_consume_semicolon, parser_check, h, hs]
    refine ⟨?_, fun _ => e1, fun hne => absurd hs hne, fun hn => absurd (Or.inl hs) hn⟩
    exact ⟨fun _ => Or.inl hs, fun _ => ⟨_, e1⟩⟩
  · have hchk : parser_check P .TOKEN_SEMICOLON = false := by
      simp [parser_check, h, hs]
    have hasi : parser_check_asi P = true ↔
        (T.preceded_by_newline = true ∨ T.type = .TOKEN_RBRACE ∨ T.type = .TOKEN_EOF) := by
      unfold parser_check_asi
      rw [h]
      simp only [hs, ↓reduceIte]
      exact key _
    by_cases ha : T.preceded_by_newline = true ∨ T.type = .TOKEN_RBRACE ∨ T.type = .TOKEN_EOF
    · have e1 : parser_consume_semicolon P = .ret true P := by
        simp [parser_consume_semicolon, hchk, hasi.2 ha]
      refine ⟨⟨fun _ => Or.inr ha, fun _ => ⟨_, e1⟩⟩, fun hh => absurd hh hs, fun _ _ => e1, ?_⟩
      intro hn
      exact absurd (Or.inr ha) hn
    · have hasi' : parser_check_asi P = false := by
        cases hc : parser_check_asi P with
        | true => exact absurd (hasi.1 hc) ha
        | false => rfl
      have e1 : parser_consume_semicolon P = .ret false
          { P with lexer := { P.lexer with
            error := P.lexer.error.map fun _ =>
              { code := .ERROR_PARSER_MISSING_SEMICOLON, position := T.start,
                message := cstr "Missing semicolon" } } } := by
        simp only [parser_consume_semicolon, hchk, hasi', with_current, h, parser_set_error,
          Bool.false_eq_true, ↓reduceIte, Outcome.ret.injEq, true_and]
        cases he : P.lexer.error with
        | none => simp [set_error]
        | some v =>
          simp only [set_error, Option.map_some']
          rw [hmsg]
      refine ⟨⟨?_, ?_⟩, fun hh => absurd hh hs, fun _ hh => absurd hh ha, fun _ => e1⟩
      · rintro ⟨P', hP'⟩
        rw [e1] at hP'
        cases hP'
      · rintro (hh | hh)
        · exact absurd hh hs
        · exact absurd hh ha

theorem asi_rule_witness :
    (parser_create (lexer_create (cstr "a\nb") none)).current_token = some
      { type := .TOKEN_IDENTIFIER, value := some [97], length := 1,
        start := ⟨1, 1, 0⟩, end_ := ⟨1, 2, 1⟩, preceded_by_newline := false } ∧
    ((∃ P', parser_consume_semicolon (parser_create (lexer_create (cstr "a\nb") none)) =
        .ret true P') ↔
      (TokenType.TOKEN_IDENTIFIER = .TOKEN_SEMICOLON ∨ false = true ∨
        TokenType.TOKEN_IDENTIFIER = .TOKEN_RBRACE ∨ TokenType.TOKEN_IDENTIFIER = .TOKEN_EOF)) :=
  ⟨by decide,
   (asi_rule (parser_create (lexer_create (cstr "a\nb") none))
     { type := .TOKEN_IDENTIFIER, value := some [97], length := 1,
       start := ⟨1, 1, 0⟩, end_ := ⟨1, 2, 1⟩, preceded_by_newline := false } (by decide)).1⟩

/-- C7, the code at the failing input: a template literal spanning two lines is
followed by a blank and `c` on the same line. The gap between the two tokens
(offsets 5 to 6) is one blank, but `c` has `preceded_by_newline = true`. -/
theorem newline_flag_leaks_from_template :
    (token_at (cstr "`a\nb` c") none 0).map (fun t => (t.type, t.end_.offset)) =
      some (.TOKEN_TEMPLATE, 5) ∧
    (token_at (cstr "`a\nb` c") none 1).map
        (fun t => (t.type, t.start.offset, t.preceded_by_newline)) =
      some (.TOKEN_IDENTIFIER, 6, true) ∧
    ((cstr "`a\nb` c").drop 5).take (6 - 5) = [32] := by
  decide

/-! ## Fuel monotonicity of the parser functions -/

set_option linter.unusedTactic false

set_option linter.unreachableTactic false

set_option linter.unusedVariables false

theorem Outcome.FuelLe.refl (a : Outcome) : a.FuelLe a := fun _ => rfl

theorem Outcome.FuelLe.andThen_mono {a b : Outcome} {k k' : Parser → Outcome} (h : a.FuelLe b)
    (hk : ∀ P, (k P).FuelLe (k' P)) : (a.andThen k).FuelLe (b.andThen k') := by
  intro hne
  cases a with
  | out_of_fuel => exact absurd rfl hne
  | null_deref P => rw [h (by simp)]; rfl
  | ret r P =>
    rw [h (by simp)]
    cases r with
    | false => rfl
    | true => exact hk P hne

theorem Outcome.FuelLe.ite_mono {c : Prop} [Decidable c] {a b a' b' : Outcome} (h1 : a.FuelLe a')
    (h2 : b.FuelLe b') : (if c then a else b).FuelLe (if c then a' else b') := by
  split
  · exact h1
  · exact h2

theorem Outcome.FuelLe.with_current_mono {P : Parser} {k k' : Token → Outcome}
    (hk : ∀ t, (k t).FuelLe (k' t)) : (with_current P k).FuelLe (with_current P k') := by
  unfold JSC.with_current
  split
  · exact hk _
  · exact Outcome.FuelLe.refl _

theorem Outcome.FuelLe.leave_mono {a b : Outcome} (h : a.FuelLe b) :
    (leave_statement a).FuelLe (leave_statement b) := by
  intro hne
  cases a with
  | out_of_fuel => exact absurd rfl hne
  | null_deref P => rw [h (by simp)]
  | ret r P => rw [h (by simp)]

theorem skip_until_loop_mono (stop : TokenType) (n : Nat) (P : Parser) :
    (skip_until_loop stop n P).FuelLe (skip_until_loop stop (n + 1) P) := by
  induction n generalizing P with
  | zero => intro h; exact absurd rfl h
  | succ n ih =>
    unfold skip_until_loop
    apply Outcome.FuelLe.ite_mono
    · exact ih _
    · exact Outcome.FuelLe.refl _

theorem identifier_list_loop_mono (n : Nat) (P : Parser) :
    (identifier_list_loop n P).FuelLe (identifier_list_loop (n + 1) P) := by
  induction n generalizing P with
  | zero => intro h; exact absurd rfl h
  | succ n ih =>
    unfold identifier_list_loop
    dsimp only
    apply Outcome.FuelLe.ite_mono
    · exact Outcome.FuelLe.andThen_mono (Outcome.FuelLe.refl _) (fun _ => ih _)
    · exact Outcome.FuelLe.refl _

theorem all_fuel_mono_zero : AllParsers (FuelMono 0) where
  parse_statement_list := by intro P h; exact absurd rfl h
  parse_statement := by intro P h; exact absurd rfl h
  parse_initializer := by intro P h; exact absurd rfl h
  parse_variable_declaration_loop := by intro P h; exact absurd rfl h
  parse_variable_declaration := by intro P h; exact absurd rfl h
  parse_function_declaration := by intro P h; exact absurd rfl h
  parse_class_declaration_loop := by intro P h; exact absurd rfl h
  parse_class_declaration := by intro P h; exact absurd rfl h
  parse_expression_statement := by intro P h; exact absurd rfl h
  parse_if_statement := by intro P h; exact absurd rfl h
  parse_while_statement := by intro P h; exact absurd rfl h
  parse_do_while_statement := by intro P h; exact absurd rfl h
  parse_for_statement_rest := by intro P h; exact absurd rfl h
  parse_for_statement := by intro P h; exact absurd rfl h
  parse_switch_body_loop := by intro P h; exact absurd rfl h
  parse_switch_statement_loop := by intro P h; exact absurd rfl h
  parse_switch_statement := by intro P h; exact absurd rfl h
  parse_return_statement := by intro P h; exact absurd rfl h
  parse_break_statement := by intro P h; exact absurd rfl h
  parse_continue_statement := by intro P h; exact absurd rfl h
  parse_throw_statement := by intro P h; exact absurd rfl h
  parse_try_statement := by intro P h; exact absurd rfl h
  parse_block_statement := by intro P h; exact absurd rfl h
  comma_list_loop := by intro P h; exact absurd rfl h
  parse_expression := by intro P h; exact absurd rfl h
  parse_assignment_expression := by intro P h; exact absurd rfl h
  parse_conditional_expression := by intro P h; exact absurd rfl h
  parse_logical_or_expression_loop := by intro P h; exact absurd rfl h
  parse_logical_or_expression := by intro P h; exact absurd rfl h
  parse_logical_and_expression_loop := by intro P h; exact absurd rfl h
  parse_logical_and_expression := by intro P h; exact absurd rfl h
  parse_bitwise_or_expression_loop := by intro P h; exact absurd rfl h
  parse_bitwise_or_expression := by intro P h; exact absurd rfl h
  parse_bitwise_xor_expression_loop := by intro P h; exact absurd rfl h
  parse_bitwise_xor_expression := by intro P h; exact absurd rfl h
  parse_bitwise_and_expression_loop := by intro P h; exact absurd rfl h
  parse_bitwise_and_expression := by intro P h; exact absurd rfl h
  parse_equality_expression_loop := by intro P h; exact absurd rfl h
  parse_equality_expression := by intro P h; exact absurd rfl h
  parse_relational_expression_loop := by intro P h; exact absurd rfl h
  parse_relational_expression := by intro P h; exact absurd rfl h
  parse_shift_expression_loop := by intro P h; exact absurd rfl h
  parse_shift_expression := by intro P h; exact absurd rfl h
  parse_additive_expression_loop := by intro P h; exact absurd rfl h
  parse_additive_expression := by intro P h; exact absurd rfl h
  parse_multiplicative_expression_loop := by intro P h; exact absurd rfl h
  parse_multiplicative_expression := by intro P h; exact absurd rfl h
  parse_exponentiation_expression := by intro P h; exact absurd rfl h
  parse_unary_expression := by intro P h; exact absurd rfl h
  parse_postfix_expression := by intro P h; exact absurd rfl h
  parse_arguments := by intro P h; exact absurd rfl h
  parse_left_hand_side_expression := by intro P h; exact absurd rfl h
  member_access_loop := by intro P h; exact absurd rfl h
  parse_call_expression_loop := by intro P h; exact absurd rfl h
  parse_call_expression := by intro P h; exact absurd rfl h
  parse_member_expression := by intro P h; exact absurd rfl h
  parse_primary_expression := by intro P h; exact absurd rfl h
  parse_array_element := by intro P h; exact absurd rfl h
  parse_array_literal_loop := by intro P h; exact absurd rfl h
  parse_array_literal := by intro P h; exact absurd rfl h
  parse_object_property_rest := by intro P h; exact absurd rfl h
  parse_object_literal_loop := by intro P h; exact absurd rfl h
  parse_object_literal := by intro P h; exact absurd rfl h

set_option maxHeartbeats 1000000 in
theorem all_fuel_mono_succ (n : Nat) (ih : AllParsers (FuelMono n)) :
    AllParsers (FuelMono (n + 1)) where
  parse_statement_list := by
    intro P
    unfold JSC.parse_statement_list
    try dsimp only
    split
    all_goals repeat' first
      | exact Outcome.FuelLe.refl _ | exact ih.parse_statement_list _ | exact ih.parse_statement _
      | apply Outcome.FuelLe.andThen_mono | apply Outcome.FuelLe.ite_mono
      | apply Outcome.FuelLe.with_current_mono | apply Outcome.FuelLe.leave_mono | intro _
  parse_statement := by
    intro P
    unfold JSC.parse_statement
    try dsimp only
    apply Outcome.FuelLe.ite_mono
    · exact Outcome.FuelLe.refl _
    split
    · exact Outcome.FuelLe.refl _
    apply Outcome.FuelLe.leave_mono
    split
    all_goals repeat' first
      | exact Outcome.FuelLe.refl _ | exact ih.parse_variable_declaration _
      | exact ih.parse_function_declaration _ | exact ih.parse_class_declaration _
      | exact ih.parse_expression_statement _ | exact ih.parse_if_statement _
      | exact ih.parse_while_statement _ | exact ih.parse_do_while_statement _
      | exact ih.parse_for_statement _ | exact ih.parse_switch_statement _
      | exact ih.parse_return_statement _ | exact ih.parse_break_statement _
      | exact ih.parse_continue_statement _ | exact ih.parse_throw_statement _
      | exact ih.parse_try_statement _ | exact ih.parse_block_statement _
      | apply Outcome.FuelLe.andThen_mono | apply Outcome.FuelLe.ite_mono
      | apply Outcome.FuelLe.with_current_mono | apply Outcome.FuelLe.leave_mono | intro _
  parse_initializer := by
    intro P
    unfold JSC.parse_initializer
    try dsimp only
    all_goals repeat' first
      | exact Outcome.FuelLe.refl _ | exact ih.parse_assignment_expression _
      | apply Outcome.FuelLe.andThen_mono | apply Outcome.FuelLe.ite_mono
      | apply Outcome.FuelLe.with_current_mono | apply Outcome.FuelLe.leave_mono | intro _
  parse_variable_declaration_loop := by
    intro P
    unfold JSC.parse_variable_declaration_loop
    try dsimp only
    all_goals repeat' first
      | exact Outcome.FuelLe.refl _ | exact ih.parse_initializer _
      | exact ih.parse_variable_declaration_loop _ | apply Outcome.FuelLe.andThen_mono
      | apply Outcome.FuelLe.ite_mono | apply Outcome.FuelLe.with_current_mono | apply Outcome.FuelLe.leave_mono
      | intro _
  parse_variable_declaration := by
    intro P
    unfold JSC.parse_variable_declaration
    try dsimp only
    all_goals repeat' first
      | exact Outcome.FuelLe.refl _ | exact ih.parse_initializer _
      | exact ih.parse_variable_declaration_loop _ | apply Outcome.FuelLe.andThen_mono
      | apply Outcome.FuelLe.ite_mono | apply Outcome.FuelLe.with_current_mono | apply Outcome.FuelLe.leave_mono
      | intro _
  parse_function_declaration := by
    intro P
    unfold JSC.parse_function_declaration
    try dsimp only
    all_goals repeat' first
      | exact Outcome.FuelLe.refl _ | exact identifier_list_loop_mono _ _
      | exact ih.parse_block_statement _ | apply Outcome.FuelLe.andThen_mono | apply Outcome.FuelLe.ite_mono
      | apply Outcome.FuelLe.with_current_mono | apply Outcome.FuelLe.leave_mono | intro _
  parse_class_declaration_loop := by
    intro P
    unfold JSC.parse_class_declaration_loop
    try dsimp only
    all_goals repeat' first
      | exact Outcome.FuelLe.refl _ | exact skip_until_loop_mono _ _ _
      | exact ih.parse_class_declaration_loop _ | exact ih.parse_block_statement _
      | apply Outcome.FuelLe.andThen_mono | apply Outcome.FuelLe.ite_mono
      | apply Outcome.FuelLe.with_current_mono | apply Outcome.FuelLe.leave_mono | intro _
  parse_class_declaration := by
    intro P
    unfold JSC.parse_class_declaration
    try dsimp only
    all_goals repeat' first
      | exact Outcome.FuelLe.refl _ | exact ih.parse_class_declaration_loop _
      | apply Outcome.FuelLe.andThen_mono | apply Outcome.FuelLe.ite_mono
      | apply Outcome.FuelLe.with_current_mono | apply Outcome.FuelLe.leave_mono | intro _
  parse_expression_statement := by
    intro P
    unfold JSC.parse_expression_statement
    try dsimp only
    all_goals repeat' first
      | exact Outcome.FuelLe.refl _ | exact ih.parse_expression _ | apply Outcome.FuelLe.andThen_mono
      | apply Outcome.FuelLe.ite_mono | apply Outcome.FuelLe.with_current_mono | apply Outcome.FuelLe.leave_mono
      | intro _
  parse_if_statement := by
    intro P
    unfold JSC.parse_if_statement
    try dsimp only
    all_goals repeat' first
      | exact Outcome.FuelLe.refl _ | exact ih.parse_statement _ | exact ih.parse_expression _
      | apply Outcome.FuelLe.andThen_mono | apply Outcome.FuelLe.ite_mono
      | apply Outcome.FuelLe.with_current_mono | apply Outcome.FuelLe.leave_mono | intro _
  parse_while_statement := by
    intro P
    unfold JSC.parse_while_statement
    try dsimp only
    all_goals repeat' first
      | exact Outcome.FuelLe.refl _ | exact ih.parse_statement _ | exact ih.parse_expression _
      | apply Outcome.FuelLe.andThen_mono | apply Outcome.FuelLe.ite_mono
      | apply Outcome.FuelLe.with_current_mono | apply Outcome.FuelLe.leave_mono | intro _
  parse_do_while_statement := by
    intro P
    unfold JSC.parse_do_while_statement
    try dsimp only
    all_goals repeat' first
      | exact Outcome.FuelLe.refl _ | exact ih.parse_statement _ | exact ih.parse_expression _
      | apply Outcome.FuelLe.andThen_mono | apply Outcome.FuelLe.ite_mono
      | apply Outcome.FuelLe.with_current_mono | apply Outcome.FuelLe.leave_mono | intro _
  parse_for_statement_rest := by
    intro P
    unfold JSC.parse_for_statement_rest
    try dsimp only
    all_goals repeat' first
      | exact Outcome.FuelLe.refl _ | exact ih.parse_statement _ | exact ih.parse_expression _
      | apply Outcome.FuelLe.andThen_mono | apply Outcome.FuelLe.ite_mono
      | apply Outcome.FuelLe.with_current_mono | apply Outcome.FuelLe.leave_mono | intro _
  parse_for_statement := by
    intro P
    unfold JSC.parse_for_statement
    try dsimp only
    all_goals repeat' first
      | exact Outcome.FuelLe.refl _ | exact ih.parse_statement _ | exact ih.parse_initializer _
      | exact ih.parse_for_statement_rest _ | exact ih.parse_expression _
      | apply Outcome.FuelLe.andThen_mono | apply Outcome.FuelLe.ite_mono
      | apply Outcome.FuelLe.with_current_mono | apply Outcome.FuelLe.leave_mono | intro _
  parse_switch_body_loop := by
    intro P
    unfold JSC.parse_switch_body_loop
    try dsimp only
    all_goals repeat' first
      | exact Outcome.FuelLe.refl _ | exact ih.parse_statement _
      | exact ih.parse_switch_body_loop _ | apply Outcome.FuelLe.andThen_mono
      | apply Outcome.FuelLe.ite_mono | apply Outcome.FuelLe.with_current_mono | apply Outcome.FuelLe.leave_mono
      | intro _
  parse_switch_statement_loop := by
    intro P
    unfold JSC.parse_switch_statement_loop
    try dsimp only
    apply Outcome.FuelLe.ite_mono
    split
    all_goals repeat' first
      | exact Outcome.FuelLe.refl _ | exact ih.parse_switch_body_loop _
      | exact ih.parse_switch_statement_loop _ | exact ih.parse_expression _
      | apply Outcome.FuelLe.andThen_mono | apply Outcome.FuelLe.ite_mono
      | apply Outcome.FuelLe.with_current_mono | apply Outcome.FuelLe.leave_mono | intro _
  parse_switch_statement := by
    intro P
    unfold JSC.parse_switch_statement
    try dsimp only
    all_goals repeat' first
      | exact Outcome.FuelLe.refl _ | exact ih.parse_switch_statement_loop _
      | exact ih.parse_expression _ | apply Outcome.FuelLe.andThen_mono | apply Outcome.FuelLe.ite_mono
      | apply Outcome.FuelLe.with_current_mono | apply Outcome.FuelLe.leave_mono | intro _
  parse_return_statement := by
    intro P
    unfold JSC.parse_return_statement
    try dsimp only
    all_goals repeat' first
      | exact Outcome.FuelLe.refl _ | exact ih.parse_expression _ | apply Outcome.FuelLe.andThen_mono
      | apply Outcome.FuelLe.ite_mono | apply Outcome.FuelLe.with_current_mono | apply Outcome.FuelLe.leave_mono
      | intro _
  parse_break_statement := by
    intro P
    unfold JSC.parse_break_statement
    try dsimp only
    all_goals repeat' first
      | exact Outcome.FuelLe.refl _ | apply Outcome.FuelLe.andThen_mono | apply Outcome.FuelLe.ite_mono
      | apply Outcome.FuelLe.with_current_mono | apply Outcome.FuelLe.leave_mono | intro _
  parse_continue_statement := by
    intro P
    unfold JSC.parse_continue_statement
    try dsimp only
    all_goals repeat' first
      | exact Outcome.FuelLe.refl _ | apply Outcome.FuelLe.andThen_mono | apply Outcome.FuelLe.ite_mono
      | apply Outcome.FuelLe.with_current_mono | apply Outcome.FuelLe.leave_mono | intro _
  parse_throw_statement := by
    intro P
    unfold JSC.parse_throw_statement
    try dsimp only
    all_goals repeat' first
      | exact Outcome.FuelLe.refl _ | exact ih.parse_expression _ | apply Outcome.FuelLe.andThen_mono
      | apply Outcome.FuelLe.ite_mono | apply Outcome.FuelLe.with_current_mono | apply Outcome.FuelLe.leave_mono
      | intro _
  parse_try_statement := by
    intro P
    unfold JSC.parse_try_statement
    try dsimp only
    all_goals repeat' first
      | exact Outcome.FuelLe.refl _ | exact ih.parse_block_statement _
      | apply Outcome.FuelLe.andThen_mono | apply Outcome.FuelLe.ite_mono
      | apply Outcome.FuelLe.with_current_mono | apply Outcome.FuelLe.leave_mono | intro _
  parse_block_statement := by
    intro P
    unfold JSC.parse_block_statement
    try dsimp only
    all_goals repeat' first
      | exact Outcome.FuelLe.refl _ | exact ih.parse_statement_list _
      | apply Outcome.FuelLe.andThen_mono | apply Outcome.FuelLe.ite_mono
      | apply Outcome.FuelLe.with_current_mono | apply Outcome.FuelLe.leave_mono | intro _
  comma_list_loop := by
    intro P
    unfold JSC.comma_list_loop
    try dsimp only
    all_goals repeat' first
      | exact Outcome.FuelLe.refl _ | exact ih.comma_list_loop _
      | exact ih.parse_assignment_expression _ | apply Outcome.FuelLe.andThen_mono
      | apply Outcome.FuelLe.ite_mono | apply Outcome.FuelLe.with_current_mono | apply Outcome.FuelLe.leave_mono
      | intro _
  parse_expression := by
    intro P
    unfold JSC.parse_expression
    try dsimp only
    all_goals repeat' first
      | exact Outcome.FuelLe.refl _ | exact ih.comma_list_loop _
      | exact ih.parse_assignment_expression _ | apply Outcome.FuelLe.andThen_mono
      | apply Outcome.FuelLe.ite_mono | apply Outcome.FuelLe.with_current_mono | apply Outcome.FuelLe.leave_mono
      | intro _
  parse_assignment_expression := by
    intro P
    unfold JSC.parse_assignment_expression
    try dsimp only
    all_goals repeat' first
      | exact Outcome.FuelLe.refl _ | exact ih.parse_assignment_expression _
      | exact ih.parse_conditional_expression _ | apply Outcome.FuelLe.andThen_mono
      | apply Outcome.FuelLe.ite_mono | apply Outcome.FuelLe.with_current_mono | apply Outcome.FuelLe.leave_mono
      | intro _
  parse_conditional_expression := by
    intro P
    unfold JSC.parse_conditional_expression
    try dsimp only
    all_goals repeat' first
      | exact Outcome.FuelLe.refl _ | exact ih.parse_assignment_expression _
      | exact ih.parse_logical_or_expression _ | apply Outcome.FuelLe.andThen_mono
      | apply Outcome.FuelLe.ite_mono | apply Outcome.FuelLe.with_current_mono | apply Outcome.FuelLe.leave_mono
      | intro _
  parse_logical_or_expression_loop := by
    intro P
    unfold JSC.parse_logical_or_expression_loop
    try dsimp only
    all_goals repeat' first
      | exact Outcome.FuelLe.refl _ | exact ih.parse_logical_or_expression_loop _
      | exact ih.parse_logical_and_expression _ | apply Outcome.FuelLe.andThen_mono
      | apply Outcome.FuelLe.ite_mono | apply Outcome.FuelLe.with_current_mono | apply Outcome.FuelLe.leave_mono
      | intro _
  parse_logical_or_expression := by
    intro P
    unfold JSC.parse_logical_or_expression
    try dsimp only
    all_goals repeat' first
      | exact Outcome.FuelLe.refl _ | exact ih.parse_logical_or_expression_loop _
      | exact ih.parse_logical_and_expression _ | apply Outcome.FuelLe.andThen_mono
      | apply Outcome.FuelLe.ite_mono | apply Outcome.FuelLe.with_current_mono | apply Outcome.FuelLe.leave_mono
      | intro _
  parse_logical_and_expression_loop := by
    intro P
    unfold JSC.parse_logical_and_expression_loop
    try dsimp only
    all_goals repeat' first
      | exact Outcome.FuelLe.refl _ | exact ih.parse_logical_and_expression_loop _
      | exact ih.parse_bitwise_or_expression _ | apply Outcome.FuelLe.andThen_mono
      | apply Outcome.FuelLe.ite_mono | apply Outcome.FuelLe.with_current_mono | apply Outcome.FuelLe.leave_mono
      | intro _
  parse_logical_and_expression := by
    intro P
    unfold JSC.parse_logical_and_expression
    try dsimp only
    all_goals repeat' first
      | exact Outcome.FuelLe.refl _ | exact ih.parse_logical_and_expression_loop _
      | exact ih.parse_bitwise_or_expression _ | apply Outcome.FuelLe.andThen_mono
      | apply Outcome.FuelLe.ite_mono | apply Outcome.FuelLe.with_current_mono | apply Outcome.FuelLe.leave_mono
      | intro _
  parse_bitwise_or_expression_loop := by
    intro P
    unfold JSC.parse_bitwise_or_expression_loop
    try dsimp only
    all_goals repeat' first
      | exact Outcome.FuelLe.refl _ | exact ih.parse_bitwise_or_expression_loop _
      | exact ih.parse_bitwise_xor_expression _ | apply Outcome.FuelLe.andThen_mono
      | apply Outcome.FuelLe.ite_mono | apply Outcome.FuelLe.with_current_mono | apply Outcome.FuelLe.leave_mono
      | intro _
  parse_bitwise_or_expression := by
    intro P
    unfold JSC.parse_bitwise_or_expression
    try dsimp only
    all_goals repeat' first
      | exact Outcome.FuelLe.refl _ | exact ih.parse_bitwise_or_expression_loop _
      | exact ih.parse_bitwise_xor_expression _ | apply Outcome.FuelLe.andThen_mono
      | apply Outcome.FuelLe.ite_mono | apply Outcome.FuelLe.with_current_mono | apply Outcome.FuelLe.leave_mono
      | intro _
  parse_bitwise_xor_expression_loop := by
    intro P
    unfold JSC.parse_bitwise_xor_expression_loop
    try dsimp only
    all_goals repeat' first
      | exact Outcome.FuelLe.refl _ | exact ih.parse_bitwise_xor_expression_loop _
      | exact ih.parse_bitwise_and_expression _ | apply Outcome.FuelLe.andThen_mono
      | apply Outcome.FuelLe.ite_mono | apply Outcome.FuelLe.with_current_mono | apply Outcome.FuelLe.leave_mono
      | intro _
  parse_bitwise_xor_expression := by
    intro P
    unfold JSC.parse_bitwise_xor_expression
    try dsimp only
    all_goals repeat' first
      | exact Outcome.FuelLe.refl _ | exact ih.parse_bitwise_xor_expression_loop _
      | exact ih.parse_bitwise_and_expression _ | apply Outcome.FuelLe.andThen_mono
      | apply Outcome.FuelLe.ite_mono | apply Outcome.FuelLe.with_current_mono | apply Outcome.FuelLe.leave_mono
      | intro _
  parse_bitwise_and_expression_loop := by
    intro P
    unfold JSC.parse_bitwise_and_expression_loop
    try dsimp only
    all_goals repeat' first
      | exact Outcome.FuelLe.refl _ | exact ih.parse_bitwise_and_expression_loop _
      | exact ih.parse_equality_expression _ | apply Outcome.FuelLe.andThen_mono
      | apply Outcome.FuelLe.ite_mono | apply Outcome.FuelLe.with_current_mono | apply Outcome.FuelLe.leave_mono
      | intro _
  parse_bitwise_and_expression := by
    intro P
    unfold JSC.parse_bitwise_and_expression
    try dsimp only
    all_goals repeat' first
      | exact Outcome.FuelLe.refl _ | exact ih.parse_bitwise_and_expression_loop _
      | exact ih.parse_equality_expression _ | apply Outcome.FuelLe.andThen_mono
      | apply Outcome.FuelLe.ite_mono | apply Outcome.FuelLe.with_current_mono | apply Outcome.FuelLe.leave_mono
      | intro _
  parse_equality_expression_loop := by
    intro P
    unfold JSC.parse_equality_expression_loop
    try dsimp only
    all_goals repeat' first
      | exact Outcome.FuelLe.refl _ | exact ih.parse_equality_expression_loop _
      | exact ih.parse_relational_expression _ | apply Outcome.FuelLe.andThen_mono
      | apply Outcome.FuelLe.ite_mono | apply Outcome.FuelLe.with_current_mono | apply Outcome.FuelLe.leave_mono
      | intro _
  parse_equality_expression := by
    intro P
    unfold JSC.parse_equality_expression
    try dsimp only
    all_goals repeat' first
      | exact Outcome.FuelLe.refl _ | exact ih.parse_equality_expression_loop _
      | exact ih.parse_relational_expression _ | apply Outcome.FuelLe.andThen_mono
      | apply Outcome.FuelLe.ite_mono | apply Outcome.FuelLe.with_current_mono | apply Outcome.FuelLe.leave_mono
      | intro _
  parse_relational_expression_loop := by
    intro P
    unfold JSC.parse_relational_expression_loop
    try dsimp only
    all_goals repeat' first
      | exact Outcome.FuelLe.refl _ | exact ih.parse_relational_expression_loop _
      | exact ih.parse_shift_expression _ | apply Outcome.FuelLe.andThen_mono
      | apply Outcome.FuelLe.ite_mono | apply Outcome.FuelLe.with_current_mono | apply Outcome.FuelLe.leave_mono
      | intro _
  parse_relational_expression := by
    intro P
    unfold JSC.parse_relational_expression
    try dsimp only
    all_goals repeat' first
      | exact Outcome.FuelLe.refl _ | exact ih.parse_relational_expression_loop _
      | exact ih.parse_shift_expression _ | apply Outcome.FuelLe.andThen_mono
      | apply Outcome.FuelLe.ite_mono | apply Outcome.FuelLe.with_current_mono | apply Outcome.FuelLe.leave_mono
      | intro _
  parse_shift_expression_loop := by
    intro P
    unfold JSC.parse_shift_expression_loop
    try dsimp only
    all_goals repeat' first
      | exact Outcome.FuelLe.refl _ | exact ih.parse_shift_expression_loop _
      | exact ih.parse_additive_expression _ | apply Outcome.FuelLe.andThen_mono
      | apply Outcome.FuelLe.ite_mono | apply Outcome.FuelLe.with_current_mono | apply Outcome.FuelLe.leave_mono
      | intro _
  parse_shift_expression := by
    intro P
    unfold JSC.parse_shift_expression
    try dsimp only
    all_goals repeat' first
      | exact Outcome.FuelLe.refl _ | exact ih.parse_shift_expression_loop _
      | exact ih.parse_additive_expression _ | apply Outcome.FuelLe.andThen_mono
      | apply Outcome.FuelLe.ite_mono | apply Outcome.FuelLe.with_current_mono | apply Outcome.FuelLe.leave_mono
      | intro _
  parse_additive_expression_loop := by
    intro P
    unfold JSC.parse_additive_expression_loop
    try dsimp only
    all_goals repeat' first
      | exact Outcome.FuelLe.refl _ | exact ih.parse_additive_expression_loop _
      | exact ih.parse_multiplicative_expression _ | apply Outcome.FuelLe.andThen_mono
      | apply Outcome.FuelLe.ite_mono | apply Outcome.FuelLe.with_current_mono | apply Outcome.FuelLe.leave_mono
      | intro _
  parse_additive_expression := by
    intro P
    unfold JSC.parse_additive_expression
    try dsimp only
    all_goals repeat' first
      | exact Outcome.FuelLe.refl _ | exact ih.parse_additive_expression_loop _
      | exact ih.parse_multiplicative_expression _ | apply Outcome.FuelLe.andThen_mono
      | apply Outcome.FuelLe.ite_mono | apply Outcome.FuelLe.with_current_mono | apply Outcome.FuelLe.leave_mono
      | intro _
  parse_multiplicative_expression_loop := by
    intro P
    unfold JSC.parse_multiplicative_expression_loop
    try dsimp only
    all_goals repeat' first
      | exact Outcome.FuelLe.refl _ | exact ih.parse_multiplicative_expression_loop _
      | exact ih.parse_exponentiation_expression _ | apply Outcome.FuelLe.andThen_mono
      | apply Outcome.FuelLe.ite_mono | apply Outcome.FuelLe.with_current_mono | apply Outcome.FuelLe.leave_mono
      | intro _
  parse_multiplicative_expression := by
    intro P
    unfold JSC.parse_multiplicative_expression
    try dsimp only
    all_goals repeat' first
      | exact Outcome.FuelLe.refl _ | exact ih.parse_multiplicative_expression_loop _
      | exact ih.parse_exponentiation_expression _ | apply Outcome.FuelLe.andThen_mono
      | apply Outcome.FuelLe.ite_mono | apply Outcome.FuelLe.with_current_mono | apply Outcome.FuelLe.leave_mono
      | intro _
  parse_exponentiation_expression := by
    intro P
    unfold JSC.parse_exponentiation_expression
    try dsimp only
    all_goals repeat' first
      | exact Outcome.FuelLe.refl _ | exact ih.parse_exponentiation_expression _
      | exact ih.parse_unary_expression _ | apply Outcome.FuelLe.andThen_mono
      | apply Outcome.FuelLe.ite_mono | apply Outcome.FuelLe.with_current_mono | apply Outcome.FuelLe.leave_mono
      | intro _
  parse_unary_expression := by
    intro P
    unfold JSC.parse_unary_expression
    try dsimp only
    all_goals repeat' first
      | exact Outcome.FuelLe.refl _ | exact ih.parse_unary_expression _
      | exact ih.parse_postfix_expression _ | apply Outcome.FuelLe.andThen_mono
      | apply Outcome.FuelLe.ite_mono | apply Outcome.FuelLe.with_current_mono | apply Outcome.FuelLe.leave_mono
      | intro _
  parse_postfix_expression := by
    intro P
    unfold JSC.parse_postfix_expression
    try dsimp only
    all_goals repeat' first
      | exact Outcome.FuelLe.refl _ | exact ih.parse_left_hand_side_expression _
      | apply Outcome.FuelLe.andThen_mono | apply Outcome.FuelLe.ite_mono
      | apply Outcome.FuelLe.with_current_mono | apply Outcome.FuelLe.leave_mono | intro _
  parse_arguments := by
    intro P
    unfold JSC.parse_arguments
    try dsimp only
    all_goals repeat' first
      | exact Outcome.FuelLe.refl _ | exact ih.comma_list_loop _
      | exact ih.parse_assignment_expression _ | apply Outcome.FuelLe.andThen_mono
      | apply Outcome.FuelLe.ite_mono | apply Outcome.FuelLe.with_current_mono | apply Outcome.FuelLe.leave_mono
      | intro _
  parse_left_hand_side_expression := by
    intro P
    unfold JSC.parse_left_hand_side_expression
    try dsimp only
    all_goals repeat' first
      | exact Outcome.FuelLe.refl _ | exact ih.parse_arguments _
      | exact ih.parse_call_expression _ | exact ih.parse_member_expression _
      | apply Outcome.FuelLe.andThen_mono | apply Outcome.FuelLe.ite_mono
      | apply Outcome.FuelLe.with_current_mono | apply Outcome.FuelLe.leave_mono | intro _
  member_access_loop := by
    intro P
    unfold JSC.member_access_loop
    try dsimp only
    all_goals repeat' first
      | exact Outcome.FuelLe.refl _ | exact ih.parse_expression _ | exact ih.member_access_loop _
      | apply Outcome.FuelLe.andThen_mono | apply Outcome.FuelLe.ite_mono
      | apply Outcome.FuelLe.with_current_mono | apply Outcome.FuelLe.leave_mono | intro _
  parse_call_expression_loop := by
    intro P
    unfold JSC.parse_call_expression_loop
    try dsimp only
    all_goals repeat' first
      | exact Outcome.FuelLe.refl _ | exact ih.parse_arguments _ | exact ih.member_access_loop _
      | exact ih.parse_call_expression_loop _ | apply Outcome.FuelLe.andThen_mono
      | apply Outcome.FuelLe.ite_mono | apply Outcome.FuelLe.with_current_mono | apply Outcome.FuelLe.leave_mono
      | intro _
  parse_call_expression := by
    intro P
    unfold JSC.parse_call_expression
    try dsimp only
    all_goals repeat' first
      | exact Outcome.FuelLe.refl _ | exact ih.parse_call_expression_loop _
      | exact ih.parse_member_expression _ | apply Outcome.FuelLe.andThen_mono
      | apply Outcome.FuelLe.ite_mono | apply Outcome.FuelLe.with_current_mono | apply Outcome.FuelLe.leave_mono
      | intro _
  parse_member_expression := by
    intro P
    unfold JSC.parse_member_expression
    try dsimp only
    all_goals repeat' first
      | exact Outcome.FuelLe.refl _ | exact ih.member_access_loop _
      | exact ih.parse_primary_expression _ | apply Outcome.FuelLe.andThen_mono
      | apply Outcome.FuelLe.ite_mono | apply Outcome.FuelLe.with_current_mono | apply Outcome.FuelLe.leave_mono
      | intro _
  parse_primary_expression := by
    intro P
    unfold JSC.parse_primary_expression
    try dsimp only
    split
    · exact Outcome.FuelLe.refl _
    split
    all_goals repeat' first
      | exact Outcome.FuelLe.refl _ | exact ih.parse_function_declaration _
      | exact ih.parse_expression _ | exact ih.parse_array_literal _
      | exact ih.parse_object_literal _ | apply Outcome.FuelLe.andThen_mono | apply Outcome.FuelLe.ite_mono
      | apply Outcome.FuelLe.with_current_mono | apply Outcome.FuelLe.leave_mono | intro _
  parse_array_element := by
    intro P
    unfold JSC.parse_array_element
    try dsimp only
    all_goals repeat' first
      | exact Outcome.FuelLe.refl _ | exact ih.parse_assignment_expression _
      | apply Outcome.FuelLe.andThen_mono | apply Outcome.FuelLe.ite_mono
      | apply Outcome.FuelLe.with_current_mono | apply Outcome.FuelLe.leave_mono | intro _
  parse_array_literal_loop := by
    intro P
    unfold JSC.parse_array_literal_loop
    try dsimp only
    all_goals repeat' first
      | exact Outcome.FuelLe.refl _ | exact ih.parse_array_element _
      | exact ih.parse_array_literal_loop _ | apply Outcome.FuelLe.andThen_mono
      | apply Outcome.FuelLe.ite_mono | apply Outcome.FuelLe.with_current_mono | apply Outcome.FuelLe.leave_mono
      | intro _
  parse_array_literal := by
    intro P
    unfold JSC.parse_array_literal
    try dsimp only
    all_goals repeat' first
      | exact Outcome.FuelLe.refl _ | exact ih.parse_array_element _
      | exact ih.parse_array_literal_loop _ | apply Outcome.FuelLe.andThen_mono
      | apply Outcome.FuelLe.ite_mono | apply Outcome.FuelLe.with_current_mono | apply Outcome.FuelLe.leave_mono
      | intro _
  parse_object_property_rest := by
    intro P
    unfold JSC.parse_object_property_rest
    try dsimp only
    all_goals repeat' first
      | exact Outcome.FuelLe.refl _ | exact skip_until_loop_mono _ _ _
      | exact ih.parse_block_statement _ | exact ih.parse_assignment_expression _
      | exact ih.parse_object_literal_loop _ | apply Outcome.FuelLe.andThen_mono
      | apply Outcome.FuelLe.ite_mono | apply Outcome.FuelLe.with_current_mono | apply Outcome.FuelLe.leave_mono
      | intro _
  parse_object_literal_loop := by
    intro P
    unfold JSC.parse_object_literal_loop
    try dsimp only
    all_goals repeat' first
      | exact Outcome.FuelLe.refl _ | exact ih.parse_expression _
      | exact ih.parse_assignment_expression _ | exact ih.parse_object_property_rest _
      | exact ih.parse_object_literal_loop _ | apply Outcome.FuelLe.andThen_mono
      | apply Outcome.FuelLe.ite_mono | apply Outcome.FuelLe.with_current_mono | apply Outcome.FuelLe.leave_mono
      | intro _
  parse_object_literal := by
    intro P
    unfold JSC.parse_object_literal
    try dsimp only
    all_goals repeat' first
      | exact Outcome.FuelLe.refl _ | exact ih.parse_object_literal_loop _
      | apply Outcome.FuelLe.andThen_mono | apply Outcome.FuelLe.ite_mono
      | apply Outcome.FuelLe.with_current_mono | apply Outcome.FuelLe.leave_mono | intro _

theorem all_fuel_mono (n : Nat) : AllParsers (FuelMono n) := by
  induction n with
  | zero => exact all_fuel_mono_zero
  | succ n ih => exact all_fuel_mono_succ n ih

/-! ## Simulation: the parser reads only token kinds and newline flags -/

theorem LexEquiv.next {L L' : Lexer} (h : LexEquiv L L') :
    (lexer_next_token L).1.map Token.view = (lexer_next_token L').1.map Token.view ∧
      LexEquiv (lexer_next_token L).2 (lexer_next_token L').2 :=
  ⟨h 0, fun k => h (k + 1)⟩

theorem OutEquiv.andThen {a b : Outcome} {k k' : Parser → Outcome} (h : OutEquiv a b)
    (hk : ∀ P Q, TokEquiv P Q → OutEquiv (k P) (k' Q)) :
    OutEquiv (a.andThen k) (b.andThen k') := by
  cases h with
  | ret_true h => exact hk _ _ h
  | ret_false P Q => exact .ret_false P Q
  | null P Q => exact .null P Q
  | fuel => exact .fuel

theorem OutEquiv.with_current {P Q : Parser} {k k' : Token → Outcome} (h : TokEquiv P Q)
    (hk : ∀ t t', t.view = t'.view → OutEquiv (k t) (k' t')) :
    OutEquiv (with_current P k) (with_current Q k') := by
  have hc := h.current
  unfold JSC.with_current
  cases hp : P.current_token <;> cases hq : Q.current_token <;> rw [hp, hq] at hc <;>
    simp at hc
  · exact .null _ _
  · exact hk _ _ hc

/-- A lexer at the end of its source returns `EOF` and stays at the end. -/
theorem lexer_next_token_at_end (L : Lexer) (h : L.source_length ≤ L.current) :
    lexer_next_token L =
      (some (token_create .TOKEN_EOF none 0 L.position L.position L.last_was_newline),
        { L with last_was_newline := false }) := by
  unfold lexer_next_token
  rw [Nat.sub_eq_zero_of_le h]
  simp only [lexer_next_token_trivia_loop]
  rw [if_pos (by simpa [Lexer.source_length] using h)]

theorem AllParsers.forall_fuel {Φ : Nat → (Nat → Parser → Outcome) → Prop}
    (h : ∀ n, AllParsers (fun f => Φ n f)) : AllParsers (fun f => ∀ n, Φ n f) where
  parse_statement_list := fun n => (h n).parse_statement_list
  parse_statement := fun n => (h n).parse_statement
  parse_initializer := fun n => (h n).parse_initializer
  parse_variable_declaration_loop := fun n => (h n).parse_variable_declaration_loop
  parse_variable_declaration := fun n => (h n).parse_variable_declaration
  parse_function_declaration := fun n => (h n).parse_function_declaration
  parse_class_declaration_loop := fun n => (h n).parse_class_declaration_loop
  parse_class_declaration := fun n => (h n).parse_class_declaration
  parse_expression_statement := fun n => (h n).parse_expression_statement
  parse_if_statement := fun n => (h n).parse_if_statement
  parse_while_statement := fun n => (h n).parse_while_statement
  parse_do_while_statement := fun n => (h n).parse_do_while_statement
  parse_for_statement_rest := fun n => (h n).parse_for_statement_rest
  parse_for_statement := fun n => (h n).parse_for_statement
  parse_switch_body_loop := fun n => (h n).parse_switch_body_loop
  parse_switch_statement_loop := fun n => (h n).parse_switch_statement_loop
  parse_switch_statement := fun n => (h n).parse_switch_statement
  parse_return_statement := fun n => (h n).parse_return_statement
  parse_break_statement := fun n => (h n).parse_break_statement
  parse_continue_statement := fun n => (h n).parse_continue_statement
  parse_throw_statement := fun n => (h n).parse_throw_statement
  parse_try_statement := fun n => (h n).parse_try_statement
  parse_block_statement := fun n => (h n).parse_block_statement
  comma_list_loop := fun n => (h n).comma_list_loop
  parse_expression := fun n => (h n).parse_expression
  parse_assignment_expression := fun n => (h n).parse_assignment_expression
  parse_conditional_expression := fun n => (h n).parse_conditional_expression
  parse_logical_or_expression_loop := fun n => (h n).parse_logical_or_expression_loop
  parse_logical_or_expression := fun n => (h n).parse_logical_or_expression
  parse_logical_and_expression_loop := fun n => (h n).parse_logical_and_expression_loop
  parse_logical_and_expression := fun n => (h n).parse_logical_and_expression
  parse_bitwise_or_expression_loop := fun n => (h n).parse_bitwise_or_expression_loop
  parse_bitwise_or_expression := fun n => (h n).parse_bitwise_or_expression
  parse_bitwise_xor_expression_loop := fun n => (h n).parse_bitwise_xor_expression_loop
  parse_bitwise_xor_expression := fun n => (h n).parse_bitwise_xor_expression
  parse_bitwise_and_expression_loop := fun n => (h n).parse_bitwise_and_expression_loop
  parse_bitwise_and_expression := fun n => (h n).parse_bitwise_and_expression
  parse_equality_expression_loop := fun n => (h n).parse_equality_expression_loop
  parse_equality_expression := fun n => (h n).parse_equality_expression
  parse_relational_expression_loop := fun n => (h n).parse_relational_expression_loop
  parse_relational_expression := fun n => (h n).parse_relational_expression
  parse_shift_expression_loop := fun n => (h n).parse_shift_expression_loop
  parse_shift_expression := fun n => (h n).parse_shift_expression
  parse_additive_expression_loop := fun n => (h n).parse_additive_expression_loop
  parse_additive_expression := fun n => (h n).parse_additive_expression
  parse_multiplicative_expression_loop := fun n => (h n).parse_multiplicative_expression_loop
  parse_multiplicative_expression := fun n => (h n).parse_multiplicative_expression
  parse_exponentiation_expression := fun n => (h n).parse_exponentiation_expression
  parse_unary_expression := fun n => (h n).parse_unary_expression
  parse_postfix_expression := fun n => (h n).parse_postfix_expression
  parse_arguments := fun n => (h n).parse_arguments
  parse_left_hand_side_expression := fun n => (h n).parse_left_hand_side_expression
  member_access_loop := fun n => (h n).member_access_loop
  parse_call_expression_loop := fun n => (h n).parse_call_expression_loop
  parse_call_expression := fun n => (h n).parse_call_expression
  parse_member_expression := fun n => (h n).parse_member_expression
  parse_primary_expression := fun n => (h n).parse_primary_expression
  parse_array_element := fun n => (h n).parse_array_element
  parse_array_literal_loop := fun n => (h n).parse_array_literal_loop
  parse_array_literal := fun n => (h n).parse_array_literal
  parse_object_property_rest := fun n => (h n).parse_object_property_rest
  parse_object_literal_loop := fun n => (h n).parse_object_literal_loop
  parse_object_literal := fun n => (h n).parse_object_literal

theorem AllParsers.imp {Φ Ψ : (Nat → Parser → Outcome) → Prop} (h : ∀ f, Φ f → Ψ f)
    (a : AllParsers Φ) : AllParsers Ψ where
  parse_statement_list := h _ a.parse_statement_list
  parse_statement := h _ a.parse_statement
  parse_initializer := h _ a.parse_initializer
  parse_variable_declaration_loop := h _ a.parse_variable_declaration_loop
  parse_variable_declaration := h _ a.parse_variable_declaration
  parse_function_declaration := h _ a.parse_function_declaration
  parse_class_declaration_loop := h _ a.parse_class_declaration_loop
  parse_class_declaration := h _ a.parse_class_declaration
  parse_expression_statement := h _ a.parse_expression_statement
  parse_if_statement := h _ a.parse_if_statement
  parse_while_statement := h _ a.parse_while_statement
  parse_do_while_statement := h _ a.parse_do_while_statement
  parse_for_statement_rest := h _ a.parse_for_statement_rest
  parse_for_statement := h _ a.parse_for_statement
  parse_switch_body_loop := h _ a.parse_switch_body_loop
  parse_switch_statement_loop := h _ a.parse_switch_statement_loop
  parse_switch_statement := h _ a.parse_switch_statement
  parse_return_statement := h _ a.parse_return_statement
  parse_break_statement := h _ a.parse_break_statement
  parse_continue_statement := h _ a.parse_continue_statement
  parse_throw_statement := h _ a.parse_throw_statement
  parse_try_statement := h _ a.parse_try_statement
  parse_block_statement := h _ a.parse_block_statement
  comma_list_loop := h _ a.comma_list_loop
  parse_expression := h _ a.parse_expression
  parse_assignment_expression := h _ a.parse_assignment_expression
  parse_conditional_expression := h _ a.parse_conditional_expression
  parse_logical_or_expression_loop := h _ a.parse_logical_or_expression_loop
  parse_logical_or_expression := h _ a.parse_logical_or_expression
  parse_logical_and_expression_loop := h _ a.parse_logical_and_expression_loop
  parse_logical_and_expression := h _ a.parse_logical_and_expression
  parse_bitwise_or_expression_loop := h _ a.parse_bitwise_or_expression_loop
  parse_bitwise_or_expression := h _ a.parse_bitwise_or_expression
  parse_bitwise_xor_expression_loop := h _ a.parse_bitwise_xor_expression_loop
  parse_bitwise_xor_expression := h _ a.parse_bitwise_xor_expression
  parse_bitwise_and_expression_loop := h _ a.parse_bitwise_and_expression_loop
  parse_bitwise_and_expression := h _ a.parse_bitwise_and_expression
  parse_equality_expression_loop := h _ a.parse_equality_expression_loop
  parse_equality_expression := h _ a.parse_equality_expression
  parse_relational_expression_loop := h _ a.parse_relational_expression_loop
  parse_relational_expression := h _ a.parse_relational_expression
  parse_shift_expression_loop := h _ a.parse_shift_expression_loop
  parse_shift_expression := h _ a.parse_shift_expression
  parse_additive_expression_loop := h _ a.parse_additive_expression_loop
  parse_additive_expression := h _ a.parse_additive_expression
  parse_multiplicative_expression_loop := h _ a.parse_multiplicative_expression_loop
  parse_multiplicative_expression := h _ a.parse_multiplicative_expression
  parse_exponentiation_expression := h _ a.parse_exponentiation_expression
  parse_unary_expression := h _ a.parse_unary_expression
  parse_postfix_expression := h _ a.parse_postfix_expression
  parse_arguments := h _ a.parse_arguments
  parse_left_hand_side_expression := h _ a.parse_left_hand_side_expression
  member_access_loop := h _ a.member_access_loop
  parse_call_expression_loop := h _ a.parse_call_expression_loop
  parse_call_expression := h _ a.parse_call_expression
  parse_member_expression := h _ a.parse_member_expression
  parse_primary_expression := h _ a.parse_primary_expression
  parse_array_element := h _ a.parse_array_element
  parse_array_literal_loop := h _ a.parse_array_literal_loop
  parse_array_literal := h _ a.parse_array_literal
  parse_object_property_rest := h _ a.parse_object_property_rest
  parse_object_literal_loop := h _ a.parse_object_literal_loop
  parse_object_literal := h _ a.parse_object_literal

/-- More fuel does not change an outcome other than the exhaustion of the fuel. -/
theorem parse_statement_list_fuel (n k : Nat) (P : Parser)
    (h : parse_statement_list n P ≠ .out_of_fuel) :
    parse_statement_list (n + k) P = parse_statement_list n P := by
  induction k with
  | zero => rfl
  | succ k ih =>
    have h1 := (all_fuel_mono (n + k)).parse_statement_list P (by rw [ih]; exact h)
    rw [← Nat.add_assoc, h1, ih]

/-- A run of `parse_javascript_string` that returns keeps its outcome with any
larger amount of fuel. -/
theorem parse_javascript_string_fuel (n k : Nat) (source : List Nat) (b : Bool)
    (h : (parse_javascript_string n source).success = some b) :
    parse_javascript_string (n + k) source = parse_javascript_string n source := by
  unfold parse_javascript_string parser_parse at h ⊢
  dsimp only at h ⊢
  split at h
  · rfl
  · unfold parse_program at h ⊢
    apply parse_statement_list_fuel
    intro e
    rw [e] at h
    cases h

/-- C1, the code at the failing input: on the source consisting of one closing
brace, with any fuel from 10 on, `parser_parse` returns success, no diagnostic is
set, and the current token is still that brace, not `EOF`. -/
theorem unmatched_brace_accepted (k : Nat) :
    (parse_javascript_string (10 + k) (cstr "\x7d")).success = some true ∧
    (parse_javascript_string (10 + k) (cstr "\x7d")).error_code = some .ERROR_NONE ∧
    (parse_javascript_string (10 + k) (cstr "\x7d")).current_type = some .TOKEN_RBRACE := by
  rw [parse_javascript_string_fuel 10 k _ true (by decide)]
  decide

/-- C2, the code at the failing input: on `; #` the tokenizer reports
`LEXER_INVALID_CHAR` for `#`, yet with any fuel from 10 on `parser_parse` returns
success (exit code 0) while the test for the "Syntax is valid" line fails. -/
theorem success_with_lexical_error (k : Nat) :
    (parse_javascript_string (10 + k) (cstr "; #")).success = some true ∧
    (parse_javascript_string (10 + k) (cstr "; #")).error_code =
      some .ERROR_LEXER_INVALID_CHAR ∧
    (parse_javascript_string (10 + k) (cstr "; #")).prints_valid = some false := by
  rw [parse_javascript_string_fuel 10 k _ true (by decide)]
  decide

theorem advance_source_length (L : Lexer) :
    (advance L).2.source_length = L.source_length := by
  unfold Lexer.source_length
  rw [advance_source]

/-- Each `advance` before the end of the source consumes at least one byte. -/
theorem advance_unread_lt (L : Lexer) (h : L.current < L.source_length) :
    (advance L).2.source_length - (advance L).2.current < L.source_length - L.current := by
  have hs := advance_source_length L
  have hc : L.current < (advance L).2.current := by
    unfold advance
    dsimp only
    rw [if_neg (by omega)]
    split_ifs <;> dsimp only <;> omega
  omega

theorem advance_unread_le (L : Lexer) :
    (advance L).2.source_length - (advance L).2.current ≤ L.source_length - L.current := by
  have hs := advance_source_length L
  have hc := (advance_mono L).1
  omega

theorem Advances.unread_le {L L' : Lexer} (h : Advances L L') :
    L'.source_length - L'.current ≤ L.source_length - L.current := by
  have hm := h.mono
  have hs : L'.source_length = L.source_length := by
    unfold Lexer.source_length
    rw [hm.1]
  have hc := hm.2.1
  omega

/-- The fuel of `skip_whitespace` suffices: with any fuel of at least the number
of unread bytes the loop ends by its own condition. -/
theorem skip_whitespace_loop_fuel (f1 f2 : Nat) (L : Lexer)
    (h1 : L.source_length - L.current ≤ f1) (h2 : L.source_length - L.current ≤ f2) :
    skip_whitespace_loop f1 L = skip_whitespace_loop f2 L := by
  induction f1 generalizing f2 L with
  | zero =>
    have hge : ¬ L.current < L.source_length := by omega
    cases f2 with
    | zero => rfl
    | succ m => unfold skip_whitespace_loop; rw [if_neg hge]
  | succ n ih =>
    cases f2 with
    | zero =>
      have hge : ¬ L.current < L.source_length := by omega
      unfold skip_whitespace_loop; rw [if_neg hge]
    | succ m =>
      unfold skip_whitespace_loop
      dsimp only
      by_cases hlt : L.current < L.source_length
      · have hr := advance_unread_lt L hlt
        rw [if_pos hlt, if_pos hlt]
        split_ifs <;> first | rfl | exact ih _ _ (by omega) (by omega)
      · rw [if_neg hlt, if_neg hlt]

theorem skip_line_comment_loop_fuel (f1 f2 : Nat) (L : Lexer)
    (h1 : L.source_length - L.current ≤ f1) (h2 : L.source_length - L.current ≤ f2) :
    skip_line_comment_loop f1 L = skip_line_comment_loop f2 L := by
  induction f1 generalizing f2 L with
  | zero =>
    have hge : ¬ L.current < L.source_length := by omega
    cases f2 with
    | zero => rfl
    | succ m => unfold skip_line_comment_loop; rw [if_neg hge]
  | succ n ih =>
    cases f2 with
    | zero =>
      have hge : ¬ L.current < L.source_length := by omega
      unfold skip_line_comment_loop; rw [if_neg hge]
    | succ m =>
      unfold skip_line_comment_loop
      dsimp only
      by_cases hlt : L.current < L.source_length
      · have hr := advance_unread_lt L hlt
        have hr2 := advance_unread_le (advance L).2
        have hr3 := advance_unread_lt (advance L).2
        rw [if_pos hlt, if_pos hlt]
        split_ifs <;> first | rfl | exact ih _ _ (by omega) (by omega)
      · rw [if_neg hlt, if_neg hlt]

theorem skip_block_comment_loop_fuel (f1 f2 : Nat) (L : Lexer)
    (h1 : L.source_length - L.current ≤ f1) (h2 : L.source_length - L.current ≤ f2) :
    skip_block_comment_loop f1 L = skip_block_comment_loop f2 L := by
  induction f1 generalizing f2 L with
  | zero =>
    have hge : ¬ L.current < L.source_length := by omega
    cases f2 with
    | zero => rfl
    | succ m => unfold skip_block_comment_loop; rw [if_neg hge]
  | succ n ih =>
    cases f2 with
    | zero =>
      have hge : ¬ L.current < L.source_length := by omega
      unfold skip_block_comment_loop; rw [if_neg hge]
    | succ m =>
      unfold skip_block_comment_loop
      dsimp only
      by_cases hlt : L.current < L.source_length
      · have hr := advance_unread_lt L hlt
        have hr2 := advance_unread_le (advance L).2
        have hr3 := advance_unread_lt (advance L).2
        rw [if_pos hlt, if_pos hlt]
        split_ifs <;> first | rfl | exact ih _ _ (by omega) (by omega)
      · rw [if_neg hlt, if_neg hlt]

theorem read_identifier_loop_fuel (f1 f2 : Nat) (L : Lexer)
    (h1 : L.source_length - L.current ≤ f1) (h2 : L.source_length - L.current ≤ f2) :
    read_identifier_loop f1 L = read_identifier_loop f2 L := by
  induction f1 generalizing f2 L with
  | zero =>
    have hge : ¬ L.current < L.source_length := by omega
    cases f2 with
    | zero => rfl
    | succ m => unfold read_identifier_loop; rw [if_neg hge]
  | succ n ih =>
    cases f2 with
    | zero =>
      have hge : ¬ L.current < L.source_length := by omega
      unfold read_identifier_loop; rw [if_neg hge]
    | succ m =>
      unfold read_identifier_loop
      dsimp only
      by_cases hlt : L.current < L.source_length
      · have hr := advance_unread_lt L hlt
        have hr2 := advance_unread_le (advance L).2
        have hr3 := advance_unread_lt (advance L).2
        have hu := (parse_unicode_escape_advances L).unread_le
        have hu2 : (parse_unicode_escape L).2.source_length - (parse_unicode_escape L).2.current <
            L.source_length - L.current := by
          have := ((Advances.one (advance L).2).trans
            (parse_unicode_escape_loop_advances 4 0 (advance (advance L).2).2)).unread_le
          have e : (parse_unicode_escape L).2 =
              (parse_unicode_escape_loop 4 0 (advance (advance L).2).2).2 := rfl
          rw [e]
          omega
        rw [if_pos hlt, if_pos hlt]
        split_ifs
        · cases hpu : parse_unicode_escape L with
          | mk o L1 =>
            rw [hpu] at hu2
            cases o with
            | none => rfl
            | some v => exact ih _ _ (by dsimp only at hu2 ⊢; omega) (by dsimp only at hu2 ⊢; omega)
        · exact ih _ _ (by omega) (by omega)
        · rfl
      · rw [if_neg hlt, if_neg hlt]

theorem advance_while_loop_fuel (p : Nat → Bool) (f1 f2 : Nat) (L : Lexer)
    (h1 : L.source_length - L.current ≤ f1) (h2 : L.source_length - L.current ≤ f2) :
    advance_while_loop p f1 L = advance_while_loop p f2 L := by
  induction f1 generalizing f2 L with
  | zero =>
    have hge : ¬ L.current < L.source_length := by omega
    cases f2 with
    | zero => rfl
    | succ m => unfold advance_while_loop; rw [if_neg (fun hh => hge hh.1)]
  | succ n ih =>
    cases f2 with
    | zero =>
      have hge : ¬ L.current < L.source_length := by omega
      unfold advance_while_loop; rw [if_neg (fun hh => hge hh.1)]
    | succ m =>
      unfold advance_while_loop
      by_cases hlt : L.current < L.source_length
      · have hr := advance_unread_lt L hlt
        have hr2 := advance_unread_le (advance L).2
        have hr3 := advance_unread_lt (advance L).2
        split_ifs <;> first | rfl | exact ih _ _ (by omega) (by omega)
      · rw [if_neg (fun hh => hlt hh.1), if_neg (fun hh => hlt hh.1)]

theorem read_string_loop_fuel (quote : Nat) (f1 f2 : Nat) (L : Lexer)
    (h1 : L.source_length - L.current ≤ f1) (h2 : L.source_length - L.current ≤ f2) :
    read_string_loop quote f1 L = read_string_loop quote f2 L := by
  induction f1 generalizing f2 L with
  | zero =>
    have hge : ¬ L.current < L.source_length := by omega
    cases f2 with
    | zero => rfl
    | succ m => unfold read_string_loop; rw [if_neg hge]
  | succ n ih =>
    cases f2 with
    | zero =>
      have hge : ¬ L.current < L.source_length := by omega
      unfold read_string_loop; rw [if_neg hge]
    | succ m =>
      unfold read_string_loop
      dsimp only
      by_cases hlt : L.current < L.source_length
      · have hr := advance_unread_lt L hlt
        have hr2 := advance_unread_le (advance L).2
        have hr3 := advance_unread_lt (advance L).2
        rw [if_pos hlt, if_pos hlt]
        split_ifs <;> first | rfl | exact ih _ _ (by omega) (by omega)
      · rw [if_neg hlt, if_neg hlt]

theorem read_template_loop_fuel (f1 f2 : Nat) (L : Lexer)
    (h1 : L.source_length - L.current ≤ f1) (h2 : L.source_length - L.current ≤ f2) :
    read_template_loop f1 L = read_template_loop f2 L := by
  induction f1 generalizing f2 L with
  | zero =>
    have hge : ¬ L.current < L.source_length := by omega
    cases f2 with
    | zero => rfl
    | succ m => unfold read_template_loop; rw [if_neg hge]
  | succ n ih =>
    cases f2 with
    | zero =>
      have hge : ¬ L.current < L.source_length := by omega
      unfold read_template_loop; rw [if_neg hge]
    | succ m =>
      unfold read_template_loop
      dsimp only
      by_cases hlt : L.current < L.source_length
      · have hr := advance_unread_lt L hlt
        have hr2 := advance_unread_le (advance L).2
        have hr3 := advance_unread_lt (advance L).2
        rw [if_pos hlt, if_pos hlt]
        split_ifs <;> first | rfl | exact ih _ _ (by omega) (by omega)
      · rw [if_neg hlt, if_neg hlt]

theorem read_regex_class_loop_fuel (f1 f2 : Nat) (L : Lexer)
    (h1 : L.source_length - L.current ≤ f1) (h2 : L.source_length - L.current ≤ f2) :
    read_regex_class_loop f1 L = read_regex_class_loop f2 L := by
  induction f1 generalizing f2 L with
  | zero =>
    have hge : ¬ L.current < L.source_length := by omega
    cases f2 with
    | zero => rfl
    | succ m => unfold read_regex_class_loop; rw [if_neg hge]
  | succ n ih =>
    cases f2 with
    | zero =>
      have hge : ¬ L.current < L.source_length := by omega
      unfold read_regex_class_loop; rw [if_neg hge]
    | succ m =>
      unfold read_regex_class_loop
      dsimp only
      by_cases hlt : L.current < L.source_length
      · have hr := advance_unread_lt L hlt
        have hr2 := advance_unread_le (advance L).2
        have hr3 := advance_unread_lt (advance L).2
        rw [if_pos hlt, if_pos hlt]
        split_ifs <;> first | rfl | exact ih _ _ (by omega) (by omega)
      · rw [if_neg hlt, if_neg hlt]

theorem read_regex_loop_fuel (f1 f2 : Nat) (L : Lexer)
    (h1 : L.source_length - L.current ≤ f1) (h2 : L.source_length - L.current ≤ f2) :
    read_regex_loop f1 L = read_regex_loop f2 L := by
  induction f1 generalizing f2 L with
  | zero =>
    have hge : ¬ L.current < L.source_length := by omega
    cases f2 with
    | zero => rfl
    | succ m => unfold read_regex_loop; rw [if_neg hge]
  | succ n ih =>
    cases f2 with
    | zero =>
      have hge : ¬ L.current < L.source_length := by omega
      unfold read_regex_loop; rw [if_neg hge]
    | succ m =>
      unfold read_regex_loop
      dsimp only
      by_cases hlt : L.current < L.source_length
      · have hr := advance_unread_lt L hlt
        have hr2 := advance_unread_le (advance L).2
        have hr3 := advance_unread_lt (advance L).2
        have hcl := (read_regex_class_loop_advances
          ((advance L).2.source_length - (advance L).2.current) (advance L).2).unread_le
        rw [if_pos hlt, if_pos hlt]
        split_ifs <;> first | rfl | exact ih _ _ (by omega) (by omega)
      · rw [if_neg hlt, if_neg hlt]

theorem skip_whitespace_unread (L : Lexer) :
    (skip_whitespace L).source_length - (skip_whitespace L).current ≤
      L.source_length - L.current :=
  (skip_whitespace_loop_advances (L.source_length - L.current) L).unread_le

theorem skip_line_comment_unread (L : Lexer) (h : L.current < L.source_length) :
    (skip_line_comment L).source_length - (skip_line_comment L).current <
      L.source_length - L.current := by
  have h1 := advance_unread_lt L h
  have h2 := advance_unread_le (advance L).2
  have h3 := (skip_line_comment_loop_advances
    ((advance (advance L).2).2.source_length - (advance (advance L).2).2.current)
    (advance (advance L).2).2).unread_le
  have e : skip_line_comment L = skip_line_comment_loop
    ((advance (advance L).2).2.source_length - (advance (advance L).2).2.current)
    (advance (advance L).2).2 := rfl
  rw [e]
  omega

theorem skip_block_comment_unread (L : Lexer) (h : L.current < L.source_length) :
    (skip_block_comment L).2.source_length - (skip_block_comment L).2.current <
      L.source_length - L.current := by
  have h1 := advance_unread_lt L h
  have h2 := advance_unread_le (advance L).2
  have h3 := (skip_block_comment_loop_advances
    ((advance (advance L).2).2.source_length - (advance (advance L).2).2.current)
    (advance (advance L).2).2).unread_le
  unfold skip_block_comment
  dsimp only
  split
  · next L3 heq =>
    rw [heq] at h3
    dsimp only at h3 ⊢
    omega
  · next L3 heq =>
    rw [heq] at h3
    simp only [Lexer.source_length] at h h1 h2 h3 ⊢
    omega

/-- The fuel of the trivia loop of `lexer_next_token` suffices. -/
theorem lexer_next_token_trivia_loop_fuel (f1 f2 : Nat) (L : Lexer)
    (h1 : L.source_length - L.current ≤ f1) (h2 : L.source_length - L.current ≤ f2) :
    lexer_next_token_trivia_loop f1 L = lexer_next_token_trivia_loop f2 L := by
  induction f1 generalizing f2 L with
  | zero =>
    have hge : ¬ L.current < L.source_length := by omega
    cases f2 with
    | zero => rfl
    | succ m => unfold lexer_next_token_trivia_loop; rw [if_neg hge]
  | succ n ih =>
    cases f2 with
    | zero =>
      have hge : ¬ L.current < L.source_length := by omega
      unfold lexer_next_token_trivia_loop; rw [if_neg hge]
    | succ m =>
      unfold lexer_next_token_trivia_loop
      dsimp only
      by_cases hlt : L.current < L.source_length
      · have hw := skip_whitespace_unread L
        rw [if_pos hlt, if_pos hlt]
        split_ifs with c1 c2 c3
        · rfl
        · have := skip_line_comment_unread (skip_whitespace L) (by omega)
          exact ih _ _ (by omega) (by omega)
        · have hb := skip_block_comment_unread (skip_whitespace L) (by omega)
          cases hbc : skip_block_comment (skip_whitespace L) with
          | mk b L2 =>
            rw [hbc] at hb
            dsimp only at hb ⊢
            cases b with
            | false => rfl
            | true => exact ih _ _ (by omega) (by omega)
        · rfl
      · rw [if_neg hlt, if_neg hlt]

/-! ## Restricted productions and end-of-input diagnostics -/

theorem FuelMono.add_fuel {f : Nat → Parser → Outcome} (h : ∀ n, FuelMono n f) (n k : Nat)
    (P : Parser) (hne : f n P ≠ .out_of_fuel) : f (n + k) P = f n P := by
  induction k with
  | zero => rfl
  | succ k ih =>
    have h1 := h (n + k) P (by rw [ih]; exact hne)
    rw [← Nat.add_assoc, h1, ih]

/-- Every parser function keeps an outcome other than the exhaustion of the
fuel when it is given more fuel. -/
theorem all_fuel_add :
    AllParsers (fun f => ∀ n k P, f n P ≠ .out_of_fuel → f (n + k) P = f n P) :=
  (AllParsers.forall_fuel all_fuel_mono).imp (fun _ h => FuelMono.add_fuel h)

/-- C11 (restricted productions `return`, `break`, `continue`). When the token
after the keyword is preceded by a newline, each of the three statement
functions returns true in the state right after the `parser_advance` over the
keyword: nothing but the keyword is consumed and that token, of whatever kind,
is the current token. On `return`, newline, `42` the token after `return` is the
number with its newline flag set, and the source is accepted with no diagnostic
and the whole input consumed, with any fuel from 40 on. -/
theorem restricted_productions (P : Parser) (T : Token) (n : Nat)
    (hT : (parser_advance P).2.current_token = some T) (hnl : T.preceded_by_newline = true) :
    (parse_return_statement (n + 1) P = .ret true (parser_advance P).2 ∧
      parse_break_statement (n + 1) P = .ret true (parser_advance P).2 ∧
      parse_continue_statement (n + 1) P = .ret true (parser_advance P).2) ∧
    ((parser_advance (parser_create (lexer_create (cstr "return\n42") none))).2.current_token.map
        (fun t => (t.type, t.preceded_by_newline)) = some (.TOKEN_NUMBER, true) ∧
      ∀ k, (parse_javascript_string (40 + k) (cstr "return\n42")).success = some true ∧
        (parse_javascript_string (40 + k) (cstr "return\n42")).error_code = some .ERROR_NONE ∧
        (parse_javascript_string (40 + k) (cstr "return\n42")).current_type = some .TOKEN_EOF) := by
  refine ⟨⟨?_, ?_, ?_⟩, by decide, ?_⟩
  · unfold parse_return_statement
    dsimp only
    unfold with_current
    rw [hT]
    dsimp only
    rw [if_pos hnl]
  · unfold parse_break_statement
    dsimp only
    unfold with_current
    rw [hT]
    dsimp only
    rw [if_pos hnl]
  · unfold parse_continue_statement
    dsimp only
    unfold with_current
    rw [hT]
    dsimp only
    rw [if_pos hnl]
  · intro k
    rw [parse_javascript_string_fuel 40 k _ true (by decide)]
    decide

theorem restricted_productions_witness :
    parse_return_statement 1 (parser_create (lexer_create (cstr "return\n42") none)) =
        .ret true (parser_advance (parser_create (lexer_create (cstr "return\n42") none))).2 ∧
      parse_break_statement 1 (parser_create (lexer_create (cstr "return\n42") none)) =
        .ret true (parser_advance (parser_create (lexer_create (cstr "return\n42") none))).2 ∧
      parse_continue_statement 1 (parser_create (lexer_create (cstr "return\n42") none)) =
        .ret true (parser_advance (parser_create (lexer_create (cstr "return\n42") none))).2 :=
  (restricted_productions (parser_create (lexer_create (cstr "return\n42") none))
    { type := .TOKEN_NUMBER, value := some [52, 50], length := 2,
      start := ⟨2, 1, 7⟩, end_ := ⟨2, 3, 9⟩, preceded_by_newline := true } 0
    (by decide) rfl).1

/-- C12 (restricted production `throw`). When the token `T` after `throw` is
preceded by a newline, `parse_throw_statement` returns false in the state right
after the `parser_advance` over the keyword (no expression is parsed), the only
change being the diagnostic: code `PARSER_UNEXPECTED_TOKEN`, position `T.start`
and the message about the line break. On `throw`, newline, `new Error()` the
run fails with that diagnostic at line 2, column 1, with any fuel from 20 on. -/
theorem restricted_production_throw (P : Parser) (T : Token) (n : Nat)
    (hT : (parser_advance P).2.current_token = some T) (hnl : T.preceded_by_newline = true) :
    parse_throw_statement (n + 1) P =
      .ret false { (parser_advance P).2 with
        lexer := { (parser_advance P).2.lexer with
          error := (parser_advance P).2.lexer.error.map fun _ =>
            { code := .ERROR_PARSER_UNEXPECTED_TOKEN, position := T.start,
              message := cstr "Line break is not allowed between 'throw' and its expression" } } } ∧
    ∀ k, (parse_javascript_string (20 + k) (cstr "throw\nnew Error()")).success = some false ∧
      (parse_javascript_string (20 + k) (cstr "throw\nnew Error()")).error = some
        { code := .ERROR_PARSER_UNEXPECTED_TOKEN, position := ⟨2, 1, 6⟩,
          message := cstr "Line break is not allowed between 'throw' and its expression" } := by
  have hmsg : ((cstr "Line break is not allowed between 'throw' and its expression").takeWhile
      (· ≠ 0)).take 255 =
      cstr "Line break is not allowed between 'throw' and its expression" := by decide
  constructor
  · unfold parse_throw_statement
    dsimp only
    unfold with_current
    rw [hT]
    dsimp only
    rw [if_pos hnl]
    unfold parser_set_error
    cases he : (parser_advance P).2.lexer.error with
    | none => simp [set_error, hT]
    | some v =>
      simp only [set_error, Option.map_some']
      rw [hmsg, hT]
  · intro k
    rw [parse_javascript_string_fuel 20 k _ false (by decide)]
    decide

theorem restricted_production_throw_witness :
    parse_throw_statement 1 (parser_create (lexer_create (cstr "throw\na") none)) =
      .ret false { (parser_advance (parser_create (lexer_create (cstr "throw\na") none))).2 with
        lexer := { (parser_advance (parser_create (lexer_create (cstr "throw\na") none))).2.lexer
          with
          error := (parser_advance (parser_create (lexer_create (cstr "throw\na")
              none))).2.lexer.error.map fun _ =>
            { code := .ERROR_PARSER_UNEXPECTED_TOKEN, position := ⟨2, 1, 6⟩,
              message := cstr "Line break is not allowed between 'throw' and its expression" } } } :=
  (restricted_production_throw (parser_create (lexer_create (cstr "throw\na") none))
    { type := .TOKEN_IDENTIFIER, value := some [97], length := 1,
      start := ⟨2, 1, 6⟩, end_ := ⟨2, 2, 7⟩, preceded_by_newline := true } 0
    (by decide) rfl).1

/-- C14, the code at the failing input `if #`: the second call of
`lexer_next_token` sets `LEXER_INVALID_CHAR` at line 1, column 4 for `#` and
returns NULL; `parser_expect` then runs with a NULL current token and replaces
the diagnostic by `PARSER_EXPECTED_TOKEN` ("Expected token type 51, got -1") at
the end of `if`, which is what the run ends with (any fuel from 20 on). -/
theorem lexical_error_overwritten (k : Nat) :
    token_at (cstr "if #") (some zeroed_error) 1 = none ∧
    (lexer_after (cstr "if #") (some zeroed_error) 2).error = some
      { code := .ERROR_LEXER_INVALID_CHAR, position := ⟨1, 4, 3⟩,
        message := cstr "Unexpected character: '#'" } ∧
    (parse_javascript_string (20 + k) (cstr "if #")).success = some false ∧
    (parse_javascript_string (20 + k) (cstr "if #")).error = some
      { code := .ERROR_PARSER_EXPECTED_TOKEN, position := ⟨1, 3, 2⟩,
        message := cstr "Expected token type 51, got -1" } := by
  rw [parse_javascript_string_fuel 20 k _ false (by decide)]
  decide

/-- C15, the code at the failing input: the string literal opened at the start
of `"abc` has no closing quote before the end of input, yet `lexer_next_token`
returns a `STRING` token of length 4 whose last byte is `c`, and sets no
diagnostic; `var s = "abc` is accepted. -/
theorem unterminated_string_at_end_accepted (k : Nat) :
    token_at (cstr "\x22abc") (some zeroed_error) 0 = some
      { type := .TOKEN_STRING, value := some [34, 97, 98, 99], length := 4,
        start := ⟨1, 1, 0⟩, end_ := ⟨1, 5, 4⟩, preceded_by_newline := false } ∧
    (lexer_after (cstr "\x22abc") (some zeroed_error) 1).error = some zeroed_error ∧
    (parse_javascript_string (40 + k) (cstr "var s = \x22abc")).success = some true ∧
    (parse_javascript_string (40 + k) (cstr "var s = \x22abc")).error_code = some .ERROR_NONE := by
  rw [parse_javascript_string_fuel 40 k _ true (by decide)]
  decide

/-- C16, the code at the failing inputs: after `=` the slash starts a regular
expression. In `=/ab` the end of input comes before a closing slash, and in
`=/[`, newline, `]/` a line terminator lies inside the character class; in both
cases `lexer_next_token` returns a `REGEX` token (of 3 bytes, and of 5 bytes
ending on line 2) and sets no diagnostic. -/
theorem unterminated_regex_accepted :
    (token_at (cstr "=/ab") (some zeroed_error) 1).map
        (fun t => (t.type, t.value, t.start.offset, t.end_.offset)) =
      some (.TOKEN_REGEX, some [47, 97, 98], 1, 4) ∧
    (lexer_after (cstr "=/ab") (some zeroed_error) 2).error = some zeroed_error ∧
    (token_at (cstr "=/[\n]/") (some zeroed_error) 1).map
        (fun t => (t.type, t.value, t.start.line, t.end_.line)) =
      some (.TOKEN_REGEX, some [47, 91, 10, 93, 47], 1, 2) ∧
    (lexer_after (cstr "=/[\n]/") (some zeroed_error) 2).error = some zeroed_error := by
  decide

/-- C18, the code at the failing inputs: `0b12` is one `NUMBER` token of 4 bytes
(the next token is `EOF`), `0x1.5` is one `NUMBER` token of 5 bytes and `0o78e5`
one of 6 bytes: after the digits of the radix, `read_number` goes on with the
decimal digits, the fraction and the exponent. -/
theorem radix_literal_takes_decimal_tail :
    (token_at (cstr "0b12") none 0).map (fun t => (t.type, t.value)) =
      some (.TOKEN_NUMBER, some (cstr "0b12")) ∧
    (token_at (cstr "0b12") none 1).map (fun t => t.type) = some .TOKEN_EOF ∧
    (token_at (cstr "0x1.5") none 0).map (fun t => (t.type, t.value)) =
      some (.TOKEN_NUMBER, some (cstr "0x1.5")) ∧
    (token_at (cstr "0o78e5") none 0).map (fun t => (t.type, t.value)) =
      some (.TOKEN_NUMBER, some (cstr "0o78e5")) := by
  decide

/-! ## Keyword lookup and identifier starts -/

theorem keywords_nodup : (keywords.map Prod.fst).Nodup := by decide

theorem is_keyword_scan_iff (str : List Nat) (len : Nat) (tbl : List (List Nat × TokenType))
    (K : TokenType) (hnd : (tbl.map Prod.fst).Nodup) :
    is_keyword_scan str len tbl = some K ↔
      (str.take len).length = len ∧ (str.take len, K) ∈ tbl := by
  induction tbl with
  | nil => simp [is_keyword_scan]
  | cons p rest ih =>
    obtain ⟨kw, t⟩ := p
    rw [List.map_cons, List.nodup_cons] at hnd
    unfold is_keyword_scan
    split_ifs with c
    · constructor
      · intro h
        simp only [Option.some.injEq] at h
        subst h
        refine ⟨by rw [← c.2]; exact c.1, ?_⟩
        rw [← c.2]
        exact List.mem_cons_self _ _
      · rintro ⟨_, hm⟩
        rcases List.mem_cons.1 hm with hh | hh
        · simp only [Prod.mk.injEq] at hh
          rw [hh.2]
        · exfalso
          apply hnd.1
          rw [c.2]
          exact List.mem_map.2 ⟨_, hh, rfl⟩
    · rw [ih hnd.2]
      constructor
      · rintro ⟨h1, h2⟩
        exact ⟨h1, List.mem_cons_of_mem _ h2⟩
      · rintro ⟨h1, hm⟩
        rcases List.mem_cons.1 hm with hh | hh
        · exfalso
          simp only [Prod.mk.injEq] at hh
          exact c ⟨by rw [← hh.1]; exact h1, hh.1.symm⟩
        · exact ⟨h1, hh⟩

/-- The token of the identifier branch: its kind is the result of `is_keyword`
on the source from the byte before the entry state, with the token's length,
which is the number of bytes up to the token's end. -/
theorem read_identifier_token (hn : Bool) (L : Lexer) (start : Position) (T : Token)
    (L' : Lexer) (hinv : CursorInv L)
    (h : finish_token hn (read_identifier L start) = (some T, L')) :
    T.type = (is_keyword (L.source.drop (L.current - 1)) T.length).getD .TOKEN_IDENTIFIER ∧
      T.length = T.end_.offset - (L.current - 1) ∧ L.current ≤ T.end_.offset := by
  have hadv := read_identifier_loop_advances (L.source_length - L.current) L
  have hs := hadv.mono.1
  have hm := hadv.mono.2.1
  have hi := (CursorInv.of_advances hadv hinv).offset_eq
  unfold read_identifier at h
  dsimp only at h
  split at h
  · simp [finish_token] at h
  · next L1 heq =>
    rw [heq] at hs hi hm
    dsimp only at hs hi hm
    simp only [finish_token, Prod.mk.injEq, Option.some.injEq] at h
    rw [← h.1]
    simp only [token_create, hs, hi, hm, and_true]
    split <;> simp [*]

/-- A token that starts at an identifier-start byte or at `$` comes out of the
identifier branch of `lexer_next_token`, entered one byte after the state in
which the token starts. -/
theorem identifier_branch (src : List Nat) (e : Option ErrorInfo) (k : Nat) (T : Token)
    (hT : token_at src e k = some T)
    (hid : is_unicode_id_start (char_to_u8 (src.getD T.start.offset 0)) = true ∨
      src.getD T.start.offset 0 = 36) :
    (token_start_state (lexer_after src e k)).source = src ∧
    (token_start_state (lexer_after src e k)).current = T.start.offset ∧
    T.start.offset < src.length ∧
    (advance (token_start_state (lexer_after src e k))).2.current = T.start.offset + 1 ∧
    CursorInv (advance (token_start_state (lexer_after src e k))).2 ∧
    ∃ hn L', finish_token hn (read_identifier (advance (token_start_state (lexer_after src e k))).2
      (token_start_state (lexer_after src e k)).position) = (some T, L') := by
  have hadv := (lexer_after_advances src e 0 k (Nat.zero_le k)).trans
    (token_start_state_advances (lexer_after src e k))
  have hinv := CursorInv.of_advances hadv (CursorInv.create src e)
  have hsrc : (token_start_state (lexer_after src e k)).source = src := hadv.source_create
  have hstart := (token_at_span src e k T hT).1
  unfold token_at at hT
  generalize hS : token_start_state (lexer_after src e k) = S at *
  have hoff : S.current = T.start.offset := by rw [hstart, hinv.offset_eq]
  rw [← hoff] at hid ⊢
  have hne : src.getD S.current 0 ≠ 10 ∧ src.getD S.current 0 ≠ 13 ∧
      src.getD S.current 0 ≠ 0 := by
    refine ⟨?_, ?_, ?_⟩ <;> intro hc <;> rw [hc] at hid <;> revert hid <;> decide
  have hlt : S.current < src.length := by
    by_contra hh
    exact hne.2.2 (List.getD_eq_default _ _ (by omega))
  have hst := advance_step S (by rw [hsrc]; exact hlt) (by rw [hsrc]; exact hne.1)
    (by rw [hsrc]; exact hne.2.1)
  rw [hsrc] at hst
  refine ⟨hsrc, rfl, hlt, hst.1, hinv.advance, ?_⟩
  cases ht : (lexer_next_token_trivia_loop ((lexer_after src e k).source_length -
      (lexer_after src e k).current) (lexer_after src e k)).1 with
  | false => rw [lexer_next_token_trivia_failed _ ht] at hT; cases hT
  | true =>
    rw [lexer_next_token_eq _ ht, hS] at hT
    rw [hst.2] at hT
    have hge : ¬ S.current ≥ S.source_length := by
      unfold Lexer.source_length; rw [hsrc]; omega
    rw [if_neg hge, if_pos hid] at hT
    exact ⟨_, _, Prod.ext hT rfl⟩

/-- C19 (counterexample). The lexeme `in` is a proper prefix of the keyword
`instanceof` (and `instanceof` a proper extension of the keyword `in`), yet both
are table entries themselves and get their keyword kinds, not `IDENTIFIER`. -/
theorem keyword_prefix_of_keyword :
    ((cstr "instanceof").take 2 = cstr "in" ∧ cstr "in" ≠ cstr "instanceof" ∧
      (cstr "in", TokenType.TOKEN_IN) ∈ keywords ∧
      (cstr "instanceof", TokenType.TOKEN_INSTANCEOF) ∈ keywords) ∧
    (token_at (cstr "in") none 0).map (fun t => t.type) = some .TOKEN_IN ∧
    (token_at (cstr "instanceof") none 0).map (fun t => t.type) = some .TOKEN_INSTANCEOF := by
  decide

/-- C19 (keyword lookup, amended). `is_keyword(str, len)` returns true with kind
`K` exactly when the first `len` bytes of `str` (all `len` of them present) are,
byte for byte, the spelling of an entry of the keyword table with kind `K`, and
returns false when no entry has that spelling; the table has 44 entries. A
token that starts at an identifier-start byte has as its kind the result of that
lookup on its own lexeme (the `length` bytes from its start offset to its end):
the kind of the entry when the lexeme is the spelling of one, and `IDENTIFIER`
when it is the spelling of none. So `if` is a keyword token, and `i`, `iff` and
`Return` are identifiers. -/
theorem keyword_lookup (str : List Nat) (len : Nat) (K : TokenType)
    (src : List Nat) (e : Option ErrorInfo) (k : Nat) (T : Token)
    (hT : token_at src e k = some T)
    (hid : is_unicode_id_start (char_to_u8 (src.getD T.start.offset 0)) = true ∨
      src.getD T.start.offset 0 = 36) :
    (is_keyword str len = some K ↔
      (str.take len).length = len ∧ (str.take len, K) ∈ keywords) ∧
    (is_keyword str len = none ↔
      ∀ K', ¬ ((str.take len).length = len ∧ (str.take len, K') ∈ keywords)) ∧
    keywords.length = 44 ∧
    (T.length = T.end_.offset - T.start.offset ∧
      ((src.drop T.start.offset).take T.length).length = T.length ∧
      T.type = (is_keyword (src.drop T.start.offset) T.length).getD .TOKEN_IDENTIFIER ∧
      (∀ K', ((src.drop T.start.offset).take T.length, K') ∈ keywords → T.type = K') ∧
      ((∀ K', ((src.drop T.start.offset).take T.length, K') ∉ keywords) →
        T.type = .TOKEN_IDENTIFIER)) ∧
    ((token_at (cstr "if") none 0).map (fun t => t.type) = some .TOKEN_IF ∧
      (token_at (cstr "i") none 0).map (fun t => t.type) = some .TOKEN_IDENTIFIER ∧
      (token_at (cstr "iff") none 0).map (fun t => t.type) = some .TOKEN_IDENTIFIER ∧
      (token_at (cstr "Return") none 0).map (fun t => t.type) = some .TOKEN_IDENTIFIER) := by
  have hchar : ∀ (s : List Nat) (l : Nat) (K' : TokenType), is_keyword s l = some K' ↔
      (s.take l).length = l ∧ (s.take l, K') ∈ keywords :=
    fun s l K' => is_keyword_scan_iff s l keywords K' keywords_nodup
  have hnone : ∀ (s : List Nat) (l : Nat), is_keyword s l = none ↔
      ∀ K', ¬ ((s.take l).length = l ∧ (s.take l, K') ∈ keywords) := by
    intro s l
    rw [Option.eq_none_iff_forall_not_mem]
    exact forall_congr' fun K' => not_congr (hchar s l K')
  refine ⟨hchar str len K, hnone str len, by decide, ?_, by decide⟩
  obtain ⟨hsrc, hcur, _, hadv, hinv, hn, L', hfin⟩ := identifier_branch src e k T hT hid
  have := read_identifier_token hn _ _ T L' hinv hfin
  rw [advance_source, hsrc, hadv, Nat.add_sub_cancel] at this
  obtain ⟨hty, hlen, hle⟩ := this
  have hend : T.end_.offset ≤ src.length := by
    rw [(token_at_span src e k T hT).2, (lexer_after_inv src e (k + 1)).offset_eq]
    have := (lexer_after_inv src e (k + 1)).le_length
    rwa [(lexer_after_advances src e 0 (k + 1) (Nat.zero_le _)).source_create] at this
  have htake : ((src.drop T.start.offset).take T.length).length = T.length := by
    rw [List.length_take, List.length_drop]
    omega
  refine ⟨hlen, htake, hty, ?_, ?_⟩
  · intro K' hmem
    rw [hty, (hchar _ _ K').2 ⟨htake, hmem⟩]
    rfl
  · intro hno
    rw [hty, (hnone _ _).2 fun K' h => hno K' h.2]
    rfl

theorem keyword_lookup_witness :
    (is_keyword (cstr "return x") 6 = some .TOKEN_RETURN ↔
      ((cstr "return x").take 6).length = 6 ∧
        ((cstr "return x").take 6, TokenType.TOKEN_RETURN) ∈ keywords) ∧
    ((∀ K', (((cstr "iff").drop 0).take 3, K') ∉ keywords) ∧
      ({ type := .TOKEN_IDENTIFIER, value := some (cstr "iff"), length := 3,
         start := ⟨1, 1, 0⟩, end_ := ⟨1, 4, 3⟩, preceded_by_newline := false } : Token).type =
        .TOKEN_IDENTIFIER) ∧
    ((((cstr "in x").drop 0).take 2, TokenType.TOKEN_IN) ∈ keywords ∧
      ({ type := .TOKEN_IN, value := some (cstr "in"), length := 2,
         start := ⟨1, 1, 0⟩, end_ := ⟨1, 3, 2⟩, preceded_by_newline := false } : Token).type =
        .TOKEN_IN) :=
  have hno : ∀ K', (((cstr "iff").drop 0).take 3, K') ∉ keywords := by
    intro K'
    cases K' <;> decide
  have h := keyword_lookup (cstr "return x") 6 .TOKEN_RETURN (cstr "iff") none 0
    { type := .TOKEN_IDENTIFIER, value := some (cstr "iff"), length := 3,
      start := ⟨1, 1, 0⟩, end_ := ⟨1, 4, 3⟩, preceded_by_newline := false }
    (by decide) (by decide)
  have h2 := keyword_lookup (cstr "return x") 6 .TOKEN_RETURN (cstr "in x") none 0
    { type := .TOKEN_IN, value := some (cstr "in"), length := 2,
      start := ⟨1, 1, 0⟩, end_ := ⟨1, 3, 2⟩, preceded_by_newline := false }
    (by decide) (by decide)
  ⟨h.1, ⟨hno, h.2.2.2.1.2.2.2.2 hno⟩, ⟨by decide, h2.2.2.2.1.2.2.2.1 .TOKEN_IN (by decide)⟩⟩

/-- A byte that does not start an operator of two or more characters goes to the
final `switch`. -/
theorem operator_to_single (L : Lexer) (ch : Nat) (start : Position) (hn : Bool)
    (h : ch ∉ [62, 61, 33, 46, 42, 38, 124, 63, 60, 43, 45, 47, 37, 94]) :
    lexer_next_token_operator L ch start hn = lexer_next_token_single L ch start hn := by
  simp only [List.mem_cons, List.mem_singleton, List.not_mem_nil, or_false, not_or] at h
  obtain ⟨h1, h2, h3, h4, h5, h6, h7, h8, h9, h10, h11, h12, h13, h14⟩ := h
  unfold lexer_next_token_operator
  simp only [h1, h2, h3, h4, h5, h6, h7, h8, h9, h10, h11, h12, h13, h14, false_and, ↓reduceIte]

theorem single_char_type_none (b : Nat) (h : 128 ≤ b) : single_char_type b = none := by
  simp only [single_char_type, show ¬ b = 40 by omega, show ¬ b = 41 by omega,
    show ¬ b = 123 by omega, show ¬ b = 125 by omega, show ¬ b = 91 by omega,
    show ¬ b = 93 by omega, show ¬ b = 59 by omega, show ¬ b = 44 by omega,
    show ¬ b = 46 by omega, show ¬ b = 58 by omega, show ¬ b = 63 by omega,
    show ¬ b = 43 by omega, show ¬ b = 45 by omega, show ¬ b = 42 by omega,
    show ¬ b = 37 by omega, show ¬ b = 61 by omega, show ¬ b = 60 by omega,
    show ¬ b = 62 by omega, show ¬ b = 33 by omega, show ¬ b = 38 by omega,
    show ¬ b = 124 by omega, show ¬ b = 94 by omega, show ¬ b = 126 by omega, ↓reduceIte]

/-- A byte from 0x80 on that reaches the operator part is reported as an
invalid character. -/
theorem operator_invalid_byte (L : Lexer) (b : Nat) (start : Position) (hn : Bool)
    (h : 128 ≤ b) :
    lexer_next_token_operator L b start hn =
      (none, { L with
        error := set_error L.error .ERROR_LEXER_INVALID_CHAR start
          (cstr "Unexpected character: " ++ [39, b, 39]) }) := by
  rw [operator_to_single L b start hn (by
    simp only [List.mem_cons, List.mem_singleton, List.not_mem_nil, or_false, not_or]
    omega)]
  unfold lexer_next_token_single
  dsimp only
  rw [if_neg (by omega), single_char_type_none b h]

theorem is_unicode_id_start_iff (b : Nat) :
    is_unicode_id_start b = true ↔
      ((97 ≤ b ∧ b ≤ 122) ∨ (65 ≤ b ∧ b ≤ 90) ∨ b = 36 ∨ b = 95 ∨ (0xAA ≤ b ∧ b ≤ 0xFFFF)) := by
  unfold is_unicode_id_start
  split_ifs with c1 c2
  · simp only [true_iff]; omega
  · simp only [decide_eq_true_eq]; omega
  · simp only [Bool.false_eq_true, false_iff]; omega

theorem keywords_ascii : ∀ p ∈ keywords, ∀ x ∈ p.1, x < 128 := by decide

/-- C20, counterexample: the byte values 0x80 and 0xA9 are not identifier-start;
a source that consists of the byte 0x80 gives no token and the diagnostic
`LEXER_INVALID_CHAR`; in the two bytes 0xC3 0xA9 (UTF-8 for U+00E9) the first
byte is an `IDENTIFIER` token of length 1 and the second byte gives no token. -/
theorem id_start_rejects_bytes_below_aa :
    is_unicode_id_start 0x80 = false ∧ is_unicode_id_start 0xA9 = false ∧
    token_at [0x80] (some zeroed_error) 0 = none ∧
    ((lexer_after [0x80] (some zeroed_error) 1).error.map fun e => (e.code, e.position)) =
      some (.ERROR_LEXER_INVALID_CHAR, ⟨1, 1, 0⟩) ∧
    (token_at [0xC3, 0xA9] (some zeroed_error) 0).map (fun t => (t.type, t.length)) =
      some (.TOKEN_IDENTIFIER, 1) ∧
    token_at [0xC3, 0xA9] (some zeroed_error) 1 = none := by
  decide

/-- C20, amended. `is_unicode_id_start(b)` is true exactly for the ASCII
letters, `$`, `_` and the values from 0xAA to 0xFFFF. A token that starts at a
byte from 0xAA to 0xFF is an `IDENTIFIER` token; when the bytes before call
number `k` are skipped without error and the token would start at a byte from
0x80 to 0xA9, the call returns no token and sets `LEXER_INVALID_CHAR` at that
byte's position. -/
theorem id_start_bytes (b : Nat) (src : List Nat) (e : Option ErrorInfo) (k : Nat) :
    (is_unicode_id_start b = true ↔
      ((97 ≤ b ∧ b ≤ 122) ∨ (65 ≤ b ∧ b ≤ 90) ∨ b = 36 ∨ b = 95 ∨
        (0xAA ≤ b ∧ b ≤ 0xFFFF))) ∧
    (∀ T, token_at src e k = some T →
      0xAA ≤ src.getD T.start.offset 0 → src.getD T.start.offset 0 ≤ 0xFF →
      T.type = .TOKEN_IDENTIFIER) ∧
    ((lexer_next_token_trivia_loop ((lexer_after src e k).source_length -
        (lexer_after src e k).current) (lexer_after src e k)).1 = true →
      (token_start_state (lexer_after src e k)).current < src.length →
      0x80 ≤ src.getD (token_start_state (lexer_after src e k)).current 0 →
      src.getD (token_start_state (lexer_after src e k)).current 0 ≤ 0xA9 →
      token_at src e k = none ∧
      (lexer_after src e (k + 1)).error =
        set_error (token_start_state (lexer_after src e k)).error .ERROR_LEXER_INVALID_CHAR
          (token_start_state (lexer_after src e k)).position
          (cstr "Unexpected character: " ++
            [39, src.getD (token_start_state (lexer_after src e k)).current 0, 39])) := by
  refine ⟨is_unicode_id_start_iff b, ?_, ?_⟩
  · intro T hT h1 h2
    have hid : is_unicode_id_start (char_to_u8 (src.getD T.start.offset 0)) = true ∨
        src.getD T.start.offset 0 = 36 := by
      left
      rw [is_unicode_id_start_iff]
      unfold char_to_u8
      omega
    obtain ⟨hsrc, hcur, hlt, hadv, hinv, hn, L', hfin⟩ := identifier_branch src e k T hT hid
    have hr := read_identifier_token hn _ _ T L' hinv hfin
    rw [advance_source, hsrc, hadv, Nat.add_sub_cancel] at hr
    rw [hr.1]
    cases hk : is_keyword (src.drop T.start.offset) T.length with
    | none => rfl
    | some K =>
      exfalso
      have hmem := (is_keyword_scan_iff _ _ keywords K keywords_nodup).1 hk
      have hlen : 0 < T.length := by omega
      have hx : src.getD T.start.offset 0 ∈ (src.drop T.start.offset).take T.length := by
        have h0 : 0 < ((src.drop T.start.offset).take T.length).length := by
          rw [hmem.1]; exact hlen
        have := List.getElem_mem h0
        rw [List.getElem_take, List.getElem_drop] at this
        rw [List.getD_eq_getElem _ _ hlt]
        simpa using this
      have := keywords_ascii _ hmem.2 _ hx
      omega
  · intro ht hlt h1 h2
    have hadv := (lexer_after_advances src e 0 k (Nat.zero_le k)).trans
      (token_start_state_advances (lexer_after src e k))
    have hsrc : (token_start_state (lexer_after src e k)).source = src := hadv.source_create
    have hlex : lexer_next_token (lexer_after src e k) =
        (none, { (advance (token_start_state (lexer_after src e k))).2 with
          error := set_error (advance (token_start_state (lexer_after src e k))).2.error
            .ERROR_LEXER_INVALID_CHAR (token_start_state (lexer_after src e k)).position
            (cstr "Unexpected character: " ++
              [39, src.getD (token_start_state (lexer_after src e k)).current 0, 39]) }) := by
      rw [lexer_next_token_eq _ ht]
      generalize token_start_state (lexer_after src e k) = S at *
      have hf := advance_fst S (by rw [hsrc]; exact hlt)
      rw [hsrc] at hf
      rw [hf]
      generalize src.getD S.current 0 = c at *
      have hge : ¬ S.current ≥ S.source_length := by
        unfold Lexer.source_length; rw [hsrc]; omega
      have hnid : ¬ (is_unicode_id_start (char_to_u8 c) = true ∨ c = 36) := by
        rw [is_unicode_id_start_iff]
        unfold char_to_u8
        omega
      have hnd : ¬ (isdigit c = true) := by
        unfold isdigit
        simp only [decide_eq_true_eq]
        omega
      rw [if_neg hge, if_neg hnid, if_neg hnd, if_neg (by omega), if_neg (by omega),
        operator_invalid_byte _ c _ _ h1]
    constructor
    · unfold token_at
      rw [hlex]
    · have e1 : lexer_after src e (k + 1) = (lexer_next_token (lexer_after src e k)).2 := rfl
      rw [e1, hlex]
      dsimp only
      have : (advance (token_start_state (lexer_after src e k))).2.error =
          (token_start_state (lexer_after src e k)).error := by
        unfold advance
        dsimp only
        split_ifs <;> rfl
      rw [this]

theorem id_start_bytes_witness :
    (token_at [0xC3, 0xA9] none 0 = some
        { type := .TOKEN_IDENTIFIER, value := some [0xC3], length := 1,
          start := ⟨1, 1, 0⟩, end_ := ⟨1, 2, 1⟩, preceded_by_newline := false } ∧
      ({ type := .TOKEN_IDENTIFIER, value := some [0xC3], length := 1,
         start := ⟨1, 1, 0⟩, end_ := ⟨1, 2, 1⟩, preceded_by_newline := false } : Token).type =
        .TOKEN_IDENTIFIER) ∧
    (token_at [0x80] (some zeroed_error) 0 = none ∧
      (lexer_after [0x80] (some zeroed_error) (0 + 1)).error =
        set_error (token_start_state (lexer_after [0x80] (some zeroed_error) 0)).error
          .ERROR_LEXER_INVALID_CHAR
          (token_start_state (lexer_after [0x80] (some zeroed_error) 0)).position
          (cstr "Unexpected character: " ++
            [39, [0x80].getD (token_start_state (lexer_after [0x80] (some zeroed_error) 0)).current
              0, 39])) :=
  ⟨⟨by decide, (id_start_bytes 0 [0xC3, 0xA9] none 0).2.1
      { type := .TOKEN_IDENTIFIER, value := some [0xC3], length := 1,
        start := ⟨1, 1, 0⟩, end_ := ⟨1, 2, 1⟩, preceded_by_newline := false }
      (by decide) (by decide) (by decide)⟩,
    (id_start_bytes 0 [0x80] (some zeroed_error) 0).2.2 (by decide) (by decide) (by decide)
      (by decide)⟩

/-! ## Block comments and the newline flag -/

/-- What one `advance` before the end of the source does: it consumes one byte,
or the two bytes of a `\r\n` pair; it sets the newline flag at `\n` and `\r` and
never clears it; it leaves `error` and `prev_token` alone. -/
theorem advance_cases (L : Lexer) (hlt : L.current < L.source.length) :
    ((advance L).2.current = L.current + 1 ∨
      ((advance L).2.current = L.current + 2 ∧ L.source.getD L.current 0 = 13 ∧
        L.source.getD (L.current + 1) 0 = 10)) ∧
    ((L.source.getD L.current 0 = 10 ∨ L.source.getD L.current 0 = 13) →
      (advance L).2.last_was_newline = true) ∧
    (L.last_was_newline = true → (advance L).2.last_was_newline = true) ∧
    (advance L).2.error = L.error := by
  have hlt2 : ¬ L.current ≥ L.source_length := by unfold Lexer.source_length; omega
  unfold advance
  rw [if_neg hlt2]
  dsimp only
  split_ifs with c1 c2 c3
  · exact ⟨Or.inl rfl, fun _ => rfl, fun _ => rfl, rfl⟩
  · rw [peek_eq] at c3
    dsimp only at c3
    rw [Nat.add_zero] at c3
    exact ⟨Or.inr ⟨rfl, c2, c3⟩, fun _ => rfl, fun _ => rfl, rfl⟩
  · exact ⟨Or.inl rfl, fun _ => rfl, fun _ => rfl, rfl⟩
  · refine ⟨Or.inl rfl, ?_, fun h => h, rfl⟩
    rintro (h | h)
    · exact absurd h c1
    · exact absurd h c2

theorem advance_flag (L : Lexer) (h : L.last_was_newline = true) :
    (advance L).2.last_was_newline = true := by
  unfold advance
  dsimp only
  split_ifs <;> first | exact h | rfl

theorem advance_error (L : Lexer) : (advance L).2.error = L.error := by
  unfold advance
  dsimp only
  split_ifs <;> rfl

theorem skip_whitespace_loop_flag (fuel : Nat) (L : Lexer) (h : L.last_was_newline = true) :
    (skip_whitespace_loop fuel L).last_was_newline = true := by
  induction fuel generalizing L with
  | zero => exact h
  | succ n ih =>
    unfold skip_whitespace_loop
    dsimp only
    split_ifs <;> first | exact h | exact ih _ (advance_flag L h)

theorem skip_line_comment_loop_flag (fuel : Nat) (L : Lexer) (h : L.last_was_newline = true) :
    (skip_line_comment_loop fuel L).last_was_newline = true := by
  induction fuel generalizing L with
  | zero => exact h
  | succ n ih =>
    unfold skip_line_comment_loop
    dsimp only
    split_ifs <;> first | exact h | exact ih _ (advance_flag L h)

theorem skip_block_comment_loop_flag (fuel : Nat) (L : Lexer) (h : L.last_was_newline = true) :
    (skip_block_comment_loop fuel L).2.last_was_newline = true := by
  induction fuel generalizing L with
  | zero => exact h
  | succ n ih =>
    unfold skip_block_comment_loop
    dsimp only
    split_ifs <;> first
      | exact h
      | exact ih _ (advance_flag L h)
      | exact advance_flag _ (advance_flag L h)

theorem skip_block_comment_flag (L : Lexer) (h : L.last_was_newline = true) :
    (skip_block_comment L).2.last_was_newline = true := by
  have := skip_block_comment_loop_flag
    ((advance (advance L).2).2.source_length - (advance (advance L).2).2.current)
    (advance (advance L).2).2 (advance_flag _ (advance_flag L h))
  unfold skip_block_comment
  dsimp only
  split
  · next L3 heq => rw [heq] at this; exact this
  · next L3 heq => rw [heq] at this; exact this

/-- The trivia loop never clears the newline flag. -/
theorem lexer_next_token_trivia_loop_flag (fuel : Nat) (L : Lexer)
    (h : L.last_was_newline = true) :
    (lexer_next_token_trivia_loop fuel L).2.last_was_newline = true := by
  induction fuel generalizing L with
  | zero => exact h
  | succ n ih =>
    have hw := skip_whitespace_loop_flag (L.source_length - L.current) L h
    unfold lexer_next_token_trivia_loop
    dsimp only
    split_ifs
    · exact hw
    · exact ih _ (skip_line_comment_loop_flag _ _ (advance_flag _ (advance_flag _ hw)))
    · have hb := skip_block_comment_flag (skip_whitespace L) hw
      split
      · next L2 heq => rw [heq] at hb; exact hb
      · next L2 heq => rw [heq] at hb; exact ih _ hb
    · exact hw
    · exact h

theorem finish_token_flag (hn : Bool) (r : Option Token × Lexer) :
    FlagIs hn (finish_token hn r) := by
  obtain ⟨o, L⟩ := r
  cases o with
  | none => intro T h; cases h
  | some t =>
    intro T h
    simp only [finish_token, Option.some.injEq] at h
    rw [← h]

theorem operator_token_flag (L : Lexer) (ty : TokenType) (lit : String) (len : Nat)
    (start : Position) (hn : Bool) : FlagIs hn (operator_token L ty lit len start hn) := by
  intro T h
  simp only [operator_token, Option.some.injEq] at h
  rw [← h]
  rfl

theorem lexer_next_token_single_flag (L : Lexer) (ch : Nat) (start : Position) (hn : Bool) :
    FlagIs hn (lexer_next_token_single L ch start hn) := by
  unfold lexer_next_token_single
  dsimp only
  split_ifs
  · exact finish_token_flag _ _
  · intro T h; simp only [Option.some.injEq] at h; rw [← h]; rfl
  · split
    · intro T h; simp only [Option.some.injEq] at h; rw [← h]; rfl
    · intro T h; cases h

theorem lexer_next_token_operator_flag (L : Lexer) (ch : Nat) (start : Position) (hn : Bool) :
    FlagIs hn (lexer_next_token_operator L ch start hn) := by
  unfold lexer_next_token_operator
  dsimp only
  repeat' first
    | exact lexer_next_token_single_flag L ch start hn
    | refine ite_both (P := FlagIs hn) ?_ ?_
    | exact operator_token_flag _ _ _ _ _ _

/-- The newline flag of a returned token is the value of `last_was_newline`
after the trivia loop. -/
theorem lexer_next_token_flag (L : Lexer) :
    FlagIs (lexer_next_token_trivia_loop (L.source_length - L.current) L).2.last_was_newline
      (lexer_next_token L) := by
  cases ht : (lexer_next_token_trivia_loop (L.source_length - L.current) L).1 with
  | false => intro A h; rw [lexer_next_token_trivia_failed L ht] at h; cases h
  | true =>
    rw [lexer_next_token_eq L ht]
    split_ifs
    · intro A h
      simp only [Option.some.injEq] at h
      rw [← h]
      rfl
    · exact finish_token_flag _ _
    · exact finish_token_flag _ _
    · exact finish_token_flag _ _
    · exact finish_token_flag _ _
    · exact lexer_next_token_operator_flag _ _ _ _

theorem skip_whitespace_loop_error (fuel : Nat) (L : Lexer) :
    (skip_whitespace_loop fuel L).error = L.error := by
  induction fuel generalizing L with
  | zero => rfl
  | succ n ih =>
    unfold skip_whitespace_loop
    dsimp only
    split_ifs <;> first | rfl | exact (ih _).trans (advance_error L)

/-- A block comment body without a closing star-slash: the loop of
`skip_block_comment` runs to the end of the source. -/
theorem skip_block_comment_loop_open (fuel : Nat) (L : Lexer) (hinv : CursorInv L)
    (hno : ∀ i, L.current ≤ i → ¬ (L.source.getD i 0 = 42 ∧ L.source.getD (i + 1) 0 = 47))
    (hf : L.source.length - L.current ≤ fuel) :
    (skip_block_comment_loop fuel L).1 = false ∧
    (skip_block_comment_loop fuel L).2.current = L.source.length ∧
    (skip_block_comment_loop fuel L).2.error = L.error ∧
    CursorInv (skip_block_comment_loop fuel L).2 := by
  induction fuel generalizing L with
  | zero =>
    have := hinv.le_length
    exact ⟨rfl, by simp only [skip_block_comment_loop]; omega, rfl, hinv⟩
  | succ n ih =>
    unfold skip_block_comment_loop
    dsimp only
    by_cases hlt : L.current < L.source_length
    · rw [if_pos hlt]
      have hmiss : ¬ (peek L 0 = 42 ∧ peek L 1 = 47) := by
        rw [peek_eq, peek_eq]
        exact hno L.current (le_refl _)
      rw [if_neg hmiss]
      have hlt' : L.current < L.source.length := hlt
      have hc := (advance_cases L hlt').1
      have hsrc := advance_source L
      have := ih (advance L).2 hinv.advance
        (by rw [hsrc]; intro i hi; exact hno i (by omega))
        (by rw [hsrc]; omega)
      rw [hsrc, advance_error] at this
      exact this
    · rw [if_neg hlt]
      have := hinv.le_length
      have hge : L.source.length ≤ L.current := by
        unfold Lexer.source_length at hlt; omega
      exact ⟨rfl, by dsimp only; omega, rfl, hinv⟩

/-- A block comment body whose first closing star-slash is at offset `j`: the
loop of `skip_block_comment` stops right after it, and the newline flag is set
when a `\n` or `\r` lies before `j`. -/
theorem skip_block_comment_loop_closed (fuel : Nat) (L : Lexer) (j : Nat) (hinv : CursorInv L)
    (hj : L.current ≤ j) (h1 : L.source.getD j 0 = 42) (h2 : L.source.getD (j + 1) 0 = 47)
    (hmin : ∀ i, L.current ≤ i → i < j →
      ¬ (L.source.getD i 0 = 42 ∧ L.source.getD (i + 1) 0 = 47))
    (hf : L.source.length - L.current ≤ fuel) :
    (skip_block_comment_loop fuel L).1 = true ∧
    (skip_block_comment_loop fuel L).2.current = j + 2 ∧
    (skip_block_comment_loop fuel L).2.source = L.source ∧
    (skip_block_comment_loop fuel L).2.error = L.error ∧
    CursorInv (skip_block_comment_loop fuel L).2 ∧
    ((L.last_was_newline = true ∨
        ∃ i, L.current ≤ i ∧ i < j ∧ (L.source.getD i 0 = 10 ∨ L.source.getD i 0 = 13)) →
      (skip_block_comment_loop fuel L).2.last_was_newline = true) := by
  have hjl : j + 1 < L.source.length := by
    by_contra hh
    rw [List.getD_eq_default _ _ (by omega)] at h2
    cases h2
  induction fuel generalizing L with
  | zero => omega
  | succ n ih =>
    have hlt : L.current < L.source_length := by unfold Lexer.source_length; omega
    have hlt' : L.current < L.source.length := hlt
    unfold skip_block_comment_loop
    dsimp only
    rw [if_pos hlt]
    by_cases hit : peek L 0 = 42 ∧ peek L 1 = 47
    · rw [if_pos hit]
      rw [peek_eq, peek_eq, Nat.add_zero] at hit
      have hcur : L.current = j := by
        by_contra hne
        exact hmin L.current (le_refl _) (by omega) hit
      subst hcur
      have s1 := advance_step L hlt' (by rw [h1]; decide) (by rw [h1]; decide)
      have hsrc1 := advance_source L
      have s2 := advance_step (advance L).2 (by rw [hsrc1, s1.1]; exact hjl)
        (by rw [hsrc1, s1.1, h2]; decide) (by rw [hsrc1, s1.1, h2]; decide)
      refine ⟨rfl, ?_, ?_, ?_, hinv.advance.advance, ?_⟩
      · dsimp only; rw [s2.1, s1.1]
      · dsimp only; rw [advance_source, hsrc1]
      · dsimp only; rw [advance_error, advance_error]
      · rintro (hfl | ⟨i, hi1, hi2, _⟩)
        · exact advance_flag _ (advance_flag _ hfl)
        · omega
    · rw [if_neg hit]
      have hne : L.current ≠ j := by
        intro hc
        apply hit
        rw [peek_eq, peek_eq, Nat.add_zero, hc]
        exact ⟨h1, h2⟩
      have hc := advance_cases L hlt'
      have hsrc := advance_source L
      have hle : (advance L).2.current ≤ j := by
        rcases hc.1 with h | ⟨h, _, h10⟩
        · omega
        · have : L.current + 1 ≠ j := by
            intro hh
            rw [hh] at h10
            rw [h10] at h1
            cases h1
          omega
      have := ih (advance L).2 hinv.advance hle (by rw [hsrc]; exact h1) (by rw [hsrc]; exact h2)
        (by rw [hsrc]; intro i hi hij; exact hmin i (by rcases hc.1 with h | ⟨h, _⟩ <;> omega) hij)
        (by rw [hsrc]; rcases hc.1 with h | ⟨h, _⟩ <;> omega) (by rw [hsrc]; exact hjl)
      rw [hsrc, advance_error] at this
      refine ⟨this.1, this.2.1, this.2.2.1, this.2.2.2.1, this.2.2.2.2.1, ?_⟩
      rintro (hfl | ⟨i, hi1, hi2, hi3⟩)
      · exact this.2.2.2.2.2 (Or.inl (hc.2.2.1 hfl))
      · by_cases hi : (advance L).2.current ≤ i
        · exact this.2.2.2.2.2 (Or.inr ⟨i, hi, hi2, hi3⟩)
        · apply this.2.2.2.2.2
          left
          apply hc.2.1
          rcases hc.1 with h | ⟨h, h13, _⟩
          · have : i = L.current := by omega
            rw [this] at hi3
            exact hi3
          · exact Or.inr h13

/-- The two `advance` calls of `skip_block_comment` over the opening
slash-star. -/
theorem advance_over_opener (L : Lexer) (hinv : CursorInv L)
    (h0 : L.source.getD L.current 0 = 47) (h1 : L.source.getD (L.current + 1) 0 = 42) :
    (advance (advance L).2).2.current = L.current + 2 ∧
    (advance (advance L).2).2.source = L.source ∧
    (advance (advance L).2).2.error = L.error ∧
    CursorInv (advance (advance L).2).2 ∧
    (L.last_was_newline = true → (advance (advance L).2).2.last_was_newline = true) := by
  have hl : L.current + 1 < L.source.length := by
    by_contra hh
    rw [List.getD_eq_default _ _ (by omega)] at h1
    cases h1
  have s1 := advance_step L (by omega) (by rw [h0]; decide) (by rw [h0]; decide)
  have hsrc1 := advance_source L
  have s2 := advance_step (advance L).2 (by rw [hsrc1, s1.1]; exact hl)
    (by rw [hsrc1, s1.1, h1]; decide) (by rw [hsrc1, s1.1, h1]; decide)
  exact ⟨by rw [s2.1, s1.1], by rw [advance_source, hsrc1], by rw [advance_error, advance_error],
    hinv.advance.advance, fun h => advance_flag _ (advance_flag _ h)⟩

theorem skip_block_comment_open (L : Lexer) (hinv : CursorInv L)
    (h0 : L.source.getD L.current 0 = 47) (h1 : L.source.getD (L.current + 1) 0 = 42)
    (hno : ∀ i, L.current + 2 ≤ i →
      ¬ (L.source.getD i 0 = 42 ∧ L.source.getD (i + 1) 0 = 47)) :
    (skip_block_comment L).1 = false ∧
    (skip_block_comment L).2.current = L.source.length ∧
    (skip_block_comment L).2.position.offset = L.source.length ∧
    (skip_block_comment L).2.error =
      set_error L.error .ERROR_LEXER_UNTERMINATED_STRING (skip_block_comment L).2.position
        (cstr "Unterminated block comment") := by
  obtain ⟨hc, hs, he, hi, _⟩ := advance_over_opener L hinv h0 h1
  have hl := skip_block_comment_loop_open
    ((advance (advance L).2).2.source_length - (advance (advance L).2).2.current)
    (advance (advance L).2).2 hi (by rw [hs, hc]; exact hno) (le_refl _)
  rw [hs, he] at hl
  unfold skip_block_comment
  dsimp only
  cases hr : skip_block_comment_loop
      ((advance (advance L).2).2.source_length - (advance (advance L).2).2.current)
      (advance (advance L).2).2 with
  | mk b L3 =>
    rw [hr] at hl
    dsimp only at hl
    obtain ⟨hb, hcur, herr, hinv3⟩ := hl
    subst hb
    dsimp only
    exact ⟨rfl, hcur, by rw [hinv3.offset_eq, hcur], by rw [herr]⟩

theorem skip_block_comment_closed (L : Lexer) (j : Nat) (hinv : CursorInv L)
    (h0 : L.source.getD L.current 0 = 47) (h1 : L.source.getD (L.current + 1) 0 = 42)
    (hj : L.current + 2 ≤ j) (hj1 : L.source.getD j 0 = 42) (hj2 : L.source.getD (j + 1) 0 = 47)
    (hmin : ∀ i, L.current + 2 ≤ i → i < j →
      ¬ (L.source.getD i 0 = 42 ∧ L.source.getD (i + 1) 0 = 47)) :
    (skip_block_comment L).1 = true ∧
    (skip_block_comment L).2.current = j + 2 ∧
    (skip_block_comment L).2.source = L.source ∧
    (skip_block_comment L).2.error = L.error ∧
    CursorInv (skip_block_comment L).2 ∧
    ((L.last_was_newline = true ∨
        ∃ i, L.current + 2 ≤ i ∧ i < j ∧ (L.source.getD i 0 = 10 ∨ L.source.getD i 0 = 13)) →
      (skip_block_comment L).2.last_was_newline = true) := by
  obtain ⟨hc, hs, he, hi, hfl⟩ := advance_over_opener L hinv h0 h1
  have hl := skip_block_comment_loop_closed
    ((advance (advance L).2).2.source_length - (advance (advance L).2).2.current)
    (advance (advance L).2).2 j hi (by rw [hc]; exact hj) (by rw [hs]; exact hj1)
    (by rw [hs]; exact hj2) (by rw [hs, hc]; exact hmin) (le_refl _)
  rw [hs, he] at hl
  unfold skip_block_comment
  dsimp only
  cases hr : skip_block_comment_loop
      ((advance (advance L).2).2.source_length - (advance (advance L).2).2.current)
      (advance (advance L).2).2 with
  | mk b L3 =>
    rw [hr] at hl
    dsimp only at hl
    obtain ⟨hb, hcur, hsrc, herr, hinv3, hflag⟩ := hl
    subst hb
    dsimp only
    refine ⟨rfl, hcur, hsrc, herr, hinv3, ?_⟩
    rintro (h | ⟨i, hi1, hi2, hi3⟩)
    · exact hflag (Or.inl (hfl h))
    · exact hflag (Or.inr ⟨i, by rw [hc]; exact hi1, hi2, hi3⟩)

/-- One round of the trivia loop at a block comment: the result of
`skip_block_comment` decides between failure and the next round. -/
theorem trivia_loop_at_block_comment (k : Nat) (L : Lexer) (b : Bool) (L2 : Lexer)
    (hlt : L.current < L.source_length)
    (hm : (skip_whitespace L).current < (skip_whitespace L).source_length)
    (h0 : peek (skip_whitespace L) 0 = 47) (h1 : peek (skip_whitespace L) 1 = 42)
    (hb : skip_block_comment (skip_whitespace L) = (b, L2)) :
    lexer_next_token_trivia_loop (k + 1) L =
      if b = true then lexer_next_token_trivia_loop k L2 else (false, L2) := by
  rw [lexer_next_token_trivia_loop]
  dsimp only
  rw [if_pos hlt, if_neg (by omega), h0, h1]
  simp only [true_and, show ¬ (42 = 47) by decide, ↓reduceIte]
  rw [hb]
  cases b <;> rfl

/-- A `lexer_next_token` call whose trivia starts (after whitespace) with a
block comment: an unterminated comment ends the call with NULL, a terminated
one is skipped, the call going on as a call from the state after the comment. -/
theorem lexer_next_token_at_block_comment (L : Lexer)
    (h0 : L.source.getD (skip_whitespace L).current 0 = 47)
    (h1 : L.source.getD ((skip_whitespace L).current + 1) 0 = 42) :
    ((skip_block_comment (skip_whitespace L)).1 = false →
      lexer_next_token L = (none, (skip_block_comment (skip_whitespace L)).2)) ∧
    ((skip_block_comment (skip_whitespace L)).1 = true →
      lexer_next_token L = lexer_next_token (skip_block_comment (skip_whitespace L)).2) := by
  have hwa := skip_whitespace_loop_advances (L.source_length - L.current) L
  have hws : (skip_whitespace L).source = L.source := hwa.mono.1
  have hwc : L.current ≤ (skip_whitespace L).current := hwa.mono.2.1
  have hwl : (skip_whitespace L).source_length = L.source_length := by
    unfold Lexer.source_length; rw [hws]
  have hml : (skip_whitespace L).current + 1 < L.source.length := by
    by_contra hh
    rw [List.getD_eq_default _ _ (by omega)] at h1
    cases h1
  have hm : (skip_whitespace L).current < (skip_whitespace L).source_length := by
    rw [hwl]; unfold Lexer.source_length; omega
  have hlt : L.current < L.source_length := by unfold Lexer.source_length; omega
  have p0 : peek (skip_whitespace L) 0 = 47 := by rw [peek_eq, hws, Nat.add_zero]; exact h0
  have p1 : peek (skip_whitespace L) 1 = 42 := by rw [peek_eq, hws]; exact h1
  obtain ⟨k, hk⟩ : ∃ k, L.source_length - L.current = k + 1 := ⟨L.source_length - L.current - 1,
    by omega⟩
  have hba := skip_block_comment_advances (skip_whitespace L)
  have hbu := skip_block_comment_unread (skip_whitespace L) hm
  cases hb : skip_block_comment (skip_whitespace L) with
  | mk b L2 =>
    rw [hb] at hba hbu
    dsimp only at hba hbu ⊢
    have hstep := trivia_loop_at_block_comment k L b L2 hlt hm p0 p1 hb
    constructor
    · intro hbf
      subst hbf
      unfold lexer_next_token
      rw [hk, hstep]
      rfl
    · intro hbt
      subst hbt
      rw [if_pos rfl] at hstep
      have hfu := lexer_next_token_trivia_loop_fuel k (L2.source_length - L2.current) L2
        (by omega) (le_refl _)
      unfold lexer_next_token
      rw [hk, hstep, hfu]

/-- A block comment right after white space. Let the trivia of a
`lexer_next_token` call from a state `L` start, after whitespace, with
slash-star. If no star-slash follows
the opener, the call returns NULL, the cursor and the offset are at the end of
the source, and the diagnostic is `LEXER_UNTERMINATED_STRING` at that position
with the message "Unterminated block comment". If the first star-slash after
the opener is at offset `j`, the comment is skipped entirely (the call is the
call from the state with the cursor at `j + 2`), and a `\n` or `\r` inside the
comment sets `preceded_by_newline` on the token the call returns. -/
theorem block_comment_after_whitespace (L : Lexer) (hinv : CursorInv L)
    (h0 : L.source.getD (skip_whitespace L).current 0 = 47)
    (h1 : L.source.getD ((skip_whitespace L).current + 1) 0 = 42) :
    ((∀ i, i < L.source.length → (skip_whitespace L).current + 2 ≤ i →
        ¬ (L.source.getD i 0 = 42 ∧ L.source.getD (i + 1) 0 = 47)) →
      (lexer_next_token L).1 = none ∧
      (lexer_next_token L).2.current = L.source.length ∧
      (lexer_next_token L).2.position.offset = L.source.length ∧
      (lexer_next_token L).2.error =
        set_error L.error .ERROR_LEXER_UNTERMINATED_STRING (lexer_next_token L).2.position
          (cstr "Unterminated block comment")) ∧
    (∀ j, (skip_whitespace L).current + 2 ≤ j →
      L.source.getD j 0 = 42 → L.source.getD (j + 1) 0 = 47 →
      (∀ i, i < j → (skip_whitespace L).current + 2 ≤ i →
        ¬ (L.source.getD i 0 = 42 ∧ L.source.getD (i + 1) 0 = 47)) →
      (skip_block_comment (skip_whitespace L)).2.current = j + 2 ∧
      lexer_next_token L = lexer_next_token (skip_block_comment (skip_whitespace L)).2 ∧
      ((∃ i, (skip_whitespace L).current + 2 ≤ i ∧ i < j ∧
          (L.source.getD i 0 = 10 ∨ L.source.getD i 0 = 13)) →
        ∀ T, (lexer_next_token L).1 = some T → T.preceded_by_newline = true)) := by
  have hwa := skip_whitespace_loop_advances (L.source_length - L.current) L
  have hws : (skip_whitespace L).source = L.source := hwa.mono.1
  have hwi : CursorInv (skip_whitespace L) := CursorInv.of_advances hwa hinv
  have hwe : (skip_whitespace L).error = L.error := skip_whitespace_loop_error _ L
  have hat := lexer_next_token_at_block_comment L h0 h1
  constructor
  · intro hno
    have ho := skip_block_comment_open (skip_whitespace L) hwi (by rw [hws]; exact h0)
      (by rw [hws]; exact h1) (by
        rw [hws]
        intro i hi hc
        by_cases hil : i < L.source.length
        · exact hno i hil hi hc
        · rw [List.getD_eq_default _ _ (by omega)] at hc
          cases hc.1)
    rw [hws, hwe] at ho
    rw [hat.1 ho.1]
    exact ⟨rfl, ho.2.1, ho.2.2.1, ho.2.2.2⟩
  · intro j hj hj1 hj2 hmin
    have hc := skip_block_comment_closed (skip_whitespace L) j hwi (by rw [hws]; exact h0)
      (by rw [hws]; exact h1) hj (by rw [hws]; exact hj1) (by rw [hws]; exact hj2)
      (by rw [hws]; intro i hi hij; exact hmin i hij hi)
    rw [hws] at hc
    refine ⟨hc.2.1, hat.2 hc.1, ?_⟩
    intro hnl T hT
    rw [hat.2 hc.1] at hT
    have hfl := hc.2.2.2.2.2 (Or.inr hnl)
    have := lexer_next_token_flag (skip_block_comment (skip_whitespace L)).2 T hT
    rw [this]
    exact lexer_next_token_trivia_loop_flag _ _ hfl

/-! ### Block comments after other trivia -/

theorem skip_whitespace_loop_at_stop (f : Nat) (L : Lexer)
    (h : L.source_length ≤ L.current ∨
      (is_whitespace (char_to_u32 (peek L 0)) = false ∧ peek L 0 ≠ 10 ∧ peek L 0 ≠ 13)) :
    skip_whitespace_loop f L = L := by
  cases f with
  | zero => rfl
  | succ f =>
    unfold skip_whitespace_loop
    dsimp only
    rcases h with h | ⟨h1, h2, h3⟩
    · rw [if_neg (by omega)]
    · rw [h1]
      simp only [Bool.false_eq_true, ↓reduceIte, h2, h3, or_self, ite_self]

theorem skip_whitespace_loop_ends (f : Nat) (L : Lexer) (hf : L.source_length - L.current ≤ f) :
    (skip_whitespace_loop f L).source_length ≤ (skip_whitespace_loop f L).current ∨
      (is_whitespace (char_to_u32 (peek (skip_whitespace_loop f L) 0)) = false ∧
        peek (skip_whitespace_loop f L) 0 ≠ 10 ∧ peek (skip_whitespace_loop f L) 0 ≠ 13) := by
  induction f generalizing L with
  | zero =>
    left
    show L.source_length ≤ L.current
    omega
  | succ f ih =>
    unfold skip_whitespace_loop
    dsimp only
    by_cases hlt : L.current < L.source_length
    · rw [if_pos hlt]
      have hu := advance_unread_lt L hlt
      split_ifs with c1 c2
      · exact ih _ (by omega)
      · exact ih _ (by omega)
      · right
        refine ⟨by simpa using c1, fun h => c2 (Or.inl h), fun h => c2 (Or.inr h)⟩
    · rw [if_neg hlt]
      left
      omega

theorem skip_whitespace_idem (L : Lexer) : skip_whitespace (skip_whitespace L) = skip_whitespace L :=
  skip_whitespace_loop_at_stop _ _ (skip_whitespace_loop_ends _ L (le_refl _))

theorem trivia_loop_succ (f : Nat) (L : Lexer) (hlt : L.current < L.source_length) :
    lexer_next_token_trivia_loop (f + 1) L =
      if (skip_whitespace L).current ≥ (skip_whitespace L).source_length then
        (true, skip_whitespace L)
      else if peek (skip_whitespace L) 0 = 47 ∧ peek (skip_whitespace L) 1 = 47 then
        lexer_next_token_trivia_loop f (skip_line_comment (skip_whitespace L))
      else if peek (skip_whitespace L) 0 = 47 ∧ peek (skip_whitespace L) 1 = 42 then
        match skip_block_comment (skip_whitespace L) with
        | (false, L2) => (false, L2)
        | (true, L2) => lexer_next_token_trivia_loop f L2
      else (true, skip_whitespace L) := by
  rw [lexer_next_token_trivia_loop]
  dsimp only
  rw [if_pos hlt]
  all_goals rfl

/-- The trivia loop from `L` is the trivia loop from the state after the white
space at `L`. -/
theorem trivia_loop_round (f : Nat) (L : Lexer) (hf : L.source_length - L.current ≤ f) :
    lexer_next_token_trivia_loop f L =
      lexer_next_token_trivia_loop
        ((skip_whitespace L).source_length - (skip_whitespace L).current) (skip_whitespace L) := by
  by_cases hlt : L.current < L.source_length
  · obtain ⟨f', rfl⟩ : ∃ f', f = f' + 1 := ⟨f - 1, by omega⟩
    have hwu := skip_whitespace_unread L
    rw [trivia_loop_succ f' L hlt]
    by_cases hend : (skip_whitespace L).current ≥ (skip_whitespace L).source_length
    · rw [if_pos hend, Nat.sub_eq_zero_of_le hend]
      rfl
    · rw [if_neg hend]
      obtain ⟨m, hm⟩ : ∃ m, (skip_whitespace L).source_length - (skip_whitespace L).current =
          m + 1 := ⟨_, (Nat.succ_pred_eq_of_pos (by omega)).symm⟩
      rw [hm, trivia_loop_succ m (skip_whitespace L) (by omega), skip_whitespace_idem,
        if_neg hend]
      split_ifs with c1 c2
      · have := skip_line_comment_unread (skip_whitespace L) (by omega)
        exact lexer_next_token_trivia_loop_fuel _ _ _ (by omega) (by omega)
      · have := skip_block_comment_unread (skip_whitespace L) (by omega)
        cases hb : skip_block_comment (skip_whitespace L) with
        | mk b L2 =>
          rw [hb] at this
          cases b with
          | false => rfl
          | true =>
            dsimp only at this ⊢
            exact lexer_next_token_trivia_loop_fuel _ _ _ (by omega) (by omega)
      · rfl
  · have hs : skip_whitespace L = L := skip_whitespace_loop_at_stop _ _ (Or.inl (by omega))
    rw [hs, Nat.sub_eq_zero_of_le (by omega)]
    cases f with
    | zero => rfl
    | succ f => simp only [lexer_next_token_trivia_loop, hlt, ↓reduceIte]

theorem lexer_next_token_of_trivia (L L' : Lexer)
    (h : lexer_next_token_trivia_loop (L.source_length - L.current) L =
      lexer_next_token_trivia_loop (L'.source_length - L'.current) L') :
    lexer_next_token L = lexer_next_token L' := by
  unfold lexer_next_token
  rw [h]

/-- A `lexer_next_token` call at a white-space byte or a line break is the call
from the state after it. -/
theorem lexer_next_token_white (L : Lexer) (hlt : L.current < L.source_length)
    (hw : is_whitespace (char_to_u32 (peek L 0)) = true ∨ peek L 0 = 10 ∨ peek L 0 = 13) :
    lexer_next_token L = lexer_next_token (advance L).2 := by
  apply lexer_next_token_of_trivia
  rw [trivia_loop_round _ L (le_refl _), trivia_loop_round _ (advance L).2 (le_refl _)]
  have hu := advance_unread_lt L hlt
  have hs : skip_whitespace L = skip_whitespace (advance L).2 := by
    unfold skip_whitespace
    obtain ⟨k, hk⟩ : ∃ k, L.source_length - L.current = k + 1 := ⟨_,
      (Nat.succ_pred_eq_of_pos (by omega)).symm⟩
    rw [hk, skip_whitespace_loop]
    dsimp only
    rw [if_pos hlt]
    have hfu := skip_whitespace_loop_fuel k
      ((advance L).2.source_length - (advance L).2.current) (advance L).2 (by omega) (le_refl _)
    rcases hw with h | h
    · rw [if_pos h, hfu]
    · split_ifs
      · exact hfu
      · exact hfu
  rw [hs]

/-- A `lexer_next_token` call at a line comment is the call from the state after
the comment. -/
theorem lexer_next_token_line_comment (L : Lexer) (h0 : peek L 0 = 47) (h1 : peek L 1 = 47) :
    lexer_next_token L = lexer_next_token (skip_line_comment L) := by
  have hlt : L.current < L.source_length := by
    by_contra hh
    unfold peek at h0
    dsimp only at h0
    rw [if_pos (by omega)] at h0
    cases h0
  apply lexer_next_token_of_trivia
  obtain ⟨k, hk⟩ : ∃ k, L.source_length - L.current = k + 1 := ⟨_,
    (Nat.succ_pred_eq_of_pos (by omega)).symm⟩
  have hs : skip_whitespace L = L :=
    skip_whitespace_loop_at_stop _ _ (Or.inr (by rw [h0]; decide))
  have hu := skip_line_comment_unread L hlt
  rw [hk, lexer_next_token_trivia_loop]
  dsimp only
  rw [if_pos hlt, hs, if_neg (by omega), h0, h1]
  simp only [and_self, ↓reduceIte]
  exact lexer_next_token_trivia_loop_fuel _ _ _ (by omega) (by omega)

theorem not_line_terminator_byte (b : Nat)
    (h : is_line_terminator (char_to_u32 b) = false) : b ≠ 10 ∧ b ≠ 13 := by
  constructor <;> intro hb <;> rw [hb] at h <;> cases h

theorem skip_line_comment_loop_run (f : Nat) (L : Lexer) (j : Nat) (hinv : CursorInv L)
    (hj : L.current ≤ j) (hjl : j ≤ L.source.length)
    (hbody : ∀ i, L.current ≤ i → i < j →
      is_line_terminator (char_to_u32 (L.source.getD i 0)) = false)
    (hend : j < L.source.length → is_line_terminator (char_to_u32 (L.source.getD j 0)) = true)
    (hf : L.source.length - L.current ≤ f) :
    (skip_line_comment_loop f L).current = j ∧
    (skip_line_comment_loop f L).source = L.source ∧
    (skip_line_comment_loop f L).error = L.error ∧
    CursorInv (skip_line_comment_loop f L) ∧
    (L.last_was_newline = true → (skip_line_comment_loop f L).last_was_newline = true) := by
  induction f generalizing L with
  | zero =>
    have := hinv.le_length
    exact ⟨by show L.current = j; omega, rfl, rfl, hinv, fun h => h⟩
  | succ f ih =>
    unfold skip_line_comment_loop
    dsimp only
    by_cases hlt : L.current < L.source_length
    · have hlt' : L.current < L.source.length := hlt
      rw [if_pos hlt, peek_eq, Nat.add_zero]
      by_cases hcj : L.current = j
      · rw [if_pos (by rw [hcj]; exact hend (by omega))]
        exact ⟨hcj, rfl, rfl, hinv, fun h => h⟩
      · have hnt := hbody L.current (le_refl _) (by omega)
        rw [if_neg (by rw [hnt]; decide)]
        obtain ⟨h10, h13⟩ := not_line_terminator_byte _ hnt
        have hs := advance_step L hlt' h10 h13
        have hsrc := advance_source L
        have := ih (advance L).2 hinv.advance (by rw [hs.1]; omega) (by rw [hsrc]; exact hjl)
          (by rw [hsrc, hs.1]; intro i hi hij; exact hbody i (by omega) hij)
          (by rw [hsrc]; exact hend) (by rw [hsrc, hs.1]; omega)
        rw [hsrc, advance_error] at this
        exact ⟨this.1, this.2.1, this.2.2.1, this.2.2.2.1,
          fun h => this.2.2.2.2 (advance_flag _ h)⟩
    · rw [if_neg hlt]
      have := hinv.le_length
      have hge : L.source.length ≤ L.current := by
        unfold Lexer.source_length at hlt; omega
      exact ⟨by show L.current = j; omega, rfl, rfl, hinv, fun h => h⟩

theorem advance_over_slashes (L : Lexer) (hinv : CursorInv L)
    (h0 : L.source.getD L.current 0 = 47) (h1 : L.source.getD (L.current + 1) 0 = 47) :
    (advance (advance L).2).2.current = L.current + 2 ∧
    (advance (advance L).2).2.source = L.source ∧
    (advance (advance L).2).2.error = L.error ∧
    CursorInv (advance (advance L).2).2 ∧
    (L.last_was_newline = true → (advance (advance L).2).2.last_was_newline = true) := by
  have hl : L.current + 1 < L.source.length := by
    by_contra hh
    rw [List.getD_eq_default _ _ (by omega)] at h1
    cases h1
  have s1 := advance_step L (by omega) (by rw [h0]; decide) (by rw [h0]; decide)
  have hsrc1 := advance_source L
  have s2 := advance_step (advance L).2 (by rw [hsrc1, s1.1]; exact hl)
    (by rw [hsrc1, s1.1, h1]; decide) (by rw [hsrc1, s1.1, h1]; decide)
  exact ⟨by rw [s2.1, s1.1], by rw [advance_source, hsrc1], by rw [advance_error, advance_error],
    hinv.advance.advance, fun h => advance_flag _ (advance_flag _ h)⟩

theorem skip_line_comment_run (L : Lexer) (j : Nat) (hinv : CursorInv L)
    (h0 : L.source.getD L.current 0 = 47) (h1 : L.source.getD (L.current + 1) 0 = 47)
    (hj : L.current + 2 ≤ j) (hjl : j ≤ L.source.length)
    (hbody : ∀ i, L.current + 2 ≤ i → i < j →
      is_line_terminator (char_to_u32 (L.source.getD i 0)) = false)
    (hend : j < L.source.length → is_line_terminator (char_to_u32 (L.source.getD j 0)) = true) :
    (skip_line_comment L).current = j ∧
    (skip_line_comment L).source = L.source ∧
    (skip_line_comment L).error = L.error ∧
    CursorInv (skip_line_comment L) ∧
    (L.last_was_newline = true → (skip_line_comment L).last_was_newline = true) := by
  obtain ⟨hc, hs, he, hi, hfl⟩ := advance_over_slashes L hinv h0 h1
  have hl := skip_line_comment_loop_run
    ((advance (advance L).2).2.source_length - (advance (advance L).2).2.current)
    (advance (advance L).2).2 j hi (by rw [hc]; exact hj) (by rw [hs]; exact hjl)
    (by rw [hs, hc]; exact hbody) (by rw [hs]; exact hend) (le_refl _)
  rw [hs, he] at hl
  unfold skip_line_comment
  dsimp only
  exact ⟨hl.1, hl.2.1, hl.2.2.1, hl.2.2.2.1, fun h => hl.2.2.2.2 (hfl h)⟩

/-- The lexer follows the trivia: from a state at offset `c` a call of
`lexer_next_token` is the call from a state at any offset reached from `c` over
trivia, with the same diagnostic. -/
theorem trivia_reach_state {src : List Nat} {c p : Nat} (h : TriviaReach src c p) :
    ∀ L : Lexer, CursorInv L → L.source = src → L.current = c →
      ∃ L', CursorInv L' ∧ L'.source = src ∧ L'.current = p ∧ L'.error = L.error ∧
        (L.last_was_newline = true → L'.last_was_newline = true) ∧
        lexer_next_token L = lexer_next_token L' := by
  induction h with
  | here c => exact fun L hinv hs hc => ⟨L, hinv, hs, hc, rfl, fun h => h, rfl⟩
  | @white c p hlt hw h ih =>
    intro L hinv hs hc
    subst hs hc
    have hcases := advance_cases L hlt
    have hinv1 : CursorInv (advance L).2 := hinv.advance
    have hsrc := advance_source L
    have hcur : (advance L).2.current =
        if L.source.getD L.current 0 = 13 ∧ L.source.getD (L.current + 1) 0 = 10 then
          L.current + 2 else L.current + 1 := by
      split_ifs with hc
      · rcases hcases.1 with h1 | ⟨h2, -, -⟩
        · exfalso
          apply hinv1.no_split
          rw [hsrc, h1]
          exact ⟨by omega, by rw [Nat.add_sub_cancel]; exact hc.1, hc.2⟩
        · exact h2
      · rcases hcases.1 with h1 | ⟨-, h13, h10⟩
        · exact h1
        · exact absurd ⟨h13, h10⟩ hc
    obtain ⟨L', hi', hs', hc', he', hf', hn'⟩ := ih (advance L).2 hinv1 hsrc hcur
    refine ⟨L', hi', hs', hc', by rw [he', advance_error], fun hfl => hf' (advance_flag _ hfl), ?_⟩
    rw [← hn']
    exact lexer_next_token_white L hlt (by rw [peek_eq, Nat.add_zero]; exact hw)
  | @line_comment c j p h0 h1 hj hjl hbody hend h ih =>
    intro L hinv hs hc
    subst hs hc
    obtain ⟨r1, r2, r3, r4, r5⟩ := skip_line_comment_run L j hinv h0 h1 hj hjl hbody hend
    obtain ⟨L', hi', hs', hc', he', hf', hn'⟩ := ih (skip_line_comment L) r4 r2 r1
    refine ⟨L', hi', hs', hc', by rw [he', r3], fun hfl => hf' (r5 hfl), ?_⟩
    rw [← hn']
    exact lexer_next_token_line_comment L (by rw [peek_eq, Nat.add_zero]; exact h0)
      (by rw [peek_eq]; exact h1)
  | @block_comment c j p h0 h1 hj hj1 hj2 hmin h ih =>
    intro L hinv hs hc
    subst hs hc
    have hsw : skip_whitespace L = L :=
      skip_whitespace_loop_at_stop _ _
        (Or.inr (by rw [peek_eq, Nat.add_zero, h0]; decide))
    obtain ⟨r0, r1, r2, r3, r4, r5⟩ := skip_block_comment_closed L j hinv h0 h1 hj hj1 hj2 hmin
    obtain ⟨L', hi', hs', hc', he', hf', hn'⟩ := ih (skip_block_comment L).2 r4 r2 r1
    refine ⟨L', hi', hs', hc', by rw [he', r3], fun hfl => hf' (r5 (Or.inl hfl)), ?_⟩
    rw [← hn']
    have := (lexer_next_token_at_block_comment L (by rw [hsw]; exact h0)
      (by rw [hsw]; exact h1)).2
    rw [hsw] at this
    exact this r0


/-- C17 (block comments). Let the offset `p` be a trivia position of a
`lexer_next_token` call from a state `L`: `p` is reached from the cursor of `L`
over white space, line breaks, line comments and terminated block comments
only, and slash-star stands at `p`. If no star-slash follows the opener, the
call returns NULL, the cursor and the offset are at the end of the source, and
the diagnostic is `LEXER_UNTERMINATED_STRING` at that position with the message
"Unterminated block comment". If the first star-slash after the opener is at
offset `j`, the comment is skipped entirely (the call is the call from a state
with the cursor at `j + 2` and the diagnostic of `L`), and a `\n` or `\r`
inside the comment sets `preceded_by_newline` on the token the call returns. -/
theorem block_comment (L : Lexer) (hinv : CursorInv L) (p : Nat)
    (hp : TriviaReach L.source L.current p)
    (h0 : L.source.getD p 0 = 47) (h1 : L.source.getD (p + 1) 0 = 42) :
    ((∀ i, i < L.source.length → p + 2 ≤ i →
        ¬ (L.source.getD i 0 = 42 ∧ L.source.getD (i + 1) 0 = 47)) →
      (lexer_next_token L).1 = none ∧
      (lexer_next_token L).2.current = L.source.length ∧
      (lexer_next_token L).2.position.offset = L.source.length ∧
      (lexer_next_token L).2.error =
        set_error L.error .ERROR_LEXER_UNTERMINATED_STRING (lexer_next_token L).2.position
          (cstr "Unterminated block comment")) ∧
    (∀ j, p + 2 ≤ j → L.source.getD j 0 = 42 → L.source.getD (j + 1) 0 = 47 →
      (∀ i, i < j → p + 2 ≤ i →
        ¬ (L.source.getD i 0 = 42 ∧ L.source.getD (i + 1) 0 = 47)) →
      (∃ L', CursorInv L' ∧ L'.source = L.source ∧ L'.current = j + 2 ∧
        L'.error = L.error ∧ lexer_next_token L = lexer_next_token L') ∧
      ((∃ i, p + 2 ≤ i ∧ i < j ∧ (L.source.getD i 0 = 10 ∨ L.source.getD i 0 = 13)) →
        ∀ T, (lexer_next_token L).1 = some T → T.preceded_by_newline = true)) := by
  obtain ⟨M, hMi, hMs, hMc, hMe, -, hMn⟩ := trivia_reach_state hp L hinv rfl rfl
  have hsw : skip_whitespace M = M :=
    skip_whitespace_loop_at_stop _ _
      (Or.inr (by rw [peek_eq, Nat.add_zero, hMs, hMc, h0]; decide))
  have hold := block_comment_after_whitespace M hMi
    (by rw [hsw, hMs, hMc]; exact h0) (by rw [hsw, hMs, hMc]; exact h1)
  rw [hsw, hMs, hMc, hMe, ← hMn] at hold
  refine ⟨hold.1, ?_⟩
  intro j hj hj1 hj2 hmin
  obtain ⟨r0, r1, r2, r3, r4, -⟩ := skip_block_comment_closed M j hMi
    (by rw [hMs, hMc]; exact h0) (by rw [hMs, hMc]; exact h1) (by rw [hMc]; exact hj)
    (by rw [hMs]; exact hj1) (by rw [hMs]; exact hj2)
    (by rw [hMs, hMc]; intro i hi hij; exact hmin i hij hi)
  have h2 := hold.2 j hj hj1 hj2 hmin
  exact ⟨⟨(skip_block_comment M).2, r4, by rw [r2, hMs], r1, by rw [r3, hMe], h2.2.1⟩, h2.2.2⟩

theorem block_comment_witness :
    ((lexer_next_token (lexer_create (cstr "// c\n/* a") (some zeroed_error))).1 = none ∧
      (lexer_next_token (lexer_create (cstr "// c\n/* a") (some zeroed_error))).2.current =
        (lexer_create (cstr "// c\n/* a") (some zeroed_error)).source.length ∧
      (lexer_next_token (lexer_create (cstr "// c\n/* a") (some zeroed_error))).2.position.offset =
        (lexer_create (cstr "// c\n/* a") (some zeroed_error)).source.length ∧
      (lexer_next_token (lexer_create (cstr "// c\n/* a") (some zeroed_error))).2.error =
        set_error (lexer_create (cstr "// c\n/* a") (some zeroed_error)).error
          .ERROR_LEXER_UNTERMINATED_STRING
          (lexer_next_token (lexer_create (cstr "// c\n/* a") (some zeroed_error))).2.position
          (cstr "Unterminated block comment")) ∧
    (∀ T, (lexer_next_token (lexer_create (cstr "/**/ /* a\n */ b") none)).1 = some T →
      T.preceded_by_newline = true) :=
  ⟨(block_comment (lexer_create (cstr "// c\n/* a") (some zeroed_error))
      (CursorInv.create _ _) 5
      (TriviaReach.line_comment (c := 0) (j := 4) (by decide) (by decide) (by decide)
        (by decide) (by intro i h1 h2; interval_cases i <;> decide) (by decide)
        (TriviaReach.white (c := 4) (by decide) (by decide) (TriviaReach.here 5)))
      (by decide) (by decide)).1
      (by intro i h1 h2; have h3 : i < 9 := h1; interval_cases i <;> decide),
   ((block_comment (lexer_create (cstr "/**/ /* a\n */ b") none) (CursorInv.create _ _) 5
      (TriviaReach.block_comment (c := 0) (j := 2) (by decide) (by decide) (by decide)
        (by decide) (by decide) (by intro i h1 h2; omega)
        (TriviaReach.white (c := 4) (by decide) (by decide) (TriviaReach.here 5)))
      (by decide) (by decide)).2 11 (by decide) (by decide) (by decide)
      (by intro i h1 h2; interval_cases i <;> decide)).2
      ⟨9, by decide, by decide, by decide⟩⟩


/-! ## Nested blocks and the recursion guard -/

/-- `advance` over a byte other than `\n` and `\r`. -/
theorem advance_plain (L : Lexer) (hlt : L.current < L.source.length)
    (h10 : L.source.getD L.current 0 ≠ 10) (h13 : L.source.getD L.current 0 ≠ 13) :
    advance L = (L.source.getD L.current 0,
      { L with
        current := L.current + 1
        position := { L.position with offset := L.position.offset + 1,
                                      column := L.position.column + 1 } }) := by
  have hlt2 : ¬ L.current ≥ L.source_length := by unfold Lexer.source_length; omega
  unfold advance
  simp only [hlt2, ↓reduceIte, h10, h13]

/-- The trivia loop does nothing in front of a byte that is neither whitespace
nor a line terminator nor a slash. -/
theorem trivia_loop_none (fuel : Nat) (L : Lexer) (hlt : L.current < L.source.length)
    (hw : is_whitespace (char_to_u32 (L.source.getD L.current 0)) = false)
    (h10 : L.source.getD L.current 0 ≠ 10) (h13 : L.source.getD L.current 0 ≠ 13)
    (h47 : L.source.getD L.current 0 ≠ 47) :
    lexer_next_token_trivia_loop fuel L = (true, L) := by
  cases fuel with
  | zero => rfl
  | succ k =>
    have hlt2 : L.current < L.source_length := hlt
    have hsw : skip_whitespace L = L := by
      unfold skip_whitespace
      obtain ⟨m, hm⟩ : ∃ m, L.source_length - L.current = m + 1 :=
        ⟨L.source_length - L.current - 1, by omega⟩
      rw [hm, skip_whitespace_loop]
      dsimp only
      rw [if_pos hlt2, peek_eq, Nat.add_zero, hw]
      simp only [Bool.false_eq_true, ↓reduceIte, h10, h13, or_self]
    rw [lexer_next_token_trivia_loop]
    dsimp only
    rw [if_pos hlt2, hsw, if_neg (by omega), peek_eq, Nat.add_zero]
    simp only [h47, false_and, ↓reduceIte]

theorem punctuator_facts : ∀ c ∈ [40, 41, 123, 125, 91, 93, 59, 44, 58, 126],
    is_whitespace (char_to_u32 c) = false ∧ c ≠ 10 ∧ c ≠ 13 ∧ c ≠ 47 ∧
    ¬ (is_unicode_id_start (char_to_u8 c) = true ∨ c = 36) ∧ ¬ (isdigit c = true) ∧
    ¬ (c = 34 ∨ c = 39) ∧ c ≠ 96 ∧
    c ∉ [62, 61, 33, 46, 42, 38, 124, 63, 60, 43, 45, 47, 37, 94] := by
  decide

/-- One call of `lexer_next_token` in front of one of the punctuators
`( ) { } [ ] ; , : ~`, which start no longer operator: the token is that byte,
the cursor moves by one byte and one column, and the token is stored in the
previous-token slot. -/
theorem lex_punct (L : Lexer) (ty : TokenType) (hlt : L.current < L.source.length)
    (hp : L.source.getD L.current 0 ∈ [40, 41, 123, 125, 91, 93, 59, 44, 58, 126])
    (hty : single_char_type (L.source.getD L.current 0) = some ty) :
    lexer_next_token L =
      (some { type := ty, value := some [L.source.getD L.current 0], length := 1,
              start := L.position,
              end_ := { L.position with offset := L.position.offset + 1,
                                        column := L.position.column + 1 },
              preceded_by_newline := L.last_was_newline },
       { L with
         current := L.current + 1
         position := { L.position with offset := L.position.offset + 1,
                                       column := L.position.column + 1 }
         last_was_newline := false
         prev_token := some
           { type := ty, value := some [L.source.getD L.current 0], length := 1,
             start := L.position,
             end_ := { L.position with offset := L.position.offset + 1,
                                       column := L.position.column + 1 },
             preceded_by_newline := L.last_was_newline } }) := by
  obtain ⟨hw, h10, h13, h47, hid, hd, hq, hb, hop⟩ := punctuator_facts _ hp
  unfold lexer_next_token
  rw [trivia_loop_none _ L hlt hw h10 h13 h47]
  dsimp only
  have hge : ¬ L.current ≥ ({ L with last_was_newline := false } : Lexer).source_length := by
    unfold Lexer.source_length; dsimp only; omega
  rw [if_neg hge]
  rw [advance_plain { L with last_was_newline := false } hlt h10 h13]
  dsimp only
  rw [if_neg hid, if_neg hd, if_neg hq, if_neg hb, operator_to_single _ _ _ _ hop]
  unfold lexer_next_token_single
  dsimp only
  rw [if_neg h47, hty]
  simp [token_create, save_prev_token]

theorem nested_blocks_length (n : Nat) : (nested_blocks n).length = 2 * n := by
  simp [nested_blocks]; omega

theorem nested_blocks_getD (n k : Nat) (h : k < 2 * n) :
    (nested_blocks n).getD k 0 = if k < n then 123 else 125 := by
  unfold nested_blocks
  split_ifs with c
  · rw [List.getD_append _ _ _ _ (by simpa using c)]
    rw [List.getD_eq_getElem _ _ (by simpa using c)]
    simp
  · rw [List.getD_append_right _ _ _ _ (by simpa using c)]
    rw [List.getD_eq_getElem _ _ (by simp; omega)]
    simp

theorem brace_lexer_next (n : Nat) (e : Option ErrorInfo) (k : Nat) (h : k < 2 * n) :
    lexer_next_token (brace_lexer n e k) = (some (brace_token n k), brace_lexer n e (k + 1)) := by
  have hg := nested_blocks_getD n k h
  have hlt : (brace_lexer n e k).current < (brace_lexer n e k).source.length := by
    simp only [brace_lexer, nested_blocks_length]; exact h
  have hg' : (brace_lexer n e k).source.getD (brace_lexer n e k).current 0 =
      if k < n then 123 else 125 := hg
  rw [lex_punct (brace_lexer n e k) (if k < n then .TOKEN_LBRACE else .TOKEN_RBRACE) hlt
    (by rw [hg']; split_ifs <;> decide) (by rw [hg']; split_ifs <;> rfl)]
  rw [hg']
  simp only [brace_lexer, brace_token, h, ↓reduceIte, Nat.add_one_ne_zero, Nat.add_sub_cancel]

theorem brace_lexer_end (n : Nat) (e : Option ErrorInfo) :
    lexer_next_token (brace_lexer n e (2 * n)) =
      (some (brace_token n (2 * n)), brace_lexer n e (2 * n)) := by
  rw [lexer_next_token_at_end _ (by
    simp only [brace_lexer, Lexer.source_length, nested_blocks_length]; exact le_refl _)]
  simp [brace_lexer, brace_token, token_create]

theorem brace_lexer_step (n : Nat) (e : Option ErrorInfo) (k : Nat) (h : k ≤ 2 * n) :
    lexer_next_token (brace_lexer n e k) =
      (some (brace_token n k), brace_lexer n e (min (k + 1) (2 * n))) := by
  by_cases h2 : k < 2 * n
  · rw [Nat.min_eq_left (by omega)]
    exact brace_lexer_next n e k h2
  · have : k = 2 * n := by omega
    subst this
    rw [Nat.min_eq_right (by omega)]
    exact brace_lexer_end n e

theorem brace_token_type (n i : Nat) :
    (brace_token n i).type =
      if i < n then .TOKEN_LBRACE else if i < 2 * n then .TOKEN_RBRACE else .TOKEN_EOF := by
  unfold brace_token
  split_ifs <;> first | rfl | omega

theorem brace_state_advance (n : Nat) (e : Option ErrorInfo) (i : Nat) (d : Int)
    (h : i < 2 * n) :
    parser_advance (brace_state n e i d) = (true, brace_state n e (i + 1) d) := by
  have hne : (brace_token n (i + 1)).type ≠ .TOKEN_ERROR := by
    rw [brace_token_type]
    split_ifs <;> decide
  unfold parser_advance
  simp only [brace_state]
  rw [Nat.min_eq_left (show i + 1 ≤ 2 * n by omega), brace_lexer_step n e (i + 1) (by omega)]
  simp only [Nat.add_one_ne_zero, ↓reduceIte, Nat.add_sub_cancel, hne, ne_eq, not_false_eq_true,
    decide_True]

theorem brace_state_create (n : Nat) (e : Option ErrorInfo) :
    parser_create (lexer_create (nested_blocks n) e) = brace_state n e 0 0 := by
  have hl : lexer_create (nested_blocks n) e = brace_lexer n e 0 := rfl
  unfold parser_create parser_advance
  dsimp only
  rw [hl]
  by_cases h : 0 < 2 * n
  · rw [brace_lexer_next n e 0 h]
    simp [brace_state, Nat.min_eq_left (show 0 + 1 ≤ 2 * n by omega)]
  · have : n = 0 := by omega
    subst this
    rw [show brace_lexer 0 e 0 = brace_lexer 0 e (2 * 0) from rfl, brace_lexer_end]
    simp [brace_state]

theorem parser_check_some (P : Parser) (t : Token) (ty : TokenType)
    (hc : P.current_token = some t) : parser_check P ty = decide (t.type = ty) := by
  unfold parser_check
  rw [hc]

theorem parser_expect_ok (P : Parser) (t : Token) (ty : TokenType)
    (hc : P.current_token = some t) (ht : t.type = ty) :
    parser_expect P ty = .ret true (parser_advance P).2 := by
  unfold parser_expect
  rw [parser_check_some P t ty hc, ht]
  simp

theorem parse_statement_list_stop (f : Nat) (P : Parser) (t : Token)
    (hc : P.current_token = some t)
    (ht : t.type = .TOKEN_EOF ∨ t.type = .TOKEN_RBRACE) :
    parse_statement_list (f + 1) P = .ret true P := by
  rw [parse_statement_list, hc]
  dsimp only
  rw [if_neg (by rcases ht with h | h <;> simp [h])]

theorem parse_statement_list_go (f : Nat) (P : Parser) (t : Token)
    (hc : P.current_token = some t)
    (ht : t.type ≠ .TOKEN_EOF ∧ t.type ≠ .TOKEN_RBRACE) :
    parse_statement_list (f + 1) P =
      (parse_statement f P).andThen fun P => parse_statement_list f P := by
  rw [parse_statement_list, hc]
  dsimp only
  rw [if_pos ht]

/-- The recursion guard of `parse_statement` fires. -/
theorem parse_statement_guard (f : Nat) (P : Parser) (t : Token)
    (hc : P.current_token = some t) (hd : P.depth + 1 > MAX_RECURSION_DEPTH) :
    parse_statement (f + 1) P =
      .ret false (parser_set_error { P with depth := P.depth + 1 }
        .ERROR_PARSER_UNEXPECTED_TOKEN t.start (cstr "Maximum recursion depth exceeded")) := by
  rw [parse_statement]
  dsimp only
  rw [if_pos hd]
  unfold with_current
  dsimp only
  rw [hc]

/-- `parse_statement` at an opening brace below the depth limit. -/
theorem parse_statement_block (f : Nat) (P : Parser) (t : Token)
    (hc : P.current_token = some t) (ht : t.type = .TOKEN_LBRACE)
    (hd : ¬ P.depth + 1 > MAX_RECURSION_DEPTH) :
    parse_statement (f + 1) P =
      leave_statement (parse_block_statement f { P with depth := P.depth + 1 }) := by
  rw [parse_statement]
  dsimp only
  rw [if_neg hd, hc]
  dsimp only
  rw [ht]

theorem brace_state_leave (n : Nat) (e : Option ErrorInfo) (j : Nat) (d : Int) (b : Bool) :
    leave_statement (.ret b (brace_state n e j (d + 1))) = .ret b (brace_state n e j d) := by
  simp [leave_statement, brace_state]

/-- A block of `m + 1` nested empty blocks that starts at token `i` with depth
counter `d`, below the depth limit: `parse_statement` accepts it, ends after
the matching closing brace and restores the depth counter. -/
theorem nested_blocks_accept (n : Nat) (e : Option ErrorInfo) (m : Nat) :
    ∀ (i : Nat) (d : Int), i + (m + 1) = n → d + (m + 1) ≤ 1000 →
      parse_statement (3 * (m + 1)) (brace_state n e i d) =
        .ret true (brace_state n e (2 * n - i) d) := by
  induction m with
  | zero =>
    intro i d hi hd
    have ht : (brace_token n i).type = .TOKEN_LBRACE := by
      rw [brace_token_type, if_pos (by omega)]
    have ht1 : (brace_token n (i + 1)).type = .TOKEN_RBRACE := by
      rw [brace_token_type, if_neg (by omega), if_pos (by omega)]
    rw [show 3 * (0 + 1) = 2 + 1 from rfl,
      parse_statement_block 2 (brace_state n e i d) _ rfl ht
        (by simp only [brace_state, MAX_RECURSION_DEPTH]; omega)]
    rw [show ({ brace_state n e i d with depth := (brace_state n e i d).depth + 1 } : Parser) =
      brace_state n e i (d + 1) from rfl]
    rw [parse_block_statement, parser_expect_ok _ _ _ rfl ht, brace_state_advance n e i _
      (by omega)]
    simp only [Outcome.andThen]
    rw [parse_statement_list_stop 0 _ _ rfl (Or.inr ht1)]
    simp only [Outcome.andThen]
    rw [parser_expect_ok _ _ _ rfl ht1, brace_state_advance n e (i + 1) _ (by omega),
      brace_state_leave]
    rw [show 2 * n - i = i + 1 + 1 by omega]
  | succ m ih =>
    intro i d hi hd
    have ht : (brace_token n i).type = .TOKEN_LBRACE := by
      rw [brace_token_type, if_pos (by omega)]
    have ht1 : (brace_token n (i + 1)).type = .TOKEN_LBRACE := by
      rw [brace_token_type, if_pos (by omega)]
    have ht2 : (brace_token n (2 * n - (i + 1))).type = .TOKEN_RBRACE := by
      rw [brace_token_type, if_neg (by omega), if_pos (by omega)]
    rw [show 3 * (m + 1 + 1) = (3 * (m + 1) + 2) + 1 by omega,
      parse_statement_block _ (brace_state n e i d) _ rfl ht
        (by simp only [brace_state, MAX_RECURSION_DEPTH]; omega)]
    rw [show ({ brace_state n e i d with depth := (brace_state n e i d).depth + 1 } : Parser) =
      brace_state n e i (d + 1) from rfl]
    rw [parse_block_statement, parser_expect_ok _ _ _ rfl ht, brace_state_advance n e i _
      (by omega)]
    simp only [Outcome.andThen]
    rw [parse_statement_list_go _ _ _ rfl (by rw [ht1]; decide),
      ih (i + 1) (d + 1) (by omega) (by omega)]
    simp only [Outcome.andThen]
    rw [show 3 * (m + 1) = (3 * m + 2) + 1 by omega,
      parse_statement_list_stop _ _ _ rfl (Or.inr ht2)]
    simp only [Outcome.andThen]
    rw [parser_expect_ok _ _ _ rfl ht2, brace_state_advance n e _ _ (by omega),
      brace_state_leave]
    rw [show 2 * n - (i + 1) + 1 = 2 * n - i by omega]

/-- With more than 1000 nested blocks, `parse_statement` at token `i` with
depth counter `i` fails with the diagnostic of the recursion guard at opening
brace number 1001. -/
theorem nested_blocks_reject (n : Nat) (e : Option ErrorInfo) (hn : 1001 ≤ n) (r : Nat) :
    ∀ i : Nat, i + r = 1000 →
      ∃ Q, parse_statement (3 * r + 1) (brace_state n e i i) = .ret false Q ∧
        Q.lexer.error = set_error e .ERROR_PARSER_UNEXPECTED_TOKEN ⟨1, 1001, 1000⟩
          (cstr "Maximum recursion depth exceeded") := by
  induction r with
  | zero =>
    intro i hi
    have : i = 1000 := by omega
    subst this
    refine ⟨_, parse_statement_guard 0 (brace_state n e 1000 (1000 : Nat)) _ rfl
      (by simp only [brace_state, MAX_RECURSION_DEPTH]; omega), ?_⟩
    simp only [parser_set_error, brace_state, brace_lexer, brace_token,
      show 1000 < 2 * n by omega, ↓reduceIte]
  | succ r ih =>
    intro i hi
    have ht : (brace_token n i).type = .TOKEN_LBRACE := by
      rw [brace_token_type, if_pos (by omega)]
    have ht1 : (brace_token n (i + 1)).type = .TOKEN_LBRACE := by
      rw [brace_token_type, if_pos (by omega)]
    obtain ⟨Q, hQ, hQe⟩ := ih (i + 1) (by omega)
    rw [show 3 * (r + 1) + 1 = (3 * r + 3) + 1 by omega,
      parse_statement_block _ (brace_state n e i i) _ rfl ht
        (by simp only [brace_state, MAX_RECURSION_DEPTH]; omega)]
    rw [show ({ brace_state n e i i with depth := (brace_state n e i i).depth + 1 } : Parser) =
      brace_state n e i ((i : Int) + 1) from rfl]
    rw [parse_block_statement, parser_expect_ok _ _ _ rfl ht, brace_state_advance n e i _
      (by omega)]
    simp only [Outcome.andThen]
    rw [parse_statement_list_go _ _ _ rfl (by rw [ht1]; decide)]
    rw [show ((i : Int) + 1) = ((i + 1 : Nat) : Int) by push_cast; rfl, hQ]
    simp only [Outcome.andThen, leave_statement]
    exact ⟨_, rfl, hQe⟩

theorem nested_blocks_accepted (n : Nat) (hn : n ≤ 1000) :
    parse_javascript_string (3 * n + 1) (nested_blocks n) =
      .ret true (brace_state n (some zeroed_error) (2 * n) 0) := by
  unfold parse_javascript_string parser_parse
  dsimp only
  rw [show (⟨.ERROR_NONE, ⟨0, 0, 0⟩, []⟩ : ErrorInfo) = zeroed_error from rfl,
    brace_state_create]
  rw [show (brace_state n (some zeroed_error) 0 0).current_token =
    some (brace_token n 0) from rfl]
  dsimp only
  unfold parse_program
  rw [show ({ brace_state n (some zeroed_error) 0 0 with depth := 0 } : Parser) =
    brace_state n (some zeroed_error) 0 0 from rfl]
  cases n with
  | zero =>
    rw [parse_statement_list_stop 0 _ _ rfl (Or.inl (by rw [brace_token_type]; simp))]
  | succ m =>
    rw [parse_statement_list_go _ _ _ rfl (by rw [brace_token_type]; simp),
      nested_blocks_accept (m + 1) _ m 0 0 (by omega) (by omega)]
    simp only [Outcome.andThen]
    rw [show 3 * (m + 1) = (3 * m + 2) + 1 by omega,
      parse_statement_list_stop _ _ _ rfl (Or.inl (by rw [brace_token_type]; simp))]
    rfl

theorem nested_blocks_rejected (n : Nat) (hn : 1001 ≤ n) :
    ∃ Q, parse_javascript_string (3 * 1000 + 2) (nested_blocks n) = .ret false Q ∧
      Q.lexer.error = set_error (some zeroed_error) .ERROR_PARSER_UNEXPECTED_TOKEN
        ⟨1, 1001, 1000⟩ (cstr "Maximum recursion depth exceeded") := by
  obtain ⟨Q, hQ, hQe⟩ := nested_blocks_reject n (some zeroed_error) hn 1000 0 (by omega)
  refine ⟨Q, ?_, hQe⟩
  unfold parse_javascript_string parser_parse
  dsimp only
  rw [show (⟨.ERROR_NONE, ⟨0, 0, 0⟩, []⟩ : ErrorInfo) = zeroed_error from rfl,
    brace_state_create]
  rw [show (brace_state n (some zeroed_error) 0 0).current_token =
    some (brace_token n 0) from rfl]
  dsimp only
  unfold parse_program
  rw [show ({ brace_state n (some zeroed_error) 0 0 with depth := 0 } : Parser) =
    brace_state n (some zeroed_error) 0 ((0 : Nat) : Int) from rfl]
  rw [show 3 * 1000 + 2 = (3 * 1000 + 1) + 1 from rfl,
    parse_statement_list_go _ _ _ rfl (by rw [brace_token_type, if_pos (by omega)]; decide), hQ]
  rfl

/-- C13 (recursion guard threshold). The program of `n` opening braces followed
by `n` closing braces is accepted (no diagnostic, the whole input consumed) when
`n ≤ 1000`; when `n ≥ 1001` it is rejected with `PARSER_UNEXPECTED_TOKEN` and the
message "Maximum recursion depth exceeded" at line 1, column 1001, offset 1000,
which is opening brace number 1001. Both hold with any fuel from `3 * n + 2`
on. -/
theorem recursion_guard_threshold (n k : Nat) :
    (n ≤ 1000 →
      (parse_javascript_string (3 * n + 2 + k) (nested_blocks n)).success = some true ∧
      (parse_javascript_string (3 * n + 2 + k) (nested_blocks n)).error_code =
        some .ERROR_NONE ∧
      (parse_javascript_string (3 * n + 2 + k) (nested_blocks n)).current_type =
        some .TOKEN_EOF) ∧
    (1001 ≤ n →
      (parse_javascript_string (3 * n + 2 + k) (nested_blocks n)).success = some false ∧
      (parse_javascript_string (3 * n + 2 + k) (nested_blocks n)).error = some
        { code := .ERROR_PARSER_UNEXPECTED_TOKEN, position := ⟨1, 1001, 1000⟩,
          message := cstr "Maximum recursion depth exceeded" }) := by
  constructor
  · intro hn
    have h := nested_blocks_accepted n hn
    have hs : (parse_javascript_string (3 * n + 1) (nested_blocks n)).success = some true := by
      rw [h]; rfl
    rw [show 3 * n + 2 + k = (3 * n + 1) + (k + 1) by omega,
      parse_javascript_string_fuel _ _ _ true hs, h]
    refine ⟨rfl, rfl, ?_⟩
    simp only [Outcome.current_type, brace_state, Option.map_some', brace_token_type]
    rw [if_neg (by omega), if_neg (by omega)]
  · intro hn
    obtain ⟨Q, hQ, hQe⟩ := nested_blocks_rejected n hn
    have hs : (parse_javascript_string (3 * 1000 + 2) (nested_blocks n)).success =
        some false := by
      rw [hQ]; rfl
    rw [show 3 * n + 2 + k = (3 * 1000 + 2) + (3 * n + k - 3 * 1000) by omega,
      parse_javascript_string_fuel _ _ _ false hs, hQ]
    refine ⟨rfl, ?_⟩
    simp only [Outcome.error, hQe, set_error]
    decide

theorem recursion_guard_threshold_witness :
    ((parse_javascript_string (3 * 2 + 2 + 0) (nested_blocks 2)).success = some true ∧
      (parse_javascript_string (3 * 2 + 2 + 0) (nested_blocks 2)).error_code =
        some .ERROR_NONE ∧
      (parse_javascript_string (3 * 2 + 2 + 0) (nested_blocks 2)).current_type =
        some .TOKEN_EOF) ∧
    ((parse_javascript_string (3 * 1001 + 2 + 0) (nested_blocks 1001)).success = some false ∧
      (parse_javascript_string (3 * 1001 + 2 + 0) (nested_blocks 1001)).error = some
        { code := .ERROR_PARSER_UNEXPECTED_TOKEN, position := ⟨1, 1001, 1000⟩,
          message := cstr "Maximum recursion depth exceeded" }) :=
  ⟨(recursion_guard_threshold 2 0).1 (by decide),
    (recursion_guard_threshold 1001 0).2 (by decide)⟩

/-! ## Scenarios, diagnostics and the previous-token slot -/

/-- A run of `parse_javascript_string` that ends (returns or crashes) ends the
same way with any larger amount of fuel. -/
theorem parse_javascript_string_ends (n k : Nat) (source : List Nat)
    (h : parse_javascript_string n source ≠ .out_of_fuel) :
    parse_javascript_string (n + k) source = parse_javascript_string n source := by
  unfold parse_javascript_string parser_parse at h ⊢
  dsimp only at h ⊢
  split at h
  · rfl
  · unfold parse_program at h ⊢
    exact parse_statement_list_fuel _ _ _ h

/-- C21, the code at the failing input `a` U+2028 `b` (and the same with
U+2029): the byte E2 is taken into the identifier that `a` starts, the bytes 80
and A8 give no token and the diagnostic `LEXER_INVALID_CHAR` each, and `b` comes
without the newline flag; the parser, left with a NULL current token after the
identifier, reads through it in `parse_postfix_expression`. -/
theorem unicode_line_terminators_not_skipped (k : Nat) :
    ((token_at line_separator_example (some zeroed_error) 0).map
        (fun t => (t.type, t.value, t.preceded_by_newline)) =
        some (.TOKEN_IDENTIFIER, some [97, 0xE2], false) ∧
      token_at line_separator_example (some zeroed_error) 1 = none ∧
      (lexer_after line_separator_example (some zeroed_error) 2).error = some
        { code := .ERROR_LEXER_INVALID_CHAR, position := ⟨1, 3, 2⟩,
          message := cstr "Unexpected character: '" ++ [0x80, 39] } ∧
      token_at line_separator_example (some zeroed_error) 2 = none ∧
      (token_at line_separator_example (some zeroed_error) 3).map
        (fun t => (t.type, t.value, t.preceded_by_newline)) =
        some (.TOKEN_IDENTIFIER, some [98], false)) ∧
    (∃ P, parse_javascript_string (40 + k) line_separator_example = .null_deref P ∧
      P.current_token = none) ∧
    ((token_at paragraph_separator_example (some zeroed_error) 0).map
        (fun t => (t.type, t.value, t.preceded_by_newline)) =
        some (.TOKEN_IDENTIFIER, some [97, 0xE2], false) ∧
      token_at paragraph_separator_example (some zeroed_error) 1 = none ∧
      (token_at paragraph_separator_example (some zeroed_error) 3).map
        (fun t => (t.type, t.value, t.preceded_by_newline)) =
        some (.TOKEN_IDENTIFIER, some [98], false)) ∧
    (∃ P, parse_javascript_string (40 + k) paragraph_separator_example = .null_deref P ∧
      P.current_token = none) := by
  refine ⟨by decide, ?_, by decide, ?_⟩
  · rw [parse_javascript_string_ends 40 k _ (by decide)]
    exact ⟨_, rfl, rfl⟩
  · rw [parse_javascript_string_ends 40 k _ (by decide)]
    exact ⟨_, rfl, rfl⟩

/-- C22 (scenario 1). For each of `var`, `let` and `const` the source
`k x = 10; x + 1;` is accepted: the run returns success with no diagnostic and
the whole input consumed, with any fuel from 40 on. -/
theorem declaration_then_expression_accepted (k : Nat) :
    (parse_javascript_string (40 + k) (cstr "var x = 10; x + 1;")).accepts ∧
    (parse_javascript_string (40 + k) (cstr "let x = 10; x + 1;")).accepts ∧
    (parse_javascript_string (40 + k) (cstr "const x = 10; x + 1;")).accepts := by
  rw [parse_javascript_string_fuel 40 k _ true (by decide),
    parse_javascript_string_fuel 40 k _ true (by decide),
    parse_javascript_string_fuel 40 k _ true (by decide)]
  decide

/-- C25 (scenario 6). The program `{ a: 1 b: 2 }` is rejected: the run returns
failure with the diagnostic `PARSER_MISSING_SEMICOLON`, with any fuel from 40
on. -/
theorem object_like_block_rejected (k : Nat) :
    (parse_javascript_string (40 + k) (cstr "\x7b a: 1 b: 2 \x7d")).success = some false ∧
    (parse_javascript_string (40 + k) (cstr "\x7b a: 1 b: 2 \x7d")).error_code =
      some .ERROR_PARSER_MISSING_SEMICOLON := by
  rw [parse_javascript_string_fuel 40 k _ false (by decide)]
  decide

/-- C26 (restricted postfix). After a left-hand-side expression that ends in
state `Q` with current token `t`, `parse_postfix_expression` consumes `t` exactly
when `t` is `++` or `--` and is not preceded by a newline; otherwise it returns
in `Q`. The source `a`, newline, `++`, newline, `b` is accepted, and `a ++ b` on
one line is rejected with `PARSER_MISSING_SEMICOLON` (at `b`), with any fuel
from 40 on. -/
theorem restricted_postfix_operator (n : Nat) (P Q : Parser) (t : Token)
    (h : parse_left_hand_side_expression n P = .ret true Q) (hc : Q.current_token = some t) :
    (parse_postfix_expression (n + 1) P =
      if (t.type = .TOKEN_INCREMENT ∨ t.type = .TOKEN_DECREMENT) ∧ t.preceded_by_newline = false
      then .ret true (parser_advance Q).2 else .ret true Q) ∧
    (∀ k, (parse_javascript_string (40 + k) (cstr "a\n++\nb")).accepts ∧
      (parse_javascript_string (40 + k) (cstr "a ++ b")).success = some false ∧
      (parse_javascript_string (40 + k) (cstr "a ++ b")).error = some
        { code := .ERROR_PARSER_MISSING_SEMICOLON, position := ⟨1, 6, 5⟩,
          message := cstr "Missing semicolon" }) := by
  constructor
  · rw [parse_postfix_expression, h]
    simp only [Outcome.andThen, with_current, hc, parser_check_some Q t _ hc]
    cases hn : t.preceded_by_newline
    · simp only [and_true, ↓reduceIte, decide_eq_true_eq]
    · simp
  · intro k
    rw [parse_javascript_string_fuel 40 k _ true (by decide),
      parse_javascript_string_fuel 40 k _ false (by decide)]
    decide

theorem restricted_postfix_operator_witness :
    parse_postfix_expression (10 + 1) (parser_create (lexer_create (cstr "a++") none)) =
      .ret true (parser_advance (parser_advance
        (parser_create (lexer_create (cstr "a++") none))).2).2 :=
  (restricted_postfix_operator 10 (parser_create (lexer_create (cstr "a++") none))
    (parser_advance (parser_create (lexer_create (cstr "a++") none))).2
    { type := .TOKEN_INCREMENT, value := some [43, 43], length := 2,
      start := ⟨1, 2, 1⟩, end_ := ⟨1, 4, 3⟩, preceded_by_newline := false }
    (by decide) (by decide)).1

/-- C27 (assignability is not validated). `is_assignment_operator` is true for
exactly the 16 kinds of the assignment operators; for each of their spellings
`op`, the second token of `1 op 2;` has the operator's kind and the source is
accepted, with any fuel from 40 on. -/
theorem assignment_to_literal_accepted (k : Nat) :
    (∀ ty, is_assignment_operator ty = true ↔ ty ∈ assignment_spellings.map Prod.snd) ∧
    assignment_spellings.length = 16 ∧
    ∀ p ∈ assignment_spellings,
      (token_at (cstr "1 " ++ p.1 ++ cstr " 2;") none 1).map (fun t => (t.type, t.value)) =
        some (p.2, some p.1) ∧
      (parse_javascript_string (40 + k) (cstr "1 " ++ p.1 ++ cstr " 2;")).accepts := by
  refine ⟨?_, rfl, ?_⟩
  · intro ty
    cases ty <;> decide
  · have h : ∀ p ∈ assignment_spellings,
        (token_at (cstr "1 " ++ p.1 ++ cstr " 2;") none 1).map (fun t => (t.type, t.value)) =
          some (p.2, some p.1) ∧
        (parse_javascript_string 40 (cstr "1 " ++ p.1 ++ cstr " 2;")).accepts := by
      decide
    intro p hp
    rw [parse_javascript_string_fuel 40 k _ true (h p hp).2.1]
    exact h p hp

theorem assignment_to_literal_accepted_witness :
    (token_at (cstr "1 " ++ cstr "??=" ++ cstr " 2;") none 1).map (fun t => (t.type, t.value)) =
        some (TokenType.TOKEN_NULLISH_ASSIGN, some (cstr "??=")) ∧
      (parse_javascript_string (40 + 0) (cstr "1 " ++ cstr "??=" ++ cstr " 2;")).accepts :=
  (assignment_to_literal_accepted 0).2.2 (cstr "??=", .TOKEN_NULLISH_ASSIGN) (by decide)

/-- C28 (diagnostic message bound). With a null `error` pointer `set_error`
changes nothing. With a non-null one the record holds `code`, `pos` and as
message the bytes of `m` before its first NUL, cut to the first 255: at most
255 bytes, none of them NUL; for a message `m` without a NUL byte it is the
longest prefix of `m` of at most 255 bytes. -/
theorem set_error_message_bound (e : ErrorInfo) (code : ErrorCode) (pos : Position)
    (m : List Nat) :
    set_error none code pos m = none ∧
    set_error (some e) code pos m =
      some { code := code, position := pos, message := (m.takeWhile (· ≠ 0)).take 255 } ∧
    ((m.takeWhile (· ≠ 0)).take 255).length ≤ 255 ∧
    0 ∉ (m.takeWhile (· ≠ 0)).take 255 ∧
    (0 ∉ m →
      (m.takeWhile (· ≠ 0)).take 255 = m.take 255 ∧
      ((m.takeWhile (· ≠ 0)).take 255).length = min 255 m.length ∧
      ∀ p : List Nat, p <+: (m.takeWhile (· ≠ 0)).take 255 ↔ p <+: m ∧ p.length ≤ 255) := by
  refine ⟨rfl, rfl, ?_, ?_, ?_⟩
  · rw [List.length_take]
    exact Nat.min_le_left _ _
  · intro h
    have h1 := List.mem_takeWhile_imp (List.mem_of_mem_take h)
    simp at h1
  · intro h0
    have hw : m.takeWhile (· ≠ 0) = m := by
      rw [List.takeWhile_eq_self_iff]
      intro x hx
      simp only [ne_eq, decide_not, Bool.not_eq_true', decide_eq_false_iff_not]
      intro hx0
      exact h0 (hx0 ▸ hx)
    rw [hw]
    refine ⟨rfl, List.length_take _ _, ?_⟩
    intro p
    exact List.prefix_take_iff

theorem set_error_message_bound_witness :
    ((cstr "Missing semicolon").takeWhile (· ≠ 0)).take 255 = (cstr "Missing semicolon").take 255 ∧
    (((cstr "Missing semicolon").takeWhile (· ≠ 0)).take 255).length =
      min 255 (cstr "Missing semicolon").length ∧
    ∀ p : List Nat, p <+: ((cstr "Missing semicolon").takeWhile (· ≠ 0)).take 255 ↔
      p <+: cstr "Missing semicolon" ∧ p.length ≤ 255 :=
  (set_error_message_bound zeroed_error .ERROR_PARSER_MISSING_SEMICOLON ⟨1, 1, 0⟩
    (cstr "Missing semicolon")).2.2.2.2 (by decide)

/-- C30, the code at the failing inputs. After the second call of
`lexer_next_token` on `a ==`, `a &&`, `a <=`, `a +=`, `a ++` and `a =>`, which
returns the operator, the previous-token slot still holds the identifier `a`;
when the operator is the first token the slot is still null after the call
that returns it; the `EOF` token is not stored either. In `a == /b/` the slash
is therefore tokenized as `DIVIDE` (the slot holds `a`), although `==` is in the
regex-context list of `can_precede_regex`. -/
theorem operators_not_stored_as_previous_token :
    (([cstr "==", cstr "&&", cstr "<=", cstr "+=", cstr "++", cstr "=>"].map fun op =>
        (token_at (cstr "a " ++ op) none 1).map (fun t => (t.type, t.value))) =
      [ some (.TOKEN_EQ, some (cstr "==")), some (.TOKEN_AND, some (cstr "&&")),
        some (.TOKEN_LE, some (cstr "<=")), some (.TOKEN_PLUS_ASSIGN, some (cstr "+=")),
        some (.TOKEN_INCREMENT, some (cstr "++")), some (.TOKEN_ARROW, some (cstr "=>")) ] ∧
      ([cstr "==", cstr "&&", cstr "<=", cstr "+=", cstr "++", cstr "=>"].map fun op =>
        (lexer_after (cstr "a " ++ op) none 2).prev_token) =
      List.replicate 6 (some
        { type := .TOKEN_IDENTIFIER, value := some (cstr "a"), length := 1,
          start := ⟨1, 1, 0⟩, end_ := ⟨1, 2, 1⟩, preceded_by_newline := false })) ∧
    (([cstr "==", cstr "&&", cstr "<=", cstr "+=", cstr "++", cstr "=>"].map fun op =>
        (token_at op none 0).map (fun t => t.type)) =
      [ some .TOKEN_EQ, some .TOKEN_AND, some .TOKEN_LE, some .TOKEN_PLUS_ASSIGN,
        some .TOKEN_INCREMENT, some .TOKEN_ARROW ] ∧
      ([cstr "==", cstr "&&", cstr "<=", cstr "+=", cstr "++", cstr "=>"].map fun op =>
        (lexer_after op none 1).prev_token) = List.replicate 6 none) ∧
    ((token_at (cstr "a") none 1).map (fun t => t.type) = some .TOKEN_EOF ∧
      (lexer_after (cstr "a") none 2).prev_token.map (fun t => t.type) =
        some .TOKEN_IDENTIFIER) ∧
    (can_precede_regex .TOKEN_EQ = true ∧
      (token_at (cstr "a == /b/") none 2).map (fun t => t.type) = some .TOKEN_DIVIDE ∧
      (token_at (cstr "a = /b/") none 2).map (fun t => t.type) = some .TOKEN_REGEX) := by
  decide

theorem keywords_not_eof : ∀ p ∈ keywords, p.2 ≠ TokenType.TOKEN_EOF := by decide

theorem single_char_type_not_eof (ch : Nat) :
    ∀ ty, single_char_type ch = some ty → ty ≠ .TOKEN_EOF := by
  unfold single_char_type
  repeat' first
    | refine ite_both (P := fun o : Option TokenType => ∀ ty, o = some ty → ty ≠ .TOKEN_EOF) ?_ ?_
    | (intro ty h; cases h; decide)
    | (intro ty h; cases h)

theorem finish_token_not_eof (hn : Bool) (r : Option Token × Lexer) (h : NotEof r) :
    NotEof (finish_token hn r) := by
  obtain ⟨o, L⟩ := r
  cases o with
  | none => intro A hA; cases hA
  | some t =>
    intro A hA
    simp only [finish_token, Option.some.injEq] at hA
    subst hA
    exact h t rfl

theorem read_identifier_not_eof (L : Lexer) (start : Position) :
    NotEof (read_identifier L start) := by
  intro T h
  unfold read_identifier at h
  dsimp only at h
  split at h
  · cases h
  · simp only [Option.some.injEq] at h
    rw [← h]
    simp only [token_create]
    split
    · next t ht =>
      obtain ⟨p, hp, hp2⟩ := is_keyword_scan_mem _ _ _ _ ht
      rw [← hp2]
      exact keywords_not_eof p hp
    · decide

theorem read_number_not_eof (L : Lexer) (start : Position) : NotEof (read_number L start) := by
  intro T h
  simp only [read_number, Option.some.injEq] at h
  rw [← h]
  simp [token_create]

theorem read_string_not_eof (L : Lexer) (start : Position) (q : Nat) :
    NotEof (read_string L start q) := by
  intro T h
  unfold read_string at h
  dsimp only at h
  split at h
  · cases h
  · simp only [Option.some.injEq] at h
    rw [← h]
    simp [token_create]

theorem read_template_not_eof (L : Lexer) (start : Position) :
    NotEof (read_template L start) := by
  intro T h
  simp only [read_template, Option.some.injEq] at h
  rw [← h]
  simp [token_create]

theorem read_regex_not_eof (L : Lexer) (start : Position) : NotEof (read_regex L start) := by
  intro T h
  unfold read_regex at h
  dsimp only at h
  split at h
  · cases h
  · simp only [Option.some.injEq] at h
    rw [← h]
    simp [token_create]

theorem operator_token_not_eof (L : Lexer) (type : TokenType) (lit : String) (len : Nat)
    (start : Position) (hn : Bool) (h : type ≠ .TOKEN_EOF) :
    NotEof (operator_token L type lit len start hn) := by
  intro A hA
  simp only [operator_token, Option.some.injEq] at hA
  subst hA
  exact h

theorem lexer_next_token_single_not_eof (L : Lexer) (ch : Nat) (start : Position) (hn : Bool) :
    NotEof (lexer_next_token_single L ch start hn) := by
  unfold lexer_next_token_single
  dsimp only
  split_ifs
  · exact finish_token_not_eof _ _ (read_regex_not_eof _ _)
  · intro A h; simp only [Option.some.injEq] at h; subst h; simp [token_create]
  · split
    · next ty hty =>
      intro A h; simp only [Option.some.injEq] at h; subst h
      exact single_char_type_not_eof ch ty hty
    · intro A h; cases h

theorem lexer_next_token_operator_not_eof (L : Lexer) (ch : Nat) (start : Position)
    (hn : Bool) : NotEof (lexer_next_token_operator L ch start hn) := by
  unfold lexer_next_token_operator
  dsimp only
  repeat' first
    | exact lexer_next_token_single_not_eof L ch start hn
    | refine ite_both (P := NotEof) ?_ ?_
    | exact operator_token_not_eof _ _ _ _ _ _ (by decide)

/-- The `EOF` token comes from the end-of-input branch only: it has no value and
length 0, and its start and end are the position of the end of the source. -/
theorem eof_token_shape (src : List Nat) (e : Option ErrorInfo) (k : Nat) (T : Token)
    (h : token_at src e k = some T) (ht : T.type = .TOKEN_EOF) :
    T.value = none ∧ T.length = 0 ∧ T.start = T.end_ ∧ T.start.offset = src.length := by
  have hadv := (lexer_after_advances src e 0 k (Nat.zero_le k)).trans
    (token_start_state_advances (lexer_after src e k))
  have hinv := CursorInv.of_advances hadv (CursorInv.create src e)
  have hsrc : (token_start_state (lexer_after src e k)).source = src := hadv.source_create
  unfold token_at at h
  cases htl : (lexer_next_token_trivia_loop ((lexer_after src e k).source_length -
      (lexer_after src e k).current) (lexer_after src e k)).1 with
  | false => rw [lexer_next_token_trivia_failed _ htl] at h; cases h
  | true =>
    rw [lexer_next_token_eq _ htl] at h
    split_ifs at h with c1 c2 c3 c4 c5
    · simp only [Option.some.injEq] at h
      rw [← h]
      refine ⟨rfl, rfl, rfl, ?_⟩
      simp only [token_create]
      rw [hinv.offset_eq]
      have := hinv.le_length
      unfold Lexer.source_length at c1
      rw [hsrc] at this c1
      omega
    · exact absurd ht (finish_token_not_eof _ _ (read_identifier_not_eof _ _) T h)
    · exact absurd ht (finish_token_not_eof _ _ (read_number_not_eof _ _) T h)
    · exact absurd ht (finish_token_not_eof _ _ (read_string_not_eof _ _ _) T h)
    · exact absurd ht (finish_token_not_eof _ _ (read_template_not_eof _ _) T h)
    · exact absurd ht (lexer_next_token_operator_not_eof _ _ _ _ T h)

/-- C29, counterexample: on `(1` followed by three spaces the mismatch at `EOF`
is reported at line 1, column 6 (the `EOF` token, after the spaces), while the
previously consumed token `1` ends at column 3; on `a +` followed by a newline
it is reported at line 2, column 1, while `+` ends at line 1, column 4. -/
theorem eof_diagnostic_after_trailing_trivia :
    ((parse_javascript_string 50 (cstr "(1   ")).success = some false ∧
      (parse_javascript_string 50 (cstr "(1   ")).current_type = some .TOKEN_EOF ∧
      (parse_javascript_string 50 (cstr "(1   ")).error = some
        { code := .ERROR_PARSER_EXPECTED_TOKEN, position := ⟨1, 6, 5⟩,
          message := cstr "Expected token type 52, got 0" } ∧
      (token_at (cstr "(1   ") (some zeroed_error) 1).map (fun t => (t.type, t.end_)) =
        some (.TOKEN_NUMBER, ⟨1, 3, 2⟩)) ∧
    ((parse_javascript_string 50 (cstr "a +\n")).success = some false ∧
      (parse_javascript_string 50 (cstr "a +\n")).current_type = some .TOKEN_EOF ∧
      (parse_javascript_string 50 (cstr "a +\n")).error = some
        { code := .ERROR_PARSER_UNEXPECTED_EOF, position := ⟨2, 1, 4⟩,
          message := cstr "Unexpected end of file in expression" } ∧
      (token_at (cstr "a +\n") (some zeroed_error) 1).map (fun t => (t.type, t.end_)) =
        some (.TOKEN_PLUS, ⟨1, 4, 3⟩)) := by
  decide

/-- C29, amended. When `parser_expect` or `parse_primary_expression` detects a
mismatch while the current token `t` is the `EOF` token, the diagnostic is set
at `t.start`; the `EOF` token starts and ends at the end of the source, after
any trailing whitespace and comments. The end of the previous token is used by
`parser_expect` only when the current token is null. On `(1` followed by three
spaces the diagnostic is `PARSER_EXPECTED_TOKEN` at line 1, column 6, on `a +`
followed by a newline it is `PARSER_UNEXPECTED_EOF` at line 2, column 1, with
any fuel from 50 on. -/
theorem eof_diagnostic_position (P : Parser) (t : Token) (hc : P.current_token = some t)
    (ht : t.type = .TOKEN_EOF) :
    (∀ ty, ty ≠ .TOKEN_EOF →
      parser_expect P ty = .ret false (parser_set_error P .ERROR_PARSER_EXPECTED_TOKEN t.start
        (cstr "Expected token type " ++ int_text ty.toCtorIdx ++ cstr ", got " ++ int_text 0))) ∧
    (∀ n, parse_primary_expression (n + 1) P =
      .ret false (parser_set_error P .ERROR_PARSER_UNEXPECTED_EOF t.start
        (cstr "Unexpected end of file in expression"))) ∧
    (∀ src e k T, token_at src e k = some T → T.type = .TOKEN_EOF →
      T.start = T.end_ ∧ T.start.offset = src.length) ∧
    (∀ (Q : Parser) (p : Token) (ty : TokenType), Q.current_token = none →
      Q.prev_token = some p →
      parser_expect Q ty = .ret false (parser_set_error Q .ERROR_PARSER_EXPECTED_TOKEN p.end_
        (cstr "Expected token type " ++ int_text ty.toCtorIdx ++ cstr ", got " ++ int_text (-1)))) ∧
    (∀ k,
      (parse_javascript_string (50 + k) (cstr "(1   ")).error = some
        { code := .ERROR_PARSER_EXPECTED_TOKEN, position := ⟨1, 6, 5⟩,
          message := cstr "Expected token type 52, got 0" } ∧
      (parse_javascript_string (50 + k) (cstr "a +\n")).error = some
        { code := .ERROR_PARSER_UNEXPECTED_EOF, position := ⟨2, 1, 4⟩,
          message := cstr "Unexpected end of file in expression" }) := by
  refine ⟨?_, ?_, ?_, ?_, ?_⟩
  · intro ty hty
    unfold parser_expect
    rw [parser_check_some P t ty hc, ht]
    simp only [hc, decide_eq_true_eq, Ne.symm hty, ↓reduceIte, ht]
    rfl
  · intro n
    rw [parse_primary_expression, hc]
    dsimp only
    rw [ht]
  · intro src e k T hT hTt
    exact (eof_token_shape src e k T hT hTt).2.2
  · intro Q p ty hq hp
    unfold parser_expect parser_check
    simp only [hq, hp, Bool.false_eq_true, ↓reduceIte]
  · intro k
    rw [parse_javascript_string_fuel 50 k _ false (by decide),
      parse_javascript_string_fuel 50 k _ false (by decide)]
    decide

theorem eof_diagnostic_position_witness :
    parser_expect (parser_advance (parser_create (lexer_create (cstr "a ") none))).2
        .TOKEN_RPAREN =
      .ret false (parser_set_error
        (parser_advance (parser_create (lexer_create (cstr "a ") none))).2
        .ERROR_PARSER_EXPECTED_TOKEN ⟨1, 3, 2⟩
        (cstr "Expected token type " ++ int_text TokenType.TOKEN_RPAREN.toCtorIdx ++
          cstr ", got " ++ int_text 0)) :=
  (eof_diagnostic_position (parser_advance (parser_create (lexer_create (cstr "a ") none))).2
    { type := .TOKEN_EOF, value := none, length := 0, start := ⟨1, 3, 2⟩, end_ := ⟨1, 3, 2⟩,
      preceded_by_newline := false } (by decide) rfl).1 .TOKEN_RPAREN (by decide)

/-! ## Token feeds: one-line sources lexed and parsed symbolically -/

theorem Feeds.error_eq {e : Option ErrorInfo} {L : Lexer} {ks : List (TokenType × Option (List Nat))}
    (h : Feeds e L ks) : L.error = e := by
  cases ks with
  | nil => exact h
  | cons k ks => exact h.1

theorem Feeds.next_step {e : Option ErrorInfo} {L : Lexer} {k : TokenType × Option (List Nat)}
    {ks : List (TokenType × Option (List Nat))} (h : Feeds e L (k :: ks)) :
    ∃ T L', lexer_next_token L = (some T, L') ∧ T.type = k.1 ∧ T.value = k.2 ∧
      T.preceded_by_newline = false ∧ Feeds e L' ks := by
  unfold Feeds at h
  obtain ⟨-, h⟩ := h
  split at h
  · next T L' heq => exact ⟨T, L', heq, h.1.1, h.1.2.1, h.1.2.2, h.2⟩
  · exact h.elim

theorem Feeds.of_step {e : Option ErrorInfo} {L L' : Lexer} {T : Token}
    {k : TokenType × Option (List Nat)} {ks : List (TokenType × Option (List Nat))}
    (he : L.error = e) (hs : lexer_next_token L = (some T, L')) (ht : T.type = k.1)
    (hv : T.value = k.2) (hn : T.preceded_by_newline = false) (h : Feeds e L' ks) :
    Feeds e L (k :: ks) := by
  unfold Feeds
  rw [hs]
  exact ⟨he, ⟨ht, hv, hn⟩, h⟩

theorem Ready.lexer_error {e : Option ErrorInfo} {P : Parser}
    {ks : List (TokenType × Option (List Nat))} (h : Ready e P ks) : P.lexer.error = e := by
  cases ks with
  | nil => exact h.elim
  | cons k ks => exact h.2.error_eq

theorem Ready.current_some {e : Option ErrorInfo} {P : Parser} {k : TokenType × Option (List Nat)}
    {ks : List (TokenType × Option (List Nat))} (h : Ready e P (k :: ks)) :
    ∃ T, P.current_token = some T ∧ T.type = k.1 ∧ T.value = k.2 ∧
      T.preceded_by_newline = false := h.1

theorem Ready.check_head {e : Option ErrorInfo} {P : Parser} {k : TokenType × Option (List Nat)}
    {ks : List (TokenType × Option (List Nat))} (h : Ready e P (k :: ks)) (ty : TokenType) :
    parser_check P ty = decide (k.1 = ty) := by
  obtain ⟨T, hc, ht, -, -⟩ := h.current_some
  rw [parser_check_some P T ty hc, ht]

/-- `parser_advance` in a ready state moves to the next token of the list and
leaves the depth counter alone. -/
theorem Ready.advance_next {e : Option ErrorInfo} {P : Parser} {k k' : TokenType × Option (List Nat)}
    {ks : List (TokenType × Option (List Nat))} (h : Ready e P (k :: k' :: ks)) :
    Ready e (parser_advance P).2 (k' :: ks) ∧ (parser_advance P).2.depth = P.depth := by
  obtain ⟨T, hc, -, -, -⟩ := h.current_some
  obtain ⟨T', L', hs, ht, hv, hn, hF⟩ := h.2.next_step
  unfold parser_advance
  simp only [hc, hs]
  exact ⟨⟨⟨T', rfl, ht, hv, hn⟩, hF⟩, trivial⟩

theorem Ready.with_depth {e : Option ErrorInfo} {P : Parser}
    {ks : List (TokenType × Option (List Nat))} (h : Ready e P ks) (d : Int) :
    Ready e { P with depth := d } ks := by
  cases ks with
  | nil => exact h.elim
  | cons k ks => exact h

theorem Accepts.and_then {e : Option ErrorInfo} {r : Outcome} {d d' : Int}
    {s t : List (TokenType × Option (List Nat))} {f : Parser → Outcome}
    (h : Accepts e r d s) (hf : ∀ Q, Q.depth = d → Ready e Q s → Accepts e (f Q) d' t) :
    Accepts e (r.andThen f) d' t := by
  obtain ⟨Q, rfl, hd, hR⟩ := h
  exact hf Q hd hR

theorem Accepts.of_ready {e : Option ErrorInfo} {P : Parser}
    {ks : List (TokenType × Option (List Nat))} (h : Ready e P ks) :
    Accepts e (.ret true P) P.depth ks := ⟨P, rfl, rfl, h⟩

theorem is_atom_facts (ty : TokenType) (h : is_atom ty = true) :
    is_unary_operator ty = false ∧ ty ≠ .TOKEN_NEW := by
  revert h
  cases ty <;> decide

theorem parser_check_ne (P : Parser) (T : Token) (ty : TokenType)
    (hc : P.current_token = some T) (h : T.type ≠ ty) : parser_check P ty = false := by
  rw [parser_check_some P T ty hc]
  exact decide_eq_false h

theorem parser_match_ne (P : Parser) (T : Token) (ty : TokenType)
    (hc : P.current_token = some T) (h : T.type ≠ ty) : parser_match P ty = (false, P) := by
  unfold parser_match
  rw [parser_check_ne P T ty hc h]
  rfl

theorem parser_match_eq (P : Parser) (T : Token) (ty : TokenType)
    (hc : P.current_token = some T) (h : T.type = ty) :
    parser_match P ty = (true, (parser_advance P).2) := by
  unfold parser_match
  rw [parser_check_some P T ty hc, h]
  simp

theorem continues_operand_ne (a b : TokenType) (ha : continues_operand a = false)
    (hb : continues_operand b = true) : a ≠ b := by
  intro h
  rw [h, hb] at ha
  cases ha

theorem closes_expression_ne (a b : TokenType) (ha : closes_expression a = true)
    (hb : closes_expression b = false) : a ≠ b := by
  intro h
  rw [h, hb] at ha
  cases ha

theorem parse_primary_atom (n : Nat) (P : Parser) (T : Token) (hc : P.current_token = some T)
    (ha : is_atom T.type = true) :
    parse_primary_expression (n + 1) P = .ret true (parser_advance P).2 := by
  rw [parse_primary_expression, hc]
  dsimp only
  revert ha
  cases T.type <;> first | (intro _; rfl) | (intro ha; exact absurd ha (by decide))

/-- An operand that is a single atom: every function from
`parse_exponentiation_expression` down consumes the atom and stops in front of a
token that does not continue an operand. -/
theorem parse_operand_atom (n : Nat) (P : Parser) (T T' : Token)
    (hc : P.current_token = some T) (ha : is_atom T.type = true)
    (hc' : (parser_advance P).2.current_token = some T')
    (ht' : continues_operand T'.type = false) :
    parse_exponentiation_expression (n + 7) P = .ret true (parser_advance P).2 := by
  obtain ⟨hu, hnew⟩ := is_atom_facts T.type ha
  have hne : ∀ ty, continues_operand ty = true → T'.type ≠ ty :=
    fun ty h => continues_operand_ne _ _ ht' h
  have hchk : ∀ ty, continues_operand ty = true →
      parser_check (parser_advance P).2 ty = false :=
    fun ty h => parser_check_ne _ T' ty hc' (hne ty h)
  have hmember : parse_member_expression (n + 2) P = .ret true (parser_advance P).2 := by
    rw [parse_member_expression, parse_primary_atom n P T hc ha]
    simp only [Outcome.andThen]
    rw [member_access_loop]
    simp only [hchk _ (rfl : continues_operand .TOKEN_DOT = true),
      hchk _ (rfl : continues_operand .TOKEN_LBRACKET = true),
      hchk _ (rfl : continues_operand .TOKEN_OPTIONAL_CHAIN = true), Bool.false_eq_true,
      or_self, ↓reduceIte]
  have hcall : parse_call_expression (n + 3) P = .ret true (parser_advance P).2 := by
    rw [parse_call_expression, hmember]
    simp only [Outcome.andThen]
    rw [parse_call_expression_loop]
    simp only [hchk _ (rfl : continues_operand .TOKEN_LPAREN = true), Bool.false_eq_true,
      ↓reduceIte]
  have hlhs : parse_left_hand_side_expression (n + 4) P = .ret true (parser_advance P).2 := by
    rw [parse_left_hand_side_expression]
    simp only [parser_match_ne P T _ hc hnew, Bool.false_eq_true, ↓reduceIte, hcall]
  have hpost : parse_postfix_expression (n + 5) P = .ret true (parser_advance P).2 := by
    rw [parse_postfix_expression, hlhs]
    simp only [Outcome.andThen, with_current, hc',
      hchk _ (rfl : continues_operand .TOKEN_INCREMENT = true),
      hchk _ (rfl : continues_operand .TOKEN_DECREMENT = true), Bool.false_eq_true,
      or_self, ↓reduceIte, ite_self]
  have hun : parse_unary_expression (n + 6) P = .ret true (parser_advance P).2 := by
    rw [parse_unary_expression]
    simp only [with_current, hc, hu, Bool.false_eq_true, ↓reduceIte, hpost]
  rw [parse_exponentiation_expression, hun]
  simp only [Outcome.andThen,
    parser_match_ne _ T' _ hc' (hne _ (rfl : continues_operand .TOKEN_EXPONENT = true)),
    Bool.false_eq_true, ↓reduceIte]

/-- The expression levels above `parse_multiplicative_expression` add nothing
when the operand ends in front of a token that closes the expression. -/
theorem expression_chain (n : Nat) (P Q : Parser) (T' : Token)
    (hm : parse_multiplicative_expression (n + 1) P = .ret true Q)
    (hc : Q.current_token = some T') (hcl : closes_expression T'.type = true) :
    parse_assignment_expression (n + 12) P = .ret true Q ∧
    parse_expression (n + 13) P = .ret true Q := by
  have hne : ∀ ty, closes_expression ty = false → T'.type ≠ ty :=
    fun ty h => closes_expression_ne _ _ hcl h
  have hchk : ∀ ty, closes_expression ty = false → parser_check Q ty = false :=
    fun ty h => parser_check_ne _ T' ty hc (hne ty h)
  have hmat : ∀ ty, closes_expression ty = false → parser_match Q ty = (false, Q) :=
    fun ty h => parser_match_ne _ T' ty hc (hne ty h)
  have hasg : is_assignment_operator T'.type = false := by
    revert hcl
    cases T'.type <;> decide
  have h1 : parse_additive_expression (n + 2) P = .ret true Q := by
    rw [parse_additive_expression, hm]
    simp only [Outcome.andThen]
    rw [parse_additive_expression_loop]
    simp only [hchk _ (rfl : closes_expression .TOKEN_PLUS = false),
      hchk _ (rfl : closes_expression .TOKEN_MINUS = false), Bool.false_eq_true, or_self,
      ↓reduceIte]
  have h2 : parse_shift_expression (n + 3) P = .ret true Q := by
    rw [parse_shift_expression, h1]
    simp only [Outcome.andThen]
    rw [parse_shift_expression_loop]
    simp only [hchk _ (rfl : closes_expression .TOKEN_LSHIFT = false),
      hchk _ (rfl : closes_expression .TOKEN_RSHIFT = false),
      hchk _ (rfl : closes_expression .TOKEN_URSHIFT = false), Bool.false_eq_true, or_self,
      ↓reduceIte]
  have h3 : parse_relational_expression (n + 4) P = .ret true Q := by
    rw [parse_relational_expression, h2]
    simp only [Outcome.andThen]
    rw [parse_relational_expression_loop]
    simp only [hchk _ (rfl : closes_expression .TOKEN_LT = false),
      hchk _ (rfl : closes_expression .TOKEN_LE = false),
      hchk _ (rfl : closes_expression .TOKEN_GT = false),
      hchk _ (rfl : closes_expression .TOKEN_GE = false),
      hchk _ (rfl : closes_expression .TOKEN_INSTANCEOF = false),
      hchk _ (rfl : closes_expression .TOKEN_IN = false), Bool.false_eq_true, or_self,
      ↓reduceIte]
  have h4 : parse_equality_expression (n + 5) P = .ret true Q := by
    rw [parse_equality_expression, h3]
    simp only [Outcome.andThen]
    rw [parse_equality_expression_loop]
    simp only [hchk _ (rfl : closes_expression .TOKEN_EQ = false),
      hchk _ (rfl : closes_expression .TOKEN_NE = false),
      hchk _ (rfl : closes_expression .TOKEN_EQ_STRICT = false),
      hchk _ (rfl : closes_expression .TOKEN_NE_STRICT = false), Bool.false_eq_true, or_self,
      ↓reduceIte]
  have h5 : parse_bitwise_and_expression (n + 6) P = .ret true Q := by
    rw [parse_bitwise_and_expression, h4]
    simp only [Outcome.andThen]
    rw [parse_bitwise_and_expression_loop]
    simp only [hmat _ (rfl : closes_expression .TOKEN_BITWISE_AND = false), Bool.false_eq_true,
      ↓reduceIte]
  have h6 : parse_bitwise_xor_expression (n + 7) P = .ret true Q := by
    rw [parse_bitwise_xor_expression, h5]
    simp only [Outcome.andThen]
    rw [parse_bitwise_xor_expression_loop]
    simp only [hmat _ (rfl : closes_expression .TOKEN_BITWISE_XOR = false), Bool.false_eq_true,
      ↓reduceIte]
  have h7 : parse_bitwise_or_expression (n + 8) P = .ret true Q := by
    rw [parse_bitwise_or_expression, h6]
    simp only [Outcome.andThen]
    rw [parse_bitwise_or_expression_loop]
    simp only [hmat _ (rfl : closes_expression .TOKEN_BITWISE_OR = false), Bool.false_eq_true,
      ↓reduceIte]
  have h8 : parse_logical_and_expression (n + 9) P = .ret true Q := by
    rw [parse_logical_and_expression, h7]
    simp only [Outcome.andThen]
    rw [parse_logical_and_expression_loop]
    simp only [hmat _ (rfl : closes_expression .TOKEN_AND = false), Bool.false_eq_true,
      ↓reduceIte]
  have h9 : parse_logical_or_expression (n + 10) P = .ret true Q := by
    rw [parse_logical_or_expression, h8]
    simp only [Outcome.andThen]
    rw [parse_logical_or_expression_loop]
    simp only [hmat _ (rfl : closes_expression .TOKEN_OR = false),
      hmat _ (rfl : closes_expression .TOKEN_NULLISH = false), Bool.false_eq_true, ↓reduceIte]
  have h10 : parse_conditional_expression (n + 11) P = .ret true Q := by
    rw [parse_conditional_expression, h9]
    simp only [Outcome.andThen, hmat _ (rfl : closes_expression .TOKEN_QUESTION = false),
      Bool.false_eq_true, ↓reduceIte]
  have h11 : parse_assignment_expression (n + 12) P = .ret true Q := by
    rw [parse_assignment_expression, h10]
    simp only [Outcome.andThen, with_current, hc, hasg, Bool.false_eq_true, ↓reduceIte]
  refine ⟨h11, ?_⟩
  rw [parse_expression, h11]
  simp only [Outcome.andThen]
  rw [comma_list_loop]
  simp only [hmat _ (rfl : closes_expression .TOKEN_COMMA = false), Bool.false_eq_true,
    ↓reduceIte]

theorem line_lexer_advance (src : List Nat) (e : Option ErrorInfo) (k : Nat) (p : Option Token)
    (hlt : k < src.length) (h10 : src.getD k 0 ≠ 10) (h13 : src.getD k 0 ≠ 13) :
    advance (line_lexer src e k p) = (src.getD k 0, line_lexer src e (k + 1) p) := by
  rw [advance_plain (line_lexer src e k p) hlt h10 h13]
  rfl

theorem line_lexer_peek (src : List Nat) (e : Option ErrorInfo) (k : Nat) (p : Option Token)
    (j : Nat) : peek (line_lexer src e k p) j = src.getD (k + j) 0 :=
  peek_eq _ _

theorem skip_whitespace_loop_spaces (src : List Nat) (e : Option ErrorInfo) (p : Option Token) :
    ∀ (m k fuel : Nat), m ≤ fuel → k + m ≤ src.length →
      (∀ i, k ≤ i → i < k + m → src.getD i 0 = 32) →
      (k + m < src.length → is_whitespace (char_to_u32 (src.getD (k + m) 0)) = false ∧
        src.getD (k + m) 0 ≠ 10 ∧ src.getD (k + m) 0 ≠ 13) →
      skip_whitespace_loop fuel (line_lexer src e k p) = line_lexer src e (k + m) p := by
  intro m
  induction m with
  | zero =>
    intro k fuel _ _ _ hend
    cases fuel with
    | zero => rfl
    | succ f =>
      unfold skip_whitespace_loop
      by_cases hlt : k < src.length
      · obtain ⟨hw, h10, h13⟩ := hend hlt
        have hlt' : (line_lexer src e k p).current < (line_lexer src e k p).source_length := hlt
        rw [if_pos hlt']
        dsimp only
        rw [line_lexer_peek, Nat.add_zero]
        rw [Nat.add_zero] at hw h10 h13
        simp only [hw, Bool.false_eq_true, ↓reduceIte, h10, h13, or_self]
      · have hlt' : ¬ (line_lexer src e k p).current < (line_lexer src e k p).source_length := hlt
        rw [if_neg hlt']
        rfl
  | succ m ih =>
    intro k fuel hf hle hsp hend
    obtain ⟨f, rfl⟩ : ∃ f, fuel = f + 1 := ⟨fuel - 1, by omega⟩
    have hk := hsp k (le_refl k) (by omega)
    have hlt : k < src.length := by omega
    have hlt' : (line_lexer src e k p).current < (line_lexer src e k p).source_length := hlt
    unfold skip_whitespace_loop
    rw [if_pos hlt']
    dsimp only
    rw [line_lexer_peek, Nat.add_zero, hk]
    rw [line_lexer_advance src e k p hlt (by rw [hk]; decide) (by rw [hk]; decide)]
    simp only [show is_whitespace (char_to_u32 32) = true from rfl, ↓reduceIte]
    rw [ih (k + 1) f (by omega) (by omega) (fun i h1 h2 => hsp i (by omega) (by omega))
      (by rw [show k + 1 + m = k + (m + 1) by omega]; exact hend)]
    rw [show k + 1 + m = k + (m + 1) by omega]

/-- The trivia loop over `m` spaces in front of a byte that starts a token. -/
theorem trivia_loop_spaces (src : List Nat) (e : Option ErrorInfo) (p : Option Token)
    (k m : Nat) (hlt : k + m < src.length)
    (hsp : ∀ i, k ≤ i → i < k + m → src.getD i 0 = 32)
    (hw : is_whitespace (char_to_u32 (src.getD (k + m) 0)) = false)
    (h10 : src.getD (k + m) 0 ≠ 10) (h13 : src.getD (k + m) 0 ≠ 13)
    (hnc : ¬ (src.getD (k + m) 0 = 47 ∧
      (src.getD (k + m + 1) 0 = 47 ∨ src.getD (k + m + 1) 0 = 42))) :
    lexer_next_token_trivia_loop (src.length - k) (line_lexer src e k p) =
      (true, line_lexer src e (k + m) p) := by
  obtain ⟨f, hf⟩ : ∃ f, src.length - k = f + 1 := ⟨src.length - k - 1, by omega⟩
  have hsw : skip_whitespace (line_lexer src e k p) = line_lexer src e (k + m) p := by
    unfold skip_whitespace
    exact skip_whitespace_loop_spaces src e p m k _
      (by show m ≤ src.length - k; omega) (by omega) hsp (fun _ => ⟨hw, h10, h13⟩)
  have hlt' : (line_lexer src e k p).current < (line_lexer src e k p).source_length := by
    show k < src.length
    omega
  rw [hf, lexer_next_token_trivia_loop]
  dsimp only
  rw [if_pos hlt', hsw]
  have hge : ¬ (line_lexer src e (k + m) p).current ≥
      (line_lexer src e (k + m) p).source_length := by
    show ¬ (k + m ≥ src.length)
    omega
  rw [if_neg hge, line_lexer_peek, line_lexer_peek, Nat.add_zero]
  by_cases h47 : src.getD (k + m) 0 = 47
  · have hn1 : src.getD (k + m + 1) 0 ≠ 47 := fun h => hnc ⟨h47, Or.inl h⟩
    have hn2 : src.getD (k + m + 1) 0 ≠ 42 := fun h => hnc ⟨h47, Or.inr h⟩
    simp only [h47, hn1, hn2, and_false, ↓reduceIte]
  · simp only [h47, false_and, ↓reduceIte]

/-- One call of `lexer_next_token` on a line: after `m` spaces the token starts
at offset `k + m`, and its first byte selects the branch. -/
theorem line_lexer_next (src : List Nat) (e : Option ErrorInfo) (p : Option Token)
    (k m : Nat) (hlt : k + m < src.length)
    (hsp : ∀ i, k ≤ i → i < k + m → src.getD i 0 = 32)
    (hw : is_whitespace (char_to_u32 (src.getD (k + m) 0)) = false)
    (h10 : src.getD (k + m) 0 ≠ 10) (h13 : src.getD (k + m) 0 ≠ 13)
    (hnc : ¬ (src.getD (k + m) 0 = 47 ∧
      (src.getD (k + m + 1) 0 = 47 ∨ src.getD (k + m + 1) 0 = 42))) :
    lexer_next_token (line_lexer src e k p) =
      if is_unicode_id_start (char_to_u8 (src.getD (k + m) 0)) = true ∨
          src.getD (k + m) 0 = 36 then
        finish_token false
          (read_identifier (line_lexer src e (k + m + 1) p) ⟨1, k + m + 1, k + m⟩)
      else if isdigit (src.getD (k + m) 0) = true then
        finish_token false (read_number (line_lexer src e (k + m + 1) p) ⟨1, k + m + 1, k + m⟩)
      else if src.getD (k + m) 0 = 34 ∨ src.getD (k + m) 0 = 39 then
        finish_token false
          (read_string (line_lexer src e (k + m + 1) p) ⟨1, k + m + 1, k + m⟩
            (src.getD (k + m) 0))
      else if src.getD (k + m) 0 = 96 then
        finish_token false
          (read_template (line_lexer src e (k + m + 1) p) ⟨1, k + m + 1, k + m⟩)
      else
        lexer_next_token_operator (line_lexer src e (k + m + 1) p) (src.getD (k + m) 0)
          ⟨1, k + m + 1, k + m⟩ false := by
  unfold lexer_next_token
  rw [show (line_lexer src e k p).source_length - (line_lexer src e k p).current =
    src.length - k from rfl, trivia_loop_spaces src e p k m hlt hsp hw h10 h13 hnc]
  dsimp only
  rw [show ({ line_lexer src e (k + m) p with last_was_newline := false } : Lexer) =
    line_lexer src e (k + m) p from rfl]
  have hge : ¬ (line_lexer src e (k + m) p).current ≥
      (line_lexer src e (k + m) p).source_length := by
    show ¬ (k + m ≥ src.length)
    omega
  rw [if_neg hge, line_lexer_advance src e (k + m) p hlt h10 h13]
  rfl

theorem line_lexer_source_length (src : List Nat) (e : Option ErrorInfo) (k : Nat)
    (p : Option Token) : (line_lexer src e k p).source_length = src.length := rfl

theorem finish_token_line (src : List Nat) (e : Option ErrorInfo) (b : Nat) (p : Option Token)
    (ty : TokenType) (v : List Nat) (len : Nat) (start pos : Position) (hlen : 0 < len) :
    finish_token false
        (some (token_create ty (some v) len start pos false), line_lexer src e b p) =
      (some (token_create ty (some v) len start pos false),
        line_lexer src e b (some (token_create ty (some v) len start pos false))) := by
  simp [finish_token, save_prev_token, token_create, line_lexer, hlen, List.take_take]

/-- A loop `while (p(peek)) advance` over `m` bytes that satisfy `q`, none of
them a line terminator, in front of a byte that does not (or of the end). -/
theorem advance_while_loop_run (q : Nat → Bool) (src : List Nat) (e : Option ErrorInfo)
    (p : Option Token) :
    ∀ (m k fuel : Nat), m ≤ fuel → k + m ≤ src.length →
      (∀ i, k ≤ i → i < k + m →
        q (src.getD i 0) = true ∧ src.getD i 0 ≠ 10 ∧ src.getD i 0 ≠ 13) →
      (k + m < src.length → q (src.getD (k + m) 0) = false) →
      advance_while_loop q fuel (line_lexer src e k p) = line_lexer src e (k + m) p := by
  intro m
  induction m with
  | zero =>
    intro k fuel _ _ _ hend
    cases fuel with
    | zero => rfl
    | succ f =>
      unfold advance_while_loop
      rw [if_neg]
      · rfl
      · rintro ⟨hlt, hq⟩
        rw [line_lexer_peek, Nat.add_zero] at hq
        have := hend hlt
        rw [Nat.add_zero, hq] at this
        cases this
  | succ m ih =>
    intro k fuel hf hle hrun hend
    obtain ⟨f, rfl⟩ : ∃ f, fuel = f + 1 := ⟨fuel - 1, by omega⟩
    obtain ⟨hq, h10, h13⟩ := hrun k (le_refl k) (by omega)
    have hlt : k < src.length := by omega
    unfold advance_while_loop
    rw [if_pos ⟨hlt, by rw [line_lexer_peek, Nat.add_zero]; exact hq⟩,
      line_lexer_advance src e k p hlt h10 h13]
    dsimp only
    rw [ih (k + 1) f (by omega) (by omega) (fun i h1 h2 => hrun i (by omega) (by omega))
      (by rw [show k + 1 + m = k + (m + 1) by omega]; exact hend)]
    rw [show k + 1 + m = k + (m + 1) by omega]

/-- The loop of `read_identifier` over `m` identifier bytes, none of them a
backslash, in front of a byte that is neither (or of the end). -/
theorem read_identifier_loop_run (src : List Nat) (e : Option ErrorInfo) (p : Option Token) :
    ∀ (m k fuel : Nat), m ≤ fuel → k + m ≤ src.length →
      (∀ i, k ≤ i → i < k + m →
        is_unicode_id_continue (char_to_u8 (src.getD i 0)) = true ∧ src.getD i 0 ≠ 92 ∧
        src.getD i 0 ≠ 10 ∧ src.getD i 0 ≠ 13) →
      (k + m < src.length →
        is_unicode_id_continue (char_to_u8 (src.getD (k + m) 0)) = false ∧
        src.getD (k + m) 0 ≠ 92) →
      read_identifier_loop fuel (line_lexer src e k p) = (true, line_lexer src e (k + m) p) := by
  intro m
  induction m with
  | zero =>
    intro k fuel _ _ _ hend
    cases fuel with
    | zero => rfl
    | succ f =>
      unfold read_identifier_loop
      by_cases hlt : k < src.length
      · obtain ⟨hc, h92⟩ := hend hlt
        rw [Nat.add_zero] at hc h92
        rw [if_pos (show (line_lexer src e k p).current <
          (line_lexer src e k p).source_length from hlt)]
        dsimp only
        rw [line_lexer_peek, Nat.add_zero]
        simp only [h92, false_and, ↓reduceIte, hc, Bool.false_eq_true]
      · rw [if_neg (show ¬ (line_lexer src e k p).current <
          (line_lexer src e k p).source_length from hlt)]
        rfl
  | succ m ih =>
    intro k fuel hf hle hrun hend
    obtain ⟨f, rfl⟩ : ∃ f, fuel = f + 1 := ⟨fuel - 1, by omega⟩
    obtain ⟨hq, h92, h10, h13⟩ := hrun k (le_refl k) (by omega)
    have hlt : k < src.length := by omega
    unfold read_identifier_loop
    rw [if_pos (show (line_lexer src e k p).current <
      (line_lexer src e k p).source_length from hlt)]
    dsimp only
    rw [line_lexer_peek, Nat.add_zero, line_lexer_advance src e k p hlt h10 h13]
    simp only [h92, false_and, ↓reduceIte, hq]
    rw [ih (k + 1) f (by omega) (by omega) (fun i h1 h2 => hrun i (by omega) (by omega))
      (by rw [show k + 1 + m = k + (m + 1) by omega]; exact hend)]
    rw [show k + 1 + m = k + (m + 1) by omega]

/-- The outer loop of `read_regex` over `m` plain body bytes up to the closing
slash at offset `k + m`: it ends in the loop that reads the flags. -/
theorem read_regex_loop_run (src : List Nat) (e : Option ErrorInfo) (p : Option Token) :
    ∀ (m k fuel : Nat), m + 1 ≤ fuel → k + m < src.length →
      (∀ i, k ≤ i → i < k + m →
        src.getD i 0 ≠ 47 ∧ src.getD i 0 ≠ 92 ∧ src.getD i 0 ≠ 91 ∧
        is_line_terminator (char_to_u32 (src.getD i 0)) = false ∧
        src.getD i 0 ≠ 10 ∧ src.getD i 0 ≠ 13) →
      src.getD (k + m) 0 = 47 →
      read_regex_loop fuel (line_lexer src e k p) =
        (true, advance_while isalpha (line_lexer src e (k + m + 1) p)) := by
  intro m
  induction m with
  | zero =>
    intro k fuel hf hlt _ hend
    obtain ⟨f, rfl⟩ : ∃ f, fuel = f + 1 := ⟨fuel - 1, by omega⟩
    rw [Nat.add_zero] at hend hlt
    unfold read_regex_loop
    rw [if_pos (show (line_lexer src e k p).current <
      (line_lexer src e k p).source_length from hlt)]
    dsimp only
    rw [line_lexer_peek, Nat.add_zero, hend,
      line_lexer_advance src e k p hlt (by rw [hend]; decide) (by rw [hend]; decide)]
    rfl
  | succ m ih =>
    intro k fuel hf hle hrun hend
    obtain ⟨f, rfl⟩ : ∃ f, fuel = f + 1 := ⟨fuel - 1, by omega⟩
    obtain ⟨h47, h92, h91, hlt', h10, h13⟩ := hrun k (le_refl k) (by omega)
    have hlt : k < src.length := by omega
    unfold read_regex_loop
    rw [if_pos (show (line_lexer src e k p).current <
      (line_lexer src e k p).source_length from hlt)]
    dsimp only
    rw [line_lexer_peek, Nat.add_zero, line_lexer_advance src e k p hlt h10 h13]
    simp only [h47, h92, h91, hlt', ↓reduceIte, Bool.false_eq_true]
    rw [ih (k + 1) f (by omega) (by omega) (fun i h1 h2 => hrun i (by omega) (by omega))
      (by rw [show k + 1 + m = k + (m + 1) by omega]; exact hend)]
    rw [show k + 1 + m + 1 = k + (m + 1) + 1 by omega]

theorem ascii_facts_plain : ∀ c < 128, (isalpha c = true ∨ isdigit c = true) →
    is_whitespace (char_to_u32 c) = false ∧ c ≠ 10 ∧ c ≠ 13 ∧ c ≠ 47 ∧ c ≠ 92 ∧ c ≠ 91 := by
  decide

theorem ascii_facts_class : ∀ c < 128, (isalpha c = true ∨ isdigit c = true) →
    c ≠ 61 ∧ c ≠ 42 ∧ is_line_terminator (char_to_u32 c) = false ∧
    is_unicode_id_continue (char_to_u8 c) = true := by
  decide

theorem ascii_facts_start : ∀ c < 128,
    (isalpha c = true → is_unicode_id_start (char_to_u8 c) = true) ∧
    (isdigit c = true → ¬ (is_unicode_id_start (char_to_u8 c) = true ∨ c = 36)) := by
  decide

/-- Facts on the ASCII letters and digits that the lexer lemmas use. -/
theorem alnum_facts (c : Nat) (h : isalpha c = true ∨ isdigit c = true) :
    is_whitespace (char_to_u32 c) = false ∧ c ≠ 10 ∧ c ≠ 13 ∧ c ≠ 47 ∧ c ≠ 92 ∧ c ≠ 91 ∧
    c ≠ 61 ∧ c ≠ 42 ∧ is_line_terminator (char_to_u32 c) = false ∧
    is_unicode_id_continue (char_to_u8 c) = true ∧
    (isalpha c = true → is_unicode_id_start (char_to_u8 c) = true) ∧
    (isdigit c = true → ¬ (is_unicode_id_start (char_to_u8 c) = true ∨ c = 36)) := by
  have hc : c < 128 := by
    rcases h with h | h
    · simp only [isalpha, decide_eq_true_eq] at h; omega
    · simp only [isdigit, decide_eq_true_eq] at h; omega
  obtain ⟨a1, a2, a3, a4, a5, a6⟩ := ascii_facts_plain c hc h
  obtain ⟨b1, b2, b3, b4⟩ := ascii_facts_class c hc h
  obtain ⟨c1, c2⟩ := ascii_facts_start c hc
  exact ⟨a1, a2, a3, a4, a5, a6, b1, b2, b3, b4, c1, c2⟩

/-- An identifier or keyword on a line: `m` spaces, a letter, `n - 1` letters or
digits, and then a byte that does not continue an identifier (or the end). -/
theorem line_identifier (src : List Nat) (e : Option ErrorInfo) (p : Option Token)
    (k m n : Nat) (hn : 0 < n) (hle : k + m + n ≤ src.length)
    (hsp : ∀ i, k ≤ i → i < k + m → src.getD i 0 = 32)
    (hfirst : isalpha (src.getD (k + m) 0) = true)
    (hrun : ∀ i, k + m < i → i < k + m + n →
      isalpha (src.getD i 0) = true ∨ isdigit (src.getD i 0) = true)
    (hend : k + m + n < src.length →
      is_unicode_id_continue (char_to_u8 (src.getD (k + m + n) 0)) = false ∧
      src.getD (k + m + n) 0 ≠ 92) :
    LineStep src e k p (k + m + n)
      ((is_keyword (src.drop (k + m)) n).getD .TOKEN_IDENTIFIER)
      (some ((src.drop (k + m)).take n)) := by
  obtain ⟨hw, h10, h13, h47, -, -, -, -, -, -, hid, -⟩ := alnum_facts _ (Or.inl hfirst)
  have hloop := read_identifier_loop_run src e p (n - 1) (k + m + 1) (src.length - (k + m + 1))
    (by omega) (by omega)
    (fun i h1 h2 => by
      obtain ⟨-, a10, a13, -, a92, -, -, -, -, ac, -, -⟩ :=
        alnum_facts _ (hrun i (by omega) (by omega))
      exact ⟨ac, a92, a10, a13⟩)
    (by rw [show k + m + 1 + (n - 1) = k + m + n by omega]; exact hend)
  rw [show k + m + 1 + (n - 1) = k + m + n by omega] at hloop
  unfold LineStep
  rw [line_lexer_next src e p k m (by omega) hsp hw h10 h13 (fun h => h47 h.1),
    if_pos (Or.inl (hid hfirst))]
  unfold read_identifier
  dsimp only
  rw [line_lexer_source_length,
    show (line_lexer src e (k + m + 1) p).current = k + m + 1 from rfl, hloop]
  dsimp only
  rw [show (line_lexer src e (k + m + n) p).current = k + m + n from rfl,
    show (line_lexer src e (k + m + n) p).source = src from rfl,
    show (line_lexer src e (k + m + n) p).last_was_newline = false from rfl,
    show k + m + 1 - 1 = k + m from rfl, show k + m + n - (k + m) = n by omega,
    finish_token_line _ _ _ _ _ _ _ _ _ hn]
  refine ⟨_, rfl, ?_, ?_, rfl⟩
  · simp only [token_create, Option.getD]
    split <;> simp_all
  · simp only [token_create, hn, ↓reduceIte]

/-- A decimal integer literal on a line: `m` spaces, `n` digits, and then a byte
that continues no number. -/
theorem line_number (src : List Nat) (e : Option ErrorInfo) (p : Option Token)
    (k m n : Nat) (hn : 0 < n) (hlt : k + m + n < src.length)
    (hsp : ∀ i, k ≤ i → i < k + m → src.getD i 0 = 32)
    (hrun : ∀ i, k + m ≤ i → i < k + m + n → isdigit (src.getD i 0) = true)
    (hend : src.getD (k + m + n) 0 = 32 ∨ src.getD (k + m + n) 0 = 59) :
    LineStep src e k p (k + m + n) .TOKEN_NUMBER (some ((src.drop (k + m)).take n)) := by
  have hdig := hrun (k + m) (le_refl _) (by omega)
  obtain ⟨hw, h10, h13, h47, -, -, -, -, -, -, -, hnid⟩ := alnum_facts _ (Or.inr hdig)
  have hnext : ∀ c, (isdigit c = true ∨ c = 32 ∨ c = 59) →
      ¬ (c = 120 ∨ c = 88) ∧ ¬ (c = 98 ∨ c = 66) ∧ ¬ (c = 111 ∨ c = 79) := by
    intro c hc
    rcases hc with hc | rfl | rfl
    · simp only [isdigit, decide_eq_true_eq] at hc
      omega
    · decide
    · decide
  have hnx := hnext (src.getD (k + m + 1) 0) (by
    by_cases h1 : n = 1
    · subst h1
      exact Or.inr hend
    · exact Or.inl (hrun _ (by omega) (by omega)))
  have hradix : read_number_radix (src.getD (k + m) 0) (line_lexer src e (k + m + 1) p) =
      line_lexer src e (k + m + 1) p := by
    unfold read_number_radix
    split_ifs with c1
    · dsimp only
      rw [line_lexer_peek, Nat.add_zero]
      simp only [hnx.1, hnx.2.1, hnx.2.2, ↓reduceIte]
    · rfl
  have hloop := advance_while_loop_run isdigit src e p (n - 1) (k + m + 1)
    (src.length - (k + m + 1)) (by omega) (by omega)
    (fun i h1 h2 => by
      obtain ⟨-, a10, a13, -⟩ := alnum_facts _ (Or.inr (hrun i (by omega) (by omega)))
      exact ⟨hrun i (by omega) (by omega), a10, a13⟩)
    (by
      intro _
      rw [show k + m + 1 + (n - 1) = k + m + n by omega]
      rcases hend with h | h <;> rw [h] <;> rfl)
  rw [show k + m + 1 + (n - 1) = k + m + n by omega] at hloop
  have hterm : ∀ c, (c = 32 ∨ c = 59) → c ≠ 46 ∧ c ≠ 101 ∧ c ≠ 69 := by
    intro c hc
    rcases hc with rfl | rfl <;> decide
  obtain ⟨t46, t101, t69⟩ := hterm _ hend
  unfold LineStep
  rw [line_lexer_next src e p k m (by omega) hsp hw h10 h13 (fun h => h47 h.1),
    if_neg (hnid hdig), if_pos hdig]
  unfold read_number
  dsimp only
  rw [show (line_lexer src e (k + m + 1) p).current - 1 = k + m from rfl,
    show (line_lexer src e (k + m + 1) p).source = src from rfl, hradix]
  unfold advance_while
  rw [line_lexer_source_length,
    show (line_lexer src e (k + m + 1) p).current = k + m + 1 from rfl, hloop]
  unfold read_number_fraction read_number_exponent
  rw [line_lexer_peek, Nat.add_zero]
  simp only [t46, false_and, ↓reduceIte]
  rw [line_lexer_peek, Nat.add_zero]
  simp only [t101, t69, or_self, ↓reduceIte]
  rw [show (line_lexer src e (k + m + n) p).current = k + m + n from rfl,
    show (line_lexer src e (k + m + n) p).source = src from rfl,
    show (line_lexer src e (k + m + n) p).last_was_newline = false from rfl,
    show k + m + n - (k + m) = n by omega,
    finish_token_line _ _ _ _ _ _ _ _ _ hn]
  exact ⟨_, rfl, rfl, by simp only [token_create, hn, ↓reduceIte], rfl⟩

theorem save_prev_token_line (src : List Nat) (e : Option ErrorInfo) (b : Nat)
    (p : Option Token) (ty : TokenType) (v : List Nat) (len : Nat) (start pos : Position)
    (hlen : 0 < len) :
    save_prev_token (line_lexer src e b p) (token_create ty (some v) len start pos false) =
      line_lexer src e b (some (token_create ty (some v) len start pos false)) := by
  simp [save_prev_token, token_create, line_lexer, hlen, List.take_take]

/-- One of the punctuators `( ) { } [ ] ; , : ~` on a line, after `m` spaces. -/
theorem line_punct (src : List Nat) (e : Option ErrorInfo) (p : Option Token)
    (k m : Nat) (ty : TokenType) (hlt : k + m < src.length)
    (hsp : ∀ i, k ≤ i → i < k + m → src.getD i 0 = 32)
    (hp : src.getD (k + m) 0 ∈ [40, 41, 123, 125, 91, 93, 59, 44, 58, 126])
    (hty : single_char_type (src.getD (k + m) 0) = some ty) :
    LineStep src e k p (k + m + 1) ty (some [src.getD (k + m) 0]) := by
  obtain ⟨hw, h10, h13, h47, hid, hd, hq, hb, hop⟩ := punctuator_facts _ hp
  unfold LineStep
  rw [line_lexer_next src e p k m hlt hsp hw h10 h13 (fun h => h47 h.1),
    if_neg hid, if_neg hd, if_neg hq, if_neg hb, operator_to_single _ _ _ _ hop]
  unfold lexer_next_token_single
  dsimp only
  rw [if_neg h47, hty]
  dsimp only
  rw [save_prev_token_line _ _ _ _ _ _ _ _ _ Nat.one_pos]
  exact ⟨_, rfl, rfl, by simp [token_create], rfl⟩

/-- The operator `=` on a line, after `m` spaces, when neither `=` nor `>`
follows. -/
theorem line_assign (src : List Nat) (e : Option ErrorInfo) (p : Option Token)
    (k m : Nat) (hlt : k + m < src.length)
    (hsp : ∀ i, k ≤ i → i < k + m → src.getD i 0 = 32)
    (hc : src.getD (k + m) 0 = 61)
    (hn61 : src.getD (k + m + 1) 0 ≠ 61) (hn62 : src.getD (k + m + 1) 0 ≠ 62) :
    LineStep src e k p (k + m + 1) .TOKEN_ASSIGN (some [61]) := by
  unfold LineStep
  rw [line_lexer_next src e p k m hlt hsp (by rw [hc]; rfl) (by rw [hc]; decide)
    (by rw [hc]; decide) (fun h => by rw [hc] at h; exact absurd h.1 (by decide)), hc,
    if_neg (by decide), if_neg (by decide), if_neg (by decide), if_neg (by decide)]
  have hop : lexer_next_token_operator (line_lexer src e (k + m + 1) p) 61
      ⟨1, k + m + 1, k + m⟩ false =
      lexer_next_token_single (line_lexer src e (k + m + 1) p) 61 ⟨1, k + m + 1, k + m⟩
        false := by
    unfold lexer_next_token_operator
    simp [line_lexer_peek, hn61, hn62, -List.getD_eq_getElem?_getD]
  rw [hop]
  unfold lexer_next_token_single
  dsimp only
  rw [if_neg (by decide), show single_char_type 61 = some .TOKEN_ASSIGN from rfl]
  dsimp only
  rw [save_prev_token_line _ _ _ _ _ _ _ _ _ Nat.one_pos]
  exact ⟨_, rfl, rfl, by simp [token_create], rfl⟩

/-- A slash on a line, after `m` spaces, that is followed by none of `=`, `/`,
`*` and comes after a token that does not permit a regular expression: it is
the division operator. -/
theorem line_divide (src : List Nat) (e : Option ErrorInfo) (T0 : Token)
    (k m : Nat) (hlt : k + m < src.length)
    (hsp : ∀ i, k ≤ i → i < k + m → src.getD i 0 = 32)
    (hc : src.getD (k + m) 0 = 47)
    (hn61 : src.getD (k + m + 1) 0 ≠ 61) (hn47 : src.getD (k + m + 1) 0 ≠ 47)
    (hn42 : src.getD (k + m + 1) 0 ≠ 42) (hprev : can_precede_regex T0.type = false) :
    LineStep src e k (some T0) (k + m + 1) .TOKEN_DIVIDE (some [47]) := by
  unfold LineStep
  rw [line_lexer_next src e (some T0) k m hlt hsp (by rw [hc]; rfl) (by rw [hc]; decide)
    (by rw [hc]; decide) (by rw [hc]; rintro ⟨-, h | h⟩ <;> contradiction), hc,
    if_neg (by decide), if_neg (by decide), if_neg (by decide), if_neg (by decide),
    slash_dispatch, line_lexer_peek, Nat.add_zero, if_neg hn61]
  have hpp : prev_permits_regex (line_lexer src e (k + m + 1) (some T0)) = false := hprev
  rw [hpp, if_neg (by decide), save_prev_token_line _ _ _ _ _ _ _ _ _ Nat.one_pos]
  exact ⟨_, rfl, rfl, by simp [token_create], rfl⟩

/-- A regular expression literal on a line, after `m` spaces and after a token
that permits one: a slash, `nb ≥ 1` letters or digits, a slash, `nf` letters,
and then a byte that is no letter (or the end). -/
theorem line_regex (src : List Nat) (e : Option ErrorInfo) (T0 : Token)
    (k m nb nf : Nat) (hnb : 0 < nb) (hle : k + m + nb + nf + 2 ≤ src.length)
    (hsp : ∀ i, k ≤ i → i < k + m → src.getD i 0 = 32)
    (hc : src.getD (k + m) 0 = 47)
    (hbody : ∀ i, k + m < i → i < k + m + 1 + nb →
      isalpha (src.getD i 0) = true ∨ isdigit (src.getD i 0) = true)
    (hclose : src.getD (k + m + 1 + nb) 0 = 47)
    (hflags : ∀ i, k + m + 1 + nb < i → i < k + m + nb + nf + 2 →
      isalpha (src.getD i 0) = true)
    (hend : k + m + nb + nf + 2 < src.length → isalpha (src.getD (k + m + nb + nf + 2) 0) = false)
    (hprev : can_precede_regex T0.type = true) :
    LineStep src e k (some T0) (k + m + nb + nf + 2) .TOKEN_REGEX
      (some ((src.drop (k + m)).take (nb + nf + 2))) := by
  obtain ⟨-, -, -, b47, -, -, b61, b42, -, -, -, -⟩ :=
    alnum_facts _ (hbody (k + m + 1) (by omega) (by omega))
  have hloop := read_regex_loop_run src e (some T0) nb (k + m + 1) (src.length - (k + m + 1))
    (by omega) (by omega)
    (fun i h1 h2 => by
      obtain ⟨-, a10, a13, a47, a92, a91, -, -, alt, -, -, -⟩ :=
        alnum_facts _ (hbody i (by omega) (by omega))
      exact ⟨a47, a92, a91, alt, a10, a13⟩)
    hclose
  have hfl := advance_while_loop_run isalpha src e (some T0) nf (k + m + 1 + nb + 1)
    (src.length - (k + m + 1 + nb + 1)) (by omega) (by omega)
    (fun i h1 h2 => by
      have ha := hflags i (by omega) (by omega)
      obtain ⟨-, a10, a13, -⟩ := alnum_facts _ (Or.inl ha)
      exact ⟨ha, a10, a13⟩)
    (by
      rw [show k + m + 1 + nb + 1 + nf = k + m + nb + nf + 2 by omega]
      exact hend)
  rw [show k + m + 1 + nb + 1 + nf = k + m + nb + nf + 2 by omega] at hfl
  unfold LineStep
  rw [line_lexer_next src e (some T0) k m (by omega) hsp (by rw [hc]; rfl) (by rw [hc]; decide)
    (by rw [hc]; decide) (by rw [hc]; rintro ⟨-, h | h⟩ <;> contradiction), hc,
    if_neg (by decide), if_neg (by decide), if_neg (by decide), if_neg (by decide),
    slash_dispatch, line_lexer_peek, Nat.add_zero, if_neg b61]
  have hpp : prev_permits_regex (line_lexer src e (k + m + 1) (some T0)) = true := hprev
  rw [hpp, if_pos rfl]
  unfold read_regex
  dsimp only
  rw [line_lexer_source_length,
    show (line_lexer src e (k + m + 1) (some T0)).current = k + m + 1 from rfl, hloop]
  dsimp only
  unfold advance_while
  rw [line_lexer_source_length,
    show (line_lexer src e (k + m + 1 + nb + 1) (some T0)).current = k + m + 1 + nb + 1 from rfl,
    hfl]
  rw [show (line_lexer src e (k + m + nb + nf + 2) (some T0)).current = k + m + nb + nf + 2
      from rfl,
    show (line_lexer src e (k + m + nb + nf + 2) (some T0)).source = src from rfl,
    show (line_lexer src e (k + m + nb + nf + 2) (some T0)).last_was_newline = false from rfl,
    show k + m + 1 - 1 = k + m from rfl,
    show k + m + nb + nf + 2 - (k + m) = nb + nf + 2 by omega,
    finish_token_line _ _ _ _ _ _ _ _ _ (by omega)]
  exact ⟨_, rfl, rfl, by simp [token_create], rfl⟩

theorem division_tail_head (ds : List (List Nat)) :
    ∃ k k' rest, division_tail ds = k :: k' :: rest ∧ continues_operand k.1 = false := by
  cases ds with
  | nil => exact ⟨_, _, _, rfl, rfl⟩
  | cons d ds => exact ⟨_, _, _, rfl, rfl⟩

theorem Ready.expect_head {e : Option ErrorInfo} {P : Parser} {k k' : TokenType × Option (List Nat)}
    {ks : List (TokenType × Option (List Nat))} (h : Ready e P (k :: k' :: ks))
    (ty : TokenType) (hk : k.1 = ty) :
    Accepts e (parser_expect P ty) P.depth (k' :: ks) := by
  obtain ⟨T, hc, ht, -, -⟩ := h.current_some
  rw [parser_expect_ok P T ty hc (ht.trans hk)]
  exact ⟨_, rfl, h.advance_next.2, h.advance_next.1⟩

/-- The loop of `parse_multiplicative_expression` over ` / d1 / ... / dn`: it
consumes the divisions and stops at the semicolon. -/
theorem division_loop (e : Option ErrorInfo) :
    ∀ (ds : List (List Nat)) (P : Parser), Ready e P (division_tail ds) →
      Accepts e (parse_multiplicative_expression_loop (ds.length + 8) P) P.depth
        [(.TOKEN_SEMICOLON, some [59]), (.TOKEN_EOF, none)] := by
  intro ds
  induction ds with
  | nil =>
    intro P hR
    rw [show ([] : List (List Nat)).length + 8 = 7 + 1 from rfl,
      parse_multiplicative_expression_loop]
    simp only [hR.check_head, division_tail]
    exact ⟨P, by simp, rfl, hR⟩
  | cons d ds ih =>
    intro P hR
    obtain ⟨k, k', rest, hk, hcont⟩ := division_tail_head ds
    have hR' : Ready e P ((.TOKEN_DIVIDE, some [47]) :: (.TOKEN_NUMBER, some d) :: k :: k' ::
        rest) := by
      rw [← hk]; exact hR
    have h1 := hR'.advance_next
    have h2 := h1.1.advance_next
    obtain ⟨T1, hc1, ht1, -, -⟩ := h1.1.current_some
    obtain ⟨T2, hc2, ht2, -, -⟩ := h2.1.current_some
    have hop := parse_operand_atom (ds.length + 1) (parser_advance P).2 T1 T2 hc1
      (by rw [ht1]; rfl) hc2 (by rw [ht2]; exact hcont)
    rw [show (d :: ds).length + 8 = (ds.length + 1 + 7) + 1 by simp only [List.length_cons],
      parse_multiplicative_expression_loop]
    simp only [hR'.check_head, hop, Outcome.andThen]
    rw [if_pos (by decide), show ds.length + 1 + 7 = ds.length + 8 by omega]
    have := ih (parser_advance (parser_advance P).2).2 (by rw [hk]; exact h2.1)
    rw [h2.2, h1.2] at this
    exact this

/-- An initializer `d0 / d1 / ... / dn` whose first operand is an atom:
`parse_assignment_expression` consumes it and stops at the semicolon. -/
theorem parse_division (e : Option ErrorInfo) (ds : List (List Nat))
    (a : TokenType × Option (List Nat)) (P : Parser) (ha : is_atom a.1 = true)
    (hR : Ready e P (a :: division_tail ds)) :
    Accepts e (parse_assignment_expression (ds.length + 20) P) P.depth
      [(.TOKEN_SEMICOLON, some [59]), (.TOKEN_EOF, none)] := by
  obtain ⟨k, k', rest, hk, hcont⟩ := division_tail_head ds
  have hR' : Ready e P (a :: k :: k' :: rest) := by rw [← hk]; exact hR
  have h1 := hR'.advance_next
  obtain ⟨T, hc, ht, -, -⟩ := hR'.current_some
  obtain ⟨T1, hc1, ht1, -, -⟩ := h1.1.current_some
  have hop := parse_operand_atom (ds.length + 1) P T T1 hc (by rw [ht]; exact ha) hc1
    (by rw [ht1]; exact hcont)
  obtain ⟨Q, hQ, hd, hRQ⟩ := division_loop e ds (parser_advance P).2 (by rw [hk]; exact h1.1)
  have hm : parse_multiplicative_expression (ds.length + 8 + 1) P = .ret true Q := by
    rw [parse_multiplicative_expression, show ds.length + 8 = ds.length + 1 + 7 by omega, hop]
    simp only [Outcome.andThen]
    rw [show ds.length + 1 + 7 = ds.length + 8 by omega, hQ]
  obtain ⟨T', hc', ht', -, -⟩ := hRQ.current_some
  have := (expression_chain (ds.length + 8) P Q T' hm hc' (by rw [ht']; rfl)).1
  rw [show ds.length + 8 + 12 = ds.length + 20 by omega] at this
  exact ⟨Q, this, hd.trans h1.2, hRQ⟩

/-- `parse_statement` at `var`, `let` or `const` below the depth limit. -/
theorem parse_statement_declaration (f : Nat) (P : Parser) (t : Token)
    (hc : P.current_token = some t)
    (ht : t.type = .TOKEN_VAR ∨ t.type = .TOKEN_LET ∨ t.type = .TOKEN_CONST)
    (hd : ¬ P.depth + 1 > MAX_RECURSION_DEPTH) :
    parse_statement (f + 1) P =
      leave_statement (parse_variable_declaration f { P with depth := P.depth + 1 }) := by
  rw [parse_statement]
  dsimp only
  rw [if_neg hd, hc]
  dsimp only
  rcases ht with h | h | h <;> rw [h]

/-- A declaration statement `k x = d0 / d1 / ... / dn;` with `k` one of `var`,
`let`, `const`, below the recursion limit: `parse_statement` consumes it up to
and including the semicolon and restores the depth counter. -/
theorem parse_declaration_division (e : Option ErrorInfo) (ds : List (List Nat))
    (decl x eq a : TokenType × Option (List Nat)) (P : Parser)
    (hdecl : decl.1 = .TOKEN_VAR ∨ decl.1 = .TOKEN_LET ∨ decl.1 = .TOKEN_CONST)
    (hx : x.1 = .TOKEN_IDENTIFIER) (heq : eq.1 = .TOKEN_ASSIGN) (ha : is_atom a.1 = true)
    (hdepth : P.depth + 1 ≤ 1000)
    (hR : Ready e P (decl :: x :: eq :: a :: division_tail ds)) :
    Accepts e (parse_statement (ds.length + 23) P) P.depth [(.TOKEN_EOF, none)] := by
  obtain ⟨T, hc, ht, -, -⟩ := hR.current_some
  have hdecl' : Accepts e (parse_variable_declaration (ds.length + 22)
      { P with depth := P.depth + 1 }) (P.depth + 1) [(.TOKEN_EOF, none)] := by
    have hR0 : Ready e { P with depth := P.depth + 1 }
        (decl :: x :: eq :: a :: division_tail ds) := hR.with_depth _
    have h1 := hR0.advance_next
    rw [show ds.length + 22 = (ds.length + 21) + 1 by omega, parse_variable_declaration]
    refine Accepts.and_then (d := P.depth + 1) (s := eq :: a :: division_tail ds) ?_ ?_
    · have := h1.1.expect_head .TOKEN_IDENTIFIER hx
      rw [h1.2] at this
      exact this
    intro P2 hd2 hR2
    refine Accepts.and_then (d := P.depth + 1)
      (s := [(.TOKEN_SEMICOLON, some [59]), (.TOKEN_EOF, none)]) ?_ ?_
    · obtain ⟨T2, hc2, ht2, -, -⟩ := hR2.current_some
      rw [show ds.length + 21 = (ds.length + 20) + 1 by omega, parse_initializer]
      simp only [parser_match_eq P2 T2 _ hc2 (ht2.trans heq), ↓reduceIte]
      have := parse_division e ds a (parser_advance P2).2 ha hR2.advance_next.1
      rw [hR2.advance_next.2, hd2] at this
      exact this
    intro P3 hd3 hR3
    obtain ⟨T3, hc3, ht3, -, -⟩ := hR3.current_some
    refine Accepts.and_then (d := P.depth + 1)
      (s := [(.TOKEN_SEMICOLON, some [59]), (.TOKEN_EOF, none)]) ?_ ?_
    · rw [show ds.length + 21 = (ds.length + 20) + 1 by omega, parse_variable_declaration_loop]
      simp only [parser_match_ne P3 T3 .TOKEN_COMMA hc3 (by rw [ht3]; decide),
        Bool.false_eq_true, ↓reduceIte]
      exact ⟨P3, rfl, hd3, hR3⟩
    intro P4 hd4 hR4
    unfold parser_consume_semicolon
    rw [hR4.check_head, if_pos (by decide)]
    exact ⟨_, rfl, hR4.advance_next.2.trans hd4, hR4.advance_next.1⟩
  obtain ⟨Q, hQ, hdQ, hRQ⟩ := hdecl'
  have hguard : ¬ (P.depth + 1 > MAX_RECURSION_DEPTH) := by
    unfold MAX_RECURSION_DEPTH
    omega
  rw [show ds.length + 23 = (ds.length + 22) + 1 by omega,
    parse_statement_declaration _ P T hc (by rw [ht]; exact hdecl) hguard, hQ]
  refine ⟨_, rfl, ?_, hRQ.with_depth _⟩
  show Q.depth - 1 = P.depth
  omega

theorem Accepts.outcome_accepts {r : Outcome} {d : Int}
    (h : Accepts (some zeroed_error) r d [(.TOKEN_EOF, none)]) : r.accepts := by
  obtain ⟨Q, rfl, -, hR⟩ := h
  obtain ⟨T, hc, ht, -, -⟩ := hR.current_some
  refine ⟨rfl, ?_, ?_⟩
  · simp only [Outcome.error_code, hR.lexer_error]
    rfl
  · simp only [Outcome.current_type, hc, Option.map_some', ht]

theorem Feeds.line_step {src : List Nat} {e : Option ErrorInfo} {k b : Nat} {p : Option Token}
    {ty : TokenType} {v : Option (List Nat)} {ks : List (TokenType × Option (List Nat))}
    (h : LineStep src e k p b ty v)
    (hF : ∀ T, T.type = ty → Feeds e (line_lexer src e b (some T)) ks) :
    Feeds e (line_lexer src e k p) ((ty, v) :: ks) := by
  obtain ⟨T, hs, ht, hv, hn⟩ := h
  exact Feeds.of_step rfl hs ht hv hn (hF T ht)

theorem Feeds.line_end (src : List Nat) (e : Option ErrorInfo) (p : Option Token) :
    Feeds e (line_lexer src e src.length p) [(.TOKEN_EOF, none)] := by
  unfold Feeds
  rw [lexer_next_token_at_end _ (le_refl _)]
  exact ⟨rfl, ⟨rfl, rfl, rfl⟩, rfl⟩

/-- The parser that `parser_create` builds on a lexer that feeds `k :: ks` is
ready for these tokens, with depth counter 0. -/
theorem Ready.of_create {e : Option ErrorInfo} {L : Lexer} {k : TokenType × Option (List Nat)}
    {ks : List (TokenType × Option (List Nat))} (h : Feeds e L (k :: ks)) :
    Ready e (parser_create L) (k :: ks) ∧ (parser_create L).depth = 0 := by
  obtain ⟨T, L', hs, ht, hv, hn, hF⟩ := h.next_step
  unfold parser_create parser_advance
  simp only [hs]
  exact ⟨⟨⟨T, rfl, ht, hv, hn⟩, hF⟩, trivial⟩

/-- A source whose tokens are a declaration `k x = d0 / d1 / ... / dn;` is
accepted with any fuel from `n + 24` on. -/
theorem declaration_division_accepted (src : List Nat) (ds : List (List Nat))
    (decl x eq a : TokenType × Option (List Nat))
    (hdecl : decl.1 = .TOKEN_VAR ∨ decl.1 = .TOKEN_LET ∨ decl.1 = .TOKEN_CONST)
    (hx : x.1 = .TOKEN_IDENTIFIER) (heq : eq.1 = .TOKEN_ASSIGN) (ha : is_atom a.1 = true)
    (hF : Feeds (some zeroed_error) (lexer_create src (some zeroed_error))
      (decl :: x :: eq :: a :: division_tail ds)) (k : Nat) :
    (parse_javascript_string (ds.length + 24 + k) src).accepts := by
  have hR := Ready.of_create hF
  obtain ⟨T, hc, ht, -, -⟩ := hR.1.current_some
  have hA : Accepts (some zeroed_error) (parse_javascript_string (ds.length + 24) src) 0
      [(.TOKEN_EOF, none)] := by
    unfold parse_javascript_string parser_parse
    dsimp only
    rw [show (⟨.ERROR_NONE, ⟨0, 0, 0⟩, []⟩ : ErrorInfo) = zeroed_error from rfl, hc]
    dsimp only
    unfold parse_program
    have hR0 : Ready (some zeroed_error)
        { parser_create (lexer_create src (some zeroed_error)) with depth := 0 }
        (decl :: x :: eq :: a :: division_tail ds) := hR.1.with_depth 0
    rw [show ds.length + 24 = (ds.length + 23) + 1 by omega,
      parse_statement_list_go _
        { parser_create (lexer_create src (some zeroed_error)) with depth := 0 } T hc (by
        rw [ht]
        rcases hdecl with h | h | h <;> rw [h] <;> decide)]
    refine Accepts.and_then (d := 0) (s := [(.TOKEN_EOF, none)]) ?_ ?_
    · exact parse_declaration_division _ ds decl x eq a _ hdecl hx heq ha
        (show (0 : Int) + 1 ≤ 1000 by omega) hR0
    · intro Q hd hRQ
      obtain ⟨T', hc', ht', -, -⟩ := hRQ.current_some
      rw [show ds.length + 23 = (ds.length + 22) + 1 by omega,
        parse_statement_list_stop _ Q T' hc' (Or.inl ht')]
      exact ⟨Q, rfl, hd, hRQ⟩
  have hacc := hA.outcome_accepts
  rw [parse_javascript_string_fuel _ k src true hacc.1]
  exact hacc

theorem getD_append_offset (pre rest : List Nat) (j : Nat) :
    (pre ++ rest).getD (pre.length + j) 0 = rest.getD j 0 := by
  rw [List.getD_append_right _ _ _ _ (Nat.le_add_right _ _), Nat.add_sub_cancel_left]

theorem getD_of_forall_mem (l : List Nat) (q : Nat → Prop) (h : ∀ x ∈ l, q x) (j : Nat)
    (hj : j < l.length) : q (l.getD j 0) := by
  rw [List.getD_eq_getElem _ _ hj]
  exact h _ (List.getElem_mem _)

theorem slice_mid (pre mid rest : List Nat) :
    ((pre ++ (mid ++ rest)).drop pre.length).take mid.length = mid := by
  simp

theorem is_keyword_take (str : List Nat) (len : Nat) :
    is_keyword str len = is_keyword (str.take len) len := by
  unfold is_keyword
  induction keywords with
  | nil => rfl
  | cons p rest ih =>
    obtain ⟨kw, t⟩ := p
    simp only [is_keyword_scan, List.take_take, min_self, ih]

theorem LineStep.recast {src : List Nat} {e : Option ErrorInfo} {k b b' : Nat} {p : Option Token}
    {ty ty' : TokenType} {v v' : Option (List Nat)} (h : LineStep src e k p b ty v)
    (hb : b = b') (hty : ty = ty') (hv : v = v') : LineStep src e k p b' ty' v' := by
  subst hb hty hv
  exact h

/-- The first three tokens of a source that starts with `var a = `. -/
theorem feeds_var_a (e : Option ErrorInfo) (rest : List Nat)
    (ks : List (TokenType × Option (List Nat)))
    (hrest : ∀ T0, T0.type = .TOKEN_ASSIGN →
      Feeds e (line_lexer (cstr "var a = " ++ rest) e 7 (some T0)) ks) :
    Feeds e (lexer_create (cstr "var a = " ++ rest) e)
      ((.TOKEN_VAR, some (cstr "var")) :: (.TOKEN_IDENTIFIER, some (cstr "a")) ::
        (.TOKEN_ASSIGN, some [61]) :: ks) := by
  have hb : ∀ i, i < 8 → (cstr "var a = " ++ rest).getD i 0 = (cstr "var a = ").getD i 0 :=
    fun i hi => List.getD_append _ _ _ _ hi
  have hlen : (cstr "var a = " ++ rest).length = 8 + rest.length := by
    rw [List.length_append]; rfl
  have hsl : ∀ a n, a + n ≤ 8 →
      ((cstr "var a = " ++ rest).drop a).take n = ((cstr "var a = ").drop a).take n := by
    intro a n h
    rw [List.drop_append_of_le_length (by show a ≤ 8; omega),
      List.take_append_of_le_length (by
        rw [List.length_drop]
        show n ≤ 8 - a
        omega)]
  have s1 : LineStep (cstr "var a = " ++ rest) e 0 none 3 .TOKEN_VAR (some (cstr "var")) := by
    refine (line_identifier _ e none 0 0 3 (by decide) (by rw [hlen]; omega)
      (fun i h1 h2 => by omega) (by rw [hb _ (by decide)]; rfl)
      (fun i h1 h2 => by
        rw [hb i (by omega)]
        have : i = 1 ∨ i = 2 := by omega
        rcases this with rfl | rfl <;> exact Or.inl rfl)
      (fun _ => by rw [hb _ (by decide)]; exact ⟨rfl, by decide⟩)).recast rfl ?_ ?_
    · rw [is_keyword_take, hsl 0 3 (by decide)]; rfl
    · rw [hsl 0 3 (by decide)]; rfl
  have s2 : ∀ p, LineStep (cstr "var a = " ++ rest) e 3 p 5 .TOKEN_IDENTIFIER
      (some (cstr "a")) := by
    intro p
    refine (line_identifier _ e p 3 1 1 (by decide) (by rw [hlen]; omega)
      (fun i h1 h2 => by
        have : i = 3 := by omega
        subst this
        rw [hb _ (by decide)]; rfl)
      (by rw [hb _ (by decide)]; rfl)
      (fun i h1 h2 => by omega)
      (fun _ => by rw [hb _ (by decide)]; exact ⟨rfl, by decide⟩)).recast rfl ?_ ?_
    · rw [is_keyword_take, hsl 4 1 (by decide)]; rfl
    · rw [hsl 4 1 (by decide)]; rfl
  have s3 : ∀ p, LineStep (cstr "var a = " ++ rest) e 5 p 7 .TOKEN_ASSIGN (some [61]) := by
    intro p
    exact line_assign _ e p 5 1 (by rw [hlen]; omega)
      (fun i h1 h2 => by
        have : i = 5 := by omega
        subst this
        rw [hb _ (by decide)]; rfl)
      (by rw [hb _ (by decide)]; rfl)
      (by rw [hb _ (by decide)]; decide) (by rw [hb _ (by decide)]; decide)
  exact Feeds.line_step s1 fun T1 _ => Feeds.line_step (s2 _) fun T2 _ => Feeds.line_step (s3 _) hrest

theorem Feeds.lex_lexemes_eq {e : Option ErrorInfo} :
    ∀ (ks : List (TokenType × Option (List Nat))) (L : Lexer), Feeds e L ks →
      lex_lexemes ks.length L = ks.map some := by
  intro ks
  induction ks with
  | nil => intro L _; rfl
  | cons k ks ih =>
    intro L h
    obtain ⟨T, L', hs, ht, hv, -, hF⟩ := h.next_step
    simp only [List.length_cons, lex_lexemes, hs, Option.map_some', ht, hv, ih L' hF,
      List.map_cons]

/-- The tokens of `/body/flags;` after `var a =`. -/
theorem feeds_regex_tail (e : Option ErrorInfo) (body flags : List Nat) (hne : body ≠ [])
    (hbody : ∀ x ∈ body, isalpha x = true ∨ isdigit x = true)
    (hflags : ∀ x ∈ flags, isalpha x = true) (T0 : Token) (hT0 : T0.type = .TOKEN_ASSIGN) :
    Feeds e (line_lexer (cstr "var a = " ++ (([47] ++ body ++ [47] ++ flags) ++ [59])) e 7
        (some T0))
      [(.TOKEN_REGEX, some ([47] ++ body ++ [47] ++ flags)), (.TOKEN_SEMICOLON, some [59]),
        (.TOKEN_EOF, none)] := by
  have hnb : 0 < body.length := List.length_pos.mpr hne
  have hlen : (cstr "var a = " ++ (([47] ++ body ++ [47] ++ flags) ++ [59])).length =
      11 + body.length + flags.length := by
    simp only [List.length_append, List.length_singleton]
    rw [show (cstr "var a = ").length = 8 from rfl]
    omega
  have hb : ∀ i, i < 8 →
      (cstr "var a = " ++ (([47] ++ body ++ [47] ++ flags) ++ [59])).getD i 0 =
        (cstr "var a = ").getD i 0 := fun i hi => List.getD_append _ _ _ _ hi
  have e1 : cstr "var a = " ++ (([47] ++ body ++ [47] ++ flags) ++ [59]) =
      cstr "var a = " ++ (47 :: (body ++ (47 :: (flags ++ [59])))) := by
    simp
  have e2 : cstr "var a = " ++ (([47] ++ body ++ [47] ++ flags) ++ [59]) =
      (cstr "var a = " ++ [47]) ++ (body ++ (47 :: (flags ++ [59]))) := by
    simp
  have e3 : cstr "var a = " ++ (([47] ++ body ++ [47] ++ flags) ++ [59]) =
      (cstr "var a = " ++ [47] ++ body) ++ (47 :: (flags ++ [59])) := by
    simp
  have e4 : cstr "var a = " ++ (([47] ++ body ++ [47] ++ flags) ++ [59]) =
      (cstr "var a = " ++ [47] ++ body ++ [47]) ++ (flags ++ [59]) := by
    simp
  have e5 : cstr "var a = " ++ (([47] ++ body ++ [47] ++ flags) ++ [59]) =
      (cstr "var a = " ++ [47] ++ body ++ [47] ++ flags) ++ [59] := by
    simp
  have l2 : (cstr "var a = " ++ [47]).length = 9 := rfl
  have l3 : (cstr "var a = " ++ [47] ++ body).length = 9 + body.length := by
    rw [List.length_append, l2]
  have l4 : (cstr "var a = " ++ [47] ++ body ++ [47]).length = 10 + body.length := by
    rw [List.length_append, l3, List.length_singleton]; omega
  have l5 : (cstr "var a = " ++ [47] ++ body ++ [47] ++ flags).length =
      10 + body.length + flags.length := by
    rw [List.length_append, l4]
  have b1 : (cstr "var a = " ++ (([47] ++ body ++ [47] ++ flags) ++ [59])).getD 8 0 = 47 := by
    rw [e1]
    exact getD_append_offset (cstr "var a = ") _ 0
  have b2 : ∀ j, j < body.length →
      (cstr "var a = " ++ (([47] ++ body ++ [47] ++ flags) ++ [59])).getD (9 + j) 0 =
        body.getD j 0 := by
    intro j hj
    rw [e2, ← l2, getD_append_offset, List.getD_append _ _ _ _ hj]
  have b3 : (cstr "var a = " ++ (([47] ++ body ++ [47] ++ flags) ++ [59])).getD
      (9 + body.length) 0 = 47 := by
    rw [e3, ← l3]
    exact getD_append_offset _ _ 0
  have b4 : ∀ j, j < flags.length →
      (cstr "var a = " ++ (([47] ++ body ++ [47] ++ flags) ++ [59])).getD
        (10 + body.length + j) 0 = flags.getD j 0 := by
    intro j hj
    rw [e4, ← l4, getD_append_offset, List.getD_append _ _ _ _ hj]
  have b5 : (cstr "var a = " ++ (([47] ++ body ++ [47] ++ flags) ++ [59])).getD
      (10 + body.length + flags.length) 0 = 59 := by
    rw [e5, ← l5]
    exact getD_append_offset _ _ 0
  have s1 : LineStep (cstr "var a = " ++ (([47] ++ body ++ [47] ++ flags) ++ [59])) e 7
      (some T0) (10 + body.length + flags.length) .TOKEN_REGEX
      (some ([47] ++ body ++ [47] ++ flags)) := by
    refine (line_regex _ e T0 7 1 body.length flags.length hnb (by rw [hlen]; omega)
      (fun i h1 h2 => by
        have : i = 7 := by omega
        subst this
        rw [hb _ (by decide)]; rfl)
      b1
      (fun i h1 h2 => by
        obtain ⟨j, rfl⟩ : ∃ j, i = 9 + j := ⟨i - 9, by omega⟩
        rw [b2 j (by omega)]
        exact getD_of_forall_mem body _ hbody j (by omega))
      (by rw [show 7 + 1 + 1 + body.length = 9 + body.length by omega]; exact b3)
      (fun i h1 h2 => by
        obtain ⟨j, rfl⟩ : ∃ j, i = 10 + body.length + j := ⟨i - (10 + body.length), by omega⟩
        rw [b4 j (by omega)]
        exact getD_of_forall_mem flags _ hflags j (by omega))
      (fun _ => by
        rw [show 7 + 1 + body.length + flags.length + 2 = 10 + body.length + flags.length
          by omega, b5]
        rfl)
      (by rw [hT0]; rfl)).recast (by omega) rfl ?_
    have := slice_mid (cstr "var a = ") ([47] ++ body ++ [47] ++ flags) [59]
    rw [show (cstr "var a = ").length = 8 from rfl] at this
    rw [show 7 + 1 = 8 from rfl, show body.length + flags.length + 2 =
      ([47] ++ body ++ [47] ++ flags).length by
        simp only [List.length_append, List.length_singleton]; omega, this]
  have s2 : ∀ p, LineStep (cstr "var a = " ++ (([47] ++ body ++ [47] ++ flags) ++ [59])) e
      (10 + body.length + flags.length) p
      (cstr "var a = " ++ (([47] ++ body ++ [47] ++ flags) ++ [59])).length
      .TOKEN_SEMICOLON (some [59]) := by
    intro p
    refine (line_punct _ e p (10 + body.length + flags.length) 0 .TOKEN_SEMICOLON
      (by rw [hlen]; omega) (fun i h1 h2 => by omega)
      (by rw [Nat.add_zero, b5]; decide) (by rw [Nat.add_zero, b5]; rfl)).recast
      (by rw [hlen]; omega) rfl (by rw [Nat.add_zero, b5])
  exact Feeds.line_step s1 fun T1 _ => Feeds.line_step (s2 _) fun T2 _ => Feeds.line_end _ _ _

theorem division_source_tail_head (ds : List (List Nat)) :
    ∃ c rest, division_source_tail ds = c :: rest ∧ (c = 32 ∨ c = 59) := by
  cases ds with
  | nil => exact ⟨59, [], rfl, Or.inr rfl⟩
  | cons d ds => exact ⟨32, _, rfl, Or.inl rfl⟩

/-- The tokens of ` / d1 / ... / dn;` after a number. -/
theorem feeds_division_tail (e : Option ErrorInfo) :
    ∀ (ds : List (List Nat)) (pre : List Nat) (T0 : Token), (∀ d ∈ ds, is_decimal d) →
      T0.type = .TOKEN_NUMBER →
      Feeds e (line_lexer (pre ++ division_source_tail ds) e pre.length (some T0))
        (division_tail ds) := by
  intro ds
  induction ds with
  | nil =>
    intro pre T0 _ _
    have hlen : (pre ++ division_source_tail []).length = pre.length + 1 := by
      simp [division_source_tail]
    have b0 : (pre ++ division_source_tail []).getD pre.length 0 = 59 :=
      getD_append_offset pre _ 0
    have s1 : LineStep (pre ++ division_source_tail []) e pre.length (some T0)
        (pre ++ division_source_tail []).length .TOKEN_SEMICOLON (some [59]) := by
      refine (line_punct _ e (some T0) pre.length 0 .TOKEN_SEMICOLON
        (by rw [hlen]; omega) (fun i h1 h2 => by omega)
        (by rw [Nat.add_zero, b0]; decide) (by rw [Nat.add_zero, b0]; rfl)).recast
        (by rw [hlen]) rfl (by rw [Nat.add_zero, b0])
    exact Feeds.line_step s1 fun T1 _ => Feeds.line_end _ _ _
  | cons d ds ih =>
    intro pre T0 hds hT0
    obtain ⟨hdne, hdig⟩ := hds d (List.mem_cons_self _ _)
    have hnd : 0 < d.length := List.length_pos.mpr hdne
    obtain ⟨c, rest, hc, hc2⟩ := division_source_tail_head ds
    have e0 : pre ++ division_source_tail (d :: ds) =
        pre ++ (32 :: 47 :: 32 :: (d ++ division_source_tail ds)) := by
      simp [division_source_tail]
    have e1 : pre ++ division_source_tail (d :: ds) =
        (pre ++ [32, 47, 32]) ++ (d ++ division_source_tail ds) := by
      simp [division_source_tail]
    have e2 : pre ++ division_source_tail (d :: ds) =
        (pre ++ [32, 47, 32] ++ d) ++ division_source_tail ds := by
      simp [division_source_tail]
    have l1 : (pre ++ [32, 47, 32]).length = pre.length + 3 := by simp
    have l2 : (pre ++ [32, 47, 32] ++ d).length = pre.length + 3 + d.length := by
      rw [List.length_append, l1]
    have hlen : (pre ++ division_source_tail (d :: ds)).length =
        pre.length + 3 + d.length + (division_source_tail ds).length := by
      rw [e2, List.length_append, l2]
    have hpos : 0 < (division_source_tail ds).length := by rw [hc]; simp
    have b0 : (pre ++ division_source_tail (d :: ds)).getD pre.length 0 = 32 := by
      rw [e0]; exact getD_append_offset pre _ 0
    have b1 : (pre ++ division_source_tail (d :: ds)).getD (pre.length + 1) 0 = 47 := by
      rw [e0]; exact getD_append_offset pre _ 1
    have b2 : (pre ++ division_source_tail (d :: ds)).getD (pre.length + 2) 0 = 32 := by
      rw [e0]; exact getD_append_offset pre _ 2
    have b3 : ∀ j, j < d.length →
        (pre ++ division_source_tail (d :: ds)).getD (pre.length + 3 + j) 0 = d.getD j 0 := by
      intro j hj
      rw [e1, ← l1, getD_append_offset, List.getD_append _ _ _ _ hj]
    have b4 : (pre ++ division_source_tail (d :: ds)).getD (pre.length + 3 + d.length) 0 =
        c := by
      rw [e2, ← l2, hc]
      exact getD_append_offset _ _ 0
    have s1 : LineStep (pre ++ division_source_tail (d :: ds)) e pre.length (some T0)
        (pre.length + 2) .TOKEN_DIVIDE (some [47]) := by
      exact line_divide _ e T0 pre.length 1 (by rw [hlen]; omega)
        (fun i h1 h2 => by
          have : i = pre.length := by omega
          subst this
          exact b0)
        b1 (by rw [b2]; decide) (by rw [b2]; decide) (by rw [b2]; decide) (by rw [hT0]; rfl)
    have s2 : ∀ p, LineStep (pre ++ division_source_tail (d :: ds)) e (pre.length + 2) p
        (pre ++ [32, 47, 32] ++ d).length .TOKEN_NUMBER (some d) := by
      intro p
      refine (line_number _ e p (pre.length + 2) 1 d.length hnd (by rw [hlen]; omega)
        (fun i h1 h2 => by
          have : i = pre.length + 2 := by omega
          subst this
          exact b2)
        (fun i h1 h2 => by
          obtain ⟨j, rfl⟩ : ∃ j, i = pre.length + 3 + j := ⟨i - (pre.length + 3), by omega⟩
          rw [b3 j (by omega)]
          exact getD_of_forall_mem d _ hdig j (by omega))
        (by
          rw [show pre.length + 2 + 1 + d.length = pre.length + 3 + d.length by omega, b4]
          exact hc2)).recast (by rw [l2]) rfl ?_
      have := slice_mid (pre ++ [32, 47, 32]) d (division_source_tail ds)
      rw [l1, ← e1] at this
      rw [show pre.length + 2 + 1 = pre.length + 3 by omega, this]
    refine Feeds.line_step s1 fun T1 _ => Feeds.line_step (s2 _) fun T2 hT2 => ?_
    have := ih (pre ++ [32, 47, 32] ++ d) T2 (fun d' hd' => hds d' (List.mem_cons_of_mem _ hd'))
      hT2
    rw [← e2] at this
    exact this

theorem division_tail_length (ds : List (List Nat)) :
    (division_tail ds).length = 2 * ds.length + 2 := by
  induction ds with
  | nil => rfl
  | cons d ds ih => simp only [division_tail, List.length_cons, ih]; omega

theorem division_tail_kinds (ds : List (List Nat)) :
    ∀ x ∈ division_tail ds, x = (.TOKEN_DIVIDE, some [47]) ∨ x.1 = .TOKEN_NUMBER ∨
      x = (.TOKEN_SEMICOLON, some [59]) ∨ x = (.TOKEN_EOF, none) := by
  induction ds with
  | nil =>
    intro x hx
    simp only [division_tail, List.mem_cons, List.mem_singleton, List.not_mem_nil,
      or_false] at hx
    rcases hx with rfl | rfl
    · exact Or.inr (Or.inr (Or.inl rfl))
    · exact Or.inr (Or.inr (Or.inr rfl))
  | cons d ds ih =>
    intro x hx
    simp only [division_tail, List.mem_cons] at hx
    rcases hx with rfl | rfl | hx
    · exact Or.inl rfl
    · exact Or.inr (Or.inl rfl)
    · exact ih x hx

/-- C23 (scenario 4). For every non-empty body of ASCII letters and digits and
every string of ASCII letters as flags, the source `var a = /body/flags;`
tokenizes as `var`, the identifier `a`, `=`, one `REGEX` token whose lexeme is
`/body/flags`, `;` and `EOF`, and it is accepted (success, no diagnostic, the
whole input consumed) with any fuel from 24 on. -/
theorem regex_literal_scenario (body flags : List Nat) (hne : body ≠ [])
    (hbody : ∀ x ∈ body, isalpha x = true ∨ isdigit x = true)
    (hflags : ∀ x ∈ flags, isalpha x = true) (k : Nat) :
    lex_lexemes 6 (lexer_create (regex_source body flags) (some zeroed_error)) =
      [some (.TOKEN_VAR, some (cstr "var")), some (.TOKEN_IDENTIFIER, some (cstr "a")),
        some (.TOKEN_ASSIGN, some (cstr "=")),
        some (.TOKEN_REGEX, some ([47] ++ body ++ [47] ++ flags)),
        some (.TOKEN_SEMICOLON, some (cstr ";")), some (.TOKEN_EOF, none)] ∧
    (parse_javascript_string (24 + k) (regex_source body flags)).accepts := by
  have hsrc : regex_source body flags =
      cstr "var a = " ++ (([47] ++ body ++ [47] ++ flags) ++ [59]) := by
    unfold regex_source
    rw [List.append_assoc]
  have hF : Feeds (some zeroed_error) (lexer_create (regex_source body flags) (some zeroed_error))
      ((.TOKEN_VAR, some (cstr "var")) :: (.TOKEN_IDENTIFIER, some (cstr "a")) ::
        (.TOKEN_ASSIGN, some [61]) :: (.TOKEN_REGEX, some ([47] ++ body ++ [47] ++ flags)) ::
        division_tail []) := by
    rw [hsrc]
    exact feeds_var_a _ _ _ (feeds_regex_tail _ body flags hne hbody hflags)
  refine ⟨hF.lex_lexemes_eq _ _, ?_⟩
  have := declaration_division_accepted (regex_source body flags) []
    (.TOKEN_VAR, some (cstr "var")) (.TOKEN_IDENTIFIER, some (cstr "a"))
    (.TOKEN_ASSIGN, some [61]) (.TOKEN_REGEX, some ([47] ++ body ++ [47] ++ flags))
    (Or.inl rfl) rfl rfl rfl hF k
  rw [show ([] : List (List Nat)).length + 24 + k = 24 + k from rfl] at this
  exact this

theorem regex_literal_scenario_witness :
    lex_lexemes 6 (lexer_create (regex_source (cstr "abc") (cstr "gi")) (some zeroed_error)) =
      [some (.TOKEN_VAR, some (cstr "var")), some (.TOKEN_IDENTIFIER, some (cstr "a")),
        some (.TOKEN_ASSIGN, some (cstr "=")),
        some (.TOKEN_REGEX, some ([47] ++ cstr "abc" ++ [47] ++ cstr "gi")),
        some (.TOKEN_SEMICOLON, some (cstr ";")), some (.TOKEN_EOF, none)] ∧
    (parse_javascript_string (24 + 0) (regex_source (cstr "abc") (cstr "gi"))).accepts :=
  regex_literal_scenario (cstr "abc") (cstr "gi") (by decide) (by decide) (by decide) 0

/-- C24 (scenario 5). For every sequence of decimal integer literals `d0`, `d1`,
..., `dn` the source `var a = d0 / d1 / ... / dn;` tokenizes as `var`, the
identifier `a`, `=`, the number `d0`, then for each further literal a `DIVIDE`
token `/` and the number, then `;` and `EOF` (no slash starts a `REGEX` token),
and it is accepted (success, no diagnostic, the whole input consumed) with any
fuel from `n + 24` on. -/
theorem division_chain_scenario (d0 : List Nat) (ds : List (List Nat)) (h0 : is_decimal d0)
    (hds : ∀ d ∈ ds, is_decimal d) (k : Nat) :
    lex_lexemes (2 * ds.length + 6)
        (lexer_create (division_source d0 ds) (some zeroed_error)) =
      ((.TOKEN_VAR, some (cstr "var")) :: (.TOKEN_IDENTIFIER, some (cstr "a")) ::
        (.TOKEN_ASSIGN, some (cstr "=")) :: (.TOKEN_NUMBER, some d0) ::
        division_tail ds).map some ∧
    (∀ x ∈ division_tail ds, x = (.TOKEN_DIVIDE, some (cstr "/")) ∨ x.1 = .TOKEN_NUMBER ∨
      x = (.TOKEN_SEMICOLON, some (cstr ";")) ∨ x = (.TOKEN_EOF, none)) ∧
    (parse_javascript_string (ds.length + 24 + k) (division_source d0 ds)).accepts := by
  obtain ⟨h0ne, h0dig⟩ := h0
  have hnd : 0 < d0.length := List.length_pos.mpr h0ne
  obtain ⟨c, rest, hc, hc2⟩ := division_source_tail_head ds
  have e1 : division_source d0 ds = cstr "var a = " ++ (d0 ++ division_source_tail ds) := by
    unfold division_source
    rw [List.append_assoc]
  have e2 : cstr "var a = " ++ (d0 ++ division_source_tail ds) =
      (cstr "var a = " ++ d0) ++ division_source_tail ds := by
    rw [List.append_assoc]
  have l2 : (cstr "var a = " ++ d0).length = 8 + d0.length := by
    rw [List.length_append]; rfl
  have hlen : (cstr "var a = " ++ (d0 ++ division_source_tail ds)).length =
      8 + d0.length + (division_source_tail ds).length := by
    rw [e2, List.length_append, l2]
  have hpos : 0 < (division_source_tail ds).length := by rw [hc]; simp
  have b7 : (cstr "var a = " ++ (d0 ++ division_source_tail ds)).getD 7 0 = 32 :=
    (List.getD_append _ _ _ _ (by decide)).trans rfl
  have b8 : ∀ j, j < d0.length →
      (cstr "var a = " ++ (d0 ++ division_source_tail ds)).getD (8 + j) 0 = d0.getD j 0 := by
    intro j hj
    rw [show 8 = (cstr "var a = ").length from rfl, getD_append_offset,
      List.getD_append _ _ _ _ hj]
  have b9 : (cstr "var a = " ++ (d0 ++ division_source_tail ds)).getD (8 + d0.length) 0 =
      c := by
    rw [e2, ← l2, hc]
    exact getD_append_offset _ _ 0
  have s1 : ∀ p, LineStep (cstr "var a = " ++ (d0 ++ division_source_tail ds))
      (some zeroed_error) 7 p (cstr "var a = " ++ d0).length .TOKEN_NUMBER (some d0) := by
    intro p
    refine (line_number _ _ p 7 1 d0.length hnd (by rw [hlen]; omega)
      (fun i h1 h2 => by
        have : i = 7 := by omega
        subst this
        exact b7)
      (fun i h1 h2 => by
        obtain ⟨j, rfl⟩ : ∃ j, i = 8 + j := ⟨i - 8, by omega⟩
        rw [b8 j (by omega)]
        exact getD_of_forall_mem d0 _ h0dig j (by omega))
      (by
        rw [show 7 + 1 + d0.length = 8 + d0.length by omega, b9]
        exact hc2)).recast (by rw [l2]) rfl ?_
    have := slice_mid (cstr "var a = ") d0 (division_source_tail ds)
    rw [show (cstr "var a = ").length = 8 from rfl] at this
    rw [show 7 + 1 = 8 from rfl, this]
  have hF : Feeds (some zeroed_error)
      (lexer_create (division_source d0 ds) (some zeroed_error))
      ((.TOKEN_VAR, some (cstr "var")) :: (.TOKEN_IDENTIFIER, some (cstr "a")) ::
        (.TOKEN_ASSIGN, some [61]) :: (.TOKEN_NUMBER, some d0) :: division_tail ds) := by
    rw [e1]
    refine feeds_var_a _ _ _ fun T0 _ => Feeds.line_step (s1 _) fun T1 hT1 => ?_
    have := feeds_division_tail (some zeroed_error) ds (cstr "var a = " ++ d0) T1 hds hT1
    rw [← e2] at this
    exact this
  refine ⟨?_, division_tail_kinds ds, ?_⟩
  · have := hF.lex_lexemes_eq _ _
    rw [show ((.TOKEN_VAR, some (cstr "var")) :: (.TOKEN_IDENTIFIER, some (cstr "a")) ::
        (.TOKEN_ASSIGN, some [61]) :: (.TOKEN_NUMBER, some d0) :: division_tail ds).length =
        2 * ds.length + 6 by
      simp only [List.length_cons, division_tail_length]] at this
    exact this
  · exact declaration_division_accepted (division_source d0 ds) ds
      (.TOKEN_VAR, some (cstr "var")) (.TOKEN_IDENTIFIER, some (cstr "a"))
      (.TOKEN_ASSIGN, some [61]) (.TOKEN_NUMBER, some d0) (Or.inl rfl) rfl rfl rfl hF k

theorem division_chain_scenario_witness :
    lex_lexemes (2 * [cstr "2", cstr "3"].length + 6)
        (lexer_create (division_source (cstr "1") [cstr "2", cstr "3"]) (some zeroed_error)) =
      ((.TOKEN_VAR, some (cstr "var")) :: (.TOKEN_IDENTIFIER, some (cstr "a")) ::
        (.TOKEN_ASSIGN, some (cstr "=")) :: (.TOKEN_NUMBER, some (cstr "1")) ::
        division_tail [cstr "2", cstr "3"]).map some ∧
    (parse_javascript_string ([cstr "2", cstr "3"].length + 24 + 0)
      (division_source (cstr "1") [cstr "2", cstr "3"])).accepts :=
  have h := division_chain_scenario (cstr "1") [cstr "2", cstr "3"] ⟨by decide, by decide⟩
    (by
      intro d hd
      simp only [List.mem_cons, List.mem_singleton, List.not_mem_nil, or_false] at hd
      rcases hd with rfl | rfl <;> exact ⟨by decide, by decide⟩) 0
  ⟨h.1, h.2.2⟩

/-! ## Successful calls only advance the token stream -/

theorem advance_times_add (i j : Nat) (P : Parser) :
    advance_times (i + j) P = advance_times j (advance_times i P) := by
  induction i generalizing P with
  | zero => simp [advance_times]
  | succ i ih =>
    rw [Nat.succ_add]
    exact ih _

theorem advance_times_succ (j : Nat) (P : Parser) :
    advance_times (j + 1) P = (parser_advance (advance_times j P)).2 := by
  rw [advance_times_add]
  rfl

theorem parser_advance_snd (P : Parser) :
    (parser_advance P).2 =
      { lexer := (lexer_next_token P.lexer).2, current_token := (lexer_next_token P.lexer).1,
        prev_token := (match P.current_token with
          | some t => some t
          | none => P.prev_token),
        asi_allowed := P.asi_allowed, depth := P.depth } := by
  unfold parser_advance
  cases hc : P.current_token <;> dsimp only <;> split <;> rfl

theorem parser_advance_depth (P : Parser) : (parser_advance P).2.depth = P.depth := by
  rw [parser_advance_snd]

theorem parser_advance_with_depth (P : Parser) (d : Int) :
    (parser_advance { P with depth := d }).2 = { (parser_advance P).2 with depth := d } := by
  rw [parser_advance_snd, parser_advance_snd]

theorem advance_times_depth (j : Nat) (P : Parser) : (advance_times j P).depth = P.depth := by
  induction j generalizing P with
  | zero => rfl
  | succ j ih => rw [advance_times, ih, parser_advance_depth]

theorem advance_times_with_depth (j : Nat) (P : Parser) (d : Int) :
    advance_times j { P with depth := d } = { advance_times j P with depth := d } := by
  induction j generalizing P with
  | zero => rfl
  | succ j ih => rw [advance_times, advance_times, parser_advance_with_depth, ih]

theorem Reach.here (P : Parser) : Reach P P := ⟨0, rfl⟩

theorem Reach.then_reach {P Q R : Parser} (h1 : Reach P Q) (h2 : Reach Q R) : Reach P R := by
  obtain ⟨i, rfl⟩ := h1
  obtain ⟨j, rfl⟩ := h2
  exact ⟨i + j, (advance_times_add i j P).symm⟩

theorem Reach.step_advance {P Q : Parser} (h : Reach P Q) : Reach P (parser_advance Q).2 := by
  obtain ⟨j, rfl⟩ := h
  exact ⟨j + 1, (advance_times_succ j P).symm⟩

theorem Reach.step_match {P Q : Parser} {ty : TokenType} (h : Reach P Q) :
    Reach P (parser_match Q ty).2 := by
  unfold parser_match
  split
  · exact h.step_advance
  · exact h

theorem Reach.ite_state {P : Parser} {c : Prop} [Decidable c] {A B : Parser} (h1 : Reach P A)
    (h2 : Reach P B) : Reach P (if c then A else B) := by
  split
  · exact h1
  · exact h2

theorem Reach.ite_snd {P : Parser} {c : Prop} [Decidable c] {A B : Bool × Parser}
    (h1 : Reach P A.2) (h2 : Reach P B.2) : Reach P (if c then A else B).2 := by
  split
  · exact h1
  · exact h2

theorem Reach.depth_eq {P Q : Parser} (h : Reach P Q) : Q.depth = P.depth := by
  obtain ⟨j, rfl⟩ := h
  exact advance_times_depth j P

theorem Steps.ret_true {P Q : Parser} (h : Reach P Q) : Steps P (.ret true Q) := by
  constructor
  intro Q' hQ
  cases hQ
  exact h

theorem Steps.failure (P Q : Parser) : Steps P (.ret false Q) := by
  constructor
  intro Q' hQ
  cases hQ

theorem Steps.crash (P Q : Parser) : Steps P (.null_deref Q) := by
  constructor
  intro Q' hQ
  cases hQ

theorem Steps.no_fuel (P : Parser) : Steps P .out_of_fuel := by
  constructor
  intro Q' hQ
  cases hQ

theorem Steps.call {P P' : Parser} {r : Outcome} (hf : Steps P' r) (h : Reach P P') :
    Steps P r := ⟨fun Q hQ => h.then_reach (hf.reach Q hQ)⟩

theorem Steps.andThen_steps {P : Parser} {r : Outcome} {k : Parser → Outcome} (h1 : Steps P r)
    (h2 : ∀ P1, Reach P P1 → Steps P (k P1)) : Steps P (r.andThen k) := by
  constructor
  intro Q hQ
  cases r with
  | out_of_fuel => cases hQ
  | null_deref P1 => cases hQ
  | ret b P1 =>
    cases b with
    | false => cases hQ
    | true => exact (h2 P1 (h1.reach P1 rfl)).reach Q hQ

theorem Steps.ite_steps {P : Parser} {c : Prop} [Decidable c] {a b : Outcome} (h1 : Steps P a)
    (h2 : Steps P b) : Steps P (if c then a else b) := by
  split
  · exact h1
  · exact h2

theorem Steps.with_current_steps {P P' : Parser} {k : Token → Outcome}
    (hk : ∀ t, Steps P (k t)) : Steps P (with_current P' k) := by
  unfold JSC.with_current
  split
  · exact hk _
  · exact Steps.crash _ _

theorem parser_expect_steps (P : Parser) (ty : TokenType) : Steps P (parser_expect P ty) := by
  unfold parser_expect
  split
  · exact Steps.ret_true (Reach.here P).step_advance
  · dsimp only
    split
    · exact Steps.failure _ _
    · split
      · exact Steps.failure _ _
      · exact Steps.crash _ _

theorem parser_consume_semicolon_steps (P : Parser) : Steps P (parser_consume_semicolon P) := by
  unfold parser_consume_semicolon
  split
  · exact Steps.ret_true (Reach.here P).step_advance
  · split
    · exact Steps.ret_true (Reach.here P)
    · exact Steps.with_current_steps fun t => Steps.failure _ _

theorem skip_until_loop_steps (stop : TokenType) (n : Nat) (P : Parser) :
    Steps P (skip_until_loop stop n P) := by
  induction n generalizing P with
  | zero => exact Steps.no_fuel _
  | succ n ih =>
    unfold skip_until_loop
    split
    · exact Steps.call (ih _) (Reach.here P).step_advance
    · exact Steps.ret_true (Reach.here P)

theorem identifier_list_loop_steps (n : Nat) (P : Parser) :
    Steps P (identifier_list_loop n P) := by
  induction n generalizing P with
  | zero => exact Steps.no_fuel _
  | succ n ih =>
    unfold identifier_list_loop
    dsimp only
    split
    · refine Steps.andThen_steps (Steps.call (parser_expect_steps _ _) (Reach.here P).step_match) ?_
      intro P1 h1
      exact Steps.call (ih _) h1
    · exact Steps.ret_true (Reach.here P).step_match

theorem leave_statement_steps {P : Parser} {r : Outcome}
    (h : Steps { P with depth := P.depth + 1 } r) : Steps P (leave_statement r) := by
  constructor
  intro Q hQ
  cases r with
  | out_of_fuel => cases hQ
  | null_deref P1 => cases hQ
  | ret b P1 =>
    cases b with
    | false => cases hQ
    | true =>
      obtain ⟨j, hj⟩ := h.reach P1 rfl
      cases hQ
      refine ⟨j, ?_⟩
      rw [hj, advance_times_with_depth]
      have := advance_times_depth j P
      cases hP : advance_times j P
      rw [hP] at this
      simp only [Parser.mk.injEq, true_and]
      simp only at this
      omega

theorem all_steps_zero : AllParsers (StepsAt 0) := by
  constructor <;> intro P <;> exact Steps.no_fuel _

set_option maxHeartbeats 1000000 in
theorem all_steps_succ (n : Nat) (ih : AllParsers (StepsAt n)) : AllParsers (StepsAt (n + 1)) where
  parse_statement_list := by
    intro P
    unfold JSC.parse_statement_list
    try dsimp only
    split
    all_goals repeat' first
      | assumption | exact Reach.here _ | exact Steps.failure _ _ | exact Steps.crash _ _
      | exact Steps.no_fuel _ | refine Steps.ret_true ?_
      | refine Steps.call (ih.parse_statement_list _) ?_
      | refine Steps.call (ih.parse_statement _) ?_ | apply Steps.andThen_steps
      | apply Steps.ite_steps | apply Steps.with_current_steps | apply Reach.step_advance
      | apply Reach.step_match | apply Reach.ite_snd | apply Reach.ite_state | intro _
  parse_statement := by
    intro P
    unfold JSC.parse_statement
    try dsimp only
    apply Steps.ite_steps
    · exact Steps.with_current_steps fun t => Steps.failure _ _
    split
    · exact Steps.failure _ _
    apply leave_statement_steps
    split
    all_goals repeat' first
      | assumption | exact Reach.here _ | exact Steps.failure _ _ | exact Steps.crash _ _
      | exact Steps.no_fuel _ | refine Steps.ret_true ?_
      | refine Steps.call (ih.parse_variable_declaration _) ?_
      | refine Steps.call (ih.parse_function_declaration _) ?_
      | refine Steps.call (ih.parse_class_declaration _) ?_
      | refine Steps.call (ih.parse_expression_statement _) ?_
      | refine Steps.call (ih.parse_if_statement _) ?_
      | refine Steps.call (ih.parse_while_statement _) ?_
      | refine Steps.call (ih.parse_do_while_statement _) ?_
      | refine Steps.call (ih.parse_for_statement _) ?_
      | refine Steps.call (ih.parse_switch_statement _) ?_
      | refine Steps.call (ih.parse_return_statement _) ?_
      | refine Steps.call (ih.parse_break_statement _) ?_
      | refine Steps.call (ih.parse_continue_statement _) ?_
      | refine Steps.call (ih.parse_throw_statement _) ?_
      | refine Steps.call (ih.parse_try_statement _) ?_
      | refine Steps.call (ih.parse_block_statement _) ?_ | apply Steps.andThen_steps
      | apply Steps.ite_steps | apply Steps.with_current_steps | apply Reach.step_advance
      | apply Reach.step_match | apply Reach.ite_snd | apply Reach.ite_state | intro _
  parse_initializer := by
    intro P
    unfold JSC.parse_initializer
    try dsimp only
    all_goals repeat' first
      | assumption | exact Reach.here _ | exact Steps.failure _ _ | exact Steps.crash _ _
      | exact Steps.no_fuel _ | refine Steps.ret_true ?_
      | refine Steps.call (ih.parse_assignment_expression _) ?_ | apply Steps.andThen_steps
      | apply Steps.ite_steps | apply Steps.with_current_steps | apply Reach.step_advance
      | apply Reach.step_match | apply Reach.ite_snd | apply Reach.ite_state | intro _
  parse_variable_declaration_loop := by
    intro P
    unfold JSC.parse_variable_declaration_loop
    try dsimp only
    all_goals repeat' first
      | assumption | exact Reach.here _ | exact Steps.failure _ _ | exact Steps.crash _ _
      | exact Steps.no_fuel _ | refine Steps.ret_true ?_
      | refine Steps.call (parser_expect_steps _ _) ?_
      | refine Steps.call (ih.parse_initializer _) ?_
      | refine Steps.call (ih.parse_variable_declaration_loop _) ?_ | apply Steps.andThen_steps
      | apply Steps.ite_steps | apply Steps.with_current_steps | apply Reach.step_advance
      | apply Reach.step_match | apply Reach.ite_snd | apply Reach.ite_state | intro _
  parse_variable_declaration := by
    intro P
    unfold JSC.parse_variable_declaration
    try dsimp only
    all_goals repeat' first
      | assumption | exact Reach.here _ | exact Steps.failure _ _ | exact Steps.crash _ _
      | exact Steps.no_fuel _ | refine Steps.ret_true ?_
      | refine Steps.call (parser_expect_steps _ _) ?_
      | refine Steps.call (parser_consume_semicolon_steps _) ?_
      | refine Steps.call (ih.parse_initializer _) ?_
      | refine Steps.call (ih.parse_variable_declaration_loop _) ?_ | apply Steps.andThen_steps
      | apply Steps.ite_steps | apply Steps.with_current_steps | apply Reach.step_advance
      | apply Reach.step_match | apply Reach.ite_snd | apply Reach.ite_state | intro _
  parse_function_declaration := by
    intro P
    unfold JSC.parse_function_declaration
    try dsimp only
    all_goals repeat' first
      | assumption | exact Reach.here _ | exact Steps.failure _ _ | exact Steps.crash _ _
      | exact Steps.no_fuel _ | refine Steps.ret_true ?_
      | refine Steps.call (identifier_list_loop_steps _ _) ?_
      | refine Steps.call (parser_expect_steps _ _) ?_
      | refine Steps.call (ih.parse_block_statement _) ?_ | apply Steps.andThen_steps
      | apply Steps.ite_steps | apply Steps.with_current_steps | apply Reach.step_advance
      | apply Reach.step_match | apply Reach.ite_snd | apply Reach.ite_state | intro _
  parse_class_declaration_loop := by
    intro P
    unfold JSC.parse_class_declaration_loop
    try dsimp only
    all_goals repeat' first
      | assumption | exact Reach.here _ | exact Steps.failure _ _ | exact Steps.crash _ _
      | exact Steps.no_fuel _ | refine Steps.ret_true ?_
      | refine Steps.call (skip_until_loop_steps _ _ _) ?_
      | refine Steps.call (parser_expect_steps _ _) ?_
      | refine Steps.call (ih.parse_class_declaration_loop _) ?_
      | refine Steps.call (ih.parse_block_statement _) ?_ | apply Steps.andThen_steps
      | apply Steps.ite_steps | apply Steps.with_current_steps | apply Reach.step_advance
      | apply Reach.step_match | apply Reach.ite_snd | apply Reach.ite_state | intro _
  parse_class_declaration := by
    intro P
    unfold JSC.parse_class_declaration
    try dsimp only
    all_goals repeat' first
      | assumption | exact Reach.here _ | exact Steps.failure _ _ | exact Steps.crash _ _
      | exact Steps.no_fuel _ | refine Steps.ret_true ?_
      | refine Steps.call (parser_expect_steps _ _) ?_
      | refine Steps.call (ih.parse_class_declaration_loop _) ?_ | apply Steps.andThen_steps
      | apply Steps.ite_steps | apply Steps.with_current_steps | apply Reach.step_advance
      | apply Reach.step_match | apply Reach.ite_snd | apply Reach.ite_state | intro _
  parse_expression_statement := by
    intro P
    unfold JSC.parse_expression_statement
    try dsimp only
    all_goals repeat' first
      | assumption | exact Reach.here _ | exact Steps.failure _ _ | exact Steps.crash _ _
      | exact Steps.no_fuel _ | refine Steps.ret_true ?_
      | refine Steps.call (parser_consume_semicolon_steps _) ?_
      | refine Steps.call (ih.parse_expression _) ?_ | apply Steps.andThen_steps
      | apply Steps.ite_steps | apply Steps.with_current_steps | apply Reach.step_advance
      | apply Reach.step_match | apply Reach.ite_snd | apply Reach.ite_state | intro _
  parse_if_statement := by
    intro P
    unfold JSC.parse_if_statement
    try dsimp only
    all_goals repeat' first
      | assumption | exact Reach.here _ | exact Steps.failure _ _ | exact Steps.crash _ _
      | exact Steps.no_fuel _ | refine Steps.ret_true ?_
      | refine Steps.call (parser_expect_steps _ _) ?_
      | refine Steps.call (ih.parse_statement _) ?_ | refine Steps.call (ih.parse_expression _) ?_
      | apply Steps.andThen_steps | apply Steps.ite_steps | apply Steps.with_current_steps
      | apply Reach.step_advance | apply Reach.step_match | apply Reach.ite_snd | apply Reach.ite_state
      | intro _
  parse_while_statement := by
    intro P
    unfold JSC.parse_while_statement
    try dsimp only
    all_goals repeat' first
      | assumption | exact Reach.here _ | exact Steps.failure _ _ | exact Steps.crash _ _
      | exact Steps.no_fuel _ | refine Steps.ret_true ?_
      | refine Steps.call (parser_expect_steps _ _) ?_
      | refine Steps.call (ih.parse_statement _) ?_ | refine Steps.call (ih.parse_expression _) ?_
      | apply Steps.andThen_steps | apply Steps.ite_steps | apply Steps.with_current_steps
      | apply Reach.step_advance | apply Reach.step_match | apply Reach.ite_snd | apply Reach.ite_state
      | intro _
  parse_do_while_statement := by
    intro P
    unfold JSC.parse_do_while_statement
    try dsimp only
    all_goals repeat' first
      | assumption | exact Reach.here _ | exact Steps.failure _ _ | exact Steps.crash _ _
      | exact Steps.no_fuel _ | refine Steps.ret_true ?_
      | refine Steps.call (parser_expect_steps _ _) ?_
      | refine Steps.call (parser_consume_semicolon_steps _) ?_
      | refine Steps.call (ih.parse_statement _) ?_ | refine Steps.call (ih.parse_expression _) ?_
      | apply Steps.andThen_steps | apply Steps.ite_steps | apply Steps.with_current_steps
      | apply Reach.step_advance | apply Reach.step_match | apply Reach.ite_snd | apply Reach.ite_state
      | intro _
  parse_for_statement_rest := by
    intro P
    unfold JSC.parse_for_statement_rest
    try dsimp only
    all_goals repeat' first
      | assumption | exact Reach.here _ | exact Steps.failure _ _ | exact Steps.crash _ _
      | exact Steps.no_fuel _ | refine Steps.ret_true ?_
      | refine Steps.call (parser_expect_steps _ _) ?_
      | refine Steps.call (ih.parse_statement _) ?_ | refine Steps.call (ih.parse_expression _) ?_
      | apply Steps.andThen_steps | apply Steps.ite_steps | apply Steps.with_current_steps
      | apply Reach.step_advance | apply Reach.step_match | apply Reach.ite_snd | apply Reach.ite_state
      | intro _
  parse_for_statement := by
    intro P
    unfold JSC.parse_for_statement
    try dsimp only
    all_goals repeat' first
      | assumption | exact Reach.here _ | exact Steps.failure _ _ | exact Steps.crash _ _
      | exact Steps.no_fuel _ | refine Steps.ret_true ?_
      | refine Steps.call (parser_expect_steps _ _) ?_
      | refine Steps.call (ih.parse_statement _) ?_
      | refine Steps.call (ih.parse_initializer _) ?_
      | refine Steps.call (ih.parse_for_statement_rest _) ?_
      | refine Steps.call (ih.parse_expression _) ?_ | apply Steps.andThen_steps
      | apply Steps.ite_steps | apply Steps.with_current_steps | apply Reach.step_advance
      | apply Reach.step_match | apply Reach.ite_snd | apply Reach.ite_state | intro _
  parse_switch_body_loop := by
    intro P
    unfold JSC.parse_switch_body_loop
    try dsimp only
    all_goals repeat' first
      | assumption | exact Reach.here _ | exact Steps.failure _ _ | exact Steps.crash _ _
      | exact Steps.no_fuel _ | refine Steps.ret_true ?_
      | refine Steps.call (ih.parse_statement _) ?_
      | refine Steps.call (ih.parse_switch_body_loop _) ?_ | apply Steps.andThen_steps
      | apply Steps.ite_steps | apply Steps.with_current_steps | apply Reach.step_advance
      | apply Reach.step_match | apply Reach.ite_snd | apply Reach.ite_state | intro _
  parse_switch_statement_loop := by
    intro P
    unfold JSC.parse_switch_statement_loop
    try dsimp only
    apply Steps.ite_steps
    split
    all_goals repeat' first
      | assumption | exact Reach.here _ | exact Steps.failure _ _ | exact Steps.crash _ _
      | exact Steps.no_fuel _ | refine Steps.ret_true ?_
      | refine Steps.call (parser_expect_steps _ _) ?_
      | refine Steps.call (ih.parse_switch_body_loop _) ?_
      | refine Steps.call (ih.parse_switch_statement_loop _) ?_
      | refine Steps.call (ih.parse_expression _) ?_ | apply Steps.andThen_steps
      | apply Steps.ite_steps | apply Steps.with_current_steps | apply Reach.step_advance
      | apply Reach.step_match | apply Reach.ite_snd | apply Reach.ite_state | intro _
  parse_switch_statement := by
    intro P
    unfold JSC.parse_switch_statement
    try dsimp only
    all_goals repeat' first
      | assumption | exact Reach.here _ | exact Steps.failure _ _ | exact Steps.crash _ _
      | exact Steps.no_fuel _ | refine Steps.ret_true ?_
      | refine Steps.call (parser_expect_steps _ _) ?_
      | refine Steps.call (ih.parse_switch_statement_loop _) ?_
      | refine Steps.call (ih.parse_expression _) ?_ | apply Steps.andThen_steps
      | apply Steps.ite_steps | apply Steps.with_current_steps | apply Reach.step_advance
      | apply Reach.step_match | apply Reach.ite_snd | apply Reach.ite_state | intro _
  parse_return_statement := by
    intro P
    unfold JSC.parse_return_statement
    try dsimp only
    all_goals repeat' first
      | assumption | exact Reach.here _ | exact Steps.failure _ _ | exact Steps.crash _ _
      | exact Steps.no_fuel _ | refine Steps.ret_true ?_
      | refine Steps.call (parser_consume_semicolon_steps _) ?_
      | refine Steps.call (ih.parse_expression _) ?_ | apply Steps.andThen_steps
      | apply Steps.ite_steps | apply Steps.with_current_steps | apply Reach.step_advance
      | apply Reach.step_match | apply Reach.ite_snd | apply Reach.ite_state | intro _
  parse_break_statement := by
    intro P
    unfold JSC.parse_break_statement
    try dsimp only
    all_goals repeat' first
      | assumption | exact Reach.here _ | exact Steps.failure _ _ | exact Steps.crash _ _
      | exact Steps.no_fuel _ | refine Steps.ret_true ?_
      | refine Steps.call (parser_consume_semicolon_steps _) ?_ | apply Steps.andThen_steps
      | apply Steps.ite_steps | apply Steps.with_current_steps | apply Reach.step_advance
      | apply Reach.step_match | apply Reach.ite_snd | apply Reach.ite_state | intro _
  parse_continue_statement := by
    intro P
    unfold JSC.parse_continue_statement
    try dsimp only
    all_goals repeat' first
      | assumption | exact Reach.here _ | exact Steps.failure _ _ | exact Steps.crash _ _
      | exact Steps.no_fuel _ | refine Steps.ret_true ?_
      | refine Steps.call (parser_consume_semicolon_steps _) ?_ | apply Steps.andThen_steps
      | apply Steps.ite_steps | apply Steps.with_current_steps | apply Reach.step_advance
      | apply Reach.step_match | apply Reach.ite_snd | apply Reach.ite_state | intro _
  parse_throw_statement := by
    intro P
    unfold JSC.parse_throw_statement
    try dsimp only
    all_goals repeat' first
      | assumption | exact Reach.here _ | exact Steps.failure _ _ | exact Steps.crash _ _
      | exact Steps.no_fuel _ | refine Steps.ret_true ?_
      | refine Steps.call (parser_consume_semicolon_steps _) ?_
      | refine Steps.call (ih.parse_expression _) ?_ | apply Steps.andThen_steps
      | apply Steps.ite_steps | apply Steps.with_current_steps | apply Reach.step_advance
      | apply Reach.step_match | apply Reach.ite_snd | apply Reach.ite_state | intro _
  parse_try_statement := by
    intro P
    unfold JSC.parse_try_statement
    try dsimp only
    all_goals repeat' first
      | assumption | exact Reach.here _ | exact Steps.failure _ _ | exact Steps.crash _ _
      | exact Steps.no_fuel _ | refine Steps.ret_true ?_
      | refine Steps.call (parser_expect_steps _ _) ?_
      | refine Steps.call (ih.parse_block_statement _) ?_ | apply Steps.andThen_steps
      | apply Steps.ite_steps | apply Steps.with_current_steps | apply Reach.step_advance
      | apply Reach.step_match | apply Reach.ite_snd | apply Reach.ite_state | intro _
  parse_block_statement := by
    intro P
    unfold JSC.parse_block_statement
    try dsimp only
    all_goals repeat' first
      | assumption | exact Reach.here _ | exact Steps.failure _ _ | exact Steps.crash _ _
      | exact Steps.no_fuel _ | refine Steps.ret_true ?_
      | refine Steps.call (parser_expect_steps _ _) ?_
      | refine Steps.call (ih.parse_statement_list _) ?_ | apply Steps.andThen_steps
      | apply Steps.ite_steps | apply Steps.with_current_steps | apply Reach.step_advance
      | apply Reach.step_match | apply Reach.ite_snd | apply Reach.ite_state | intro _
  comma_list_loop := by
    intro P
    unfold JSC.comma_list_loop
    try dsimp only
    all_goals repeat' first
      | assumption | exact Reach.here _ | exact Steps.failure _ _ | exact Steps.crash _ _
      | exact Steps.no_fuel _ | refine Steps.ret_true ?_
      | refine Steps.call (ih.comma_list_loop _) ?_
      | refine Steps.call (ih.parse_assignment_expression _) ?_ | apply Steps.andThen_steps
      | apply Steps.ite_steps | apply Steps.with_current_steps | apply Reach.step_advance
      | apply Reach.step_match | apply Reach.ite_snd | apply Reach.ite_state | intro _
  parse_expression := by
    intro P
    unfold JSC.parse_expression
    try dsimp only
    all_goals repeat' first
      | assumption | exact Reach.here _ | exact Steps.failure _ _ | exact Steps.crash _ _
      | exact Steps.no_fuel _ | refine Steps.ret_true ?_
      | refine Steps.call (ih.comma_list_loop _) ?_
      | refine Steps.call (ih.parse_assignment_expression _) ?_ | apply Steps.andThen_steps
      | apply Steps.ite_steps | apply Steps.with_current_steps | apply Reach.step_advance
      | apply Reach.step_match | apply Reach.ite_snd | apply Reach.ite_state | intro _
  parse_assignment_expression := by
    intro P
    unfold JSC.parse_assignment_expression
    try dsimp only
    all_goals repeat' first
      | assumption | exact Reach.here _ | exact Steps.failure _ _ | exact Steps.crash _ _
      | exact Steps.no_fuel _ | refine Steps.ret_true ?_
      | refine Steps.call (ih.parse_assignment_expression _) ?_
      | refine Steps.call (ih.parse_conditional_expression _) ?_ | apply Steps.andThen_steps
      | apply Steps.ite_steps | apply Steps.with_current_steps | apply Reach.step_advance
      | apply Reach.step_match | apply Reach.ite_snd | apply Reach.ite_state | intro _
  parse_conditional_expression := by
    intro P
    unfold JSC.parse_conditional_expression
    try dsimp only
    all_goals repeat' first
      | assumption | exact Reach.here _ | exact Steps.failure _ _ | exact Steps.crash _ _
      | exact Steps.no_fuel _ | refine Steps.ret_true ?_
      | refine Steps.call (parser_expect_steps _ _) ?_
      | refine Steps.call (ih.parse_assignment_expression _) ?_
      | refine Steps.call (ih.parse_logical_or_expression _) ?_ | apply Steps.andThen_steps
      | apply Steps.ite_steps | apply Steps.with_current_steps | apply Reach.step_advance
      | apply Reach.step_match | apply Reach.ite_snd | apply Reach.ite_state | intro _
  parse_logical_or_expression_loop := by
    intro P
    unfold JSC.parse_logical_or_expression_loop
    try dsimp only
    all_goals repeat' first
      | assumption | exact Reach.here _ | exact Steps.failure _ _ | exact Steps.crash _ _
      | exact Steps.no_fuel _ | refine Steps.ret_true ?_
      | refine Steps.call (ih.parse_logical_or_expression_loop _) ?_
      | refine Steps.call (ih.parse_logical_and_expression _) ?_ | apply Steps.andThen_steps
      | apply Steps.ite_steps | apply Steps.with_current_steps | apply Reach.step_advance
      | apply Reach.step_match | apply Reach.ite_snd | apply Reach.ite_state | intro _
  parse_logical_or_expression := by
    intro P
    unfold JSC.parse_logical_or_expression
    try dsimp only
    all_goals repeat' first
      | assumption | exact Reach.here _ | exact Steps.failure _ _ | exact Steps.crash _ _
      | exact Steps.no_fuel _ | refine Steps.ret_true ?_
      | refine Steps.call (ih.parse_logical_or_expression_loop _) ?_
      | refine Steps.call (ih.parse_logical_and_expression _) ?_ | apply Steps.andThen_steps
      | apply Steps.ite_steps | apply Steps.with_current_steps | apply Reach.step_advance
      | apply Reach.step_match | apply Reach.ite_snd | apply Reach.ite_state | intro _
  parse_logical_and_expression_loop := by
    intro P
    unfold JSC.parse_logical_and_expression_loop
    try dsimp only
    all_goals repeat' first
      | assumption | exact Reach.here _ | exact Steps.failure _ _ | exact Steps.crash _ _
      | exact Steps.no_fuel _ | refine Steps.ret_true ?_
      | refine Steps.call (ih.parse_logical_and_expression_loop _) ?_
      | refine Steps.call (ih.parse_bitwise_or_expression _) ?_ | apply Steps.andThen_steps
      | apply Steps.ite_steps | apply Steps.with_current_steps | apply Reach.step_advance
      | apply Reach.step_match | apply Reach.ite_snd | apply Reach.ite_state | intro _
  parse_logical_and_expression := by
    intro P
    unfold JSC.parse_logical_and_expression
    try dsimp only
    all_goals repeat' first
      | assumption | exact Reach.here _ | exact Steps.failure _ _ | exact Steps.crash _ _
      | exact Steps.no_fuel _ | refine Steps.ret_true ?_
      | refine Steps.call (ih.parse_logical_and_expression_loop _) ?_
      | refine Steps.call (ih.parse_bitwise_or_expression _) ?_ | apply Steps.andThen_steps
      | apply Steps.ite_steps | apply Steps.with_current_steps | apply Reach.step_advance
      | apply Reach.step_match | apply Reach.ite_snd | apply Reach.ite_state | intro _
  parse_bitwise_or_expression_loop := by
    intro P
    unfold JSC.parse_bitwise_or_expression_loop
    try dsimp only
    all_goals repeat' first
      | assumption | exact Reach.here _ | exact Steps.failure _ _ | exact Steps.crash _ _
      | exact Steps.no_fuel _ | refine Steps.ret_true ?_
      | refine Steps.call (ih.parse_bitwise_or_expression_loop _) ?_
      | refine Steps.call (ih.parse_bitwise_xor_expression _) ?_ | apply Steps.andThen_steps
      | apply Steps.ite_steps | apply Steps.with_current_steps | apply Reach.step_advance
      | apply Reach.step_match | apply Reach.ite_snd | apply Reach.ite_state | intro _
  parse_bitwise_or_expression := by
    intro P
    unfold JSC.parse_bitwise_or_expression
    try dsimp only
    all_goals repeat' first
      | assumption | exact Reach.here _ | exact Steps.failure _ _ | exact Steps.crash _ _
      | exact Steps.no_fuel _ | refine Steps.ret_true ?_
      | refine Steps.call (ih.parse_bitwise_or_expression_loop _) ?_
      | refine Steps.call (ih.parse_bitwise_xor_expression _) ?_ | apply Steps.andThen_steps
      | apply Steps.ite_steps | apply Steps.with_current_steps | apply Reach.step_advance
      | apply Reach.step_match | apply Reach.ite_snd | apply Reach.ite_state | intro _
  parse_bitwise_xor_expression_loop := by
    intro P
    unfold JSC.parse_bitwise_xor_expression_loop
    try dsimp only
    all_goals repeat' first
      | assumption | exact Reach.here _ | exact Steps.failure _ _ | exact Steps.crash _ _
      | exact Steps.no_fuel _ | refine Steps.ret_true ?_
      | refine Steps.call (ih.parse_bitwise_xor_expression_loop _) ?_
      | refine Steps.call (ih.parse_bitwise_and_expression _) ?_ | apply Steps.andThen_steps
      | apply Steps.ite_steps | apply Steps.with_current_steps | apply Reach.step_advance
      | apply Reach.step_match | apply Reach.ite_snd | apply Reach.ite_state | intro _
  parse_bitwise_xor_expression := by
    intro P
    unfold JSC.parse_bitwise_xor_expression
    try dsimp only
    all_goals repeat' first
      | assumption | exact Reach.here _ | exact Steps.failure _ _ | exact Steps.crash _ _
      | exact Steps.no_fuel _ | refine Steps.ret_true ?_
      | refine Steps.call (ih.parse_bitwise_xor_expression_loop _) ?_
      | refine Steps.call (ih.parse_bitwise_and_expression _) ?_ | apply Steps.andThen_steps
      | apply Steps.ite_steps | apply Steps.with_current_steps | apply Reach.step_advance
      | apply Reach.step_match | apply Reach.ite_snd | apply Reach.ite_state | intro _
  parse_bitwise_and_expression_loop := by
    intro P
    unfold JSC.parse_bitwise_and_expression_loop
    try dsimp only
    all_goals repeat' first
      | assumption | exact Reach.here _ | exact Steps.failure _ _ | exact Steps.crash _ _
      | exact Steps.no_fuel _ | refine Steps.ret_true ?_
      | refine Steps.call (ih.parse_bitwise_and_expression_loop _) ?_
      | refine Steps.call (ih.parse_equality_expression _) ?_ | apply Steps.andThen_steps
      | apply Steps.ite_steps | apply Steps.with_current_steps | apply Reach.step_advance
      | apply Reach.step_match | apply Reach.ite_snd | apply Reach.ite_state | intro _
  parse_bitwise_and_expression := by
    intro P
    unfold JSC.parse_bitwise_and_expression
    try dsimp only
    all_goals repeat' first
      | assumption | exact Reach.here _ | exact Steps.failure _ _ | exact Steps.crash _ _
      | exact Steps.no_fuel _ | refine Steps.ret_true ?_
      | refine Steps.call (ih.parse_bitwise_and_expression_loop _) ?_
      | refine Steps.call (ih.parse_equality_expression _) ?_ | apply Steps.andThen_steps
      | apply Steps.ite_steps | apply Steps.with_current_steps | apply Reach.step_advance
      | apply Reach.step_match | apply Reach.ite_snd | apply Reach.ite_state | intro _
  parse_equality_expression_loop := by
    intro P
    unfold JSC.parse_equality_expression_loop
    try dsimp only
    all_goals repeat' first
      | assumption | exact Reach.here _ | exact Steps.failure _ _ | exact Steps.crash _ _
      | exact Steps.no_fuel _ | refine Steps.ret_true ?_
      | refine Steps.call (ih.parse_equality_expression_loop _) ?_
      | refine Steps.call (ih.parse_relational_expression _) ?_ | apply Steps.andThen_steps
      | apply Steps.ite_steps | apply Steps.with_current_steps | apply Reach.step_advance
      | apply Reach.step_match | apply Reach.ite_snd | apply Reach.ite_state | intro _
  parse_equality_expression := by
    intro P
    unfold JSC.parse_equality_expression
    try dsimp only
    all_goals repeat' first
      | assumption | exact Reach.here _ | exact Steps.failure _ _ | exact Steps.crash _ _
      | exact Steps.no_fuel _ | refine Steps.ret_true ?_
      | refine Steps.call (ih.parse_equality_expression_loop _) ?_
      | refine Steps.call (ih.parse_relational_expression _) ?_ | apply Steps.andThen_steps
      | apply Steps.ite_steps | apply Steps.with_current_steps | apply Reach.step_advance
      | apply Reach.step_match | apply Reach.ite_snd | apply Reach.ite_state | intro _
  parse_relational_expression_loop := by
    intro P
    unfold JSC.parse_relational_expression_loop
    try dsimp only
    all_goals repeat' first
      | assumption | exact Reach.here _ | exact Steps.failure _ _ | exact Steps.crash _ _
      | exact Steps.no_fuel _ | refine Steps.ret_true ?_
      | refine Steps.call (ih.parse_relational_expression_loop _) ?_
      | refine Steps.call (ih.parse_shift_expression _) ?_ | apply Steps.andThen_steps
      | apply Steps.ite_steps | apply Steps.with_current_steps | apply Reach.step_advance
      | apply Reach.step_match | apply Reach.ite_snd | apply Reach.ite_state | intro _
  parse_relational_expression := by
    intro P
    unfold JSC.parse_relational_expression
    try dsimp only
    all_goals repeat' first
      | assumption | exact Reach.here _ | exact Steps.failure _ _ | exact Steps.crash _ _
      | exact Steps.no_fuel _ | refine Steps.ret_true ?_
      | refine Steps.call (ih.parse_relational_expression_loop _) ?_
      | refine Steps.call (ih.parse_shift_expression _) ?_ | apply Steps.andThen_steps
      | apply Steps.ite_steps | apply Steps.with_current_steps | apply Reach.step_advance
      | apply Reach.step_match | apply Reach.ite_snd | apply Reach.ite_state | intro _
  parse_shift_expression_loop := by
    intro P
    unfold JSC.parse_shift_expression_loop
    try dsimp only
    all_goals repeat' first
      | assumption | exact Reach.here _ | exact Steps.failure _ _ | exact Steps.crash _ _
      | exact Steps.no_fuel _ | refine Steps.ret_true ?_
      | refine Steps.call (ih.parse_shift_expression_loop _) ?_
      | refine Steps.call (ih.parse_additive_expression _) ?_ | apply Steps.andThen_steps
      | apply Steps.ite_steps | apply Steps.with_current_steps | apply Reach.step_advance
      | apply Reach.step_match | apply Reach.ite_snd | apply Reach.ite_state | intro _
  parse_shift_expression := by
    intro P
    unfold JSC.parse_shift_expression
    try dsimp only
    all_goals repeat' first
      | assumption | exact Reach.here _ | exact Steps.failure _ _ | exact Steps.crash _ _
      | exact Steps.no_fuel _ | refine Steps.ret_true ?_
      | refine Steps.call (ih.parse_shift_expression_loop _) ?_
      | refine Steps.call (ih.parse_additive_expression _) ?_ | apply Steps.andThen_steps
      | apply Steps.ite_steps | apply Steps.with_current_steps | apply Reach.step_advance
      | apply Reach.step_match | apply Reach.ite_snd | apply Reach.ite_state | intro _
  parse_additive_expression_loop := by
    intro P
    unfold JSC.parse_additive_expression_loop
    try dsimp only
    all_goals repeat' first
      | assumption | exact Reach.here _ | exact Steps.failure _ _ | exact Steps.crash _ _
      | exact Steps.no_fuel _ | refine Steps.ret_true ?_
      | refine Steps.call (ih.parse_additive_expression_loop _) ?_
      | refine Steps.call (ih.parse_multiplicative_expression _) ?_ | apply Steps.andThen_steps
      | apply Steps.ite_steps | apply Steps.with_current_steps | apply Reach.step_advance
      | apply Reach.step_match | apply Reach.ite_snd | apply Reach.ite_state | intro _
  parse_additive_expression := by
    intro P
    unfold JSC.parse_additive_expression
    try dsimp only
    all_goals repeat' first
      | assumption | exact Reach.here _ | exact Steps.failure _ _ | exact Steps.crash _ _
      | exact Steps.no_fuel _ | refine Steps.ret_true ?_
      | refine Steps.call (ih.parse_additive_expression_loop _) ?_
      | refine Steps.call (ih.parse_multiplicative_expression _) ?_ | apply Steps.andThen_steps
      | apply Steps.ite_steps | apply Steps.with_current_steps | apply Reach.step_advance
      | apply Reach.step_match | apply Reach.ite_snd | apply Reach.ite_state | intro _
  parse_multiplicative_expression_loop := by
    intro P
    unfold JSC.parse_multiplicative_expression_loop
    try dsimp only
    all_goals repeat' first
      | assumption | exact Reach.here _ | exact Steps.failure _ _ | exact Steps.crash _ _
      | exact Steps.no_fuel _ | refine Steps.ret_true ?_
      | refine Steps.call (ih.parse_multiplicative_expression_loop _) ?_
      | refine Steps.call (ih.parse_exponentiation_expression _) ?_ | apply Steps.andThen_steps
      | apply Steps.ite_steps | apply Steps.with_current_steps | apply Reach.step_advance
      | apply Reach.step_match | apply Reach.ite_snd | apply Reach.ite_state | intro _
  parse_multiplicative_expression := by
    intro P
    unfold JSC.parse_multiplicative_expression
    try dsimp only
    all_goals repeat' first
      | assumption | exact Reach.here _ | exact Steps.failure _ _ | exact Steps.crash _ _
      | exact Steps.no_fuel _ | refine Steps.ret_true ?_
      | refine Steps.call (ih.parse_multiplicative_expression_loop _) ?_
      | refine Steps.call (ih.parse_exponentiation_expression _) ?_ | apply Steps.andThen_steps
      | apply Steps.ite_steps | apply Steps.with_current_steps | apply Reach.step_advance
      | apply Reach.step_match | apply Reach.ite_snd | apply Reach.ite_state | intro _
  parse_exponentiation_expression := by
    intro P
    unfold JSC.parse_exponentiation_expression
    try dsimp only
    all_goals repeat' first
      | assumption | exact Reach.here _ | exact Steps.failure _ _ | exact Steps.crash _ _
      | exact Steps.no_fuel _ | refine Steps.ret_true ?_
      | refine Steps.call (ih.parse_exponentiation_expression _) ?_
      | refine Steps.call (ih.parse_unary_expression _) ?_ | apply Steps.andThen_steps
      | apply Steps.ite_steps | apply Steps.with_current_steps | apply Reach.step_advance
      | apply Reach.step_match | apply Reach.ite_snd | apply Reach.ite_state | intro _
  parse_unary_expression := by
    intro P
    unfold JSC.parse_unary_expression
    try dsimp only
    all_goals repeat' first
      | assumption | exact Reach.here _ | exact Steps.failure _ _ | exact Steps.crash _ _
      | exact Steps.no_fuel _ | refine Steps.ret_true ?_
      | refine Steps.call (ih.parse_unary_expression _) ?_
      | refine Steps.call (ih.parse_postfix_expression _) ?_ | apply Steps.andThen_steps
      | apply Steps.ite_steps | apply Steps.with_current_steps | apply Reach.step_advance
      | apply Reach.step_match | apply Reach.ite_snd | apply Reach.ite_state | intro _
  parse_postfix_expression := by
    intro P
    unfold JSC.parse_postfix_expression
    try dsimp only
    all_goals repeat' first
      | assumption | exact Reach.here _ | exact Steps.failure _ _ | exact Steps.crash _ _
      | exact Steps.no_fuel _ | refine Steps.ret_true ?_
      | refine Steps.call (ih.parse_left_hand_side_expression _) ?_ | apply Steps.andThen_steps
      | apply Steps.ite_steps | apply Steps.with_current_steps | apply Reach.step_advance
      | apply Reach.step_match | apply Reach.ite_snd | apply Reach.ite_state | intro _
  parse_arguments := by
    intro P
    unfold JSC.parse_arguments
    try dsimp only
    all_goals repeat' first
      | assumption | exact Reach.here _ | exact Steps.failure _ _ | exact Steps.crash _ _
      | exact Steps.no_fuel _ | refine Steps.ret_true ?_
      | refine Steps.call (parser_expect_steps _ _) ?_
      | refine Steps.call (ih.comma_list_loop _) ?_
      | refine Steps.call (ih.parse_assignment_expression _) ?_ | apply Steps.andThen_steps
      | apply Steps.ite_steps | apply Steps.with_current_steps | apply Reach.step_advance
      | apply Reach.step_match | apply Reach.ite_snd | apply Reach.ite_state | intro _
  parse_left_hand_side_expression := by
    intro P
    unfold JSC.parse_left_hand_side_expression
    try dsimp only
    all_goals repeat' first
      | assumption | exact Reach.here _ | exact Steps.failure _ _ | exact Steps.crash _ _
      | exact Steps.no_fuel _ | refine Steps.ret_true ?_
      | refine Steps.call (ih.parse_arguments _) ?_
      | refine Steps.call (ih.parse_call_expression _) ?_
      | refine Steps.call (ih.parse_member_expression _) ?_ | apply Steps.andThen_steps
      | apply Steps.ite_steps | apply Steps.with_current_steps | apply Reach.step_advance
      | apply Reach.step_match | apply Reach.ite_snd | apply Reach.ite_state | intro _
  member_access_loop := by
    intro P
    unfold JSC.member_access_loop
    try dsimp only
    all_goals repeat' first
      | assumption | exact Reach.here _ | exact Steps.failure _ _ | exact Steps.crash _ _
      | exact Steps.no_fuel _ | refine Steps.ret_true ?_
      | refine Steps.call (parser_expect_steps _ _) ?_
      | refine Steps.call (ih.parse_expression _) ?_
      | refine Steps.call (ih.member_access_loop _) ?_ | apply Steps.andThen_steps
      | apply Steps.ite_steps | apply Steps.with_current_steps | apply Reach.step_advance
      | apply Reach.step_match | apply Reach.ite_snd | apply Reach.ite_state | intro _
  parse_call_expression_loop := by
    intro P
    unfold JSC.parse_call_expression_loop
    try dsimp only
    all_goals repeat' first
      | assumption | exact Reach.here _ | exact Steps.failure _ _ | exact Steps.crash _ _
      | exact Steps.no_fuel _ | refine Steps.ret_true ?_
      | refine Steps.call (ih.parse_arguments _) ?_
      | refine Steps.call (ih.member_access_loop _) ?_
      | refine Steps.call (ih.parse_call_expression_loop _) ?_ | apply Steps.andThen_steps
      | apply Steps.ite_steps | apply Steps.with_current_steps | apply Reach.step_advance
      | apply Reach.step_match | apply Reach.ite_snd | apply Reach.ite_state | intro _
  parse_call_expression := by
    intro P
    unfold JSC.parse_call_expression
    try dsimp only
    all_goals repeat' first
      | assumption | exact Reach.here _ | exact Steps.failure _ _ | exact Steps.crash _ _
      | exact Steps.no_fuel _ | refine Steps.ret_true ?_
      | refine Steps.call (ih.parse_call_expression_loop _) ?_
      | refine Steps.call (ih.parse_member_expression _) ?_ | apply Steps.andThen_steps
      | apply Steps.ite_steps | apply Steps.with_current_steps | apply Reach.step_advance
      | apply Reach.step_match | apply Reach.ite_snd | apply Reach.ite_state | intro _
  parse_member_expression := by
    intro P
    unfold JSC.parse_member_expression
    try dsimp only
    all_goals repeat' first
      | assumption | exact Reach.here _ | exact Steps.failure _ _ | exact Steps.crash _ _
      | exact Steps.no_fuel _ | refine Steps.ret_true ?_
      | refine Steps.call (ih.member_access_loop _) ?_
      | refine Steps.call (ih.parse_primary_expression _) ?_ | apply Steps.andThen_steps
      | apply Steps.ite_steps | apply Steps.with_current_steps | apply Reach.step_advance
      | apply Reach.step_match | apply Reach.ite_snd | apply Reach.ite_state | intro _
  parse_primary_expression := by
    intro P
    unfold JSC.parse_primary_expression
    try dsimp only
    split
    · exact Steps.failure _ _
    split
    all_goals repeat' first
      | assumption | exact Reach.here _ | exact Steps.failure _ _ | exact Steps.crash _ _
      | exact Steps.no_fuel _ | refine Steps.ret_true ?_
      | refine Steps.call (parser_expect_steps _ _) ?_
      | refine Steps.call (ih.parse_function_declaration _) ?_
      | refine Steps.call (ih.parse_expression _) ?_
      | refine Steps.call (ih.parse_array_literal _) ?_
      | refine Steps.call (ih.parse_object_literal _) ?_ | apply Steps.andThen_steps
      | apply Steps.ite_steps | apply Steps.with_current_steps | apply Reach.step_advance
      | apply Reach.step_match | apply Reach.ite_snd | apply Reach.ite_state | intro _
  parse_array_element := by
    intro P
    unfold JSC.parse_array_element
    try dsimp only
    all_goals repeat' first
      | assumption | exact Reach.here _ | exact Steps.failure _ _ | exact Steps.crash _ _
      | exact Steps.no_fuel _ | refine Steps.ret_true ?_
      | refine Steps.call (ih.parse_assignment_expression _) ?_ | apply Steps.andThen_steps
      | apply Steps.ite_steps | apply Steps.with_current_steps | apply Reach.step_advance
      | apply Reach.step_match | apply Reach.ite_snd | apply Reach.ite_state | intro _
  parse_array_literal_loop := by
    intro P
    unfold JSC.parse_array_literal_loop
    try dsimp only
    all_goals repeat' first
      | assumption | exact Reach.here _ | exact Steps.failure _ _ | exact Steps.crash _ _
      | exact Steps.no_fuel _ | refine Steps.ret_true ?_
      | refine Steps.call (ih.parse_array_element _) ?_
      | refine Steps.call (ih.parse_array_literal_loop _) ?_ | apply Steps.andThen_steps
      | apply Steps.ite_steps | apply Steps.with_current_steps | apply Reach.step_advance
      | apply Reach.step_match | apply Reach.ite_snd | apply Reach.ite_state | intro _
  parse_array_literal := by
    intro P
    unfold JSC.parse_array_literal
    try dsimp only
    all_goals repeat' first
      | assumption | exact Reach.here _ | exact Steps.failure _ _ | exact Steps.crash _ _
      | exact Steps.no_fuel _ | refine Steps.ret_true ?_
      | refine Steps.call (parser_expect_steps _ _) ?_
      | refine Steps.call (ih.parse_array_element _) ?_
      | refine Steps.call (ih.parse_array_literal_loop _) ?_ | apply Steps.andThen_steps
      | apply Steps.ite_steps | apply Steps.with_current_steps | apply Reach.step_advance
      | apply Reach.step_match | apply Reach.ite_snd | apply Reach.ite_state | intro _
  parse_object_property_rest := by
    intro P
    unfold JSC.parse_object_property_rest
    try dsimp only
    all_goals repeat' first
      | assumption | exact Reach.here _ | exact Steps.failure _ _ | exact Steps.crash _ _
      | exact Steps.no_fuel _ | refine Steps.ret_true ?_
      | refine Steps.call (skip_until_loop_steps _ _ _) ?_
      | refine Steps.call (parser_expect_steps _ _) ?_
      | refine Steps.call (ih.parse_block_statement _) ?_
      | refine Steps.call (ih.parse_assignment_expression _) ?_
      | refine Steps.call (ih.parse_object_literal_loop _) ?_ | apply Steps.andThen_steps
      | apply Steps.ite_steps | apply Steps.with_current_steps | apply Reach.step_advance
      | apply Reach.step_match | apply Reach.ite_snd | apply Reach.ite_state | intro _
  parse_object_literal_loop := by
    intro P
    unfold JSC.parse_object_literal_loop
    try dsimp only
    all_goals repeat' first
      | assumption | exact Reach.here _ | exact Steps.failure _ _ | exact Steps.crash _ _
      | exact Steps.no_fuel _ | refine Steps.ret_true ?_
      | refine Steps.call (parser_expect_steps _ _) ?_
      | refine Steps.call (ih.parse_expression _) ?_
      | refine Steps.call (ih.parse_assignment_expression _) ?_
      | refine Steps.call (ih.parse_object_property_rest _) ?_
      | refine Steps.call (ih.parse_object_literal_loop _) ?_ | apply Steps.andThen_steps
      | apply Steps.ite_steps | apply Steps.with_current_steps | apply Reach.step_advance
      | apply Reach.step_match | apply Reach.ite_snd | apply Reach.ite_state | intro _
  parse_object_literal := by
    intro P
    unfold JSC.parse_object_literal
    try dsimp only
    all_goals repeat' first
      | assumption | exact Reach.here _ | exact Steps.failure _ _ | exact Steps.crash _ _
      | exact Steps.no_fuel _ | refine Steps.ret_true ?_
      | refine Steps.call (parser_expect_steps _ _) ?_
      | refine Steps.call (ih.parse_object_literal_loop _) ?_ | apply Steps.andThen_steps
      | apply Steps.ite_steps | apply Steps.with_current_steps | apply Reach.step_advance
      | apply Reach.step_match | apply Reach.ite_snd | apply Reach.ite_state | intro _

theorem all_steps (n : Nat) : AllParsers (StepsAt n) := by
  induction n with
  | zero => exact all_steps_zero
  | succ n ih => exact all_steps_succ n ih

/-! ## A slash at the start of the program -/

/-- A failure of `parse_primary_expression` at a token that is neither a unary
operator nor `new` is the failure of the expression statement that starts
there. -/
theorem expression_statement_fails (n : Nat) (P Q : Parser) (T : Token)
    (hc : P.current_token = some T) (hu : is_unary_operator T.type = false)
    (hnew : T.type ≠ .TOKEN_NEW)
    (hprim : parse_primary_expression (n + 1) P = .ret false Q) :
    parse_expression_statement (n + 21) P = .ret false Q := by
  have h1 : parse_member_expression (n + 2) P = .ret false Q := by
    rw [parse_member_expression]
    simp only [hprim, Outcome.andThen]
  have h2 : parse_call_expression (n + 3) P = .ret false Q := by
    rw [parse_call_expression]
    simp only [h1, Outcome.andThen]
  have h3 : parse_left_hand_side_expression (n + 4) P = .ret false Q := by
    rw [parse_left_hand_side_expression]
    simp only [h2, parser_match_ne P T _ hc hnew, Bool.false_eq_true, ↓reduceIte, Outcome.andThen]
  have h4 : parse_postfix_expression (n + 5) P = .ret false Q := by
    rw [parse_postfix_expression]
    simp only [h3, Outcome.andThen]
  have h5 : parse_unary_expression (n + 6) P = .ret false Q := by
    rw [parse_unary_expression]
    simp only [h4, with_current, hc, hu, Bool.false_eq_true, ↓reduceIte, Outcome.andThen]
  have h6 : parse_exponentiation_expression (n + 7) P = .ret false Q := by
    rw [parse_exponentiation_expression]
    simp only [h5, Outcome.andThen]
  have h7 : parse_multiplicative_expression (n + 8) P = .ret false Q := by
    rw [parse_multiplicative_expression]
    simp only [h6, Outcome.andThen]
  have h8 : parse_additive_expression (n + 9) P = .ret false Q := by
    rw [parse_additive_expression]
    simp only [h7, Outcome.andThen]
  have h9 : parse_shift_expression (n + 10) P = .ret false Q := by
    rw [parse_shift_expression]
    simp only [h8, Outcome.andThen]
  have h10 : parse_relational_expression (n + 11) P = .ret false Q := by
    rw [parse_relational_expression]
    simp only [h9, Outcome.andThen]
  have h11 : parse_equality_expression (n + 12) P = .ret false Q := by
    rw [parse_equality_expression]
    simp only [h10, Outcome.andThen]
  have h12 : parse_bitwise_and_expression (n + 13) P = .ret false Q := by
    rw [parse_bitwise_and_expression]
    simp only [h11, Outcome.andThen]
  have h13 : parse_bitwise_xor_expression (n + 14) P = .ret false Q := by
    rw [parse_bitwise_xor_expression]
    simp only [h12, Outcome.andThen]
  have h14 : parse_bitwise_or_expression (n + 15) P = .ret false Q := by
    rw [parse_bitwise_or_expression]
    simp only [h13, Outcome.andThen]
  have h15 : parse_logical_and_expression (n + 16) P = .ret false Q := by
    rw [parse_logical_and_expression]
    simp only [h14, Outcome.andThen]
  have h16 : parse_logical_or_expression (n + 17) P = .ret false Q := by
    rw [parse_logical_or_expression]
    simp only [h15, Outcome.andThen]
  have h17 : parse_conditional_expression (n + 18) P = .ret false Q := by
    rw [parse_conditional_expression]
    simp only [h16, Outcome.andThen]
  have h18 : parse_assignment_expression (n + 19) P = .ret false Q := by
    rw [parse_assignment_expression]
    simp only [h17, Outcome.andThen]
  have h19 : parse_expression (n + 20) P = .ret false Q := by
    rw [parse_expression]
    simp only [h18, Outcome.andThen]
  have h20 : parse_expression_statement (n + 21) P = .ret false Q := by
    rw [parse_expression_statement]
    simp only [h19, Outcome.andThen]
  exact h20

/-- A token that starts at a slash while the previous-token slot is empty is
`/=` when `=` follows and `/` otherwise. -/
theorem slash_without_context (L : Lexer) (hinv : CursorInv L) (hp : L.prev_token = none)
    (T : Token) (h : (lexer_next_token L).1 = some T)
    (hslash : L.source.getD T.start.offset 0 = 47) :
    T.type = .TOKEN_DIVIDE ∨ T.type = .TOKEN_DIVIDE_ASSIGN := by
  have hadv := token_start_state_advances L
  have hinv' := CursorInv.of_advances hadv hinv
  have hsrc : (token_start_state L).source = L.source := hadv.mono.1
  have hstart := ((lexer_next_token_advances L).2 T h).1
  have hprev := token_start_state_prev L
  cases ht : (lexer_next_token_trivia_loop (L.source_length - L.current) L).1 with
  | false => rw [lexer_next_token_trivia_failed _ ht] at h; cases h
  | true =>
    rw [lexer_next_token_eq _ ht] at h
    generalize (lexer_next_token_trivia_loop (L.source_length - L.current) L).2.last_was_newline
      = hn at h
    generalize token_start_state L = S at *
    have hoff : T.start.offset = S.current := by rw [hstart, hinv'.offset_eq]
    rw [hoff, ← hsrc] at hslash
    have hlt : S.current < S.source.length := by
      by_contra hge
      rw [List.getD_eq_default _ _ (by omega)] at hslash
      cases hslash
    have hstep := advance_step S hlt (by omega) (by omega)
    have hge : ¬ S.current ≥ S.source_length := by unfold Lexer.source_length; omega
    rw [hstep.2, hslash] at h
    simp only [hge, ↓reduceIte] at h
    have hid : ¬ (is_unicode_id_start (char_to_u8 47) = true ∨ (47 : Nat) = 36) := by decide
    have hdig : ¬ (isdigit 47 = true) := by decide
    have hq : ¬ ((47 : Nat) = 34 ∨ (47 : Nat) = 39) := by decide
    have hb : ¬ ((47 : Nat) = 96) := by decide
    rw [if_neg hid, if_neg hdig, if_neg hq, if_neg hb, slash_dispatch] at h
    have hperm : prev_permits_regex (advance S).2 = false := by
      unfold prev_permits_regex
      rw [advance_prev, hprev, hp]
    rw [hperm] at h
    simp only [Bool.false_eq_true, ↓reduceIte] at h
    split_ifs at h
    · right
      simp only [operator_token, Option.some.injEq] at h
      rw [← h]
      simp only [token_create]
    · left
      simp only [Option.some.injEq] at h
      rw [← h]
      simp only [token_create]

/-- The parser created on a source that starts with a slash which opens no
comment has the token `/` or `/=` at line 1, column 1 as current token. -/
theorem parser_create_slash (src : List Nat) (e : Option ErrorInfo) (h0 : src.getD 0 0 = 47)
    (h47 : src.getD 1 0 ≠ 47) (h42 : src.getD 1 0 ≠ 42) :
    ∃ T, (parser_create (lexer_create src e)).current_token = some T ∧
      (T.type = .TOKEN_DIVIDE ∨ T.type = .TOKEN_DIVIDE_ASSIGN) ∧ T.start = ⟨1, 1, 0⟩ ∧
      (parser_create (lexer_create src e)).lexer.error = e ∧
      (parser_create (lexer_create src e)).depth = 0 := by
  have hlt : 0 + 0 < src.length := by
    by_contra hge
    rw [List.getD_eq_default _ _ (by omega)] at h0
    cases h0
  have hnext := line_lexer_next src e none 0 0 hlt (fun i h1 h2 => absurd h2 (by omega))
    (by rw [h0]; rfl) (by rw [h0]; decide) (by rw [h0]; decide)
    (by rw [h0]; rintro ⟨-, h | h⟩ <;> contradiction)
  rw [h0, if_neg (by decide), if_neg (by decide), if_neg (by decide), if_neg (by decide),
    slash_dispatch] at hnext
  have hpp : prev_permits_regex (line_lexer src e (0 + 0 + 1) none) = false := rfl
  rw [hpp] at hnext
  simp only [Bool.false_eq_true, ↓reduceIte] at hnext
  have hcreate : lexer_create src e = line_lexer src e 0 none := rfl
  rw [parser_create, parser_advance_snd]
  dsimp only
  rw [hcreate, hnext]
  split_ifs
  · exact ⟨_, rfl, Or.inr rfl, rfl, advance_error _, rfl⟩
  · exact ⟨_, rfl, Or.inl rfl, rfl, rfl, rfl⟩

/-- A statement that starts at the token `/` or `/=` fails in
`parse_primary_expression` with `PARSER_UNEXPECTED_TOKEN` at that token. -/
theorem parse_statement_at_slash (n : Nat) (P : Parser) (T : Token)
    (hc : P.current_token = some T)
    (hty : T.type = .TOKEN_DIVIDE ∨ T.type = .TOKEN_DIVIDE_ASSIGN)
    (hd : P.depth < MAX_RECURSION_DEPTH) :
    parse_statement (n + 22) P =
      .ret false (parser_set_error P .ERROR_PARSER_UNEXPECTED_TOKEN T.start
        (cstr "Unexpected token type " ++ int_text T.type.toCtorIdx ++
          cstr " in expression")) := by
  have hu : is_unary_operator T.type = false := by rcases hty with h | h <;> rw [h] <;> rfl
  have hnew : T.type ≠ .TOKEN_NEW := by rcases hty with h | h <;> rw [h] <;> decide
  have hd' : ¬ (P.depth + 1 > MAX_RECURSION_DEPTH) := by omega
  have hprim : parse_primary_expression (n + 1) { P with depth := P.depth + 1 } =
      .ret false (parser_set_error { P with depth := P.depth + 1 } .ERROR_PARSER_UNEXPECTED_TOKEN
        T.start (cstr "Unexpected token type " ++ int_text T.type.toCtorIdx ++
          cstr " in expression")) := by
    rw [parse_primary_expression]
    dsimp only
    rw [hc]
    dsimp only
    rcases hty with h | h <;> rw [h]
  have hes := expression_statement_fails n { P with depth := P.depth + 1 } _ T hc hu hnew hprim
  rw [parse_statement]
  dsimp only
  rw [if_neg hd', hc]
  dsimp only
  have hP : ∀ X : Option ErrorInfo,
      ({ lexer := { P.lexer with error := X }, current_token := P.current_token,
         prev_token := P.prev_token, asi_allowed := P.asi_allowed,
         depth := P.depth + 1 - 1 } : Parser) =
      { P with lexer := { P.lexer with error := X } } := by
    intro X
    rw [Int.add_sub_cancel]
  rcases hty with h | h
  · rw [h] at hes ⊢
    dsimp only
    rw [← hc, hes]
    simp only [leave_statement, parser_set_error]
    rw [hP]
  · rw [h] at hes ⊢
    dsimp only
    rw [← hc, hes]
    simp only [leave_statement, parser_set_error]
    rw [hP]

/-- C38 (regex at program start). The previous-token slot of a new lexer is
null, so the first token of any source, when it starts at a slash byte, is
`DIVIDE` or `DIVIDE_ASSIGN` and never `REGEX`. Consequently every source whose
first byte is a slash that opens no comment (every program that begins with a
regex literal) is rejected: with any fuel from 23 on the run returns failure
with `PARSER_UNEXPECTED_TOKEN` at line 1, column 1, the message naming the kind
of that token (65 for `/`, 74 for `/=`). -/
theorem regex_at_program_start (src : List Nat) (e : Option ErrorInfo) :
    (lexer_create src e).prev_token = none ∧
    (∀ T, token_at src e 0 = some T → src.getD T.start.offset 0 = 47 →
      T.type = .TOKEN_DIVIDE ∨ T.type = .TOKEN_DIVIDE_ASSIGN) ∧
    (src.getD 0 0 = 47 → src.getD 1 0 ≠ 47 → src.getD 1 0 ≠ 42 →
      ∀ k, ∃ Q, parse_javascript_string (23 + k) src = .ret false Q ∧
        (Q.current_token.map (fun t => (t.type, t.start)) =
            some (.TOKEN_DIVIDE, ⟨1, 1, 0⟩) ∧
          Q.lexer.error = some
            { code := .ERROR_PARSER_UNEXPECTED_TOKEN, position := ⟨1, 1, 0⟩,
              message := cstr "Unexpected token type 65 in expression" } ∨
         Q.current_token.map (fun t => (t.type, t.start)) =
            some (.TOKEN_DIVIDE_ASSIGN, ⟨1, 1, 0⟩) ∧
          Q.lexer.error = some
            { code := .ERROR_PARSER_UNEXPECTED_TOKEN, position := ⟨1, 1, 0⟩,
              message := cstr "Unexpected token type 74 in expression" })) := by
  refine ⟨rfl, ?_, ?_⟩
  · intro T hT hs
    exact slash_without_context (lexer_create src e) (CursorInv.create src e) rfl T hT hs
  · intro h0 h47 h42 k
    obtain ⟨T, hc, hty, hst, herr, hd⟩ := parser_create_slash src (some zeroed_error) h0 h47 h42
    have hne : T.type ≠ .TOKEN_EOF ∧ T.type ≠ .TOKEN_RBRACE := by
      rcases hty with h | h <;> rw [h] <;> decide
    have hrun : parser_parse (23 + k) (parser_create (lexer_create src (some zeroed_error))) =
        .ret false (parser_set_error
          { parser_create (lexer_create src (some zeroed_error)) with depth := 0 }
          .ERROR_PARSER_UNEXPECTED_TOKEN T.start
          (cstr "Unexpected token type " ++ int_text T.type.toCtorIdx ++
            cstr " in expression")) := by
      unfold parser_parse
      rw [hc]
      dsimp only
      unfold parse_program
      rw [show 23 + k = (k + 22) + 1 by omega,
        parse_statement_list_go _ { parser_create (lexer_create src (some zeroed_error)) with
          depth := 0 } T hc hne,
        parse_statement_at_slash k { parser_create (lexer_create src (some zeroed_error)) with
          depth := 0 } T hc hty (show (0 : Int) < 1000 by decide)]
      rfl
    have hrun' : parse_javascript_string (23 + k) src = _ := hrun
    refine ⟨_, hrun', ?_⟩
    rcases hty with h | h
    · left
      refine ⟨?_, ?_⟩
      · simp only [parser_set_error, hc, Option.map_some', h, hst]
      · simp only [parser_set_error, herr, h, hst]
        decide
    · right
      refine ⟨?_, ?_⟩
      · simp only [parser_set_error, hc, Option.map_some', h, hst]
      · simp only [parser_set_error, herr, h, hst]
        decide

theorem regex_at_program_start_witness :
    ∃ Q, parse_javascript_string (23 + 0) (cstr "/abc/.test(s);") = .ret false Q ∧
      (Q.current_token.map (fun t => (t.type, t.start)) = some (.TOKEN_DIVIDE, ⟨1, 1, 0⟩) ∧
        Q.lexer.error = some
          { code := .ERROR_PARSER_UNEXPECTED_TOKEN, position := ⟨1, 1, 0⟩,
            message := cstr "Unexpected token type 65 in expression" } ∨
       Q.current_token.map (fun t => (t.type, t.start)) =
          some (.TOKEN_DIVIDE_ASSIGN, ⟨1, 1, 0⟩) ∧
        Q.lexer.error = some
          { code := .ERROR_PARSER_UNEXPECTED_TOKEN, position := ⟨1, 1, 0⟩,
            message := cstr "Unexpected token type 74 in expression" }) :=
  (regex_at_program_start (cstr "/abc/.test(s);") none).2.2 (by decide) (by decide) (by decide) 0

/-! ## Null current token, depth on exit, labels and contextual keywords -/

/-- A successful call of `parse_statement` returns in the entry state advanced by
some calls of `parser_advance`; in particular the depth counter is the one of
the entry state. -/
theorem parse_statement_reach (n : Nat) (P Q : Parser)
    (h : parse_statement n P = .ret true Q) : Reach P Q :=
  ((all_steps n).parse_statement P).reach Q h

theorem parse_statement_list_reach (n : Nat) (P Q : Parser)
    (h : parse_statement_list n P = .ret true Q) : Reach P Q :=
  ((all_steps n).parse_statement_list P).reach Q h

/-- C31, the code at the failing input `a #`: the parser is created with the
identifier `a` as current token; the call of `parser_advance` that consumes it
gets NULL from the lexer (diagnostic `LEXER_INVALID_CHAR` for `#`) and stores it
as current token; `parse_postfix_expression` then reads through the NULL
pointer. With any fuel from 40 on the run ends in that read. -/
theorem current_token_null_after_lexer_error (k : Nat) :
    ((parser_create (lexer_create (cstr "a #") (some zeroed_error))).current_token.map
        (fun t => t.type) = some .TOKEN_IDENTIFIER ∧
      (parser_advance (parser_create (lexer_create (cstr "a #") (some zeroed_error)))).1 = false ∧
      (parser_advance (parser_create (lexer_create (cstr "a #")
        (some zeroed_error)))).2.current_token = none) ∧
    (∃ P, parse_javascript_string (40 + k) (cstr "a #") = .null_deref P ∧
      P.current_token = none ∧
      P.lexer.error = some
        { code := .ERROR_LEXER_INVALID_CHAR, position := ⟨1, 3, 2⟩,
          message := cstr "Unexpected character: '#'" }) := by
  refine ⟨by decide, ?_⟩
  rw [parse_javascript_string_ends 40 k _ (by decide)]
  exact ⟨_, rfl, rfl, by decide⟩

/-- C32, the code on its exit paths. A successful call of `parse_statement`
returns with the depth counter of the entry state. The two early returns come
before the decrement: with a NULL current token (and the guard not firing) and
with the guard firing, the call returns failure with the counter one above its
entry value. The failure of a dispatched production inherits this: on
`if (a) #` the inner statement is entered with a NULL current token, and the run
that `parse_program` starts at depth 0 ends with depth 1. -/
theorem depth_on_statement_exit (n : Nat) (P : Parser) :
    (∀ Q, parse_statement n P = .ret true Q → Q.depth = P.depth) ∧
    (P.current_token = none → P.depth < MAX_RECURSION_DEPTH →
      ∃ Q, parse_statement (n + 1) P = .ret false Q ∧ Q.depth = P.depth + 1) ∧
    (∀ t, P.current_token = some t → MAX_RECURSION_DEPTH ≤ P.depth →
      ∃ Q, parse_statement (n + 1) P = .ret false Q ∧ Q.depth = P.depth + 1) ∧
    (∀ k, ∃ Q, parse_javascript_string (40 + k) (cstr "if (a) #") = .ret false Q ∧
      Q.depth = 1) := by
  refine ⟨fun Q h => (parse_statement_reach n P Q h).depth_eq, ?_, ?_, ?_⟩
  · intro hc hd
    refine ⟨{ P with depth := P.depth + 1 }, ?_, rfl⟩
    rw [parse_statement]
    dsimp only
    rw [if_neg (by omega), hc]
  · intro t hc hd
    refine ⟨parser_set_error { P with depth := P.depth + 1 } .ERROR_PARSER_UNEXPECTED_TOKEN
      t.start (cstr "Maximum recursion depth exceeded"), ?_, rfl⟩
    rw [parse_statement]
    dsimp only
    rw [if_pos (by omega)]
    simp only [with_current, hc]
  · intro k
    rw [parse_javascript_string_fuel 40 k _ false (by decide)]
    exact ⟨_, rfl, by decide⟩

theorem depth_on_statement_exit_witness :
    ∃ Q, parse_statement (0 + 1) (parser_create (lexer_create (cstr "#") (some zeroed_error))) =
        .ret false Q ∧
      Q.depth = (parser_create (lexer_create (cstr "#") (some zeroed_error))).depth + 1 :=
  (depth_on_statement_exit 0 (parser_create (lexer_create (cstr "#") (some zeroed_error)))).2.1
    (by decide) (by decide)

/-- C33, the claim's position fails: on `{ a: 1 b: 2 }` the diagnostic is at
line 1, column 4, which is the colon after `a` (the third token); the
identifier `b` at column 8 is the fifth token. -/
theorem missing_semicolon_not_at_second_label :
    (parse_javascript_string 40 (cstr "\x7b a: 1 b: 2 \x7d")).error.map (fun e => e.position) =
      some ⟨1, 4, 3⟩ ∧
    (token_at (cstr "\x7b a: 1 b: 2 \x7d") (some zeroed_error) 2).map
      (fun t => (t.type, t.start)) = some (.TOKEN_COLON, ⟨1, 4, 3⟩) ∧
    (token_at (cstr "\x7b a: 1 b: 2 \x7d") (some zeroed_error) 4).map
      (fun t => (t.type, t.value, t.start)) = some (.TOKEN_IDENTIFIER, some [98], ⟨1, 8, 7⟩) := by
  decide

/-- C33, as the code behaves: on `{ a: 1 b: 2 }` the block's first statement is
the expression statement `a`; semicolon consumption fails at the colon that
follows it, and the run returns failure with `PARSER_MISSING_SEMICOLON`,
message "Missing semicolon", at line 1, column 4, with the colon as current
token and the lexer cursor at offset 4 (nothing after the colon has been read).
This holds with any fuel from 40 on. -/
theorem missing_semicolon_at_colon (k : Nat) :
    ∃ Q, parse_javascript_string (40 + k) (cstr "\x7b a: 1 b: 2 \x7d") = .ret false Q ∧
      Q.lexer.error = some
        { code := .ERROR_PARSER_MISSING_SEMICOLON, position := ⟨1, 4, 3⟩,
          message := cstr "Missing semicolon" } ∧
      Q.current_token.map (fun t => (t.type, t.value, t.start)) =
        some (.TOKEN_COLON, some [58], ⟨1, 4, 3⟩) ∧
      Q.prev_token.map (fun t => (t.type, t.value, t.start)) =
        some (.TOKEN_IDENTIFIER, some [97], ⟨1, 3, 2⟩) ∧
      Q.lexer.current = 4 := by
  rw [parse_javascript_string_fuel 40 k _ false (by decide)]
  exact ⟨_, rfl, by decide, by decide, by decide, by decide⟩

/-- C34, counterexample: `var get = 1;` is rejected. -/
theorem contextual_keyword_not_a_binding_name :
    (parse_javascript_string 40 (cstr "var get = 1;")).success = some false ∧
    (parse_javascript_string 40 (cstr "var get = 1;")).error_code =
      some .ERROR_PARSER_EXPECTED_TOKEN := by
  decide

/-- C34, as the code behaves: each of `async`, `await`, `of`, `static`, `get`,
`set` tokenizes as its dedicated kind, and the parser does not take these kinds
for an identifier: for each such word `w`, `var w = 1;` is rejected with
`PARSER_EXPECTED_TOKEN` at line 1, column 5, `w;` with `PARSER_UNEXPECTED_TOKEN`
at line 1, column 1, and `a.w;` with `PARSER_EXPECTED_TOKEN` at line 1,
column 3 (with any fuel from 40 on). The parser names the kinds in two places:
`of` in a `for` head and `static`, `get`, `set` as the first token of a class
member. It also accepts them where it skips tokens without looking at their
kind, for instance in a class body, where any token is skipped
(`class A { async await of }`, `class A { x static }`), and in the parameter
list of a method of a class or of an object literal
(`class A { m(async, get) {} }`, `x = { m(async, get) {} };`). -/
theorem contextual_keywords_reserved (k : Nat) :
    contextual_words.map (fun w => (token_at w (some zeroed_error) 0).map (fun t => t.type)) =
      [some .TOKEN_ASYNC, some .TOKEN_AWAIT, some .TOKEN_OF, some .TOKEN_STATIC,
        some .TOKEN_GET, some .TOKEN_SET] ∧
    contextual_words.map (fun w =>
        ((parse_javascript_string (40 + k) (cstr "var " ++ w ++ cstr " = 1;")).success,
          (parse_javascript_string (40 + k) (cstr "var " ++ w ++ cstr " = 1;")).error.map
            (fun e => (e.code, e.position)))) =
      List.replicate 6 (some false, some (.ERROR_PARSER_EXPECTED_TOKEN, ⟨1, 5, 4⟩)) ∧
    contextual_words.map (fun w =>
        ((parse_javascript_string (40 + k) (w ++ cstr ";")).success,
          (parse_javascript_string (40 + k) (w ++ cstr ";")).error.map
            (fun e => (e.code, e.position)))) =
      List.replicate 6 (some false, some (.ERROR_PARSER_UNEXPECTED_TOKEN, ⟨1, 1, 0⟩)) ∧
    contextual_words.map (fun w =>
        ((parse_javascript_string (40 + k) (cstr "a." ++ w ++ cstr ";")).success,
          (parse_javascript_string (40 + k) (cstr "a." ++ w ++ cstr ";")).error.map
            (fun e => (e.code, e.position)))) =
      List.replicate 6 (some false, some (.ERROR_PARSER_EXPECTED_TOKEN, ⟨1, 3, 2⟩)) ∧
    (parse_javascript_string (40 + k) (cstr "for (var x of y) ;")).accepts ∧
    (parse_javascript_string (40 + k) (cstr "class A \x7b static m() \x7b\x7d \x7d")).accepts ∧
    (parse_javascript_string (40 + k) (cstr "class A \x7b get() \x7b\x7d \x7d")).accepts ∧
    (parse_javascript_string (40 + k) (cstr "class A \x7b set() \x7b\x7d \x7d")).accepts ∧
    (parse_javascript_string (40 + k) (cstr "class A \x7b async await of \x7d")).accepts ∧
    (parse_javascript_string (40 + k) (cstr "class A \x7b x static \x7d")).accepts ∧
    (parse_javascript_string (40 + k)
      (cstr "class A \x7b m(async, get) \x7b\x7d \x7d")).accepts ∧
    (parse_javascript_string (40 + k) (cstr "x = \x7b m(async, get) \x7b\x7d \x7d;")).accepts := by
  have hf : ∀ src, (parse_javascript_string 40 src).success = some false →
      parse_javascript_string (40 + k) src = parse_javascript_string 40 src :=
    fun src h => parse_javascript_string_fuel 40 k src false h
  have ht : ∀ src, (parse_javascript_string 40 src).success = some true →
      parse_javascript_string (40 + k) src = parse_javascript_string 40 src :=
    fun src h => parse_javascript_string_fuel 40 k src true h
  refine ⟨by decide, ?_, ?_, ?_, ?_, ?_, ?_, ?_, ?_, ?_, ?_, ?_⟩
  · simp only [contextual_words, List.map_cons, List.map_nil]
    rw [hf _ (by decide), hf _ (by decide), hf _ (by decide), hf _ (by decide),
      hf _ (by decide), hf _ (by decide)]
    decide
  · simp only [contextual_words, List.map_cons, List.map_nil]
    rw [hf _ (by decide), hf _ (by decide), hf _ (by decide), hf _ (by decide),
      hf _ (by decide), hf _ (by decide)]
    decide
  · simp only [contextual_words, List.map_cons, List.map_nil]
    rw [hf _ (by decide), hf _ (by decide), hf _ (by decide), hf _ (by decide),
      hf _ (by decide), hf _ (by decide)]
    decide
  · rw [ht _ (by decide)]
    decide
  · rw [ht _ (by decide)]
    decide
  · rw [ht _ (by decide)]
    decide
  · rw [ht _ (by decide)]
    decide
  · rw [ht _ (by decide)]
    decide
  · rw [ht _ (by decide)]
    decide
  · rw [ht _ (by decide)]
    decide
  · rw [ht _ (by decide)]
    decide

/-! ## Long programs and deep expressions -/

/-- An expression that is a single primary expression: when
`parse_primary_expression` succeeds at a token that is neither a unary operator
nor `new` and stops in front of a token that closes the expression, every level
up to `parse_expression` returns in the same state. -/
theorem expression_of_primary (n : Nat) (P Q : Parser) (T T' : Token)
    (hc : P.current_token = some T) (hu : is_unary_operator T.type = false)
    (hnew : T.type ≠ .TOKEN_NEW)
    (hprim : parse_primary_expression (n + 1) P = .ret true Q)
    (hc' : Q.current_token = some T') (ht' : continues_operand T'.type = false)
    (hcl : closes_expression T'.type = true) :
    parse_expression (n + 20) P = .ret true Q := by
  have hne : ∀ ty, continues_operand ty = true → T'.type ≠ ty :=
    fun ty h => continues_operand_ne _ _ ht' h
  have hchk : ∀ ty, continues_operand ty = true → parser_check Q ty = false :=
    fun ty h => parser_check_ne _ T' ty hc' (hne ty h)
  have hchk' : ∀ ty, closes_expression ty = false → parser_check Q ty = false :=
    fun ty h => parser_check_ne _ T' ty hc' (closes_expression_ne _ _ hcl h)
  have hmember : parse_member_expression (n + 2) P = .ret true Q := by
    rw [parse_member_expression, hprim]
    simp only [Outcome.andThen]
    rw [member_access_loop]
    simp only [hchk _ (rfl : continues_operand .TOKEN_DOT = true),
      hchk _ (rfl : continues_operand .TOKEN_LBRACKET = true),
      hchk _ (rfl : continues_operand .TOKEN_OPTIONAL_CHAIN = true), Bool.false_eq_true,
      or_self, ↓reduceIte]
  have hcall : parse_call_expression (n + 3) P = .ret true Q := by
    rw [parse_call_expression, hmember]
    simp only [Outcome.andThen]
    rw [parse_call_expression_loop]
    simp only [hchk _ (rfl : continues_operand .TOKEN_LPAREN = true), Bool.false_eq_true,
      ↓reduceIte]
  have hlhs : parse_left_hand_side_expression (n + 4) P = .ret true Q := by
    rw [parse_left_hand_side_expression]
    simp only [parser_match_ne P T _ hc hnew, Bool.false_eq_true, ↓reduceIte, hcall]
  have hpost : parse_postfix_expression (n + 5) P = .ret true Q := by
    rw [parse_postfix_expression, hlhs]
    simp only [Outcome.andThen, with_current, hc',
      hchk _ (rfl : continues_operand .TOKEN_INCREMENT = true),
      hchk _ (rfl : continues_operand .TOKEN_DECREMENT = true), Bool.false_eq_true,
      or_self, ↓reduceIte, ite_self]
  have hun : parse_unary_expression (n + 6) P = .ret true Q := by
    rw [parse_unary_expression]
    simp only [with_current, hc, hu, Bool.false_eq_true, ↓reduceIte, hpost]
  have hexp : parse_exponentiation_expression (n + 7) P = .ret true Q := by
    rw [parse_exponentiation_expression, hun]
    simp only [Outcome.andThen,
      parser_match_ne _ T' _ hc' (hne _ (rfl : continues_operand .TOKEN_EXPONENT = true)),
      Bool.false_eq_true, ↓reduceIte]
  have hmul : parse_multiplicative_expression (n + 7 + 1) P = .ret true Q := by
    rw [parse_multiplicative_expression, hexp]
    simp only [Outcome.andThen]
    rw [parse_multiplicative_expression_loop]
    simp only [hchk' _ (rfl : closes_expression .TOKEN_MULTIPLY = false),
      hchk' _ (rfl : closes_expression .TOKEN_DIVIDE = false),
      hchk' _ (rfl : closes_expression .TOKEN_MODULO = false), Bool.false_eq_true, or_self,
      ↓reduceIte]
  exact (expression_chain (n + 7) P Q T' hmul hc' hcl).2

/-- `parse_statement` at an identifier, a number or an opening parenthesis,
below the depth limit: the statement is an expression statement. -/
theorem parse_statement_default (f : Nat) (P : Parser) (t : Token)
    (hc : P.current_token = some t)
    (ht : t.type = .TOKEN_IDENTIFIER ∨ t.type = .TOKEN_NUMBER ∨ t.type = .TOKEN_LPAREN)
    (hd : ¬ P.depth + 1 > MAX_RECURSION_DEPTH) :
    parse_statement (f + 1) P =
      leave_statement (parse_expression_statement f { P with depth := P.depth + 1 }) := by
  rw [parse_statement]
  dsimp only
  rw [if_neg hd, hc]
  dsimp only
  rcases ht with h | h | h <;> rw [h]

/-- An expression statement below the recursion limit: when `parse_expression`
consumes the expression and stops at a semicolon, `parse_statement` consumes the
semicolon too and restores the depth counter. -/
theorem statement_of_expression (e : Option ErrorInfo) (f : Nat) (P : Parser)
    (a k : TokenType × Option (List Nat)) (v : Option (List Nat))
    (s ks : List (TokenType × Option (List Nat)))
    (ha : a.1 = .TOKEN_IDENTIFIER ∨ a.1 = .TOKEN_NUMBER ∨ a.1 = .TOKEN_LPAREN)
    (hdepth : P.depth + 1 ≤ 1000) (hR : Ready e P (a :: s))
    (hE : Accepts e (parse_expression f { P with depth := P.depth + 1 }) (P.depth + 1)
      ((.TOKEN_SEMICOLON, v) :: k :: ks)) :
    Accepts e (parse_statement (f + 2) P) P.depth (k :: ks) := by
  obtain ⟨T, hc, ht, -, -⟩ := hR.current_some
  obtain ⟨Q, hQ, hdQ, hRQ⟩ := hE
  have hguard : ¬ (P.depth + 1 > MAX_RECURSION_DEPTH) := by
    unfold MAX_RECURSION_DEPTH
    omega
  rw [parse_statement_default _ P T hc (by rw [ht]; exact ha) hguard, parse_expression_statement,
    hQ]
  simp only [Outcome.andThen]
  unfold parser_consume_semicolon
  rw [hRQ.check_head, if_pos (decide_eq_true rfl)]
  refine ⟨_, rfl, ?_, hRQ.advance_next.1.with_depth _⟩
  show (parser_advance Q).2.depth - 1 = P.depth
  rw [hRQ.advance_next.2]
  omega

/-- The statement `x;` (an atom and a semicolon) below the recursion limit. -/
theorem statement_atom (e : Option ErrorInfo) (n : Nat) (P : Parser)
    (a k : TokenType × Option (List Nat)) (v : Option (List Nat))
    (ks : List (TokenType × Option (List Nat)))
    (ha : a.1 = .TOKEN_IDENTIFIER ∨ a.1 = .TOKEN_NUMBER)
    (hdepth : P.depth + 1 ≤ 1000) (hR : Ready e P (a :: (.TOKEN_SEMICOLON, v) :: k :: ks)) :
    Accepts e (parse_statement (n + 22) P) P.depth (k :: ks) := by
  refine statement_of_expression e (n + 20) P a k v _ ks
    (by rcases ha with h | h <;> simp [h]) hdepth hR ?_
  have hR0 : Ready e { P with depth := P.depth + 1 } (a :: (.TOKEN_SEMICOLON, v) :: k :: ks) :=
    hR.with_depth _
  obtain ⟨T, hc, ht, -, -⟩ := hR0.current_some
  have h1 := hR0.advance_next
  obtain ⟨T1, hc1, ht1, -, -⟩ := h1.1.current_some
  have hatom : is_atom T.type = true := by rw [ht]; rcases ha with h | h <;> rw [h] <;> rfl
  obtain ⟨hu, hnew⟩ := is_atom_facts T.type hatom
  have := expression_of_primary n _ _ T T1 hc hu hnew (parse_primary_atom n _ T hc hatom) hc1
    (by rw [ht1]; rfl) (by rw [ht1]; rfl)
  exact ⟨_, this, h1.2, h1.1⟩

/-- The statement list over `j` statements `x;` and the end of input. -/
theorem statement_list_accepted (e : Option ErrorInfo) (n : Nat) :
    ∀ (j : Nat) (P : Parser), P.depth + 1 ≤ 1000 → Ready e P (statement_kinds j) →
      Accepts e (parse_statement_list (n + j + 23) P) P.depth [(.TOKEN_EOF, none)] := by
  intro j
  induction j with
  | zero =>
    intro P _ hR
    obtain ⟨T, hc, ht, -, -⟩ := hR.current_some
    rw [show n + 0 + 23 = (n + 22) + 1 by omega, parse_statement_list_stop _ P T hc (Or.inl ht)]
    exact ⟨P, rfl, rfl, hR⟩
  | succ j ih =>
    intro P hd hR
    obtain ⟨T, hc, ht, -, -⟩ := hR.current_some
    have hk : ∃ k ks, statement_kinds j = k :: ks := by
      cases j with
      | zero => exact ⟨_, _, rfl⟩
      | succ j => exact ⟨_, _, rfl⟩
    obtain ⟨k, ks, hk⟩ := hk
    rw [show n + (j + 1) + 23 = (n + j + 23) + 1 by omega,
      parse_statement_list_go _ P T hc (by rw [ht]; exact ⟨by decide, by decide⟩)]
    refine Accepts.and_then (d := P.depth) (s := statement_kinds j) ?_ ?_
    · have := statement_atom e (n + j + 1) P (.TOKEN_IDENTIFIER, some [120]) k (some [59]) ks
        (Or.inl rfl) hd (by rw [← hk]; exact hR)
      rw [show n + j + 1 + 22 = n + j + 23 by omega, ← hk] at this
      exact this
    · intro Q hdQ hRQ
      have := ih Q (by rw [hdQ]; exact hd) hRQ
      rw [hdQ] at this
      exact this

theorem repeat_source_length (w : List Nat) (n : Nat) :
    (repeat_source w n).length = w.length * n := by
  induction n with
  | zero => rfl
  | succ n ih => rw [repeat_source, List.length_append, ih, Nat.mul_succ, Nat.add_comm]

theorem repeat_source_getD (w : List Nat) (n i j : Nat) (hi : i < n) (hj : j < w.length) :
    (repeat_source w n).getD (w.length * i + j) 0 = w.getD j 0 := by
  induction n generalizing i with
  | zero => exact absurd hi (Nat.not_lt_zero _)
  | succ n ih =>
    rw [repeat_source]
    cases i with
    | zero =>
      rw [Nat.mul_zero, Nat.zero_add]
      exact List.getD_append _ _ _ _ hj
    | succ i =>
      rw [Nat.mul_succ, show w.length * i + w.length + j = w.length + (w.length * i + j) by omega,
        getD_append_offset]
      exact ih i (by omega)

theorem take_one_drop (l : List Nat) (k : Nat) (h : k < l.length) :
    (l.drop k).take 1 = [l.getD k 0] := by
  rw [List.getD_eq_getElem _ _ h]
  induction l generalizing k with
  | nil => exact absurd h (Nat.not_lt_zero _)
  | cons a l ih =>
    cases k with
    | zero => rfl
    | succ k => exact ih k (by simpa using h)

/-- The tokens of the source of `n` statements `x;`, from the statement number
`i` on. -/
theorem feeds_statements (e : Option ErrorInfo) (n : Nat) :
    ∀ (j i : Nat) (p : Option Token), i + j = n →
      Feeds e (line_lexer (repeat_source (cstr "x;") n) e (2 * i) p) (statement_kinds j) := by
  have hlen : (repeat_source (cstr "x;") n).length = 2 * n := repeat_source_length _ n
  intro j
  induction j with
  | zero =>
    intro i p hi
    rw [show 2 * i = (repeat_source (cstr "x;") n).length by rw [hlen]; omega]
    exact Feeds.line_end _ _ _
  | succ j ih =>
    intro i p hi
    have hx : (repeat_source (cstr "x;") n).getD (2 * i) 0 = 120 :=
      repeat_source_getD (cstr "x;") n i 0 (by omega) (by decide)
    have hs : (repeat_source (cstr "x;") n).getD (2 * i + 1) 0 = 59 :=
      repeat_source_getD (cstr "x;") n i 1 (by omega) (by decide)
    have step1 := line_identifier (repeat_source (cstr "x;") n) e p (2 * i) 0 1 Nat.one_pos
      (by rw [hlen]; omega) (fun a h1 h2 => absurd h2 (by omega))
      (by rw [Nat.add_zero, hx]; rfl) (fun a h1 h2 => absurd h2 (by omega))
      (fun _ => by rw [Nat.add_zero, hs]; exact ⟨rfl, by decide⟩)
    have hv : ((repeat_source (cstr "x;") n).drop (2 * i + 0)).take 1 = [120] := by
      rw [Nat.add_zero, take_one_drop _ _ (by rw [hlen]; omega), hx]
    have step1' : LineStep (repeat_source (cstr "x;") n) e (2 * i) p (2 * i + 1)
        .TOKEN_IDENTIFIER (some [120]) :=
      step1.recast rfl (by rw [is_keyword_take, hv]; rfl) (by rw [hv])
    refine Feeds.line_step step1' ?_
    intro T _
    have step2 := line_punct (repeat_source (cstr "x;") n) e (some T) (2 * i + 1) 0
      .TOKEN_SEMICOLON (by rw [hlen]; omega) (fun a h1 h2 => absurd h2 (by omega))
      (by rw [Nat.add_zero, hs]; decide) (by rw [Nat.add_zero, hs]; rfl)
    have step2' : LineStep (repeat_source (cstr "x;") n) e (2 * i + 1) (some T) (2 * (i + 1))
        .TOKEN_SEMICOLON (some [59]) :=
      step2.recast (by omega) rfl (by rw [Nat.add_zero, hs])
    refine Feeds.line_step step2' ?_
    intro T' _
    exact ih (i + 1) (some T') (by omega)

/-- A source whose tokens, followed by the end of input, are consumed by
`parse_statement_list` from depth 0 is accepted, and the run ends with the depth
counter at 0. -/
theorem program_accepted (src : List Nat) (k : TokenType × Option (List Nat))
    (ks : List (TokenType × Option (List Nat))) (f : Nat)
    (hF : Feeds (some zeroed_error) (lexer_create src (some zeroed_error)) (k :: ks))
    (hL : ∀ P, P.depth = 0 → Ready (some zeroed_error) P (k :: ks) →
      Accepts (some zeroed_error) (parse_statement_list f P) 0 [(.TOKEN_EOF, none)])
    (n : Nat) :
    (parse_javascript_string (f + n) src).accepts ∧
    ∃ Q, parse_javascript_string (f + n) src = .ret true Q ∧ Q.depth = 0 := by
  have hR := Ready.of_create hF
  obtain ⟨T, hc, ht, -, -⟩ := hR.1.current_some
  have hA : Accepts (some zeroed_error)
      (parser_parse f (parser_create (lexer_create src (some zeroed_error)))) 0
      [(.TOKEN_EOF, none)] := by
    unfold parser_parse
    rw [hc]
    dsimp only
    unfold parse_program
    exact hL _ rfl (hR.1.with_depth 0)
  have hA' : Accepts (some zeroed_error) (parse_javascript_string f src) 0
      [(.TOKEN_EOF, none)] := hA
  have hacc := hA'.outcome_accepts
  rw [parse_javascript_string_fuel _ n src true hacc.1]
  obtain ⟨Q, hQ, hd, -⟩ := hA'
  exact ⟨hacc, Q, hQ, hd⟩

/-- C39 (the depth guard limits nesting, not length). Every successful call of
`parse_statement` returns with the depth counter of its entry state. For every
`n` the program made of `n` repetitions of `x;` is accepted (success, no
diagnostic, current token `EOF`), with any fuel from `n + 23` on; this includes
`n > 1000`. Every run of `parse_javascript_string` that returns success ends
with the depth counter at 0. -/
theorem depth_guard_limits_nesting (n : Nat) :
    (∀ f P Q, parse_statement f P = .ret true Q → Q.depth = P.depth) ∧
    (∀ k, (parse_javascript_string (n + 23 + k) (repeat_source (cstr "x;") n)).accepts) ∧
    (∀ f src Q, parse_javascript_string f src = .ret true Q → Q.depth = 0) := by
  refine ⟨fun f P Q h => (parse_statement_reach f P Q h).depth_eq, ?_, ?_⟩
  · intro k
    have hF : Feeds (some zeroed_error)
        (lexer_create (repeat_source (cstr "x;") n) (some zeroed_error)) (statement_kinds n) :=
      feeds_statements (some zeroed_error) n n 0 none (by omega)
    have hL : ∀ P, P.depth = 0 → Ready (some zeroed_error) P (statement_kinds n) →
        Accepts (some zeroed_error) (parse_statement_list (n + 23) P) 0
          [(.TOKEN_EOF, none)] := by
      intro P hd hR
      have := statement_list_accepted (some zeroed_error) 0 n P (by rw [hd]; decide) hR
      rw [hd, Nat.zero_add] at this
      exact this
    cases n with
    | zero => exact (program_accepted _ _ _ _ hF hL k).1
    | succ n => exact (program_accepted _ _ _ _ hF hL k).1
  · intro f src Q h
    unfold parse_javascript_string parser_parse at h
    dsimp only at h
    split at h
    · cases h
    · unfold parse_program at h
      exact (parse_statement_list_reach f _ Q h).depth_eq

theorem depth_guard_limits_nesting_witness :
    (advance_times 2 (parser_create (lexer_create (cstr "x;") (some zeroed_error)))).depth =
      (parser_create (lexer_create (cstr "x;") (some zeroed_error))).depth :=
  (depth_guard_limits_nesting 0).1 23
    (parser_create (lexer_create (cstr "x;") (some zeroed_error)))
    (advance_times 2 (parser_create (lexer_create (cstr "x;") (some zeroed_error))))
    (by decide)

theorem nested_kinds_succ (m : Nat) (ks : List (TokenType × Option (List Nat))) :
    nested_kinds (m + 1) ks =
      (.TOKEN_LPAREN, some [40]) :: nested_kinds m ((.TOKEN_RPAREN, some [41]) :: ks) := by
  unfold nested_kinds
  rw [List.replicate_succ, List.cons_append, List.replicate_succ', List.append_assoc]
  rfl

/-- An expression of `m` nested parentheses around `1`, in front of a token that
closes it: `parse_expression` consumes it with fuel `20 * m + 20`. -/
theorem nested_expression (e : Option ErrorInfo) :
    ∀ (m n : Nat) (P : Parser) (c : TokenType × Option (List Nat))
      (ks : List (TokenType × Option (List Nat))),
      closes_expression c.1 = true → continues_operand c.1 = false →
      Ready e P (nested_kinds m (c :: ks)) →
      Accepts e (parse_expression (20 * m + 20 + n) P) P.depth (c :: ks) := by
  intro m
  induction m with
  | zero =>
    intro n P c ks hcl hco hR
    have hR0 : Ready e P ((.TOKEN_NUMBER, some [49]) :: c :: ks) := hR
    obtain ⟨T, hc, ht, -, -⟩ := hR0.current_some
    have h1 := hR0.advance_next
    obtain ⟨T1, hc1, ht1, -, -⟩ := h1.1.current_some
    have hatom : is_atom T.type = true := by rw [ht]; rfl
    obtain ⟨hu, hnew⟩ := is_atom_facts T.type hatom
    have := expression_of_primary n _ _ T T1 hc hu hnew (parse_primary_atom n _ T hc hatom) hc1
      (by rw [ht1]; exact hco) (by rw [ht1]; exact hcl)
    rw [show 20 * 0 + 20 + n = n + 20 by omega]
    exact ⟨_, this, h1.2, h1.1⟩
  | succ m ih =>
    intro n P c ks hcl hco hR
    rw [nested_kinds_succ] at hR
    obtain ⟨T, hc, ht, -, -⟩ := hR.current_some
    have ht' : T.type = .TOKEN_LPAREN := ht
    have hk : ∃ k' ks', nested_kinds m ((.TOKEN_RPAREN, some [41]) :: c :: ks) = k' :: ks' := by
      cases m with
      | zero => exact ⟨_, _, rfl⟩
      | succ m => exact ⟨_, _, nested_kinds_succ m _⟩
    obtain ⟨k', ks', hk⟩ := hk
    rw [hk] at hR
    have h1 := hR.advance_next
    rw [← hk] at h1
    have hin := ih n (parser_advance P).2 (.TOKEN_RPAREN, some [41]) (c :: ks) rfl rfl h1.1
    have hprim : Accepts e (parse_primary_expression (20 * m + 20 + n + 1) P) P.depth
        (c :: ks) := by
      rw [parse_primary_expression, hc]
      dsimp only
      rw [ht']
      dsimp only
      refine Accepts.and_then (d := P.depth)
        (s := (.TOKEN_RPAREN, some [41]) :: c :: ks) ?_ ?_
      · rw [h1.2] at hin
        exact hin
      · intro Q hd hRQ
        have := hRQ.expect_head .TOKEN_RPAREN rfl
        rw [hd] at this
        exact this
    obtain ⟨Q, hQ, hd, hRQ⟩ := hprim
    obtain ⟨T', hc', ht1, -, -⟩ := hRQ.current_some
    have := expression_of_primary (20 * m + 20 + n) P Q T T' hc (by rw [ht']; rfl)
      (by rw [ht']; decide) hQ hc' (by rw [ht1]; exact hco) (by rw [ht1]; exact hcl)
    rw [show 20 * (m + 1) + 20 + n = 20 * m + 20 + n + 20 by omega]
    exact ⟨Q, this, hd, hRQ⟩

theorem nested_source_length (n : Nat) : (nested_source n).length = 2 * n + 2 := by
  simp [nested_source]
  omega

theorem nested_source_open (n i : Nat) (h : i < n) : (nested_source n).getD i 0 = 40 := by
  unfold nested_source
  rw [List.getD_append _ _ _ _ (by simpa using h), List.getD_eq_getElem _ _ (by simpa using h)]
  simp

theorem nested_source_tail (n j : Nat) :
    (nested_source n).getD (n + j) 0 = (49 :: (List.replicate n 41 ++ [59])).getD j 0 := by
  unfold nested_source
  have := getD_append_offset (List.replicate n 40) (49 :: (List.replicate n 41 ++ [59])) j
  rw [List.length_replicate] at this
  exact this

theorem nested_source_digit (n : Nat) : (nested_source n).getD n 0 = 49 :=
  nested_source_tail n 0

theorem nested_source_close (n i : Nat) (h : i < n) :
    (nested_source n).getD (n + 1 + i) 0 = 41 := by
  rw [Nat.add_assoc, nested_source_tail, Nat.add_comm 1 i]
  show (List.replicate n 41 ++ [59]).getD i 0 = 41
  rw [List.getD_append _ _ _ _ (by simpa using h), List.getD_eq_getElem _ _ (by simpa using h)]
  simp

theorem nested_source_semicolon (n : Nat) : (nested_source n).getD (n + 1 + n) 0 = 59 := by
  rw [Nat.add_assoc, nested_source_tail, Nat.add_comm 1 n]
  show (List.replicate n 41 ++ [59]).getD n 0 = 59
  have := getD_append_offset (List.replicate n 41) [59] 0
  rw [List.length_replicate, Nat.add_zero] at this
  exact this

/-- A decimal number on a line, after `m` spaces, in front of a closing
parenthesis or a semicolon. -/
theorem line_number_closed (src : List Nat) (e : Option ErrorInfo) (p : Option Token)
    (k m n : Nat) (hn : 0 < n) (hlt : k + m + n < src.length)
    (hsp : ∀ i, k ≤ i → i < k + m → src.getD i 0 = 32)
    (hrun : ∀ i, k + m ≤ i → i < k + m + n → isdigit (src.getD i 0) = true)
    (hend : src.getD (k + m + n) 0 = 41 ∨ src.getD (k + m + n) 0 = 59) :
    LineStep src e k p (k + m + n) .TOKEN_NUMBER (some ((src.drop (k + m)).take n)) := by
  have hdig := hrun (k + m) (le_refl _) (by omega)
  obtain ⟨hw, h10, h13, h47, -, -, -, -, -, -, -, hnid⟩ := alnum_facts _ (Or.inr hdig)
  have hnext : ∀ c, (isdigit c = true ∨ c = 41 ∨ c = 59) →
      ¬ (c = 120 ∨ c = 88) ∧ ¬ (c = 98 ∨ c = 66) ∧ ¬ (c = 111 ∨ c = 79) := by
    intro c hc
    rcases hc with hc | rfl | rfl
    · simp only [isdigit, decide_eq_true_eq] at hc
      omega
    · decide
    · decide
  have hnx := hnext (src.getD (k + m + 1) 0) (by
    by_cases h1 : n = 1
    · subst h1
      exact Or.inr hend
    · exact Or.inl (hrun _ (by omega) (by omega)))
  have hradix : read_number_radix (src.getD (k + m) 0) (line_lexer src e (k + m + 1) p) =
      line_lexer src e (k + m + 1) p := by
    unfold read_number_radix
    split_ifs with c1
    · dsimp only
      rw [line_lexer_peek, Nat.add_zero]
      simp only [hnx.1, hnx.2.1, hnx.2.2, ↓reduceIte]
    · rfl
  have hloop := advance_while_loop_run isdigit src e p (n - 1) (k + m + 1)
    (src.length - (k + m + 1)) (by omega) (by omega)
    (fun i h1 h2 => by
      obtain ⟨-, a10, a13, -⟩ := alnum_facts _ (Or.inr (hrun i (by omega) (by omega)))
      exact ⟨hrun i (by omega) (by omega), a10, a13⟩)
    (by
      intro _
      rw [show k + m + 1 + (n - 1) = k + m + n by omega]
      rcases hend with h | h <;> rw [h] <;> rfl)
  rw [show k + m + 1 + (n - 1) = k + m + n by omega] at hloop
  have hterm : ∀ c, (c = 41 ∨ c = 59) → c ≠ 46 ∧ c ≠ 101 ∧ c ≠ 69 := by
    intro c hc
    rcases hc with rfl | rfl <;> decide
  obtain ⟨t46, t101, t69⟩ := hterm _ hend
  unfold LineStep
  rw [line_lexer_next src e p k m (by omega) hsp hw h10 h13 (fun h => h47 h.1),
    if_neg (hnid hdig), if_pos hdig]
  unfold read_number
  dsimp only
  rw [show (line_lexer src e (k + m + 1) p).current - 1 = k + m from rfl,
    show (line_lexer src e (k + m + 1) p).source = src from rfl, hradix]
  unfold advance_while
  rw [line_lexer_source_length,
    show (line_lexer src e (k + m + 1) p).current = k + m + 1 from rfl, hloop]
  unfold read_number_fraction read_number_exponent
  rw [line_lexer_peek, Nat.add_zero]
  simp only [t46, false_and, ↓reduceIte]
  rw [line_lexer_peek, Nat.add_zero]
  simp only [t101, t69, or_self, ↓reduceIte]
  rw [show (line_lexer src e (k + m + n) p).current = k + m + n from rfl,
    show (line_lexer src e (k + m + n) p).source = src from rfl,
    show (line_lexer src e (k + m + n) p).last_was_newline = false from rfl,
    show k + m + n - (k + m) = n by omega,
    finish_token_line _ _ _ _ _ _ _ _ _ hn]
  exact ⟨_, rfl, rfl, by simp only [token_create, hn, ↓reduceIte], rfl⟩

/-- The closing parentheses, the semicolon and the end of input of the nested
source, from the closing parenthesis number `i` on. -/
theorem feeds_nested_close (e : Option ErrorInfo) (n : Nat) :
    ∀ (j i : Nat) (p : Option Token), i + j = n →
      Feeds e (line_lexer (nested_source n) e (n + 1 + i) p)
        (List.replicate j (.TOKEN_RPAREN, some [41]) ++
          [(.TOKEN_SEMICOLON, some [59]), (.TOKEN_EOF, none)]) := by
  have hlen := nested_source_length n
  intro j
  induction j with
  | zero =>
    intro i p hi
    have hi' : i = n := by omega
    subst hi'
    have hs := nested_source_semicolon i
    have step := line_punct (nested_source i) e p (i + 1 + i) 0 .TOKEN_SEMICOLON
      (by rw [hlen]; omega) (fun a h1 h2 => absurd h2 (by omega))
      (by rw [Nat.add_zero, hs]; decide) (by rw [Nat.add_zero, hs]; rfl)
    have step' : LineStep (nested_source i) e (i + 1 + i) p (nested_source i).length
        .TOKEN_SEMICOLON (some [59]) :=
      step.recast (by rw [hlen]; omega) rfl (by rw [Nat.add_zero, hs])
    refine Feeds.line_step step' ?_
    intro T _
    exact Feeds.line_end _ _ _
  | succ j ih =>
    intro i p hi
    have hc := nested_source_close n i (by omega)
    have step := line_punct (nested_source n) e p (n + 1 + i) 0 .TOKEN_RPAREN
      (by rw [hlen]; omega) (fun a h1 h2 => absurd h2 (by omega))
      (by rw [Nat.add_zero, hc]; decide) (by rw [Nat.add_zero, hc]; rfl)
    have step' : LineStep (nested_source n) e (n + 1 + i) p (n + 1 + (i + 1))
        .TOKEN_RPAREN (some [41]) :=
      step.recast (by omega) rfl (by rw [Nat.add_zero, hc])
    rw [List.replicate_succ, List.cons_append]
    refine Feeds.line_step step' ?_
    intro T _
    exact ih (i + 1) (some T) (by omega)

/-- The tokens of the nested source from the opening parenthesis number `i`
on. -/
theorem feeds_nested_open (e : Option ErrorInfo) (n : Nat) :
    ∀ (j i : Nat) (p : Option Token), i + j = n →
      Feeds e (line_lexer (nested_source n) e i p)
        (List.replicate j (.TOKEN_LPAREN, some [40]) ++
          ((.TOKEN_NUMBER, some [49]) :: (List.replicate n (.TOKEN_RPAREN, some [41]) ++
            [(.TOKEN_SEMICOLON, some [59]), (.TOKEN_EOF, none)]))) := by
  have hlen := nested_source_length n
  intro j
  induction j with
  | zero =>
    intro i p hi
    have hi' : i = n := by omega
    subst hi'
    have hd := nested_source_digit i
    have hnext : (nested_source i).getD (i + 0 + 1) 0 = 41 ∨
        (nested_source i).getD (i + 0 + 1) 0 = 59 := by
      rw [Nat.add_zero]
      by_cases h0 : i = 0
      · right
        have := nested_source_semicolon i
        rw [show i + 1 + i = i + 1 by omega] at this
        exact this
      · left
        have := nested_source_close i 0 (by omega)
        rw [Nat.add_zero] at this
        exact this
    have step := line_number_closed (nested_source i) e p i 0 1 Nat.one_pos
      (by rw [hlen]; omega) (fun a h1 h2 => absurd h2 (by omega))
      (fun a h1 h2 => by
        have : a = i := by omega
        subst this
        rw [hd]
        rfl) hnext
    have hv : ((nested_source i).drop (i + 0)).take 1 = [49] := by
      rw [Nat.add_zero, take_one_drop _ _ (by rw [hlen]; omega), hd]
    have step' : LineStep (nested_source i) e i p (i + 1 + 0) .TOKEN_NUMBER (some [49]) :=
      step.recast rfl rfl (by rw [hv])
    refine Feeds.line_step step' ?_
    intro T _
    exact feeds_nested_close e i i 0 (some T) (by omega)
  | succ j ih =>
    intro i p hi
    have hc := nested_source_open n i (by omega)
    have step := line_punct (nested_source n) e p i 0 .TOKEN_LPAREN
      (by rw [hlen]; omega) (fun a h1 h2 => absurd h2 (by omega))
      (by rw [Nat.add_zero, hc]; decide) (by rw [Nat.add_zero, hc]; rfl)
    have step' : LineStep (nested_source n) e i p (i + 1) .TOKEN_LPAREN (some [40]) :=
      step.recast rfl rfl (by rw [Nat.add_zero, hc])
    rw [List.replicate_succ, List.cons_append]
    refine Feeds.line_step step' ?_
    intro T _
    exact ih (i + 1) (some T) (by omega)

theorem nested_kinds_head (n : Nat) (ks : List (TokenType × Option (List Nat))) :
    ∃ a s, nested_kinds n ks = a :: s ∧
      (a.1 = .TOKEN_IDENTIFIER ∨ a.1 = .TOKEN_NUMBER ∨ a.1 = .TOKEN_LPAREN) := by
  cases n with
  | zero => exact ⟨_, _, rfl, Or.inr (Or.inl rfl)⟩
  | succ n => exact ⟨_, _, nested_kinds_succ n ks, Or.inr (Or.inr rfl)⟩

/-- The descent from `parse_expression` to `parse_primary_expression` at a token
that is neither a unary operator nor `new` is a chain of 19 nested calls: when
the fuel is used up in `parse_primary_expression`, it is used up in
`parse_expression` with 19 more units. -/
theorem expression_starves (n : Nat) (P : Parser) (T : Token)
    (hc : P.current_token = some T) (hu : is_unary_operator T.type = false)
    (hnew : T.type ≠ .TOKEN_NEW)
    (hprim : parse_primary_expression n P = .out_of_fuel) :
    parse_expression (n + 19) P = .out_of_fuel := by
  have h1 : parse_member_expression (n + 1) P = .out_of_fuel := by
    rw [parse_member_expression, hprim]; rfl
  have h2 : parse_call_expression (n + 2) P = .out_of_fuel := by
    rw [parse_call_expression, h1]; rfl
  have h3 : parse_left_hand_side_expression (n + 3) P = .out_of_fuel := by
    rw [parse_left_hand_side_expression]
    simp only [parser_match_ne P T _ hc hnew, Bool.false_eq_true, ↓reduceIte, h2]
  have h4 : parse_postfix_expression (n + 4) P = .out_of_fuel := by
    rw [parse_postfix_expression, h3]; rfl
  have h5 : parse_unary_expression (n + 5) P = .out_of_fuel := by
    rw [parse_unary_expression]
    simp only [with_current, hc, hu, Bool.false_eq_true, ↓reduceIte, h4]
  have h6 : parse_exponentiation_expression (n + 6) P = .out_of_fuel := by
    rw [parse_exponentiation_expression, h5]; rfl
  have h7 : parse_multiplicative_expression (n + 7) P = .out_of_fuel := by
    rw [parse_multiplicative_expression, h6]; rfl
  have h8 : parse_additive_expression (n + 8) P = .out_of_fuel := by
    rw [parse_additive_expression, h7]; rfl
  have h9 : parse_shift_expression (n + 9) P = .out_of_fuel := by
    rw [parse_shift_expression, h8]; rfl
  have h10 : parse_relational_expression (n + 10) P = .out_of_fuel := by
    rw [parse_relational_expression, h9]; rfl
  have h11 : parse_equality_expression (n + 11) P = .out_of_fuel := by
    rw [parse_equality_expression, h10]; rfl
  have h12 : parse_bitwise_and_expression (n + 12) P = .out_of_fuel := by
    rw [parse_bitwise_and_expression, h11]; rfl
  have h13 : parse_bitwise_xor_expression (n + 13) P = .out_of_fuel := by
    rw [parse_bitwise_xor_expression, h12]; rfl
  have h14 : parse_bitwise_or_expression (n + 14) P = .out_of_fuel := by
    rw [parse_bitwise_or_expression, h13]; rfl
  have h15 : parse_logical_and_expression (n + 15) P = .out_of_fuel := by
    rw [parse_logical_and_expression, h14]; rfl
  have h16 : parse_logical_or_expression (n + 16) P = .out_of_fuel := by
    rw [parse_logical_or_expression, h15]; rfl
  have h17 : parse_conditional_expression (n + 17) P = .out_of_fuel := by
    rw [parse_conditional_expression, h16]; rfl
  have h18 : parse_assignment_expression (n + 18) P = .out_of_fuel := by
    rw [parse_assignment_expression, h17]; rfl
  rw [parse_expression, h18]; rfl

/-- In front of `m` nested parentheses around `1` the fuel `20 * m + 19` is used
up: each parenthesis adds the 20 nested calls from `parse_expression` to
`parse_primary_expression`. -/
theorem nested_expression_starves (e : Option ErrorInfo) :
    ∀ (m : Nat) (P : Parser) (c : TokenType × Option (List Nat))
      (ks : List (TokenType × Option (List Nat))),
      Ready e P (nested_kinds m (c :: ks)) →
      parse_expression (20 * m + 19) P = .out_of_fuel := by
  intro m
  induction m with
  | zero =>
    intro P c ks hR
    have hR0 : Ready e P ((.TOKEN_NUMBER, some [49]) :: c :: ks) := hR
    obtain ⟨T, hc, ht, -, -⟩ := hR0.current_some
    have ht' : T.type = .TOKEN_NUMBER := ht
    exact expression_starves 0 P T hc (by rw [ht']; rfl) (by rw [ht']; decide)
      (by rw [parse_primary_expression])
  | succ m ih =>
    intro P c ks hR
    rw [nested_kinds_succ] at hR
    obtain ⟨T, hc, ht, -, -⟩ := hR.current_some
    have ht' : T.type = .TOKEN_LPAREN := ht
    have hk : ∃ k' ks', nested_kinds m ((.TOKEN_RPAREN, some [41]) :: c :: ks) = k' :: ks' := by
      cases m with
      | zero => exact ⟨_, _, rfl⟩
      | succ m => exact ⟨_, _, nested_kinds_succ m _⟩
    obtain ⟨k', ks', hk⟩ := hk
    rw [hk] at hR
    have h1 := hR.advance_next
    rw [← hk] at h1
    have hin := ih (parser_advance P).2 (.TOKEN_RPAREN, some [41]) (c :: ks) h1.1
    have hprim : parse_primary_expression (20 * m + 19 + 1) P = .out_of_fuel := by
      rw [parse_primary_expression, hc]
      dsimp only
      rw [ht']
      dsimp only
      rw [hin]
      rfl
    have := expression_starves (20 * m + 19 + 1) P T hc (by rw [ht']; rfl)
      (by rw [ht']; decide) hprim
    rw [show 20 * (m + 1) + 19 = 20 * m + 19 + 1 + 19 by omega]
    exact this

/-- The program of `n` nested parentheses needs more than `20 * n + 22` nested
calls: with that fuel or less the run does not come to an end. -/
theorem nested_source_starves (n k : Nat) (hk : k ≤ 20 * n + 22) :
    parse_javascript_string k (nested_source n) = .out_of_fuel := by
  obtain ⟨a, s, hks, ha⟩ := nested_kinds_head n [(.TOKEN_SEMICOLON, some [59]), (.TOKEN_EOF, none)]
  have hF : Feeds (some zeroed_error) (lexer_create (nested_source n) (some zeroed_error))
      (a :: s) := by
    rw [← hks]
    exact feeds_nested_open (some zeroed_error) n n 0 none (by omega)
  have hR := Ready.of_create hF
  obtain ⟨T, hc, ht, -, -⟩ := hR.1.current_some
  have htop : parse_javascript_string (20 * n + 22) (nested_source n) = .out_of_fuel := by
    show parser_parse (20 * n + 22) (parser_create (lexer_create (nested_source n)
      (some zeroed_error))) = .out_of_fuel
    unfold parser_parse
    rw [hc]
    dsimp only
    unfold parse_program
    have hR' := hR.1.with_depth 0
    have hc0 : ({ parser_create (lexer_create (nested_source n) (some zeroed_error)) with
      depth := 0 } : Parser).current_token = some T := hc
    have hty : T.type = .TOKEN_IDENTIFIER ∨ T.type = .TOKEN_NUMBER ∨ T.type = .TOKEN_LPAREN := by
      rw [ht]; exact ha
    rw [show 20 * n + 22 = (20 * n + 21) + 1 by omega,
      parse_statement_list_go _ _ T hc0 (by
        rcases hty with h | h | h <;> rw [h] <;> exact ⟨by decide, by decide⟩),
      show 20 * n + 21 = (20 * n + 20) + 1 by omega,
      parse_statement_default _ _ T hc0 hty (show ¬ ((0 : Int) + 1 > MAX_RECURSION_DEPTH) by decide),
      show 20 * n + 20 = (20 * n + 19) + 1 by omega, parse_expression_statement,
      nested_expression_starves (some zeroed_error) n _ (.TOKEN_SEMICOLON, some [59])
        [(.TOKEN_EOF, none)] (by rw [hks]; exact hR'.with_depth _)]
    rfl
  by_contra hne
  have := parse_javascript_string_ends k (20 * n + 22 - k) (nested_source n) hne
  rw [show k + (20 * n + 22 - k) = 20 * n + 22 by omega, htop] at this
  exact hne this.symm

/-- C40, the code on nested parentheses. For every `n` the program of `n`
opening parentheses, `1`, `n` closing parentheses and `;` is one statement, and
the recursion guard, which counts in `parse_statement` only, does not fire on
it: with a stack that holds `20 * n + 23` nested calls or more the program is
accepted (success, no diagnostic, current token `EOF`) and the run ends with
the depth counter at 0, also for `n > 1000`. But the nesting is not bounded by
anything else: each parenthesis adds the 20 nested calls from `parse_expression`
down to `parse_primary_expression`, so with a stack of `20 * n + 22` calls or
fewer the run does not come to an end, and for every bound `n` on the depth of
the calls the program of `n` parentheses exceeds it. On the finite stack of
the C program the claim's acceptance for every `n` fails: deep nesting ends in
a stack overflow, which the counter `depth` is there to prevent. -/
theorem expression_nesting_unguarded (n k j : Nat) :
    (parse_javascript_string (20 * n + 23 + k) (nested_source n)).accepts ∧
    (∃ Q, parse_javascript_string (20 * n + 23 + k) (nested_source n) = .ret true Q ∧
      Q.depth = 0) ∧
    parse_javascript_string (20 * n + 22 - j) (nested_source n) = .out_of_fuel ∧
    parse_javascript_string n (nested_source n) = .out_of_fuel ∧
    (nested_source n).length = 2 * n + 2 ∧
    (cstr "((1));" = nested_source 2) := by
  refine ⟨?_, ?_, nested_source_starves n _ (Nat.sub_le _ _),
    nested_source_starves n n (by omega), nested_source_length n, by decide⟩
  all_goals
    obtain ⟨a, s, hk, ha⟩ := nested_kinds_head n [(.TOKEN_SEMICOLON, some [59]), (.TOKEN_EOF, none)]
    have hF : Feeds (some zeroed_error) (lexer_create (nested_source n) (some zeroed_error))
        (a :: s) := by
      rw [← hk]
      exact feeds_nested_open (some zeroed_error) n n 0 none (by omega)
    have hL : ∀ P, P.depth = 0 → Ready (some zeroed_error) P (a :: s) →
        Accepts (some zeroed_error) (parse_statement_list (20 * n + 23) P) 0
          [(.TOKEN_EOF, none)] := by
      intro P hd hR
      obtain ⟨T, hc, ht, -, -⟩ := hR.current_some
      have hE := nested_expression (some zeroed_error) n 0 { P with depth := P.depth + 1 }
        (.TOKEN_SEMICOLON, some [59]) [(.TOKEN_EOF, none)] rfl rfl (by
          rw [hk]
          exact hR.with_depth _)
      have hS := statement_of_expression (some zeroed_error) (20 * n + 20 + 0) P a
        (.TOKEN_EOF, none) (some [59]) s [] ha (by rw [hd]; decide) hR hE
      rw [show 20 * n + 23 = (20 * n + 20 + 0 + 2) + 1 by omega,
        parse_statement_list_go _ P T hc (by
          rw [ht]
          rcases ha with h | h | h <;> rw [h] <;> exact ⟨by decide, by decide⟩)]
      refine Accepts.and_then (d := 0) (s := [(.TOKEN_EOF, none)]) ?_ ?_
      · rw [hd] at hS
        exact hS
      · intro Q hdQ hRQ
        obtain ⟨T', hc', ht', -, -⟩ := hRQ.current_some
        rw [show 20 * n + 20 + 0 + 2 = (20 * n + 21) + 1 by omega,
          parse_statement_list_stop _ Q T' hc' (Or.inl ht')]
        exact ⟨Q, rfl, hdQ, hRQ⟩
  · exact (program_accepted _ _ _ _ hF hL k).1
  · exact (program_accepted _ _ _ _ hF hL k).2

/-! ## Progress of the tokenizer -/

theorem advance_le_length (L : Lexer) (h : L.current ≤ L.source.length) :
    (advance L).2.current ≤ (advance L).2.source.length := by
  rw [advance_source]
  by_cases hend : L.source.length ≤ L.current
  · rw [advance_at_end L hend]
    exact h
  · rcases (advance_cases L (by omega)).1 with h1 | ⟨h2, -, h10⟩
    · omega
    · have : L.current + 1 < L.source.length := by
        by_contra hge
        rw [List.getD_eq_default _ _ (by omega)] at h10
        cases h10
      omega

theorem Advances.le_length {L L' : Lexer} (h : Advances L L')
    (hle : L.current ≤ L.source.length) : L'.current ≤ L'.source.length := by
  induction h with
  | refl => exact hle
  | adv _ ih => exact advance_le_length _ ih
  | upd e f p _ ih => exact ih

theorem advance_current_lt (L : Lexer) (h : L.current < L.source_length) :
    L.current < (advance L).2.current := by
  have := advance_unread_lt L h
  have := advance_source_length L
  have := (advance_mono L).1
  omega

theorem skip_block_comment_progress (L : Lexer) (h : L.current < L.source_length) :
    L.current < (skip_block_comment L).2.current := by
  have h1 := advance_current_lt L h
  have h2 := ((Advances.one (advance L).2).trans
    (skip_block_comment_loop_advances ((advance (advance L).2).2.source_length -
      (advance (advance L).2).2.current) (advance (advance L).2).2)).mono.2.1
  unfold skip_block_comment
  dsimp only
  split
  · next L3 heq =>
    rw [heq] at h2
    exact Nat.lt_of_lt_of_le h1 h2
  · next L3 heq =>
    rw [heq] at h2
    exact Nat.lt_of_lt_of_le h1 h2

/-- When the trivia loop fails (unterminated block comment), it has consumed the
comment opener at least. -/
theorem trivia_loop_failed_progress (fuel : Nat) (L : Lexer)
    (h : (lexer_next_token_trivia_loop fuel L).1 = false) :
    L.current < (lexer_next_token_trivia_loop fuel L).2.current := by
  induction fuel generalizing L with
  | zero => cases h
  | succ n ih =>
    unfold lexer_next_token_trivia_loop at h ⊢
    dsimp only at h ⊢
    have hw : L.current ≤ (skip_whitespace L).current :=
      (skip_whitespace_loop_advances _ L).mono.2.1
    split_ifs at h ⊢ with c1 c2 c3 c4
    · have h1 := (skip_line_comment_advances (skip_whitespace L)).mono.2.1
      have h2 := ih _ h
      omega
    · have hb := skip_block_comment_progress (skip_whitespace L) (by omega)
      cases hsb : skip_block_comment (skip_whitespace L) with
      | mk b L2 =>
        rw [hsb] at h hb
        cases b with
        | false => exact Nat.lt_of_le_of_lt hw hb
        | true =>
          dsimp only at h ⊢
          have h2 := ih _ h
          exact Nat.lt_trans (Nat.lt_of_le_of_lt hw hb) h2

/-- From the state after the first byte of a token, the rest of
`lexer_next_token` only advances. -/
theorem lexer_next_token_after_first (L : Lexer)
    (ht : (lexer_next_token_trivia_loop (L.source_length - L.current) L).1 = true)
    (hlt : (token_start_state L).current < (token_start_state L).source_length) :
    Advances (advance (token_start_state L)).2 (lexer_next_token L).2 := by
  rw [lexer_next_token_eq L ht, if_neg (by omega)]
  split_ifs
  · exact (finish_token_advances _ _ _ _ (read_identifier_advances _ _)).1
  · exact (finish_token_advances _ _ _ _ (read_number_advances _ _)).1
  · exact (finish_token_advances _ _ _ _ (read_string_advances _ _ _)).1
  · exact (finish_token_advances _ _ _ _ (read_template_advances _ _)).1
  · exact (lexer_next_token_operator_advances _ _ _ _).1

/-- One call of `lexer_next_token` before the end of the source moves the cursor
forward, whether it returns a token or NULL. -/
theorem lexer_next_token_progress (L : Lexer) (h : L.current < L.source_length) :
    L.current < (lexer_next_token L).2.current := by
  cases ht : (lexer_next_token_trivia_loop (L.source_length - L.current) L).1 with
  | false =>
    have := trivia_loop_failed_progress _ L ht
    have he : (lexer_next_token L).2 =
        (lexer_next_token_trivia_loop (L.source_length - L.current) L).2 := by
      unfold lexer_next_token
      split
      · next L1 heq => rw [heq]
      · next L1 heq => rw [heq] at ht; cases ht
    rw [he]
    exact this
  | true =>
    have hS := (token_start_state_advances L).mono
    have hlen : (token_start_state L).source_length = L.source_length := by
      unfold Lexer.source_length
      rw [hS.1]
    by_cases hend : (token_start_state L).current < (token_start_state L).source_length
    · have h1 := advance_current_lt _ hend
      have h2 := (lexer_next_token_after_first L ht hend).mono.2.1
      omega
    · rw [lexer_next_token_eq L ht, if_pos (by omega)]
      show L.current < (token_start_state L).current
      omega

/-- A token that is not `EOF` is not empty: it ends behind its start. -/
theorem token_nonempty (src : List Nat) (e : Option ErrorInfo) (k : Nat) (T : Token)
    (h : token_at src e k = some T) (hne : T.type ≠ .TOKEN_EOF) :
    T.start.offset < T.end_.offset := by
  have hadv := (lexer_after_advances src e 0 k (Nat.zero_le k)).trans
    (token_start_state_advances (lexer_after src e k))
  have hinv := CursorInv.of_advances hadv (CursorInv.create src e)
  have hinv' := lexer_after_inv src e (k + 1)
  obtain ⟨hs, he⟩ := token_at_span src e k T h
  rw [hs, he, hinv.offset_eq, hinv'.offset_eq]
  unfold token_at at h
  cases ht : (lexer_next_token_trivia_loop ((lexer_after src e k).source_length -
      (lexer_after src e k).current) (lexer_after src e k)).1 with
  | false => rw [lexer_next_token_trivia_failed _ ht] at h; cases h
  | true =>
    by_cases hend : (token_start_state (lexer_after src e k)).current <
        (token_start_state (lexer_after src e k)).source_length
    · have h1 := advance_current_lt _ hend
      have h2 := (lexer_next_token_after_first _ ht hend).mono.2.1
      exact Nat.lt_of_lt_of_le h1 h2
    · rw [lexer_next_token_eq _ ht, if_pos (by omega)] at h
      simp only [Option.some.injEq] at h
      rw [← h] at hne
      exact absurd rfl hne

/-- Before the first `EOF` token, call number `k` starts at offset `k` or
later. -/
theorem cursor_after_calls (src : List Nat) (e : Option ErrorInfo) (k : Nat) :
    (∃ j, j < k ∧ (token_at src e j).map (fun t => t.type) = some .TOKEN_EOF) ∨
      k ≤ (lexer_after src e k).current := by
  induction k with
  | zero => exact Or.inr (Nat.zero_le _)
  | succ k ih =>
    rcases ih with ⟨j, hj, h⟩ | hk
    · exact Or.inl ⟨j, by omega, h⟩
    · by_cases hend : (lexer_after src e k).current < (lexer_after src e k).source_length
      · right
        have := lexer_next_token_progress _ hend
        show k + 1 ≤ (lexer_next_token (lexer_after src e k)).2.current
        omega
      · left
        refine ⟨k, Nat.lt_succ_self k, ?_⟩
        unfold token_at
        rw [lexer_next_token_at_end _ (by omega)]
        rfl

/-- C35 (tokenizer progress and termination). For every lexer state whose
cursor is inside the source, one call of `lexer_next_token` strictly increases
`current`, whether it returns a token or NULL, and `current` never exceeds the
source length. With the cursor at the end the call returns `EOF` and changes
neither `current` nor the position. Hence every token other than `EOF` ends
behind its start, and among the first `n + 1` calls on a source of `n` bytes
there is one that returns `EOF`. -/
theorem tokenizer_progress (L : Lexer) (hle : L.current ≤ L.source.length) :
    (L.current < L.source.length → L.current < (lexer_next_token L).2.current) ∧
    (lexer_next_token L).2.current ≤ L.source.length ∧
    (L.current = L.source.length →
      (lexer_next_token L).1.map (fun t => t.type) = some .TOKEN_EOF ∧
      (lexer_next_token L).2.current = L.current ∧
      (lexer_next_token L).2.position = L.position) ∧
    (∀ src e k T, token_at src e k = some T → T.type ≠ .TOKEN_EOF →
      T.start.offset < T.end_.offset) ∧
    (∀ src e, ∃ k, k ≤ src.length ∧
      (token_at src e k).map (fun t => t.type) = some .TOKEN_EOF) := by
  refine ⟨fun h => lexer_next_token_progress L h, ?_, ?_, token_nonempty, ?_⟩
  · have hadv := lexer_next_token_advances_full L
    have := hadv.le_length hle
    rw [hadv.mono.1] at this
    exact this
  · intro h
    rw [lexer_next_token_at_end L (by unfold Lexer.source_length; omega)]
    exact ⟨rfl, rfl, rfl⟩
  · intro src e
    rcases cursor_after_calls src e src.length with ⟨j, hj, h⟩ | hk
    · exact ⟨j, by omega, h⟩
    · refine ⟨src.length, le_refl _, ?_⟩
      have hsrc : (lexer_after src e src.length).source = src :=
        (lexer_after_advances src e 0 src.length (Nat.zero_le _)).source_create
      unfold token_at
      rw [lexer_next_token_at_end _ (by unfold Lexer.source_length; rw [hsrc]; exact hk)]
      rfl

theorem tokenizer_progress_witness :
    ((lexer_next_token (lexer_create (cstr "#") none)).1 = none ∧
      (lexer_create (cstr "#") none).current <
        (lexer_next_token (lexer_create (cstr "#") none)).2.current) ∧
    ((lexer_next_token (lexer_create (cstr "ab c") none)).1.map (fun t => t.type) =
        some .TOKEN_IDENTIFIER ∧
      (lexer_create (cstr "ab c") none).current <
        (lexer_next_token (lexer_create (cstr "ab c") none)).2.current) :=
  ⟨⟨by decide, (tokenizer_progress (lexer_create (cstr "#") none) (by decide)).1 (by decide)⟩,
   ⟨by decide, (tokenizer_progress (lexer_create (cstr "ab c") none) (by decide)).1
     (by decide)⟩⟩

/-! ## Lexemes are source slices -/

theorem ite_cases {α : Type} {P : α → Prop} {c : Prop} [Decidable c] {a b : α}
    (ha : c → P a) (hb : ¬ c → P b) : P (if c then a else b) := by
  split
  · exact ha ‹_›
  · exact hb ‹_›

/-- The loop of `skip_whitespace` stops at the end of the source or in front of
a byte that is no line terminator. -/
theorem skip_whitespace_loop_stops (fuel : Nat) (L : Lexer)
    (hf : L.source_length - L.current ≤ fuel)
    (hlt : (skip_whitespace_loop fuel L).current < (skip_whitespace_loop fuel L).source_length) :
    peek (skip_whitespace_loop fuel L) 0 ≠ 10 ∧ peek (skip_whitespace_loop fuel L) 0 ≠ 13 := by
  induction fuel generalizing L with
  | zero =>
    unfold skip_whitespace_loop at hlt
    omega
  | succ n ih =>
    unfold skip_whitespace_loop at hlt ⊢
    dsimp only at hlt ⊢
    by_cases hc : L.current < L.source_length
    · have hu := advance_unread_lt L hc
      rw [if_pos hc] at hlt ⊢
      split_ifs at hlt ⊢ with c1 c2
      · exact ih _ (by omega) hlt
      · exact ih _ (by omega) hlt
      · exact ⟨fun h => c2 (Or.inl h), fun h => c2 (Or.inr h)⟩
    · rw [if_neg hc] at hlt
      exact absurd hlt hc

/-- The trivia loop, when it succeeds, stops at the end of the source or in
front of a byte that is no line terminator. -/
theorem trivia_loop_stops (fuel : Nat) (L : Lexer) (hf : L.source_length - L.current ≤ fuel)
    (ht : (lexer_next_token_trivia_loop fuel L).1 = true)
    (hlt : (lexer_next_token_trivia_loop fuel L).2.current <
      (lexer_next_token_trivia_loop fuel L).2.source_length) :
    peek (lexer_next_token_trivia_loop fuel L).2 0 ≠ 10 ∧
      peek (lexer_next_token_trivia_loop fuel L).2 0 ≠ 13 := by
  induction fuel generalizing L with
  | zero =>
    unfold lexer_next_token_trivia_loop at hlt
    dsimp only at hlt
    omega
  | succ n ih =>
    unfold lexer_next_token_trivia_loop at ht hlt ⊢
    dsimp only at ht hlt ⊢
    by_cases hc : L.current < L.source_length
    · have hw := skip_whitespace_unread L
      rw [if_pos hc] at ht hlt ⊢
      by_cases c1 : (skip_whitespace L).current ≥ (skip_whitespace L).source_length
      · rw [if_pos c1] at hlt
        dsimp only at hlt
        omega
      · rw [if_neg c1] at ht hlt ⊢
        by_cases c2 : peek (skip_whitespace L) 0 = 47 ∧ peek (skip_whitespace L) 1 = 47
        · rw [if_pos c2] at ht hlt ⊢
          have := skip_line_comment_unread (skip_whitespace L) (by omega)
          exact ih _ (by omega) ht hlt
        · rw [if_neg c2] at ht hlt ⊢
          by_cases c3 : peek (skip_whitespace L) 0 = 47 ∧ peek (skip_whitespace L) 1 = 42
          · rw [if_pos c3] at ht hlt ⊢
            have hb := skip_block_comment_unread (skip_whitespace L) (by omega)
            cases hbc : skip_block_comment (skip_whitespace L) with
            | mk b L2 =>
              rw [hbc] at ht hlt hb
              cases b with
              | false => cases ht
              | true =>
                dsimp only at ht hlt hb ⊢
                exact ih _ (by omega) ht hlt
          · rw [if_neg c3] at ht hlt ⊢
            dsimp only at hlt ⊢
            exact skip_whitespace_loop_stops _ L (le_refl _) hlt
    · rw [if_neg hc] at hlt
      exact absurd hlt hc

/-- The byte at which a token starts is no line terminator, so that the first
`advance` of the token consumes exactly this byte. -/
theorem token_start_step (L : Lexer)
    (ht : (lexer_next_token_trivia_loop (L.source_length - L.current) L).1 = true)
    (hlt : (token_start_state L).current < (token_start_state L).source_length) :
    (advance (token_start_state L)).2.current = (token_start_state L).current + 1 ∧
    (advance (token_start_state L)).1 =
      (token_start_state L).source.getD (token_start_state L).current 0 := by
  have h := trivia_loop_stops _ L (le_refl _) ht hlt
  have hp : ∀ j, peek (token_start_state L) j =
      peek (lexer_next_token_trivia_loop (L.source_length - L.current) L).2 j := fun j => rfl
  rw [← hp, peek_eq, Nat.add_zero] at h
  exact advance_step _ hlt h.1 h.2

theorem finish_token_sliced (hn : Bool) (c : Nat) (r : Option Token × Lexer) (h : Sliced c r) :
    Sliced c (finish_token hn r) := by
  obtain ⟨o, L⟩ := r
  cases o with
  | none => intro T hT; cases hT
  | some t =>
    intro T hT
    simp only [finish_token, Option.some.injEq] at hT
    subst hT
    exact h t rfl

theorem token_create_sliced (L0 L : Lexer) (ty : TokenType) (start : Position) (hn : Bool)
    (hadv : Advances L0 L) (h0 : 0 < L0.current) :
    Sliced (L0.current - 1)
      (some (token_create ty (some (L.source.drop (L0.current - 1))) (L.current - (L0.current - 1))
        start L.position hn), L) := by
  have hm := hadv.mono.2.1
  intro T hT
  simp only [Option.some.injEq] at hT
  subst hT
  refine ⟨by show L0.current - 1 < L.current; omega, rfl, ?_⟩
  have hpos : L.current - (L0.current - 1) > 0 := by omega
  simp only [token_create, hpos, ↓reduceIte, List.take_take, min_self]

theorem read_identifier_sliced (L : Lexer) (start : Position) (h0 : 0 < L.current) :
    Sliced (L.current - 1) (read_identifier L start) := by
  have hadv := read_identifier_loop_advances (L.source_length - L.current) L
  unfold read_identifier
  dsimp only
  split
  · intro T hT; cases hT
  · next L1 heq =>
    rw [heq] at hadv
    exact token_create_sliced L L1 _ _ _ hadv h0

theorem read_number_sliced (L : Lexer) (start : Position) (h0 : 0 < L.current) :
    Sliced (L.current - 1) (read_number L start) := by
  unfold read_number
  dsimp only
  exact token_create_sliced L _ _ _ _
    ((((read_number_radix_advances _ L).trans (advance_while_advances _ _)).trans
      (read_number_fraction_advances _)).trans (read_number_exponent_advances _)) h0

theorem read_string_sliced (L : Lexer) (start : Position) (quote : Nat) (h0 : 0 < L.current) :
    Sliced (L.current - 1) (read_string L start quote) := by
  have hadv := read_string_loop_advances quote (L.source_length - L.current) L
  unfold read_string
  dsimp only
  split
  · intro T hT; cases hT
  · next L1 heq =>
    rw [heq] at hadv
    exact token_create_sliced L L1 _ _ _ hadv h0

theorem read_template_sliced (L : Lexer) (start : Position) (h0 : 0 < L.current) :
    Sliced (L.current - 1) (read_template L start) := by
  unfold read_template
  dsimp only
  exact token_create_sliced L _ _ _ _ (read_template_loop_advances _ L) h0

theorem read_regex_sliced (L : Lexer) (start : Position) (h0 : 0 < L.current) :
    Sliced (L.current - 1) (read_regex L start) := by
  have hadv := read_regex_loop_advances (L.source_length - L.current) L
  unfold read_regex
  dsimp only
  split
  · intro T hT; cases hT
  · next L1 heq =>
    rw [heq] at hadv
    exact token_create_sliced L L1 _ _ _ hadv h0

theorem slice_of_getD (l : List Nat) (v : List Nat) :
    ∀ c, (∀ i, i < v.length → c + i < l.length ∧ l.getD (c + i) 0 = v.getD i 0) →
      (l.drop c).take v.length = v := by
  induction v with
  | nil => intro c _; rfl
  | cons a v ih =>
    intro c h
    obtain ⟨h0, ha⟩ := h 0 (Nat.zero_lt_succ _)
    rw [Nat.add_zero] at h0 ha
    rw [List.drop_eq_getElem_cons h0, List.length_cons, List.take_succ_cons,
      ih (c + 1) (fun i hi => by
        have := h (i + 1) (Nat.succ_lt_succ hi)
        rw [show c + (i + 1) = c + 1 + i by omega] at this
        exact this)]
    rw [List.getD_eq_getElem _ _ h0] at ha
    rw [ha]
    rfl

theorem peek_in_range (L : Lexer) (j b : Nat) (h : peek L j = b) (hb : b ≠ 0) :
    L.current + j < L.source.length ∧ L.source.getD (L.current + j) 0 = b := by
  rw [peek_eq] at h
  refine ⟨?_, h⟩
  by_contra hge
  rw [List.getD_eq_default _ _ (by omega)] at h
  exact hb h.symm

/-- The token of a multi-character operator branch: its literal is the slice of
the source that the branch has matched. -/
theorem operator_token_sliced (L L' : Lexer) (ch : Nat) (w : List Nat) (ty : TokenType)
    (lit : String) (len : Nat) (start : Position) (hn : Bool)
    (h0 : 0 < L.current) (hle : L.current ≤ L.source.length)
    (hch : L.source.getD (L.current - 1) 0 = ch)
    (hw : ∀ i, i < w.length →
      L.current + i < L.source.length ∧ L.source.getD (L.current + i) 0 = w.getD i 0)
    (hc : L'.current = L.current + w.length) (hs : L'.source = L.source)
    (hlit : cstr lit = ch :: w) (hlen : len = w.length + 1) :
    Sliced (L.current - 1) (operator_token L' ty lit len start hn) := by
  intro T hT
  simp only [operator_token, Option.some.injEq] at hT
  subst hT
  have hsl := slice_of_getD L.source (ch :: w) (L.current - 1) (fun i hi => by
    cases i with
    | zero => exact ⟨by omega, by rw [Nat.add_zero]; exact hch⟩
    | succ i =>
      have := hw i (by simpa using hi)
      rw [show L.current - 1 + (i + 1) = L.current + i by omega]
      exact this)
  refine ⟨by show L.current - 1 < L'.current; omega, ?_, ?_⟩
  · show len = L'.current - (L.current - 1)
    omega
  · show (token_create ty (some (cstr lit)) len start L'.position hn).value =
      some ((L'.source.drop (L.current - 1)).take len)
    have hpos : len > 0 := by omega
    rw [hs, hlen, ← List.length_cons ch w, hsl]
    simp only [token_create, List.length_cons, Nat.succ_pos, gt_iff_lt, ↓reduceIte, hlit,
      Option.some.injEq]
    rw [← List.length_cons ch w, List.take_length]

theorem operator_two_sliced (L : Lexer) (ch a b : Nat) (ty : TokenType) (lit : String)
    (start : Position) (hn : Bool) (h0 : 0 < L.current) (hle : L.current ≤ L.source.length)
    (hch : L.source.getD (L.current - 1) 0 = ch) (hc : ch = a ∧ peek L 0 = b)
    (hb : b ≠ 0 ∧ b ≠ 10 ∧ b ≠ 13) (hlit : cstr lit = [a, b]) :
    Sliced (L.current - 1) (operator_token (advance L).2 ty lit 2 start hn) := by
  obtain ⟨rfl, hp⟩ := hc
  have h1 := advance_ordinary L (by rw [hp]; exact hb.1) (by rw [hp]; exact hb.2.1)
    (by rw [hp]; exact hb.2.2)
  refine operator_token_sliced L _ ch [b] ty lit 2 start hn h0 hle hch ?_ h1.1
    (advance_source L) hlit rfl
  intro i hi
  have : i = 0 := by simpa using hi
  subst this
  exact peek_in_range L 0 b hp hb.1

theorem operator_three_sliced (L : Lexer) (ch a b d : Nat) (ty : TokenType) (lit : String)
    (start : Position) (hn : Bool) (h0 : 0 < L.current) (hle : L.current ≤ L.source.length)
    (hch : L.source.getD (L.current - 1) 0 = ch)
    (hc : ch = a ∧ peek L 0 = b ∧ peek L 1 = d)
    (hb : b ≠ 0 ∧ b ≠ 10 ∧ b ≠ 13) (hd : d ≠ 0 ∧ d ≠ 10 ∧ d ≠ 13)
    (hlit : cstr lit = [a, b, d]) :
    Sliced (L.current - 1) (operator_token (advance (advance L).2).2 ty lit 3 start hn) := by
  obtain ⟨rfl, hp, hp1⟩ := hc
  have g0 : peek L 0 ≠ 0 := by rw [hp]; exact hb.1
  have g10 : peek L 0 ≠ 10 := by rw [hp]; exact hb.2.1
  have g13 : peek L 0 ≠ 13 := by rw [hp]; exact hb.2.2
  have h1 := advance_ordinary L g0 g10 g13
  have hq : peek (advance L).2 0 = d := by rw [peek_advance L 0 g0 g10 g13]; exact hp1
  have h2 := advance_ordinary (advance L).2 (by rw [hq]; exact hd.1) (by rw [hq]; exact hd.2.1)
    (by rw [hq]; exact hd.2.2)
  refine operator_token_sliced L _ ch [b, d] ty lit 3 start hn h0 hle hch ?_
    (by rw [h2.1, h1.1]; rfl) (by rw [advance_source, advance_source]) hlit rfl
  intro i hi
  have hi' : i < 2 := by simpa using hi
  interval_cases i
  · exact peek_in_range L 0 b hp hb.1
  · exact peek_in_range L 1 d hp1 hd.1

theorem operator_three_nested_sliced (L : Lexer) (ch a b d : Nat) (ty : TokenType)
    (lit : String) (start : Position) (hn : Bool) (h0 : 0 < L.current)
    (hle : L.current ≤ L.source.length) (hch : L.source.getD (L.current - 1) 0 = ch)
    (hc : ch = a ∧ peek L 0 = b) (hc2 : peek (advance L).2 0 = d)
    (hb : b ≠ 0 ∧ b ≠ 10 ∧ b ≠ 13) (hd : d ≠ 0 ∧ d ≠ 10 ∧ d ≠ 13)
    (hlit : cstr lit = [a, b, d]) :
    Sliced (L.current - 1) (operator_token (advance (advance L).2).2 ty lit 3 start hn) := by
  have g0 : peek L 0 ≠ 0 := by rw [hc.2]; exact hb.1
  have g10 : peek L 0 ≠ 10 := by rw [hc.2]; exact hb.2.1
  have g13 : peek L 0 ≠ 13 := by rw [hc.2]; exact hb.2.2
  rw [peek_advance L 0 g0 g10 g13] at hc2
  exact operator_three_sliced L ch a b d ty lit start hn h0 hle hch ⟨hc.1, hc.2, hc2⟩ hb hd hlit

theorem operator_four_sliced (L : Lexer) (ch a b d f : Nat) (ty : TokenType) (lit : String)
    (start : Position) (hn : Bool) (h0 : 0 < L.current) (hle : L.current ≤ L.source.length)
    (hch : L.source.getD (L.current - 1) 0 = ch)
    (hc : ch = a ∧ peek L 0 = b ∧ peek L 1 = d)
    (hc2 : peek (advance (advance L).2).2 0 = f)
    (hb : b ≠ 0 ∧ b ≠ 10 ∧ b ≠ 13) (hd : d ≠ 0 ∧ d ≠ 10 ∧ d ≠ 13)
    (hf : f ≠ 0 ∧ f ≠ 10 ∧ f ≠ 13) (hlit : cstr lit = [a, b, d, f]) :
    Sliced (L.current - 1)
      (operator_token (advance (advance (advance L).2).2).2 ty lit 4 start hn) := by
  obtain ⟨rfl, hp, hp1⟩ := hc
  have g0 : peek L 0 ≠ 0 := by rw [hp]; exact hb.1
  have g10 : peek L 0 ≠ 10 := by rw [hp]; exact hb.2.1
  have g13 : peek L 0 ≠ 13 := by rw [hp]; exact hb.2.2
  have h1 := advance_ordinary L g0 g10 g13
  have hq : peek (advance L).2 0 = d := by rw [peek_advance L 0 g0 g10 g13]; exact hp1
  have q0 : peek (advance L).2 0 ≠ 0 := by rw [hq]; exact hd.1
  have q10 : peek (advance L).2 0 ≠ 10 := by rw [hq]; exact hd.2.1
  have q13 : peek (advance L).2 0 ≠ 13 := by rw [hq]; exact hd.2.2
  have h2 := advance_ordinary (advance L).2 q0 q10 q13
  have hp2 : peek L 2 = f := by
    rw [← hc2, peek_advance (advance L).2 0 q0 q10 q13, peek_advance L 1 g0 g10 g13]
  have h3 := advance_ordinary (advance (advance L).2).2 (by rw [hc2]; exact hf.1)
    (by rw [hc2]; exact hf.2.1) (by rw [hc2]; exact hf.2.2)
  refine operator_token_sliced L _ ch [b, d, f] ty lit 4 start hn h0 hle hch ?_
    (by rw [h3.1, h2.1, h1.1]; rfl) (by rw [advance_source, advance_source, advance_source])
    hlit rfl
  intro i hi
  have hi' : i < 3 := by simpa using hi
  interval_cases i
  · exact peek_in_range L 0 b hp hb.1
  · exact peek_in_range L 1 d hp1 hd.1
  · exact peek_in_range L 2 f hp2 hf.1

theorem lexer_next_token_single_sliced (L : Lexer) (ch : Nat) (start : Position) (hn : Bool)
    (h0 : 0 < L.current) (hle : L.current ≤ L.source.length)
    (hch : L.source.getD (L.current - 1) 0 = ch) :
    Sliced (L.current - 1) (lexer_next_token_single L ch start hn) := by
  have hemit : ∀ ty, Sliced (L.current - 1)
      (some (token_create ty (some [ch, 0]) 1 start L.position hn),
        save_prev_token L (token_create ty (some [ch, 0]) 1 start L.position hn)) := by
    intro ty T hT
    simp only [Option.some.injEq] at hT
    subst hT
    refine ⟨by show L.current - 1 < L.current; omega, ?_, ?_⟩
    · show 1 = L.current - (L.current - 1)
      omega
    · show some ([ch, 0].take 1) = some ((L.source.drop (L.current - 1)).take 1)
      rw [take_one_drop _ _ (by omega), hch]
      rfl
  unfold lexer_next_token_single
  dsimp only
  split_ifs
  · exact finish_token_sliced _ _ _ (read_regex_sliced L start h0)
  · exact hemit _
  · split
    · exact hemit _
    · intro T hT; cases hT

theorem lexer_next_token_operator_sliced (L : Lexer) (ch : Nat) (start : Position) (hn : Bool)
    (h0 : 0 < L.current) (hle : L.current ≤ L.source.length)
    (hch : L.source.getD (L.current - 1) 0 = ch) :
    Sliced (L.current - 1) (lexer_next_token_operator L ch start hn) := by
  unfold lexer_next_token_operator
  dsimp only
  refine ite_cases (P := Sliced (L.current - 1)) (fun hc => ?_) (fun _ => ?_)
  · refine ite_cases (P := Sliced (L.current - 1)) (fun hc2 => ?_) (fun _ => ?_)
    · exact operator_four_sliced L ch _ _ _ _ _ _ start hn h0 hle hch hc hc2 (by decide)
        (by decide) (by decide) (by decide)
    · exact operator_three_sliced L ch _ _ _ _ _ start hn h0 hle hch hc (by decide)
        (by decide) (by decide)
  refine ite_cases (P := Sliced (L.current - 1)) (fun hc => ?_) (fun _ => ?_)
  · exact operator_three_sliced L ch _ _ _ _ _ start hn h0 hle hch hc (by decide)
      (by decide) (by decide)
  refine ite_cases (P := Sliced (L.current - 1)) (fun hc => ?_) (fun _ => ?_)
  · exact operator_three_sliced L ch _ _ _ _ _ start hn h0 hle hch hc (by decide)
      (by decide) (by decide)
  refine ite_cases (P := Sliced (L.current - 1)) (fun hc => ?_) (fun _ => ?_)
  · exact operator_three_sliced L ch _ _ _ _ _ start hn h0 hle hch hc (by decide)
      (by decide) (by decide)
  refine ite_cases (P := Sliced (L.current - 1)) (fun hc => ?_) (fun _ => ?_)
  · exact operator_three_sliced L ch _ _ _ _ _ start hn h0 hle hch hc (by decide)
      (by decide) (by decide)
  refine ite_cases (P := Sliced (L.current - 1)) (fun hc => ?_) (fun _ => ?_)
  · exact operator_three_sliced L ch _ _ _ _ _ start hn h0 hle hch hc (by decide)
      (by decide) (by decide)
  refine ite_cases (P := Sliced (L.current - 1)) (fun hc => ?_) (fun _ => ?_)
  · exact operator_three_sliced L ch _ _ _ _ _ start hn h0 hle hch hc (by decide)
      (by decide) (by decide)
  refine ite_cases (P := Sliced (L.current - 1)) (fun hc => ?_) (fun _ => ?_)
  · exact operator_three_sliced L ch _ _ _ _ _ start hn h0 hle hch hc (by decide)
      (by decide) (by decide)
  refine ite_cases (P := Sliced (L.current - 1)) (fun hc => ?_) (fun _ => ?_)
  · exact operator_two_sliced L ch _ _ _ _ start hn h0 hle hch hc (by decide) (by decide)
  refine ite_cases (P := Sliced (L.current - 1)) (fun hc => ?_) (fun _ => ?_)
  · exact operator_two_sliced L ch _ _ _ _ start hn h0 hle hch hc (by decide) (by decide)
  refine ite_cases (P := Sliced (L.current - 1)) (fun hc => ?_) (fun _ => ?_)
  · exact operator_two_sliced L ch _ _ _ _ start hn h0 hle hch hc (by decide) (by decide)
  refine ite_cases (P := Sliced (L.current - 1)) (fun hc => ?_) (fun _ => ?_)
  · exact operator_two_sliced L ch _ _ _ _ start hn h0 hle hch hc (by decide) (by decide)
  refine ite_cases (P := Sliced (L.current - 1)) (fun hc => ?_) (fun _ => ?_)
  · refine ite_cases (P := Sliced (L.current - 1)) (fun hc2 => ?_) (fun _ => ?_)
    · exact operator_three_nested_sliced L ch _ _ _ _ _ start hn h0 hle hch hc hc2 (by decide)
        (by decide) (by decide)
    · exact operator_two_sliced L ch _ _ _ _ start hn h0 hle hch hc (by decide) (by decide)
  refine ite_cases (P := Sliced (L.current - 1)) (fun hc => ?_) (fun _ => ?_)
  · refine ite_cases (P := Sliced (L.current - 1)) (fun hc2 => ?_) (fun _ => ?_)
    · exact operator_three_nested_sliced L ch _ _ _ _ _ start hn h0 hle hch hc hc2 (by decide)
        (by decide) (by decide)
    · exact operator_two_sliced L ch _ _ _ _ start hn h0 hle hch hc (by decide) (by decide)
  refine ite_cases (P := Sliced (L.current - 1)) (fun hc => ?_) (fun _ => ?_)
  · exact operator_two_sliced L ch _ _ _ _ start hn h0 hle hch hc (by decide) (by decide)
  refine ite_cases (P := Sliced (L.current - 1)) (fun hc => ?_) (fun _ => ?_)
  · exact operator_two_sliced L ch _ _ _ _ start hn h0 hle hch hc (by decide) (by decide)
  refine ite_cases (P := Sliced (L.current - 1)) (fun hc => ?_) (fun _ => ?_)
  · exact operator_two_sliced L ch _ _ _ _ start hn h0 hle hch hc (by decide) (by decide)
  refine ite_cases (P := Sliced (L.current - 1)) (fun hc => ?_) (fun _ => ?_)
  · exact operator_two_sliced L ch _ _ _ _ start hn h0 hle hch hc (by decide) (by decide)
  refine ite_cases (P := Sliced (L.current - 1)) (fun hc => ?_) (fun _ => ?_)
  · exact operator_two_sliced L ch _ _ _ _ start hn h0 hle hch hc (by decide) (by decide)
  refine ite_cases (P := Sliced (L.current - 1)) (fun hc => ?_) (fun _ => ?_)
  · exact operator_two_sliced L ch _ _ _ _ start hn h0 hle hch hc (by decide) (by decide)
  refine ite_cases (P := Sliced (L.current - 1)) (fun hc => ?_) (fun _ => ?_)
  · exact operator_two_sliced L ch _ _ _ _ start hn h0 hle hch hc (by decide) (by decide)
  refine ite_cases (P := Sliced (L.current - 1)) (fun hc => ?_) (fun _ => ?_)
  · exact operator_two_sliced L ch _ _ _ _ start hn h0 hle hch hc (by decide) (by decide)
  refine ite_cases (P := Sliced (L.current - 1)) (fun hc => ?_) (fun _ => ?_)
  · exact operator_two_sliced L ch _ _ _ _ start hn h0 hle hch hc (by decide) (by decide)
  refine ite_cases (P := Sliced (L.current - 1)) (fun hc => ?_) (fun _ => ?_)
  · exact operator_two_sliced L ch _ _ _ _ start hn h0 hle hch hc (by decide) (by decide)
  refine ite_cases (P := Sliced (L.current - 1)) (fun hc => ?_) (fun _ => ?_)
  · exact operator_two_sliced L ch _ _ _ _ start hn h0 hle hch hc (by decide) (by decide)
  refine ite_cases (P := Sliced (L.current - 1)) (fun hc => ?_) (fun _ => ?_)
  · exact operator_two_sliced L ch _ _ _ _ start hn h0 hle hch hc (by decide) (by decide)
  refine ite_cases (P := Sliced (L.current - 1)) (fun hc => ?_) (fun _ => ?_)
  · exact operator_two_sliced L ch _ _ _ _ start hn h0 hle hch hc (by decide) (by decide)
  refine ite_cases (P := Sliced (L.current - 1)) (fun hc => ?_) (fun _ => ?_)
  · exact operator_two_sliced L ch _ _ _ _ start hn h0 hle hch hc (by decide) (by decide)
  refine ite_cases (P := Sliced (L.current - 1)) (fun hc => ?_) (fun _ => ?_)
  · exact operator_two_sliced L ch _ _ _ _ start hn h0 hle hch hc (by decide) (by decide)
  refine ite_cases (P := Sliced (L.current - 1)) (fun hc => ?_) (fun _ => ?_)
  · exact operator_two_sliced L ch _ _ _ _ start hn h0 hle hch hc (by decide) (by decide)
  exact lexer_next_token_single_sliced L ch start hn h0 hle hch

/-- Every token that `lexer_next_token` builds after the first byte of a token
is the slice of the source from the start of the token to the cursor. -/
theorem lexer_next_token_sliced (L : Lexer)
    (ht : (lexer_next_token_trivia_loop (L.source_length - L.current) L).1 = true)
    (hlt : (token_start_state L).current < (token_start_state L).source_length) :
    Sliced (token_start_state L).current (lexer_next_token L) := by
  obtain ⟨hstep, hfst⟩ := token_start_step L ht hlt
  have h0 : 0 < (advance (token_start_state L)).2.current := by omega
  have hle : (advance (token_start_state L)).2.current ≤
      (advance (token_start_state L)).2.source.length := by
    rw [advance_source, hstep]
    exact hlt
  have hch : (advance (token_start_state L)).2.source.getD
      ((advance (token_start_state L)).2.current - 1) 0 = (advance (token_start_state L)).1 := by
    rw [advance_source, hstep, Nat.add_sub_cancel, hfst]
  have hc : (token_start_state L).current = (advance (token_start_state L)).2.current - 1 := by
    omega
  rw [lexer_next_token_eq L ht, if_neg (by omega), hc]
  split_ifs
  · exact finish_token_sliced _ _ _ (read_identifier_sliced _ _ h0)
  · exact finish_token_sliced _ _ _ (read_number_sliced _ _ h0)
  · exact finish_token_sliced _ _ _ (read_string_sliced _ _ _ h0)
  · exact finish_token_sliced _ _ _ (read_template_sliced _ _ h0)
  · exact lexer_next_token_operator_sliced _ _ _ _ h0 hle hch

/-- C37 (the lexeme is the exact source slice). For every token `T` returned by
a call of `lexer_next_token` on a source `src`: `T.start.offset ≤ T.end.offset ≤
length of src`, `T.length = T.end.offset - T.start.offset`, and, unless `T` is
`EOF`, the value of `T` is the slice of `src` of that length from
`T.start.offset`. The `EOF` token has no value and length 0, and its start and
end are the position of the cursor after the call. -/
theorem lexeme_is_source_slice (src : List Nat) (e : Option ErrorInfo) (k : Nat) (T : Token)
    (h : token_at src e k = some T) :
    T.start.offset ≤ T.end_.offset ∧ T.end_.offset ≤ src.length ∧
    T.length = T.end_.offset - T.start.offset ∧
    (T.type ≠ .TOKEN_EOF → T.value = some ((src.drop T.start.offset).take T.length)) ∧
    (T.type = .TOKEN_EOF → T.value = none ∧ T.length = 0 ∧ T.start = T.end_ ∧
      T.start = (lexer_after src e (k + 1)).position) := by
  have hadv := (lexer_after_advances src e 0 k (Nat.zero_le k)).trans
    (token_start_state_advances (lexer_after src e k))
  have hinvS := CursorInv.of_advances hadv (CursorInv.create src e)
  have hinvR := lexer_after_inv src e (k + 1)
  have hsrcR : (lexer_after src e (k + 1)).source = src :=
    (lexer_after_advances src e 0 (k + 1) (Nat.zero_le _)).source_create
  have hleR := hinvR.le_length
  rw [hsrcR] at hleR
  obtain ⟨hs, he⟩ := token_at_span src e k T h
  have hso : T.start.offset = (token_start_state (lexer_after src e k)).current := by
    rw [hs, hinvS.offset_eq]
  have heo : T.end_.offset = (lexer_after src e (k + 1)).current := by
    rw [he, hinvR.offset_eq]
  have hR : (lexer_next_token (lexer_after src e k)).2 = lexer_after src e (k + 1) := rfl
  have h' := h
  unfold token_at at h'
  cases ht : (lexer_next_token_trivia_loop ((lexer_after src e k).source_length -
      (lexer_after src e k).current) (lexer_after src e k)).1 with
  | false => rw [lexer_next_token_trivia_failed _ ht] at h'; cases h'
  | true =>
    by_cases hend : (token_start_state (lexer_after src e k)).current <
        (token_start_state (lexer_after src e k)).source_length
    · obtain ⟨h1, h2, h3⟩ := lexer_next_token_sliced _ ht hend T h'
      rw [hR] at h1 h2 h3
      rw [hsrcR] at h3
      rw [hso, heo]
      refine ⟨by omega, hleR, h2, fun _ => h3, ?_⟩
      intro hT
      have := (eof_token_shape src e k T h hT).2.1
      omega
    · have hres := lexer_next_token_eq _ ht
      rw [if_pos (by omega)] at hres
      rw [hres] at h'
      simp only [Option.some.injEq] at h'
      have hRS : lexer_after src e (k + 1) = token_start_state (lexer_after src e k) := by
        rw [← hR, hres]
      rw [hso, heo, hRS]
      rw [hRS] at hleR
      refine ⟨le_refl _, hleR, ?_, ?_, ?_⟩
      · rw [← h', Nat.sub_self]
        rfl
      · intro hne
        rw [← h'] at hne
        exact absurd rfl hne
      · intro _
        rw [← h']
        exact ⟨rfl, rfl, rfl, rfl⟩

theorem lexeme_is_source_slice_witness :
    token_at (cstr "a >>>= 1") none 1 = some
      { type := .TOKEN_URSHIFT_ASSIGN, value := some (cstr ">>>="), length := 4,
        start := ⟨1, 3, 2⟩, end_ := ⟨1, 7, 6⟩, preceded_by_newline := false } ∧
    (4 = 6 - 2 ∧ some (cstr ">>>=") = some (((cstr "a >>>= 1").drop 2).take 4)) :=
  ⟨by decide,
   (lexeme_is_source_slice (cstr "a >>>= 1") none 1
      { type := .TOKEN_URSHIFT_ASSIGN, value := some (cstr ">>>="), length := 4,
        start := ⟨1, 3, 2⟩, end_ := ⟨1, 7, 6⟩, preceded_by_newline := false }
      (by decide)).2.2.1,
   (lexeme_is_source_slice (cstr "a >>>= 1") none 1
      { type := .TOKEN_URSHIFT_ASSIGN, value := some (cstr ">>>="), length := 4,
        start := ⟨1, 3, 2⟩, end_ := ⟨1, 7, 6⟩, preceded_by_newline := false }
      (by decide)).2.2.2.1 (by decide)⟩

/-! ## Progress of the parser -/

theorem Consumes.on_failure (P Q : Parser) : Consumes P (.ret false Q) := by
  constructor
  intro Q' hQ
  cases hQ

theorem Consumes.on_crash (P Q : Parser) : Consumes P (.null_deref Q) := by
  constructor
  intro Q' hQ
  cases hQ

theorem Consumes.on_no_fuel (P : Parser) : Consumes P .out_of_fuel := by
  constructor
  intro Q' hQ
  cases hQ

theorem Consumes.advance_once (P : Parser) : Consumes P (.ret true (parser_advance P).2) := by
  constructor
  intro Q' hQ
  cases hQ
  exact ⟨0, rfl⟩

theorem Consumes.of_advance {P : Parser} {r : Outcome} (h : Steps (parser_advance P).2 r) :
    Consumes P r := by
  constructor
  intro Q hQ
  obtain ⟨j, hj⟩ := h.reach Q hQ
  exact ⟨j, hj⟩

theorem Consumes.andThen_left {P : Parser} {r : Outcome} {k : Parser → Outcome}
    (h1 : Consumes P r) (h2 : ∀ P1, Steps P1 (k P1)) : Consumes P (r.andThen k) := by
  constructor
  intro Q hQ
  cases r with
  | out_of_fuel => cases hQ
  | null_deref P1 => cases hQ
  | ret b P1 =>
    cases b with
    | false => cases hQ
    | true =>
      obtain ⟨i, hi⟩ := h1.reach P1 rfl
      obtain ⟨j, hj⟩ := (h2 P1).reach Q hQ
      refine ⟨i + j, ?_⟩
      rw [hj, hi, ← advance_times_add]
      congr 1
      omega

theorem Consumes.ite_consumes {P : Parser} {c : Prop} [Decidable c] {a b : Outcome}
    (h1 : Consumes P a) (h2 : Consumes P b) : Consumes P (if c then a else b) := by
  split
  · exact h1
  · exact h2

theorem Consumes.with_current_consumes {P P' : Parser} {k : Token → Outcome}
    (hk : ∀ t, Consumes P (k t)) : Consumes P (with_current P' k) := by
  unfold JSC.with_current
  split
  · exact hk _
  · exact Consumes.on_crash _ _

theorem parser_expect_consumes (P : Parser) (ty : TokenType) :
    Consumes P (parser_expect P ty) := by
  unfold parser_expect
  split
  · exact Consumes.advance_once P
  · dsimp only
    split
    · exact Consumes.on_failure _ _
    · split
      · exact Consumes.on_failure _ _
      · exact Consumes.on_crash _ _

theorem leave_statement_consumes {P : Parser} {r : Outcome}
    (h : Consumes { P with depth := P.depth + 1 } r) : Consumes P (leave_statement r) := by
  constructor
  intro Q hQ
  cases r with
  | out_of_fuel => cases hQ
  | null_deref P1 => cases hQ
  | ret b P1 =>
    cases b with
    | false => cases hQ
    | true =>
      obtain ⟨j, hj⟩ := h.reach P1 rfl
      cases hQ
      refine ⟨j, ?_⟩
      rw [hj, advance_times_with_depth]
      have := advance_times_depth (j + 1) P
      cases hP : advance_times (j + 1) P
      rw [hP] at this
      simp only [Parser.mk.injEq, true_and]
      simp only at this
      omega

theorem parse_function_declaration_consumes (n : Nat) (P : Parser) : Consumes P (parse_function_declaration n P) := by
  cases n with
  | zero => exact Consumes.on_no_fuel _
  | succ n =>
    have ih := all_steps n
    unfold JSC.parse_function_declaration
    try dsimp only
    refine Consumes.of_advance ?_
    all_goals repeat' first
      | assumption | exact Reach.here _ | exact Steps.failure _ _ | exact Steps.crash _ _
      | exact Steps.no_fuel _ | refine Steps.ret_true ?_
      | refine Steps.call (identifier_list_loop_steps _ _) ?_
      | refine Steps.call (parser_expect_steps _ _) ?_
      | refine Steps.call (ih.parse_block_statement _) ?_ | apply Steps.andThen_steps
      | apply Steps.ite_steps | apply Steps.with_current_steps | apply Reach.step_advance
      | apply Reach.step_match | apply Reach.ite_snd | apply Reach.ite_state | intro _

theorem parse_array_literal_consumes (n : Nat) (P : Parser) : Consumes P (parse_array_literal n P) := by
  cases n with
  | zero => exact Consumes.on_no_fuel _
  | succ n =>
    have ih := all_steps n
    unfold JSC.parse_array_literal
    try dsimp only
    refine Consumes.andThen_left (parser_expect_consumes _ _) (fun P1 => ?_)
    all_goals repeat' first
      | assumption | exact Reach.here _ | exact Steps.failure _ _ | exact Steps.crash _ _
      | exact Steps.no_fuel _ | refine Steps.ret_true ?_
      | refine Steps.call (parser_expect_steps _ _) ?_
      | refine Steps.call (ih.parse_array_element _) ?_
      | refine Steps.call (ih.parse_array_literal_loop _) ?_ | apply Steps.andThen_steps
      | apply Steps.ite_steps | apply Steps.with_current_steps | apply Reach.step_advance
      | apply Reach.step_match | apply Reach.ite_snd | apply Reach.ite_state | intro _

theorem parse_object_literal_consumes (n : Nat) (P : Parser) : Consumes P (parse_object_literal n P) := by
  cases n with
  | zero => exact Consumes.on_no_fuel _
  | succ n =>
    have ih := all_steps n
    unfold JSC.parse_object_literal
    try dsimp only
    refine Consumes.andThen_left (parser_expect_consumes _ _) (fun P1 => ?_)
    all_goals repeat' first
      | assumption | exact Reach.here _ | exact Steps.failure _ _ | exact Steps.crash _ _
      | exact Steps.no_fuel _ | refine Steps.ret_true ?_
      | refine Steps.call (parser_expect_steps _ _) ?_
      | refine Steps.call (ih.parse_object_literal_loop _) ?_ | apply Steps.andThen_steps
      | apply Steps.ite_steps | apply Steps.with_current_steps | apply Reach.step_advance
      | apply Reach.step_match | apply Reach.ite_snd | apply Reach.ite_state | intro _

theorem parse_primary_expression_consumes (n : Nat) (P : Parser) :
    Consumes P (parse_primary_expression n P) := by
  cases n with
  | zero => exact Consumes.on_no_fuel _
  | succ n =>
    have ih := all_steps n
    unfold JSC.parse_primary_expression
    split
    · exact Consumes.on_failure _ _
    split
    all_goals first
      | exact Consumes.on_failure _ _
      | exact Consumes.advance_once _
      | exact parse_array_literal_consumes n P
      | exact parse_object_literal_consumes n P
      | exact parse_function_declaration_consumes n P
      | skip
    refine Consumes.of_advance ?_
    all_goals repeat' first
      | assumption | exact Reach.here _ | exact Steps.failure _ _ | exact Steps.crash _ _
      | exact Steps.no_fuel _ | refine Steps.ret_true ?_
      | refine Steps.call (parser_expect_steps _ _) ?_
      | refine Steps.call (ih.parse_function_declaration _) ?_
      | refine Steps.call (ih.parse_expression _) ?_
      | refine Steps.call (ih.parse_array_literal _) ?_
      | refine Steps.call (ih.parse_object_literal _) ?_ | apply Steps.andThen_steps
      | apply Steps.ite_steps | apply Steps.with_current_steps | apply Reach.step_advance
      | apply Reach.step_match | apply Reach.ite_snd | apply Reach.ite_state | intro _

theorem parse_member_expression_consumes (n : Nat) (P : Parser) : Consumes P (parse_member_expression n P) := by
  cases n with
  | zero => exact Consumes.on_no_fuel _
  | succ n =>
    have ih := all_steps n
    unfold JSC.parse_member_expression
    try dsimp only
    refine Consumes.andThen_left (parse_primary_expression_consumes n P) (fun P1 => ?_)
    all_goals repeat' first
      | assumption | exact Reach.here _ | exact Steps.failure _ _ | exact Steps.crash _ _
      | exact Steps.no_fuel _ | refine Steps.ret_true ?_
      | refine Steps.call (ih.member_access_loop _) ?_
      | refine Steps.call (ih.parse_primary_expression _) ?_ | apply Steps.andThen_steps
      | apply Steps.ite_steps | apply Steps.with_current_steps | apply Reach.step_advance
      | apply Reach.step_match | apply Reach.ite_snd | apply Reach.ite_state | intro _

theorem parse_call_expression_consumes (n : Nat) (P : Parser) : Consumes P (parse_call_expression n P) := by
  cases n with
  | zero => exact Consumes.on_no_fuel _
  | succ n =>
    have ih := all_steps n
    unfold JSC.parse_call_expression
    try dsimp only
    refine Consumes.andThen_left (parse_member_expression_consumes n P) (fun P1 => ?_)
    all_goals repeat' first
      | assumption | exact Reach.here _ | exact Steps.failure _ _ | exact Steps.crash _ _
      | exact Steps.no_fuel _ | refine Steps.ret_true ?_
      | refine Steps.call (ih.parse_call_expression_loop _) ?_
      | refine Steps.call (ih.parse_member_expression _) ?_ | apply Steps.andThen_steps
      | apply Steps.ite_steps | apply Steps.with_current_steps | apply Reach.step_advance
      | apply Reach.step_match | apply Reach.ite_snd | apply Reach.ite_state | intro _

theorem parse_left_hand_side_expression_consumes (n : Nat) (P : Parser) :
    Consumes P (parse_left_hand_side_expression n P) := by
  cases n with
  | zero => exact Consumes.on_no_fuel _
  | succ n =>
    have ih := all_steps n
    unfold JSC.parse_left_hand_side_expression
    dsimp only
    by_cases hc : parser_check P .TOKEN_NEW = true
    · have hm : parser_match P .TOKEN_NEW = (true, (parser_advance P).2) := by
        unfold parser_match
        rw [if_pos hc]
      rw [hm]
      dsimp only
      rw [if_pos rfl]
      refine Consumes.of_advance ?_
      all_goals repeat' first
        | assumption | exact Reach.here _ | exact Steps.failure _ _ | exact Steps.crash _ _
        | exact Steps.no_fuel _ | refine Steps.ret_true ?_
        | refine Steps.call (ih.parse_arguments _) ?_
        | refine Steps.call (ih.parse_call_expression _) ?_
        | refine Steps.call (ih.parse_member_expression _) ?_ | apply Steps.andThen_steps
        | apply Steps.ite_steps | apply Steps.with_current_steps | apply Reach.step_advance
        | apply Reach.step_match | apply Reach.ite_snd | apply Reach.ite_state | intro _
    · have hm : parser_match P .TOKEN_NEW = (false, P) := by
        unfold parser_match
        rw [if_neg hc]
      rw [hm]
      dsimp only
      rw [if_neg (by decide)]
      exact parse_call_expression_consumes n P

theorem parse_postfix_expression_consumes (n : Nat) (P : Parser) : Consumes P (parse_postfix_expression n P) := by
  cases n with
  | zero => exact Consumes.on_no_fuel _
  | succ n =>
    have ih := all_steps n
    unfold JSC.parse_postfix_expression
    try dsimp only
    refine Consumes.andThen_left (parse_left_hand_side_expression_consumes n P) (fun P1 => ?_)
    all_goals repeat' first
      | assumption | exact Reach.here _ | exact Steps.failure _ _ | exact Steps.crash _ _
      | exact Steps.no_fuel _ | refine Steps.ret_true ?_
      | refine Steps.call (ih.parse_left_hand_side_expression _) ?_ | apply Steps.andThen_steps
      | apply Steps.ite_steps | apply Steps.with_current_steps | apply Reach.step_advance
      | apply Reach.step_match | apply Reach.ite_snd | apply Reach.ite_state | intro _

theorem parse_unary_expression_consumes (n : Nat) (P : Parser) :
    Consumes P (parse_unary_expression n P) := by
  cases n with
  | zero => exact Consumes.on_no_fuel _
  | succ n =>
    have ih := all_steps n
    unfold JSC.parse_unary_expression
    refine Consumes.with_current_consumes (fun t => ?_)
    refine Consumes.ite_consumes ?_ (parse_postfix_expression_consumes n P)
    exact Consumes.of_advance (ih.parse_unary_expression _)

theorem parse_exponentiation_expression_consumes (n : Nat) (P : Parser) : Consumes P (parse_exponentiation_expression n P) := by
  cases n with
  | zero => exact Consumes.on_no_fuel _
  | succ n =>
    have ih := all_steps n
    unfold JSC.parse_exponentiation_expression
    try dsimp only
    refine Consumes.andThen_left (parse_unary_expression_consumes n P) (fun P1 => ?_)
    all_goals repeat' first
      | assumption | exact Reach.here _ | exact Steps.failure _ _ | exact Steps.crash _ _
      | exact Steps.no_fuel _ | refine Steps.ret_true ?_
      | refine Steps.call (ih.parse_exponentiation_expression _) ?_
      | refine Steps.call (ih.parse_unary_expression _) ?_ | apply Steps.andThen_steps
      | apply Steps.ite_steps | apply Steps.with_current_steps | apply Reach.step_advance
      | apply Reach.step_match | apply Reach.ite_snd | apply Reach.ite_state | intro _

theorem parse_multiplicative_expression_consumes (n : Nat) (P : Parser) : Consumes P (parse_multiplicative_expression n P) := by
  cases n with
  | zero => exact Consumes.on_no_fuel _
  | succ n =>
    have ih := all_steps n
    unfold JSC.parse_multiplicative_expression
    try dsimp only
    refine Consumes.andThen_left (parse_exponentiation_expression_consumes n P) (fun P1 => ?_)
    all_goals repeat' first
      | assumption | exact Reach.here _ | exact Steps.failure _ _ | exact Steps.crash _ _
      | exact Steps.no_fuel _ | refine Steps.ret_true ?_
      | refine Steps.call (ih.parse_multiplicative_expression_loop _) ?_
      | refine Steps.call (ih.parse_exponentiation_expression _) ?_ | apply Steps.andThen_steps
      | apply Steps.ite_steps | apply Steps.with_current_steps | apply Reach.step_advance
      | apply Reach.step_match | apply Reach.ite_snd | apply Reach.ite_state | intro _

theorem parse_additive_expression_consumes (n : Nat) (P : Parser) : Consumes P (parse_additive_expression n P) := by
  cases n with
  | zero => exact Consumes.on_no_fuel _
  | succ n =>
    have ih := all_steps n
    unfold JSC.parse_additive_expression
    try dsimp only
    refine Consumes.andThen_left (parse_multiplicative_expression_consumes n P) (fun P1 => ?_)
    all_goals repeat' first
      | assumption | exact Reach.here _ | exact Steps.failure _ _ | exact Steps.crash _ _
      | exact Steps.no_fuel _ | refine Steps.ret_true ?_
      | refine Steps.call (ih.parse_additive_expression_loop _) ?_
      | refine Steps.call (ih.parse_multiplicative_expression _) ?_ | apply Steps.andThen_steps
      | apply Steps.ite_steps | apply Steps.with_current_steps | apply Reach.step_advance
      | apply Reach.step_match | apply Reach.ite_snd | apply Reach.ite_state | intro _

theorem parse_shift_expression_consumes (n : Nat) (P : Parser) : Consumes P (parse_shift_expression n P) := by
  cases n with
  | zero => exact Consumes.on_no_fuel _
  | succ n =>
    have ih := all_steps n
    unfold JSC.parse_shift_expression
    try dsimp only
    refine Consumes.andThen_left (parse_additive_expression_consumes n P) (fun P1 => ?_)
    all_goals repeat' first
      | assumption | exact Reach.here _ | exact Steps.failure _ _ | exact Steps.crash _ _
      | exact Steps.no_fuel _ | refine Steps.ret_true ?_
      | refine Steps.call (ih.parse_shift_expression_loop _) ?_
      | refine Steps.call (ih.parse_additive_expression _) ?_ | apply Steps.andThen_steps
      | apply Steps.ite_steps | apply Steps.with_current_steps | apply Reach.step_advance
      | apply Reach.step_match | apply Reach.ite_snd | apply Reach.ite_state | intro _

theorem parse_relational_expression_consumes (n : Nat) (P : Parser) : Consumes P (parse_relational_expression n P) := by
  cases n with
  | zero => exact Consumes.on_no_fuel _
  | succ n =>
    have ih := all_steps n
    unfold JSC.parse_relational_expression
    try dsimp only
    refine Consumes.andThen_left (parse_shift_expression_consumes n P) (fun P1 => ?_)
    all_goals repeat' first
      | assumption | exact Reach.here _ | exact Steps.failure _ _ | exact Steps.crash _ _
      | exact Steps.no_fuel _ | refine Steps.ret_true ?_
      | refine Steps.call (ih.parse_relational_expression_loop _) ?_
      | refine Steps.call (ih.parse_shift_expression _) ?_ | apply Steps.andThen_steps
      | apply Steps.ite_steps | apply Steps.with_current_steps | apply Reach.step_advance
      | apply Reach.step_match | apply Reach.ite_snd | apply Reach.ite_state | intro _

theorem parse_equality_expression_consumes (n : Nat) (P : Parser) : Consumes P (parse_equality_expression n P) := by
  cases n with
  | zero => exact Consumes.on_no_fuel _
  | succ n =>
    have ih := all_steps n
    unfold JSC.parse_equality_expression
    try dsimp only
    refine Consumes.andThen_left (parse_relational_expression_consumes n P) (fun P1 => ?_)
    all_goals repeat' first
      | assumption | exact Reach.here _ | exact Steps.failure _ _ | exact Steps.crash _ _
      | exact Steps.no_fuel _ | refine Steps.ret_true ?_
      | refine Steps.call (ih.parse_equality_expression_loop _) ?_
      | refine Steps.call (ih.parse_relational_expression _) ?_ | apply Steps.andThen_steps
      | apply Steps.ite_steps | apply Steps.with_current_steps | apply Reach.step_advance
      | apply Reach.step_match | apply Reach.ite_snd | apply Reach.ite_state | intro _

theorem parse_bitwise_and_expression_consumes (n : Nat) (P : Parser) : Consumes P (parse_bitwise_and_expression n P) := by
  cases n with
  | zero => exact Consumes.on_no_fuel _
  | succ n =>
    have ih := all_steps n
    unfold JSC.parse_bitwise_and_expression
    try dsimp only
    refine Consumes.andThen_left (parse_equality_expression_consumes n P) (fun P1 => ?_)
    all_goals repeat' first
      | assumption | exact Reach.here _ | exact Steps.failure _ _ | exact Steps.crash _ _
      | exact Steps.no_fuel _ | refine Steps.ret_true ?_
      | refine Steps.call (ih.parse_bitwise_and_expression_loop _) ?_
      | refine Steps.call (ih.parse_equality_expression _) ?_ | apply Steps.andThen_steps
      | apply Steps.ite_steps | apply Steps.with_current_steps | apply Reach.step_advance
      | apply Reach.step_match | apply Reach.ite_snd | apply Reach.ite_state | intro _

theorem parse_bitwise_xor_expression_consumes (n : Nat) (P : Parser) : Consumes P (parse_bitwise_xor_expression n P) := by
  cases n with
  | zero => exact Consumes.on_no_fuel _
  | succ n =>
    have ih := all_steps n
    unfold JSC.parse_bitwise_xor_expression
    try dsimp only
    refine Consumes.andThen_left (parse_bitwise_and_expression_consumes n P) (fun P1 => ?_)
    all_goals repeat' first
      | assumption | exact Reach.here _ | exact Steps.failure _ _ | exact Steps.crash _ _
      | exact Steps.no_fuel _ | refine Steps.ret_true ?_
      | refine Steps.call (ih.parse_bitwise_xor_expression_loop _) ?_
      | refine Steps.call (ih.parse_bitwise_and_expression _) ?_ | apply Steps.andThen_steps
      | apply Steps.ite_steps | apply Steps.with_current_steps | apply Reach.step_advance
      | apply Reach.step_match | apply Reach.ite_snd | apply Reach.ite_state | intro _

theorem parse_bitwise_or_expression_consumes (n : Nat) (P : Parser) : Consumes P (parse_bitwise_or_expression n P) := by
  cases n with
  | zero => exact Consumes.on_no_fuel _
  | succ n =>
    have ih := all_steps n
    unfold JSC.parse_bitwise_or_expression
    try dsimp only
    refine Consumes.andThen_left (parse_bitwise_xor_expression_consumes n P) (fun P1 => ?_)
    all_goals repeat' first
      | assumption | exact Reach.here _ | exact Steps.failure _ _ | exact Steps.crash _ _
      | exact Steps.no_fuel _ | refine Steps.ret_true ?_
      | refine Steps.call (ih.parse_bitwise_or_expression_loop _) ?_
      | refine Steps.call (ih.parse_bitwise_xor_expression _) ?_ | apply Steps.andThen_steps
      | apply Steps.ite_steps | apply Steps.with_current_steps | apply Reach.step_advance
      | apply Reach.step_match | apply Reach.ite_snd | apply Reach.ite_state | intro _

theorem parse_logical_and_expression_consumes (n : Nat) (P : Parser) : Consumes P (parse_logical_and_expression n P) := by
  cases n with
  | zero => exact Consumes.on_no_fuel _
  | succ n =>
    have ih := all_steps n
    unfold JSC.parse_logical_and_expression
    try dsimp only
    refine Consumes.andThen_left (parse_bitwise_or_expression_consumes n P) (fun P1 => ?_)
    all_goals repeat' first
      | assumption | exact Reach.here _ | exact Steps.failure _ _ | exact Steps.crash _ _
      | exact Steps.no_fuel _ | refine Steps.ret_true ?_
      | refine Steps.call (ih.parse_logical_and_expression_loop _) ?_
      | refine Steps.call (ih.parse_bitwise_or_expression _) ?_ | apply Steps.andThen_steps
      | apply Steps.ite_steps | apply Steps.with_current_steps | apply Reach.step_advance
      | apply Reach.step_match | apply Reach.ite_snd | apply Reach.ite_state | intro _

theorem parse_logical_or_expression_consumes (n : Nat) (P : Parser) : Consumes P (parse_logical_or_expression n P) := by
  cases n with
  | zero => exact Consumes.on_no_fuel _
  | succ n =>
    have ih := all_steps n
    unfold JSC.parse_logical_or_expression
    try dsimp only
    refine Consumes.andThen_left (parse_logical_and_expression_consumes n P) (fun P1 => ?_)
    all_goals repeat' first
      | assumption | exact Reach.here _ | exact Steps.failure _ _ | exact Steps.crash _ _
      | exact Steps.no_fuel _ | refine Steps.ret_true ?_
      | refine Steps.call (ih.parse_logical_or_expression_loop _) ?_
      | refine Steps.call (ih.parse_logical_and_expression _) ?_ | apply Steps.andThen_steps
      | apply Steps.ite_steps | apply Steps.with_current_steps | apply Reach.step_advance
      | apply Reach.step_match | apply Reach.ite_snd | apply Reach.ite_state | intro _

theorem parse_conditional_expression_consumes (n : Nat) (P : Parser) : Consumes P (parse_conditional_expression n P) := by
  cases n with
  | zero => exact Consumes.on_no_fuel _
  | succ n =>
    have ih := all_steps n
    unfold JSC.parse_conditional_expression
    try dsimp only
    refine Consumes.andThen_left (parse_logical_or_expression_consumes n P) (fun P1 => ?_)
    all_goals repeat' first
      | assumption | exact Reach.here _ | exact Steps.failure _ _ | exact Steps.crash _ _
      | exact Steps.no_fuel _ | refine Steps.ret_true ?_
      | refine Steps.call (parser_expect_steps _ _) ?_
      | refine Steps.call (ih.parse_assignment_expression _) ?_
      | refine Steps.call (ih.parse_logical_or_expression _) ?_ | apply Steps.andThen_steps
      | apply Steps.ite_steps | apply Steps.with_current_steps | apply Reach.step_advance
      | apply Reach.step_match | apply Reach.ite_snd | apply Reach.ite_state | intro _

theorem parse_assignment_expression_consumes (n : Nat) (P : Parser) : Consumes P (parse_assignment_expression n P) := by
  cases n with
  | zero => exact Consumes.on_no_fuel _
  | succ n =>
    have ih := all_steps n
    unfold JSC.parse_assignment_expression
    try dsimp only
    refine Consumes.andThen_left (parse_conditional_expression_consumes n P) (fun P1 => ?_)
    all_goals repeat' first
      | assumption | exact Reach.here _ | exact Steps.failure _ _ | exact Steps.crash _ _
      | exact Steps.no_fuel _ | refine Steps.ret_true ?_
      | refine Steps.call (ih.parse_assignment_expression _) ?_
      | refine Steps.call (ih.parse_conditional_expression _) ?_ | apply Steps.andThen_steps
      | apply Steps.ite_steps | apply Steps.with_current_steps | apply Reach.step_advance
      | apply Reach.step_match | apply Reach.ite_snd | apply Reach.ite_state | intro _

theorem parse_expression_consumes (n : Nat) (P : Parser) : Consumes P (parse_expression n P) := by
  cases n with
  | zero => exact Consumes.on_no_fuel _
  | succ n =>
    have ih := all_steps n
    unfold JSC.parse_expression
    try dsimp only
    refine Consumes.andThen_left (parse_assignment_expression_consumes n P) (fun P1 => ?_)
    all_goals repeat' first
      | assumption | exact Reach.here _ | exact Steps.failure _ _ | exact Steps.crash _ _
      | exact Steps.no_fuel _ | refine Steps.ret_true ?_
      | refine Steps.call (ih.comma_list_loop _) ?_
      | refine Steps.call (ih.parse_assignment_expression _) ?_ | apply Steps.andThen_steps
      | apply Steps.ite_steps | apply Steps.with_current_steps | apply Reach.step_advance
      | apply Reach.step_match | apply Reach.ite_snd | apply Reach.ite_state | intro _

theorem parse_expression_statement_consumes (n : Nat) (P : Parser) : Consumes P (parse_expression_statement n P) := by
  cases n with
  | zero => exact Consumes.on_no_fuel _
  | succ n =>
    have ih := all_steps n
    unfold JSC.parse_expression_statement
    try dsimp only
    refine Consumes.andThen_left (parse_expression_consumes n P) (fun P1 => ?_)
    all_goals repeat' first
      | assumption | exact Reach.here _ | exact Steps.failure _ _ | exact Steps.crash _ _
      | exact Steps.no_fuel _ | refine Steps.ret_true ?_
      | refine Steps.call (parser_consume_semicolon_steps _) ?_
      | refine Steps.call (ih.parse_expression _) ?_ | apply Steps.andThen_steps
      | apply Steps.ite_steps | apply Steps.with_current_steps | apply Reach.step_advance
      | apply Reach.step_match | apply Reach.ite_snd | apply Reach.ite_state | intro _

theorem parse_variable_declaration_consumes (n : Nat) (P : Parser) : Consumes P (parse_variable_declaration n P) := by
  cases n with
  | zero => exact Consumes.on_no_fuel _
  | succ n =>
    have ih := all_steps n
    unfold JSC.parse_variable_declaration
    try dsimp only
    refine Consumes.of_advance ?_
    all_goals repeat' first
      | assumption | exact Reach.here _ | exact Steps.failure _ _ | exact Steps.crash _ _
      | exact Steps.no_fuel _ | refine Steps.ret_true ?_
      | refine Steps.call (parser_expect_steps _ _) ?_
      | refine Steps.call (parser_consume_semicolon_steps _) ?_
      | refine Steps.call (ih.parse_initializer _) ?_
      | refine Steps.call (ih.parse_variable_declaration_loop _) ?_ | apply Steps.andThen_steps
      | apply Steps.ite_steps | apply Steps.with_current_steps | apply Reach.step_advance
      | apply Reach.step_match | apply Reach.ite_snd | apply Reach.ite_state | intro _

theorem parse_class_declaration_consumes (n : Nat) (P : Parser) : Consumes P (parse_class_declaration n P) := by
  cases n with
  | zero => exact Consumes.on_no_fuel _
  | succ n =>
    have ih := all_steps n
    unfold JSC.parse_class_declaration
    try dsimp only
    refine Consumes.of_advance ?_
    all_goals repeat' first
      | assumption | exact Reach.here _ | exact Steps.failure _ _ | exact Steps.crash _ _
      | exact Steps.no_fuel _ | refine Steps.ret_true ?_
      | refine Steps.call (parser_expect_steps _ _) ?_
      | refine Steps.call (ih.parse_class_declaration_loop _) ?_ | apply Steps.andThen_steps
      | apply Steps.ite_steps | apply Steps.with_current_steps | apply Reach.step_advance
      | apply Reach.step_match | apply Reach.ite_snd | apply Reach.ite_state | intro _

theorem parse_if_statement_consumes (n : Nat) (P : Parser) : Consumes P (parse_if_statement n P) := by
  cases n with
  | zero => exact Consumes.on_no_fuel _
  | succ n =>
    have ih := all_steps n
    unfold JSC.parse_if_statement
    try dsimp only
    refine Consumes.of_advance ?_
    all_goals repeat' first
      | assumption | exact Reach.here _ | exact Steps.failure _ _ | exact Steps.crash _ _
      | exact Steps.no_fuel _ | refine Steps.ret_true ?_
      | refine Steps.call (parser_expect_steps _ _) ?_
      | refine Steps.call (ih.parse_statement _) ?_ | refine Steps.call (ih.parse_expression _) ?_
      | apply Steps.andThen_steps | apply Steps.ite_steps | apply Steps.with_current_steps
      | apply Reach.step_advance | apply Reach.step_match | apply Reach.ite_snd | apply Reach.ite_state
      | intro _

theorem parse_while_statement_consumes (n : Nat) (P : Parser) : Consumes P (parse_while_statement n P) := by
  cases n with
  | zero => exact Consumes.on_no_fuel _
  | succ n =>
    have ih := all_steps n
    unfold JSC.parse_while_statement
    try dsimp only
    refine Consumes.of_advance ?_
    all_goals repeat' first
      | assumption | exact Reach.here _ | exact Steps.failure _ _ | exact Steps.crash _ _
      | exact Steps.no_fuel _ | refine Steps.ret_true ?_
      | refine Steps.call (parser_expect_steps _ _) ?_
      | refine Steps.call (ih.parse_statement _) ?_ | refine Steps.call (ih.parse_expression _) ?_
      | apply Steps.andThen_steps | apply Steps.ite_steps | apply Steps.with_current_steps
      | apply Reach.step_advance | apply Reach.step_match | apply Reach.ite_snd | apply Reach.ite_state
      | intro _

theorem parse_do_while_statement_consumes (n : Nat) (P : Parser) : Consumes P (parse_do_while_statement n P) := by
  cases n with
  | zero => exact Consumes.on_no_fuel _
  | succ n =>
    have ih := all_steps n
    unfold JSC.parse_do_while_statement
    try dsimp only
    refine Consumes.of_advance ?_
    all_goals repeat' first
      | assumption | exact Reach.here _ | exact Steps.failure _ _ | exact Steps.crash _ _
      | exact Steps.no_fuel _ | refine Steps.ret_true ?_
      | refine Steps.call (parser_expect_steps _ _) ?_
      | refine Steps.call (parser_consume_semicolon_steps _) ?_
      | refine Steps.call (ih.parse_statement _) ?_ | refine Steps.call (ih.parse_expression _) ?_
      | apply Steps.andThen_steps | apply Steps.ite_steps | apply Steps.with_current_steps
      | apply Reach.step_advance | apply Reach.step_match | apply Reach.ite_snd | apply Reach.ite_state
      | intro _

theorem parse_for_statement_consumes (n : Nat) (P : Parser) : Consumes P (parse_for_statement n P) := by
  cases n with
  | zero => exact Consumes.on_no_fuel _
  | succ n =>
    have ih := all_steps n
    unfold JSC.parse_for_statement
    try dsimp only
    refine Consumes.of_advance ?_
    all_goals repeat' first
      | assumption | exact Reach.here _ | exact Steps.failure _ _ | exact Steps.crash _ _
      | exact Steps.no_fuel _ | refine Steps.ret_true ?_
      | refine Steps.call (parser_expect_steps _ _) ?_
      | refine Steps.call (ih.parse_statement _) ?_
      | refine Steps.call (ih.parse_initializer _) ?_
      | refine Steps.call (ih.parse_for_statement_rest _) ?_
      | refine Steps.call (ih.parse_expression _) ?_ | apply Steps.andThen_steps
      | apply Steps.ite_steps | apply Steps.with_current_steps | apply Reach.step_advance
      | apply Reach.step_match | apply Reach.ite_snd | apply Reach.ite_state | intro _

theorem parse_switch_statement_consumes (n : Nat) (P : Parser) : Consumes P (parse_switch_statement n P) := by
  cases n with
  | zero => exact Consumes.on_no_fuel _
  | succ n =>
    have ih := all_steps n
    unfold JSC.parse_switch_statement
    try dsimp only
    refine Consumes.of_advance ?_
    all_goals repeat' first
      | assumption | exact Reach.here _ | exact Steps.failure _ _ | exact Steps.crash _ _
      | exact Steps.no_fuel _ | refine Steps.ret_true ?_
      | refine Steps.call (parser_expect_steps _ _) ?_
      | refine Steps.call (ih.parse_switch_statement_loop _) ?_
      | refine Steps.call (ih.parse_expression _) ?_ | apply Steps.andThen_steps
      | apply Steps.ite_steps | apply Steps.with_current_steps | apply Reach.step_advance
      | apply Reach.step_match | apply Reach.ite_snd | apply Reach.ite_state | intro _

theorem parse_return_statement_consumes (n : Nat) (P : Parser) : Consumes P (parse_return_statement n P) := by
  cases n with
  | zero => exact Consumes.on_no_fuel _
  | succ n =>
    have ih := all_steps n
    unfold JSC.parse_return_statement
    try dsimp only
    refine Consumes.of_advance ?_
    all_goals repeat' first
      | assumption | exact Reach.here _ | exact Steps.failure _ _ | exact Steps.crash _ _
      | exact Steps.no_fuel _ | refine Steps.ret_true ?_
      | refine Steps.call (parser_consume_semicolon_steps _) ?_
      | refine Steps.call (ih.parse_expression _) ?_ | apply Steps.andThen_steps
      | apply Steps.ite_steps | apply Steps.with_current_steps | apply Reach.step_advance
      | apply Reach.step_match | apply Reach.ite_snd | apply Reach.ite_state | intro _

theorem parse_break_statement_consumes (n : Nat) (P : Parser) : Consumes P (parse_break_statement n P) := by
  cases n with
  | zero => exact Consumes.on_no_fuel _
  | succ n =>
    have ih := all_steps n
    unfold JSC.parse_break_statement
    try dsimp only
    refine Consumes.of_advance ?_
    all_goals repeat' first
      | assumption | exact Reach.here _ | exact Steps.failure _ _ | exact Steps.crash _ _
      | exact Steps.no_fuel _ | refine Steps.ret_true ?_
      | refine Steps.call (parser_consume_semicolon_steps _) ?_ | apply Steps.andThen_steps
      | apply Steps.ite_steps | apply Steps.with_current_steps | apply Reach.step_advance
      | apply Reach.step_match | apply Reach.ite_snd | apply Reach.ite_state | intro _

theorem parse_continue_statement_consumes (n : Nat) (P : Parser) : Consumes P (parse_continue_statement n P) := by
  cases n with
  | zero => exact Consumes.on_no_fuel _
  | succ n =>
    have ih := all_steps n
    unfold JSC.parse_continue_statement
    try dsimp only
    refine Consumes.of_advance ?_
    all_goals repeat' first
      | assumption | exact Reach.here _ | exact Steps.failure _ _ | exact Steps.crash _ _
      | exact Steps.no_fuel _ | refine Steps.ret_true ?_
      | refine Steps.call (parser_consume_semicolon_steps _) ?_ | apply Steps.andThen_steps
      | apply Steps.ite_steps | apply Steps.with_current_steps | apply Reach.step_advance
      | apply Reach.step_match | apply Reach.ite_snd | apply Reach.ite_state | intro _

theorem parse_throw_statement_consumes (n : Nat) (P : Parser) : Consumes P (parse_throw_statement n P) := by
  cases n with
  | zero => exact Consumes.on_no_fuel _
  | succ n =>
    have ih := all_steps n
    unfold JSC.parse_throw_statement
    try dsimp only
    refine Consumes.of_advance ?_
    all_goals repeat' first
      | assumption | exact Reach.here _ | exact Steps.failure _ _ | exact Steps.crash _ _
      | exact Steps.no_fuel _ | refine Steps.ret_true ?_
      | refine Steps.call (parser_consume_semicolon_steps _) ?_
      | refine Steps.call (ih.parse_expression _) ?_ | apply Steps.andThen_steps
      | apply Steps.ite_steps | apply Steps.with_current_steps | apply Reach.step_advance
      | apply Reach.step_match | apply Reach.ite_snd | apply Reach.ite_state | intro _

theorem parse_try_statement_consumes (n : Nat) (P : Parser) : Consumes P (parse_try_statement n P) := by
  cases n with
  | zero => exact Consumes.on_no_fuel _
  | succ n =>
    have ih := all_steps n
    unfold JSC.parse_try_statement
    try dsimp only
    refine Consumes.of_advance ?_
    all_goals repeat' first
      | assumption | exact Reach.here _ | exact Steps.failure _ _ | exact Steps.crash _ _
      | exact Steps.no_fuel _ | refine Steps.ret_true ?_
      | refine Steps.call (parser_expect_steps _ _) ?_
      | refine Steps.call (ih.parse_block_statement _) ?_ | apply Steps.andThen_steps
      | apply Steps.ite_steps | apply Steps.with_current_steps | apply Reach.step_advance
      | apply Reach.step_match | apply Reach.ite_snd | apply Reach.ite_state | intro _

theorem parse_block_statement_consumes (n : Nat) (P : Parser) : Consumes P (parse_block_statement n P) := by
  cases n with
  | zero => exact Consumes.on_no_fuel _
  | succ n =>
    have ih := all_steps n
    unfold JSC.parse_block_statement
    try dsimp only
    refine Consumes.andThen_left (parser_expect_consumes _ _) (fun P1 => ?_)
    all_goals repeat' first
      | assumption | exact Reach.here _ | exact Steps.failure _ _ | exact Steps.crash _ _
      | exact Steps.no_fuel _ | refine Steps.ret_true ?_
      | refine Steps.call (parser_expect_steps _ _) ?_
      | refine Steps.call (ih.parse_statement_list _) ?_ | apply Steps.andThen_steps
      | apply Steps.ite_steps | apply Steps.with_current_steps | apply Reach.step_advance
      | apply Reach.step_match | apply Reach.ite_snd | apply Reach.ite_state | intro _

/-- A successful call of `parse_statement` has called `parser_advance` at least
once: it returns in the entry state advanced by `j + 1` calls. -/
theorem parse_statement_consumes (n : Nat) (P : Parser) : Consumes P (parse_statement n P) := by
  cases n with
  | zero => exact Consumes.on_no_fuel _
  | succ n =>
    unfold JSC.parse_statement
    dsimp only
    refine Consumes.ite_consumes ?_ ?_
    · exact Consumes.with_current_consumes fun t => Consumes.on_failure _ _
    split
    · exact Consumes.on_failure _ _
    apply leave_statement_consumes
    split
    all_goals first
      | exact parse_variable_declaration_consumes n _
      | exact parse_function_declaration_consumes n _
      | exact parse_class_declaration_consumes n _
      | exact parse_if_statement_consumes n _
      | exact parse_while_statement_consumes n _
      | exact parse_do_while_statement_consumes n _
      | exact parse_for_statement_consumes n _
      | exact parse_switch_statement_consumes n _
      | exact parse_return_statement_consumes n _
      | exact parse_break_statement_consumes n _
      | exact parse_continue_statement_consumes n _
      | exact parse_throw_statement_consumes n _
      | exact parse_try_statement_consumes n _
      | exact parse_block_statement_consumes n _
      | exact parse_expression_statement_consumes n _
      | exact Consumes.advance_once _

theorem parser_advance_lexer (P : Parser) :
    (parser_advance P).2.lexer = (lexer_next_token P.lexer).2 ∧
    (parser_advance P).2.current_token = (lexer_next_token P.lexer).1 := by
  rw [parser_advance_snd]
  exact ⟨rfl, rfl⟩

theorem advance_times_lexer (j : Nat) (P : Parser) :
    Advances P.lexer (advance_times j P).lexer := by
  induction j generalizing P with
  | zero => exact Advances.refl _
  | succ j ih =>
    rw [advance_times]
    have := ih (parser_advance P).2
    rw [(parser_advance_lexer P).1] at this
    exact (lexer_next_token_advances_full P.lexer).trans this

/-- After one or more calls of `parser_advance` the lexer offset is strictly
larger than before, unless the lexer was at the end of its source already; in
that case the current token is the `EOF` token and the offset is unchanged. -/
theorem advance_times_progress (j : Nat) (P : Parser) :
    (P.lexer.current < P.lexer.source.length →
      P.lexer.current < (advance_times (j + 1) P).lexer.current) ∧
    (P.lexer.source.length ≤ P.lexer.current →
      (advance_times (j + 1) P).current_token.map (fun t => t.type) = some .TOKEN_EOF ∧
      (advance_times (j + 1) P).lexer.current = P.lexer.current) := by
  constructor
  · intro h
    rw [advance_times]
    have h1 := lexer_next_token_progress P.lexer h
    have h2 := (advance_times_lexer j (parser_advance P).2).mono.2.1
    rw [(parser_advance_lexer P).1] at h2
    omega
  · intro h
    induction j generalizing P with
    | zero =>
      rw [advance_times, advance_times, (parser_advance_lexer P).1, (parser_advance_lexer P).2,
        lexer_next_token_at_end _ h]
      exact ⟨rfl, rfl⟩
    | succ j ih =>
      rw [advance_times]
      have hl : (parser_advance P).2.lexer = { P.lexer with last_was_newline := false } := by
        rw [(parser_advance_lexer P).1, lexer_next_token_at_end _ h]
      have := ih (parser_advance P).2 (by rw [hl]; exact h)
      rw [hl] at this
      exact this

/-- C36, the claim's measure fails: with the source `;` the parser is created
with the semicolon as current token and the lexer at offset 1, the end of the
source; `parse_statement` succeeds and consumes the semicolon, and the lexer
offset is 1 as before. -/
theorem statement_without_lexer_progress :
    (parser_create (lexer_create (cstr ";") (some zeroed_error))).current_token.map
      (fun t => t.type) = some .TOKEN_SEMICOLON ∧
    (parser_create (lexer_create (cstr ";") (some zeroed_error))).lexer.current = 1 ∧
    ∃ Q, parse_statement 1 (parser_create (lexer_create (cstr ";") (some zeroed_error))) =
        .ret true Q ∧
      Q.lexer.current = 1 ∧ Q.current_token.map (fun t => t.type) = some .TOKEN_EOF :=
  ⟨by decide, by decide, _, rfl, by decide, by decide⟩

/-! ## Termination of the parser -/

theorem lexer_next_token_source_length (L : Lexer) :
    (lexer_next_token L).2.source_length = L.source_length := by
  unfold Lexer.source_length
  rw [(lexer_next_token_advances_full L).mono.1]

theorem remaining_advance (P : Parser) : remaining (parser_advance P).2 ≤ remaining P - 1 := by
  unfold remaining
  rw [(parser_advance_lexer P).1, lexer_next_token_source_length]
  by_cases h : P.lexer.current < P.lexer.source_length
  · have := lexer_next_token_progress P.lexer h
    split_ifs <;> omega
  · have hend : P.lexer.source_length ≤ P.lexer.current := by omega
    have hc : parser_check (parser_advance P).2 .TOKEN_EOF = true := by
      unfold parser_check
      rw [(parser_advance_lexer P).2, lexer_next_token_at_end P.lexer hend]
      rfl
    rw [if_pos hc, lexer_next_token_at_end P.lexer hend]
    dsimp only
    omega

theorem remaining_pos_of_check {P : Parser} {ty : TokenType} (h : parser_check P ty = true)
    (hty : ty ≠ .TOKEN_EOF) : 1 ≤ remaining P := by
  unfold remaining
  have : ¬ parser_check P .TOKEN_EOF = true := by
    intro h2
    unfold parser_check at h h2
    cases hc : P.current_token with
    | none => rw [hc] at h; cases h
    | some t =>
      rw [hc] at h h2
      simp only [decide_eq_true_eq] at h h2
      exact hty (h.symm.trans h2)
  rw [if_neg this]
  omega

theorem remaining_pos_of_not_eof {P : Parser} (h : parser_check P .TOKEN_EOF = false) :
    1 ≤ remaining P := by
  unfold remaining
  rw [if_neg (by rw [h]; decide)]
  omega

theorem remaining_pos_of_current {P : Parser} {t : Token} (hc : P.current_token = some t)
    (hne : t.type ≠ .TOKEN_EOF) : 1 ≤ remaining P := by
  apply remaining_pos_of_not_eof
  unfold parser_check
  rw [hc]
  exact decide_eq_false hne

theorem remaining_advance_times (j : Nat) (P : Parser) :
    remaining (advance_times j P) ≤ remaining P := by
  induction j generalizing P with
  | zero => exact le_refl _
  | succ j ih =>
    rw [advance_times]
    have := ih (parser_advance P).2
    have := remaining_advance P
    omega

theorem remaining_reach {P Q : Parser} (h : Reach P Q) : remaining Q ≤ remaining P := by
  obtain ⟨j, rfl⟩ := h
  exact remaining_advance_times j P

theorem remaining_consumed (j : Nat) (P : Parser) :
    remaining (advance_times (j + 1) P) ≤ remaining P - 1 := by
  rw [advance_times]
  have := remaining_advance_times j (parser_advance P).2
  have := remaining_advance P
  omega

theorem remaining_with_depth (P : Parser) (d : Int) :
    remaining { P with depth := d } = remaining P := rfl

theorem parser_match_fst (P : Parser) (ty : TokenType) :
    (parser_match P ty).1 = parser_check P ty := by
  unfold parser_match
  split
  · next h => rw [h]
  · next h => simp only [Bool.not_eq_true] at h; rw [h]

theorem parser_match_snd (P : Parser) (ty : TokenType) :
    (parser_match P ty).2 = if parser_check P ty = true then (parser_advance P).2 else P := by
  unfold parser_match
  split <;> rfl

theorem Outcome.andThen_ite {c : Prop} [Decidable c] (a b : Outcome) (k : Parser → Outcome) :
    (if c then a else b).andThen k = if c then a.andThen k else b.andThen k := by
  split <;> rfl

theorem Outcome.andThen_assoc (r : Outcome) (k1 k2 : Parser → Outcome) :
    (r.andThen k1).andThen k2 = r.andThen fun Q => (k1 Q).andThen k2 := by
  cases r with
  | ret b P => cases b <;> rfl
  | null_deref P => rfl
  | out_of_fuel => rfl

theorem Outcome.andThen_ret_true (P : Parser) (k : Parser → Outcome) :
    (Outcome.ret true P).andThen k = k P := rfl

theorem halts_ret (b : Bool) (P : Parser) : Outcome.ret b P ≠ .out_of_fuel := by
  intro h; cases h

theorem halts_null_deref (P : Parser) : Outcome.null_deref P ≠ .out_of_fuel := by
  intro h; cases h

theorem halts_andThen {r : Outcome} {k : Parser → Outcome} (h1 : r ≠ .out_of_fuel)
    (h2 : ∀ Q, r = .ret true Q → k Q ≠ .out_of_fuel) : r.andThen k ≠ .out_of_fuel := by
  cases r with
  | out_of_fuel => exact absurd rfl h1
  | null_deref P1 => exact halts_null_deref _
  | ret b P1 =>
    cases b with
    | false => exact halts_ret _ _
    | true => exact h2 P1 rfl

theorem halts_after_steps {Y : Parser} {r : Outcome} {k : Parser → Outcome} (hs : Steps Y r)
    (h1 : r ≠ .out_of_fuel)
    (h2 : ∀ Q, remaining Q ≤ remaining Y → remaining (parser_advance Q).2 ≤ remaining Q - 1 →
      remaining (parser_advance (parser_advance Q).2).2 ≤ remaining (parser_advance Q).2 - 1 →
      k Q ≠ .out_of_fuel) : r.andThen k ≠ .out_of_fuel :=
  halts_andThen h1 fun Q hQ =>
    h2 Q (remaining_reach (hs.reach Q hQ)) (remaining_advance Q) (remaining_advance _)

theorem halts_after_consumes {Y : Parser} {r : Outcome} {k : Parser → Outcome}
    (hs : Consumes Y r) (h1 : r ≠ .out_of_fuel)
    (h2 : ∀ Q, remaining Q ≤ remaining Y - 1 → remaining (parser_advance Q).2 ≤ remaining Q - 1 →
      remaining (parser_advance (parser_advance Q).2).2 ≤ remaining (parser_advance Q).2 - 1 →
      k Q ≠ .out_of_fuel) : r.andThen k ≠ .out_of_fuel :=
  halts_andThen h1 fun Q hQ => by
    obtain ⟨j, hj⟩ := hs.reach Q hQ
    exact h2 Q (hj ▸ remaining_consumed j Y) (remaining_advance Q) (remaining_advance _)

theorem halts_expect (Y : Parser) (ty : TokenType) : parser_expect Y ty ≠ .out_of_fuel := by
  unfold parser_expect
  split
  · exact halts_ret _ _
  · dsimp only
    split
    · exact halts_ret _ _
    · split
      · exact halts_ret _ _
      · exact halts_null_deref _

theorem halts_after_expect {Y : Parser} {ty : TokenType} {k : Parser → Outcome}
    (hty : ty ≠ .TOKEN_EOF)
    (h2 : ∀ Q, remaining Q + 1 ≤ remaining Y → remaining (parser_advance Q).2 ≤ remaining Q - 1 →
      remaining (parser_advance (parser_advance Q).2).2 ≤ remaining (parser_advance Q).2 - 1 →
      k Q ≠ .out_of_fuel) : (parser_expect Y ty).andThen k ≠ .out_of_fuel := by
  refine halts_andThen (halts_expect Y ty) fun Q hQ => ?_
  unfold parser_expect at hQ
  split at hQ
  · next hc =>
    cases hQ
    have := remaining_pos_of_check hc hty
    have := remaining_advance Y
    exact h2 _ (by omega) (remaining_advance _) (remaining_advance _)
  · dsimp only at hQ
    split at hQ
    · cases hQ
    · split at hQ <;> cases hQ

theorem halts_with_current {Y : Parser} {k : Token → Outcome}
    (h : ∀ t, Y.current_token = some t → k t ≠ .out_of_fuel) :
    with_current Y k ≠ .out_of_fuel := by
  unfold JSC.with_current
  split
  · next t ht => exact h t ht
  · exact halts_null_deref _

theorem halts_consume_semicolon (Y : Parser) : parser_consume_semicolon Y ≠ .out_of_fuel := by
  unfold parser_consume_semicolon
  split
  · exact halts_ret _ _
  · split
    · exact halts_ret _ _
    · exact halts_with_current fun t _ => halts_ret _ _

theorem halts_leave {r : Outcome} (h : r ≠ .out_of_fuel) : leave_statement r ≠ .out_of_fuel := by
  cases r with
  | out_of_fuel => exact absurd rfl h
  | null_deref P1 => exact halts_null_deref _
  | ret b P1 => exact halts_ret _ _

theorem halts_ite {c : Prop} [Decidable c] {a b : Outcome} (h1 : c → a ≠ .out_of_fuel)
    (h2 : ¬ c → b ≠ .out_of_fuel) : (if c then a else b) ≠ .out_of_fuel := by
  split
  · next h => exact h1 h
  · next h => exact h2 h

theorem halts_ite_pos {c : Prop} [Decidable c] {a b : Outcome} {Z : Parser}
    (hpos : c → 1 ≤ remaining Z) (h1 : c → 1 ≤ remaining Z → a ≠ .out_of_fuel)
    (h2 : ¬ c → b ≠ .out_of_fuel) : (if c then a else b) ≠ .out_of_fuel := by
  split
  · next h => exact h1 h (hpos h)
  · next h => exact h2 h

theorem halts_ite_neg_pos {c : Prop} [Decidable c] {a b : Outcome} {Z : Parser}
    (hpos : ¬ c → 1 ≤ remaining Z) (h1 : c → a ≠ .out_of_fuel)
    (h2 : ¬ c → 1 ≤ remaining Z → b ≠ .out_of_fuel) : (if c then a else b) ≠ .out_of_fuel := by
  split
  · next h => exact h1 h
  · next h => exact h2 h (hpos h)

theorem remaining_pos_of_not_false {P : Parser} {ty : TokenType}
    (h : ¬ parser_check P ty = false) (hty : ty ≠ .TOKEN_EOF) : 1 ≤ remaining P :=
  remaining_pos_of_check (Eq.mp (Bool.not_eq_false _) h) hty

theorem skip_until_loop_halts (stop : TokenType) (n : Nat) (P : Parser)
    (h : remaining P < n) : skip_until_loop stop n P ≠ .out_of_fuel := by
  induction n generalizing P with
  | zero => omega
  | succ n ih =>
    unfold skip_until_loop
    refine halts_ite (fun hc => ?_) (fun _ => halts_ret _ _)
    have := remaining_pos_of_not_eof hc.2
    have := remaining_advance P
    exact ih _ (by omega)

theorem identifier_list_loop_halts (n : Nat) (P : Parser)
    (h : remaining P < n) : identifier_list_loop n P ≠ .out_of_fuel := by
  induction n generalizing P with
  | zero => omega
  | succ n ih =>
    unfold identifier_list_loop
    simp only [parser_match_fst, parser_match_snd]
    refine halts_ite (fun hc => ?_) (fun _ => halts_ret _ _)
    simp only [hc, ↓reduceIte]
    have := remaining_pos_of_check hc (by decide)
    have := remaining_advance P
    refine halts_after_expect (by decide) (fun Q h1 h2 h3 => ?_)
    exact ih _ (by omega)

theorem remaining_pos_of_unary {P : Parser} {t : Token} (hc : P.current_token = some t)
    (h : is_unary_operator t.type = true) : 1 ≤ remaining P := by
  refine remaining_pos_of_current hc ?_
  intro he
  rw [he] at h
  cases h

theorem remaining_pos_of_assignment {P : Parser} {t : Token} (hc : P.current_token = some t)
    (h : is_assignment_operator t.type = true) : 1 ≤ remaining P := by
  refine remaining_pos_of_current hc ?_
  intro he
  rw [he] at h
  cases h

theorem halts_parse_function_declaration (n : Nat) (ih : AllHalt n) (P : Parser) (hpos : 1 ≤ remaining P) 
    (hb : 64 * remaining P + 1 ≤ n + 1) :
    JSC.parse_function_declaration (n + 1) P ≠ .out_of_fuel := by
  have ha := remaining_advance P
  have ha2 := remaining_advance (parser_advance P).2
  unfold JSC.parse_function_declaration
  try dsimp only
  try simp only [parser_match_fst, parser_match_snd, Outcome.andThen_ite, Outcome.andThen_assoc,
    Outcome.andThen_ret_true]
  by_cases hci : parser_check (parser_advance P).2 .TOKEN_IDENTIFIER = true <;>
    simp only [hci, ↓reduceIte, Bool.false_eq_true]
  all_goals
    repeat' first
      | exact halts_ret _ _
      | exact halts_null_deref _
      | exact halts_expect _ _
      | exact halts_consume_semicolon _
      | exact identifier_list_loop_halts _ _ (by omega)
      | exact ih.parse_block_statement _ (by omega)
      | refine halts_after_expect (by decide) (fun Q h1 h2 h3 => ?_)
      | refine halts_after_steps (parser_consume_semicolon_steps _) (halts_consume_semicolon _) (fun Q h1 h2 h3 => ?_)
      | refine halts_after_steps (identifier_list_loop_steps _ _) (identifier_list_loop_halts _ _ (by omega)) (fun Q h1 h2 h3 => ?_)
      | refine halts_after_steps ((all_steps n).parse_block_statement _) (ih.parse_block_statement _ (by omega)) (fun Q h1 h2 h3 => ?_)
      | refine halts_with_current (fun t ht => ?_)
      | (refine halts_ite_pos (by intro h; repeat' first | exact remaining_pos_of_check h (by decide) | exact remaining_pos_of_not_eof h.2 | exact remaining_pos_of_not_eof h.2.2.2 | exact remaining_pos_of_current (by assumption) h.1 | exact remaining_pos_of_unary (by assumption) h | exact remaining_pos_of_assignment (by assumption) h | (rcases h with h | h)) (fun hc hp => ?_) (fun hc => ?_) <;> try simp only [hc, ↓reduceIte, Bool.false_eq_true])
      | (refine halts_ite_neg_pos (by intro h; exact remaining_pos_of_not_false h (by decide)) (fun hc => ?_) (fun hc hp => ?_) <;> try simp only [hc, ↓reduceIte, Bool.false_eq_true])
      | refine halts_leave ?_
      | (refine halts_ite (fun hc => ?_) (fun hc => ?_) <;> try simp only [hc, ↓reduceIte, Bool.false_eq_true])
      | split

theorem halts_parse_array_literal (n : Nat) (ih : AllHalt n) (P : Parser) 
    (hb : 64 * remaining P + 2 ≤ n + 1) :
    JSC.parse_array_literal (n + 1) P ≠ .out_of_fuel := by
  have ha := remaining_advance P
  have ha2 := remaining_advance (parser_advance P).2
  unfold JSC.parse_array_literal
  try dsimp only
  try simp only [parser_match_fst, parser_match_snd, Outcome.andThen_ite, Outcome.andThen_assoc,
    Outcome.andThen_ret_true]
  all_goals
    repeat' first
      | exact halts_ret _ _
      | exact halts_null_deref _
      | exact halts_expect _ _
      | exact halts_consume_semicolon _
      | exact ih.parse_array_element _ (by omega)
      | exact ih.parse_array_literal_loop _ (by omega)
      | refine halts_after_expect (by decide) (fun Q h1 h2 h3 => ?_)
      | refine halts_after_steps (parser_consume_semicolon_steps _) (halts_consume_semicolon _) (fun Q h1 h2 h3 => ?_)
      | refine halts_after_steps ((all_steps n).parse_array_element _) (ih.parse_array_element _ (by omega)) (fun Q h1 h2 h3 => ?_)
      | refine halts_after_steps ((all_steps n).parse_array_literal_loop _) (ih.parse_array_literal_loop _ (by omega)) (fun Q h1 h2 h3 => ?_)
      | refine halts_with_current (fun t ht => ?_)
      | (refine halts_ite_pos (by intro h; repeat' first | exact remaining_pos_of_check h (by decide) | exact remaining_pos_of_not_eof h.2 | exact remaining_pos_of_not_eof h.2.2.2 | exact remaining_pos_of_current (by assumption) h.1 | exact remaining_pos_of_unary (by assumption) h | exact remaining_pos_of_assignment (by assumption) h | (rcases h with h | h)) (fun hc hp => ?_) (fun hc => ?_) <;> try simp only [hc, ↓reduceIte, Bool.false_eq_true])
      | (refine halts_ite_neg_pos (by intro h; exact remaining_pos_of_not_false h (by decide)) (fun hc => ?_) (fun hc hp => ?_) <;> try simp only [hc, ↓reduceIte, Bool.false_eq_true])
      | refine halts_leave ?_
      | (refine halts_ite (fun hc => ?_) (fun hc => ?_) <;> try simp only [hc, ↓reduceIte, Bool.false_eq_true])
      | split

theorem halts_parse_object_literal (n : Nat) (ih : AllHalt n) (P : Parser) 
    (hb : 64 * remaining P + 3 ≤ n + 1) :
    JSC.parse_object_literal (n + 1) P ≠ .out_of_fuel := by
  have ha := remaining_advance P
  have ha2 := remaining_advance (parser_advance P).2
  unfold JSC.parse_object_literal
  try dsimp only
  try simp only [parser_match_fst, parser_match_snd, Outcome.andThen_ite, Outcome.andThen_assoc,
    Outcome.andThen_ret_true]
  all_goals
    repeat' first
      | exact halts_ret _ _
      | exact halts_null_deref _
      | exact halts_expect _ _
      | exact halts_consume_semicolon _
      | exact ih.parse_object_literal_loop _ (by omega)
      | refine halts_after_expect (by decide) (fun Q h1 h2 h3 => ?_)
      | refine halts_after_steps (parser_consume_semicolon_steps _) (halts_consume_semicolon _) (fun Q h1 h2 h3 => ?_)
      | refine halts_after_steps ((all_steps n).parse_object_literal_loop _) (ih.parse_object_literal_loop _ (by omega)) (fun Q h1 h2 h3 => ?_)
      | refine halts_with_current (fun t ht => ?_)
      | (refine halts_ite_pos (by intro h; repeat' first | exact remaining_pos_of_check h (by decide) | exact remaining_pos_of_not_eof h.2 | exact remaining_pos_of_not_eof h.2.2.2 | exact remaining_pos_of_current (by assumption) h.1 | exact remaining_pos_of_unary (by assumption) h | exact remaining_pos_of_assignment (by assumption) h | (rcases h with h | h)) (fun hc hp => ?_) (fun hc => ?_) <;> try simp only [hc, ↓reduceIte, Bool.false_eq_true])
      | (refine halts_ite_neg_pos (by intro h; exact remaining_pos_of_not_false h (by decide)) (fun hc => ?_) (fun hc hp => ?_) <;> try simp only [hc, ↓reduceIte, Bool.false_eq_true])
      | refine halts_leave ?_
      | (refine halts_ite (fun hc => ?_) (fun hc => ?_) <;> try simp only [hc, ↓reduceIte, Bool.false_eq_true])
      | split

theorem halts_member_access_loop (n : Nat) (ih : AllHalt n) (P : Parser) 
    (hb : 64 * remaining P + 4 ≤ n + 1) :
    JSC.member_access_loop (n + 1) P ≠ .out_of_fuel := by
  have ha := remaining_advance P
  have ha2 := remaining_advance (parser_advance P).2
  unfold JSC.member_access_loop
  try dsimp only
  try simp only [parser_match_fst, parser_match_snd, Outcome.andThen_ite, Outcome.andThen_assoc,
    Outcome.andThen_ret_true]
  by_cases h1 : parser_check P .TOKEN_DOT = true <;>
  by_cases h2 : parser_check P .TOKEN_OPTIONAL_CHAIN = true <;>
  by_cases h3 : parser_check P .TOKEN_LBRACKET = true <;>
    simp only [h1, h2, h3, ↓reduceIte, Bool.false_eq_true, parser_match_fst, parser_match_snd, true_or, or_true, or_self]
  all_goals try (have hp : 1 ≤ remaining P := by first | exact remaining_pos_of_check h1 (by decide) | exact remaining_pos_of_check h2 (by decide) | exact remaining_pos_of_check h3 (by decide))
  all_goals
    repeat' first
      | exact halts_ret _ _
      | exact halts_null_deref _
      | exact halts_expect _ _
      | exact halts_consume_semicolon _
      | exact ih.parse_expression _ (by omega)
      | exact ih.member_access_loop _ (by omega)
      | refine halts_after_expect (by decide) (fun Q h1 h2 h3 => ?_)
      | refine halts_after_steps (parser_consume_semicolon_steps _) (halts_consume_semicolon _) (fun Q h1 h2 h3 => ?_)
      | refine halts_after_steps ((all_steps n).parse_expression _) (ih.parse_expression _ (by omega)) (fun Q h1 h2 h3 => ?_)
      | refine halts_after_steps ((all_steps n).member_access_loop _) (ih.member_access_loop _ (by omega)) (fun Q h1 h2 h3 => ?_)
      | refine halts_with_current (fun t ht => ?_)
      | (refine halts_ite_pos (by intro h; repeat' first | exact remaining_pos_of_check h (by decide) | exact remaining_pos_of_not_eof h.2 | exact remaining_pos_of_not_eof h.2.2.2 | exact remaining_pos_of_current (by assumption) h.1 | exact remaining_pos_of_unary (by assumption) h | exact remaining_pos_of_assignment (by assumption) h | (rcases h with h | h)) (fun hc hp => ?_) (fun hc => ?_) <;> try simp only [hc, ↓reduceIte, Bool.false_eq_true])
      | (refine halts_ite_neg_pos (by intro h; exact remaining_pos_of_not_false h (by decide)) (fun hc => ?_) (fun hc hp => ?_) <;> try simp only [hc, ↓reduceIte, Bool.false_eq_true])
      | refine halts_leave ?_
      | (refine halts_ite (fun hc => ?_) (fun hc => ?_) <;> try simp only [hc, ↓reduceIte, Bool.false_eq_true])
      | split

theorem halts_parse_primary_expression (n : Nat) (ih : AllHalt n) (P : Parser) 
    (hb : 64 * remaining P + 5 ≤ n + 1) :
    JSC.parse_primary_expression (n + 1) P ≠ .out_of_fuel := by
  have ha := remaining_advance P
  have ha2 := remaining_advance (parser_advance P).2
  unfold JSC.parse_primary_expression
  try dsimp only
  try simp only [parser_match_fst, parser_match_snd, Outcome.andThen_ite, Outcome.andThen_assoc,
    Outcome.andThen_ret_true]
  split
  · exact halts_ret _ _
  split
  all_goals try (have hp : 1 ≤ remaining P; · (refine remaining_pos_of_current ‹P.current_token = some _› ?_; first | assumption | (simp [*]; done)))
  all_goals
    repeat' first
      | exact halts_ret _ _
      | exact halts_null_deref _
      | exact halts_expect _ _
      | exact halts_consume_semicolon _
      | exact ih.parse_function_declaration _ (by omega) (by omega)
      | exact ih.parse_expression _ (by omega)
      | exact ih.parse_array_literal _ (by omega)
      | exact ih.parse_object_literal _ (by omega)
      | refine halts_after_expect (by decide) (fun Q h1 h2 h3 => ?_)
      | refine halts_after_steps (parser_consume_semicolon_steps _) (halts_consume_semicolon _) (fun Q h1 h2 h3 => ?_)
      | refine halts_after_steps ((all_steps n).parse_function_declaration _) (ih.parse_function_declaration _ (by omega) (by omega)) (fun Q h1 h2 h3 => ?_)
      | refine halts_after_steps ((all_steps n).parse_expression _) (ih.parse_expression _ (by omega)) (fun Q h1 h2 h3 => ?_)
      | refine halts_after_steps ((all_steps n).parse_array_literal _) (ih.parse_array_literal _ (by omega)) (fun Q h1 h2 h3 => ?_)
      | refine halts_after_steps ((all_steps n).parse_object_literal _) (ih.parse_object_literal _ (by omega)) (fun Q h1 h2 h3 => ?_)
      | refine halts_with_current (fun t ht => ?_)
      | (refine halts_ite_pos (by intro h; repeat' first | exact remaining_pos_of_check h (by decide) | exact remaining_pos_of_not_eof h.2 | exact remaining_pos_of_not_eof h.2.2.2 | exact remaining_pos_of_current (by assumption) h.1 | exact remaining_pos_of_unary (by assumption) h | exact remaining_pos_of_assignment (by assumption) h | (rcases h with h | h)) (fun hc hp => ?_) (fun hc => ?_) <;> try simp only [hc, ↓reduceIte, Bool.false_eq_true])
      | (refine halts_ite_neg_pos (by intro h; exact remaining_pos_of_not_false h (by decide)) (fun hc => ?_) (fun hc hp => ?_) <;> try simp only [hc, ↓reduceIte, Bool.false_eq_true])
      | refine halts_leave ?_
      | (refine halts_ite (fun hc => ?_) (fun hc => ?_) <;> try simp only [hc, ↓reduceIte, Bool.false_eq_true])
      | split

theorem halts_parse_member_expression (n : Nat) (ih : AllHalt n) (P : Parser) 
    (hb : 64 * remaining P + 6 ≤ n + 1) :
    JSC.parse_member_expression (n + 1) P ≠ .out_of_fuel := by
  have ha := remaining_advance P
  have ha2 := remaining_advance (parser_advance P).2
  unfold JSC.parse_member_expression
  try dsimp only
  try simp only [parser_match_fst, parser_match_snd, Outcome.andThen_ite, Outcome.andThen_assoc,
    Outcome.andThen_ret_true]
  all_goals
    repeat' first
      | exact halts_ret _ _
      | exact halts_null_deref _
      | exact halts_expect _ _
      | exact halts_consume_semicolon _
      | exact ih.member_access_loop _ (by omega)
      | exact ih.parse_primary_expression _ (by omega)
      | refine halts_after_expect (by decide) (fun Q h1 h2 h3 => ?_)
      | refine halts_after_steps (parser_consume_semicolon_steps _) (halts_consume_semicolon _) (fun Q h1 h2 h3 => ?_)
      | refine halts_after_steps ((all_steps n).member_access_loop _) (ih.member_access_loop _ (by omega)) (fun Q h1 h2 h3 => ?_)
      | refine halts_after_steps ((all_steps n).parse_primary_expression _) (ih.parse_primary_expression _ (by omega)) (fun Q h1 h2 h3 => ?_)
      | refine halts_with_current (fun t ht => ?_)
      | (refine halts_ite_pos (by intro h; repeat' first | exact remaining_pos_of_check h (by decide) | exact remaining_pos_of_not_eof h.2 | exact remaining_pos_of_not_eof h.2.2.2 | exact remaining_pos_of_current (by assumption) h.1 | exact remaining_pos_of_unary (by assumption) h | exact remaining_pos_of_assignment (by assumption) h | (rcases h with h | h)) (fun hc hp => ?_) (fun hc => ?_) <;> try simp only [hc, ↓reduceIte, Bool.false_eq_true])
      | (refine halts_ite_neg_pos (by intro h; exact remaining_pos_of_not_false h (by decide)) (fun hc => ?_) (fun hc hp => ?_) <;> try simp only [hc, ↓reduceIte, Bool.false_eq_true])
      | refine halts_leave ?_
      | (refine halts_ite (fun hc => ?_) (fun hc => ?_) <;> try simp only [hc, ↓reduceIte, Bool.false_eq_true])
      | split

theorem halts_parse_call_expression_loop (n : Nat) (ih : AllHalt n) (P : Parser) 
    (hb : 64 * remaining P + 7 ≤ n + 1) :
    JSC.parse_call_expression_loop (n + 1) P ≠ .out_of_fuel := by
  have ha := remaining_advance P
  have ha2 := remaining_advance (parser_advance P).2
  unfold JSC.parse_call_expression_loop
  try dsimp only
  try simp only [parser_match_fst, parser_match_snd, Outcome.andThen_ite, Outcome.andThen_assoc,
    Outcome.andThen_ret_true]
  all_goals
    repeat' first
      | exact halts_ret _ _
      | exact halts_null_deref _
      | exact halts_expect _ _
      | exact halts_consume_semicolon _
      | exact ih.parse_arguments _ (by omega)
      | exact ih.member_access_loop _ (by omega)
      | exact ih.parse_call_expression_loop _ (by omega)
      | refine halts_after_expect (by decide) (fun Q h1 h2 h3 => ?_)
      | refine halts_after_steps (parser_consume_semicolon_steps _) (halts_consume_semicolon _) (fun Q h1 h2 h3 => ?_)
      | refine halts_after_steps ((all_steps n).parse_arguments _) (ih.parse_arguments _ (by omega)) (fun Q h1 h2 h3 => ?_)
      | refine halts_after_steps ((all_steps n).member_access_loop _) (ih.member_access_loop _ (by omega)) (fun Q h1 h2 h3 => ?_)
      | refine halts_after_steps ((all_steps n).parse_call_expression_loop _) (ih.parse_call_expression_loop _ (by omega)) (fun Q h1 h2 h3 => ?_)
      | refine halts_with_current (fun t ht => ?_)
      | (refine halts_ite_pos (by intro h; repeat' first | exact remaining_pos_of_check h (by decide) | exact remaining_pos_of_not_eof h.2 | exact remaining_pos_of_not_eof h.2.2.2 | exact remaining_pos_of_current (by assumption) h.1 | exact remaining_pos_of_unary (by assumption) h | exact remaining_pos_of_assignment (by assumption) h | (rcases h with h | h)) (fun hc hp => ?_) (fun hc => ?_) <;> try simp only [hc, ↓reduceIte, Bool.false_eq_true])
      | (refine halts_ite_neg_pos (by intro h; exact remaining_pos_of_not_false h (by decide)) (fun hc => ?_) (fun hc hp => ?_) <;> try simp only [hc, ↓reduceIte, Bool.false_eq_true])
      | refine halts_leave ?_
      | (refine halts_ite (fun hc => ?_) (fun hc => ?_) <;> try simp only [hc, ↓reduceIte, Bool.false_eq_true])
      | split

theorem halts_parse_call_expression (n : Nat) (ih : AllHalt n) (P : Parser) 
    (hb : 64 * remaining P + 8 ≤ n + 1) :
    JSC.parse_call_expression (n + 1) P ≠ .out_of_fuel := by
  have ha := remaining_advance P
  have ha2 := remaining_advance (parser_advance P).2
  unfold JSC.parse_call_expression
  try dsimp only
  try simp only [parser_match_fst, parser_match_snd, Outcome.andThen_ite, Outcome.andThen_assoc,
    Outcome.andThen_ret_true]
  all_goals
    repeat' first
      | exact halts_ret _ _
      | exact halts_null_deref _
      | exact halts_expect _ _
      | exact halts_consume_semicolon _
      | exact ih.parse_call_expression_loop _ (by omega)
      | exact ih.parse_member_expression _ (by omega)
      | refine halts_after_expect (by decide) (fun Q h1 h2 h3 => ?_)
      | refine halts_after_steps (parser_consume_semicolon_steps _) (halts_consume_semicolon _) (fun Q h1 h2 h3 => ?_)
      | refine halts_after_steps ((all_steps n).parse_call_expression_loop _) (ih.parse_call_expression_loop _ (by omega)) (fun Q h1 h2 h3 => ?_)
      | refine halts_after_steps ((all_steps n).parse_member_expression _) (ih.parse_member_expression _ (by omega)) (fun Q h1 h2 h3 => ?_)
      | refine halts_with_current (fun t ht => ?_)
      | (refine halts_ite_pos (by intro h; repeat' first | exact remaining_pos_of_check h (by decide) | exact remaining_pos_of_not_eof h.2 | exact remaining_pos_of_not_eof h.2.2.2 | exact remaining_pos_of_current (by assumption) h.1 | exact remaining_pos_of_unary (by assumption) h | exact remaining_pos_of_assignment (by assumption) h | (rcases h with h | h)) (fun hc hp => ?_) (fun hc => ?_) <;> try simp only [hc, ↓reduceIte, Bool.false_eq_true])
      | (refine halts_ite_neg_pos (by intro h; exact remaining_pos_of_not_false h (by decide)) (fun hc => ?_) (fun hc hp => ?_) <;> try simp only [hc, ↓reduceIte, Bool.false_eq_true])
      | refine halts_leave ?_
      | (refine halts_ite (fun hc => ?_) (fun hc => ?_) <;> try simp only [hc, ↓reduceIte, Bool.false_eq_true])
      | split

theorem halts_parse_left_hand_side_expression (n : Nat) (ih : AllHalt n) (P : Parser) 
    (hb : 64 * remaining P + 9 ≤ n + 1) :
    JSC.parse_left_hand_side_expression (n + 1) P ≠ .out_of_fuel := by
  have ha := remaining_advance P
  have ha2 := remaining_advance (parser_advance P).2
  unfold JSC.parse_left_hand_side_expression
  try dsimp only
  try simp only [parser_match_fst, parser_match_snd, Outcome.andThen_ite, Outcome.andThen_assoc,
    Outcome.andThen_ret_true]
  all_goals
    repeat' first
      | exact halts_ret _ _
      | exact halts_null_deref _
      | exact halts_expect _ _
      | exact halts_consume_semicolon _
      | exact ih.parse_arguments _ (by omega)
      | exact ih.parse_call_expression _ (by omega)
      | exact ih.parse_member_expression _ (by omega)
      | refine halts_after_expect (by decide) (fun Q h1 h2 h3 => ?_)
      | refine halts_after_steps (parser_consume_semicolon_steps _) (halts_consume_semicolon _) (fun Q h1 h2 h3 => ?_)
      | refine halts_after_steps ((all_steps n).parse_arguments _) (ih.parse_arguments _ (by omega)) (fun Q h1 h2 h3 => ?_)
      | refine halts_after_steps ((all_steps n).parse_call_expression _) (ih.parse_call_expression _ (by omega)) (fun Q h1 h2 h3 => ?_)
      | refine halts_after_steps ((all_steps n).parse_member_expression _) (ih.parse_member_expression _ (by omega)) (fun Q h1 h2 h3 => ?_)
      | refine halts_with_current (fun t ht => ?_)
      | (refine halts_ite_pos (by intro h; repeat' first | exact remaining_pos_of_check h (by decide) | exact remaining_pos_of_not_eof h.2 | exact remaining_pos_of_not_eof h.2.2.2 | exact remaining_pos_of_current (by assumption) h.1 | exact remaining_pos_of_unary (by assumption) h | exact remaining_pos_of_assignment (by assumption) h | (rcases h with h | h)) (fun hc hp => ?_) (fun hc => ?_) <;> try simp only [hc, ↓reduceIte, Bool.false_eq_true])
      | (refine halts_ite_neg_pos (by intro h; exact remaining_pos_of_not_false h (by decide)) (fun hc => ?_) (fun hc hp => ?_) <;> try simp only [hc, ↓reduceIte, Bool.false_eq_true])
      | refine halts_leave ?_
      | (refine halts_ite (fun hc => ?_) (fun hc => ?_) <;> try simp only [hc, ↓reduceIte, Bool.false_eq_true])
      | split

theorem halts_parse_postfix_expression (n : Nat) (ih : AllHalt n) (P : Parser) 
    (hb : 64 * remaining P + 10 ≤ n + 1) :
    JSC.parse_postfix_expression (n + 1) P ≠ .out_of_fuel := by
  have ha := remaining_advance P
  have ha2 := remaining_advance (parser_advance P).2
  unfold JSC.parse_postfix_expression
  try dsimp only
  try simp only [parser_match_fst, parser_match_snd, Outcome.andThen_ite, Outcome.andThen_assoc,
    Outcome.andThen_ret_true]
  all_goals
    repeat' first
      | exact halts_ret _ _
      | exact halts_null_deref _
      | exact halts_expect _ _
      | exact halts_consume_semicolon _
      | exact ih.parse_left_hand_side_expression _ (by omega)
      | refine halts_after_expect (by decide) (fun Q h1 h2 h3 => ?_)
      | refine halts_after_steps (parser_consume_semicolon_steps _) (halts_consume_semicolon _) (fun Q h1 h2 h3 => ?_)
      | refine halts_after_steps ((all_steps n).parse_left_hand_side_expression _) (ih.parse_left_hand_side_expression _ (by omega)) (fun Q h1 h2 h3 => ?_)
      | refine halts_with_current (fun t ht => ?_)
      | (refine halts_ite_pos (by intro h; repeat' first | exact remaining_pos_of_check h (by decide) | exact remaining_pos_of_not_eof h.2 | exact remaining_pos_of_not_eof h.2.2.2 | exact remaining_pos_of_current (by assumption) h.1 | exact remaining_pos_of_unary (by assumption) h | exact remaining_pos_of_assignment (by assumption) h | (rcases h with h | h)) (fun hc hp => ?_) (fun hc => ?_) <;> try simp only [hc, ↓reduceIte, Bool.false_eq_true])
      | (refine halts_ite_neg_pos (by intro h; exact remaining_pos_of_not_false h (by decide)) (fun hc => ?_) (fun hc hp => ?_) <;> try simp only [hc, ↓reduceIte, Bool.false_eq_true])
      | refine halts_leave ?_
      | (refine halts_ite (fun hc => ?_) (fun hc => ?_) <;> try simp only [hc, ↓reduceIte, Bool.false_eq_true])
      | split

theorem halts_parse_unary_expression (n : Nat) (ih : AllHalt n) (P : Parser) 
    (hb : 64 * remaining P + 11 ≤ n + 1) :
    JSC.parse_unary_expression (n + 1) P ≠ .out_of_fuel := by
  have ha := remaining_advance P
  have ha2 := remaining_advance (parser_advance P).2
  unfold JSC.parse_unary_expression
  try dsimp only
  try simp only [parser_match_fst, parser_match_snd, Outcome.andThen_ite, Outcome.andThen_assoc,
    Outcome.andThen_ret_true]
  all_goals
    repeat' first
      | exact halts_ret _ _
      | exact halts_null_deref _
      | exact halts_expect _ _
      | exact halts_consume_semicolon _
      | exact ih.parse_unary_expression _ (by omega)
      | exact ih.parse_postfix_expression _ (by omega)
      | refine halts_after_expect (by decide) (fun Q h1 h2 h3 => ?_)
      | refine halts_after_steps (parser_consume_semicolon_steps _) (halts_consume_semicolon _) (fun Q h1 h2 h3 => ?_)
      | refine halts_after_steps ((all_steps n).parse_unary_expression _) (ih.parse_unary_expression _ (by omega)) (fun Q h1 h2 h3 => ?_)
      | refine halts_after_steps ((all_steps n).parse_postfix_expression _) (ih.parse_postfix_expression _ (by omega)) (fun Q h1 h2 h3 => ?_)
      | refine halts_with_current (fun t ht => ?_)
      | (refine halts_ite_pos (by intro h; repeat' first | exact remaining_pos_of_check h (by decide) | exact remaining_pos_of_not_eof h.2 | exact remaining_pos_of_not_eof h.2.2.2 | exact remaining_pos_of_current (by assumption) h.1 | exact remaining_pos_of_unary (by assumption) h | exact remaining_pos_of_assignment (by assumption) h | (rcases h with h | h)) (fun hc hp => ?_) (fun hc => ?_) <;> try simp only [hc, ↓reduceIte, Bool.false_eq_true])
      | (refine halts_ite_neg_pos (by intro h; exact remaining_pos_of_not_false h (by decide)) (fun hc => ?_) (fun hc hp => ?_) <;> try simp only [hc, ↓reduceIte, Bool.false_eq_true])
      | refine halts_leave ?_
      | (refine halts_ite (fun hc => ?_) (fun hc => ?_) <;> try simp only [hc, ↓reduceIte, Bool.false_eq_true])
      | split

theorem halts_parse_exponentiation_expression (n : Nat) (ih : AllHalt n) (P : Parser) 
    (hb : 64 * remaining P + 12 ≤ n + 1) :
    JSC.parse_exponentiation_expression (n + 1) P ≠ .out_of_fuel := by
  have ha := remaining_advance P
  have ha2 := remaining_advance (parser_advance P).2
  unfold JSC.parse_exponentiation_expression
  try dsimp only
  try simp only [parser_match_fst, parser_match_snd, Outcome.andThen_ite, Outcome.andThen_assoc,
    Outcome.andThen_ret_true]
  all_goals
    repeat' first
      | exact halts_ret _ _
      | exact halts_null_deref _
      | exact halts_expect _ _
      | exact halts_consume_semicolon _
      | exact ih.parse_exponentiation_expression _ (by omega)
      | exact ih.parse_unary_expression _ (by omega)
      | refine halts_after_expect (by decide) (fun Q h1 h2 h3 => ?_)
      | refine halts_after_steps (parser_consume_semicolon_steps _) (halts_consume_semicolon _) (fun Q h1 h2 h3 => ?_)
      | refine halts_after_steps ((all_steps n).parse_exponentiation_expression _) (ih.parse_exponentiation_expression _ (by omega)) (fun Q h1 h2 h3 => ?_)
      | refine halts_after_steps ((all_steps n).parse_unary_expression _) (ih.parse_unary_expression _ (by omega)) (fun Q h1 h2 h3 => ?_)
      | refine halts_with_current (fun t ht => ?_)
      | (refine halts_ite_pos (by intro h; repeat' first | exact remaining_pos_of_check h (by decide) | exact remaining_pos_of_not_eof h.2 | exact remaining_pos_of_not_eof h.2.2.2 | exact remaining_pos_of_current (by assumption) h.1 | exact remaining_pos_of_unary (by assumption) h | exact remaining_pos_of_assignment (by assumption) h | (rcases h with h | h)) (fun hc hp => ?_) (fun hc => ?_) <;> try simp only [hc, ↓reduceIte, Bool.false_eq_true])
      | (refine halts_ite_neg_pos (by intro h; exact remaining_pos_of_not_false h (by decide)) (fun hc => ?_) (fun hc hp => ?_) <;> try simp only [hc, ↓reduceIte, Bool.false_eq_true])
      | refine halts_leave ?_
      | (refine halts_ite (fun hc => ?_) (fun hc => ?_) <;> try simp only [hc, ↓reduceIte, Bool.false_eq_true])
      | split

theorem halts_parse_multiplicative_expression_loop (n : Nat) (ih : AllHalt n) (P : Parser) 
    (hb : 64 * remaining P + 13 ≤ n + 1) :
    JSC.parse_multiplicative_expression_loop (n + 1) P ≠ .out_of_fuel := by
  have ha := remaining_advance P
  have ha2 := remaining_advance (parser_advance P).2
  unfold JSC.parse_multiplicative_expression_loop
  try dsimp only
  try simp only [parser_match_fst, parser_match_snd, Outcome.andThen_ite, Outcome.andThen_assoc,
    Outcome.andThen_ret_true]
  all_goals
    repeat' first
      | exact halts_ret _ _
      | exact halts_null_deref _
      | exact halts_expect _ _
      | exact halts_consume_semicolon _
      | exact ih.parse_multiplicative_expression_loop _ (by omega)
      | exact ih.parse_exponentiation_expression _ (by omega)
      | refine halts_after_expect (by decide) (fun Q h1 h2 h3 => ?_)
      | refine halts_after_steps (parser_consume_semicolon_steps _) (halts_consume_semicolon _) (fun Q h1 h2 h3 => ?_)
      | refine halts_after_steps ((all_steps n).parse_multiplicative_expression_loop _) (ih.parse_multiplicative_expression_loop _ (by omega)) (fun Q h1 h2 h3 => ?_)
      | refine halts_after_steps ((all_steps n).parse_exponentiation_expression _) (ih.parse_exponentiation_expression _ (by omega)) (fun Q h1 h2 h3 => ?_)
      | refine halts_with_current (fun t ht => ?_)
      | (refine halts_ite_pos (by intro h; repeat' first | exact remaining_pos_of_check h (by decide) | exact remaining_pos_of_not_eof h.2 | exact remaining_pos_of_not_eof h.2.2.2 | exact remaining_pos_of_current (by assumption) h.1 | exact remaining_pos_of_unary (by assumption) h | exact remaining_pos_of_assignment (by assumption) h | (rcases h with h | h)) (fun hc hp => ?_) (fun hc => ?_) <;> try simp only [hc, ↓reduceIte, Bool.false_eq_true])
      | (refine halts_ite_neg_pos (by intro h; exact remaining_pos_of_not_false h (by decide)) (fun hc => ?_) (fun hc hp => ?_) <;> try simp only [hc, ↓reduceIte, Bool.false_eq_true])
      | refine halts_leave ?_
      | (refine halts_ite (fun hc => ?_) (fun hc => ?_) <;> try simp only [hc, ↓reduceIte, Bool.false_eq_true])
      | split

theorem halts_parse_multiplicative_expression (n : Nat) (ih : AllHalt n) (P : Parser) 
    (hb : 64 * remaining P + 14 ≤ n + 1) :
    JSC.parse_multiplicative_expression (n + 1) P ≠ .out_of_fuel := by
  have ha := remaining_advance P
  have ha2 := remaining_advance (parser_advance P).2
  unfold JSC.parse_multiplicative_expression
  try dsimp only
  try simp only [parser_match_fst, parser_match_snd, Outcome.andThen_ite, Outcome.andThen_assoc,
    Outcome.andThen_ret_true]
  all_goals
    repeat' first
      | exact halts_ret _ _
      | exact halts_null_deref _
      | exact halts_expect _ _
      | exact halts_consume_semicolon _
      | exact ih.parse_multiplicative_expression_loop _ (by omega)
      | exact ih.parse_exponentiation_expression _ (by omega)
      | refine halts_after_expect (by decide) (fun Q h1 h2 h3 => ?_)
      | refine halts_after_steps (parser_consume_semicolon_steps _) (halts_consume_semicolon _) (fun Q h1 h2 h3 => ?_)
      | refine halts_after_steps ((all_steps n).parse_multiplicative_expression_loop _) (ih.parse_multiplicative_expression_loop _ (by omega)) (fun Q h1 h2 h3 => ?_)
      | refine halts_after_steps ((all_steps n).parse_exponentiation_expression _) (ih.parse_exponentiation_expression _ (by omega)) (fun Q h1 h2 h3 => ?_)
      | refine halts_with_current (fun t ht => ?_)
      | (refine halts_ite_pos (by intro h; repeat' first | exact remaining_pos_of_check h (by decide) | exact remaining_pos_of_not_eof h.2 | exact remaining_pos_of_not_eof h.2.2.2 | exact remaining_pos_of_current (by assumption) h.1 | exact remaining_pos_of_unary (by assumption) h | exact remaining_pos_of_assignment (by assumption) h | (rcases h with h | h)) (fun hc hp => ?_) (fun hc => ?_) <;> try simp only [hc, ↓reduceIte, Bool.false_eq_true])
      | (refine halts_ite_neg_pos (by intro h; exact remaining_pos_of_not_false h (by decide)) (fun hc => ?_) (fun hc hp => ?_) <;> try simp only [hc, ↓reduceIte, Bool.false_eq_true])
      | refine halts_leave ?_
      | (refine halts_ite (fun hc => ?_) (fun hc => ?_) <;> try simp only [hc, ↓reduceIte, Bool.false_eq_true])
      | split

theorem halts_parse_additive_expression_loop (n : Nat) (ih : AllHalt n) (P : Parser) 
    (hb : 64 * remaining P + 15 ≤ n + 1) :
    JSC.parse_additive_expression_loop (n + 1) P ≠ .out_of_fuel := by
  have ha := remaining_advance P
  have ha2 := remaining_advance (parser_advance P).2
  unfold JSC.parse_additive_expression_loop
  try dsimp only
  try simp only [parser_match_fst, parser_match_snd, Outcome.andThen_ite, Outcome.andThen_assoc,
    Outcome.andThen_ret_true]
  all_goals
    repeat' first
      | exact halts_ret _ _
      | exact halts_null_deref _
      | exact halts_expect _ _
      | exact halts_consume_semicolon _
      | exact ih.parse_additive_expression_loop _ (by omega)
      | exact ih.parse_multiplicative_expression _ (by omega)
      | refine halts_after_expect (by decide) (fun Q h1 h2 h3 => ?_)
      | refine halts_after_steps (parser_consume_semicolon_steps _) (halts_consume_semicolon _) (fun Q h1 h2 h3 => ?_)
      | refine halts_after_steps ((all_steps n).parse_additive_expression_loop _) (ih.parse_additive_expression_loop _ (by omega)) (fun Q h1 h2 h3 => ?_)
      | refine halts_after_steps ((all_steps n).parse_multiplicative_expression _) (ih.parse_multiplicative_expression _ (by omega)) (fun Q h1 h2 h3 => ?_)
      | refine halts_with_current (fun t ht => ?_)
      | (refine halts_ite_pos (by intro h; repeat' first | exact remaining_pos_of_check h (by decide) | exact remaining_pos_of_not_eof h.2 | exact remaining_pos_of_not_eof h.2.2.2 | exact remaining_pos_of_current (by assumption) h.1 | exact remaining_pos_of_unary (by assumption) h | exact remaining_pos_of_assignment (by assumption) h | (rcases h with h | h)) (fun hc hp => ?_) (fun hc => ?_) <;> try simp only [hc, ↓reduceIte, Bool.false_eq_true])
      | (refine halts_ite_neg_pos (by intro h; exact remaining_pos_of_not_false h (by decide)) (fun hc => ?_) (fun hc hp => ?_) <;> try simp only [hc, ↓reduceIte, Bool.false_eq_true])
      | refine halts_leave ?_
      | (refine halts_ite (fun hc => ?_) (fun hc => ?_) <;> try simp only [hc, ↓reduceIte, Bool.false_eq_true])
      | split

theorem halts_parse_additive_expression (n : Nat) (ih : AllHalt n) (P : Parser) 
    (hb : 64 * remaining P + 16 ≤ n + 1) :
    JSC.parse_additive_expression (n + 1) P ≠ .out_of_fuel := by
  have ha := remaining_advance P
  have ha2 := remaining_advance (parser_advance P).2
  unfold JSC.parse_additive_expression
  try dsimp only
  try simp only [parser_match_fst, parser_match_snd, Outcome.andThen_ite, Outcome.andThen_assoc,
    Outcome.andThen_ret_true]
  all_goals
    repeat' first
      | exact halts_ret _ _
      | exact halts_null_deref _
      | exact halts_expect _ _
      | exact halts_consume_semicolon _
      | exact ih.parse_additive_expression_loop _ (by omega)
      | exact ih.parse_multiplicative_expression _ (by omega)
      | refine halts_after_expect (by decide) (fun Q h1 h2 h3 => ?_)
      | refine halts_after_steps (parser_consume_semicolon_steps _) (halts_consume_semicolon _) (fun Q h1 h2 h3 => ?_)
      | refine halts_after_steps ((all_steps n).parse_additive_expression_loop _) (ih.parse_additive_expression_loop _ (by omega)) (fun Q h1 h2 h3 => ?_)
      | refine halts_after_steps ((all_steps n).parse_multiplicative_expression _) (ih.parse_multiplicative_expression _ (by omega)) (fun Q h1 h2 h3 => ?_)
      | refine halts_with_current (fun t ht => ?_)
      | (refine halts_ite_pos (by intro h; repeat' first | exact remaining_pos_of_check h (by decide) | exact remaining_pos_of_not_eof h.2 | exact remaining_pos_of_not_eof h.2.2.2 | exact remaining_pos_of_current (by assumption) h.1 | exact remaining_pos_of_unary (by assumption) h | exact remaining_pos_of_assignment (by assumption) h | (rcases h with h | h)) (fun hc hp => ?_) (fun hc => ?_) <;> try simp only [hc, ↓reduceIte, Bool.false_eq_true])
      | (refine halts_ite_neg_pos (by intro h; exact remaining_pos_of_not_false h (by decide)) (fun hc => ?_) (fun hc hp => ?_) <;> try simp only [hc, ↓reduceIte, Bool.false_eq_true])
      | refine halts_leave ?_
      | (refine halts_ite (fun hc => ?_) (fun hc => ?_) <;> try simp only [hc, ↓reduceIte, Bool.false_eq_true])
      | split

theorem halts_parse_shift_expression_loop (n : Nat) (ih : AllHalt n) (P : Parser) 
    (hb : 64 * remaining P + 17 ≤ n + 1) :
    JSC.parse_shift_expression_loop (n + 1) P ≠ .out_of_fuel := by
  have ha := remaining_advance P
  have ha2 := remaining_advance (parser_advance P).2
  unfold JSC.parse_shift_expression_loop
  try dsimp only
  try simp only [parser_match_fst, parser_match_snd, Outcome.andThen_ite, Outcome.andThen_assoc,
    Outcome.andThen_ret_true]
  all_goals
    repeat' first
      | exact halts_ret _ _
      | exact halts_null_deref _
      | exact halts_expect _ _
      | exact halts_consume_semicolon _
      | exact ih.parse_shift_expression_loop _ (by omega)
      | exact ih.parse_additive_expression _ (by omega)
      | refine halts_after_expect (by decide) (fun Q h1 h2 h3 => ?_)
      | refine halts_after_steps (parser_consume_semicolon_steps _) (halts_consume_semicolon _) (fun Q h1 h2 h3 => ?_)
      | refine halts_after_steps ((all_steps n).parse_shift_expression_loop _) (ih.parse_shift_expression_loop _ (by omega)) (fun Q h1 h2 h3 => ?_)
      | refine halts_after_steps ((all_steps n).parse_additive_expression _) (ih.parse_additive_expression _ (by omega)) (fun Q h1 h2 h3 => ?_)
      | refine halts_with_current (fun t ht => ?_)
      | (refine halts_ite_pos (by intro h; repeat' first | exact remaining_pos_of_check h (by decide) | exact remaining_pos_of_not_eof h.2 | exact remaining_pos_of_not_eof h.2.2.2 | exact remaining_pos_of_current (by assumption) h.1 | exact remaining_pos_of_unary (by assumption) h | exact remaining_pos_of_assignment (by assumption) h | (rcases h with h | h)) (fun hc hp => ?_) (fun hc => ?_) <;> try simp only [hc, ↓reduceIte, Bool.false_eq_true])
      | (refine halts_ite_neg_pos (by intro h; exact remaining_pos_of_not_false h (by decide)) (fun hc => ?_) (fun hc hp => ?_) <;> try simp only [hc, ↓reduceIte, Bool.false_eq_true])
      | refine halts_leave ?_
      | (refine halts_ite (fun hc => ?_) (fun hc => ?_) <;> try simp only [hc, ↓reduceIte, Bool.false_eq_true])
      | split

theorem halts_parse_shift_expression (n : Nat) (ih : AllHalt n) (P : Parser) 
    (hb : 64 * remaining P + 18 ≤ n + 1) :
    JSC.parse_shift_expression (n + 1) P ≠ .out_of_fuel := by
  have ha := remaining_advance P
  have ha2 := remaining_advance (parser_advance P).2
  unfold JSC.parse_shift_expression
  try dsimp only
  try simp only [parser_match_fst, parser_match_snd, Outcome.andThen_ite, Outcome.andThen_assoc,
    Outcome.andThen_ret_true]
  all_goals
    repeat' first
      | exact halts_ret _ _
      | exact halts_null_deref _
      | exact halts_expect _ _
      | exact halts_consume_semicolon _
      | exact ih.parse_shift_expression_loop _ (by omega)
      | exact ih.parse_additive_expression _ (by omega)
      | refine halts_after_expect (by decide) (fun Q h1 h2 h3 => ?_)
      | refine halts_after_steps (parser_consume_semicolon_steps _) (halts_consume_semicolon _) (fun Q h1 h2 h3 => ?_)
      | refine halts_after_steps ((all_steps n).parse_shift_expression_loop _) (ih.parse_shift_expression_loop _ (by omega)) (fun Q h1 h2 h3 => ?_)
      | refine halts_after_steps ((all_steps n).parse_additive_expression _) (ih.parse_additive_expression _ (by omega)) (fun Q h1 h2 h3 => ?_)
      | refine halts_with_current (fun t ht => ?_)
      | (refine halts_ite_pos (by intro h; repeat' first | exact remaining_pos_of_check h (by decide) | exact remaining_pos_of_not_eof h.2 | exact remaining_pos_of_not_eof h.2.2.2 | exact remaining_pos_of_current (by assumption) h.1 | exact remaining_pos_of_unary (by assumption) h | exact remaining_pos_of_assignment (by assumption) h | (rcases h with h | h)) (fun hc hp => ?_) (fun hc => ?_) <;> try simp only [hc, ↓reduceIte, Bool.false_eq_true])
      | (refine halts_ite_neg_pos (by intro h; exact remaining_pos_of_not_false h (by decide)) (fun hc => ?_) (fun hc hp => ?_) <;> try simp only [hc, ↓reduceIte, Bool.false_eq_true])
      | refine halts_leave ?_
      | (refine halts_ite (fun hc => ?_) (fun hc => ?_) <;> try simp only [hc, ↓reduceIte, Bool.false_eq_true])
      | split

theorem halts_parse_relational_expression_loop (n : Nat) (ih : AllHalt n) (P : Parser) 
    (hb : 64 * remaining P + 19 ≤ n + 1) :
    JSC.parse_relational_expression_loop (n + 1) P ≠ .out_of_fuel := by
  have ha := remaining_advance P
  have ha2 := remaining_advance (parser_advance P).2
  unfold JSC.parse_relational_expression_loop
  try dsimp only
  try simp only [parser_match_fst, parser_match_snd, Outcome.andThen_ite, Outcome.andThen_assoc,
    Outcome.andThen_ret_true]
  all_goals
    repeat' first
      | exact halts_ret _ _
      | exact halts_null_deref _
      | exact halts_expect _ _
      | exact halts_consume_semicolon _
      | exact ih.parse_relational_expression_loop _ (by omega)
      | exact ih.parse_shift_expression _ (by omega)
      | refine halts_after_expect (by decide) (fun Q h1 h2 h3 => ?_)
      | refine halts_after_steps (parser_consume_semicolon_steps _) (halts_consume_semicolon _) (fun Q h1 h2 h3 => ?_)
      | refine halts_after_steps ((all_steps n).parse_relational_expression_loop _) (ih.parse_relational_expression_loop _ (by omega)) (fun Q h1 h2 h3 => ?_)
      | refine halts_after_steps ((all_steps n).parse_shift_expression _) (ih.parse_shift_expression _ (by omega)) (fun Q h1 h2 h3 => ?_)
      | refine halts_with_current (fun t ht => ?_)
      | (refine halts_ite_pos (by intro h; repeat' first | exact remaining_pos_of_check h (by decide) | exact remaining_pos_of_not_eof h.2 | exact remaining_pos_of_not_eof h.2.2.2 | exact remaining_pos_of_current (by assumption) h.1 | exact remaining_pos_of_unary (by assumption) h | exact remaining_pos_of_assignment (by assumption) h | (rcases h with h | h)) (fun hc hp => ?_) (fun hc => ?_) <;> try simp only [hc, ↓reduceIte, Bool.false_eq_true])
      | (refine halts_ite_neg_pos (by intro h; exact remaining_pos_of_not_false h (by decide)) (fun hc => ?_) (fun hc hp => ?_) <;> try simp only [hc, ↓reduceIte, Bool.false_eq_true])
      | refine halts_leave ?_
      | (refine halts_ite (fun hc => ?_) (fun hc => ?_) <;> try simp only [hc, ↓reduceIte, Bool.false_eq_true])
      | split

theorem halts_parse_relational_expression (n : Nat) (ih : AllHalt n) (P : Parser) 
    (hb : 64 * remaining P + 20 ≤ n + 1) :
    JSC.parse_relational_expression (n + 1) P ≠ .out_of_fuel := by
  have ha := remaining_advance P
  have ha2 := remaining_advance (parser_advance P).2
  unfold JSC.parse_relational_expression
  try dsimp only
  try simp only [parser_match_fst, parser_match_snd, Outcome.andThen_ite, Outcome.andThen_assoc,
    Outcome.andThen_ret_true]
  all_goals
    repeat' first
      | exact halts_ret _ _
      | exact halts_null_deref _
      | exact halts_expect _ _
      | exact halts_consume_semicolon _
      | exact ih.parse_relational_expression_loop _ (by omega)
      | exact ih.parse_shift_expression _ (by omega)
      | refine halts_after_expect (by decide) (fun Q h1 h2 h3 => ?_)
      | refine halts_after_steps (parser_consume_semicolon_steps _) (halts_consume_semicolon _) (fun Q h1 h2 h3 => ?_)
      | refine halts_after_steps ((all_steps n).parse_relational_expression_loop _) (ih.parse_relational_expression_loop _ (by omega)) (fun Q h1 h2 h3 => ?_)
      | refine halts_after_steps ((all_steps n).parse_shift_expression _) (ih.parse_shift_expression _ (by omega)) (fun Q h1 h2 h3 => ?_)
      | refine halts_with_current (fun t ht => ?_)
      | (refine halts_ite_pos (by intro h; repeat' first | exact remaining_pos_of_check h (by decide) | exact remaining_pos_of_not_eof h.2 | exact remaining_pos_of_not_eof h.2.2.2 | exact remaining_pos_of_current (by assumption) h.1 | exact remaining_pos_of_unary (by assumption) h | exact remaining_pos_of_assignment (by assumption) h | (rcases h with h | h)) (fun hc hp => ?_) (fun hc => ?_) <;> try simp only [hc, ↓reduceIte, Bool.false_eq_true])
      | (refine halts_ite_neg_pos (by intro h; exact remaining_pos_of_not_false h (by decide)) (fun hc => ?_) (fun hc hp => ?_) <;> try simp only [hc, ↓reduceIte, Bool.false_eq_true])
      | refine halts_leave ?_
      | (refine halts_ite (fun hc => ?_) (fun hc => ?_) <;> try simp only [hc, ↓reduceIte, Bool.false_eq_true])
      | split

theorem halts_parse_equality_expression_loop (n : Nat) (ih : AllHalt n) (P : Parser) 
    (hb : 64 * remaining P + 21 ≤ n + 1) :
    JSC.parse_equality_expression_loop (n + 1) P ≠ .out_of_fuel := by
  have ha := remaining_advance P
  have ha2 := remaining_advance (parser_advance P).2
  unfold JSC.parse_equality_expression_loop
  try dsimp only
  try simp only [parser_match_fst, parser_match_snd, Outcome.andThen_ite, Outcome.andThen_assoc,
    Outcome.andThen_ret_true]
  all_goals
    repeat' first
      | exact halts_ret _ _
      | exact halts_null_deref _
      | exact halts_expect _ _
      | exact halts_consume_semicolon _
      | exact ih.parse_equality_expression_loop _ (by omega)
      | exact ih.parse_relational_expression _ (by omega)
      | refine halts_after_expect (by decide) (fun Q h1 h2 h3 => ?_)
      | refine halts_after_steps (parser_consume_semicolon_steps _) (halts_consume_semicolon _) (fun Q h1 h2 h3 => ?_)
      | refine halts_after_steps ((all_steps n).parse_equality_expression_loop _) (ih.parse_equality_expression_loop _ (by omega)) (fun Q h1 h2 h3 => ?_)
      | refine halts_after_steps ((all_steps n).parse_relational_expression _) (ih.parse_relational_expression _ (by omega)) (fun Q h1 h2 h3 => ?_)
      | refine halts_with_current (fun t ht => ?_)
      | (refine halts_ite_pos (by intro h; repeat' first | exact remaining_pos_of_check h (by decide) | exact remaining_pos_of_not_eof h.2 | exact remaining_pos_of_not_eof h.2.2.2 | exact remaining_pos_of_current (by assumption) h.1 | exact remaining_pos_of_unary (by assumption) h | exact remaining_pos_of_assignment (by assumption) h | (rcases h with h | h)) (fun hc hp => ?_) (fun hc => ?_) <;> try simp only [hc, ↓reduceIte, Bool.false_eq_true])
      | (refine halts_ite_neg_pos (by intro h; exact remaining_pos_of_not_false h (by decide)) (fun hc => ?_) (fun hc hp => ?_) <;> try simp only [hc, ↓reduceIte, Bool.false_eq_true])
      | refine halts_leave ?_
      | (refine halts_ite (fun hc => ?_) (fun hc => ?_) <;> try simp only [hc, ↓reduceIte, Bool.false_eq_true])
      | split

theorem halts_parse_equality_expression (n : Nat) (ih : AllHalt n) (P : Parser) 
    (hb : 64 * remaining P + 22 ≤ n + 1) :
    JSC.parse_equality_expression (n + 1) P ≠ .out_of_fuel := by
  have ha := remaining_advance P
  have ha2 := remaining_advance (parser_advance P).2
  unfold JSC.parse_equality_expression
  try dsimp only
  try simp only [parser_match_fst, parser_match_snd, Outcome.andThen_ite, Outcome.andThen_assoc,
    Outcome.andThen_ret_true]
  all_goals
    repeat' first
      | exact halts_ret _ _
      | exact halts_null_deref _
      | exact halts_expect _ _
      | exact halts_consume_semicolon _
      | exact ih.parse_equality_expression_loop _ (by omega)
      | exact ih.parse_relational_expression _ (by omega)
      | refine halts_after_expect (by decide) (fun Q h1 h2 h3 => ?_)
      | refine halts_after_steps (parser_consume_semicolon_steps _) (halts_consume_semicolon _) (fun Q h1 h2 h3 => ?_)
      | refine halts_after_steps ((all_steps n).parse_equality_expression_loop _) (ih.parse_equality_expression_loop _ (by omega)) (fun Q h1 h2 h3 => ?_)
      | refine halts_after_steps ((all_steps n).parse_relational_expression _) (ih.parse_relational_expression _ (by omega)) (fun Q h1 h2 h3 => ?_)
      | refine halts_with_current (fun t ht => ?_)
      | (refine halts_ite_pos (by intro h; repeat' first | exact remaining_pos_of_check h (by decide) | exact remaining_pos_of_not_eof h.2 | exact remaining_pos_of_not_eof h.2.2.2 | exact remaining_pos_of_current (by assumption) h.1 | exact remaining_pos_of_unary (by assumption) h | exact remaining_pos_of_assignment (by assumption) h | (rcases h with h | h)) (fun hc hp => ?_) (fun hc => ?_) <;> try simp only [hc, ↓reduceIte, Bool.false_eq_true])
      | (refine halts_ite_neg_pos (by intro h; exact remaining_pos_of_not_false h (by decide)) (fun hc => ?_) (fun hc hp => ?_) <;> try simp only [hc, ↓reduceIte, Bool.false_eq_true])
      | refine halts_leave ?_
      | (refine halts_ite (fun hc => ?_) (fun hc => ?_) <;> try simp only [hc, ↓reduceIte, Bool.false_eq_true])
      | split

theorem halts_parse_bitwise_and_expression_loop (n : Nat) (ih : AllHalt n) (P : Parser) 
    (hb : 64 * remaining P + 23 ≤ n + 1) :
    JSC.parse_bitwise_and_expression_loop (n + 1) P ≠ .out_of_fuel := by
  have ha := remaining_advance P
  have ha2 := remaining_advance (parser_advance P).2
  unfold JSC.parse_bitwise_and_expression_loop
  try dsimp only
  try simp only [parser_match_fst, parser_match_snd, Outcome.andThen_ite, Outcome.andThen_assoc,
    Outcome.andThen_ret_true]
  all_goals
    repeat' first
      | exact halts_ret _ _
      | exact halts_null_deref _
      | exact halts_expect _ _
      | exact halts_consume_semicolon _
      | exact ih.parse_bitwise_and_expression_loop _ (by omega)
      | exact ih.parse_equality_expression _ (by omega)
      | refine halts_after_expect (by decide) (fun Q h1 h2 h3 => ?_)
      | refine halts_after_steps (parser_consume_semicolon_steps _) (halts_consume_semicolon _) (fun Q h1 h2 h3 => ?_)
      | refine halts_after_steps ((all_steps n).parse_bitwise_and_expression_loop _) (ih.parse_bitwise_and_expression_loop _ (by omega)) (fun Q h1 h2 h3 => ?_)
      | refine halts_after_steps ((all_steps n).parse_equality_expression _) (ih.parse_equality_expression _ (by omega)) (fun Q h1 h2 h3 => ?_)
      | refine halts_with_current (fun t ht => ?_)
      | (refine halts_ite_pos (by intro h; repeat' first | exact remaining_pos_of_check h (by decide) | exact remaining_pos_of_not_eof h.2 | exact remaining_pos_of_not_eof h.2.2.2 | exact remaining_pos_of_current (by assumption) h.1 | exact remaining_pos_of_unary (by assumption) h | exact remaining_pos_of_assignment (by assumption) h | (rcases h with h | h)) (fun hc hp => ?_) (fun hc => ?_) <;> try simp only [hc, ↓reduceIte, Bool.false_eq_true])
      | (refine halts_ite_neg_pos (by intro h; exact remaining_pos_of_not_false h (by decide)) (fun hc => ?_) (fun hc hp => ?_) <;> try simp only [hc, ↓reduceIte, Bool.false_eq_true])
      | refine halts_leave ?_
      | (refine halts_ite (fun hc => ?_) (fun hc => ?_) <;> try simp only [hc, ↓reduceIte, Bool.false_eq_true])
      | split

theorem halts_parse_bitwise_and_expression (n : Nat) (ih : AllHalt n) (P : Parser) 
    (hb : 64 * remaining P + 24 ≤ n + 1) :
    JSC.parse_bitwise_and_expression (n + 1) P ≠ .out_of_fuel := by
  have ha := remaining_advance P
  have ha2 := remaining_advance (parser_advance P).2
  unfold JSC.parse_bitwise_and_expression
  try dsimp only
  try simp only [parser_match_fst, parser_match_snd, Outcome.andThen_ite, Outcome.andThen_assoc,
    Outcome.andThen_ret_true]
  all_goals
    repeat' first
      | exact halts_ret _ _
      | exact halts_null_deref _
      | exact halts_expect _ _
      | exact halts_consume_semicolon _
      | exact ih.parse_bitwise_and_expression_loop _ (by omega)
      | exact ih.parse_equality_expression _ (by omega)
      | refine halts_after_expect (by decide) (fun Q h1 h2 h3 => ?_)
      | refine halts_after_steps (parser_consume_semicolon_steps _) (halts_consume_semicolon _) (fun Q h1 h2 h3 => ?_)
      | refine halts_after_steps ((all_steps n).parse_bitwise_and_expression_loop _) (ih.parse_bitwise_and_expression_loop _ (by omega)) (fun Q h1 h2 h3 => ?_)
      | refine halts_after_steps ((all_steps n).parse_equality_expression _) (ih.parse_equality_expression _ (by omega)) (fun Q h1 h2 h3 => ?_)
      | refine halts_with_current (fun t ht => ?_)
      | (refine halts_ite_pos (by intro h; repeat' first | exact remaining_pos_of_check h (by decide) | exact remaining_pos_of_not_eof h.2 | exact remaining_pos_of_not_eof h.2.2.2 | exact remaining_pos_of_current (by assumption) h.1 | exact remaining_pos_of_unary (by assumption) h | exact remaining_pos_of_assignment (by assumption) h | (rcases h with h | h)) (fun hc hp => ?_) (fun hc => ?_) <;> try simp only [hc, ↓reduceIte, Bool.false_eq_true])
      | (refine halts_ite_neg_pos (by intro h; exact remaining_pos_of_not_false h (by decide)) (fun hc => ?_) (fun hc hp => ?_) <;> try simp only [hc, ↓reduceIte, Bool.false_eq_true])
      | refine halts_leave ?_
      | (refine halts_ite (fun hc => ?_) (fun hc => ?_) <;> try simp only [hc, ↓reduceIte, Bool.false_eq_true])
      | split

theorem halts_parse_bitwise_xor_expression_loop (n : Nat) (ih : AllHalt n) (P : Parser) 
    (hb : 64 * remaining P + 25 ≤ n + 1) :
    JSC.parse_bitwise_xor_expression_loop (n + 1) P ≠ .out_of_fuel := by
  have ha := remaining_advance P
  have ha2 := remaining_advance (parser_advance P).2
  unfold JSC.parse_bitwise_xor_expression_loop
  try dsimp only
  try simp only [parser_match_fst, parser_match_snd, Outcome.andThen_ite, Outcome.andThen_assoc,
    Outcome.andThen_ret_true]
  all_goals
    repeat' first
      | exact halts_ret _ _
      | exact halts_null_deref _
      | exact halts_expect _ _
      | exact halts_consume_semicolon _
      | exact ih.parse_bitwise_xor_expression_loop _ (by omega)
      | exact ih.parse_bitwise_and_expression _ (by omega)
      | refine halts_after_expect (by decide) (fun Q h1 h2 h3 => ?_)
      | refine halts_after_steps (parser_consume_semicolon_steps _) (halts_consume_semicolon _) (fun Q h1 h2 h3 => ?_)
      | refine halts_after_steps ((all_steps n).parse_bitwise_xor_expression_loop _) (ih.parse_bitwise_xor_expression_loop _ (by omega)) (fun Q h1 h2 h3 => ?_)
      | refine halts_after_steps ((all_steps n).parse_bitwise_and_expression _) (ih.parse_bitwise_and_expression _ (by omega)) (fun Q h1 h2 h3 => ?_)
      | refine halts_with_current (fun t ht => ?_)
      | (refine halts_ite_pos (by intro h; repeat' first | exact remaining_pos_of_check h (by decide) | exact remaining_pos_of_not_eof h.2 | exact remaining_pos_of_not_eof h.2.2.2 | exact remaining_pos_of_current (by assumption) h.1 | exact remaining_pos_of_unary (by assumption) h | exact remaining_pos_of_assignment (by assumption) h | (rcases h with h | h)) (fun hc hp => ?_) (fun hc => ?_) <;> try simp only [hc, ↓reduceIte, Bool.false_eq_true])
      | (refine halts_ite_neg_pos (by intro h; exact remaining_pos_of_not_false h (by decide)) (fun hc => ?_) (fun hc hp => ?_) <;> try simp only [hc, ↓reduceIte, Bool.false_eq_true])
      | refine halts_leave ?_
      | (refine halts_ite (fun hc => ?_) (fun hc => ?_) <;> try simp only [hc, ↓reduceIte, Bool.false_eq_true])
      | split

theorem halts_parse_bitwise_xor_expression (n : Nat) (ih : AllHalt n) (P : Parser) 
    (hb : 64 * remaining P + 26 ≤ n + 1) :
    JSC.parse_bitwise_xor_expression (n + 1) P ≠ .out_of_fuel := by
  have ha := remaining_advance P
  have ha2 := remaining_advance (parser_advance P).2
  unfold JSC.parse_bitwise_xor_expression
  try dsimp only
  try simp only [parser_match_fst, parser_match_snd, Outcome.andThen_ite, Outcome.andThen_assoc,
    Outcome.andThen_ret_true]
  all_goals
    repeat' first
      | exact halts_ret _ _
      | exact halts_null_deref _
      | exact halts_expect _ _
      | exact halts_consume_semicolon _
      | exact ih.parse_bitwise_xor_expression_loop _ (by omega)
      | exact ih.parse_bitwise_and_expression _ (by omega)
      | refine halts_after_expect (by decide) (fun Q h1 h2 h3 => ?_)
      | refine halts_after_steps (parser_consume_semicolon_steps _) (halts_consume_semicolon _) (fun Q h1 h2 h3 => ?_)
      | refine halts_after_steps ((all_steps n).parse_bitwise_xor_expression_loop _) (ih.parse_bitwise_xor_expression_loop _ (by omega)) (fun Q h1 h2 h3 => ?_)
      | refine halts_after_steps ((all_steps n).parse_bitwise_and_expression _) (ih.parse_bitwise_and_expression _ (by omega)) (fun Q h1 h2 h3 => ?_)
      | refine halts_with_current (fun t ht => ?_)
      | (refine halts_ite_pos (by intro h; repeat' first | exact remaining_pos_of_check h (by decide) | exact remaining_pos_of_not_eof h.2 | exact remaining_pos_of_not_eof h.2.2.2 | exact remaining_pos_of_current (by assumption) h.1 | exact remaining_pos_of_unary (by assumption) h | exact remaining_pos_of_assignment (by assumption) h | (rcases h with h | h)) (fun hc hp => ?_) (fun hc => ?_) <;> try simp only [hc, ↓reduceIte, Bool.false_eq_true])
      | (refine halts_ite_neg_pos (by intro h; exact remaining_pos_of_not_false h (by decide)) (fun hc => ?_) (fun hc hp => ?_) <;> try simp only [hc, ↓reduceIte, Bool.false_eq_true])
      | refine halts_leave ?_
      | (refine halts_ite (fun hc => ?_) (fun hc => ?_) <;> try simp only [hc, ↓reduceIte, Bool.false_eq_true])
      | split

theorem halts_parse_bitwise_or_expression_loop (n : Nat) (ih : AllHalt n) (P : Parser) 
    (hb : 64 * remaining P + 27 ≤ n + 1) :
    JSC.parse_bitwise_or_expression_loop (n + 1) P ≠ .out_of_fuel := by
  have ha := remaining_advance P
  have ha2 := remaining_advance (parser_advance P).2
  unfold JSC.parse_bitwise_or_expression_loop
  try dsimp only
  try simp only [parser_match_fst, parser_match_snd, Outcome.andThen_ite, Outcome.andThen_assoc,
    Outcome.andThen_ret_true]
  all_goals
    repeat' first
      | exact halts_ret _ _
      | exact halts_null_deref _
      | exact halts_expect _ _
      | exact halts_consume_semicolon _
      | exact ih.parse_bitwise_or_expression_loop _ (by omega)
      | exact ih.parse_bitwise_xor_expression _ (by omega)
      | refine halts_after_expect (by decide) (fun Q h1 h2 h3 => ?_)
      | refine halts_after_steps (parser_consume_semicolon_steps _) (halts_consume_semicolon _) (fun Q h1 h2 h3 => ?_)
      | refine halts_after_steps ((all_steps n).parse_bitwise_or_expression_loop _) (ih.parse_bitwise_or_expression_loop _ (by omega)) (fun Q h1 h2 h3 => ?_)
      | refine halts_after_steps ((all_steps n).parse_bitwise_xor_expression _) (ih.parse_bitwise_xor_expression _ (by omega)) (fun Q h1 h2 h3 => ?_)
      | refine halts_with_current (fun t ht => ?_)
      | (refine halts_ite_pos (by intro h; repeat' first | exact remaining_pos_of_check h (by decide) | exact remaining_pos_of_not_eof h.2 | exact remaining_pos_of_not_eof h.2.2.2 | exact remaining_pos_of_current (by assumption) h.1 | exact remaining_pos_of_unary (by assumption) h | exact remaining_pos_of_assignment (by assumption) h | (rcases h with h | h)) (fun hc hp => ?_) (fun hc => ?_) <;> try simp only [hc, ↓reduceIte, Bool.false_eq_true])
      | (refine halts_ite_neg_pos (by intro h; exact remaining_pos_of_not_false h (by decide)) (fun hc => ?_) (fun hc hp => ?_) <;> try simp only [hc, ↓reduceIte, Bool.false_eq_true])
      | refine halts_leave ?_
      | (refine halts_ite (fun hc => ?_) (fun hc => ?_) <;> try simp only [hc, ↓reduceIte, Bool.false_eq_true])
      | split

theorem halts_parse_bitwise_or_expression (n : Nat) (ih : AllHalt n) (P : Parser) 
    (hb : 64 * remaining P + 28 ≤ n + 1) :
    JSC.parse_bitwise_or_expression (n + 1) P ≠ .out_of_fuel := by
  have ha := remaining_advance P
  have ha2 := remaining_advance (parser_advance P).2
  unfold JSC.parse_bitwise_or_expression
  try dsimp only
  try simp only [parser_match_fst, parser_match_snd, Outcome.andThen_ite, Outcome.andThen_assoc,
    Outcome.andThen_ret_true]
  all_goals
    repeat' first
      | exact halts_ret _ _
      | exact halts_null_deref _
      | exact halts_expect _ _
      | exact halts_consume_semicolon _
      | exact ih.parse_bitwise_or_expression_loop _ (by omega)
      | exact ih.parse_bitwise_xor_expression _ (by omega)
      | refine halts_after_expect (by decide) (fun Q h1 h2 h3 => ?_)
      | refine halts_after_steps (parser_consume_semicolon_steps _) (halts_consume_semicolon _) (fun Q h1 h2 h3 => ?_)
      | refine halts_after_steps ((all_steps n).parse_bitwise_or_expression_loop _) (ih.parse_bitwise_or_expression_loop _ (by omega)) (fun Q h1 h2 h3 => ?_)
      | refine halts_after_steps ((all_steps n).parse_bitwise_xor_expression _) (ih.parse_bitwise_xor_expression _ (by omega)) (fun Q h1 h2 h3 => ?_)
      | refine halts_with_current (fun t ht => ?_)
      | (refine halts_ite_pos (by intro h; repeat' first | exact remaining_pos_of_check h (by decide) | exact remaining_pos_of_not_eof h.2 | exact remaining_pos_of_not_eof h.2.2.2 | exact remaining_pos_of_current (by assumption) h.1 | exact remaining_pos_of_unary (by assumption) h | exact remaining_pos_of_assignment (by assumption) h | (rcases h with h | h)) (fun hc hp => ?_) (fun hc => ?_) <;> try simp only [hc, ↓reduceIte, Bool.false_eq_true])
      | (refine halts_ite_neg_pos (by intro h; exact remaining_pos_of_not_false h (by decide)) (fun hc => ?_) (fun hc hp => ?_) <;> try simp only [hc, ↓reduceIte, Bool.false_eq_true])
      | refine halts_leave ?_
      | (refine halts_ite (fun hc => ?_) (fun hc => ?_) <;> try simp only [hc, ↓reduceIte, Bool.false_eq_true])
      | split

theorem halts_parse_logical_and_expression_loop (n : Nat) (ih : AllHalt n) (P : Parser) 
    (hb : 64 * remaining P + 29 ≤ n + 1) :
    JSC.parse_logical_and_expression_loop (n + 1) P ≠ .out_of_fuel := by
  have ha := remaining_advance P
  have ha2 := remaining_advance (parser_advance P).2
  unfold JSC.parse_logical_and_expression_loop
  try dsimp only
  try simp only [parser_match_fst, parser_match_snd, Outcome.andThen_ite, Outcome.andThen_assoc,
    Outcome.andThen_ret_true]
  all_goals
    repeat' first
      | exact halts_ret _ _
      | exact halts_null_deref _
      | exact halts_expect _ _
      | exact halts_consume_semicolon _
      | exact ih.parse_logical_and_expression_loop _ (by omega)
      | exact ih.parse_bitwise_or_expression _ (by omega)
      | refine halts_after_expect (by decide) (fun Q h1 h2 h3 => ?_)
      | refine halts_after_steps (parser_consume_semicolon_steps _) (halts_consume_semicolon _) (fun Q h1 h2 h3 => ?_)
      | refine halts_after_steps ((all_steps n).parse_logical_and_expression_loop _) (ih.parse_logical_and_expression_loop _ (by omega)) (fun Q h1 h2 h3 => ?_)
      | refine halts_after_steps ((all_steps n).parse_bitwise_or_expression _) (ih.parse_bitwise_or_expression _ (by omega)) (fun Q h1 h2 h3 => ?_)
      | refine halts_with_current (fun t ht => ?_)
      | (refine halts_ite_pos (by intro h; repeat' first | exact remaining_pos_of_check h (by decide) | exact remaining_pos_of_not_eof h.2 | exact remaining_pos_of_not_eof h.2.2.2 | exact remaining_pos_of_current (by assumption) h.1 | exact remaining_pos_of_unary (by assumption) h | exact remaining_pos_of_assignment (by assumption) h | (rcases h with h | h)) (fun hc hp => ?_) (fun hc => ?_) <;> try simp only [hc, ↓reduceIte, Bool.false_eq_true])
      | (refine halts_ite_neg_pos (by intro h; exact remaining_pos_of_not_false h (by decide)) (fun hc => ?_) (fun hc hp => ?_) <;> try simp only [hc, ↓reduceIte, Bool.false_eq_true])
      | refine halts_leave ?_
      | (refine halts_ite (fun hc => ?_) (fun hc => ?_) <;> try simp only [hc, ↓reduceIte, Bool.false_eq_true])
      | split

theorem halts_parse_logical_and_expression (n : Nat) (ih : AllHalt n) (P : Parser) 
    (hb : 64 * remaining P + 30 ≤ n + 1) :
    JSC.parse_logical_and_expression (n + 1) P ≠ .out_of_fuel := by
  have ha := remaining_advance P
  have ha2 := remaining_advance (parser_advance P).2
  unfold JSC.parse_logical_and_expression
  try dsimp only
  try simp only [parser_match_fst, parser_match_snd, Outcome.andThen_ite, Outcome.andThen_assoc,
    Outcome.andThen_ret_true]
  all_goals
    repeat' first
      | exact halts_ret _ _
      | exact halts_null_deref _
      | exact halts_expect _ _
      | exact halts_consume_semicolon _
      | exact ih.parse_logical_and_expression_loop _ (by omega)
      | exact ih.parse_bitwise_or_expression _ (by omega)
      | refine halts_after_expect (by decide) (fun Q h1 h2 h3 => ?_)
      | refine halts_after_steps (parser_consume_semicolon_steps _) (halts_consume_semicolon _) (fun Q h1 h2 h3 => ?_)
      | refine halts_after_steps ((all_steps n).parse_logical_and_expression_loop _) (ih.parse_logical_and_expression_loop _ (by omega)) (fun Q h1 h2 h3 => ?_)
      | refine halts_after_steps ((all_steps n).parse_bitwise_or_expression _) (ih.parse_bitwise_or_expression _ (by omega)) (fun Q h1 h2 h3 => ?_)
      | refine halts_with_current (fun t ht => ?_)
      | (refine halts_ite_pos (by intro h; repeat' first | exact remaining_pos_of_check h (by decide) | exact remaining_pos_of_not_eof h.2 | exact remaining_pos_of_not_eof h.2.2.2 | exact remaining_pos_of_current (by assumption) h.1 | exact remaining_pos_of_unary (by assumption) h | exact remaining_pos_of_assignment (by assumption) h | (rcases h with h | h)) (fun hc hp => ?_) (fun hc => ?_) <;> try simp only [hc, ↓reduceIte, Bool.false_eq_true])
      | (refine halts_ite_neg_pos (by intro h; exact remaining_pos_of_not_false h (by decide)) (fun hc => ?_) (fun hc hp => ?_) <;> try simp only [hc, ↓reduceIte, Bool.false_eq_true])
      | refine halts_leave ?_
      | (refine halts_ite (fun hc => ?_) (fun hc => ?_) <;> try simp only [hc, ↓reduceIte, Bool.false_eq_true])
      | split

theorem halts_parse_logical_or_expression_loop (n : Nat) (ih : AllHalt n) (P : Parser) 
    (hb : 64 * remaining P + 31 ≤ n + 1) :
    JSC.parse_logical_or_expression_loop (n + 1) P ≠ .out_of_fuel := by
  have ha := remaining_advance P
  have ha2 := remaining_advance (parser_advance P).2
  unfold JSC.parse_logical_or_expression_loop
  try dsimp only
  try simp only [parser_match_fst, parser_match_snd, Outcome.andThen_ite, Outcome.andThen_assoc,
    Outcome.andThen_ret_true]
  by_cases h1 : parser_check P .TOKEN_OR = true <;>
  by_cases h2 : parser_check P .TOKEN_NULLISH = true <;>
    simp only [h1, h2, ↓reduceIte, Bool.false_eq_true, parser_match_fst, parser_match_snd]
  all_goals try (have hp : 1 ≤ remaining P := by first | exact remaining_pos_of_check h1 (by decide) | exact remaining_pos_of_check h2 (by decide))
  all_goals
    repeat' first
      | exact halts_ret _ _
      | exact halts_null_deref _
      | exact halts_expect _ _
      | exact halts_consume_semicolon _
      | exact ih.parse_logical_or_expression_loop _ (by omega)
      | exact ih.parse_logical_and_expression _ (by omega)
      | refine halts_after_expect (by decide) (fun Q h1 h2 h3 => ?_)
      | refine halts_after_steps (parser_consume_semicolon_steps _) (halts_consume_semicolon _) (fun Q h1 h2 h3 => ?_)
      | refine halts_after_steps ((all_steps n).parse_logical_or_expression_loop _) (ih.parse_logical_or_expression_loop _ (by omega)) (fun Q h1 h2 h3 => ?_)
      | refine halts_after_steps ((all_steps n).parse_logical_and_expression _) (ih.parse_logical_and_expression _ (by omega)) (fun Q h1 h2 h3 => ?_)
      | refine halts_with_current (fun t ht => ?_)
      | (refine halts_ite_pos (by intro h; repeat' first | exact remaining_pos_of_check h (by decide) | exact remaining_pos_of_not_eof h.2 | exact remaining_pos_of_not_eof h.2.2.2 | exact remaining_pos_of_current (by assumption) h.1 | exact remaining_pos_of_unary (by assumption) h | exact remaining_pos_of_assignment (by assumption) h | (rcases h with h | h)) (fun hc hp => ?_) (fun hc => ?_) <;> try simp only [hc, ↓reduceIte, Bool.false_eq_true])
      | (refine halts_ite_neg_pos (by intro h; exact remaining_pos_of_not_false h (by decide)) (fun hc => ?_) (fun hc hp => ?_) <;> try simp only [hc, ↓reduceIte, Bool.false_eq_true])
      | refine halts_leave ?_
      | (refine halts_ite (fun hc => ?_) (fun hc => ?_) <;> try simp only [hc, ↓reduceIte, Bool.false_eq_true])
      | split

theorem halts_parse_logical_or_expression (n : Nat) (ih : AllHalt n) (P : Parser) 
    (hb : 64 * remaining P + 32 ≤ n + 1) :
    JSC.parse_logical_or_expression (n + 1) P ≠ .out_of_fuel := by
  have ha := remaining_advance P
  have ha2 := remaining_advance (parser_advance P).2
  unfold JSC.parse_logical_or_expression
  try dsimp only
  try simp only [parser_match_fst, parser_match_snd, Outcome.andThen_ite, Outcome.andThen_assoc,
    Outcome.andThen_ret_true]
  all_goals
    repeat' first
      | exact halts_ret _ _
      | exact halts_null_deref _
      | exact halts_expect _ _
      | exact halts_consume_semicolon _
      | exact ih.parse_logical_or_expression_loop _ (by omega)
      | exact ih.parse_logical_and_expression _ (by omega)
      | refine halts_after_expect (by decide) (fun Q h1 h2 h3 => ?_)
      | refine halts_after_steps (parser_consume_semicolon_steps _) (halts_consume_semicolon _) (fun Q h1 h2 h3 => ?_)
      | refine halts_after_steps ((all_steps n).parse_logical_or_expression_loop _) (ih.parse_logical_or_expression_loop _ (by omega)) (fun Q h1 h2 h3 => ?_)
      | refine halts_after_steps ((all_steps n).parse_logical_and_expression _) (ih.parse_logical_and_expression _ (by omega)) (fun Q h1 h2 h3 => ?_)
      | refine halts_with_current (fun t ht => ?_)
      | (refine halts_ite_pos (by intro h; repeat' first | exact remaining_pos_of_check h (by decide) | exact remaining_pos_of_not_eof h.2 | exact remaining_pos_of_not_eof h.2.2.2 | exact remaining_pos_of_current (by assumption) h.1 | exact remaining_pos_of_unary (by assumption) h | exact remaining_pos_of_assignment (by assumption) h | (rcases h with h | h)) (fun hc hp => ?_) (fun hc => ?_) <;> try simp only [hc, ↓reduceIte, Bool.false_eq_true])
      | (refine halts_ite_neg_pos (by intro h; exact remaining_pos_of_not_false h (by decide)) (fun hc => ?_) (fun hc hp => ?_) <;> try simp only [hc, ↓reduceIte, Bool.false_eq_true])
      | refine halts_leave ?_
      | (refine halts_ite (fun hc => ?_) (fun hc => ?_) <;> try simp only [hc, ↓reduceIte, Bool.false_eq_true])
      | split

theorem halts_parse_conditional_expression (n : Nat) (ih : AllHalt n) (P : Parser) 
    (hb : 64 * remaining P + 33 ≤ n + 1) :
    JSC.parse_conditional_expression (n + 1) P ≠ .out_of_fuel := by
  have ha := remaining_advance P
  have ha2 := remaining_advance (parser_advance P).2
  unfold JSC.parse_conditional_expression
  try dsimp only
  try simp only [parser_match_fst, parser_match_snd, Outcome.andThen_ite, Outcome.andThen_assoc,
    Outcome.andThen_ret_true]
  all_goals
    repeat' first
      | exact halts_ret _ _
      | exact halts_null_deref _
      | exact halts_expect _ _
      | exact halts_consume_semicolon _
      | exact ih.parse_assignment_expression _ (by omega)
      | exact ih.parse_logical_or_expression _ (by omega)
      | refine halts_after_expect (by decide) (fun Q h1 h2 h3 => ?_)
      | refine halts_after_steps (parser_consume_semicolon_steps _) (halts_consume_semicolon _) (fun Q h1 h2 h3 => ?_)
      | refine halts_after_steps ((all_steps n).parse_assignment_expression _) (ih.parse_assignment_expression _ (by omega)) (fun Q h1 h2 h3 => ?_)
      | refine halts_after_steps ((all_steps n).parse_logical_or_expression _) (ih.parse_logical_or_expression _ (by omega)) (fun Q h1 h2 h3 => ?_)
      | refine halts_with_current (fun t ht => ?_)
      | (refine halts_ite_pos (by intro h; repeat' first | exact remaining_pos_of_check h (by decide) | exact remaining_pos_of_not_eof h.2 | exact remaining_pos_of_not_eof h.2.2.2 | exact remaining_pos_of_current (by assumption) h.1 | exact remaining_pos_of_unary (by assumption) h | exact remaining_pos_of_assignment (by assumption) h | (rcases h with h | h)) (fun hc hp => ?_) (fun hc => ?_) <;> try simp only [hc, ↓reduceIte, Bool.false_eq_true])
      | (refine halts_ite_neg_pos (by intro h; exact remaining_pos_of_not_false h (by decide)) (fun hc => ?_) (fun hc hp => ?_) <;> try simp only [hc, ↓reduceIte, Bool.false_eq_true])
      | refine halts_leave ?_
      | (refine halts_ite (fun hc => ?_) (fun hc => ?_) <;> try simp only [hc, ↓reduceIte, Bool.false_eq_true])
      | split

theorem halts_parse_assignment_expression (n : Nat) (ih : AllHalt n) (P : Parser) 
    (hb : 64 * remaining P + 34 ≤ n + 1) :
    JSC.parse_assignment_expression (n + 1) P ≠ .out_of_fuel := by
  have ha := remaining_advance P
  have ha2 := remaining_advance (parser_advance P).2
  unfold JSC.parse_assignment_expression
  try dsimp only
  try simp only [parser_match_fst, parser_match_snd, Outcome.andThen_ite, Outcome.andThen_assoc,
    Outcome.andThen_ret_true]
  all_goals
    repeat' first
      | exact halts_ret _ _
      | exact halts_null_deref _
      | exact halts_expect _ _
      | exact halts_consume_semicolon _
      | exact ih.parse_assignment_expression _ (by omega)
      | exact ih.parse_conditional_expression _ (by omega)
      | refine halts_after_expect (by decide) (fun Q h1 h2 h3 => ?_)
      | refine halts_after_steps (parser_consume_semicolon_steps _) (halts_consume_semicolon _) (fun Q h1 h2 h3 => ?_)
      | refine halts_after_steps ((all_steps n).parse_assignment_expression _) (ih.parse_assignment_expression _ (by omega)) (fun Q h1 h2 h3 => ?_)
      | refine halts_after_steps ((all_steps n).parse_conditional_expression _) (ih.parse_conditional_expression _ (by omega)) (fun Q h1 h2 h3 => ?_)
      | refine halts_with_current (fun t ht => ?_)
      | (refine halts_ite_pos (by intro h; repeat' first | exact remaining_pos_of_check h (by decide) | exact remaining_pos_of_not_eof h.2 | exact remaining_pos_of_not_eof h.2.2.2 | exact remaining_pos_of_current (by assumption) h.1 | exact remaining_pos_of_unary (by assumption) h | exact remaining_pos_of_assignment (by assumption) h | (rcases h with h | h)) (fun hc hp => ?_) (fun hc => ?_) <;> try simp only [hc, ↓reduceIte, Bool.false_eq_true])
      | (refine halts_ite_neg_pos (by intro h; exact remaining_pos_of_not_false h (by decide)) (fun hc => ?_) (fun hc hp => ?_) <;> try simp only [hc, ↓reduceIte, Bool.false_eq_true])
      | refine halts_leave ?_
      | (refine halts_ite (fun hc => ?_) (fun hc => ?_) <;> try simp only [hc, ↓reduceIte, Bool.false_eq_true])
      | split

theorem halts_comma_list_loop (n : Nat) (ih : AllHalt n) (P : Parser) 
    (hb : 64 * remaining P + 35 ≤ n + 1) :
    JSC.comma_list_loop (n + 1) P ≠ .out_of_fuel := by
  have ha := remaining_advance P
  have ha2 := remaining_advance (parser_advance P).2
  unfold JSC.comma_list_loop
  try dsimp only
  try simp only [parser_match_fst, parser_match_snd, Outcome.andThen_ite, Outcome.andThen_assoc,
    Outcome.andThen_ret_true]
  all_goals
    repeat' first
      | exact halts_ret _ _
      | exact halts_null_deref _
      | exact halts_expect _ _
      | exact halts_consume_semicolon _
      | exact ih.comma_list_loop _ (by omega)
      | exact ih.parse_assignment_expression _ (by omega)
      | refine halts_after_expect (by decide) (fun Q h1 h2 h3 => ?_)
      | refine halts_after_steps (parser_consume_semicolon_steps _) (halts_consume_semicolon _) (fun Q h1 h2 h3 => ?_)
      | refine halts_after_steps ((all_steps n).comma_list_loop _) (ih.comma_list_loop _ (by omega)) (fun Q h1 h2 h3 => ?_)
      | refine halts_after_steps ((all_steps n).parse_assignment_expression _) (ih.parse_assignment_expression _ (by omega)) (fun Q h1 h2 h3 => ?_)
      | refine halts_with_current (fun t ht => ?_)
      | (refine halts_ite_pos (by intro h; repeat' first | exact remaining_pos_of_check h (by decide) | exact remaining_pos_of_not_eof h.2 | exact remaining_pos_of_not_eof h.2.2.2 | exact remaining_pos_of_current (by assumption) h.1 | exact remaining_pos_of_unary (by assumption) h | exact remaining_pos_of_assignment (by assumption) h | (rcases h with h | h)) (fun hc hp => ?_) (fun hc => ?_) <;> try simp only [hc, ↓reduceIte, Bool.false_eq_true])
      | (refine halts_ite_neg_pos (by intro h; exact remaining_pos_of_not_false h (by decide)) (fun hc => ?_) (fun hc hp => ?_) <;> try simp only [hc, ↓reduceIte, Bool.false_eq_true])
      | refine halts_leave ?_
      | (refine halts_ite (fun hc => ?_) (fun hc => ?_) <;> try simp only [hc, ↓reduceIte, Bool.false_eq_true])
      | split

theorem halts_parse_expression (n : Nat) (ih : AllHalt n) (P : Parser) 
    (hb : 64 * remaining P + 36 ≤ n + 1) :
    JSC.parse_expression (n + 1) P ≠ .out_of_fuel := by
  have ha := remaining_advance P
  have ha2 := remaining_advance (parser_advance P).2
  unfold JSC.parse_expression
  try dsimp only
  try simp only [parser_match_fst, parser_match_snd, Outcome.andThen_ite, Outcome.andThen_assoc,
    Outcome.andThen_ret_true]
  all_goals
    repeat' first
      | exact halts_ret _ _
      | exact halts_null_deref _
      | exact halts_expect _ _
      | exact halts_consume_semicolon _
      | exact ih.comma_list_loop _ (by omega)
      | exact ih.parse_assignment_expression _ (by omega)
      | refine halts_after_expect (by decide) (fun Q h1 h2 h3 => ?_)
      | refine halts_after_steps (parser_consume_semicolon_steps _) (halts_consume_semicolon _) (fun Q h1 h2 h3 => ?_)
      | refine halts_after_steps ((all_steps n).comma_list_loop _) (ih.comma_list_loop _ (by omega)) (fun Q h1 h2 h3 => ?_)
      | refine halts_after_steps ((all_steps n).parse_assignment_expression _) (ih.parse_assignment_expression _ (by omega)) (fun Q h1 h2 h3 => ?_)
      | refine halts_with_current (fun t ht => ?_)
      | (refine halts_ite_pos (by intro h; repeat' first | exact remaining_pos_of_check h (by decide) | exact remaining_pos_of_not_eof h.2 | exact remaining_pos_of_not_eof h.2.2.2 | exact remaining_pos_of_current (by assumption) h.1 | exact remaining_pos_of_unary (by assumption) h | exact remaining_pos_of_assignment (by assumption) h | (rcases h with h | h)) (fun hc hp => ?_) (fun hc => ?_) <;> try simp only [hc, ↓reduceIte, Bool.false_eq_true])
      | (refine halts_ite_neg_pos (by intro h; exact remaining_pos_of_not_false h (by decide)) (fun hc => ?_) (fun hc hp => ?_) <;> try simp only [hc, ↓reduceIte, Bool.false_eq_true])
      | refine halts_leave ?_
      | (refine halts_ite (fun hc => ?_) (fun hc => ?_) <;> try simp only [hc, ↓reduceIte, Bool.false_eq_true])
      | split

theorem halts_parse_arguments (n : Nat) (ih : AllHalt n) (P : Parser) 
    (hb : 64 * remaining P + 37 ≤ n + 1) :
    JSC.parse_arguments (n + 1) P ≠ .out_of_fuel := by
  have ha := remaining_advance P
  have ha2 := remaining_advance (parser_advance P).2
  unfold JSC.parse_arguments
  try dsimp only
  try simp only [parser_match_fst, parser_match_snd, Outcome.andThen_ite, Outcome.andThen_assoc,
    Outcome.andThen_ret_true]
  all_goals
    repeat' first
      | exact halts_ret _ _
      | exact halts_null_deref _
      | exact halts_expect _ _
      | exact halts_consume_semicolon _
      | exact ih.comma_list_loop _ (by omega)
      | exact ih.parse_assignment_expression _ (by omega)
      | refine halts_after_expect (by decide) (fun Q h1 h2 h3 => ?_)
      | refine halts_after_steps (parser_consume_semicolon_steps _) (halts_consume_semicolon _) (fun Q h1 h2 h3 => ?_)
      | refine halts_after_steps ((all_steps n).comma_list_loop _) (ih.comma_list_loop _ (by omega)) (fun Q h1 h2 h3 => ?_)
      | refine halts_after_steps ((all_steps n).parse_assignment_expression _) (ih.parse_assignment_expression _ (by omega)) (fun Q h1 h2 h3 => ?_)
      | refine halts_with_current (fun t ht => ?_)
      | (refine halts_ite_pos (by intro h; repeat' first | exact remaining_pos_of_check h (by decide) | exact remaining_pos_of_not_eof h.2 | exact remaining_pos_of_not_eof h.2.2.2 | exact remaining_pos_of_current (by assumption) h.1 | exact remaining_pos_of_unary (by assumption) h | exact remaining_pos_of_assignment (by assumption) h | (rcases h with h | h)) (fun hc hp => ?_) (fun hc => ?_) <;> try simp only [hc, ↓reduceIte, Bool.false_eq_true])
      | (refine halts_ite_neg_pos (by intro h; exact remaining_pos_of_not_false h (by decide)) (fun hc => ?_) (fun hc hp => ?_) <;> try simp only [hc, ↓reduceIte, Bool.false_eq_true])
      | refine halts_leave ?_
      | (refine halts_ite (fun hc => ?_) (fun hc => ?_) <;> try simp only [hc, ↓reduceIte, Bool.false_eq_true])
      | split

theorem halts_parse_array_element (n : Nat) (ih : AllHalt n) (P : Parser) 
    (hb : 64 * remaining P + 38 ≤ n + 1) :
    JSC.parse_array_element (n + 1) P ≠ .out_of_fuel := by
  have ha := remaining_advance P
  have ha2 := remaining_advance (parser_advance P).2
  unfold JSC.parse_array_element
  try dsimp only
  try simp only [parser_match_fst, parser_match_snd, Outcome.andThen_ite, Outcome.andThen_assoc,
    Outcome.andThen_ret_true]
  all_goals
    repeat' first
      | exact halts_ret _ _
      | exact halts_null_deref _
      | exact halts_expect _ _
      | exact halts_consume_semicolon _
      | exact ih.parse_assignment_expression _ (by omega)
      | refine halts_after_expect (by decide) (fun Q h1 h2 h3 => ?_)
      | refine halts_after_steps (parser_consume_semicolon_steps _) (halts_consume_semicolon _) (fun Q h1 h2 h3 => ?_)
      | refine halts_after_steps ((all_steps n).parse_assignment_expression _) (ih.parse_assignment_expression _ (by omega)) (fun Q h1 h2 h3 => ?_)
      | refine halts_with_current (fun t ht => ?_)
      | (refine halts_ite_pos (by intro h; repeat' first | exact remaining_pos_of_check h (by decide) | exact remaining_pos_of_not_eof h.2 | exact remaining_pos_of_not_eof h.2.2.2 | exact remaining_pos_of_current (by assumption) h.1 | exact remaining_pos_of_unary (by assumption) h | exact remaining_pos_of_assignment (by assumption) h | (rcases h with h | h)) (fun hc hp => ?_) (fun hc => ?_) <;> try simp only [hc, ↓reduceIte, Bool.false_eq_true])
      | (refine halts_ite_neg_pos (by intro h; exact remaining_pos_of_not_false h (by decide)) (fun hc => ?_) (fun hc hp => ?_) <;> try simp only [hc, ↓reduceIte, Bool.false_eq_true])
      | refine halts_leave ?_
      | (refine halts_ite (fun hc => ?_) (fun hc => ?_) <;> try simp only [hc, ↓reduceIte, Bool.false_eq_true])
      | split

theorem halts_parse_expression_statement (n : Nat) (ih : AllHalt n) (P : Parser) 
    (hb : 64 * remaining P + 39 ≤ n + 1) :
    JSC.parse_expression_statement (n + 1) P ≠ .out_of_fuel := by
  have ha := remaining_advance P
  have ha2 := remaining_advance (parser_advance P).2
  unfold JSC.parse_expression_statement
  try dsimp only
  try simp only [parser_match_fst, parser_match_snd, Outcome.andThen_ite, Outcome.andThen_assoc,
    Outcome.andThen_ret_true]
  all_goals
    repeat' first
      | exact halts_ret _ _
      | exact halts_null_deref _
      | exact halts_expect _ _
      | exact halts_consume_semicolon _
      | exact ih.parse_expression _ (by omega)
      | refine halts_after_expect (by decide) (fun Q h1 h2 h3 => ?_)
      | refine halts_after_steps (parser_consume_semicolon_steps _) (halts_consume_semicolon _) (fun Q h1 h2 h3 => ?_)
      | refine halts_after_steps ((all_steps n).parse_expression _) (ih.parse_expression _ (by omega)) (fun Q h1 h2 h3 => ?_)
      | refine halts_with_current (fun t ht => ?_)
      | (refine halts_ite_pos (by intro h; repeat' first | exact remaining_pos_of_check h (by decide) | exact remaining_pos_of_not_eof h.2 | exact remaining_pos_of_not_eof h.2.2.2 | exact remaining_pos_of_current (by assumption) h.1 | exact remaining_pos_of_unary (by assumption) h | exact remaining_pos_of_assignment (by assumption) h | (rcases h with h | h)) (fun hc hp => ?_) (fun hc => ?_) <;> try simp only [hc, ↓reduceIte, Bool.false_eq_true])
      | (refine halts_ite_neg_pos (by intro h; exact remaining_pos_of_not_false h (by decide)) (fun hc => ?_) (fun hc hp => ?_) <;> try simp only [hc, ↓reduceIte, Bool.false_eq_true])
      | refine halts_leave ?_
      | (refine halts_ite (fun hc => ?_) (fun hc => ?_) <;> try simp only [hc, ↓reduceIte, Bool.false_eq_true])
      | split

theorem halts_parse_initializer (n : Nat) (ih : AllHalt n) (P : Parser) 
    (hb : 64 * remaining P + 40 ≤ n + 1) :
    JSC.parse_initializer (n + 1) P ≠ .out_of_fuel := by
  have ha := remaining_advance P
  have ha2 := remaining_advance (parser_advance P).2
  unfold JSC.parse_initializer
  try dsimp only
  try simp only [parser_match_fst, parser_match_snd, Outcome.andThen_ite, Outcome.andThen_assoc,
    Outcome.andThen_ret_true]
  all_goals
    repeat' first
      | exact halts_ret _ _
      | exact halts_null_deref _
      | exact halts_expect _ _
      | exact halts_consume_semicolon _
      | exact ih.parse_assignment_expression _ (by omega)
      | refine halts_after_expect (by decide) (fun Q h1 h2 h3 => ?_)
      | refine halts_after_steps (parser_consume_semicolon_steps _) (halts_consume_semicolon _) (fun Q h1 h2 h3 => ?_)
      | refine halts_after_steps ((all_steps n).parse_assignment_expression _) (ih.parse_assignment_expression _ (by omega)) (fun Q h1 h2 h3 => ?_)
      | refine halts_with_current (fun t ht => ?_)
      | (refine halts_ite_pos (by intro h; repeat' first | exact remaining_pos_of_check h (by decide) | exact remaining_pos_of_not_eof h.2 | exact remaining_pos_of_not_eof h.2.2.2 | exact remaining_pos_of_current (by assumption) h.1 | exact remaining_pos_of_unary (by assumption) h | exact remaining_pos_of_assignment (by assumption) h | (rcases h with h | h)) (fun hc hp => ?_) (fun hc => ?_) <;> try simp only [hc, ↓reduceIte, Bool.false_eq_true])
      | (refine halts_ite_neg_pos (by intro h; exact remaining_pos_of_not_false h (by decide)) (fun hc => ?_) (fun hc hp => ?_) <;> try simp only [hc, ↓reduceIte, Bool.false_eq_true])
      | refine halts_leave ?_
      | (refine halts_ite (fun hc => ?_) (fun hc => ?_) <;> try simp only [hc, ↓reduceIte, Bool.false_eq_true])
      | split

theorem halts_parse_variable_declaration_loop (n : Nat) (ih : AllHalt n) (P : Parser) 
    (hb : 64 * remaining P + 41 ≤ n + 1) :
    JSC.parse_variable_declaration_loop (n + 1) P ≠ .out_of_fuel := by
  have ha := remaining_advance P
  have ha2 := remaining_advance (parser_advance P).2
  unfold JSC.parse_variable_declaration_loop
  try dsimp only
  try simp only [parser_match_fst, parser_match_snd, Outcome.andThen_ite, Outcome.andThen_assoc,
    Outcome.andThen_ret_true]
  all_goals
    repeat' first
      | exact halts_ret _ _
      | exact halts_null_deref _
      | exact halts_expect _ _
      | exact halts_consume_semicolon _
      | exact ih.parse_initializer _ (by omega)
      | exact ih.parse_variable_declaration_loop _ (by omega)
      | refine halts_after_expect (by decide) (fun Q h1 h2 h3 => ?_)
      | refine halts_after_steps (parser_consume_semicolon_steps _) (halts_consume_semicolon _) (fun Q h1 h2 h3 => ?_)
      | refine halts_after_steps ((all_steps n).parse_initializer _) (ih.parse_initializer _ (by omega)) (fun Q h1 h2 h3 => ?_)
      | refine halts_after_steps ((all_steps n).parse_variable_declaration_loop _) (ih.parse_variable_declaration_loop _ (by omega)) (fun Q h1 h2 h3 => ?_)
      | refine halts_with_current (fun t ht => ?_)
      | (refine halts_ite_pos (by intro h; repeat' first | exact remaining_pos_of_check h (by decide) | exact remaining_pos_of_not_eof h.2 | exact remaining_pos_of_not_eof h.2.2.2 | exact remaining_pos_of_current (by assumption) h.1 | exact remaining_pos_of_unary (by assumption) h | exact remaining_pos_of_assignment (by assumption) h | (rcases h with h | h)) (fun hc hp => ?_) (fun hc => ?_) <;> try simp only [hc, ↓reduceIte, Bool.false_eq_true])
      | (refine halts_ite_neg_pos (by intro h; exact remaining_pos_of_not_false h (by decide)) (fun hc => ?_) (fun hc hp => ?_) <;> try simp only [hc, ↓reduceIte, Bool.false_eq_true])
      | refine halts_leave ?_
      | (refine halts_ite (fun hc => ?_) (fun hc => ?_) <;> try simp only [hc, ↓reduceIte, Bool.false_eq_true])
      | split

theorem halts_parse_variable_declaration (n : Nat) (ih : AllHalt n) (P : Parser) (hpos : 1 ≤ remaining P) 
    (hb : 64 * remaining P + 42 ≤ n + 1) :
    JSC.parse_variable_declaration (n + 1) P ≠ .out_of_fuel := by
  have ha := remaining_advance P
  have ha2 := remaining_advance (parser_advance P).2
  unfold JSC.parse_variable_declaration
  try dsimp only
  try simp only [parser_match_fst, parser_match_snd, Outcome.andThen_ite, Outcome.andThen_assoc,
    Outcome.andThen_ret_true]
  all_goals
    repeat' first
      | exact halts_ret _ _
      | exact halts_null_deref _
      | exact halts_expect _ _
      | exact halts_consume_semicolon _
      | exact ih.parse_initializer _ (by omega)
      | exact ih.parse_variable_declaration_loop _ (by omega)
      | refine halts_after_expect (by decide) (fun Q h1 h2 h3 => ?_)
      | refine halts_after_steps (parser_consume_semicolon_steps _) (halts_consume_semicolon _) (fun Q h1 h2 h3 => ?_)
      | refine halts_after_steps ((all_steps n).parse_initializer _) (ih.parse_initializer _ (by omega)) (fun Q h1 h2 h3 => ?_)
      | refine halts_after_steps ((all_steps n).parse_variable_declaration_loop _) (ih.parse_variable_declaration_loop _ (by omega)) (fun Q h1 h2 h3 => ?_)
      | refine halts_with_current (fun t ht => ?_)
      | (refine halts_ite_pos (by intro h; repeat' first | exact remaining_pos_of_check h (by decide) | exact remaining_pos_of_not_eof h.2 | exact remaining_pos_of_not_eof h.2.2.2 | exact remaining_pos_of_current (by assumption) h.1 | exact remaining_pos_of_unary (by assumption) h | exact remaining_pos_of_assignment (by assumption) h | (rcases h with h | h)) (fun hc hp => ?_) (fun hc => ?_) <;> try simp only [hc, ↓reduceIte, Bool.false_eq_true])
      | (refine halts_ite_neg_pos (by intro h; exact remaining_pos_of_not_false h (by decide)) (fun hc => ?_) (fun hc hp => ?_) <;> try simp only [hc, ↓reduceIte, Bool.false_eq_true])
      | refine halts_leave ?_
      | (refine halts_ite (fun hc => ?_) (fun hc => ?_) <;> try simp only [hc, ↓reduceIte, Bool.false_eq_true])
      | split

theorem halts_parse_class_declaration_loop (n : Nat) (ih : AllHalt n) (P : Parser) 
    (hb : 64 * remaining P + 43 ≤ n + 1) :
    JSC.parse_class_declaration_loop (n + 1) P ≠ .out_of_fuel := by
  have ha := remaining_advance P
  have ha2 := remaining_advance (parser_advance P).2
  unfold JSC.parse_class_declaration_loop
  try dsimp only
  try simp only [parser_match_fst, parser_match_snd, Outcome.andThen_ite, Outcome.andThen_assoc,
    Outcome.andThen_ret_true]
  all_goals
    repeat' first
      | exact halts_ret _ _
      | exact halts_null_deref _
      | exact halts_expect _ _
      | exact halts_consume_semicolon _
      | exact skip_until_loop_halts _ _ _ (by omega)
      | exact ih.parse_class_declaration_loop _ (by omega)
      | exact ih.parse_block_statement _ (by omega)
      | refine halts_after_expect (by decide) (fun Q h1 h2 h3 => ?_)
      | refine halts_after_steps (parser_consume_semicolon_steps _) (halts_consume_semicolon _) (fun Q h1 h2 h3 => ?_)
      | refine halts_after_steps (skip_until_loop_steps _ _ _) (skip_until_loop_halts _ _ _ (by omega)) (fun Q h1 h2 h3 => ?_)
      | refine halts_after_steps ((all_steps n).parse_class_declaration_loop _) (ih.parse_class_declaration_loop _ (by omega)) (fun Q h1 h2 h3 => ?_)
      | refine halts_after_steps ((all_steps n).parse_block_statement _) (ih.parse_block_statement _ (by omega)) (fun Q h1 h2 h3 => ?_)
      | refine halts_with_current (fun t ht => ?_)
      | (refine halts_ite_pos (by intro h; repeat' first | exact remaining_pos_of_check h (by decide) | exact remaining_pos_of_not_eof h.2 | exact remaining_pos_of_not_eof h.2.2.2 | exact remaining_pos_of_current (by assumption) h.1 | exact remaining_pos_of_unary (by assumption) h | exact remaining_pos_of_assignment (by assumption) h | (rcases h with h | h)) (fun hc hp => ?_) (fun hc => ?_) <;> try simp only [hc, ↓reduceIte, Bool.false_eq_true])
      | (refine halts_ite_neg_pos (by intro h; exact remaining_pos_of_not_false h (by decide)) (fun hc => ?_) (fun hc hp => ?_) <;> try simp only [hc, ↓reduceIte, Bool.false_eq_true])
      | refine halts_leave ?_
      | (refine halts_ite (fun hc => ?_) (fun hc => ?_) <;> try simp only [hc, ↓reduceIte, Bool.false_eq_true])
      | split

theorem halts_parse_class_declaration (n : Nat) (ih : AllHalt n) (P : Parser) (hpos : 1 ≤ remaining P) 
    (hb : 64 * remaining P + 44 ≤ n + 1) :
    JSC.parse_class_declaration (n + 1) P ≠ .out_of_fuel := by
  have ha := remaining_advance P
  have ha2 := remaining_advance (parser_advance P).2
  unfold JSC.parse_class_declaration
  try dsimp only
  try simp only [parser_match_fst, parser_match_snd, Outcome.andThen_ite, Outcome.andThen_assoc,
    Outcome.andThen_ret_true]
  all_goals
    repeat' first
      | exact halts_ret _ _
      | exact halts_null_deref _
      | exact halts_expect _ _
      | exact halts_consume_semicolon _
      | exact ih.parse_class_declaration_loop _ (by omega)
      | refine halts_after_expect (by decide) (fun Q h1 h2 h3 => ?_)
      | refine halts_after_steps (parser_consume_semicolon_steps _) (halts_consume_semicolon _) (fun Q h1 h2 h3 => ?_)
      | refine halts_after_steps ((all_steps n).parse_class_declaration_loop _) (ih.parse_class_declaration_loop _ (by omega)) (fun Q h1 h2 h3 => ?_)
      | refine halts_with_current (fun t ht => ?_)
      | (refine halts_ite_pos (by intro h; repeat' first | exact remaining_pos_of_check h (by decide) | exact remaining_pos_of_not_eof h.2 | exact remaining_pos_of_not_eof h.2.2.2 | exact remaining_pos_of_current (by assumption) h.1 | exact remaining_pos_of_unary (by assumption) h | exact remaining_pos_of_assignment (by assumption) h | (rcases h with h | h)) (fun hc hp => ?_) (fun hc => ?_) <;> try simp only [hc, ↓reduceIte, Bool.false_eq_true])
      | (refine halts_ite_neg_pos (by intro h; exact remaining_pos_of_not_false h (by decide)) (fun hc => ?_) (fun hc hp => ?_) <;> try simp only [hc, ↓reduceIte, Bool.false_eq_true])
      | refine halts_leave ?_
      | (refine halts_ite (fun hc => ?_) (fun hc => ?_) <;> try simp only [hc, ↓reduceIte, Bool.false_eq_true])
      | split

theorem halts_parse_if_statement (n : Nat) (ih : AllHalt n) (P : Parser) (hpos : 1 ≤ remaining P) 
    (hb : 64 * remaining P + 45 ≤ n + 1) :
    JSC.parse_if_statement (n + 1) P ≠ .out_of_fuel := by
  have ha := remaining_advance P
  have ha2 := remaining_advance (parser_advance P).2
  unfold JSC.parse_if_statement
  try dsimp only
  try simp only [parser_match_fst, parser_match_snd, Outcome.andThen_ite, Outcome.andThen_assoc,
    Outcome.andThen_ret_true]
  all_goals
    repeat' first
      | exact halts_ret _ _
      | exact halts_null_deref _
      | exact halts_expect _ _
      | exact halts_consume_semicolon _
      | exact ih.parse_statement _ (by omega)
      | exact ih.parse_expression _ (by omega)
      | refine halts_after_expect (by decide) (fun Q h1 h2 h3 => ?_)
      | refine halts_after_steps (parser_consume_semicolon_steps _) (halts_consume_semicolon _) (fun Q h1 h2 h3 => ?_)
      | refine halts_after_consumes (parse_statement_consumes n _) (ih.parse_statement _ (by omega)) (fun Q h1 h2 h3 => ?_)
      | refine halts_after_steps ((all_steps n).parse_expression _) (ih.parse_expression _ (by omega)) (fun Q h1 h2 h3 => ?_)
      | refine halts_with_current (fun t ht => ?_)
      | (refine halts_ite_pos (by intro h; repeat' first | exact remaining_pos_of_check h (by decide) | exact remaining_pos_of_not_eof h.2 | exact remaining_pos_of_not_eof h.2.2.2 | exact remaining_pos_of_current (by assumption) h.1 | exact remaining_pos_of_unary (by assumption) h | exact remaining_pos_of_assignment (by assumption) h | (rcases h with h | h)) (fun hc hp => ?_) (fun hc => ?_) <;> try simp only [hc, ↓reduceIte, Bool.false_eq_true])
      | (refine halts_ite_neg_pos (by intro h; exact remaining_pos_of_not_false h (by decide)) (fun hc => ?_) (fun hc hp => ?_) <;> try simp only [hc, ↓reduceIte, Bool.false_eq_true])
      | refine halts_leave ?_
      | (refine halts_ite (fun hc => ?_) (fun hc => ?_) <;> try simp only [hc, ↓reduceIte, Bool.false_eq_true])
      | split

theorem halts_parse_while_statement (n : Nat) (ih : AllHalt n) (P : Parser) (hpos : 1 ≤ remaining P) 
    (hb : 64 * remaining P + 46 ≤ n + 1) :
    JSC.parse_while_statement (n + 1) P ≠ .out_of_fuel := by
  have ha := remaining_advance P
  have ha2 := remaining_advance (parser_advance P).2
  unfold JSC.parse_while_statement
  try dsimp only
  try simp only [parser_match_fst, parser_match_snd, Outcome.andThen_ite, Outcome.andThen_assoc,
    Outcome.andThen_ret_true]
  all_goals
    repeat' first
      | exact halts_ret _ _
      | exact halts_null_deref _
      | exact halts_expect _ _
      | exact halts_consume_semicolon _
      | exact ih.parse_statement _ (by omega)
      | exact ih.parse_expression _ (by omega)
      | refine halts_after_expect (by decide) (fun Q h1 h2 h3 => ?_)
      | refine halts_after_steps (parser_consume_semicolon_steps _) (halts_consume_semicolon _) (fun Q h1 h2 h3 => ?_)
      | refine halts_after_consumes (parse_statement_consumes n _) (ih.parse_statement _ (by omega)) (fun Q h1 h2 h3 => ?_)
      | refine halts_after_steps ((all_steps n).parse_expression _) (ih.parse_expression _ (by omega)) (fun Q h1 h2 h3 => ?_)
      | refine halts_with_current (fun t ht => ?_)
      | (refine halts_ite_pos (by intro h; repeat' first | exact remaining_pos_of_check h (by decide) | exact remaining_pos_of_not_eof h.2 | exact remaining_pos_of_not_eof h.2.2.2 | exact remaining_pos_of_current (by assumption) h.1 | exact remaining_pos_of_unary (by assumption) h | exact remaining_pos_of_assignment (by assumption) h | (rcases h with h | h)) (fun hc hp => ?_) (fun hc => ?_) <;> try simp only [hc, ↓reduceIte, Bool.false_eq_true])
      | (refine halts_ite_neg_pos (by intro h; exact remaining_pos_of_not_false h (by decide)) (fun hc => ?_) (fun hc hp => ?_) <;> try simp only [hc, ↓reduceIte, Bool.false_eq_true])
      | refine halts_leave ?_
      | (refine halts_ite (fun hc => ?_) (fun hc => ?_) <;> try simp only [hc, ↓reduceIte, Bool.false_eq_true])
      | split

theorem halts_parse_do_while_statement (n : Nat) (ih : AllHalt n) (P : Parser) (hpos : 1 ≤ remaining P) 
    (hb : 64 * remaining P + 47 ≤ n + 1) :
    JSC.parse_do_while_statement (n + 1) P ≠ .out_of_fuel := by
  have ha := remaining_advance P
  have ha2 := remaining_advance (parser_advance P).2
  unfold JSC.parse_do_while_statement
  try dsimp only
  try simp only [parser_match_fst, parser_match_snd, Outcome.andThen_ite, Outcome.andThen_assoc,
    Outcome.andThen_ret_true]
  all_goals
    repeat' first
      | exact halts_ret _ _
      | exact halts_null_deref _
      | exact halts_expect _ _
      | exact halts_consume_semicolon _
      | exact ih.parse_statement _ (by omega)
      | exact ih.parse_expression _ (by omega)
      | refine halts_after_expect (by decide) (fun Q h1 h2 h3 => ?_)
      | refine halts_after_steps (parser_consume_semicolon_steps _) (halts_consume_semicolon _) (fun Q h1 h2 h3 => ?_)
      | refine halts_after_consumes (parse_statement_consumes n _) (ih.parse_statement _ (by omega)) (fun Q h1 h2 h3 => ?_)
      | refine halts_after_steps ((all_steps n).parse_expression _) (ih.parse_expression _ (by omega)) (fun Q h1 h2 h3 => ?_)
      | refine halts_with_current (fun t ht => ?_)
      | (refine halts_ite_pos (by intro h; repeat' first | exact remaining_pos_of_check h (by decide) | exact remaining_pos_of_not_eof h.2 | exact remaining_pos_of_not_eof h.2.2.2 | exact remaining_pos_of_current (by assumption) h.1 | exact remaining_pos_of_unary (by assumption) h | exact remaining_pos_of_assignment (by assumption) h | (rcases h with h | h)) (fun hc hp => ?_) (fun hc => ?_) <;> try simp only [hc, ↓reduceIte, Bool.false_eq_true])
      | (refine halts_ite_neg_pos (by intro h; exact remaining_pos_of_not_false h (by decide)) (fun hc => ?_) (fun hc hp => ?_) <;> try simp only [hc, ↓reduceIte, Bool.false_eq_true])
      | refine halts_leave ?_
      | (refine halts_ite (fun hc => ?_) (fun hc => ?_) <;> try simp only [hc, ↓reduceIte, Bool.false_eq_true])
      | split

theorem halts_parse_for_statement_rest (n : Nat) (ih : AllHalt n) (P : Parser) 
    (hb : 64 * remaining P + 48 ≤ n + 1) :
    JSC.parse_for_statement_rest (n + 1) P ≠ .out_of_fuel := by
  have ha := remaining_advance P
  have ha2 := remaining_advance (parser_advance P).2
  unfold JSC.parse_for_statement_rest
  try dsimp only
  try simp only [parser_match_fst, parser_match_snd, Outcome.andThen_ite, Outcome.andThen_assoc,
    Outcome.andThen_ret_true]
  all_goals
    repeat' first
      | exact halts_ret _ _
      | exact halts_null_deref _
      | exact halts_expect _ _
      | exact halts_consume_semicolon _
      | exact ih.parse_statement _ (by omega)
      | exact ih.parse_expression _ (by omega)
      | refine halts_after_expect (by decide) (fun Q h1 h2 h3 => ?_)
      | refine halts_after_steps (parser_consume_semicolon_steps _) (halts_consume_semicolon _) (fun Q h1 h2 h3 => ?_)
      | refine halts_after_consumes (parse_statement_consumes n _) (ih.parse_statement _ (by omega)) (fun Q h1 h2 h3 => ?_)
      | refine halts_after_steps ((all_steps n).parse_expression _) (ih.parse_expression _ (by omega)) (fun Q h1 h2 h3 => ?_)
      | refine halts_with_current (fun t ht => ?_)
      | (refine halts_ite_pos (by intro h; repeat' first | exact remaining_pos_of_check h (by decide) | exact remaining_pos_of_not_eof h.2 | exact remaining_pos_of_not_eof h.2.2.2 | exact remaining_pos_of_current (by assumption) h.1 | exact remaining_pos_of_unary (by assumption) h | exact remaining_pos_of_assignment (by assumption) h | (rcases h with h | h)) (fun hc hp => ?_) (fun hc => ?_) <;> try simp only [hc, ↓reduceIte, Bool.false_eq_true])
      | (refine halts_ite_neg_pos (by intro h; exact remaining_pos_of_not_false h (by decide)) (fun hc => ?_) (fun hc hp => ?_) <;> try simp only [hc, ↓reduceIte, Bool.false_eq_true])
      | refine halts_leave ?_
      | (refine halts_ite (fun hc => ?_) (fun hc => ?_) <;> try simp only [hc, ↓reduceIte, Bool.false_eq_true])
      | split

theorem halts_parse_for_statement (n : Nat) (ih : AllHalt n) (P : Parser) (hpos : 1 ≤ remaining P) 
    (hb : 64 * remaining P + 49 ≤ n + 1) :
    JSC.parse_for_statement (n + 1) P ≠ .out_of_fuel := by
  have ha := remaining_advance P
  have ha2 := remaining_advance (parser_advance P).2
  unfold JSC.parse_for_statement
  try dsimp only
  try simp only [parser_match_fst, parser_match_snd, Outcome.andThen_ite, Outcome.andThen_assoc,
    Outcome.andThen_ret_true]
  all_goals
    repeat' first
      | exact halts_ret _ _
      | exact halts_null_deref _
      | exact halts_expect _ _
      | exact halts_consume_semicolon _
      | exact ih.parse_statement _ (by omega)
      | exact ih.parse_initializer _ (by omega)
      | exact ih.parse_for_statement_rest _ (by omega)
      | exact ih.parse_expression _ (by omega)
      | refine halts_after_expect (by decide) (fun Q h1 h2 h3 => ?_)
      | refine halts_after_steps (parser_consume_semicolon_steps _) (halts_consume_semicolon _) (fun Q h1 h2 h3 => ?_)
      | refine halts_after_consumes (parse_statement_consumes n _) (ih.parse_statement _ (by omega)) (fun Q h1 h2 h3 => ?_)
      | refine halts_after_steps ((all_steps n).parse_initializer _) (ih.parse_initializer _ (by omega)) (fun Q h1 h2 h3 => ?_)
      | refine halts_after_steps ((all_steps n).parse_for_statement_rest _) (ih.parse_for_statement_rest _ (by omega)) (fun Q h1 h2 h3 => ?_)
      | refine halts_after_steps ((all_steps n).parse_expression _) (ih.parse_expression _ (by omega)) (fun Q h1 h2 h3 => ?_)
      | refine halts_with_current (fun t ht => ?_)
      | (refine halts_ite_pos (by intro h; repeat' first | exact remaining_pos_of_check h (by decide) | exact remaining_pos_of_not_eof h.2 | exact remaining_pos_of_not_eof h.2.2.2 | exact remaining_pos_of_current (by assumption) h.1 | exact remaining_pos_of_unary (by assumption) h | exact remaining_pos_of_assignment (by assumption) h | (rcases h with h | h)) (fun hc hp => ?_) (fun hc => ?_) <;> try simp only [hc, ↓reduceIte, Bool.false_eq_true])
      | (refine halts_ite_neg_pos (by intro h; exact remaining_pos_of_not_false h (by decide)) (fun hc => ?_) (fun hc hp => ?_) <;> try simp only [hc, ↓reduceIte, Bool.false_eq_true])
      | refine halts_leave ?_
      | (refine halts_ite (fun hc => ?_) (fun hc => ?_) <;> try simp only [hc, ↓reduceIte, Bool.false_eq_true])
      | split

theorem halts_parse_switch_statement_loop (n : Nat) (ih : AllHalt n) (P : Parser) 
    (hb : 64 * remaining P + 50 ≤ n + 1) :
    JSC.parse_switch_statement_loop (n + 1) P ≠ .out_of_fuel := by
  have ha := remaining_advance P
  have ha2 := remaining_advance (parser_advance P).2
  unfold JSC.parse_switch_statement_loop
  try dsimp only
  try simp only [parser_match_fst, parser_match_snd, Outcome.andThen_ite, Outcome.andThen_assoc,
    Outcome.andThen_ret_true]
  all_goals
    repeat' first
      | exact halts_ret _ _
      | exact halts_null_deref _
      | exact halts_expect _ _
      | exact halts_consume_semicolon _
      | exact ih.parse_switch_body_loop _ (by omega)
      | exact ih.parse_switch_statement_loop _ (by omega)
      | exact ih.parse_expression _ (by omega)
      | refine halts_after_expect (by decide) (fun Q h1 h2 h3 => ?_)
      | refine halts_after_steps (parser_consume_semicolon_steps _) (halts_consume_semicolon _) (fun Q h1 h2 h3 => ?_)
      | refine halts_after_steps ((all_steps n).parse_switch_body_loop _) (ih.parse_switch_body_loop _ (by omega)) (fun Q h1 h2 h3 => ?_)
      | refine halts_after_steps ((all_steps n).parse_switch_statement_loop _) (ih.parse_switch_statement_loop _ (by omega)) (fun Q h1 h2 h3 => ?_)
      | refine halts_after_steps ((all_steps n).parse_expression _) (ih.parse_expression _ (by omega)) (fun Q h1 h2 h3 => ?_)
      | refine halts_with_current (fun t ht => ?_)
      | (refine halts_ite_pos (by intro h; repeat' first | exact remaining_pos_of_check h (by decide) | exact remaining_pos_of_not_eof h.2 | exact remaining_pos_of_not_eof h.2.2.2 | exact remaining_pos_of_current (by assumption) h.1 | exact remaining_pos_of_unary (by assumption) h | exact remaining_pos_of_assignment (by assumption) h | (rcases h with h | h)) (fun hc hp => ?_) (fun hc => ?_) <;> try simp only [hc, ↓reduceIte, Bool.false_eq_true])
      | (refine halts_ite_neg_pos (by intro h; exact remaining_pos_of_not_false h (by decide)) (fun hc => ?_) (fun hc hp => ?_) <;> try simp only [hc, ↓reduceIte, Bool.false_eq_true])
      | refine halts_leave ?_
      | (refine halts_ite (fun hc => ?_) (fun hc => ?_) <;> try simp only [hc, ↓reduceIte, Bool.false_eq_true])
      | split

theorem halts_parse_switch_statement (n : Nat) (ih : AllHalt n) (P : Parser) (hpos : 1 ≤ remaining P) 
    (hb : 64 * remaining P + 51 ≤ n + 1) :
    JSC.parse_switch_statement (n + 1) P ≠ .out_of_fuel := by
  have ha := remaining_advance P
  have ha2 := remaining_advance (parser_advance P).2
  unfold JSC.parse_switch_statement
  try dsimp only
  try simp only [parser_match_fst, parser_match_snd, Outcome.andThen_ite, Outcome.andThen_assoc,
    Outcome.andThen_ret_true]
  all_goals
    repeat' first
      | exact halts_ret _ _
      | exact halts_null_deref _
      | exact halts_expect _ _
      | exact halts_consume_semicolon _
      | exact ih.parse_switch_statement_loop _ (by omega)
      | exact ih.parse_expression _ (by omega)
      | refine halts_after_expect (by decide) (fun Q h1 h2 h3 => ?_)
      | refine halts_after_steps (parser_consume_semicolon_steps _) (halts_consume_semicolon _) (fun Q h1 h2 h3 => ?_)
      | refine halts_after_steps ((all_steps n).parse_switch_statement_loop _) (ih.parse_switch_statement_loop _ (by omega)) (fun Q h1 h2 h3 => ?_)
      | refine halts_after_steps ((all_steps n).parse_expression _) (ih.parse_expression _ (by omega)) (fun Q h1 h2 h3 => ?_)
      | refine halts_with_current (fun t ht => ?_)
      | (refine halts_ite_pos (by intro h; repeat' first | exact remaining_pos_of_check h (by decide) | exact remaining_pos_of_not_eof h.2 | exact remaining_pos_of_not_eof h.2.2.2 | exact remaining_pos_of_current (by assumption) h.1 | exact remaining_pos_of_unary (by assumption) h | exact remaining_pos_of_assignment (by assumption) h | (rcases h with h | h)) (fun hc hp => ?_) (fun hc => ?_) <;> try simp only [hc, ↓reduceIte, Bool.false_eq_true])
      | (refine halts_ite_neg_pos (by intro h; exact remaining_pos_of_not_false h (by decide)) (fun hc => ?_) (fun hc hp => ?_) <;> try simp only [hc, ↓reduceIte, Bool.false_eq_true])
      | refine halts_leave ?_
      | (refine halts_ite (fun hc => ?_) (fun hc => ?_) <;> try simp only [hc, ↓reduceIte, Bool.false_eq_true])
      | split

theorem halts_parse_return_statement (n : Nat) (ih : AllHalt n) (P : Parser) (hpos : 1 ≤ remaining P) 
    (hb : 64 * remaining P + 52 ≤ n + 1) :
    JSC.parse_return_statement (n + 1) P ≠ .out_of_fuel := by
  have ha := remaining_advance P
  have ha2 := remaining_advance (parser_advance P).2
  unfold JSC.parse_return_statement
  try dsimp only
  try simp only [parser_match_fst, parser_match_snd, Outcome.andThen_ite, Outcome.andThen_assoc,
    Outcome.andThen_ret_true]
  all_goals
    repeat' first
      | exact halts_ret _ _
      | exact halts_null_deref _
      | exact halts_expect _ _
      | exact halts_consume_semicolon _
      | exact ih.parse_expression _ (by omega)
      | refine halts_after_expect (by decide) (fun Q h1 h2 h3 => ?_)
      | refine halts_after_steps (parser_consume_semicolon_steps _) (halts_consume_semicolon _) (fun Q h1 h2 h3 => ?_)
      | refine halts_after_steps ((all_steps n).parse_expression _) (ih.parse_expression _ (by omega)) (fun Q h1 h2 h3 => ?_)
      | refine halts_with_current (fun t ht => ?_)
      | (refine halts_ite_pos (by intro h; repeat' first | exact remaining_pos_of_check h (by decide) | exact remaining_pos_of_not_eof h.2 | exact remaining_pos_of_not_eof h.2.2.2 | exact remaining_pos_of_current (by assumption) h.1 | exact remaining_pos_of_unary (by assumption) h | exact remaining_pos_of_assignment (by assumption) h | (rcases h with h | h)) (fun hc hp => ?_) (fun hc => ?_) <;> try simp only [hc, ↓reduceIte, Bool.false_eq_true])
      | (refine halts_ite_neg_pos (by intro h; exact remaining_pos_of_not_false h (by decide)) (fun hc => ?_) (fun hc hp => ?_) <;> try simp only [hc, ↓reduceIte, Bool.false_eq_true])
      | refine halts_leave ?_
      | (refine halts_ite (fun hc => ?_) (fun hc => ?_) <;> try simp only [hc, ↓reduceIte, Bool.false_eq_true])
      | split

theorem halts_parse_break_statement (n : Nat) (ih : AllHalt n) (P : Parser) (hpos : 1 ≤ remaining P) 
    (hb : 64 * remaining P + 53 ≤ n + 1) :
    JSC.parse_break_statement (n + 1) P ≠ .out_of_fuel := by
  have ha := remaining_advance P
  have ha2 := remaining_advance (parser_advance P).2
  unfold JSC.parse_break_statement
  try dsimp only
  try simp only [parser_match_fst, parser_match_snd, Outcome.andThen_ite, Outcome.andThen_assoc,
    Outcome.andThen_ret_true]
  all_goals
    repeat' first
      | exact halts_ret _ _
      | exact halts_null_deref _
      | exact halts_expect _ _
      | exact halts_consume_semicolon _
      | refine halts_after_expect (by decide) (fun Q h1 h2 h3 => ?_)
      | refine halts_after_steps (parser_consume_semicolon_steps _) (halts_consume_semicolon _) (fun Q h1 h2 h3 => ?_)
      | refine halts_with_current (fun t ht => ?_)
      | (refine halts_ite_pos (by intro h; repeat' first | exact remaining_pos_of_check h (by decide) | exact remaining_pos_of_not_eof h.2 | exact remaining_pos_of_not_eof h.2.2.2 | exact remaining_pos_of_current (by assumption) h.1 | exact remaining_pos_of_unary (by assumption) h | exact remaining_pos_of_assignment (by assumption) h | (rcases h with h | h)) (fun hc hp => ?_) (fun hc => ?_) <;> try simp only [hc, ↓reduceIte, Bool.false_eq_true])
      | (refine halts_ite_neg_pos (by intro h; exact remaining_pos_of_not_false h (by decide)) (fun hc => ?_) (fun hc hp => ?_) <;> try simp only [hc, ↓reduceIte, Bool.false_eq_true])
      | refine halts_leave ?_
      | (refine halts_ite (fun hc => ?_) (fun hc => ?_) <;> try simp only [hc, ↓reduceIte, Bool.false_eq_true])
      | split

theorem halts_parse_continue_statement (n : Nat) (ih : AllHalt n) (P : Parser) (hpos : 1 ≤ remaining P) 
    (hb : 64 * remaining P + 54 ≤ n + 1) :
    JSC.parse_continue_statement (n + 1) P ≠ .out_of_fuel := by
  have ha := remaining_advance P
  have ha2 := remaining_advance (parser_advance P).2
  unfold JSC.parse_continue_statement
  try dsimp only
  try simp only [parser_match_fst, parser_match_snd, Outcome.andThen_ite, Outcome.andThen_assoc,
    Outcome.andThen_ret_true]
  all_goals
    repeat' first
      | exact halts_ret _ _
      | exact halts_null_deref _
      | exact halts_expect _ _
      | exact halts_consume_semicolon _
      | refine halts_after_expect (by decide) (fun Q h1 h2 h3 => ?_)
      | refine halts_after_steps (parser_consume_semicolon_steps _) (halts_consume_semicolon _) (fun Q h1 h2 h3 => ?_)
      | refine halts_with_current (fun t ht => ?_)
      | (refine halts_ite_pos (by intro h; repeat' first | exact remaining_pos_of_check h (by decide) | exact remaining_pos_of_not_eof h.2 | exact remaining_pos_of_not_eof h.2.2.2 | exact remaining_pos_of_current (by assumption) h.1 | exact remaining_pos_of_unary (by assumption) h | exact remaining_pos_of_assignment (by assumption) h | (rcases h with h | h)) (fun hc hp => ?_) (fun hc => ?_) <;> try simp only [hc, ↓reduceIte, Bool.false_eq_true])
      | (refine halts_ite_neg_pos (by intro h; exact remaining_pos_of_not_false h (by decide)) (fun hc => ?_) (fun hc hp => ?_) <;> try simp only [hc, ↓reduceIte, Bool.false_eq_true])
      | refine halts_leave ?_
      | (refine halts_ite (fun hc => ?_) (fun hc => ?_) <;> try simp only [hc, ↓reduceIte, Bool.false_eq_true])
      | split

theorem halts_parse_throw_statement (n : Nat) (ih : AllHalt n) (P : Parser) (hpos : 1 ≤ remaining P) 
    (hb : 64 * remaining P + 55 ≤ n + 1) :
    JSC.parse_throw_statement (n + 1) P ≠ .out_of_fuel := by
  have ha := remaining_advance P
  have ha2 := remaining_advance (parser_advance P).2
  unfold JSC.parse_throw_statement
  try dsimp only
  try simp only [parser_match_fst, parser_match_snd, Outcome.andThen_ite, Outcome.andThen_assoc,
    Outcome.andThen_ret_true]
  all_goals
    repeat' first
      | exact halts_ret _ _
      | exact halts_null_deref _
      | exact halts_expect _ _
      | exact halts_consume_semicolon _
      | exact ih.parse_expression _ (by omega)
      | refine halts_after_expect (by decide) (fun Q h1 h2 h3 => ?_)
      | refine halts_after_steps (parser_consume_semicolon_steps _) (halts_consume_semicolon _) (fun Q h1 h2 h3 => ?_)
      | refine halts_after_steps ((all_steps n).parse_expression _) (ih.parse_expression _ (by omega)) (fun Q h1 h2 h3 => ?_)
      | refine halts_with_current (fun t ht => ?_)
      | (refine halts_ite_pos (by intro h; repeat' first | exact remaining_pos_of_check h (by decide) | exact remaining_pos_of_not_eof h.2 | exact remaining_pos_of_not_eof h.2.2.2 | exact remaining_pos_of_current (by assumption) h.1 | exact remaining_pos_of_unary (by assumption) h | exact remaining_pos_of_assignment (by assumption) h | (rcases h with h | h)) (fun hc hp => ?_) (fun hc => ?_) <;> try simp only [hc, ↓reduceIte, Bool.false_eq_true])
      | (refine halts_ite_neg_pos (by intro h; exact remaining_pos_of_not_false h (by decide)) (fun hc => ?_) (fun hc hp => ?_) <;> try simp only [hc, ↓reduceIte, Bool.false_eq_true])
      | refine halts_leave ?_
      | (refine halts_ite (fun hc => ?_) (fun hc => ?_) <;> try simp only [hc, ↓reduceIte, Bool.false_eq_true])
      | split

theorem halts_parse_try_statement (n : Nat) (ih : AllHalt n) (P : Parser) (hpos : 1 ≤ remaining P) 
    (hb : 64 * remaining P + 56 ≤ n + 1) :
    JSC.parse_try_statement (n + 1) P ≠ .out_of_fuel := by
  have ha := remaining_advance P
  have ha2 := remaining_advance (parser_advance P).2
  unfold JSC.parse_try_statement
  try dsimp only
  try simp only [parser_match_fst, parser_match_snd, Outcome.andThen_ite, Outcome.andThen_assoc,
    Outcome.andThen_ret_true]
  all_goals
    repeat' first
      | exact halts_ret _ _
      | exact halts_null_deref _
      | exact halts_expect _ _
      | exact halts_consume_semicolon _
      | exact ih.parse_block_statement _ (by omega)
      | refine halts_after_expect (by decide) (fun Q h1 h2 h3 => ?_)
      | refine halts_after_steps (parser_consume_semicolon_steps _) (halts_consume_semicolon _) (fun Q h1 h2 h3 => ?_)
      | refine halts_after_steps ((all_steps n).parse_block_statement _) (ih.parse_block_statement _ (by omega)) (fun Q h1 h2 h3 => ?_)
      | refine halts_with_current (fun t ht => ?_)
      | (refine halts_ite_pos (by intro h; repeat' first | exact remaining_pos_of_check h (by decide) | exact remaining_pos_of_not_eof h.2 | exact remaining_pos_of_not_eof h.2.2.2 | exact remaining_pos_of_current (by assumption) h.1 | exact remaining_pos_of_unary (by assumption) h | exact remaining_pos_of_assignment (by assumption) h | (rcases h with h | h)) (fun hc hp => ?_) (fun hc => ?_) <;> try simp only [hc, ↓reduceIte, Bool.false_eq_true])
      | (refine halts_ite_neg_pos (by intro h; exact remaining_pos_of_not_false h (by decide)) (fun hc => ?_) (fun hc hp => ?_) <;> try simp only [hc, ↓reduceIte, Bool.false_eq_true])
      | refine halts_leave ?_
      | (refine halts_ite (fun hc => ?_) (fun hc => ?_) <;> try simp only [hc, ↓reduceIte, Bool.false_eq_true])
      | split

theorem halts_parse_block_statement (n : Nat) (ih : AllHalt n) (P : Parser) 
    (hb : 64 * remaining P + 57 ≤ n + 1) :
    JSC.parse_block_statement (n + 1) P ≠ .out_of_fuel := by
  have ha := remaining_advance P
  have ha2 := remaining_advance (parser_advance P).2
  unfold JSC.parse_block_statement
  try dsimp only
  try simp only [parser_match_fst, parser_match_snd, Outcome.andThen_ite, Outcome.andThen_assoc,
    Outcome.andThen_ret_true]
  all_goals
    repeat' first
      | exact halts_ret _ _
      | exact halts_null_deref _
      | exact halts_expect _ _
      | exact halts_consume_semicolon _
      | exact ih.parse_statement_list _ (by omega)
      | refine halts_after_expect (by decide) (fun Q h1 h2 h3 => ?_)
      | refine halts_after_steps (parser_consume_semicolon_steps _) (halts_consume_semicolon _) (fun Q h1 h2 h3 => ?_)
      | refine halts_after_steps ((all_steps n).parse_statement_list _) (ih.parse_statement_list _ (by omega)) (fun Q h1 h2 h3 => ?_)
      | refine halts_with_current (fun t ht => ?_)
      | (refine halts_ite_pos (by intro h; repeat' first | exact remaining_pos_of_check h (by decide) | exact remaining_pos_of_not_eof h.2 | exact remaining_pos_of_not_eof h.2.2.2 | exact remaining_pos_of_current (by assumption) h.1 | exact remaining_pos_of_unary (by assumption) h | exact remaining_pos_of_assignment (by assumption) h | (rcases h with h | h)) (fun hc hp => ?_) (fun hc => ?_) <;> try simp only [hc, ↓reduceIte, Bool.false_eq_true])
      | (refine halts_ite_neg_pos (by intro h; exact remaining_pos_of_not_false h (by decide)) (fun hc => ?_) (fun hc hp => ?_) <;> try simp only [hc, ↓reduceIte, Bool.false_eq_true])
      | refine halts_leave ?_
      | (refine halts_ite (fun hc => ?_) (fun hc => ?_) <;> try simp only [hc, ↓reduceIte, Bool.false_eq_true])
      | split

theorem halts_parse_array_literal_loop (n : Nat) (ih : AllHalt n) (P : Parser) 
    (hb : 64 * remaining P + 58 ≤ n + 1) :
    JSC.parse_array_literal_loop (n + 1) P ≠ .out_of_fuel := by
  have ha := remaining_advance P
  have ha2 := remaining_advance (parser_advance P).2
  unfold JSC.parse_array_literal_loop
  try dsimp only
  try simp only [parser_match_fst, parser_match_snd, Outcome.andThen_ite, Outcome.andThen_assoc,
    Outcome.andThen_ret_true]
  all_goals
    repeat' first
      | exact halts_ret _ _
      | exact halts_null_deref _
      | exact halts_expect _ _
      | exact halts_consume_semicolon _
      | exact ih.parse_array_element _ (by omega)
      | exact ih.parse_array_literal_loop _ (by omega)
      | refine halts_after_expect (by decide) (fun Q h1 h2 h3 => ?_)
      | refine halts_after_steps (parser_consume_semicolon_steps _) (halts_consume_semicolon _) (fun Q h1 h2 h3 => ?_)
      | refine halts_after_steps ((all_steps n).parse_array_element _) (ih.parse_array_element _ (by omega)) (fun Q h1 h2 h3 => ?_)
      | refine halts_after_steps ((all_steps n).parse_array_literal_loop _) (ih.parse_array_literal_loop _ (by omega)) (fun Q h1 h2 h3 => ?_)
      | refine halts_with_current (fun t ht => ?_)
      | (refine halts_ite_pos (by intro h; repeat' first | exact remaining_pos_of_check h (by decide) | exact remaining_pos_of_not_eof h.2 | exact remaining_pos_of_not_eof h.2.2.2 | exact remaining_pos_of_current (by assumption) h.1 | exact remaining_pos_of_unary (by assumption) h | exact remaining_pos_of_assignment (by assumption) h | (rcases h with h | h)) (fun hc hp => ?_) (fun hc => ?_) <;> try simp only [hc, ↓reduceIte, Bool.false_eq_true])
      | (refine halts_ite_neg_pos (by intro h; exact remaining_pos_of_not_false h (by decide)) (fun hc => ?_) (fun hc hp => ?_) <;> try simp only [hc, ↓reduceIte, Bool.false_eq_true])
      | refine halts_leave ?_
      | (refine halts_ite (fun hc => ?_) (fun hc => ?_) <;> try simp only [hc, ↓reduceIte, Bool.false_eq_true])
      | split

theorem halts_parse_object_property_rest (n : Nat) (ih : AllHalt n) (P : Parser) 
    (hb : 64 * remaining P + 59 ≤ n + 1) :
    JSC.parse_object_property_rest (n + 1) P ≠ .out_of_fuel := by
  have ha := remaining_advance P
  have ha2 := remaining_advance (parser_advance P).2
  unfold JSC.parse_object_property_rest
  try dsimp only
  try simp only [parser_match_fst, parser_match_snd, Outcome.andThen_ite, Outcome.andThen_assoc,
    Outcome.andThen_ret_true]
  all_goals
    repeat' first
      | exact halts_ret _ _
      | exact halts_null_deref _
      | exact halts_expect _ _
      | exact halts_consume_semicolon _
      | exact skip_until_loop_halts _ _ _ (by omega)
      | exact ih.parse_block_statement _ (by omega)
      | exact ih.parse_assignment_expression _ (by omega)
      | exact ih.parse_object_literal_loop _ (by omega)
      | refine halts_after_expect (by decide) (fun Q h1 h2 h3 => ?_)
      | refine halts_after_steps (parser_consume_semicolon_steps _) (halts_consume_semicolon _) (fun Q h1 h2 h3 => ?_)
      | refine halts_after_steps (skip_until_loop_steps _ _ _) (skip_until_loop_halts _ _ _ (by omega)) (fun Q h1 h2 h3 => ?_)
      | refine halts_after_steps ((all_steps n).parse_block_statement _) (ih.parse_block_statement _ (by omega)) (fun Q h1 h2 h3 => ?_)
      | refine halts_after_steps ((all_steps n).parse_assignment_expression _) (ih.parse_assignment_expression _ (by omega)) (fun Q h1 h2 h3 => ?_)
      | refine halts_after_steps ((all_steps n).parse_object_literal_loop _) (ih.parse_object_literal_loop _ (by omega)) (fun Q h1 h2 h3 => ?_)
      | refine halts_with_current (fun t ht => ?_)
      | (refine halts_ite_pos (by intro h; repeat' first | exact remaining_pos_of_check h (by decide) | exact remaining_pos_of_not_eof h.2 | exact remaining_pos_of_not_eof h.2.2.2 | exact remaining_pos_of_current (by assumption) h.1 | exact remaining_pos_of_unary (by assumption) h | exact remaining_pos_of_assignment (by assumption) h | (rcases h with h | h)) (fun hc hp => ?_) (fun hc => ?_) <;> try simp only [hc, ↓reduceIte, Bool.false_eq_true])
      | (refine halts_ite_neg_pos (by intro h; exact remaining_pos_of_not_false h (by decide)) (fun hc => ?_) (fun hc hp => ?_) <;> try simp only [hc, ↓reduceIte, Bool.false_eq_true])
      | refine halts_leave ?_
      | (refine halts_ite (fun hc => ?_) (fun hc => ?_) <;> try simp only [hc, ↓reduceIte, Bool.false_eq_true])
      | split

theorem halts_parse_object_literal_loop (n : Nat) (ih : AllHalt n) (P : Parser) 
    (hb : 64 * remaining P + 60 ≤ n + 1) :
    JSC.parse_object_literal_loop (n + 1) P ≠ .out_of_fuel := by
  have ha := remaining_advance P
  have ha2 := remaining_advance (parser_advance P).2
  unfold JSC.parse_object_literal_loop
  try dsimp only
  try simp only [parser_match_fst, parser_match_snd, Outcome.andThen_ite, Outcome.andThen_assoc,
    Outcome.andThen_ret_true]
  all_goals
    repeat' first
      | exact halts_ret _ _
      | exact halts_null_deref _
      | exact halts_expect _ _
      | exact halts_consume_semicolon _
      | exact ih.parse_expression _ (by omega)
      | exact ih.parse_assignment_expression _ (by omega)
      | exact ih.parse_object_property_rest _ (by omega)
      | exact ih.parse_object_literal_loop _ (by omega)
      | refine halts_after_expect (by decide) (fun Q h1 h2 h3 => ?_)
      | refine halts_after_steps (parser_consume_semicolon_steps _) (halts_consume_semicolon _) (fun Q h1 h2 h3 => ?_)
      | refine halts_after_steps ((all_steps n).parse_expression _) (ih.parse_expression _ (by omega)) (fun Q h1 h2 h3 => ?_)
      | refine halts_after_steps ((all_steps n).parse_assignment_expression _) (ih.parse_assignment_expression _ (by omega)) (fun Q h1 h2 h3 => ?_)
      | refine halts_after_steps ((all_steps n).parse_object_property_rest _) (ih.parse_object_property_rest _ (by omega)) (fun Q h1 h2 h3 => ?_)
      | refine halts_after_steps ((all_steps n).parse_object_literal_loop _) (ih.parse_object_literal_loop _ (by omega)) (fun Q h1 h2 h3 => ?_)
      | refine halts_with_current (fun t ht => ?_)
      | (refine halts_ite_pos (by intro h; repeat' first | exact remaining_pos_of_check h (by decide) | exact remaining_pos_of_not_eof h.2 | exact remaining_pos_of_not_eof h.2.2.2 | exact remaining_pos_of_current (by assumption) h.1 | exact remaining_pos_of_unary (by assumption) h | exact remaining_pos_of_assignment (by assumption) h | (rcases h with h | h)) (fun hc hp => ?_) (fun hc => ?_) <;> try simp only [hc, ↓reduceIte, Bool.false_eq_true])
      | (refine halts_ite_neg_pos (by intro h; exact remaining_pos_of_not_false h (by decide)) (fun hc => ?_) (fun hc hp => ?_) <;> try simp only [hc, ↓reduceIte, Bool.false_eq_true])
      | refine halts_leave ?_
      | (refine halts_ite (fun hc => ?_) (fun hc => ?_) <;> try simp only [hc, ↓reduceIte, Bool.false_eq_true])
      | split

theorem halts_parse_statement (n : Nat) (ih : AllHalt n) (P : Parser) 
    (hb : 64 * remaining P + 61 ≤ n + 1) :
    JSC.parse_statement (n + 1) P ≠ .out_of_fuel := by
  have ha := remaining_advance P
  have ha2 := remaining_advance (parser_advance P).2
  unfold JSC.parse_statement
  try dsimp only
  try simp only [parser_match_fst, parser_match_snd, Outcome.andThen_ite, Outcome.andThen_assoc,
    Outcome.andThen_ret_true]
  have hd := remaining_with_depth P (P.depth + 1)
  refine halts_ite (fun _ => halts_with_current fun t _ => halts_ret _ _) (fun _ => ?_)
  split
  · exact halts_ret _ _
  refine halts_leave ?_
  split
  all_goals try (have hp : 1 ≤ remaining P; · (refine remaining_pos_of_current ‹P.current_token = some _› ?_; first | assumption | (simp [*]; done)))
  all_goals
    repeat' first
      | exact halts_ret _ _
      | exact halts_null_deref _
      | exact halts_expect _ _
      | exact halts_consume_semicolon _
      | exact ih.parse_variable_declaration _ (by omega) (by omega)
      | exact ih.parse_function_declaration _ (by omega) (by omega)
      | exact ih.parse_class_declaration _ (by omega) (by omega)
      | exact ih.parse_expression_statement _ (by omega)
      | exact ih.parse_if_statement _ (by omega) (by omega)
      | exact ih.parse_while_statement _ (by omega) (by omega)
      | exact ih.parse_do_while_statement _ (by omega) (by omega)
      | exact ih.parse_for_statement _ (by omega) (by omega)
      | exact ih.parse_switch_statement _ (by omega) (by omega)
      | exact ih.parse_return_statement _ (by omega) (by omega)
      | exact ih.parse_break_statement _ (by omega) (by omega)
      | exact ih.parse_continue_statement _ (by omega) (by omega)
      | exact ih.parse_throw_statement _ (by omega) (by omega)
      | exact ih.parse_try_statement _ (by omega) (by omega)
      | exact ih.parse_block_statement _ (by omega)
      | refine halts_after_expect (by decide) (fun Q h1 h2 h3 => ?_)
      | refine halts_after_steps (parser_consume_semicolon_steps _) (halts_consume_semicolon _) (fun Q h1 h2 h3 => ?_)
      | refine halts_after_steps ((all_steps n).parse_variable_declaration _) (ih.parse_variable_declaration _ (by omega) (by omega)) (fun Q h1 h2 h3 => ?_)
      | refine halts_after_steps ((all_steps n).parse_function_declaration _) (ih.parse_function_declaration _ (by omega) (by omega)) (fun Q h1 h2 h3 => ?_)
      | refine halts_after_steps ((all_steps n).parse_class_declaration _) (ih.parse_class_declaration _ (by omega) (by omega)) (fun Q h1 h2 h3 => ?_)
      | refine halts_after_steps ((all_steps n).parse_expression_statement _) (ih.parse_expression_statement _ (by omega)) (fun Q h1 h2 h3 => ?_)
      | refine halts_after_steps ((all_steps n).parse_if_statement _) (ih.parse_if_statement _ (by omega) (by omega)) (fun Q h1 h2 h3 => ?_)
      | refine halts_after_steps ((all_steps n).parse_while_statement _) (ih.parse_while_statement _ (by omega) (by omega)) (fun Q h1 h2 h3 => ?_)
      | refine halts_after_steps ((all_steps n).parse_do_while_statement _) (ih.parse_do_while_statement _ (by omega) (by omega)) (fun Q h1 h2 h3 => ?_)
      | refine halts_after_steps ((all_steps n).parse_for_statement _) (ih.parse_for_statement _ (by omega) (by omega)) (fun Q h1 h2 h3 => ?_)
      | refine halts_after_steps ((all_steps n).parse_switch_statement _) (ih.parse_switch_statement _ (by omega) (by omega)) (fun Q h1 h2 h3 => ?_)
      | refine halts_after_steps ((all_steps n).parse_return_statement _) (ih.parse_return_statement _ (by omega) (by omega)) (fun Q h1 h2 h3 => ?_)
      | refine halts_after_steps ((all_steps n).parse_break_statement _) (ih.parse_break_statement _ (by omega) (by omega)) (fun Q h1 h2 h3 => ?_)
      | refine halts_after_steps ((all_steps n).parse_continue_statement _) (ih.parse_continue_statement _ (by omega) (by omega)) (fun Q h1 h2 h3 => ?_)
      | refine halts_after_steps ((all_steps n).parse_throw_statement _) (ih.parse_throw_statement _ (by omega) (by omega)) (fun Q h1 h2 h3 => ?_)
      | refine halts_after_steps ((all_steps n).parse_try_statement _) (ih.parse_try_statement _ (by omega) (by omega)) (fun Q h1 h2 h3 => ?_)
      | refine halts_after_steps ((all_steps n).parse_block_statement _) (ih.parse_block_statement _ (by omega)) (fun Q h1 h2 h3 => ?_)
      | refine halts_with_current (fun t ht => ?_)
      | (refine halts_ite_pos (by intro h; repeat' first | exact remaining_pos_of_check h (by decide) | exact remaining_pos_of_not_eof h.2 | exact remaining_pos_of_not_eof h.2.2.2 | exact remaining_pos_of_current (by assumption) h.1 | exact remaining_pos_of_unary (by assumption) h | exact remaining_pos_of_assignment (by assumption) h | (rcases h with h | h)) (fun hc hp => ?_) (fun hc => ?_) <;> try simp only [hc, ↓reduceIte, Bool.false_eq_true])
      | (refine halts_ite_neg_pos (by intro h; exact remaining_pos_of_not_false h (by decide)) (fun hc => ?_) (fun hc hp => ?_) <;> try simp only [hc, ↓reduceIte, Bool.false_eq_true])
      | refine halts_leave ?_
      | (refine halts_ite (fun hc => ?_) (fun hc => ?_) <;> try simp only [hc, ↓reduceIte, Bool.false_eq_true])
      | split

theorem halts_parse_switch_body_loop (n : Nat) (ih : AllHalt n) (P : Parser) 
    (hb : 64 * remaining P + 62 ≤ n + 1) :
    JSC.parse_switch_body_loop (n + 1) P ≠ .out_of_fuel := by
  have ha := remaining_advance P
  have ha2 := remaining_advance (parser_advance P).2
  unfold JSC.parse_switch_body_loop
  try dsimp only
  try simp only [parser_match_fst, parser_match_snd, Outcome.andThen_ite, Outcome.andThen_assoc,
    Outcome.andThen_ret_true]
  all_goals
    repeat' first
      | exact halts_ret _ _
      | exact halts_null_deref _
      | exact halts_expect _ _
      | exact halts_consume_semicolon _
      | exact ih.parse_statement _ (by omega)
      | exact ih.parse_switch_body_loop _ (by omega)
      | refine halts_after_expect (by decide) (fun Q h1 h2 h3 => ?_)
      | refine halts_after_steps (parser_consume_semicolon_steps _) (halts_consume_semicolon _) (fun Q h1 h2 h3 => ?_)
      | refine halts_after_consumes (parse_statement_consumes n _) (ih.parse_statement _ (by omega)) (fun Q h1 h2 h3 => ?_)
      | refine halts_after_steps ((all_steps n).parse_switch_body_loop _) (ih.parse_switch_body_loop _ (by omega)) (fun Q h1 h2 h3 => ?_)
      | refine halts_with_current (fun t ht => ?_)
      | (refine halts_ite_pos (by intro h; repeat' first | exact remaining_pos_of_check h (by decide) | exact remaining_pos_of_not_eof h.2 | exact remaining_pos_of_not_eof h.2.2.2 | exact remaining_pos_of_current (by assumption) h.1 | exact remaining_pos_of_unary (by assumption) h | exact remaining_pos_of_assignment (by assumption) h | (rcases h with h | h)) (fun hc hp => ?_) (fun hc => ?_) <;> try simp only [hc, ↓reduceIte, Bool.false_eq_true])
      | (refine halts_ite_neg_pos (by intro h; exact remaining_pos_of_not_false h (by decide)) (fun hc => ?_) (fun hc hp => ?_) <;> try simp only [hc, ↓reduceIte, Bool.false_eq_true])
      | refine halts_leave ?_
      | (refine halts_ite (fun hc => ?_) (fun hc => ?_) <;> try simp only [hc, ↓reduceIte, Bool.false_eq_true])
      | split

theorem halts_parse_statement_list (n : Nat) (ih : AllHalt n) (P : Parser) 
    (hb : 64 * remaining P + 63 ≤ n + 1) :
    JSC.parse_statement_list (n + 1) P ≠ .out_of_fuel := by
  have ha := remaining_advance P
  have ha2 := remaining_advance (parser_advance P).2
  unfold JSC.parse_statement_list
  try dsimp only
  try simp only [parser_match_fst, parser_match_snd, Outcome.andThen_ite, Outcome.andThen_assoc,
    Outcome.andThen_ret_true]
  all_goals
    repeat' first
      | exact halts_ret _ _
      | exact halts_null_deref _
      | exact halts_expect _ _
      | exact halts_consume_semicolon _
      | exact ih.parse_statement_list _ (by omega)
      | exact ih.parse_statement _ (by omega)
      | refine halts_after_expect (by decide) (fun Q h1 h2 h3 => ?_)
      | refine halts_after_steps (parser_consume_semicolon_steps _) (halts_consume_semicolon _) (fun Q h1 h2 h3 => ?_)
      | refine halts_after_steps ((all_steps n).parse_statement_list _) (ih.parse_statement_list _ (by omega)) (fun Q h1 h2 h3 => ?_)
      | refine halts_after_consumes (parse_statement_consumes n _) (ih.parse_statement _ (by omega)) (fun Q h1 h2 h3 => ?_)
      | refine halts_with_current (fun t ht => ?_)
      | (refine halts_ite_pos (by intro h; repeat' first | exact remaining_pos_of_check h (by decide) | exact remaining_pos_of_not_eof h.2 | exact remaining_pos_of_not_eof h.2.2.2 | exact remaining_pos_of_current (by assumption) h.1 | exact remaining_pos_of_unary (by assumption) h | exact remaining_pos_of_assignment (by assumption) h | (rcases h with h | h)) (fun hc hp => ?_) (fun hc => ?_) <;> try simp only [hc, ↓reduceIte, Bool.false_eq_true])
      | (refine halts_ite_neg_pos (by intro h; exact remaining_pos_of_not_false h (by decide)) (fun hc => ?_) (fun hc hp => ?_) <;> try simp only [hc, ↓reduceIte, Bool.false_eq_true])
      | refine halts_leave ?_
      | (refine halts_ite (fun hc => ?_) (fun hc => ?_) <;> try simp only [hc, ↓reduceIte, Bool.false_eq_true])
      | split

theorem all_halt_zero : AllHalt 0 := by
  constructor <;> intros <;> omega

theorem all_halt_succ (n : Nat) (ih : AllHalt n) : AllHalt (n + 1) where
  parse_statement_list := fun P hb => halts_parse_statement_list n ih P hb
  parse_statement := fun P hb => halts_parse_statement n ih P hb
  parse_initializer := fun P hb => halts_parse_initializer n ih P hb
  parse_variable_declaration_loop := fun P hb => halts_parse_variable_declaration_loop n ih P hb
  parse_variable_declaration := fun P hpos hb => halts_parse_variable_declaration n ih P hpos hb
  parse_function_declaration := fun P hpos hb => halts_parse_function_declaration n ih P hpos hb
  parse_class_declaration_loop := fun P hb => halts_parse_class_declaration_loop n ih P hb
  parse_class_declaration := fun P hpos hb => halts_parse_class_declaration n ih P hpos hb
  parse_expression_statement := fun P hb => halts_parse_expression_statement n ih P hb
  parse_if_statement := fun P hpos hb => halts_parse_if_statement n ih P hpos hb
  parse_while_statement := fun P hpos hb => halts_parse_while_statement n ih P hpos hb
  parse_do_while_statement := fun P hpos hb => halts_parse_do_while_statement n ih P hpos hb
  parse_for_statement_rest := fun P hb => halts_parse_for_statement_rest n ih P hb
  parse_for_statement := fun P hpos hb => halts_parse_for_statement n ih P hpos hb
  parse_switch_body_loop := fun P hb => halts_parse_switch_body_loop n ih P hb
  parse_switch_statement_loop := fun P hb => halts_parse_switch_statement_loop n ih P hb
  parse_switch_statement := fun P hpos hb => halts_parse_switch_statement n ih P hpos hb
  parse_return_statement := fun P hpos hb => halts_parse_return_statement n ih P hpos hb
  parse_break_statement := fun P hpos hb => halts_parse_break_statement n ih P hpos hb
  parse_continue_statement := fun P hpos hb => halts_parse_continue_statement n ih P hpos hb
  parse_throw_statement := fun P hpos hb => halts_parse_throw_statement n ih P hpos hb
  parse_try_statement := fun P hpos hb => halts_parse_try_statement n ih P hpos hb
  parse_block_statement := fun P hb => halts_parse_block_statement n ih P hb
  comma_list_loop := fun P hb => halts_comma_list_loop n ih P hb
  parse_expression := fun P hb => halts_parse_expression n ih P hb
  parse_assignment_expression := fun P hb => halts_parse_assignment_expression n ih P hb
  parse_conditional_expression := fun P hb => halts_parse_conditional_expression n ih P hb
  parse_logical_or_expression_loop := fun P hb => halts_parse_logical_or_expression_loop n ih P hb
  parse_logical_or_expression := fun P hb => halts_parse_logical_or_expression n ih P hb
  parse_logical_and_expression_loop := fun P hb => halts_parse_logical_and_expression_loop n ih P hb
  parse_logical_and_expression := fun P hb => halts_parse_logical_and_expression n ih P hb
  parse_bitwise_or_expression_loop := fun P hb => halts_parse_bitwise_or_expression_loop n ih P hb
  parse_bitwise_or_expression := fun P hb => halts_parse_bitwise_or_expression n ih P hb
  parse_bitwise_xor_expression_loop := fun P hb => halts_parse_bitwise_xor_expression_loop n ih P hb
  parse_bitwise_xor_expression := fun P hb => halts_parse_bitwise_xor_expression n ih P hb
  parse_bitwise_and_expression_loop := fun P hb => halts_parse_bitwise_and_expression_loop n ih P hb
  parse_bitwise_and_expression := fun P hb => halts_parse_bitwise_and_expression n ih P hb
  parse_equality_expression_loop := fun P hb => halts_parse_equality_expression_loop n ih P hb
  parse_equality_expression := fun P hb => halts_parse_equality_expression n ih P hb
  parse_relational_expression_loop := fun P hb => halts_parse_relational_expression_loop n ih P hb
  parse_relational_expression := fun P hb => halts_parse_relational_expression n ih P hb
  parse_shift_expression_loop := fun P hb => halts_parse_shift_expression_loop n ih P hb
  parse_shift_expression := fun P hb => halts_parse_shift_expression n ih P hb
  parse_additive_expression_loop := fun P hb => halts_parse_additive_expression_loop n ih P hb
  parse_additive_expression := fun P hb => halts_parse_additive_expression n ih P hb
  parse_multiplicative_expression_loop := fun P hb => halts_parse_multiplicative_expression_loop n ih P hb
  parse_multiplicative_expression := fun P hb => halts_parse_multiplicative_expression n ih P hb
  parse_exponentiation_expression := fun P hb => halts_parse_exponentiation_expression n ih P hb
  parse_unary_expression := fun P hb => halts_parse_unary_expression n ih P hb
  parse_postfix_expression := fun P hb => halts_parse_postfix_expression n ih P hb
  parse_arguments := fun P hb => halts_parse_arguments n ih P hb
  parse_left_hand_side_expression := fun P hb => halts_parse_left_hand_side_expression n ih P hb
  member_access_loop := fun P hb => halts_member_access_loop n ih P hb
  parse_call_expression_loop := fun P hb => halts_parse_call_expression_loop n ih P hb
  parse_call_expression := fun P hb => halts_parse_call_expression n ih P hb
  parse_member_expression := fun P hb => halts_parse_member_expression n ih P hb
  parse_primary_expression := fun P hb => halts_parse_primary_expression n ih P hb
  parse_array_element := fun P hb => halts_parse_array_element n ih P hb
  parse_array_literal_loop := fun P hb => halts_parse_array_literal_loop n ih P hb
  parse_array_literal := fun P hb => halts_parse_array_literal n ih P hb
  parse_object_property_rest := fun P hb => halts_parse_object_property_rest n ih P hb
  parse_object_literal_loop := fun P hb => halts_parse_object_literal_loop n ih P hb
  parse_object_literal := fun P hb => halts_parse_object_literal n ih P hb

theorem all_halt (n : Nat) : AllHalt n := by
  induction n with
  | zero => exact all_halt_zero
  | succ n ih => exact all_halt_succ n ih

theorem remaining_le (P : Parser) : remaining P ≤ 2 * P.lexer.source.length + 1 := by
  unfold remaining Lexer.source_length
  split_ifs <;> omega

theorem parser_create_source (L : Lexer) : (parser_create L).lexer.source = L.source := by
  unfold parser_create
  rw [(parser_advance_lexer _).1]
  exact (lexer_next_token_advances_full L).mono.1

/-- The run of `parse_statement_list` from any state ends within a fuel that is
linear in the measure of the state. -/
theorem parse_statement_list_halts (n : Nat) (P : Parser) (h : 64 * remaining P + 63 ≤ n) :
    parse_statement_list n P ≠ .out_of_fuel :=
  (all_halt n).parse_statement_list P h

theorem parse_javascript_string_halts (src : List Nat) (k : Nat) :
    parse_javascript_string (128 * src.length + 127 + k) src ≠ .out_of_fuel := by
  unfold parse_javascript_string parser_parse
  dsimp only
  split
  · exact halts_ret _ _
  · unfold parse_program
    refine parse_statement_list_halts _ _ ?_
    have h1 := remaining_le (parser_create (lexer_create src (some
      { code := .ERROR_NONE, position := { line := 0, column := 0, offset := 0 },
        message := [] })))
    rw [parser_create_source] at h1
    have h2 : (lexer_create src (some
      { code := .ERROR_NONE, position := { line := 0, column := 0, offset := 0 },
        message := [] })).source = src := rfl
    rw [h2] at h1
    have h3 := remaining_with_depth (parser_create (lexer_create src (some
      { code := .ERROR_NONE, position := { line := 0, column := 0, offset := 0 },
        message := [] }))) 0
    omega

/-- At the `EOF` token `parse_statement` fails: the guard fails it, or the
expression statement fails in `parse_primary_expression`. -/
theorem parse_statement_fails_at_eof (m : Nat) (P : Parser) (t : Token)
    (hc : P.current_token = some t) (ht : t.type = .TOKEN_EOF) :
    ∃ Q, parse_statement (m + 22) P = .ret false Q := by
  rw [parse_statement]
  dsimp only
  by_cases hd : P.depth + 1 > MAX_RECURSION_DEPTH
  · rw [if_pos hd]
    simp only [with_current, hc]
    exact ⟨_, rfl⟩
  · rw [if_neg hd, hc]
    dsimp only
    have hu : is_unary_operator t.type = false := by rw [ht]; rfl
    have hnew : t.type ≠ .TOKEN_NEW := by rw [ht]; decide
    have hprim : parse_primary_expression (m + 1) { P with depth := P.depth + 1 } =
        .ret false (parser_set_error { P with depth := P.depth + 1 } .ERROR_PARSER_UNEXPECTED_EOF
          t.start (cstr "Unexpected end of file in expression")) := by
      rw [parse_primary_expression]
      dsimp only
      rw [hc]
      dsimp only
      rw [ht]
    have hes := expression_statement_fails m { P with depth := P.depth + 1 } _ t hc hu hnew hprim
    rw [ht]
    dsimp only
    rw [← hc, hes]
    exact ⟨_, rfl⟩

/-- A statement is parsed with success only at a token other than `EOF`. -/
theorem statement_success_not_eof (n : Nat) (P Q : Parser)
    (h : parse_statement n P = .ret true Q) :
    ∃ t, P.current_token = some t ∧ t.type ≠ .TOKEN_EOF := by
  cases hc : P.current_token with
  | none =>
    exfalso
    cases n with
    | zero => rw [parse_statement] at h; cases h
    | succ n =>
      rw [parse_statement] at h
      dsimp only at h
      simp only [with_current, hc] at h
      split_ifs at h
      cases h
  | some t =>
    refine ⟨t, rfl, fun ht => ?_⟩
    obtain ⟨Q', hQ'⟩ := parse_statement_fails_at_eof n P t hc ht
    have hadd := all_fuel_add.parse_statement n 22 P (by rw [h]; exact halts_ret _ _)
    rw [hQ', h] at hadd
    cases hadd

/-- C36, amended (parser progress; the depth of the calls). A call of
`parse_statement` that returns success started at a token other than `EOF` and
has consumed at least one token: it returns in the entry state advanced by
`j + 1` calls of `parser_advance`, for some `j`. The lexer offset does not
decrease; it is strictly larger than before when the lexer had bytes left to
read, and otherwise the current token on return is the `EOF` token, which ends
the loops of `parse_statement_list` and of the switch-case body. The measure
`remaining` (twice the unread bytes of the lexer, plus one unless the current
token is `EOF`) is lowered by every `parser_advance` until it is 0, and is
strictly smaller after a successful statement, so no loop runs forever. The
run of `parse_statement_list` from a state `P` needs no more than
`64 * remaining P + 63` nested calls and the run of `parse_javascript_string` on
a source of `n` bytes no more than `128 * n + 127`: with a stack that holds
them the run ends by a return or at a NULL dereference, with the same outcome
for any larger stack. The depth of the calls has no bound that is independent
of the input: the program of `n` nested parentheses needs more than
`20 * n + 22` nested calls. So on the stack of the C program, which is finite,
validation does not terminate normally on every input: on deeply nested input
it ends in a stack overflow. -/
theorem statement_consumes_a_token :
    (∀ n P Q, parse_statement n P = .ret true Q →
      (∃ t, P.current_token = some t ∧ t.type ≠ .TOKEN_EOF) ∧
      (∃ j, Q = advance_times (j + 1) P) ∧
      P.lexer.current ≤ Q.lexer.current ∧
      (P.lexer.current < P.lexer.source.length → P.lexer.current < Q.lexer.current) ∧
      (P.lexer.source.length ≤ P.lexer.current →
        Q.current_token.map (fun t => t.type) = some .TOKEN_EOF) ∧
      remaining Q < remaining P) ∧
    (∀ P, remaining (parser_advance P).2 ≤ remaining P - 1) ∧
    (∀ n P, 64 * remaining P + 63 ≤ n → parse_statement_list n P ≠ .out_of_fuel) ∧
    (∀ src k, parse_javascript_string (128 * src.length + 127 + k) src ≠ .out_of_fuel ∧
      parse_javascript_string (128 * src.length + 127 + k) src =
        parse_javascript_string (128 * src.length + 127) src) ∧
    (∀ n j, parse_javascript_string (20 * n + 22 - j) (nested_source n) = .out_of_fuel ∧
      parse_javascript_string n (nested_source n) = .out_of_fuel) := by
  refine ⟨fun n P Q h => ?_, remaining_advance, parse_statement_list_halts, fun src k => ?_,
    fun n j => ⟨nested_source_starves n _ (Nat.sub_le _ _),
      nested_source_starves n n (by omega)⟩⟩
  · obtain ⟨j, hj⟩ := (parse_statement_consumes n P).reach Q h
    obtain ⟨t, hc, hne⟩ := statement_success_not_eof n P Q h
    refine ⟨⟨t, hc, hne⟩, ⟨j, hj⟩, ?_, ?_, ?_, ?_⟩
    · rw [hj]
      exact (advance_times_lexer (j + 1) P).mono.2.1
    · rw [hj]
      exact (advance_times_progress j P).1
    · intro hend
      rw [hj]
      exact ((advance_times_progress j P).2 hend).1
    · have h1 := remaining_consumed j P
      have h2 := remaining_pos_of_current hc hne
      rw [hj]
      omega
  · exact ⟨parse_javascript_string_halts src k,
      parse_javascript_string_ends _ k src (parse_javascript_string_halts src 0)⟩

theorem statement_consumes_a_token_witness :
    (∃ j, advance_times 2 (parser_create (lexer_create (cstr "x; y") (some zeroed_error))) =
      advance_times (j + 1) (parser_create (lexer_create (cstr "x; y") (some zeroed_error)))) ∧
    (parser_create (lexer_create (cstr "x; y") (some zeroed_error))).lexer.current ≤
      (advance_times 2 (parser_create (lexer_create (cstr "x; y")
        (some zeroed_error)))).lexer.current ∧
    parse_statement_list 511 (parser_create (lexer_create (cstr "x; y") (some zeroed_error))) ≠
      .out_of_fuel :=
  ⟨(statement_consumes_a_token.1 23
      (parser_create (lexer_create (cstr "x; y") (some zeroed_error)))
      (advance_times 2 (parser_create (lexer_create (cstr "x; y") (some zeroed_error))))
      (by decide)).2.1,
   (statement_consumes_a_token.1 23
      (parser_create (lexer_create (cstr "x; y") (some zeroed_error)))
      (advance_times 2 (parser_create (lexer_create (cstr "x; y") (some zeroed_error))))
      (by decide)).2.2.1,
   statement_consumes_a_token.2.2.1 511
      (parser_create (lexer_create (cstr "x; y") (some zeroed_error))) (by decide)⟩

/-! ## A semicolon written where one is inserted

The tokenizer on a source and on the source with a `;` written at an offset:
behind the `;` the two runs read the same bytes. The lemmas carry the
relation `Aligned` through every function of the tokenizer. -/

theorem getD_drop_zero (l : List Nat) (a k : Nat) : (l.drop a).getD k 0 = l.getD (a + k) 0 := by
  simp [List.getD_eq_getElem?_getD, List.getElem?_drop]

theorem Aligned.getD_eq {a a' : Nat} {L L' : Lexer} (h : Aligned a a' L L') (i : Nat)
    (hi : a ≤ i) : L.source.getD i 0 = L'.source.getD (i - a + a') 0 := by
  have h1 := getD_drop_zero L.source a (i - a)
  have h2 := getD_drop_zero L'.source a' (i - a)
  rw [h.tail] at h1
  rw [show a + (i - a) = i by omega] at h1
  rw [show a' + (i - a) = i - a + a' by omega] at h2
  rw [← h1, h2]

theorem Aligned.length_eq {a a' : Nat} {L L' : Lexer} (h : Aligned a a' L L') :
    L.source.length - a = L'.source.length - a' := by
  have := congrArg List.length h.tail
  simpa [List.length_drop] using this

theorem Aligned.lt_iff {a a' : Nat} {L L' : Lexer} (h : Aligned a a' L L') :
    L.current < L.source_length ↔ L'.current < L'.source_length := by
  have h1 := h.length_eq
  have h2 := h.le
  have h3 := h.cursor
  unfold Lexer.source_length
  omega

theorem Aligned.peek_agree {a a' : Nat} {L L' : Lexer} (h : Aligned a a' L L') (k : Nat) :
    peek L k = peek L' k := by
  rw [JSC.peek_eq, JSC.peek_eq, h.getD_eq _ (by have := h.le; omega), h.cursor]
  congr 1
  have := h.le
  omega

theorem advance_aligned {a a' : Nat} {L L' : Lexer} (h : Aligned a a' L L') :
    (advance L).1 = (advance L').1 ∧ Aligned a a' (advance L).2 (advance L').2 := by
  have hl := h.lt_iff
  have h0 : L.source.getD L.current 0 = L'.source.getD L'.current 0 := by
    have := h.peek_agree 0
    rwa [JSC.peek_eq, JSC.peek_eq] at this
  have h1 : L.source.getD (L.current + 1) 0 = L'.source.getD (L'.current + 1) 0 := by
    have := h.peek_agree 1
    rwa [JSC.peek_eq, JSC.peek_eq] at this
  have hle := h.le
  have hc := h.cursor
  unfold advance
  unfold Lexer.source_length at hl ⊢
  by_cases hlt : L.current < L.source.length
  · have hlt' := hl.1 hlt
    have hn : ¬ L.current ≥ L.source.length := by omega
    have hn' : ¬ L'.current ≥ L'.source.length := by omega
    rw [if_neg hn, if_neg hn']
    simp only [JSC.peek_eq, Nat.add_zero]
    rw [← h0, ← h1]
    split_ifs
    all_goals refine ⟨by dsimp only, ⟨h.tail, ?_, ?_, ?_⟩⟩
    all_goals first | rfl | exact h.flag | (dsimp only; omega)
  · have hlt' : ¬ L'.current < L'.source.length := fun c => hlt (hl.2 c)
    rw [if_pos (by omega), if_pos (by omega)]
    exact ⟨rfl, h⟩


theorem Aligned.adv {a a' : Nat} {L L' : Lexer} (h : Aligned a a' L L') :
    Aligned a a' (advance L).2 (advance L').2 := (advance_aligned h).2

end JSC
